import Mathlib

/-!
# NetSurf box-tree construction (`render/box_construct.c`)

A shallow embedding of the conversion of an XML tree into a box tree, and the
properties of it that the specification states.

Conventions of the embedding:

* a C string is the list of its `char`s before the terminating NUL (`cstr`);
  a pointer into a string is the offset from its start;
* a pointer to a heap object (`struct box *`, `struct css_style *`,
  `struct form_control *`) is the index of the object in the arena of its
  kind, held in `content`; `NULL` is `none`;
* a function that returns `false`/`0` on memory exhaustion returns `none`
  (or `false`) in the embedding.
-/

namespace NetSurf

/-! ## C library -/

/-- A C string: the chars before the terminating NUL. -/
abbrev cstr := List Char

/-- The apostrophe character. -/
def APOS : Char := Char.ofNat 39

/-- The double-quote character. -/
def QUOT : Char := Char.ofNat 34

/-- `isspace` in the C locale: space, `\t`, `\n`, `\v`, `\f`, `\r`. -/
def isspace (c : Char) : Bool :=
  c.toNat == 32 || (9 ≤ c.toNat && c.toNat ≤ 13)

/-- `isdigit`. -/
def isdigit (c : Char) : Bool :=
  48 ≤ c.toNat && c.toNat ≤ 57

/-- `isxdigit`. -/
def isxdigit (c : Char) : Bool :=
  isdigit c || (97 ≤ c.toNat && c.toNat ≤ 102) || (65 ≤ c.toNat && c.toNat ≤ 70)

/-- `isalpha` in the C locale. -/
def isalpha (c : Char) : Bool :=
  (97 ≤ c.toNat && c.toNat ≤ 122) || (65 ≤ c.toNat && c.toNat ≤ 90)

/-- `tolower` in the C locale. -/
def tolower (c : Char) : Char :=
  if 65 ≤ c.toNat && c.toNat ≤ 90 then Char.ofNat (c.toNat + 32) else c

/-- `toupper` in the C locale. -/
def toupper (c : Char) : Char :=
  if 97 ≤ c.toNat && c.toNat ≤ 122 then Char.ofNat (c.toNat - 32) else c

/-- The value of a digit in bases up to 16 (`0` for any other char). -/
def digit_value (c : Char) : Nat :=
  if isdigit c then c.toNat - 48
  else if 97 ≤ c.toNat && c.toNat ≤ 102 then c.toNat - 87
  else if 65 ≤ c.toNat && c.toNat ≤ 70 then c.toNat - 55
  else 0

/-- The number denoted by a run of digits in the given base. -/
def digits_value (base : Nat) (ds : cstr) : Nat :=
  ds.foldl (fun a d => a * base + digit_value d) 0

/-- `strchr(s, c)`: the offset of the first `c` in `s`, `none` for `NULL`. -/
def strchr : cstr → Char → Option Nat
  | [], _ => none
  | x :: xs, c => if x == c then some 0 else (strchr xs c).map (· + 1)

/-- `strrchr(s, c) != NULL`: `c` occurs in `s`. -/
def strrchr_found (s : cstr) (c : Char) : Bool :=
  s.any (· == c)

/-- `strncmp(a, b, n) == 0`. -/
def strncmp_eq : cstr → cstr → Nat → Bool
  | _, _, 0 => true
  | [], [], _ + 1 => true
  | a :: as, b :: bs, n + 1 => a == b && strncmp_eq as bs n
  | _, _, _ + 1 => false

/-- `strcasecmp(a, b) == 0`. -/
def strcasecmp_eq (a b : cstr) : Bool :=
  a.map tolower == b.map tolower

/-- `strcmp(a, b)`: negative, zero or positive, comparing chars as
`unsigned char`. -/
def strcmp : cstr → cstr → Int
  | [], [] => 0
  | [], _ :: _ => -1
  | _ :: _, [] => 1
  | a :: as, b :: bs =>
    if a.toNat < b.toNat then -1
    else if b.toNat < a.toNat then 1
    else strcmp as bs

/-- `strcspn(s, "\r\n")`: the length of the initial part of `s` without line
terminators. -/
def strcspn_crlf (s : cstr) : Nat :=
  (s.takeWhile (fun c => !(c.toNat == 13 || c.toNat == 10))).length

/-- The number of binary digits of `n` (`0` for `0`): `n` is halved until it
is zero, at most `fuel` times. -/
def bit_length : Nat → Nat → Nat
  | 0, _ => 0
  | fuel + 1, n => if n = 0 then 0 else bit_length fuel (n / 2) + 1

/-- The value of a C `float` or `double`, as far as the code inspects it: a
finite value is the quotient `num / den` (the conversions `cfloat.round`,
`strtof`, `strtod` and `cfloat.ofInt` yield values of the binary format), and
the two special kinds IEEE 754 arithmetic has are kept apart, because
comparisons treat them differently. The sign of a zero is not kept. -/
inductive cfloat where
  | nan : cfloat
  | inf (neg : Bool) : cfloat
  | fin (num : Int) (den : Nat) : cfloat
deriving DecidableEq, Repr

namespace cfloat

/-- The test `2 ^ e ≤ n / d`, for `d` positive. -/
def ge_pow2 (n d : Nat) (e : Int) : Bool :=
  if 0 ≤ e then decide (d * 2 ^ e.toNat ≤ n) else decide (d ≤ n * 2 ^ (-e).toNat)

/-- The integer nearest to `n / d`, for `d` positive; the even one of the two
when `n / d` is half-way between two integers (round to nearest, ties to
even). -/
def round_half_even (n d : Nat) : Nat :=
  let q := n / d
  let r := n % d
  if 2 * r < d then q
  else if d < 2 * r then q + 1
  else if q % 2 = 0 then q else q + 1

/-- The value that the conversion of `num / den` to the binary floating-point
format with `p` digits of precision and the exponents `emin` to `emax` gives
in the default rounding mode of IEEE 754 (to nearest, ties to even): below
the least normal number the results are subnormal numbers or zero, and a
result beyond the greatest finite number is an infinity. A value that the
format has is returned as it is written. -/
def round (p : Nat) (emin emax : Int) : cfloat → cfloat
  | nan => nan
  | inf neg => inf neg
  | fin num den =>
    if num = 0 ∨ den = 0 then fin num den
    else
      let n := num.natAbs
      let e1 : Int := (bit_length n n : Int) - (bit_length den den : Int)
      /- 2 ^ e ≤ n / den < 2 ^ (e + 1) -/
      let e := if ge_pow2 n den e1 then e1 else e1 - 1
      /- the exponent of the unit in the last place -/
      let t := max e emin - ((p : Int) - 1)
      let k :=
        if 0 ≤ t then round_half_even n (den * 2 ^ t.toNat)
        else round_half_even (n * 2 ^ (-t).toNat) den
      /- 2 ^ (emax + 1) ≤ k * 2 ^ t -/
      if emax + 1 - t < (bit_length k k : Int) then inf (decide (num < 0))
      else if (if 0 ≤ t then k * 2 ^ t.toNat * den = n else k * den = n * 2 ^ (-t).toNat) then
        fin num den
      else if k = 0 then fin 0 1
      else if 0 ≤ t then fin ((if num < 0 then -(k : Int) else k) * 2 ^ t.toNat) 1
      else fin (if num < 0 then -(k : Int) else k) (2 ^ (-t).toNat)

/-- The conversion of a value to `float` (IEEE 754 binary32). -/
def to_float (x : cfloat) : cfloat := round 24 (-126) 127 x

/-- The conversion of a value to `double` (IEEE 754 binary64). -/
def to_double (x : cfloat) : cfloat := round 53 (-1022) 1023 x

/-- The conversion of a `float` to `int`, as `(int) x`: the fractional part is
discarded. The C standard leaves the conversion undefined when the integral
part is not a value of `int` (also for an infinity or a NaN); the result is
then taken to be `INT_MIN`, which the conversion instruction of x86
processors gives. -/
def to_int : cfloat → Int
  | nan => -2147483648
  | inf _ => -2147483648
  | fin num den =>
    let i := Int.tdiv num den
    if -2147483648 ≤ i ∧ i ≤ 2147483647 then i else -2147483648

/-- The float of an integer, as `(float) i`. -/
def ofInt (i : Int) : cfloat := to_float (fin i 1)

/-- C `x <= 0` on floats: false for a NaN. -/
def le_zero : cfloat → Bool
  | nan => false
  | inf neg => neg
  | fin num _ => decide (num ≤ 0)

/-- C `x < 0` on floats: false for a NaN. -/
def lt_zero : cfloat → Bool
  | nan => false
  | inf neg => neg
  | fin num den => decide (num < 0) && den != 0

/-- C `0 < x` on floats: false for a NaN. -/
def pos : cfloat → Bool
  | nan => false
  | inf neg => !neg
  | fin num _ => decide (0 < num)

end cfloat

/-- The sign of a numeral: whether it starts with `-`, and the rest after an
optional sign. -/
def strtof_sign (t : cstr) : Bool × cstr :=
  match t with
  | c :: r => (c.toNat == 45, if c.toNat == 45 || c.toNat == 43 then r else t)
  | [] => (false, t)

/-- The exponent part of a decimal or hexadecimal floating constant: the
marker char (`e`/`E` or `p`/`P`, given lower-case), an optional sign and a
non-empty run of decimal digits. Returns the exponent and the rest; when the
part is not well-formed nothing is consumed. -/
def strtof_exponent (marker : Char) (s : cstr) : Int × cstr :=
  match s with
  | [] => (0, s)
  | m :: r =>
    if tolower m == marker then
      let neg := (strtof_sign r).1
      let r1 := (strtof_sign r).2
      let ds := r1.takeWhile isdigit
      if ds.isEmpty then (0, s)
      else
        let e : Int := digits_value 10 ds
        (if neg then -e else e, r1.dropWhile isdigit)
    else (0, s)

/-- The float `mant * base ^ exp`, sign applied. -/
def strtof_scale (neg : Bool) (mant : Nat) (base : Nat) (exp : Int) : cfloat :=
  let m : Int := if neg then -(mant : Int) else mant
  if 0 ≤ exp then cfloat.fin (m * (base : Int) ^ exp.toNat) 1
  else cfloat.fin m (base ^ (-exp).toNat)

/-- The end of a `NAN` with an optional `(n-char-sequence)`; `r` follows the
three letters. -/
def strtof_nan (r : cstr) : cstr :=
  match r with
  | c :: r1 =>
    if c.toNat == 40 then
      match r1.dropWhile (fun x => isdigit x || isalpha x || x.toNat == 95) with
      | d :: r2 => if d.toNat == 41 then r2 else r
      | [] => r
    else r
  | [] => r

/-- The digits of a floating constant, `digit` telling what a digit is: the
digits before the point, the digits after it, and the rest. -/
def strtof_digits (digit : Char → Bool) (u : cstr) : cstr × cstr × cstr :=
  match u.dropWhile digit with
  | c :: r =>
    if c.toNat == 46 then (u.takeWhile digit, r.takeWhile digit, r.dropWhile digit)
    else (u.takeWhile digit, [], c :: r)
  | [] => (u.takeWhile digit, [], [])

/-- The subject sequence of `strtof(s, &end)` and `strtod(s, &end)` as C99
7.20.1.3 defines it: optional white space, an optional sign, then a decimal
floating constant, a hexadecimal one, `INF`/`INFINITY`, or `NAN` with an
optional `(n-char-sequence)`, letters in any case. Returns the exact value of
the sequence and `end` (as the rest of the string); when no conversion can be
performed the value is zero and `end` is `s`. -/
def strtof_exact (s : cstr) : cfloat × cstr :=
  let neg := (strtof_sign (s.dropWhile isspace)).1
  let u := (strtof_sign (s.dropWhile isspace)).2
  let lu := u.map tolower
  if strncmp_eq lu "infinity".toList 8 then (cfloat.inf neg, u.drop 8)
  else if strncmp_eq lu "inf".toList 3 then (cfloat.inf neg, u.drop 3)
  else if strncmp_eq lu "nan".toList 3 then (cfloat.nan, strtof_nan (u.drop 3))
  else
    let hex := strtof_digits isxdigit (u.drop 2)
    if strncmp_eq lu "0x".toList 2 && !(hex.1.isEmpty && hex.2.1.isEmpty) then
      let e := strtof_exponent 'p' hex.2.2
      (strtof_scale neg (digits_value 16 (hex.1 ++ hex.2.1)) 2 (e.1 - 4 * hex.2.1.length), e.2)
    else
      let dec := strtof_digits isdigit u
      if dec.1.isEmpty && dec.2.1.isEmpty then (cfloat.fin 0 1, s)
      else
        let e := strtof_exponent 'e' dec.2.2
        (strtof_scale neg (digits_value 10 (dec.1 ++ dec.2.1)) 10 (e.1 - dec.2.1.length), e.2)

/-- `strtof(s, &end)`: the value of the subject sequence, correctly rounded to
`float`, and `end`. -/
def strtof (s : cstr) : cfloat × cstr :=
  ((strtof_exact s).1.to_float, (strtof_exact s).2)

/-- `strtod(s, &end)`: the value of the subject sequence, correctly rounded to
`double`, and `end`. -/
def strtod (s : cstr) : cfloat × cstr :=
  ((strtof_exact s).1.to_double, (strtof_exact s).2)

/-! ## Types of the CSS module used by the box constructor -/

/-- The `display` values, in the order of `css_enums` that `box_map` is kept
in sync with. -/
inductive css_display where
  | CSS_DISPLAY_INHERIT
  | CSS_DISPLAY_INLINE
  | CSS_DISPLAY_BLOCK
  | CSS_DISPLAY_LIST_ITEM
  | CSS_DISPLAY_RUN_IN
  | CSS_DISPLAY_INLINE_BLOCK
  | CSS_DISPLAY_TABLE
  | CSS_DISPLAY_INLINE_TABLE
  | CSS_DISPLAY_TABLE_ROW_GROUP
  | CSS_DISPLAY_TABLE_HEADER_GROUP
  | CSS_DISPLAY_TABLE_FOOTER_GROUP
  | CSS_DISPLAY_TABLE_ROW
  | CSS_DISPLAY_TABLE_COLUMN_GROUP
  | CSS_DISPLAY_TABLE_COLUMN
  | CSS_DISPLAY_TABLE_CELL
  | CSS_DISPLAY_TABLE_CAPTION
  | CSS_DISPLAY_NONE
deriving DecidableEq, Repr

/-- The `position` values. -/
inductive css_position where
  | CSS_POSITION_INHERIT
  | CSS_POSITION_STATIC
  | CSS_POSITION_RELATIVE
  | CSS_POSITION_ABSOLUTE
  | CSS_POSITION_FIXED
deriving DecidableEq, Repr

/-- The `float` values. -/
inductive css_float where
  | CSS_FLOAT_INHERIT
  | CSS_FLOAT_NONE
  | CSS_FLOAT_LEFT
  | CSS_FLOAT_RIGHT
deriving DecidableEq, Repr

/-- The `white-space` values. -/
inductive css_white_space where
  | CSS_WHITE_SPACE_INHERIT
  | CSS_WHITE_SPACE_NORMAL
  | CSS_WHITE_SPACE_NOWRAP
  | CSS_WHITE_SPACE_PRE
  | CSS_WHITE_SPACE_PRE_WRAP
  | CSS_WHITE_SPACE_PRE_LINE
deriving DecidableEq, Repr

/-- The `text-transform` values. -/
inductive css_text_transform where
  | CSS_TEXT_TRANSFORM_INHERIT
  | CSS_TEXT_TRANSFORM_NONE
  | CSS_TEXT_TRANSFORM_CAPITALIZE
  | CSS_TEXT_TRANSFORM_LOWERCASE
  | CSS_TEXT_TRANSFORM_UPPERCASE
deriving DecidableEq, Repr

/-- Length units. -/
inductive css_unit where
  | CSS_UNIT_EM
  | CSS_UNIT_EX
  | CSS_UNIT_PX
  | CSS_UNIT_PT
  | CSS_UNIT_PCT
deriving DecidableEq, Repr

/-- A length: value and unit. -/
structure css_length where
  value : cfloat
  unit : css_unit
deriving DecidableEq, Repr

/-- The kinds of a `background-image` value. -/
inductive css_background_image_type where
  | CSS_BACKGROUND_IMAGE_INHERIT
  | CSS_BACKGROUND_IMAGE_NONE
  | CSS_BACKGROUND_IMAGE_URI
deriving DecidableEq, Repr

/-- The `background_image` member of `struct css_style`. -/
structure css_background_image where
  type : css_background_image_type
  uri : Option cstr
deriving DecidableEq, Repr

/-- The kinds of a `height` value. -/
inductive css_height_kind where
  | CSS_HEIGHT_INHERIT
  | CSS_HEIGHT_AUTO
  | CSS_HEIGHT_LENGTH
deriving DecidableEq, Repr

/-- The `height` member of `struct css_style`. -/
structure css_height where
  height : css_height_kind
  length : css_length
deriving DecidableEq, Repr

/-- The kinds of a `width` value. -/
inductive css_width_kind where
  | CSS_WIDTH_INHERIT
  | CSS_WIDTH_AUTO
  | CSS_WIDTH_LENGTH
  | CSS_WIDTH_PERCENT
deriving DecidableEq, Repr

/-- The `width` member of `struct css_style`; the two members of the C union
`value` are kept side by side. -/
structure css_width where
  width : css_width_kind
  length : css_length
  percent : cfloat
deriving DecidableEq, Repr

/-- The kinds of a `border-spacing` value. -/
inductive css_border_spacing_kind where
  | CSS_BORDER_SPACING_INHERIT
  | CSS_BORDER_SPACING_LENGTH
deriving DecidableEq, Repr

/-- The `border_spacing` member of `struct css_style`. -/
structure css_border_spacing where
  border_spacing : css_border_spacing_kind
  horz : css_length
  vert : css_length
deriving DecidableEq, Repr

/-- The kinds of a `margin` value. -/
inductive css_margin_kind where
  | CSS_MARGIN_INHERIT
  | CSS_MARGIN_LENGTH
  | CSS_MARGIN_PERCENT
  | CSS_MARGIN_AUTO
deriving DecidableEq, Repr

/-- One entry of the `margin` member of `struct css_style`. -/
structure css_margin where
  margin : css_margin_kind
  length : css_length
deriving DecidableEq, Repr

/-- The kinds of a `padding` value. -/
inductive css_padding_kind where
  | CSS_PADDING_INHERIT
  | CSS_PADDING_LENGTH
  | CSS_PADDING_PERCENT
deriving DecidableEq, Repr

/-- One entry of the `padding` member of `struct css_style`. -/
structure css_padding where
  padding : css_padding_kind
  length : css_length
deriving DecidableEq, Repr

/-- The `border-style` values. -/
inductive css_border_style where
  | CSS_BORDER_STYLE_INHERIT
  | CSS_BORDER_STYLE_NONE
  | CSS_BORDER_STYLE_HIDDEN
  | CSS_BORDER_STYLE_DOTTED
  | CSS_BORDER_STYLE_DASHED
  | CSS_BORDER_STYLE_SOLID
  | CSS_BORDER_STYLE_DOUBLE
  | CSS_BORDER_STYLE_GROOVE
  | CSS_BORDER_STYLE_RIDGE
  | CSS_BORDER_STYLE_INSET
  | CSS_BORDER_STYLE_OUTSET
deriving DecidableEq, Repr

/-- The kinds of a `border-width` value. -/
inductive css_border_width_kind where
  | CSS_BORDER_WIDTH_INHERIT
  | CSS_BORDER_WIDTH_LENGTH
deriving DecidableEq, Repr

/-- One entry of the `border` member of `struct css_style`. -/
structure css_border where
  color : Nat
  width : css_border_width_kind
  width_value : css_length
  style : css_border_style
deriving DecidableEq, Repr

/-- The `overflow` values. -/
inductive css_overflow where
  | CSS_OVERFLOW_INHERIT
  | CSS_OVERFLOW_VISIBLE
  | CSS_OVERFLOW_HIDDEN
  | CSS_OVERFLOW_SCROLL
  | CSS_OVERFLOW_AUTO
deriving DecidableEq, Repr

/-- A C array of four entries indexed by `TOP`, `RIGHT`, `BOTTOM`, `LEFT`. -/
structure sides (α : Type) where
  top : α
  right : α
  bottom : α
  left : α
deriving DecidableEq, Repr

/-- A colour, `0xBBGGRR`. -/
abbrev colour := Nat

/-- The colour value `TRANSPARENT` of the CSS module. -/
def TRANSPARENT : colour := 0x1000000

/-- The members of `struct css_style` that the box constructor reads or
writes. -/
structure css_style where
  background_color : colour
  background_image : css_background_image
  border : sides css_border
  border_spacing : css_border_spacing
  color : colour
  display : css_display
  float_ : css_float
  font_size : cfloat
  font_family : Nat
  height : css_height
  margin : sides css_margin
  overflow : css_overflow
  padding : sides css_padding
  position : css_position
  text_transform : css_text_transform
  white_space : css_white_space
  width : css_width
deriving DecidableEq, Repr

open css_display css_position css_float css_white_space css_text_transform
open css_unit css_background_image_type css_height_kind css_width_kind
open css_border_spacing_kind css_margin_kind css_padding_kind css_border_style
open css_border_width_kind css_overflow

/-! ## Display resolution -/

/-- The table of CSS 2.1 9.7 in `box_solve_display`: map specified value to
computed value. -/
def box_solve_display_table (display : css_display) : css_display :=
  if display = CSS_DISPLAY_INLINE_TABLE then
    CSS_DISPLAY_TABLE
  else if display = CSS_DISPLAY_LIST_ITEM ∨ display = CSS_DISPLAY_TABLE then
    display /- same as specified -/
  else
    CSS_DISPLAY_BLOCK

/-- `box_solve_display`: calculate `display` based on `display`, `position`
and `float`, as given by CSS 2.1 9.7. The style is updated in place in C; here
the updated style is returned. -/
def box_solve_display (style : css_style) (root : Bool) : css_style :=
  if style.display = CSS_DISPLAY_NONE then            /- 1. -/
    style
  else if style.position = CSS_POSITION_ABSOLUTE ∨
      style.position = CSS_POSITION_FIXED then        /- 2. -/
    { style with float_ := CSS_FLOAT_NONE,
                 display := box_solve_display_table style.display }
  else if style.float_ ≠ CSS_FLOAT_NONE then          /- 3. -/
    { style with display := box_solve_display_table style.display }
  else if root then                                   /- 4. -/
    { style with display := box_solve_display_table style.display }
  else                                                /- 5. -/
    style

/-! ## Link extraction -/

/-- The result of `url_join`.

Modelled from the spec: `url_join` (utils/url.c) is not part of the sources at
hand; the spec gives URL resolution the three outcomes
`ResolvedURL | Failed | OutOfMemory`, the URL being delivered only with the
first. -/
inductive url_func_result where
  | URL_FUNC_OK (url : cstr)
  | URL_FUNC_FAILED
  | URL_FUNC_NOMEM
deriving DecidableEq, Repr

open url_func_result

/-- The first loop of `box_extract_link`:
`for (i = 0; rel[i] && isspace(rel[i]); i++)`; returns `i`. -/
def box_extract_link_start : cstr → Nat
  | [] => 0
  | c :: cs => if isspace c then box_extract_link_start cs + 1 else 0

/-- The second loop of `box_extract_link`:
`for (end = strlen(rel); end != i && isspace(rel[end - 1]); end--)`, entered
with `end` as given; returns `end`. -/
def box_extract_link_end (rel : cstr) (i : Nat) : Nat → Nat
  | 0 => 0
  | e + 1 =>
    if e + 1 != i && (match rel[e]? with
        | some c => isspace c
        | none => false) then
      box_extract_link_end rel i e
    else e + 1

/-- The third loop of `box_extract_link`, over the chars `rel[i]` for `i` up
to `end`: copy to `s`, removing control characters and writing a space as
`%20`. -/
def box_extract_link_copy : cstr → cstr
  | [] => []
  | c :: cs =>
    if c.toNat < 0x20 then
      box_extract_link_copy cs /- skip control characters -/
    else if c.toNat == 32 then
      '%' :: '2' :: '0' :: box_extract_link_copy cs
    else
      c :: box_extract_link_copy cs

/-- The string `s` that `box_extract_link` builds from `rel`. -/
def box_extract_link_s (rel : cstr) : cstr :=
  let i := box_extract_link_start rel
  let e := box_extract_link_end rel i rel.length
  box_extract_link_copy ((rel.take e).drop i)

/-- Pointer comparison `p < q` of two non-null pointers into one string. -/
def ptr_lt : Option Nat → Option Nat → Bool
  | some a, some b => decide (a < b)
  | _, _ => false

/-- The string at `p0 + 1` once a NUL has been written at `p1`. -/
def cut_string (s : cstr) : Option Nat → Option Nat → cstr
  | some p0, some p1 => (s.take p1).drop (p0 + 1)
  | _, _ => s

/-- `strchr(p + 1, c)` for a pointer `p` into `s`, as an offset into `s`. -/
def strchr_after (s : cstr) (p : Nat) (c : Char) : Option Nat :=
  (strchr (s.drop (p + 1)) c).map (· + (p + 1))

/-- The string `s1` that `box_extract_link` hands to `url_join`, from `s`:
extract first quoted string out of "javascript:" link. -/
def box_extract_link_s1 (s : cstr) : cstr :=
  if strncmp_eq s "javascript:".toList 11 then
    let apos0 := strchr s APOS
    let apos1 := match apos0 with
      | some a => strchr_after s a APOS
      | none => none
    let quot0 := strchr s QUOT
    let quot1 := match quot0 with
      | some q => strchr_after s q QUOT
      | none => none
    if apos0.isSome && apos1.isSome &&
        (quot0.isNone || quot1.isNone || ptr_lt apos0 quot0) then
      cut_string s apos0 apos1
    else if quot0.isSome && quot1.isSome then
      cut_string s quot0 quot1
    else s
  else s

/-- `box_extract_link`: extract a URL from a relative link, handling junk like
whitespace and attempting to read a real URL from "javascript:" links.
`malloc n` tells whether allocating `n` bytes succeeds, `result` is `*result`
on entry; returns the return value and `*result` on exit. -/
def box_extract_link (malloc : Nat → Bool) (url_join : cstr → cstr → url_func_result)
    (rel base : cstr) (result : Option cstr) : Bool × Option cstr :=
  if !malloc (3 * rel.length + 1) then (false, result)
  else
    let s := box_extract_link_s rel
    let s1 := box_extract_link_s1 s
    /- construct absolute URL -/
    match url_join s1 base with
    | URL_FUNC_NOMEM => (false, result)
    | URL_FUNC_FAILED => (true, result)
    | URL_FUNC_OK url => (true, some url)

/-! ## Multi-length lists -/

/-- The kinds of a MultiLength. -/
inductive multi_length_type where
  | LENGTH_PX
  | LENGTH_PERCENT
  | LENGTH_RELATIVE
deriving DecidableEq, Repr

open multi_length_type

/-- MultiLength, as defined by HTML 4.01. -/
structure box_multi_length where
  type : multi_length_type
  value : cfloat
deriving DecidableEq, Repr

/-- The counting loop of `box_parse_multi_lengths`:
`for (i = 0, n = 1; s[i]; i++) if (s[i] == ',') n++;`, entered with `n` as
given; returns `n`. -/
def box_parse_multi_lengths_count : cstr → Nat → Nat
  | [], n => n
  | c :: cs, n => box_parse_multi_lengths_count cs (if c.toNat == 44 then n + 1 else n)

/-- The parsing loop of `box_parse_multi_lengths`, with `n - i` entries still
to fill and `s` the rest of the string; returns the entries `length[i..n)`. -/
def box_parse_multi_lengths_loop : Nat → cstr → List box_multi_length
  | 0, _ => []
  | k + 1, s =>
    let s := s.dropWhile isspace
    let value := (strtof s).1
    let value := if value.le_zero then cfloat.ofInt 1 else value
    let s := (strtof s).2
    let type := match s with
      | c :: _ =>
        if c.toNat == 37 then LENGTH_PERCENT
        else if c.toNat == 42 then LENGTH_RELATIVE
        else LENGTH_PX
      | [] => LENGTH_PX
    let s := s.dropWhile (fun c => c.toNat != 44)
    let s := match s with
      | c :: r => if c.toNat == 44 then r else s
      | [] => s
    { type := type, value := value } :: box_parse_multi_lengths_loop k s

/-- `box_parse_multi_lengths`: parse a multi-length-list, as defined by HTML
4.01. Returns the array; `*count` is its length. (The `talloc_array` of the
result is taken to succeed.) -/
def box_parse_multi_lengths (s : cstr) : List box_multi_length :=
  box_parse_multi_lengths_loop (box_parse_multi_lengths_count s 1) s


/-! ## More of the C library -/

/-- `LONG_MAX`, `long` having 64 bits. -/
def LONG_MAX : Int := 9223372036854775807

/-- `LONG_MIN`, `long` having 64 bits. -/
def LONG_MIN : Int := -9223372036854775808

/-- The conversion of an integer to `int` (32 bits, two's complement), as
`(int) v`: the value modulo 2^32 in the range of `int`. -/
def int_of_long (v : Int) : Int :=
  (v + 2147483648) % 4294967296 - 2147483648

/-- The conversion of an integer to `unsigned int` (32 bits), as
`(unsigned int) v`: the value modulo 2^32. -/
def unsigned_of_long (v : Int) : Int :=
  v % 4294967296

/-- `strtol(s, &end, 10)`: optional white space, an optional sign and a run of
decimal digits; when there are no digits the value is 0 and `end` is `s`. A
value outside the range of `long` is returned as `LONG_MAX` or `LONG_MIN`. -/
def strtol (s : cstr) : Int × cstr :=
  let t := s.dropWhile isspace
  let neg := match t with
    | c :: _ => c.toNat == 45
    | [] => false
  let u := match t with
    | c :: r => if c.toNat == 45 || c.toNat == 43 then r else t
    | [] => t
  let ds := u.takeWhile isdigit
  if ds.isEmpty then (0, s)
  else
    let v : Int := digits_value 10 ds
    let v := if neg then -v else v
    (if LONG_MAX < v then LONG_MAX else if v < LONG_MIN then LONG_MIN else v,
      u.dropWhile isdigit)

/-- `atoi(s)`: `(int) strtol(s, NULL, 10)`. -/
def atoi (s : cstr) : Int := int_of_long (strtol s).1

/-- `atof(s)`: `strtod(s, NULL)`. -/
def atof (s : cstr) : cfloat := (strtod s).1

/-- One `%2x` conversion of `sscanf` into an `unsigned int`, as the GNU C
library performs it: after optional white space at most two chars are read,
in the form that `strtoul` expects with base 16: an optional sign, then
hexadecimal digits, a `0` followed by `x` being read as the prefix `0x` of a
number without further digits. Returns the value (negated modulo 2^32 after a
minus sign) and the rest, `none` when no digit is there. -/
def sscanf_2x (s : cstr) : Option (Nat × cstr) :=
  match s.dropWhile isspace with
  | a :: b :: r =>
    if a.toNat == 43 || a.toNat == 45 then
      if isxdigit b then
        some (if a.toNat == 45 then (4294967296 - digit_value b) % 4294967296
              else digit_value b, r)
      else none
    else if a.toNat == 48 && (b.toNat == 120 || b.toNat == 88) then some (0, r)
    else if isxdigit a && isxdigit b then some (digits_value 16 [a, b], r)
    else if isxdigit a then some (digit_value a, b :: r)
    else none
  | [a] => if isxdigit a then some (digit_value a, []) else none
  | [] => none

/-- `sscanf(s, "%2x%2x%2x", &r, &g, &b) == 3`, with the three values. -/
def sscanf_2x2x2x (s : cstr) : Option (Nat × Nat × Nat) :=
  match sscanf_2x s with
  | none => none
  | some (r, s1) =>
    match sscanf_2x s1 with
    | none => none
    | some (g, s2) =>
      match sscanf_2x s2 with
      | none => none
      | some (b, _) => some (r, g, b)

namespace cfloat

/-- C `x < y` on floats: false when either is a NaN. -/
def lt : cfloat → cfloat → Bool
  | nan, _ => false
  | _, nan => false
  | inf a, inf b => a && !b
  | inf a, fin _ _ => a
  | fin _ _, inf b => !b
  | fin a b, fin c d => decide (a * (d : Int) < c * (b : Int))

end cfloat

/-! ## The XML tree (libxml) -/

/-- The node types the box constructor tells apart. -/
inductive xmlElementType where
  | XML_ELEMENT_NODE
  | XML_TEXT_NODE
  | XML_COMMENT_NODE
deriving DecidableEq, Repr

open xmlElementType

/-- An `xmlNode *`: `null`, or a node with its type, name, whether it has a
parent (`n->parent != NULL`), its attributes (`n->properties`, each a name and
the content of its value node, if any), its text (`n->content`), and the
pointers `n->children` (first child) and `n->next` (next sibling). -/
inductive xmlNode where
  | null : xmlNode
  | node (type : xmlElementType) (name : cstr) (has_parent : Bool)
      (properties : List (cstr × Option cstr)) (content : cstr)
      (children : xmlNode) (next : xmlNode) : xmlNode
deriving DecidableEq, Repr

namespace xmlNode

/-- The field `n->type`. -/
def type : xmlNode → xmlElementType
  | null => XML_COMMENT_NODE
  | node t _ _ _ _ _ _ => t

/-- The field `n->name`. -/
def name : xmlNode → cstr
  | null => []
  | node _ nm _ _ _ _ _ => nm

/-- Whether `n->parent` is non-null. -/
def has_parent : xmlNode → Bool
  | null => false
  | node _ _ hp _ _ _ _ => hp

/-- The field `n->properties`. -/
def properties : xmlNode → List (cstr × Option cstr)
  | null => []
  | node _ _ _ ps _ _ _ => ps

/-- The field `n->content`. -/
def content : xmlNode → cstr
  | null => []
  | node _ _ _ _ c _ _ => c

/-- The field `n->children`. -/
def children : xmlNode → xmlNode
  | null => null
  | node _ _ _ _ _ ch _ => ch

/-- The field `n->next`. -/
def next : xmlNode → xmlNode
  | null => null
  | node _ _ _ _ _ _ nx => nx

/-- The test `n != NULL`. -/
def is_node : xmlNode → Bool
  | null => false
  | node _ _ _ _ _ _ _ => true

end xmlNode

/-- `xmlGetProp(n, name)`: the value of the attribute, `none` when the
attribute is absent (an attribute without a value node reads as the empty
string). -/
def xmlGetProp (n : xmlNode) (name : cstr) : Option cstr :=
  match n.properties.find? (fun p => p.1 == name) with
  | some p => some (p.2.getD [])
  | none => none

/-- `xmlHasProp(n, name) != NULL`. -/
def xmlHasProp (n : xmlNode) (name : cstr) : Bool :=
  (n.properties.find? (fun p => p.1 == name)).isSome

/-- The text of the node `c` and of its following siblings, in order:
text nodes give their content, elements the text of their children. -/
def xmlNodeListGetContent : xmlNode → cstr
  | .null => []
  | .node t _ _ _ content children next =>
    (match t with
      | XML_TEXT_NODE => content
      | XML_ELEMENT_NODE => xmlNodeListGetContent children
      | XML_COMMENT_NODE => []) ++ xmlNodeListGetContent next

/-- `xmlNodeGetContent(n)`: the text of an element is that of its
descendants, the text of any other node its content. -/
def xmlNodeGetContent (n : xmlNode) : cstr :=
  match n.type with
  | XML_ELEMENT_NODE => xmlNodeListGetContent n.children
  | _ => n.content

/-! ## Boxes, forms and the content -/

/-- Type of a `struct box`. -/
inductive box_type where
  | BOX_BLOCK
  | BOX_INLINE_CONTAINER
  | BOX_INLINE
  | BOX_TABLE
  | BOX_TABLE_ROW
  | BOX_TABLE_CELL
  | BOX_TABLE_ROW_GROUP
  | BOX_FLOAT_LEFT
  | BOX_FLOAT_RIGHT
  | BOX_INLINE_BLOCK
  | BOX_BR
  | BOX_TEXT
  | BOX_INLINE_END
deriving DecidableEq, Repr, Inhabited

open box_type

/-- A link target: one of the three sentinels `TARGET_SELF`, `TARGET_PARENT`,
`TARGET_TOP` (compared by pointer in C), or a frame name. -/
inductive frame_target where
  | TARGET_SELF
  | TARGET_PARENT
  | TARGET_TOP
  | named (name : cstr)
deriving DecidableEq, Repr

open frame_target

/-- How the width of a table column was given. -/
inductive column_type where
  | COLUMN_WIDTH_UNKNOWN
  | COLUMN_WIDTH_FIXED
  | COLUMN_WIDTH_AUTO
  | COLUMN_WIDTH_PERCENT
  | COLUMN_WIDTH_RELATIVE
deriving DecidableEq, Repr

open column_type

/-- Table column data (`struct column`). The width is kept as the float
assigned to it. -/
structure column where
  type : column_type
  width : cfloat
  min : Int
  max : Int
deriving DecidableEq, Repr

/-- One parameter of an object (`struct object_param`). -/
structure object_param where
  name : Option cstr
  value : Option cstr
  type : Option cstr
  valuetype : Option cstr
deriving DecidableEq, Repr

/-- Parameters of an object (`struct object_params`); `params` is the linked
list, head first. -/
structure object_params where
  data : Option cstr
  type : Option cstr
  codetype : Option cstr
  codebase : Option cstr
  classid : Option cstr
  params : List object_param
deriving DecidableEq, Repr

/-- Node in the box tree (`struct box`), with the members the box constructor
uses. `children` lists the children in order (the chain from `children` to
`last` through `next`); `fallback` likewise. `columns` and `rows` are
`unsigned int` members: they hold values from 0 to 2^32 - 1. -/
structure box where
  type : box_type
  style : Option Nat
  href : Option cstr
  target : Option frame_target
  title : Option cstr
  id : Option cstr
  parent : Option Nat
  prev : Option Nat
  children : List Nat
  fallback : List Nat
  inline_end : Option Nat
  text : Option cstr
  length : Nat
  space : Bool
  usemap : Option cstr
  gadget : Option Nat
  object_params : Option object_params
  columns : Int
  rows : Int
  min_width : Int
  max_width : Int
  col : List column
deriving DecidableEq, Repr

/-- Form submit method. -/
inductive form_method where
  | method_GET
  | method_POST_URLENC
  | method_POST_MULTIPART
deriving DecidableEq, Repr

open form_method

/-- HTML form (`struct form`). -/
structure form where
  action : cstr
  method : form_method
  accept_charsets : Option cstr
  document_charset : Option cstr
  controls : List Nat
deriving DecidableEq, Repr

/-- Type of a form control. -/
inductive gadget_type where
  | GADGET_HIDDEN
  | GADGET_TEXTBOX
  | GADGET_RADIO
  | GADGET_CHECKBOX
  | GADGET_SELECT
  | GADGET_TEXTAREA
  | GADGET_IMAGE
  | GADGET_PASSWORD
  | GADGET_SUBMIT
  | GADGET_RESET
  | GADGET_FILE
deriving DecidableEq, Repr

open gadget_type

/-- Option in a select (`struct form_option`). -/
structure form_option where
  selected : Bool
  initial_selected : Bool
  value : cstr
  text : cstr
deriving DecidableEq, Repr

/-- Form control (`struct form_control`); the members of `data.select` are
`multiple`, `items`, `num_items`, `num_selected` and `current` (an index into
`items`). `form` counts the forms from the oldest. -/
structure form_control where
  type : gadget_type
  name : Option cstr
  value : Option cstr
  initial_value : Option cstr
  length : Nat
  maxlength : Int
  selected : Bool
  box : Option Nat
  form : Option Nat
  multiple : Bool
  items : List form_option
  num_items : Nat
  num_selected : Nat
  current : Option Nat
deriving DecidableEq, Repr

/-- The list of acceptable content types passed to `html_fetch_object`:
`image_types`, or 0 for any. -/
inductive permitted_types where
  | image_types
  | any
deriving DecidableEq, Repr

/-- One call of `html_fetch_object` that started a fetch. -/
structure object_fetch where
  url : cstr
  box : Nat
  permitted : permitted_types
  available_width : Int
  available_height : Int
  background : Bool
  frame : Option cstr
deriving DecidableEq, Repr

/-- The `struct content` of an HTML document, as far as the box constructor
uses it, together with the arenas of the objects it allocates: `boxes`,
`styles` and `controls`. `forms` is the list `data.html.forms`, newest first;
`object` the fetches started. -/
structure content where
  boxes : List box
  styles : List css_style
  controls : List form_control
  forms : List form
  object : List object_fetch
  base_url : cstr
  background_colour : colour
  available_width : Int
  encoding : Option cstr
  layout : Option Nat
deriving DecidableEq, Repr

/-- The arena `l` after an assignment to members of its object `i`: `f` gives
the object after the assignment from the object before (nothing changes when
there is no object `i`). -/
def list_modify {α : Type} : List α → Nat → (α → α) → List α
  | [], _, _ => []
  | x :: xs, 0, f => f x :: xs
  | x :: xs, i + 1, f => x :: list_modify xs i f

/-- A style with every member zero. -/
def css_style_zero : css_style :=
  { background_color := 0,
    background_image := { type := CSS_BACKGROUND_IMAGE_INHERIT, uri := none },
    border :=
      let b : css_border :=
        { color := 0, width := CSS_BORDER_WIDTH_INHERIT,
          width_value := { value := cfloat.fin 0 1, unit := CSS_UNIT_EM },
          style := CSS_BORDER_STYLE_INHERIT }
      { top := b, right := b, bottom := b, left := b },
    border_spacing :=
      { border_spacing := CSS_BORDER_SPACING_INHERIT,
        horz := { value := cfloat.fin 0 1, unit := CSS_UNIT_EM },
        vert := { value := cfloat.fin 0 1, unit := CSS_UNIT_EM } },
    color := 0,
    display := CSS_DISPLAY_INHERIT,
    float_ := CSS_FLOAT_INHERIT,
    font_size := cfloat.fin 0 1,
    font_family := 0,
    height := { height := CSS_HEIGHT_INHERIT,
                length := { value := cfloat.fin 0 1, unit := CSS_UNIT_EM } },
    margin :=
      let m : css_margin :=
        { margin := CSS_MARGIN_INHERIT, length := { value := cfloat.fin 0 1, unit := CSS_UNIT_EM } }
      { top := m, right := m, bottom := m, left := m },
    overflow := CSS_OVERFLOW_INHERIT,
    padding :=
      let p : css_padding :=
        { padding := CSS_PADDING_INHERIT,
          length := { value := cfloat.fin 0 1, unit := CSS_UNIT_EM } }
      { top := p, right := p, bottom := p, left := p },
    position := CSS_POSITION_INHERIT,
    text_transform := CSS_TEXT_TRANSFORM_INHERIT,
    white_space := CSS_WHITE_SPACE_INHERIT,
    width := { width := CSS_WIDTH_INHERIT,
               length := { value := cfloat.fin 0 1, unit := CSS_UNIT_EM },
               percent := cfloat.fin 0 1 } }

/-- A box with every member zero. -/
def box_zero : box :=
  { type := BOX_BLOCK, style := none, href := none, target := none, title := none,
    id := none, parent := none, prev := none, children := [], fallback := [],
    inline_end := none, text := none, length := 0, space := false, usemap := none,
    gadget := none, object_params := none, columns := 0, rows := 0, min_width := 0,
    max_width := 0, col := [] }

namespace content

/-- The box `*b` (a box with every member zero for a dangling pointer). -/
def box_at (c : content) (b : Nat) : box :=
  (c.boxes[b]?).getD box_zero

/-- The style `*s`. -/
def style_at (c : content) (s : Nat) : css_style :=
  (c.styles[s]?).getD css_style_zero

/-- The style `*b->style` of a box. -/
def box_style (c : content) (b : Nat) : css_style :=
  match (c.box_at b).style with
  | some s => c.style_at s
  | none => css_style_zero

/-- Assignment to members of the box `*b`. -/
def modify_box (c : content) (b : Nat) (f : box → box) : content :=
  { c with boxes := list_modify c.boxes b f }

/-- Assignment to members of the style `*s`. -/
def modify_style (c : content) (s : Nat) (f : css_style → css_style) : content :=
  { c with styles := list_modify c.styles s f }

/-- Assignment to members of the form control `*g`. -/
def modify_control (c : content) (g : Nat) (f : form_control → form_control) : content :=
  { c with controls := list_modify c.controls g f }

/-- Allocation of a style: `talloc_memdup` of the value `s`; returns the
pointer. (Allocation from `talloc` is taken to succeed.) -/
def new_style (c : content) (s : css_style) : content × Nat :=
  ({ c with styles := c.styles ++ [s] }, c.styles.length)

end content

/-- Modelled from the spec: `box_create` (render/box.c is not part of the
sources at hand), `createBox(style?, href?, target?, title?, id?) -> BoxNode`:
a new box with no parent, no children and no text, spanning one row and one
column; returns the pointer. Its kind is set by every caller right after the
call (box.c starts it as `BOX_INLINE`). -/
def box_create (style : Option Nat) (href : Option cstr) (target : Option frame_target)
    (title : Option cstr) (id : Option cstr) (c : content) : content × Nat :=
  ({ c with boxes := c.boxes ++
      [{ box_zero with type := BOX_INLINE, style := style, href := href, target := target,
                       title := title, id := id, columns := 1, rows := 1 }] },
   c.boxes.length)

/-- Modelled from the spec: `box_add_child` (render/box.c is not part of the
sources at hand), `addChild(parent, child)`: appends, preserving order, and
sets the back-reference; the child's `prev` is the former last child. -/
def box_add_child (parent child : Nat) (c : content) : content :=
  let last := (c.box_at parent).children.getLast?
  (c.modify_box parent (fun b => { b with children := b.children ++ [child] })).modify_box child
    (fun b => { b with parent := some parent, prev := last })

/-- The assignment `b->type = t`. -/
def box_set_type (b : Nat) (t : box_type) (c : content) : content :=
  c.modify_box b (fun x => { x with type := t })

/-- Modelled from the spec: `form_new_control` (render/form.c is not part of
the sources at hand): a new form control of the given type, everything else
zero; returns the pointer. -/
def form_new_control (type : gadget_type) (c : content) : content × Nat :=
  ({ c with controls := c.controls ++
      [{ type := type, name := none, value := none, initial_value := none, length := 0,
         maxlength := 0, selected := false, box := none, form := none, multiple := false,
         items := [], num_items := 0, num_selected := 0, current := none }] },
   c.controls.length)

/-- Modelled from the spec: `form_add_control` (render/form.c is not part of
the sources at hand) on the current form `content->data.html.forms`: the
control is registered into the form's control list and refers back to the
form. Not called when there is no form. -/
def form_add_control (control : Nat) (c : content) : content :=
  match c.forms with
  | [] => c
  | f :: fs =>
    { c with forms := { f with controls := f.controls ++ [control] } :: fs }.modify_control control
      (fun g => { g with form := some fs.length })

/-- Modelled from the spec: `form_add_option` (render/form.c is not part of
the sources at hand): the option entry is appended to the select's items;
`selected` records initial selection (for a single select only while nothing
is selected yet). -/
def form_add_option (value text : cstr) (selected : Bool) (g : form_control) : form_control :=
  let sel := selected && (g.num_selected == 0 || g.multiple)
  { g with
    items := g.items ++ [{ selected := sel, initial_selected := sel, value := value, text := text }],
    num_items := g.num_items + 1,
    num_selected := if sel then g.num_selected + 1 else g.num_selected,
    current := if sel then some g.items.length else g.current }

/-! ## Collaborators -/

/-- The functions of other modules that the box constructor calls and whose
sources are not at hand, taken as parameters: the memory allocator of
`box_extract_link`, URL joining, the CSS engine, the message table, the
content-type table, and whether `html_fetch_object` can start a fetch. -/
structure Env where
  malloc : Nat → Bool
  url_join : cstr → cstr → url_func_result
  css_base_style : css_style
  css_get_style : xmlNode → css_style
  css_cascade : css_style → css_style → css_style
  css_parse_property_list : cstr → css_style
  css_len2px : css_length → css_style → cfloat
  named_colour : cstr → colour
  messages_get : cstr → cstr
  content_lookup_other : cstr → Bool
  strip : cstr → cstr
  fetch_ok : cstr → Bool
  option_font_size : Int
  option_font_default : Nat

/-- Modelled from the spec: `html_fetch_object` (render/html.c is not part of
the sources at hand),
`requestObject(url, ownerBox, acceptableTypes[], width, height, isBackground, frameName?)`:
the request is handed to the fetch subsystem (recorded in `object`) and the
result says whether it was issued or rejected for resources. -/
def html_fetch_object (E : Env) (url : cstr) (box : Nat) (permitted : permitted_types)
    (available_width : Int) (available_height : Int) (background : Bool)
    (frame : Option cstr) (c : content) : Option content :=
  if E.fetch_ok url then
    some { c with object := c.object ++
      [{ url := url, box := box, permitted := permitted, available_width := available_width,
         available_height := available_height, background := background, frame := frame }] }
  else none

/-- Modelled from the spec: `squash_whitespace` (utils/utils.c is not part of
the sources at hand): consecutive runs of whitespace collapse to a single
space. -/
def squash_whitespace : cstr → cstr
  | [] => []
  | c :: cs =>
    if isspace c then
      match cs with
      | d :: _ => if isspace d then squash_whitespace cs else ' ' :: squash_whitespace cs
      | [] => [' ']
    else c :: squash_whitespace cs

/-- Modelled from the spec: `cnv_space2nbsp` (utils/utils.c is not part of the
sources at hand): NBSP-substituted for literal spaces/tabs (the two bytes of
U+00A0 in UTF-8). -/
def cnv_space2nbsp : cstr → cstr
  | [] => []
  | c :: cs =>
    if c.toNat == 32 || c.toNat == 9 then
      Char.ofNat 0xC2 :: Char.ofNat 0xA0 :: cnv_space2nbsp cs
    else c :: cnv_space2nbsp cs

/-! ## Style of an element -/

/-- The colour an attribute value `s` gives, `old` when it is malformed:
`#rrggbb` read by `sscanf(s + 1, "%2x%2x%2x", &r, &g, &b)`, anything not
starting with `#` looked up by `named_colour`. -/
def box_attribute_colour (E : Env) (s : cstr) (old : colour) : colour :=
  match s with
  | c :: r =>
    if c.toNat == 35 then
      match sscanf_2x2x2x r with
      | some (r, g, b) => ((b <<< 16) % 4294967296) ||| ((g <<< 8) % 4294967296) ||| r
      | none => old
    else E.named_colour s
  | [] => E.named_colour s

/-- A length in pixels. -/
def css_px (value : cfloat) : css_length := { value := value, unit := CSS_UNIT_PX }

/-- In `box_get_style`, the attribute `background`: it applies only while the
cascade has left `background-image: none`. Returns `none` on memory
exhaustion.

This property only applies to the body element, if you believe the spec. Many
browsers seem to allow it on other elements too, so let's be generic ;) -/
def box_get_style_background (E : Env) (base_url : cstr) (n : xmlNode) (style : css_style) :
    Option css_style :=
  match xmlGetProp n "background".toList with
  | some s =>
    if style.background_image.type = CSS_BACKGROUND_IMAGE_NONE then
      match E.url_join s base_url with
      | URL_FUNC_NOMEM => none
      | URL_FUNC_OK url =>
        /- if url is equivalent to the parent's url, we've got infinite
           inclusion: ignore -/
        if url = base_url then some style
        else some { style with background_image :=
                      { type := CSS_BACKGROUND_IMAGE_URI, uri := some url } }
      | URL_FUNC_FAILED => some style
    else some style
  | none => some style

/-- In `box_get_style`, the attribute `bgcolor`: it applies only while the
background colour is `TRANSPARENT`. -/
def box_get_style_bgcolor (E : Env) (n : xmlNode) (style : css_style) : css_style :=
  match xmlGetProp n "bgcolor".toList with
  | some s =>
    if style.background_color = TRANSPARENT then
      { style with background_color := box_attribute_colour E s style.background_color }
    else style
  | none => style

/-- In `box_get_style`, the attribute `color`. -/
def box_get_style_color (E : Env) (n : xmlNode) (style : css_style) : css_style :=
  match xmlGetProp n "color".toList with
  | some s => { style with color := box_attribute_colour E s style.color }
  | none => style

/-- In `box_get_style`, the attribute `height`. -/
def box_get_style_height (n : xmlNode) (style : css_style) : css_style :=
  match xmlGetProp n "height".toList with
  | some s =>
    /- float value = atof(s); -/
    let value := (atof s).to_float
    if value.lt_zero || s.isEmpty then
      style /- ignore negative values and height="" -/
    else if strrchr_found s '%' then
      /- the specification doesn't make clear what percentage heights mean,
         so ignore them -/
      style
    else
      { style with height := { height := CSS_HEIGHT_LENGTH, length := css_px value } }
  | none => style

/-- In `box_get_style`, the attribute `size` of an `input` element. -/
def box_get_style_size (n : xmlNode) (style : css_style) : css_style :=
  if n.name = "input".toList then
    match xmlGetProp n "size".toList with
    | some s =>
      let size := atoi s
      if 0 < size then
        let type := xmlGetProp n "type".toList
        let unit :=
          if type.isNone || type.any (strcasecmp_eq · "text".toList) ||
              type.any (strcasecmp_eq · "password".toList) then
            /- in characters for text, password -/
            CSS_UNIT_EX
          else if !type.any (strcasecmp_eq · "file".toList) then
            /- in pixels otherwise; ignore width on file -/
            CSS_UNIT_PX
          else style.width.length.unit
        { style with width :=
            { style.width with width := CSS_WIDTH_LENGTH,
                               length := { value := cfloat.ofInt size, unit := unit } } }
      else style
    | none => style
  else style

/-- In `box_get_style`, the attribute `text` of the `body` element. -/
def box_get_style_text (E : Env) (n : xmlNode) (style : css_style) : css_style :=
  if n.name = "body".toList then
    match xmlGetProp n "text".toList with
    | some s => { style with color := box_attribute_colour E s style.color }
    | none => style
  else style

/-- In `box_get_style`, the attribute `width`. -/
def box_get_style_width (n : xmlNode) (style : css_style) : css_style :=
  match xmlGetProp n "width".toList with
  | some s =>
    /- float value = atof(s); -/
    let value := (atof s).to_float
    if value.lt_zero || s.isEmpty then
      style /- ignore negative values and width="" -/
    else if strrchr_found s '%' then
      { style with width := { style.width with width := CSS_WIDTH_PERCENT, percent := value } }
    else
      { style with width := { style.width with width := CSS_WIDTH_LENGTH,
                                                length := css_px value } }
  | none => style

/-- In `box_get_style`, the attributes `rows` and `cols` of a `textarea`
element. -/
def box_get_style_textarea (n : xmlNode) (style : css_style) : css_style :=
  if n.name = "textarea".toList then
    let style := match xmlGetProp n "rows".toList with
      | some s =>
        let value := atoi s
        if 0 < value then
          { style with height :=
              { height := CSS_HEIGHT_LENGTH,
                length := { value := cfloat.ofInt value, unit := CSS_UNIT_EM } } }
        else style
      | none => style
    match xmlGetProp n "cols".toList with
    | some s =>
      let value := atoi s
      if 0 < value then
        { style with width :=
            { style.width with width := CSS_WIDTH_LENGTH,
                               length := { value := cfloat.ofInt value, unit := CSS_UNIT_EX } } }
      else style
    | none => style
  else style

/-- In `box_get_style`, the attribute `cellspacing` of a `table` element. -/
def box_get_style_cellspacing (n : xmlNode) (style : css_style) : css_style :=
  if n.name = "table".toList then
    match xmlGetProp n "cellspacing".toList with
    | some s =>
      if !strrchr_found s '%' then /- % not implemented -/
        let value := atoi s
        if 0 ≤ value then
          { style with border_spacing :=
              { border_spacing := CSS_BORDER_SPACING_LENGTH,
                horz := css_px (cfloat.ofInt value), vert := css_px (cfloat.ofInt value) } }
        else style
      else style
    | none => style
  else style

/-- In `box_get_style`, the attributes `hspace` and `vspace` of an `img` or
`applet` element. -/
def box_get_style_space (n : xmlNode) (style : css_style) : css_style :=
  if n.name = "img".toList ∨ n.name = "applet".toList then
    let style := match xmlGetProp n "hspace".toList with
      | some s =>
        if !strrchr_found s '%' then /- % not implemented -/
          let value := atoi s
          if 0 ≤ value then
            let m : css_margin :=
              { margin := CSS_MARGIN_LENGTH, length := css_px (cfloat.ofInt value) }
            { style with margin := { style.margin with left := m, right := m } }
          else style
        else style
      | none => style
    match xmlGetProp n "vspace".toList with
    | some s =>
      if !strrchr_found s '%' then /- % not implemented -/
        let value := atoi s
        if 0 ≤ value then
          let m : css_margin :=
            { margin := CSS_MARGIN_LENGTH, length := css_px (cfloat.ofInt value) }
          { style with margin := { style.margin with top := m, bottom := m } }
        else style
      else style
    | none => style
  else style

/-- In `box_get_style`, the attribute `style`: its declarations are cascaded
over the style. -/
def box_get_style_inline (E : Env) (n : xmlNode) (style : css_style) : css_style :=
  match xmlGetProp n "style".toList with
  | some s => E.css_cascade style (E.css_parse_property_list s)
  | none => style

/-- `box_get_style`: get the style for an element. `parent_style` is the
value of `*parent_style`; returns the new style, or `none` on memory
exhaustion.

The style is collected from three sources:
 1. any styles for this element in the document stylesheet(s)
 2. non-CSS HTML attributes
 3. the 'style' attribute -/
def box_get_style (E : Env) (base_url : cstr) (parent_style : css_style) (n : xmlNode) :
    Option css_style :=
  let style := parent_style
  let style_new := E.css_get_style n
  let style := E.css_cascade style style_new
  match box_get_style_background E base_url n style with
  | none => none
  | some style =>
    let style := box_get_style_bgcolor E n style
    let style := box_get_style_color E n style
    let style := box_get_style_height n style
    let style := box_get_style_size n style
    let style := box_get_style_text E n style
    let style := box_get_style_width n style
    let style := box_get_style_textarea n style
    let style := box_get_style_cellspacing n style
    let style := box_get_style_space n style
    let style := box_get_style_inline E n style
    some (box_solve_display style (!n.has_parent))

/-! ## Text nodes -/

/-- The loop of `box_text_transform` for `capitalize`: each char that follows
white space in upper case. -/
def box_text_capitalize : Bool → cstr → cstr
  | _, [] => []
  | after_space, c :: cs =>
    let c1 := if after_space && c.toNat < 0x80 then toupper c else c
    c1 :: box_text_capitalize (isspace c1) cs

/-- `box_text_transform`: apply the CSS text-transform property to given text
for its ASCII chars; the first `len` chars of `s` are transformed. -/
def box_text_transform (s : cstr) (len : Nat) (tt : css_text_transform) : cstr :=
  if len == 0 then s
  else
    match tt with
    | CSS_TEXT_TRANSFORM_UPPERCASE =>
      (s.take len).map (fun c => if c.toNat < 0x80 then toupper c else c) ++ s.drop len
    | CSS_TEXT_TRANSFORM_LOWERCASE =>
      (s.take len).map (fun c => if c.toNat < 0x80 then tolower c else c) ++ s.drop len
    | CSS_TEXT_TRANSFORM_CAPITALIZE =>
      box_text_capitalize true (s.take len) ++ s.drop len
    | _ => s

/-- The first inline in a block: make a container, unless one is current.
Returns the current inline container. -/
def box_inline_container (parent : Nat) (inline_container : Option Nat) (st : content) :
    content × Nat :=
  match inline_container with
  | some ic => (st, ic)
  | none =>
    let (st, ic) := box_create none none none none none st
    let st := box_set_type ic BOX_INLINE_CONTAINER st
    (box_add_child parent ic st, ic)

/-- The lines that the `do ... while (*current)` loop of `box_construct_text`
goes through under `white-space: pre`, each with whether a line terminator
(`\r\n`, `\r` or `\n`) follows it; `acc` holds the chars of the current line
read so far, last first. -/
def box_construct_text_lines : cstr → cstr → List (cstr × Bool)
  | [], acc => [(acc.reverse, false)]
  | [c], acc =>
    if c.toNat == 13 || c.toNat == 10 then [(acc.reverse, true)]
    else [((c :: acc).reverse, false)]
  | c :: d :: r, acc =>
    if c.toNat == 13 && d.toNat == 10 then
      (acc.reverse, true) :: (if r.isEmpty then [] else box_construct_text_lines r [])
    else if c.toNat == 13 || c.toNat == 10 then
      (acc.reverse, true) :: box_construct_text_lines (d :: r) []
    else box_construct_text_lines (d :: r) (c :: acc)

/-- The body of the `do ... while (*current)` loop of `box_construct_text`,
run for each line in turn. -/
def box_construct_text_pre (parent_style parent : Nat) (href : Option cstr)
    (target : Option frame_target) (title : Option cstr) :
    List (cstr × Bool) → Option Nat → content → content × Option Nat
  | [], inline_container, st => (st, inline_container)
  | (line, terminated) :: rest, inline_container, st =>
    let (st, ic) := box_inline_container parent inline_container st
    let (st, box) := box_create (some parent_style) href target title none st
    let st := box_set_type box BOX_TEXT st
    let st := st.modify_box box (fun b => { b with text := some line, length := line.length })
    let st := box_add_child ic box st
    box_construct_text_pre parent_style parent href target title rest
      (if terminated then none else some ic) st

/-- `box_construct_text`: construct the box tree for an XML text node.
`inline_container` is `*inline_container` on entry; returns the content and
`*inline_container` on exit. -/
def box_construct_text (n : xmlNode) (parent_style parent : Nat)
    (inline_container : Option Nat) (href : Option cstr) (target : Option frame_target)
    (title : Option cstr) (st : content) : Option (content × Option Nat) :=
  let ps := st.style_at parent_style
  if ps.white_space = CSS_WHITE_SPACE_NORMAL ∨ ps.white_space = CSS_WHITE_SPACE_NOWRAP then
    let text := squash_whitespace n.content
    /- if the text is just a space, combine it with the preceding text node,
       if any -/
    if text = [' '] then
      match inline_container with
      | some ic =>
        match (st.box_at ic).children.getLast? with
        | some last => some (st.modify_box last (fun b => { b with space := true }), some ic)
        | none => some (st, some ic) /- excluded by the assertion -/
      | none => some (st, none)
    else
      /- this is the first inline node: make a container -/
      let (st, ic) := box_inline_container parent inline_container st
      let (st, box) := box_create (some parent_style) href target title none st
      let st := box_set_type box BOX_TEXT st
      let length := text.length
      /- strip ending space char off -/
      let strip_end := decide (length > 1) && text.getLast? == some ' '
      let length := if strip_end then length - 1 else length
      let text :=
        if ps.text_transform ≠ CSS_TEXT_TRANSFORM_NONE then
          box_text_transform text length ps.text_transform
        else text
      let st := st.modify_box box
        (fun b => { b with text := some text, length := length, space := strip_end || b.space })
      let st := box_add_child ic box st
      if text.head? == some ' ' then
        let st := st.modify_box box
          (fun b => { b with length := length - 1,
                             text := some ((text.drop 1).take (length - 1) ++ text.drop (length - 1)) })
        match (st.box_at box).prev with
        | some prev => some (st.modify_box prev (fun b => { b with space := true }), some ic)
        | none => some (st, some ic)
      else some (st, some ic)
  else
    /- white-space: pre -/
    let text := cnv_space2nbsp n.content
    let text :=
      if ps.text_transform ≠ CSS_TEXT_TRANSFORM_NONE then
        box_text_transform text text.length ps.text_transform
      else text
    /- swallow a single leading new line -/
    let current := match text with
      | c :: r =>
        if c.toNat == 10 then r
        else if c.toNat == 13 then
          match r with
          | d :: r1 => if d.toNat == 10 then r1 else r
          | [] => r
        else text
      | [] => text
    some (box_construct_text_pre parent_style parent href target title
      (box_construct_text_lines current []) inline_container st)

/-! ## Special case element handlers

Each handler takes the node, the box under construction and the content, and
returns `none` on memory exhaustion, otherwise the content and the value of
`*convert_children` (which is `true` on entry). -/

/-- `box_get_attribute` applied to the attribute `attr` of `n`: the new value
of `*value`, which is unchanged when the attribute is absent. (The
`talloc_strdup` is taken to succeed.) -/
def box_get_attribute (n : xmlNode) (attr : cstr) (value : Option cstr) : Option cstr :=
  match xmlGetProp n attr with
  | some s => some s
  | none => value

/-- `box_body`: document body [7.5.1]. -/
def box_body (_n : xmlNode) (box : Nat) (st : content) : Option (content × Bool) :=
  some ({ st with background_colour := (st.box_style box).background_color }, true)

/-- `box_br`: forced line break [9.3.2]. -/
def box_br (_n : xmlNode) (box : Nat) (st : content) : Option (content × Bool) :=
  some (box_set_type box BOX_BR st, true)

/-- `box_a`: anchor [12.2]. -/
def box_a (E : Env) (n : xmlNode) (box : Nat) (st : content) : Option (content × Bool) :=
  let href : Option content :=
    match xmlGetProp n "href".toList with
    | some s =>
      match box_extract_link E.malloc E.url_join s st.base_url none with
      | (false, _) => none
      | (true, some url) => some (st.modify_box box (fun b => { b with href := some url }))
      | (true, none) => some st
    | none => some st
  match href with
  | none => none
  | some st =>
    /- name and id share the same namespace -/
    let st := st.modify_box box (fun b => { b with id := box_get_attribute n "name".toList b.id })
    /- target frame [16.3] -/
    let st := match xmlGetProp n "target".toList with
      | some s =>
        if s = "_blank".toList ∨ s = "_top".toList then
          st.modify_box box (fun b => { b with target := some TARGET_TOP })
        else if s = "_parent".toList then
          st.modify_box box (fun b => { b with target := some TARGET_PARENT })
        else if s = "_self".toList then
          st.modify_box box (fun b => { b with target := some TARGET_SELF })
        else if s.head?.any isalpha then /- [6.16] -/
          st.modify_box box (fun b => { b with target := some (named s) })
        else st
      | none => st
    some (st, true)

/-- The assignments `box->usemap = ...; if (box->usemap && box->usemap[0] ==
'#') box->usemap++;` of `box_image` and `box_object`. -/
def box_usemap (n : xmlNode) (box : Nat) (st : content) : content :=
  st.modify_box box (fun b =>
    { b with usemap :=
        match box_get_attribute n "usemap".toList b.usemap with
        | some (c :: r) => if c.toNat == 35 then some r else some (c :: r)
        | u => u })

/-- `box_image`: embedded image [13.2]. -/
def box_image (E : Env) (n : xmlNode) (box : Nat) (st : content) : Option (content × Bool) :=
  /- handle alt text -/
  let st := match xmlGetProp n "alt".toList with
    | some alt =>
      st.modify_box box (fun b =>
        { b with text := some (squash_whitespace alt), length := (squash_whitespace alt).length })
    | none => st
  /- imagemap associated with this image -/
  let st := box_usemap n box st
  /- get image URL -/
  match xmlGetProp n "src".toList with
  | none => some (st, true)
  | some src =>
    match box_extract_link E.malloc E.url_join src st.base_url none with
    | (false, _) => none
    | (true, none) => some (st, true)
    | (true, some url) =>
      /- start fetch -/
      match html_fetch_object E url box permitted_types.image_types
          st.available_width 1000 false none st with
      | none => none
      | some st => some (st, true)

/-- `box_iframe`: inline subwindow [16.5]. -/
def box_iframe (E : Env) (n : xmlNode) (box : Nat) (st : content) : Option (content × Bool) :=
  /- get frame URL -/
  match xmlGetProp n "src".toList with
  | none => some (st, true)
  | some src =>
    match box_extract_link E.malloc E.url_join src st.base_url none with
    | (false, _) => none
    | (true, none) => some (st, true)
    | (true, some url) =>
      /- Don't include ourself -/
      if st.base_url = url then some (st, true)
      else
        /- start fetch -/
        match html_fetch_object E url box permitted_types.any
            st.available_width 0 false none st with
        | none => none
        | some st => some (st, true)

/-- `box_form`: interactive form [17.3]. -/
def box_form (n : xmlNode) (_box : Nat) (st : content) : Option (content × Bool) :=
  let action := match xmlGetProp n "action".toList with
    | none => []
    | some xmlaction => xmlaction
  let fmethod := match xmlGetProp n "method".toList with
    | some method =>
      if strcasecmp_eq method "post".toList then
        match xmlGetProp n "enctype".toList with
        | some enctype =>
          if strcasecmp_eq enctype "multipart/form-data".toList then method_POST_MULTIPART
          else method_POST_URLENC
        | none => method_POST_URLENC
      else method_GET
    | none => method_GET
  /- acceptable encoding(s) for form data -/
  let charset := xmlGetProp n "accept-charset".toList
  let form : form :=
    { action := action, method := fmethod, accept_charsets := charset,
      document_charset := st.encoding, controls := [] }
  some ({ st with forms := form :: st.forms }, true)

/-- `form_add_control(content->data.html.forms, gadget)` under
`if (content->data.html.forms)`. -/
def box_form_add_control (gadget : Nat) (st : content) : content :=
  if st.forms.isEmpty then st else form_add_control gadget st

/-- The inline container with one text box that the form-control handlers
put into the box: `text` is the text, `title` the box's title. -/
def box_gadget_text (box : Nat) (text : cstr) (st : content) : content :=
  let (st, inline_container) := box_create none none none none none st
  let st := box_set_type inline_container BOX_INLINE_CONTAINER st
  let (st, inline_box) := box_create (st.box_at box).style none none (st.box_at box).title none st
  let st := box_set_type inline_box BOX_TEXT st
  let st := st.modify_box inline_box (fun b => { b with text := some text, length := text.length })
  let st := box_add_child inline_container inline_box st
  box_add_child box inline_container st

/-- `box_input_text`: helper function for `box_input()`. -/
def box_input_text (n : xmlNode) (box : Nat) (password : Bool) (st : content) : Option content :=
  let st := box_set_type box BOX_INLINE_BLOCK st
  let (st, gadget) := form_new_control (if password then GADGET_PASSWORD else GADGET_TEXTBOX) st
  let st := st.modify_box box (fun b => { b with gadget := some gadget })
  let maxlength := match xmlGetProp n "maxlength".toList with
    | some s => atoi s
    | none => 100
  let value := (xmlGetProp n "value".toList).getD []
  let st := st.modify_control gadget (fun g =>
    { g with box := some box, maxlength := maxlength, value := some value,
             initial_value := some value, length := value.length })
  let text :=
    if password then List.replicate value.length '*'
    else
      /- replace spaces/TABs with hard spaces to prevent line wrapping -/
      cnv_space2nbsp value
  some (box_gadget_text box text st)

/-- `box_button`: push button [17.5]. -/
def box_button (n : xmlNode) (box : Nat) (st : content) : Option (content × Bool) :=
  let type := xmlGetProp n "type".toList
  let st := box_set_type box BOX_INLINE_BLOCK st
  let new_gadget : Option (content × Nat) :=
    if type.isNone || type.any (strcasecmp_eq · "submit".toList) then
      some (form_new_control GADGET_SUBMIT st)
    else if type.any (strcasecmp_eq · "reset".toList) then
      some (form_new_control GADGET_RESET st)
    else
      /- type="button" or unknown: just render the contents -/
      none
  match new_gadget with
  | none => some (st, true)
  | some (st, gadget) =>
    let st := st.modify_box box (fun b => { b with gadget := some gadget })
    let st := box_form_add_control gadget st
    let st := st.modify_control gadget (fun g =>
      { g with box := some box,
               name := box_get_attribute n "name".toList g.name,
               value := box_get_attribute n "value".toList g.value })
    some (st, true)

/-- The branch of `box_input` for the type `file`. Each branch returns the
content and the local variable `gadget`. -/
def box_input_file (box : Nat) (st : content) : Option (content × Option Nat) :=
  let st := box_set_type box BOX_INLINE_BLOCK st
  let (st, gadget) := form_new_control GADGET_FILE st
  let st := st.modify_box box (fun b => { b with gadget := some gadget })
  some (st.modify_control gadget (fun g => { g with box := some box }), some gadget)

/-- The branch of `box_input` for the type `hidden`. -/
def box_input_hidden (n : xmlNode) (box : Nat) (st : content) : Option (content × Option Nat) :=
  /- no box for hidden inputs -/
  let st := match (st.box_at box).style with
    | some s => st.modify_style s (fun x => { x with display := CSS_DISPLAY_NONE })
    | none => st
  let (st, gadget) := form_new_control GADGET_HIDDEN st
  let st := match xmlGetProp n "value".toList with
    | some s => st.modify_control gadget (fun g => { g with value := some s, length := s.length })
    | none => st
  some (st, some gadget)

/-- The branch of `box_input` for the types `checkbox` and `radio`. -/
def box_input_checkbox (n : xmlNode) (box : Nat) (st : content) :
    Option (content × Option Nat) :=
  let type := xmlGetProp n "type".toList
  let (st, gadget) := form_new_control
    (if type.any (fun t => t.head?.any (fun c => c.toNat == 99 || c.toNat == 67))
      then GADGET_CHECKBOX else GADGET_RADIO) st
  let st := st.modify_box box (fun b => { b with gadget := some gadget })
  let st := st.modify_control gadget (fun g =>
    { g with box := some box, selected := xmlHasProp n "checked".toList })
  let st := match xmlGetProp n "value".toList with
    | some s => st.modify_control gadget (fun g => { g with value := some s, length := s.length })
    | none => st
  some (st, some gadget)

/-- The branch of `box_input` for the types `submit` and `reset`. -/
def box_input_submit (E : Env) (n : xmlNode) (box : Nat) (st : content) :
    Option (content × Option Nat) :=
  match box_button n box st with
  | none => none
  | some (st, _) =>
    let g := (st.box_at box).gadget.bind (fun i => st.controls[i]?)
    let text := match g.bind (·.value) with
      | some value => value
      | none =>
        if g.any (·.type == GADGET_SUBMIT) then E.messages_get "Form_Submit".toList
        else E.messages_get "Form_Reset".toList
    some (box_gadget_text box text st, none)

/-- The branch of `box_input` for the type `button`. -/
def box_input_button (n : xmlNode) (box : Nat) (st : content) : Option (content × Option Nat) :=
  match box_button n box st with
  | none => none
  | some (st, _) =>
    let text := match xmlGetProp n "value".toList with
      | some s => s
      | none => "Button".toList
    some (box_gadget_text box text st, none)

/-- The branch of `box_input` for the type `image`. -/
def box_input_image (E : Env) (n : xmlNode) (box : Nat) (st : content) :
    Option (content × Option Nat) :=
  let (st, gadget) := form_new_control GADGET_IMAGE st
  let st := st.modify_box box (fun b => { b with gadget := some gadget })
  let st := st.modify_control gadget (fun g => { g with box := some box, type := GADGET_IMAGE })
  match xmlGetProp n "src".toList with
  | some s =>
    match E.url_join s st.base_url with
    | URL_FUNC_OK url =>
      /- if url is equivalent to the parent's url, we've got infinite
         inclusion. stop it here. also bail if url_join failed. -/
      if !strcasecmp_eq url st.base_url then
        match html_fetch_object E url box permitted_types.image_types
            st.available_width 1000 false none st with
        | none => none
        | some st => some (st, some gadget)
      else some (st, some gadget)
    | _ => some (st, some gadget)
  | none => some (st, some gadget)

/-- The branches of `box_input` for the types `password` and `text` (the
default). -/
def box_input_default (n : xmlNode) (box : Nat) (password : Bool) (st : content) :
    Option (content × Option Nat) :=
  match box_input_text n box password st with
  | none => none
  | some st => some (st, (st.box_at box).gadget)

/-- The dispatch of `box_input` on the type attribute, compared without
regard to case. -/
def box_input_type (E : Env) (n : xmlNode) (box : Nat) (st : content) :
    Option (content × Option Nat) :=
  let type := xmlGetProp n "type".toList
  if type.any (strcasecmp_eq · "password".toList) then box_input_default n box true st
  else if type.any (strcasecmp_eq · "file".toList) then box_input_file box st
  else if type.any (strcasecmp_eq · "hidden".toList) then box_input_hidden n box st
  else if type.any (strcasecmp_eq · "checkbox".toList) ||
      type.any (strcasecmp_eq · "radio".toList) then box_input_checkbox n box st
  else if type.any (strcasecmp_eq · "submit".toList) ||
      type.any (strcasecmp_eq · "reset".toList) then box_input_submit E n box st
  else if type.any (strcasecmp_eq · "button".toList) then box_input_button n box st
  else if type.any (strcasecmp_eq · "image".toList) then box_input_image E n box st
  else
    /- the default type is "text" -/
    box_input_default n box false st

/-- `box_input`: form control [17.4]. -/
def box_input (E : Env) (n : xmlNode) (box : Nat) (st : content) : Option (content × Bool) :=
  match box_input_type E n box st with
  | none => none
  | some (st, none) => some (st, false)
  | some (st, some gadget) =>
    let st := box_form_add_control gadget st
    let st := st.modify_control gadget (fun g =>
      { g with name := box_get_attribute n "name".toList g.name })
    some (st, false)

/-- `box_select_add_option`: add an option to a form select control (helper
function for `box_select()`). -/
def box_select_add_option (n : xmlNode) (control : form_control) : form_control :=
  let text := squash_whitespace (xmlNodeGetContent n)
  let value := match xmlGetProp n "value".toList with
    | some s => s
    | none => text
  let selected := xmlHasProp n "selected".toList
  form_add_option value text selected control

/-- The loop `for (c = n->children; c; c = c->next)` of `box_select` from the
node `c` on, and (with `in_optgroup`) its inner loop over the children of an
`optgroup`. -/
def box_select_options : Bool → xmlNode → form_control → form_control
  | _, .null, control => control
  | in_optgroup, .node t name hp ps tx children next, control =>
    let control :=
      if name = "option".toList then
        box_select_add_option (.node t name hp ps tx children next) control
      else if !in_optgroup && name = "optgroup".toList then
        box_select_options true children control
      else control
    box_select_options in_optgroup next control

/-- `box_select`: option selector [17.6]. -/
def box_select (E : Env) (n : xmlNode) (box : Nat) (st : content) : Option (content × Bool) :=
  let (st, gadget) := form_new_control GADGET_SELECT st
  let st := st.modify_control gadget (fun g =>
    box_select_options false n.children
      { g with multiple := (xmlGetProp n "multiple".toList).isSome })
  let g := st.controls[gadget]?
  if g.all (·.num_items == 0) then
    /- no options: ignore entire select -/
    some (st, true)
  else
    let st := st.modify_control gadget (fun g =>
      { g with name := box_get_attribute n "name".toList g.name, box := some box })
    let st := box_set_type box BOX_INLINE_BLOCK st
    let st := st.modify_box box (fun b => { b with gadget := some gadget })
    let st := st.modify_control gadget (fun g =>
      if !g.multiple && g.num_selected == 0 then
        { g with current := some 0, num_selected := 1,
                 items := match g.items with
                   | o :: os => { o with selected := true, initial_selected := true } :: os
                   | [] => [] }
      else g)
    let g := st.controls[gadget]?
    let text :=
      if g.all (·.num_selected == 0) then E.messages_get "Form_None".toList
      else if g.all (·.num_selected == 1) then
        match g.bind (fun g => g.current.bind (fun i => g.items[i]?)) with
        | some o => o.text
        | none => []
      else E.messages_get "Form_Many".toList
    let st := box_gadget_text box text st
    let st := box_form_add_control gadget st
    some (st, false)

/-- The lines of the content of a `textarea`, split at `\r\n`, `\r` and `\n`:
the texts of the `BOX_TEXT` boxes that the loop of `box_textarea` creates;
`acc` holds the chars of the current line read so far, last first. -/
def box_textarea_lines : cstr → cstr → List cstr
  | [], acc => [acc.reverse]
  | [c], acc =>
    if c.toNat == 13 || c.toNat == 10 then [acc.reverse, []]
    else [(c :: acc).reverse]
  | c :: d :: r, acc =>
    if c.toNat == 13 && d.toNat == 10 then acc.reverse :: box_textarea_lines r []
    else if c.toNat == 13 || c.toNat == 10 then acc.reverse :: box_textarea_lines (d :: r) []
    else box_textarea_lines (d :: r) (c :: acc)

/-- The `BOX_TEXT` box of one line of a `textarea`. -/
def box_textarea_text (box inline_container : Nat) (line : cstr) (st : content) : content :=
  let (st, inline_box) := box_create (st.box_at box).style none none (st.box_at box).title none st
  let st := box_set_type inline_box BOX_TEXT st
  let st := st.modify_box inline_box (fun b => { b with text := some line, length := line.length })
  box_add_child inline_container inline_box st

/-- The loop of `box_textarea` after the first `BOX_TEXT`: for each further
line a `BOX_BR` and the `BOX_TEXT` of the line. -/
def box_textarea_rest (box inline_container : Nat) : List cstr → content → content
  | [], st => st
  | line :: rest, st =>
    let (st, br_box) := box_create (st.box_at box).style none none (st.box_at box).title none st
    let st := box_set_type br_box BOX_BR st
    let st := box_add_child inline_container br_box st
    box_textarea_rest box inline_container rest (box_textarea_text box inline_container line st)

/-- `box_textarea`: multi-line text field [17.7].

A textarea is an INLINE_BLOCK containing a single INLINE_CONTAINER, which
contains the text as runs of TEXT separated by BR. -/
def box_textarea (n : xmlNode) (box : Nat) (st : content) : Option (content × Bool) :=
  let st := box_set_type box BOX_INLINE_BLOCK st
  let (st, gadget) := form_new_control GADGET_TEXTAREA st
  let st := st.modify_box box (fun b => { b with gadget := some gadget })
  let st := st.modify_control gadget (fun g =>
    { g with box := some box, name := box_get_attribute n "name".toList g.name })
  let (st, inline_container) := box_create none none none (st.box_at box).title none st
  let st := box_set_type inline_container BOX_INLINE_CONTAINER st
  let st := box_add_child box inline_container st
  let st := match box_textarea_lines (xmlNodeGetContent n) [] with
    | [] => st
    | line :: rest =>
      box_textarea_rest box inline_container rest (box_textarea_text box inline_container line st)
  let st := box_form_add_control gadget st
  some (st, false)

/-- The loop of `box_embed` over the attributes: add attributes as parameters
to linked list, each new one at the head. -/
def box_embed_params : List (cstr × Option cstr) → List object_param → List object_param
  | [], params => params
  | (name, value) :: rest, params =>
    if strcasecmp_eq name "src".toList then box_embed_params rest params
    else
      match value with
      | none => box_embed_params rest params
      | some v =>
        box_embed_params rest
          ({ name := some name, value := some v, type := none,
             valuetype := some "data".toList } :: params)

/-- `box_embed`: embedded object. -/
def box_embed (E : Env) (n : xmlNode) (box : Nat) (st : content) : Option (content × Bool) :=
  /- src is a URL -/
  match xmlGetProp n "src".toList with
  | none => some (st, true)
  | some src =>
    match box_extract_link E.malloc E.url_join src st.base_url none with
    | (false, _) => none
    | (true, none) => some (st, true)
    | (true, some data) =>
      /- Don't include ourself -/
      if st.base_url = data then some (st, true)
      else
        let params : object_params :=
          { data := some data, type := none, codetype := none, codebase := none,
            classid := none, params := box_embed_params n.properties [] }
        let st := st.modify_box box (fun b => { b with object_params := some params })
        /- start fetch -/
        match html_fetch_object E data box permitted_types.any
            st.available_width 1000 false none st with
        | none => none
        | some st => some (st, true)

/-! ## Framesets -/

/-- The numbers of rows and columns of a frameset and its parsed `cols`. -/
structure frameset_lengths where
  rows : Nat
  cols : Nat
  col_width : Option (List box_multi_length)

/-- The first part of `box_frameset`, up to the creation of the frameset
table: the box becomes a table, `rows` and `cols` are parsed and the column
array is filled. -/
def box_frameset_columns (n : xmlNode) (box : Nat) (st : content) : content × frameset_lengths :=
  let st := box_set_type box BOX_TABLE st
  /- parse rows and columns -/
  let row_height := (xmlGetProp n "rows".toList).map box_parse_multi_lengths
  let col_width := (xmlGetProp n "cols".toList).map box_parse_multi_lengths
  let rows := match row_height with
    | some l => l.length
    | none => 1
  let cols := match col_width with
    | some l => l.length
    | none => 1
  let col : List column := match col_width with
    | some l =>
      l.map (fun w =>
        { type := match w.type with
            | LENGTH_PX => COLUMN_WIDTH_FIXED
            | LENGTH_PERCENT => COLUMN_WIDTH_PERCENT
            | LENGTH_RELATIVE => COLUMN_WIDTH_RELATIVE,
          width := w.value, min := 1, max := 10000 })
    | none => [{ type := COLUMN_WIDTH_RELATIVE, width := cfloat.ofInt 1, min := 1, max := 10000 }]
  (st.modify_box box (fun b => { b with min_width := 1, max_width := 10000, col := col }),
   { rows := rows, cols := cols, col_width := col_width })

/-- The start of one pass of the `row` loop of `box_frameset`: a new
`BOX_TABLE_ROW` box with a copy of the style, added to the frameset box. -/
def box_frameset_row (box style : Nat) (st : content) : content × Nat :=
  let (st, row_style) := st.new_style (st.style_at style)
  let (st, row_box) := box_create (some row_style) none none none none st
  let st := box_set_type row_box BOX_TABLE_ROW st
  (box_add_child box row_box st, row_box)

/-- The passes of the `row` loop of `box_frameset` in which the `col` loop
does not run (no columns): `k` more row boxes. -/
def box_frameset_empty_rows (box style : Nat) : Nat → content → content
  | 0, st => st
  | k + 1, st => box_frameset_empty_rows box style k (box_frameset_row box style st).1

/-- The last part of `box_frameset`: the width of the style becomes 100%. -/
def box_frameset_width (style : Nat) (st : content) : content :=
  st.modify_style style (fun s =>
    { s with width := { s.width with width := CSS_WIDTH_PERCENT, percent := cfloat.ofInt 100 } })

/-- The body of the `col` loop of `box_frameset` for the child node `c`, the
current row box being `row_box`: a node that is not a frame is skipped, and a
frame gets a cell in the row. `nested` is the recursive call of
`box_frameset` for the children of `c` (arguments: the frameset box, its style
and its numbers of rows and columns), and `rest` the rest of the loops from
the next sibling of `c` on (argument: the column to go on with). -/
def box_frameset_cell (E : Env) (c : xmlNode)
    (nested : Nat → Nat → frameset_lengths → content → Option content)
    (rest : Nat → content → Option content)
    (style : Nat) (d : frameset_lengths) (col row_box : Nat) (st : content) : Option content :=
  if !(c.type == XML_ELEMENT_NODE &&
      (c.name == "frame".toList || c.name == "frameset".toList)) then
    rest col st
  else
    /- estimate frame width -/
    /- int object_width = content->available_width;
       if (col_width && col_width[col].type == LENGTH_PX)
         object_width = col_width[col].value; -/
    let object_width : Int := match d.col_width.bind (·[col]?) with
      | some w => if w.type = LENGTH_PX then w.value.to_int else st.available_width
      | none => st.available_width
    let (st, cell_style) := st.new_style (st.style_at style)
    let st := st.modify_style cell_style (fun s => { s with overflow := CSS_OVERFLOW_AUTO })
    let (st, cell_box) := box_create (some cell_style) none none none none st
    let st := box_set_type cell_box BOX_TABLE_CELL st
    let st := box_add_child row_box cell_box st
    if c.name == "frameset".toList then
      let (st, frameset_box) := box_create (some cell_style) none none none none st
      let (st, d1) := box_frameset_columns c frameset_box st
      match nested frameset_box cell_style d1 st with
      | none => none
      | some st =>
        let st := box_frameset_width cell_style st
        let st := box_add_child cell_box frameset_box st
        rest (col + 1) st
    else
      match xmlGetProp c "src".toList with
      | none => rest (col + 1) st
      | some s =>
        match E.url_join (E.strip s) st.base_url with
        | URL_FUNC_OK url =>
          /- if url is equivalent to the parent's url, we've got infinite
             inclusion. stop it here. also bail if url_join failed. -/
          if strcasecmp_eq url st.base_url then rest (col + 1) st
          else
            match html_fetch_object E url cell_box permitted_types.any object_width 1000
                false (xmlGetProp c "name".toList) st with
            | none => none
            | some st => rest (col + 1) st
        | _ => rest (col + 1) st

/-- The start of the pass number `row` of the `row` loop of `box_frameset`,
a child node being left: the loop ends after `rows` passes; otherwise a row
box is created and the `col` loop starts (`cell`, with the column and the row
box as arguments). -/
def box_frameset_new_row (cell : Nat → Nat → content → Option content) (box style : Nat)
    (d : frameset_lengths) (row : Nat) (st : content) : Option content :=
  if row == d.rows then some st
  else
    let (st, row_box) := box_frameset_row box style st
    if d.cols == 0 then some (box_frameset_empty_rows box style (d.rows - (row + 1)) st)
    else cell 0 row_box st

/-- The loops of `box_frameset` that create the frameset table, from the
child node `c` on: `row_box` is `none` at the test of the `row` loop and the
current row box at the test of the `col` loop. A nested frameset is converted
by the same loops over its own children (the recursive call of
`box_frameset`). -/
def box_frameset_table (E : Env) :
    xmlNode → Nat → Nat → frameset_lengths → Nat → Nat → Option Nat → content → Option content
  | .null, _, _, _, _, _, _, st => some st
  | .node t name hp ps tx children next, box, style, d, row, col, row_box, st =>
    match row_box with
    | none =>
      box_frameset_new_row
        (fun col row_box st =>
          box_frameset_cell E (.node t name hp ps tx children next)
            (fun frameset_box cell_style d1 st =>
              box_frameset_table E children frameset_box cell_style d1 0 0 none st)
            (fun col st => box_frameset_table E next box style d row col (some row_box) st)
            style d col row_box st)
        box style d row st
    | some rb =>
      if col == d.cols then
        box_frameset_new_row
          (fun col row_box st =>
            box_frameset_cell E (.node t name hp ps tx children next)
              (fun frameset_box cell_style d1 st =>
                box_frameset_table E children frameset_box cell_style d1 0 0 none st)
              (fun col st => box_frameset_table E next box style d (row + 1) col (some row_box) st)
              style d col row_box st)
          box style d (row + 1) st
      else
        box_frameset_cell E (.node t name hp ps tx children next)
          (fun frameset_box cell_style d1 st =>
            box_frameset_table E children frameset_box cell_style d1 0 0 none st)
          (fun col st => box_frameset_table E next box style d row col (some rb) st)
          style d col rb st

/-- `box_frameset`: window subdivision [16.2.1]. -/
def box_frameset (E : Env) (n : xmlNode) (box : Nat) (st : content) : Option (content × Bool) :=
  match (st.box_at box).style with
  | none => none
  | some style =>
    let (st, d) := box_frameset_columns n box st
    match box_frameset_table E n.children box style d 0 0 none st with
    | none => none
    | some st => some (box_frameset_width style st, false)

/-! ## Objects -/

/-- The type of the conversion of the children of a node,
`for (c = n->children; c; c = c->next) convert_xml_to_box(c, content, parent_style, parent, &inline_container, href, target, title)`,
as a function of `parent_style`, `parent`, `*inline_container`, `href`,
`target`, `title` and the content; `none` on memory exhaustion. -/
abbrev children_conversion :=
  Nat → Nat → Option Nat → Option cstr → Option frame_target → Option cstr → content →
    Option (content × Option Nat)

/-- The loop of `box_object` that adds parameters to the linked list, from
the child node `c` on, each new one at the head. -/
def box_object_params : xmlNode → List object_param → List object_param
  | .null, params => params
  | .node t name hp ps tx children next, params =>
    if t ≠ XML_ELEMENT_NODE then box_object_params next params
    else if name ≠ "param".toList then
      /- The first non-param child is the start of the alt html. Therefore, we
         should break out of this loop. -/
      params
    else
      let c := xmlNode.node t name hp ps tx children next
      box_object_params next
        ({ name := box_get_attribute c "name".toList none,
           value := box_get_attribute c "value".toList none,
           type := box_get_attribute c "type".toList none,
           valuetype := match box_get_attribute c "valuetype".toList none with
             | some v => some v
             | none => some "data".toList } :: params)

/-- `box_object`: generic embedded object [13.3]. `conv` is the conversion of
the children of `n`. -/
def box_object (E : Env) (conv : children_conversion) (n : xmlNode) (box : Nat)
    (st : content) : Option (content × Bool) :=
  let st := box_usemap n box st
  /- codebase, classid, and data are URLs (codebase is the base for the other
     two) -/
  let link (attr : String) (base : cstr) : Option (Option cstr) :=
    match xmlGetProp n attr.toList with
    | some s =>
      match box_extract_link E.malloc E.url_join s base none with
      | (false, _) => none
      | (true, r) => some r
    | none => some none
  match link "codebase" st.base_url with
  | none => none
  | some codebase0 =>
    let codebase := codebase0.getD st.base_url
    match link "codebase" codebase with
    | none => none
    | some classid =>
      match link "data" codebase with
      | none => none
      | some none =>
        /- objects without data are ignored -/
        some (st, true)
      | some (some data) =>
        /- Don't include ourself -/
        if st.base_url = data then some (st, true)
        else
          /- codetype and type are MIME types -/
          let codetype := box_get_attribute n "codetype".toList none
          let type := box_get_attribute n "type".toList none
          if type.any E.content_lookup_other then
            /- can't handle this MIME type -/
            some (st, true)
          else
            let params : object_params :=
              { data := some data, type := type, codetype := codetype,
                codebase := some codebase, classid := classid,
                params := box_object_params n.children [] }
            let st := st.modify_box box (fun b => { b with object_params := some params })
            /- start fetch (MIME type is ok or not specified) -/
            match html_fetch_object E data box permitted_types.any
                st.available_width 1000 false none st with
            | none => none
            | some st =>
              /- convert children and place into fallback -/
              match (st.box_at box).style with
              | none => none
              | some style =>
                match conv style box none none none none st with
                | none => none
                | some (st, _) =>
                  some (st.modify_box box (fun b => { b with fallback := b.children, children := [] }),
                        false)

/-! ## Elements -/

/-- The special convert functions of `element_table`. -/
inductive element_convert where
  | box_a
  | box_body
  | box_br
  | box_button
  | box_embed
  | box_form
  | box_frameset
  | box_iframe
  | box_image
  | box_input
  | box_object
  | box_select
  | box_textarea
deriving DecidableEq, Repr

/-- `element_table`; it must be sorted by name. -/
def element_table : List (cstr × element_convert) :=
  [("a".toList, element_convert.box_a),
   ("body".toList, element_convert.box_body),
   ("br".toList, element_convert.box_br),
   ("button".toList, element_convert.box_button),
   ("embed".toList, element_convert.box_embed),
   ("form".toList, element_convert.box_form),
   ("frameset".toList, element_convert.box_frameset),
   ("iframe".toList, element_convert.box_iframe),
   ("img".toList, element_convert.box_image),
   ("input".toList, element_convert.box_input),
   ("object".toList, element_convert.box_object),
   ("select".toList, element_convert.box_select),
   ("textarea".toList, element_convert.box_textarea)]

/-- The loop of `bsearch` with `strcmp` as the comparison, on the part of the
table from `l` up to `u`; it runs at most `fuel` times. -/
def bsearch_loop {α : Type} (key : cstr) (table : List (cstr × α)) : Nat → Nat → Nat → Option α
  | 0, _, _ => none
  | fuel + 1, l, u =>
    if l < u then
      let idx := (l + u) / 2
      match table[idx]? with
      | none => none
      | some (name, v) =>
        let comparison := strcmp key name
        if comparison < 0 then bsearch_loop key table fuel l idx
        else if 0 < comparison then bsearch_loop key table fuel (idx + 1) u
        else some v
    else none

/-- `bsearch(key, table, count, size, strcmp)`: each pass halves the part
searched, so `count + 1` passes are enough. -/
def bsearch {α : Type} (key : cstr) (table : List (cstr × α)) : Option α :=
  bsearch_loop key table (table.length + 1) 0 table.length

/-- The call `element->convert(n, content, box, &convert_children)`. -/
def box_special (E : Env) (conv : children_conversion) (convert : element_convert)
    (n : xmlNode) (box : Nat) (st : content) : Option (content × Bool) :=
  match convert with
  | element_convert.box_a => box_a E n box st
  | element_convert.box_body => box_body n box st
  | element_convert.box_br => box_br n box st
  | element_convert.box_button => box_button n box st
  | element_convert.box_embed => box_embed E n box st
  | element_convert.box_form => box_form n box st
  | element_convert.box_frameset => box_frameset E n box st
  | element_convert.box_iframe => box_iframe E n box st
  | element_convert.box_image => box_image E n box st
  | element_convert.box_input => box_input E n box st
  | element_convert.box_object => box_object E conv n box st
  | element_convert.box_select => box_select E n box st
  | element_convert.box_textarea => box_textarea n box st

/-- Mapping from CSS display to box type; this table must be in sync with
css/css_enums. The first entry is `0`, the first box type; the table has no
entry for `CSS_DISPLAY_NONE`, for which it is not consulted. -/
def box_map : css_display → box_type
  | CSS_DISPLAY_INHERIT => BOX_BLOCK
  | CSS_DISPLAY_INLINE => BOX_INLINE
  | CSS_DISPLAY_BLOCK => BOX_BLOCK
  | CSS_DISPLAY_LIST_ITEM => BOX_BLOCK
  | CSS_DISPLAY_RUN_IN => BOX_INLINE
  | CSS_DISPLAY_INLINE_BLOCK => BOX_INLINE_BLOCK
  | CSS_DISPLAY_TABLE => BOX_TABLE
  | CSS_DISPLAY_INLINE_TABLE => BOX_TABLE
  | CSS_DISPLAY_TABLE_ROW_GROUP => BOX_TABLE_ROW_GROUP
  | CSS_DISPLAY_TABLE_HEADER_GROUP => BOX_TABLE_ROW_GROUP
  | CSS_DISPLAY_TABLE_FOOTER_GROUP => BOX_TABLE_ROW_GROUP
  | CSS_DISPLAY_TABLE_ROW => BOX_TABLE_ROW
  | CSS_DISPLAY_TABLE_COLUMN_GROUP => BOX_INLINE
  | CSS_DISPLAY_TABLE_COLUMN => BOX_INLINE
  | CSS_DISPLAY_TABLE_CELL => BOX_TABLE_CELL
  | CSS_DISPLAY_TABLE_CAPTION => BOX_INLINE
  | CSS_DISPLAY_NONE => BOX_BLOCK

/-- `MAX_SPAN`. -/
def MAX_SPAN : Int := 100

/-- One edge of the border a `border` attribute gives: only where the edge
has no border style yet. -/
def box_border_edge (width : cfloat) (color : colour) (style : css_border_style)
    (b : css_border) : css_border :=
  if b.style = CSS_BORDER_STYLE_NONE then
    { color := color, width := CSS_BORDER_WIDTH_LENGTH, width_value := css_px width,
      style := style }
  else b

/-- The same change on each of the four entries of an array. -/
def sides.map {α : Type} (f : α → α) (s : sides α) : sides α :=
  { top := f s.top, right := f s.right, bottom := f s.bottom, left := f s.left }

/-- The loop of `box_set_cellpadding` over the children `children` of a box;
the recursion into row groups and rows goes at most `fuel` deep. -/
def box_set_cellpadding_children (value : Int) : Nat → List Nat → content → content
  | 0, _, st => st
  | fuel + 1, children, st =>
    children.foldl (fun st child =>
      match (st.box_at child).type with
      | BOX_TABLE_ROW_GROUP => box_set_cellpadding_children value fuel (st.box_at child).children st
      | BOX_TABLE_ROW => box_set_cellpadding_children value fuel (st.box_at child).children st
      | BOX_TABLE_CELL =>
        match (st.box_at child).style with
        | some s =>
          st.modify_style s (fun x =>
            { x with padding := x.padding.map (fun _ =>
                { padding := CSS_PADDING_LENGTH, length := css_px (cfloat.ofInt value) }) })
        | none => st
      | _ => st) st

/-- `box_set_cellpadding`: set the cellpadding on a table. The descendants of
the box are searched for table cells, and the padding is set on each one. (A
tree of boxes is no deeper than the number of boxes.) -/
def box_set_cellpadding (box : Nat) (value : Int) (st : content) : content :=
  box_set_cellpadding_children value st.boxes.length (st.box_at box).children st

/-- The loop of `box_set_table_border` over the children `children` of a box;
the recursion into row groups and rows goes at most `fuel` deep. -/
def box_set_table_border_children (value : Int) (color : colour) :
    Nat → List Nat → content → content
  | 0, _, st => st
  | fuel + 1, children, st =>
    children.foldl (fun st child =>
      match (st.box_at child).type with
      | BOX_TABLE_ROW_GROUP =>
        box_set_table_border_children value color fuel (st.box_at child).children st
      | BOX_TABLE_ROW =>
        box_set_table_border_children value color fuel (st.box_at child).children st
      | BOX_TABLE_CELL =>
        match (st.box_at child).style with
        | some s =>
          st.modify_style s (fun x =>
            { x with border :=
                x.border.map (box_border_edge (cfloat.ofInt 1) color CSS_BORDER_STYLE_INSET) })
        | none => st
      | _ => st) st

/-- `box_set_table_border`: set the borders on a table. The descendants of
the box are searched for table cells, and the border is set on each one. -/
def box_set_table_border (box : Nat) (value : Int) (color : colour) (st : content) : content :=
  let st :=
    if (st.box_at box).type = BOX_TABLE then
      match (st.box_at box).style with
      | some s =>
        st.modify_style s (fun x =>
          { x with border :=
              x.border.map (box_border_edge (cfloat.ofInt value) color CSS_BORDER_STYLE_OUTSET) })
      | none => st
    else st
  box_set_table_border_children value color st.boxes.length (st.box_at box).children st

/-- The loop of `box_construct_element` that transfers `<tr height="n">` down
to the `<td>` elements, over the children of the row box; `value` is carried
from one cell to the next. -/
def box_row_height (E : Env) : List Nat → cfloat → content → content
  | [], _, st => st
  | child :: rest, value, st =>
    if (st.box_at child).type = BOX_TABLE_CELL then
      match (st.box_at child).style with
      | some s =>
        let current := E.css_len2px (st.style_at s).height.length (st.style_at s)
        let value := if cfloat.lt current value then value else current
        box_row_height E rest value
          (st.modify_style s (fun x =>
            { x with height := { height := CSS_HEIGHT_LENGTH, length := css_px value } }))
      | none => box_row_height E rest value st
    else box_row_height E rest value st

/-- The local variables of `box_construct_element` once the box has been
created and the special convert function, if any, has run. -/
structure element_locals where
  box : Nat
  style : Nat
  convert_children : Bool
  href : Option cstr
  target : Option frame_target
  title : Option cstr
  id : Option cstr

/-- The first part of `box_construct_element`: the style is allocated, the
title and id attributes are extracted, the box is created and its type is set
from the style (`style_value` is the style `box_get_style` returned, whose
display is not none). Returns the content, the box and the style. -/
def box_construct_element_box (n : xmlNode) (style_value : css_style) (href : Option cstr)
    (target : Option frame_target) (title : Option cstr) (st : content) :
    content × element_locals :=
  let (st, style) := st.new_style style_value
  /- extract title attribute, if present -/
  let title := match xmlGetProp n "title".toList with
    | some title0 => some (squash_whitespace title0)
    | none => title
  /- extract id attribute, if present -/
  let id := box_get_attribute n "id".toList none
  /- create box for this element -/
  let (st, box) := box_create (some style) href target title id st
  /- set box type from style -/
  let st := box_set_type box (box_map style_value.display) st
  (st, { box := box, style := style, convert_children := true, href := href,
         target := target, title := title, id := id })

/-- The second part of `box_construct_element`: special elements. Returns
`none` on memory exhaustion, otherwise the content and the local variables
`convert_children`, `href` and `target` as the convert function leaves
them. -/
def box_construct_element_special (E : Env) (conv : children_conversion) (n : xmlNode)
    (l : element_locals) (st : content) : Option (content × element_locals) :=
  match bsearch n.name element_table with
  | some convert =>
    /- a special convert function exists for this element -/
    match box_special E conv convert n l.box st with
    | none => none
    | some (st, convert_children) =>
      some (st, { l with convert_children := convert_children,
                         href := (st.box_at l.box).href,
                         target := (st.box_at l.box).target })
  | none => some (st, l)

/-- `box_add_child(*inline_container, child)`, at the places where the
current inline container exists. -/
def box_add_child_inline (inline_container : Option Nat) (child : Nat) (st : content) : content :=
  match inline_container with
  | some ic => box_add_child ic child st
  | none => st

/-- In `box_construct_element`, the container for the first inline in a
block: if there is no current inline container and the box is inline,
line-break or inline-block or the style floats, make a container. Returns the
content and `*inline_container`. -/
def box_construct_element_container (l : element_locals) (parent : Nat)
    (inline_container : Option Nat) (st : content) : content × Option Nat :=
  let type := (st.box_at l.box).type
  let float_ := (st.style_at l.style).float_
  if inline_container.isNone &&
      (type == BOX_INLINE || type == BOX_BR || type == BOX_INLINE_BLOCK ||
        float_ == CSS_FLOAT_LEFT || float_ == CSS_FLOAT_RIGHT) then
    /- this is the first inline in a block: make a container -/
    let (st, ic) := box_inline_container parent none st
    (st, some ic)
  else (st, inline_container)

/-- In `box_construct_element`, the inline-end box of an inline box whose
children have been converted: it is created with the style of the box, added
to the current inline container or, if there is none, to the parent of the
box, and the two boxes are made to refer to each other. -/
def box_construct_element_inline_end (l : element_locals) (inline_container : Option Nat)
    (st : content) : content :=
  let (st, inline_end) := box_create (some l.style) l.href l.target l.title l.id st
  let st := box_set_type inline_end BOX_INLINE_END st
  let st := match inline_container with
    | some ic => box_add_child ic inline_end st
    | none =>
      match (st.box_at l.box).parent with
      | some p => box_add_child p inline_end st
      | none => st
  let st := st.modify_box l.box (fun b => { b with inline_end := some inline_end })
  st.modify_box inline_end (fun b => { b with inline_end := some l.box })

/-- In `box_construct_element`, the case of an inline or line-break box: add
to tree and recurse. -/
def box_construct_element_inline (conv : children_conversion) (n : xmlNode)
    (l : element_locals) (parent : Nat) (inline_container : Option Nat) (st : content) :
    Option (content × Option Nat) :=
  let st := box_add_child_inline inline_container l.box st
  if l.convert_children && n.children.is_node then
    match conv l.style parent inline_container l.href l.target l.title st with
    | none => none
    | some (st, inline_container) =>
      some (box_construct_element_inline_end l inline_container st, inline_container)
  else some (st, inline_container)

/-- In `box_construct_element`, the case of an inline-block box: add to tree
and recurse. -/
def box_construct_element_inline_block (conv : children_conversion) (l : element_locals)
    (inline_container : Option Nat) (st : content) : Option (content × Option Nat) :=
  let st := box_add_child_inline inline_container l.box st
  match (if l.convert_children then conv l.style l.box none l.href l.target l.title st
         else some (st, none)) with
  | none => none
  | some (st, _) => some (st, inline_container)

/-- In `box_construct_element`, a float: insert a float box between the
parent and current node. Returns the content and `parent`. -/
def box_construct_element_float (l : element_locals) (parent : Nat)
    (inline_container : Option Nat) (st : content) : content × Nat :=
  let float_ := (st.style_at l.style).float_
  if float_ = CSS_FLOAT_LEFT ∨ float_ = CSS_FLOAT_RIGHT then
    let (st, parent) := box_create none l.href l.target l.title none st
    let st := box_set_type parent
      (if float_ = CSS_FLOAT_LEFT then BOX_FLOAT_LEFT else BOX_FLOAT_RIGHT) st
    let st := box_add_child_inline inline_container parent st
    let st :=
      if (st.box_at l.box).type = BOX_INLINE ∨ (st.box_at l.box).type = BOX_INLINE_BLOCK then
        box_set_type l.box BOX_BLOCK st
      else st
    (st, parent)
  else (st, parent)

/-- In `box_construct_element`, the case of a box that is not inline,
line-break or inline-block: a float box is inserted if the style floats, and
the box is added to the tree and the children converted. -/
def box_construct_element_block (conv : children_conversion) (l : element_locals)
    (parent : Nat) (inline_container : Option Nat) (st : content) :
    Option (content × Option Nat) :=
  let (st, parent) := box_construct_element_float l parent inline_container st
  /- non-inline box: add to tree and recurse -/
  let st := box_add_child parent l.box st
  match (if l.convert_children then conv l.style l.box none l.href l.target l.title st
         else some (st, none)) with
  | none => none
  | some (st, _) =>
    if (st.style_at l.style).float_ = CSS_FLOAT_NONE then
      /- new inline container unless this is a float -/
      some (st, none)
    else some (st, inline_container)

/-- The third part of `box_construct_element`: the box is added to the tree
and the children are converted. Returns `none` on memory exhaustion, otherwise
the content and `*inline_container`. -/
def box_construct_element_tree (conv : children_conversion) (n : xmlNode)
    (l : element_locals) (parent : Nat) (inline_container : Option Nat) (st : content) :
    Option (content × Option Nat) :=
  let (st, inline_container) := box_construct_element_container l parent inline_container st
  let type := (st.box_at l.box).type
  if type = BOX_INLINE ∨ type = BOX_BR then
    box_construct_element_inline conv n l parent inline_container st
  else if type = BOX_INLINE_BLOCK then
    box_construct_element_inline_block conv l inline_container st
  else
    box_construct_element_block conv l parent inline_container st

/-- The `colspan` and `rowspan` attributes, in `box_construct_element`. The
members `columns` and `rows` of `struct box` are `unsigned int`: the
assignment converts the `long` that `strtol` returns, and the comparison with
`MAX_SPAN` reads the member. -/
def box_construct_element_span (n : xmlNode) (box : Nat) (st : content) : content :=
  let st := match xmlGetProp n "colspan".toList with
    | some s =>
      let columns := unsigned_of_long (strtol s).1
      st.modify_box box (fun b => { b with columns := if MAX_SPAN < columns then 1 else columns })
    | none => st
  match xmlGetProp n "rowspan".toList with
  | some s =>
    let rows := unsigned_of_long (strtol s).1
    st.modify_box box (fun b => { b with rows := if MAX_SPAN < rows then 1 else rows })
  | none => st

/-- The `cellpadding`, `bordercolor` and `border` attributes of a `table`
element, in `box_construct_element`. -/
def box_construct_element_table (E : Env) (n : xmlNode) (box : Nat) (st : content) : content :=
  if n.name = "table".toList then
    let border_color : colour := 0x888888 /- default colour -/
    let st := match xmlGetProp n "cellpadding".toList with
      | some s =>
        let value := (strtol s).1
        if (strtol s).2.isEmpty && 0 ≤ value && value < 1000 then
          /- % not implemented -/
          box_set_cellpadding box value st
        else st
      | none => st
    let border_color := match xmlGetProp n "bordercolor".toList with
      | some s => box_attribute_colour E s border_color
      | none => border_color
    match xmlGetProp n "border".toList with
    | some s =>
      let value := atoi s
      if !strrchr_found s '%' && 0 < value then /- % not implemented -/
        box_set_table_border box value border_color st
      else st
    | none => st
  else st

/-- The `height` attribute of a `tr` element, in `box_construct_element`:
transfer <tr height="n"> down to the <td> elements. -/
def box_construct_element_tr (E : Env) (n : xmlNode) (box : Nat) (st : content) : content :=
  if n.name = "tr".toList then
    match xmlGetProp n "height".toList with
    | some s =>
      /- float value = atof(s); -/
      let value := (atof s).to_float
      if value.lt_zero || s.isEmpty then
        st /- ignore negative values and height="" -/
      else if strrchr_found s '%' then
        st
      else
        /- The tree is not normalized yet, so accept cells not in rows and
           rows not in row groups. -/
        box_row_height E (st.box_at box).children value st
    | none => st
  else st

/-- The end of `box_construct_element`: fetch any background image for this
box. Returns `none` on memory exhaustion. -/
def box_construct_element_background (E : Env) (l : element_locals) (st : content) :
    Option content :=
  let style := st.style_at l.style
  if style.background_image.type = CSS_BACKGROUND_IMAGE_URI then
    html_fetch_object E (style.background_image.uri.getD []) l.box permitted_types.image_types
      st.available_width 1000 true none st
  else some st

/-- The last part of `box_construct_element`: misc. attributes that can't be
handled in `box_get_style()`, and the fetch of any background image for this
box. Returns `none` on memory exhaustion. -/
def box_construct_element_attributes (E : Env) (n : xmlNode) (l : element_locals)
    (st : content) : Option content :=
  let st := box_construct_element_span n l.box st
  let st := box_construct_element_table E n l.box st
  let st := box_construct_element_tr E n l.box st
  box_construct_element_background E l st

/-- `box_construct_element`, with the conversion of the children of `n`
passed in as `conv`: construct the box tree for an XML element.
`inline_container` is `*inline_container` on entry; returns `none` on memory
exhaustion, otherwise the content and `*inline_container` on exit. -/
def box_construct_element_with (E : Env) (conv : children_conversion) (n : xmlNode)
    (parent_style parent : Nat) (inline_container : Option Nat) (href : Option cstr)
    (target : Option frame_target) (title : Option cstr) (st : content) :
    Option (content × Option Nat) :=
  match box_get_style E st.base_url (st.style_at parent_style) n with
  | none => none
  | some style_value =>
    if style_value.display = CSS_DISPLAY_NONE then
      some (st, inline_container)
    else
      let (st, l) := box_construct_element_box n style_value href target title st
      match box_construct_element_special E conv n l st with
      | none => none
      | some (st, l) =>
        if (st.style_at l.style).display = CSS_DISPLAY_NONE then
          /- the box is freed: it was not added to the tree -/
          some (st, inline_container)
        else
          match box_construct_element_tree conv n l parent inline_container st with
          | none => none
          | some (st, inline_container) =>
            match box_construct_element_attributes E n l st with
            | none => none
            | some st => some (st, inline_container)

/-- `convert_xml_to_box`, with the conversion of the children of `n` passed
in as `conv`. -/
def convert_xml_to_box_with (E : Env) (conv : children_conversion) (n : xmlNode)
    (parent_style parent : Nat) (inline_container : Option Nat) (href : Option cstr)
    (target : Option frame_target) (title : Option cstr) (st : content) :
    Option (content × Option Nat) :=
  match n.type with
  | XML_ELEMENT_NODE =>
    box_construct_element_with E conv n parent_style parent inline_container href target title st
  | XML_TEXT_NODE =>
    box_construct_text n parent_style parent inline_container href target title st
  | XML_COMMENT_NODE =>
    /- not an element or text node: ignore it (eg. comment) -/
    some (st, inline_container)

/-- The loop
`for (; c; c = c->next) if (!convert_xml_to_box(c, content, parent_style, parent, inline_container, href, target, title)) return false;`
over a node `c` and its following siblings. -/
def convert_children (E : Env) : xmlNode → children_conversion
  | .null, _, _, inline_container, _, _, _, st => some (st, inline_container)
  | .node t name hp ps tx children next, parent_style, parent, inline_container, href,
      target, title, st =>
    match convert_xml_to_box_with E (convert_children E children)
        (.node t name hp ps tx children next)
        parent_style parent inline_container href target title st with
    | none => none
    | some (st, inline_container) =>
      convert_children E next parent_style parent inline_container href target title st

/-- `convert_xml_to_box`: recursively construct a box tree from an xml tree
and stylesheets. -/
def convert_xml_to_box (E : Env) (n : xmlNode) : children_conversion :=
  convert_xml_to_box_with E (convert_children E n.children) n

/-- `box_construct_element`: construct the box tree for an XML element. -/
def box_construct_element (E : Env) (n : xmlNode) : children_conversion :=
  box_construct_element_with E (convert_children E n.children) n

/-- The content at the start of `xml_to_box`: nothing allocated yet. -/
def content_start (base_url : cstr) (available_width : Int) : content :=
  { boxes := [], styles := [], controls := [], forms := [], object := [],
    base_url := base_url, background_colour := 0, available_width := available_width,
    encoding := none, layout := none }

/-- `xml_to_box` up to the call of `box_normalise_block`: the root box (a
block), the base style of the document, and the conversion of the tree. The
root box is box 0 and the base style is style 0. -/
def xml_to_box (E : Env) (n : xmlNode) (c : content) : Option (content × Option Nat) :=
  let (c, root) := box_create none none none none none c
  let c := box_set_type root BOX_BLOCK c
  let (c, style) := c.new_style
    { E.css_base_style with
      font_size := cfloat.fin E.option_font_size 10,
      font_family := E.option_font_default }
  let c := { c with object := [] }
  convert_xml_to_box E n style root none none none none c


/-! ## An example document -/

/-- A CSS engine for examples: the style sheet makes `p` and `div` blocks,
`hidden` elements display none, and any other element inline; display, float
and position are not inherited, the other properties are those of the parent
(`white-space: normal` and no text transformation from the base style on).
URLs join to the relative URL itself and every fetch is accepted. -/
def example_env : Env :=
  { malloc := fun _ => true,
    url_join := fun rel _ => URL_FUNC_OK rel,
    css_base_style :=
      { css_style_zero with
        display := CSS_DISPLAY_BLOCK, float_ := CSS_FLOAT_NONE,
        position := CSS_POSITION_STATIC, white_space := CSS_WHITE_SPACE_NORMAL,
        text_transform := CSS_TEXT_TRANSFORM_NONE,
        background_image := { type := CSS_BACKGROUND_IMAGE_NONE, uri := none } },
    css_get_style := fun n =>
      { css_style_zero with
        display :=
          if n.name = "p".toList ∨ n.name = "div".toList then CSS_DISPLAY_BLOCK
          else if n.name = "hidden".toList then CSS_DISPLAY_NONE
          else CSS_DISPLAY_INLINE,
        float_ := CSS_FLOAT_NONE, position := CSS_POSITION_STATIC },
    css_cascade := fun style style_new =>
      { style with display := style_new.display, float_ := style_new.float_,
                   position := style_new.position },
    css_parse_property_list := fun _ => css_style_zero,
    css_len2px := fun l _ => l.value,
    named_colour := fun _ => 0,
    messages_get := fun s => s,
    content_lookup_other := fun _ => false,
    strip := fun s => s,
    fetch_ok := fun _ => true,
    option_font_size := 100,
    option_font_default := 0 }

/-- A text node. -/
def example_text (s : String) (next : xmlNode) : xmlNode :=
  .node XML_TEXT_NODE "text".toList true [] s.toList .null next

/-- An element without attributes. -/
def example_element (name : String) (children next : xmlNode) : xmlNode :=
  .node XML_ELEMENT_NODE name.toList true [] [] children next

/-- The markup `<p>a <b>bold</b> c</p>`. -/
def example_p : xmlNode :=
  example_element "p"
    (example_text "a " (example_element "b" (example_text "bold" .null) (example_text " c" .null)))
    .null


/-- The element `<b>bold</b>` of the markup, with the text that follows it. -/
def example_b : xmlNode :=
  example_element "b" (example_text "bold" .null) (example_text " c" .null)

/-- The content when `xml_to_box` starts to convert the tree: the root box
(box 0) and the base style (style 0). -/
def example_root : content :=
  let (c, root) := box_create none none none none none (content_start "http://site/".toList 800)
  let c := box_set_type root BOX_BLOCK c
  (c.new_style
    { example_env.css_base_style with
      font_size := cfloat.fin example_env.option_font_size 10,
      font_family := example_env.option_font_default }).1

/-- The element `<input type="hidden">`. -/
def example_hidden : xmlNode :=
  .node XML_ELEMENT_NODE "input".toList true [("type".toList, some "hidden".toList)] [] .null .null

/-- The markup `<object data="http://other/o"><div>x</div></object>`: an
element that the style sheet makes inline, with a block-level child. -/
def example_object : xmlNode :=
  .node XML_ELEMENT_NODE "object".toList true [("data".toList, some "http://other/o".toList)] []
    (example_element "div" (example_text "x" .null) .null) .null

/-! ## Specification-side definitions -/

/-- The cleaned link as the specification words it: leading and trailing
whitespace removed, every remaining byte below 0x20 deleted, every remaining
space replaced by `%20`. -/
def spec_clean_link (rel : cstr) : cstr :=
  (((rel.dropWhile isspace).rdropWhile isspace).filter (fun c => !decide (c.toNat < 0x20))).flatMap
    (fun c => if c = ' ' then "%20".toList else [c])

/-- The text between the first `q` of `s` and the next `q`, when both
exist. -/
def between_quotes (q : Char) (s : cstr) : Option cstr :=
  match s.dropWhile (· != q) with
  | [] => none
  | _ :: r => if q ∈ r then some (r.takeWhile (· != q)) else none

/-- The string resolved for a `javascript:` link as the claim words it: the
text between the first apostrophe and the next one, unless a double quote
appears strictly earlier than the first apostrophe, in which case the text
between the first double quote and the next one; the whole string when it
contains no closed quoted literal. `none` when the text named does not
exist. -/
def claimed_javascript_target (s : cstr) : Option cstr :=
  if (between_quotes APOS s).isNone && (between_quotes QUOT s).isNone then some s
  else if QUOT ∈ s.takeWhile (· != APOS) then between_quotes QUOT s
  else between_quotes APOS s

/-- The string resolved for a `javascript:` link, closedness of the literals
taken into account: the apostrophe literal when it is closed and either no
double-quote literal is closed or the first apostrophe precedes the first
double quote; else the double-quote literal when it is closed; else the whole
string. -/
def amended_javascript_target (s : cstr) : cstr :=
  match between_quotes APOS s, between_quotes QUOT s with
  | some a, some q => if APOS ∈ s.takeWhile (· != QUOT) then a else q
  | some a, none => a
  | none, some q => q
  | none, none => s

/-! ## Invariants of the box arena -/

/-- The inline-level kinds: inline, inline-block and line-break. -/
def inline_level (t : box_type) : Prop :=
  t = BOX_INLINE ∨ t = BOX_INLINE_BLOCK ∨ t = BOX_BR

/-- The box `i` of the arena is an inline container. -/
def is_inline_container (bs : List box) (i : Nat) : Prop :=
  ∃ b, bs[i]? = some b ∧ b.type = BOX_INLINE_CONTAINER

/-- Every inline-level box that has a parent has an inline container as its
parent. -/
def inline_in_container (bs : List box) : Prop :=
  ∀ (c : Nat) (bc : box) (p : Nat), bs[c]? = some bc → bc.parent = some p →
    inline_level bc.type →
    is_inline_container bs p

/-- The `inline_end` references go in pairs: the box referred to refers
back. -/
def inline_end_paired (bs : List box) : Prop :=
  ∀ (i : Nat) (bi : box) (e : Nat), bs[i]? = some bi → bi.inline_end = some e →
    ∃ be : box, bs[e]? = some be ∧ be.inline_end = some i

/-- The invariant of the box arena during conversion. -/
def well_formed (bs : List box) : Prop :=
  inline_in_container bs ∧ inline_end_paired bs

/-- The box `i` has not been added to the tree and is not an inline
container. -/
def detached (bs : List box) (i : Nat) : Prop :=
  ∃ b, bs[i]? = some b ∧ b.parent = none ∧ b.type ≠ BOX_INLINE_CONTAINER

/-- What a step of the conversion leaves as it is in the boxes below `n` and
in the box `ex`: the parent, the paired box, the style and, but for `ex`, the
kind; the kind of `ex` may change to another that is not inline container. -/
structure box_frame (n : Nat) (ex : Option Nat) (bs bs' : List box) : Prop where
  len : bs.length ≤ bs'.length
  old : ∀ (i : Nat) (b : box), (i < n ∨ ex = some i) → bs[i]? = some b →
    ∃ b' : box, bs'[i]? = some b' ∧ b'.parent = b.parent ∧ b'.inline_end = b.inline_end ∧
      b'.style = b.style ∧
      (b'.type = b.type ∨ (ex = some i ∧ b'.type ≠ BOX_INLINE_CONTAINER))

/-- A step of the conversion from `st` to `st'`: it respects `box_frame`, and
keeps the arena well-formed provided the box `ex` is detached. -/
structure grows (n : Nat) (ex : Option Nat) (st st' : content) : Prop where
  frame : box_frame n ex st.boxes st'.boxes
  wf : well_formed st.boxes → (∀ i, ex = some i → detached st.boxes i) →
    well_formed st'.boxes

/-- The steps of a special convert function for the box `box`, from `st`:
they respect the frame of all the boxes of `st`, the kind of `box`
excepted. -/
def handler_steps (box : Nat) (st st' : content) : Prop :=
  box < st.boxes.length ∧ grows st.boxes.length (some box) st st'

/-- What the conversion of the children of a node keeps: the boxes that exist
are left as they are, the arena stays well-formed, and the current inline
container, if any, is an inline container. -/
def conv_ok (conv : children_conversion) : Prop :=
  ∀ (ps p : Nat) (ic : Option Nat) (h : Option cstr) (t : Option frame_target)
    (ti : Option cstr) (X Y : content) (ic' : Option Nat),
    conv ps p ic h t ti X = some (Y, ic') →
    (∀ c, ic = some c → is_inline_container X.boxes c) →
    grows X.boxes.length none X Y ∧ (∀ c, ic' = some c → is_inline_container Y.boxes c)

/-- The current inline container, if any, is an inline container. -/
def valid_container (ic : Option Nat) (st : content) : Prop :=
  ∀ c, ic = some c → is_inline_container st.boxes c

/-- What the conversion of an inline element with children leaves: the box
`b` and a box `e` created for it, of kind inline-end, refer to each other. -/
def inline_end_pair (m b : Nat) (t : box_type) (st' : content) : Prop :=
  ∃ (e : Nat) (yb ye : box), m ≤ e ∧ st'.boxes[b]? = some yb ∧ yb.inline_end = some e ∧
    yb.type = t ∧ st'.boxes[e]? = some ye ∧ ye.inline_end = some b ∧ ye.type = BOX_INLINE_END

/-- What a step of the conversion leaves as it is in the styles below `m`:
the display. -/
def keeps_display (m : Nat) (st st' : content) : Prop :=
  st.styles.length ≤ st'.styles.length ∧
    ∀ i, i < m → (st'.style_at i).display = (st.style_at i).display

/-- The steps of a special convert function that leave the display of the
styles of `st`. -/
def handler_display (box : Nat) (st st' : content) : Prop :=
  box < st.boxes.length ∧ keeps_display st.styles.length st st'

/-- The steps of a special convert function that set the style `s` and leave
the boxes, the fetches and the display of the other styles of `st`. -/
def handler_quiet (s : Nat) (st st' : content) : Prop :=
  st'.boxes = st.boxes ∧ st'.object = st.object ∧ st'.styles.length = st.styles.length ∧
    ∀ i, i ≠ s → (st'.style_at i).display = (st.style_at i).display

/-- What the conversion of the children of a node leaves as it is: the
display of the styles that exist. -/
def conv_display (conv : children_conversion) : Prop :=
  ∀ (ps p : Nat) (ic : Option Nat) (h : Option cstr) (t : Option frame_target)
    (ti : Option cstr) (X Y : content) (ic' : Option Nat),
    conv ps p ic h t ti X = some (Y, ic') → keeps_display X.styles.length X Y

/-! ## Further examples and specification-side definitions -/

/-- Specification-side: some node of the sibling chain from `c` on is named
`option`. -/
def has_option : xmlNode → Bool
  | .null => false
  | .node _ name _ _ _ _ next => decide (name = "option".toList) || has_option next

/-- Specification-side: the element whose children start at `c` has an option
child, either direct or inside an `optgroup` child. -/
def select_has_option : xmlNode → Bool
  | .null => false
  | .node _ name _ _ _ children next =>
    decide (name = "option".toList) ||
      (decide (name = "optgroup".toList) && has_option children) ||
      select_has_option next

/-- A `select` element without options: `<select name="s"><optgroup/>text</select>`. -/
def example_select : xmlNode :=
  .node XML_ELEMENT_NODE "select".toList true [("name".toList, some "s".toList)] []
    (.node XML_ELEMENT_NODE "optgroup".toList true [] [] .null
      (.node XML_TEXT_NODE "text".toList true [] "text".toList .null .null))
    .null

/-- The element `<input type="hidden" value="x" name="y">`. -/
def example_hidden_input : xmlNode :=
  .node XML_ELEMENT_NODE "input".toList true
    [("type".toList, some "hidden".toList), ("value".toList, some "x".toList),
     ("name".toList, some "y".toList)] [] .null .null

/-- The content of `example_root` inside a form `<form action="a">`. -/
def example_form_root : content :=
  { example_root with
    forms := [{ action := "a".toList, method := method_GET, accept_charsets := none,
                document_charset := none, controls := [] }] }

/-- A CSS engine for examples whose style sheet sets every property
explicitly: a colour, a background image and colour, a height, a width, a
border spacing and margins; nothing is inherited. -/
def example_styled_env : Env :=
  { example_env with
    css_get_style := fun _ =>
      { css_style_zero with
        display := CSS_DISPLAY_INLINE, float_ := CSS_FLOAT_NONE,
        position := CSS_POSITION_STATIC,
        color := 0x112233,
        background_color := 0x00ff00,
        background_image := { type := CSS_BACKGROUND_IMAGE_URI, uri := some "bg.png".toList },
        height := { height := CSS_HEIGHT_LENGTH, length := css_px (cfloat.ofInt 10) },
        width := { width := CSS_WIDTH_LENGTH, length := css_px (cfloat.ofInt 20),
                   percent := cfloat.ofInt 0 },
        border_spacing :=
          { border_spacing := CSS_BORDER_SPACING_LENGTH,
            horz := css_px (cfloat.ofInt 3), vert := css_px (cfloat.ofInt 3) },
        margin :=
          let m : css_margin :=
            { margin := CSS_MARGIN_LENGTH, length := css_px (cfloat.ofInt 4) }
          { top := m, right := m, bottom := m, left := m } },
    css_cascade := fun _ style_new => style_new }

/-- An element with the given name and attributes, without children. -/
def example_attributes (name : String) (attributes : List (String × String)) : xmlNode :=
  .node XML_ELEMENT_NODE name.toList true
    (attributes.map (fun a => (a.1.toList, some a.2.toList))) [] .null .null

/-- The root element `<body background="x.png" bgcolor="#000000">`. -/
def example_body : xmlNode :=
  .node XML_ELEMENT_NODE "body".toList false
    [("background".toList, some "x.png".toList), ("bgcolor".toList, some "#000000".toList)]
    [] .null .null

/-- The anchor `<a target="_blank">`. -/
def example_anchor : xmlNode :=
  .node XML_ELEMENT_NODE "a".toList true [("target".toList, some "_blank".toList)] [] .null .null

/-- Specification-side: the `param` element children among the nodes from `c`
on, in document order. -/
def param_children : xmlNode → List xmlNode
  | .null => []
  | .node t name hp ps tx children next =>
    if t = XML_ELEMENT_NODE ∧ name = "param".toList then
      .node t name hp ps tx children next :: param_children next
    else param_children next

/-- Specification-side: the `param` element children among the nodes from `c`
on that come before the first element child that is not a `param`, in document
order. -/
def leading_param_children : xmlNode → List xmlNode
  | .null => []
  | .node t name hp ps tx children next =>
    if t ≠ XML_ELEMENT_NODE then leading_param_children next
    else if name = "param".toList then
      .node t name hp ps tx children next :: leading_param_children next
    else []

/-- Specification-side: the parameter of a `param` element: its attributes
`name`, `value`, `type` and `valuetype`, the latter `data` when absent. -/
def object_param_of (c : xmlNode) : object_param :=
  { name := xmlGetProp c "name".toList,
    value := xmlGetProp c "value".toList,
    type := xmlGetProp c "type".toList,
    valuetype := some ((xmlGetProp c "valuetype".toList).getD "data".toList) }

/-- The markup
`<object data="http://other/o"><param name="a"><p>x</p><param name="b"></object>`:
a parameter, the alternative content, and a `param` element after it. -/
def example_object_params : xmlNode :=
  .node XML_ELEMENT_NODE "object".toList true [("data".toList, some "http://other/o".toList)] []
    (.node XML_ELEMENT_NODE "param".toList true [("name".toList, some "a".toList)] [] .null
      (example_element "p" (example_text "x" .null)
        (.node XML_ELEMENT_NODE "param".toList true [("name".toList, some "b".toList)] []
          .null .null)))
    .null

/-- The content when `box_construct_element` calls `box_object` for
`example_object_params` under the root of `example_root`: box 1 is the box of
the element, with style 1. -/
def example_object_content : content :=
  (box_construct_element_box example_object_params
    ((box_get_style example_env example_root.base_url (example_root.style_at 0)
      example_object_params).getD css_style_zero) none none none example_root).1

/-- Specification-side: the number of line breaks in `s`, each `\r\n`, lone
`\r` or lone `\n` counting once. -/
def line_breaks : cstr → Nat
  | [] => 0
  | [c] => if c.toNat = 13 ∨ c.toNat = 10 then 1 else 0
  | c :: d :: r =>
    if c.toNat = 13 ∧ d.toNat = 10 then line_breaks r + 1
    else if c.toNat = 13 ∨ c.toNat = 10 then line_breaks (d :: r) + 1
    else line_breaks (d :: r)

/-- The element `<textarea>` with the content `a`, `\r\n`, `\n`, `b`: three
lines, the second one empty. -/
def example_textarea : xmlNode :=
  .node XML_ELEMENT_NODE "textarea".toList true [] []
    (.node XML_TEXT_NODE "text".toList true [] ['a', Char.ofNat 13, Char.ofNat 10, Char.ofNat 10, 'b']
      .null .null)
    .null

/-- Specification-side: the `frame` and `frameset` element children among the
nodes from `c` on, in document order. -/
def frame_children : xmlNode → List xmlNode
  | .null => []
  | .node t name hp ps tx children next =>
    if t = XML_ELEMENT_NODE ∧ (name = "frame".toList ∨ name = "frameset".toList) then
      .node t name hp ps tx children next :: frame_children next
    else frame_children next

/-- Specification-side: the number of entries of the multi-length attribute
`attr` of `n`, one per comma-separated token; an absent attribute counts
as 1. -/
def attribute_entries (n : xmlNode) (attr : cstr) : Nat :=
  match xmlGetProp n attr with
  | some s => 1 + s.count ','
  | none => 1

/-- The column of a frameset table for one entry of `cols`. -/
def frameset_column (w : box_multi_length) : column :=
  { type := match w.type with
      | LENGTH_PX => COLUMN_WIDTH_FIXED
      | LENGTH_PERCENT => COLUMN_WIDTH_PERCENT
      | LENGTH_RELATIVE => COLUMN_WIDTH_RELATIVE,
    width := w.value, min := 1, max := 10000 }

/-- What a step of `box_frameset` leaves as it is in the boxes below `n`:
the kind, the column array and the widths; the children, to which it may add;
and, but for the boxes of `ex`, the whole box. The base URL stays and the
fetches started are added to. -/
structure table_frame (n : Nat) (ex : List Nat) (st st' : content) : Prop where
  len : st.boxes.length ≤ st'.boxes.length
  base : st'.base_url = st.base_url
  obj : ∃ l, st'.object = st.object ++ l
  old : ∀ (i : Nat) (x : box), i < n → st.boxes[i]? = some x →
    ∃ y : box, st'.boxes[i]? = some y ∧ y.type = x.type ∧ y.col = x.col ∧
      y.min_width = x.min_width ∧ y.max_width = x.max_width ∧
      (∃ cs, y.children = x.children ++ cs) ∧ (i ∉ ex → y = x)

/-- The box `cell` of `st`, created at or after `lo`, is the table cell of the
frame child `c` of a frameset: the cell of a nested `frameset` holds the table
box of that frameset, and the cell of a `frame` has no children and is the box
of the fetch of the frame's `src`, if that resolves (against `base`) to a URL
other than the document's. -/
def frame_cell (E : Env) (base : cstr) (lo : Nat) (st : content) (c : xmlNode) (cell : Nat) :
    Prop :=
  lo ≤ cell ∧ (st.box_at cell).type = BOX_TABLE_CELL ∧
  (c.name = "frameset".toList →
    ∃ fb, lo ≤ fb ∧ (st.box_at cell).children = [fb] ∧ (st.box_at fb).type = BOX_TABLE) ∧
  (c.name ≠ "frameset".toList →
    (st.box_at cell).children = [] ∧
    ∀ s url, xmlGetProp c "src".toList = some s →
      E.url_join (E.strip s) base = URL_FUNC_OK url → strcasecmp_eq url base = false →
      ∃ o ∈ st.object, o.url = url ∧ o.box = cell ∧ o.frame = xmlGetProp c "name".toList)

/-- The markup `<frameset rows="50%,*"><frame src="a"><frame src="b"></frameset>`. -/
def example_frameset : xmlNode :=
  .node XML_ELEMENT_NODE "frameset".toList true [("rows".toList, some "50%,*".toList)] []
    (.node XML_ELEMENT_NODE "frame".toList true [("src".toList, some "a".toList)] [] .null
      (.node XML_TEXT_NODE "text".toList true [] " ".toList .null
        (.node XML_ELEMENT_NODE "frame".toList true [("src".toList, some "b".toList)] [] .null
          .null)))
    .null

/-- Specification-side: the value of a token of a multi-length list: the
number that the token starts with after white space, as a `float`; 1 when
that number is zero or negative, and when there is no number (which reads as
zero). A NaN stays a NaN. -/
def token_value (tok : cstr) : cfloat :=
  let v := (strtof (tok.dropWhile isspace)).1
  if v.le_zero then cfloat.ofInt 1 else v

/-- Specification-side: the kind of length a token of a multi-length list
is, by the char that follows its number: a percent length for `%`, a relative
length for `*`, and a pixel length otherwise. -/
def token_type (tok : cstr) : multi_length_type :=
  match (strtof (tok.dropWhile isspace)).2 with
  | c :: _ =>
    if c.toNat == 37 then LENGTH_PERCENT
    else if c.toNat == 42 then LENGTH_RELATIVE
    else LENGTH_PX
  | [] => LENGTH_PX

/-- Specification-side: the column that a token of the `cols` attribute of a
frameset describes: fixed, percent or relative as the token is a pixel,
percent or relative length, with the value of the token as width. -/
def token_column (tok : cstr) : column :=
  { type := match token_type tok with
      | LENGTH_PX => COLUMN_WIDTH_FIXED
      | LENGTH_PERCENT => COLUMN_WIDTH_PERCENT
      | LENGTH_RELATIVE => COLUMN_WIDTH_RELATIVE,
    width := token_value tok, min := 1, max := 10000 }

/-- The markup
`<frameset cols="100.5,50%,*, 2.5*,1e-50,16777217"><frame src="a"><frame src="b"></frameset>`. -/
def example_frameset_cols : xmlNode :=
  .node XML_ELEMENT_NODE "frameset".toList true
    [("cols".toList, some "100.5,50%,*, 2.5*,1e-50,16777217".toList)] []
    (.node XML_ELEMENT_NODE "frame".toList true [("src".toList, some "a".toList)] [] .null
      (.node XML_ELEMENT_NODE "frame".toList true [("src".toList, some "b".toList)] [] .null
        .null))
    .null

/-- What the loops of `box_frameset` leave of `m` new rows of `cols` cells
each for the frame children `frames`, from `st` to `st'`: the frameset box `b`
has the row boxes `rows` as new children, each row with its cells as
children, and the cells are, row by row, those of the frame children in
document order. -/
def rows_result (E : Env) (cols : Nat) (b m : Nat) (frames : List xmlNode)
    (st st' : content) (rows : List (Nat × List Nat)) : Prop :=
  (st'.box_at b).children = (st.box_at b).children ++ rows.map Prod.fst ∧
  rows.length = m ∧
  (∀ rc ∈ rows, st.boxes.length ≤ rc.1 ∧ (st'.box_at rc.1).type = BOX_TABLE_ROW ∧
    (st'.box_at rc.1).children = rc.2 ∧ rc.2.length = cols) ∧
  List.Forall₂ (frame_cell E st.base_url st.boxes.length st') frames (rows.flatMap Prod.snd)

/-- What the loops of `box_frameset` leave from the column `col` of the row
box `rb` on: the cells `cells0` that fill the row, and then `m` new rows. -/
def grid_result (E : Env) (cols : Nat) (b rb col m : Nat) (frames : List xmlNode)
    (st st' : content) : Prop :=
  ∃ (cells0 : List Nat) (rows : List (Nat × List Nat)),
    (st'.box_at rb).children = (st.box_at rb).children ++ cells0 ∧
    cells0.length = cols - col ∧
    (st'.box_at b).children = (st.box_at b).children ++ rows.map Prod.fst ∧
    rows.length = m ∧
    (∀ rc ∈ rows, st.boxes.length ≤ rc.1 ∧ (st'.box_at rc.1).type = BOX_TABLE_ROW ∧
      (st'.box_at rc.1).children = rc.2 ∧ rc.2.length = cols) ∧
    List.Forall₂ (frame_cell E st.base_url st.boxes.length st') frames
      (cells0 ++ rows.flatMap Prod.snd)

/-- What a step of the conversion leaves as it is in the styles below `m`:
the float. -/
def keeps_float (m : Nat) (st st' : content) : Prop :=
  st.styles.length ≤ st'.styles.length ∧
    ∀ i, i < m → (st'.style_at i).float_ = (st.style_at i).float_

/-- The steps of a special convert function that leave the float of the
styles of `st`. -/
def handler_float (box : Nat) (st st' : content) : Prop :=
  box < st.boxes.length ∧ keeps_float st.styles.length st st'

/-- What the conversion of the children of a node leaves as it is: the float
of the styles that exist. -/
def conv_float (conv : children_conversion) : Prop :=
  ∀ (ps p : Nat) (ic : Option Nat) (h : Option cstr) (t : Option frame_target)
    (ti : Option cstr) (X Y : content) (ic' : Option Nat),
    conv ps p ic h t ti X = some (Y, ic') → keeps_float X.styles.length X Y

/-- Specification-side: the absolute URL that the link text `rel` resolves to
against `base`, if it can be resolved. -/
def resolved_url (E : Env) (rel base : cstr) : Option cstr :=
  match E.url_join (box_extract_link_s1 (box_extract_link_s rel)) base with
  | URL_FUNC_OK url => some url
  | _ => none

/-- Specification-side: the base against which the `data` of an object element
is resolved: its resolved `codebase` attribute, else the document's base
URL. -/
def object_codebase (E : Env) (n : xmlNode) (base_url : cstr) : cstr :=
  ((xmlGetProp n "codebase".toList).bind (fun s => resolved_url E s base_url)).getD base_url

/-- Specification-side: the resolved data URL of an object element, `none`
when the `data` attribute is absent or cannot be resolved. -/
def object_data (E : Env) (n : xmlNode) (base_url : cstr) : Option cstr :=
  (xmlGetProp n "data".toList).bind (fun s => resolved_url E s (object_codebase E n base_url))

/-- The element `<object type="text/plain">`, without data. -/
def example_object_plain : xmlNode :=
  example_attributes "object" [("type", "text/plain")]

/-- A CSS engine for examples whose style sheet floats the elements `aside`
(a block) and `input` to the left and makes `p` a block; the rest is as in
`example_env`. -/
def example_float_env : Env :=
  { example_env with
    css_get_style := fun n =>
      { css_style_zero with
        display :=
          if n.name = "p".toList ∨ n.name = "aside".toList then CSS_DISPLAY_BLOCK
          else CSS_DISPLAY_INLINE,
        float_ :=
          if n.name = "aside".toList ∨ n.name = "input".toList then CSS_FLOAT_LEFT
          else CSS_FLOAT_NONE,
        position := CSS_POSITION_STATIC } }

/-- The markup `<aside>x</aside>`. -/
def example_aside : xmlNode :=
  example_element "aside" (example_text "x" .null) .null

/-- The element `<input>`. -/
def example_input : xmlNode :=
  example_attributes "input" []

/-- Specification-side: the text of a text box, the first `length` chars of
`text`. -/
def box_text (b : box) : cstr :=
  (b.text.getD []).take b.length

/-- Specification-side: the squashed content of a text node without its
collapsible boundary spaces: a space at the end of a text of more than one
char and a space at the start are left out. -/
def text_body (t : cstr) : cstr :=
  let t1 := if 1 < t.length ∧ t.getLast? = some ' ' then t.dropLast else t
  if t1.head? = some ' ' then t1.drop 1 else t1

/-- Specification-side: the text `s` under the CSS text-transform `tt`. -/
def text_transformed (tt : css_text_transform) (s : cstr) : cstr :=
  if tt ≠ CSS_TEXT_TRANSFORM_NONE then box_text_transform s s.length tt else s

/-- The content of `example_root` with an inline container (box 1) under the
root, holding a text box `a` (box 2). -/
def example_text_root : content :=
  ((box_construct_text (example_text "a" .null) 0 0 none none none none example_root).getD
    (example_root, none)).1

/-- Specification-side: a line terminator char, `\r` or `\n`. -/
def is_terminator (c : Char) : Bool :=
  c.toNat == 13 || c.toNat == 10

/-- Specification-side: the content after at most one leading line terminator
(`\n`, `\r` or `\r\n`) has been swallowed. -/
def swallow_terminator : cstr → cstr
  | [] => []
  | c :: r =>
    if c.toNat == 10 then r
    else if c.toNat == 13 then
      match r with
      | d :: r1 => if d.toNat == 10 then r1 else r
      | [] => r
    else c :: r

/-- Specification-side: the content ends with a line terminator. -/
def ends_with_terminator (s : cstr) : Bool :=
  s.getLast?.any is_terminator

/-- Specification-side: the lines of the content, split on the line
terminators `\r\n`, `\r` and `\n`; a terminator at the very end of the content
does not start a further empty line. -/
def pre_lines : cstr → List cstr
  | [] => [[]]
  | [c] => if is_terminator c then [[]] else [[c]]
  | c :: d :: r =>
    if c.toNat == 13 && d.toNat == 10 then
      [] :: (if r.isEmpty then [] else pre_lines r)
    else if is_terminator c then [] :: pre_lines (d :: r)
    else
      match pre_lines (d :: r) with
      | l :: ls => (c :: l) :: ls
      | [] => [[c]]

/-- Specification-side: the lines, each with whether a line terminator follows
it: every line but the last one does, the last one as `ends` tells. -/
def with_terminators : List cstr → Bool → List (cstr × Bool)
  | [], _ => []
  | [l], ends => [(l, ends)]
  | l :: l1 :: ls, ends => (l, true) :: with_terminators (l1 :: ls) ends

/-- Specification-side: the text boxes of the lines `ls` of a text node under
preserved white space, in the boxes `st'`: `ic` is the inline container that is
current when the first line is reached and `base` the first box created from
there on. The text box of the line holds the line and is a child of the current
inline container or, if there is none, of a new inline container under
`parent`; the line after a line terminator starts without a current inline
container; no other box is created. -/
def pre_result (parent : Nat) : List (cstr × Bool) → Option Nat → Nat → content → Prop
  | [], _, base, st' => st'.boxes.length = base
  | (line, terminated) :: rest, ic, base, st' =>
    let cb := ic.getD base
    let tb := if ic.isSome then base else base + 1
    (st'.box_at tb).type = BOX_TEXT ∧ (st'.box_at tb).text = some line ∧
    (st'.box_at tb).length = line.length ∧ (st'.box_at tb).parent = some cb ∧
    tb ∈ (st'.box_at cb).children ∧
    (ic = none → (st'.box_at cb).type = BOX_INLINE_CONTAINER ∧
      (st'.box_at cb).parent = some parent ∧ cb ∈ (st'.box_at parent).children ∧
      (terminated = true ∨ rest = [] → (st'.box_at cb).children = [tb])) ∧
    pre_result parent rest (if terminated then none else some cb) (tb + 1) st'

/-- Specification-side: the content of a text node under preserved white
space as `box_construct_text` splits it: spaces made non-breaking and the text
transformation of the parent style applied. -/
def pre_content (tt : css_text_transform) (s : cstr) : cstr :=
  text_transformed tt (cnv_space2nbsp s)

/-- The content of `example_root` with a further style (style 1) that preserves
white space. -/
def example_pre_root : content :=
  (example_root.new_style
    { example_env.css_base_style with white_space := CSS_WHITE_SPACE_PRE }).1

/-- A text node with the content `\n`, `a`, `\r\n`, `\n`, `b`, `\n`: after the
leading line terminator the lines `a`, an empty line and `b`, the last one
followed by a line terminator. -/
def example_pre_text : xmlNode :=
  .node XML_TEXT_NODE "text".toList true []
    [Char.ofNat 10, 'a', Char.ofNat 13, Char.ofNat 10, Char.ofNat 10, 'b', Char.ofNat 10]
    .null .null

/-- The call `style = box_get_style(content, parent_style, n)` on the content,
with the styles as objects of the content that the body of `box_get_style`
writes in place: `style` is a new object holding a copy of `*parent_style`
(`talloc_memdup(c, parent_style, sizeof *style)`), and every statement of the
body that assigns to members of `*style` is an assignment to that object,
reading the content as it is then. (`style_new` and `astyle` are temporary
objects, freed before the function returns; the collaborators
`css_get_style`, `css_cascade` and `css_parse_property_list` write through
their first style argument only.) Returns `none` on memory exhaustion,
otherwise the content and the pointer to the new style. -/
def box_get_style_call (E : Env) (parent_style : Nat) (n : xmlNode) (st : content) :
    Option (content × Nat) :=
  let (st, style) := st.new_style (st.style_at parent_style)
  let style_new := E.css_get_style n
  let st := st.modify_style style (fun x => E.css_cascade x style_new)
  match box_get_style_background E st.base_url n (st.style_at style) with
  | none => none
  | some x =>
    let st := st.modify_style style (fun _ => x)
    let st := st.modify_style style (box_get_style_bgcolor E n)
    let st := st.modify_style style (box_get_style_color E n)
    let st := st.modify_style style (box_get_style_height n)
    let st := st.modify_style style (box_get_style_size n)
    let st := st.modify_style style (box_get_style_text E n)
    let st := st.modify_style style (box_get_style_width n)
    let st := st.modify_style style (box_get_style_textarea n)
    let st := st.modify_style style (box_get_style_cellspacing n)
    let st := st.modify_style style (box_get_style_space n)
    let st := st.modify_style style (box_get_style_inline E n)
    let st := st.modify_style style (fun x => box_solve_display x (!n.has_parent))
    some (st, style)

/-- Specification-side: the type attribute of the element equals `ty` without
regard to case. -/
def input_type_is (n : xmlNode) (ty : String) : Bool :=
  (xmlGetProp n "type".toList).any (fun t => strcasecmp_eq t ty.toList)

/-- Specification-side: the type attribute of the input element is absent or
is none of `password`, `file`, `hidden`, `checkbox`, `radio`, `submit`,
`reset`, `button` and `image`. -/
def input_text_type (n : xmlNode) : Bool :=
  !input_type_is n "password" && !input_type_is n "file" && !input_type_is n "hidden" &&
  !input_type_is n "checkbox" && !input_type_is n "radio" && !input_type_is n "submit" &&
  !input_type_is n "reset" && !input_type_is n "button" && !input_type_is n "image"

/-- Specification-side: the type attribute of the input element is absent or
is none of `password`, `file`, `hidden`, `checkbox`, `radio`, `submit`, `reset`
and `image`. -/
def claimed_input_text_type (n : xmlNode) : Bool :=
  !input_type_is n "password" && !input_type_is n "file" && !input_type_is n "hidden" &&
  !input_type_is n "checkbox" && !input_type_is n "radio" && !input_type_is n "submit" &&
  !input_type_is n "reset" && !input_type_is n "image"

/-- The element `<input type="button" value="v">`. -/
def example_input_button : xmlNode :=
  example_attributes "input" [("type", "button"), ("value", "v")]

/-- The element `<input type="TEXT" value="v" name="n">`. -/
def example_input_text : xmlNode :=
  example_attributes "input" [("type", "TEXT"), ("value", "v"), ("name", "n")]

/-- The element `<select><option>a</option></select>`. -/
def example_select_option : xmlNode :=
  example_element "select" (example_element "option" (example_text "a" .null) .null) .null

/-- Specification-side: the gadget that a button element gets: a submit gadget
when the type attribute is absent or equals `submit`, a reset gadget when it
equals `reset` (both without regard to case), none for any other type. -/
def button_gadget (n : xmlNode) : Option gadget_type :=
  match xmlGetProp n "type".toList with
  | none => some GADGET_SUBMIT
  | some t =>
    if strcasecmp_eq t "submit".toList then some GADGET_SUBMIT
    else if strcasecmp_eq t "reset".toList then some GADGET_RESET
    else none

/-- The element `<button type="RESET" name="n" value="v">`. -/
def example_button : xmlNode :=
  example_attributes "button" [("type", "RESET"), ("name", "n"), ("value", "v")]

/-- The span that an attribute value gives: the integer parsed from it, as an
`unsigned int`, when that does not exceed the maximum span, else 1. -/
def span_of (s : cstr) : Int :=
  if unsigned_of_long (strtol s).1 ≤ MAX_SPAN then unsigned_of_long (strtol s).1 else 1

/-- The element `<td colspan="-1" rowspan="4294967301">`. -/
def example_td_wrapped : xmlNode :=
  example_attributes "td" [("colspan", "-1"), ("rowspan", "4294967301")]

/-- The element `<td colspan="3" rowspan="101">`. -/
def example_td : xmlNode :=
  example_attributes "td" [("colspan", "3"), ("rowspan", "101")]

/-- Specification-side: the table of CSS 2.1 9.7 in the words of the
specification: inline-table becomes table, list-item and table are kept,
everything else becomes block. -/
def display_table (display : css_display) : css_display :=
  match display with
  | CSS_DISPLAY_INLINE_TABLE => CSS_DISPLAY_TABLE
  | CSS_DISPLAY_LIST_ITEM => CSS_DISPLAY_LIST_ITEM
  | CSS_DISPLAY_TABLE => CSS_DISPLAY_TABLE
  | _ => CSS_DISPLAY_BLOCK

/-- An absolutely positioned, floated inline style. -/
def example_positioned_style : css_style :=
  { css_style_zero with
    display := CSS_DISPLAY_INLINE, float_ := CSS_FLOAT_LEFT,
    position := CSS_POSITION_ABSOLUTE }

/-- The third loop of `box_extract_link` with the index `j` into the scratch
buffer `s` made explicit, over the chars `rel[i]` for `i` up to `end`, entered
with `j` as given: the writes `s[j] = c` in the order in which they happen,
each as the index and the char written, up to and including the write
`s[j] = 0` of the terminator after the loop. -/
def box_extract_link_writes : cstr → Nat → List (Nat × Char)
  | [], j => [(j, Char.ofNat 0)]
  | c :: cs, j =>
    if c.toNat < 0x20 then
      box_extract_link_writes cs j /- skip control characters -/
    else if c.toNat == 32 then
      (j, '%') :: (j + 1, '2') :: (j + 2, '0') :: box_extract_link_writes cs (j + 3)
    else
      (j, c) :: box_extract_link_writes cs (j + 1)

/-- The writes of `box_extract_link` into its scratch buffer `s`, for the link
text `rel`. -/
def box_extract_link_s_writes (rel : cstr) : List (Nat × Char) :=
  let i := box_extract_link_start rel
  let e := box_extract_link_end rel i rel.length
  box_extract_link_writes ((rel.take e).drop i) 0

/-- The element `<input type="file" size="20">`. -/
def example_file_size : xmlNode :=
  example_attributes "input" [("type", "file"), ("size", "20")]

/-- The element `<input type="file">`. -/
def example_file : xmlNode :=
  example_attributes "input" [("type", "file")]

/-- A CSS engine for examples with tables: the style sheet makes `table`,
`tbody`, `tr` and `td` a table, a row group, a row and a cell, `p` and `div`
blocks and any other element inline; every element gets borders of style
none, a padding of 1 pixel and height auto; display, float, position,
border, padding and height are not inherited, the other properties are those
of the parent. The rest is as in `example_env`. -/
def example_table_env : Env :=
  { example_env with
    css_get_style := fun n =>
      { css_style_zero with
        display :=
          if n.name = "table".toList then CSS_DISPLAY_TABLE
          else if n.name = "tbody".toList then CSS_DISPLAY_TABLE_ROW_GROUP
          else if n.name = "tr".toList then CSS_DISPLAY_TABLE_ROW
          else if n.name = "td".toList then CSS_DISPLAY_TABLE_CELL
          else if n.name = "p".toList ∨ n.name = "div".toList then CSS_DISPLAY_BLOCK
          else CSS_DISPLAY_INLINE,
        float_ := CSS_FLOAT_NONE, position := CSS_POSITION_STATIC,
        border :=
          let b : css_border :=
            { color := 0, width := CSS_BORDER_WIDTH_LENGTH,
              width_value := css_px (cfloat.ofInt 2), style := CSS_BORDER_STYLE_NONE }
          { top := b, right := b, bottom := b, left := b },
        padding :=
          let p : css_padding :=
            { padding := CSS_PADDING_LENGTH, length := css_px (cfloat.ofInt 1) }
          { top := p, right := p, bottom := p, left := p },
        height := { height := CSS_HEIGHT_AUTO, length := css_px (cfloat.ofInt 0) } },
    css_cascade := fun style style_new =>
      { style with display := style_new.display, float_ := style_new.float_,
                   position := style_new.position, border := style_new.border,
                   padding := style_new.padding, height := style_new.height } }

/-- The markup `<tr height="10"><td height="50"></td><td height="20"></td></tr>`. -/
def example_tr : xmlNode :=
  .node XML_ELEMENT_NODE "tr".toList true [("height".toList, some "10".toList)] []
    (.node XML_ELEMENT_NODE "td".toList true [("height".toList, some "50".toList)] [] .null
      (.node XML_ELEMENT_NODE "td".toList true [("height".toList, some "20".toList)] [] .null
        .null))
    .null

/-- The markup
`<table><tr><td><table><tr><td>x</td></tr></table></td></tr></table>`: a
table with one cell, which holds a table with one cell. -/
def example_nested_table : xmlNode :=
  example_element "table"
    (example_element "tr"
      (example_element "td"
        (example_element "table"
          (example_element "tr" (example_element "td" (example_text "x" .null) .null) .null)
          .null)
        .null)
      .null)
    .null

/-- The content once `example_nested_table` has been converted under the root
of `example_root`: box 1 is the outer table, box 2 its row, box 3 its cell,
box 4 the inner table, box 5 its row and box 6 its cell; each of these has a
style of its own, the style with the same number. -/
def example_table_content : content :=
  ((box_construct_element example_table_env example_nested_table 0 0 none none none none
    example_root).getD (example_root, none)).1

/-- The markup `<tr><td height="50"></td><td height="20"></td></tr>`: the row
of `example_tr` without its `height` attribute. -/
def example_tr_plain : xmlNode :=
  .node XML_ELEMENT_NODE "tr".toList true [] []
    (.node XML_ELEMENT_NODE "td".toList true [("height".toList, some "50".toList)] [] .null
      (.node XML_ELEMENT_NODE "td".toList true [("height".toList, some "20".toList)] [] .null
        .null))
    .null

/-- Specification-side: the string `s` with every `\r\n` and every lone `\r`
replaced by `\n`. -/
def newlines_normalized : cstr → cstr
  | [] => []
  | [c] => if c.toNat = 13 then [Char.ofNat 10] else [c]
  | c :: d :: r =>
    if c.toNat = 13 ∧ d.toNat = 10 then Char.ofNat 10 :: newlines_normalized r
    else if c.toNat = 13 then Char.ofNat 10 :: newlines_normalized (d :: r)
    else c :: newlines_normalized (d :: r)

/-- Specification-side: the texts of the TEXT boxes among `boxes`, in order,
with one `\n` inserted for each BR box. -/
def boxes_text (st : content) (boxes : List Nat) : cstr :=
  boxes.flatMap (fun b =>
    if (st.box_at b).type = BOX_TEXT then box_text (st.box_at b)
    else if (st.box_at b).type = BOX_BR then [Char.ofNat 10]
    else [])

/-- Specification-side: the lines `ls` joined with one `\n` between two
lines. -/
def lines_joined : List cstr → cstr
  | [] => []
  | [l] => l
  | l :: m :: ls => l ++ Char.ofNat 10 :: lines_joined (m :: ls)

/-- Specification-side: the string `t` has no two consecutive spaces. -/
def no_double_space : cstr → Bool
  | a :: b :: r => !(a == ' ' && b == ' ') && no_double_space (b :: r)
  | _ => true

/-- Specification-side: the table cell `c` is reached from the box `b` through
row-group and row boxes only: it is a table-cell child of `b`, or it is
reached in this way from a row-group or row child of `b`. -/
inductive table_cell_of (st : content) : Nat → Nat → Prop
  | cell (b c : Nat) : c ∈ (st.box_at b).children → (st.box_at c).type = BOX_TABLE_CELL →
      table_cell_of st b c
  | row (b g c : Nat) : g ∈ (st.box_at b).children →
      ((st.box_at g).type = BOX_TABLE_ROW_GROUP ∨ (st.box_at g).type = BOX_TABLE_ROW) →
      table_cell_of st g c → table_cell_of st b c

/-- Specification-side: the box `c` is a descendant of the box `b`. -/
inductive box_descendant (st : content) : Nat → Nat → Prop
  | child (b c : Nat) : c ∈ (st.box_at b).children → box_descendant st b c
  | step (b m c : Nat) : m ∈ (st.box_at b).children → box_descendant st m c →
      box_descendant st b c

/-- The loop over the children of a box that `box_set_cellpadding` and
`box_set_table_border` share, with the assignments to the style of a table
cell as `f`; the recursion into row groups and rows goes at most `fuel`
deep. -/
def table_cells_children (f : css_style → css_style) : Nat → List Nat → content → content
  | 0, _, st => st
  | fuel + 1, children, st =>
    children.foldl (fun st child =>
      match (st.box_at child).type with
      | BOX_TABLE_ROW_GROUP => table_cells_children f fuel (st.box_at child).children st
      | BOX_TABLE_ROW => table_cells_children f fuel (st.box_at child).children st
      | BOX_TABLE_CELL =>
        match (st.box_at child).style with
        | some s => st.modify_style s f
        | none => st
      | _ => st) st

/-- The table cell `c` is the child `m` of a box, or is reached from the
row-group or row child `m`. -/
def cell_under (st : content) (m c : Nat) : Prop :=
  (m = c ∧ (st.box_at c).type = BOX_TABLE_CELL) ∨
    (((st.box_at m).type = BOX_TABLE_ROW_GROUP ∨ (st.box_at m).type = BOX_TABLE_ROW) ∧
      table_cell_of st m c)

/-- What the loop over table cells leaves of the content `st0` it started
from: everything but the styles, each of which is as it was or has had the
assignments `f`. -/
structure cells_frame (f : css_style → css_style) (st0 st : content) : Prop where
  boxes : st.boxes = st0.boxes
  rest : { st with styles := st0.styles } = st0
  len : st.styles.length = st0.styles.length
  styles : ∀ s, st.style_at s = st0.style_at s ∨ st.style_at s = f (st0.style_at s)

/-- What one step of the loop over table cells does, for the child `m`, from
`st` to `st1`. -/
def cells_step (f : css_style → css_style) (st0 : content) (m : Nat) (st st1 : content) :
    Prop :=
  cells_frame f st0 st1 ∧
  (∀ s, st.style_at s = f (st0.style_at s) → st1.style_at s = f (st0.style_at s)) ∧
  (∀ c, cell_under st0 m c → ∀ s, (st0.box_at c).style = some s → s < st0.styles.length →
    st1.style_at s = f (st0.style_at s)) ∧
  (∀ s, st1.style_at s ≠ st.style_at s →
    ∃ c, cell_under st0 m c ∧ (st0.box_at c).style = some s)

/-- Specification-side: the edge `new` of a border is the edge `old` once it
has been given the colour, the width in pixels and the style, if its border
style was none, and is `old` unchanged if its border style was already set. -/
def edge_given (width : Int) (color : colour) (style : css_border_style)
    (old new : css_border) : Prop :=
  (old.style = CSS_BORDER_STYLE_NONE →
    new = { color := color, width := CSS_BORDER_WIDTH_LENGTH,
            width_value := { value := cfloat.ofInt width, unit := CSS_UNIT_PX },
            style := style }) ∧
  (old.style ≠ CSS_BORDER_STYLE_NONE → new = old)

/-- Specification-side: each of the four edges of the style `new` is the edge
of `old` given the colour, the width and the border style, and nothing else
differs between the two styles. -/
def border_given (width : Int) (color : colour) (style : css_border_style)
    (old new : css_style) : Prop :=
  edge_given width color style old.border.top new.border.top ∧
  edge_given width color style old.border.right new.border.right ∧
  edge_given width color style old.border.bottom new.border.bottom ∧
  edge_given width color style old.border.left new.border.left ∧
  new = { old with border := new.border }

/-- Specification-side: all four paddings of the style `new` are `value`
pixels, and nothing else differs between the styles `old` and `new`. -/
def padding_given (value : Int) (old new : css_style) : Prop :=
  new.padding.top = { padding := CSS_PADDING_LENGTH,
                      length := { value := cfloat.ofInt value, unit := CSS_UNIT_PX } } ∧
  new.padding.right = new.padding.top ∧ new.padding.bottom = new.padding.top ∧
  new.padding.left = new.padding.top ∧
  new = { old with padding := new.padding }

/-- The box `b'` is the box `b` but for its trailing-space flag. -/
def same_but_space (b b' : box) : Prop :=
  b' = { b with space := b'.space }

/-- The kind `t` is one of the two kinds of a float box. -/
def is_float (t : box_type) : Prop :=
  t = BOX_FLOAT_LEFT ∨ t = BOX_FLOAT_RIGHT

/-- Every float box at or after `lo` in the arena has exactly one child, a
box created at or after `lo` and before the float box, whose kind is block or
table. -/
def floats_ok (lo : Nat) (st : content) : Prop :=
  ∀ i, lo ≤ i → is_float (st.box_at i).type →
    ∃ c, lo ≤ c ∧ c < i ∧ (st.box_at i).children = [c] ∧
      ((st.box_at c).type = BOX_BLOCK ∨ (st.box_at c).type = BOX_TABLE)

/-- The kind `t'` that a special convert function leaves in a box of kind
`t`: the kind `t`, or line-break, inline-block or table. -/
def own_type (t t' : box_type) : Prop :=
  t' = t ∨ t' = BOX_BR ∨ t' = BOX_INLINE_BLOCK ∨ t' = BOX_TABLE

/-- What the steps of a special convert function for the box `box` leave of
the boxes, from `X` to `Y`: the boxes of `X` other than `box` are as they
were, but for the trailing-space flag; the kind of `box` is as it was, or
line-break, inline-block or table; and the float boxes among the new boxes
have one child each. -/
structure handler_tree (box : Nat) (X Y : content) : Prop where
  lt : box < X.boxes.length
  len : X.boxes.length ≤ Y.boxes.length
  old : ∀ i, i < X.boxes.length → i ≠ box → same_but_space (X.box_at i) (Y.box_at i)
  own : own_type (X.box_at box).type (Y.box_at box).type
  new : floats_ok X.boxes.length Y

/-- The current inline container, if any, has a child. -/
def container_has_child (ic : Option Nat) (st : content) : Prop :=
  ∀ k, ic = some k → (st.box_at k).children ≠ []

/-- What steps of the conversion of nodes leave of the boxes, from `X` to
`Y`, with the parent `p` and the current inline container `ic`, seen from the
boxes below `lo`: the boxes below `lo` other than the parent and the
container are as they were, but for the trailing-space flag; the boxes of `X`
keep their kind and their children, to which more may be added; and the float
boxes from `lo` on have one child each if they had before. -/
structure tree_step (lo p : Nat) (ic : Option Nat) (X Y : content) : Prop where
  len : X.boxes.length ≤ Y.boxes.length
  old : ∀ i, i < lo → i ≠ p → ic ≠ some i → same_but_space (X.box_at i) (Y.box_at i)
  kids : ∀ i, i < X.boxes.length →
    ∃ cs, (Y.box_at i).children = (X.box_at i).children ++ cs
  type : ∀ i, i < X.boxes.length → (Y.box_at i).type = (X.box_at i).type
  new : floats_ok lo X → floats_ok lo Y

/-- What the conversion of nodes leaves of the boxes, from `X` to `Y`, with
the parent `p` and the current inline container `ic` on entry and `ic'` on
exit, seen from the boxes below `lo`: what `tree_step` says; the container on
exit is the one on entry or a box from `lo` on, and it has a child if the one
on entry had one. -/
structure tree_frame (lo p : Nat) (ic ic' : Option Nat) (X Y : content) : Prop where
  step : tree_step lo p ic X Y
  cur : ∀ k, ic' = some k → ic = some k ∨ lo ≤ k
  child : container_has_child ic X → container_has_child ic' Y

/-- What the conversion of the children of a node leaves of the boxes: the
frame `tree_frame` from any `lo`, whenever the parent is a box of the arena,
below `lo` or not a float box, and the current inline container, if any, is
an inline container. -/
def conv_tree (conv : children_conversion) : Prop :=
  ∀ (lo ps p : Nat) (ic : Option Nat) (h : Option cstr) (t : Option frame_target)
    (ti : Option cstr) (X Y : content) (ic' : Option Nat),
    conv ps p ic h t ti X = some (Y, ic') → lo ≤ X.boxes.length → p < X.boxes.length →
    (p < lo ∨ ¬ is_float (X.box_at p).type) → valid_container ic X →
    tree_frame lo p ic ic' X Y

/-- No box at or after `lo` in the arena is a float box. -/
def no_float (lo : Nat) (st : content) : Prop :=
  ∀ i, lo ≤ i → ¬ is_float (st.box_at i).type

/-- The conversion of the children of a node returns a result. -/
def conv_total (conv : children_conversion) : Prop :=
  ∀ (ps p : Nat) (ic : Option Nat) (h : Option cstr) (t : Option frame_target)
    (ti : Option cstr) (X : content), (conv ps p ic h t ti X).isSome

/-- Specification-side: the test `(*inline_container)->last != 0` of the
assertion in `box_construct_text`, for a current inline container that is not
null: the container has a child. -/
def inline_container_last (inline_container : Option Nat) (st : content) : Bool :=
  match inline_container with
  | some ic => !(st.box_at ic).children.isEmpty
  | none => true

/-- Specification-side: `box_construct_text` with the assertion
`assert((*inline_container)->last != 0)` made on entry, for every text: the
result is `none` when the current inline container is not null and has no
child. -/
def box_construct_text_checked (n : xmlNode) (parent_style parent : Nat)
    (inline_container : Option Nat) (href : Option cstr) (target : Option frame_target)
    (title : Option cstr) (st : content) : Option (content × Option Nat) :=
  if inline_container_last inline_container st then
    box_construct_text n parent_style parent inline_container href target title st
  else none

/-- Specification-side: `convert_xml_to_box_with`, with `box_construct_text`
replaced by `box_construct_text_checked`. -/
def convert_xml_to_box_checked_with (E : Env) (conv : children_conversion) (n : xmlNode)
    (parent_style parent : Nat) (inline_container : Option Nat) (href : Option cstr)
    (target : Option frame_target) (title : Option cstr) (st : content) :
    Option (content × Option Nat) :=
  match n.type with
  | XML_ELEMENT_NODE =>
    box_construct_element_with E conv n parent_style parent inline_container href target title st
  | XML_TEXT_NODE =>
    box_construct_text_checked n parent_style parent inline_container href target title st
  | XML_COMMENT_NODE => some (st, inline_container)

/-- Specification-side: `convert_children`, with `box_construct_text`
replaced by `box_construct_text_checked` at every text node of the tree. -/
def convert_children_checked (E : Env) : xmlNode → children_conversion
  | .null, _, _, inline_container, _, _, _, st => some (st, inline_container)
  | .node t name hp ps tx children next, parent_style, parent, inline_container, href,
      target, title, st =>
    match convert_xml_to_box_checked_with E (convert_children_checked E children)
        (.node t name hp ps tx children next)
        parent_style parent inline_container href target title st with
    | none => none
    | some (st, inline_container) =>
      convert_children_checked E next parent_style parent inline_container href target title st

/-- Specification-side: `convert_xml_to_box`, with `box_construct_text`
replaced by `box_construct_text_checked` at every text node of the tree. -/
def convert_xml_to_box_checked (E : Env) (n : xmlNode) : children_conversion :=
  convert_xml_to_box_checked_with E (convert_children_checked E n.children) n

/-- Specification-side: `xml_to_box`, with `box_construct_text` replaced by
`box_construct_text_checked` at every text node of the tree. -/
def xml_to_box_checked (E : Env) (n : xmlNode) (c : content) : Option (content × Option Nat) :=
  let (c, root) := box_create none none none none none c
  let c := box_set_type root BOX_BLOCK c
  let (c, style) := c.new_style
    { E.css_base_style with
      font_size := cfloat.fin E.option_font_size 10,
      font_family := E.option_font_default }
  let c := { c with object := [] }
  convert_xml_to_box_checked E n style root none none none none c

/-- The markup `<p><b>x</b> y</p>`: the text between the element `b` and the
text `y` is a single space. -/
def example_spaced : xmlNode :=
  example_element "p"
    (example_element "b" (example_text "x" .null) (example_text " " (example_text "y" .null)))
    .null

/-! ## Theorems -/

/-- C5: `box_solve_display` implements the case analysis: display none leaves
the style unchanged; else position absolute or fixed forces float to none;
else, with float not none or at the root, display is mapped by the fixed table
(inline-table to table, list-item and table kept, all else to block) and
nothing else changes; otherwise the style is left exactly as computed. -/
theorem box_solve_display_case_analysis (style : css_style) (root : Bool) :
    (style.display = CSS_DISPLAY_NONE → box_solve_display style root = style) ∧
    (style.display ≠ CSS_DISPLAY_NONE →
      (style.position = CSS_POSITION_ABSOLUTE ∨ style.position = CSS_POSITION_FIXED) →
      (box_solve_display style root).float_ = CSS_FLOAT_NONE) ∧
    (style.display ≠ CSS_DISPLAY_NONE →
      ¬ (style.position = CSS_POSITION_ABSOLUTE ∨ style.position = CSS_POSITION_FIXED) →
      (style.float_ ≠ CSS_FLOAT_NONE ∨ root = true) →
      box_solve_display style root =
        { style with display :=
            match style.display with
            | CSS_DISPLAY_INLINE_TABLE => CSS_DISPLAY_TABLE
            | CSS_DISPLAY_LIST_ITEM => CSS_DISPLAY_LIST_ITEM
            | CSS_DISPLAY_TABLE => CSS_DISPLAY_TABLE
            | _ => CSS_DISPLAY_BLOCK }) ∧
    (style.display ≠ CSS_DISPLAY_NONE →
      ¬ (style.position = CSS_POSITION_ABSOLUTE ∨ style.position = CSS_POSITION_FIXED) →
      style.float_ = CSS_FLOAT_NONE → root = false →
      box_solve_display style root = style) := by
  refine ⟨?_, ?_, ?_, ?_⟩
  · intro h
    simp [box_solve_display, h]
  · intro h hp
    simp [box_solve_display, h, hp]
  · intro h hp hf
    have htab : box_solve_display_table style.display =
        (match style.display with
          | CSS_DISPLAY_INLINE_TABLE => CSS_DISPLAY_TABLE
          | CSS_DISPLAY_LIST_ITEM => CSS_DISPLAY_LIST_ITEM
          | CSS_DISPLAY_TABLE => CSS_DISPLAY_TABLE
          | _ => CSS_DISPLAY_BLOCK) := by
      cases style.display <;> simp [box_solve_display_table]
    rw [← htab]
    by_cases hfl : style.float_ = CSS_FLOAT_NONE
    · have hr : root = true := by
        rcases hf with hf | hf
        · exact absurd hfl hf
        · exact hf
      simp [box_solve_display, h, hp, hfl, hr]
    · simp [box_solve_display, h, hp, hfl]
  · intro h hp hf hr
    simp [box_solve_display, h, hp, hf, hr]

/-! ### Link cleaning -/

theorem drop_box_extract_link_start (rel : cstr) :
    rel.drop (box_extract_link_start rel) = rel.dropWhile isspace := by
  induction rel with
  | nil => rfl
  | cons c cs ih =>
    by_cases h : isspace c = true
    · simp [box_extract_link_start, h, List.dropWhile_cons, ih]
    · simp [box_extract_link_start, h, List.dropWhile_cons]

theorem box_extract_link_start_le (rel : cstr) :
    box_extract_link_start rel ≤ rel.length := by
  induction rel with
  | nil => simp [box_extract_link_start]
  | cons c cs ih =>
    by_cases h : isspace c = true
    · simp [box_extract_link_start, h, ih]
    · simp [box_extract_link_start, h]

theorem box_extract_link_end_eq (rel : cstr) (i : Nat) :
    ∀ k, i ≤ k → k ≤ rel.length →
      box_extract_link_end rel i k =
        i + ((((rel.take k).drop i).reverse).dropWhile isspace).length := by
  intro k
  induction k with
  | zero =>
    intro hi _
    have : i = 0 := Nat.le_zero.mp hi
    subst this
    simp [box_extract_link_end]
  | succ k ih =>
    intro hi hk
    have hklt : k < rel.length := hk
    by_cases hik : k + 1 = i
    · subst hik
      rw [List.drop_eq_nil_of_le (by simp)]
      simp [box_extract_link_end]
    · have hik2 : i ≤ k := by omega
      have htake : (rel.take (k + 1)).drop i = (rel.take k).drop i ++ [rel[k]] := by
        rw [List.take_succ, List.getElem?_eq_getElem hklt]
        simp only [Option.toList_some]
        rw [List.drop_append_of_le_length]
        simp [List.length_take]
        omega
      rw [htake, List.reverse_append]
      simp only [List.reverse_cons, List.reverse_nil, List.nil_append, List.singleton_append]
      by_cases hsp : isspace rel[k] = true
      · rw [List.dropWhile_cons_of_pos hsp, ← ih hik2 (by omega)]
        simp [box_extract_link_end, hik, List.getElem?_eq_getElem hklt, hsp]
      · rw [List.dropWhile_cons_of_neg hsp]
        simp only [box_extract_link_end, List.getElem?_eq_getElem hklt, hsp]
        simp [hik, List.length_take]
        omega

theorem reverse_dropWhile_reverse_eq_take {α : Type} (p : α → Bool) (l : List α) :
    (l.reverse.dropWhile p).reverse = l.take (l.reverse.dropWhile p).length := by
  have h := List.takeWhile_append_dropWhile p l.reverse
  have h2 : l = (l.reverse.dropWhile p).reverse ++ (l.reverse.takeWhile p).reverse := by
    have := congrArg List.reverse h
    rw [List.reverse_append, List.reverse_reverse] at this
    exact this.symm
  conv_rhs => rw [h2]
  rw [List.take_left']
  simp

theorem box_extract_link_slice (rel : cstr) :
    (rel.take (box_extract_link_end rel (box_extract_link_start rel) rel.length)).drop
        (box_extract_link_start rel) =
      (rel.dropWhile isspace).rdropWhile isspace := by
  rw [box_extract_link_end_eq rel _ rel.length (box_extract_link_start_le rel) (le_refl _)]
  rw [List.take_length, List.drop_take, drop_box_extract_link_start]
  rw [List.rdropWhile, reverse_dropWhile_reverse_eq_take]
  congr 1
  omega

theorem box_extract_link_copy_eq (l : cstr) :
    box_extract_link_copy l =
      (l.filter (fun c => !decide (c.toNat < 0x20))).flatMap
        (fun c => if c = ' ' then "%20".toList else [c]) := by
  induction l with
  | nil => rfl
  | cons c cs ih =>
    by_cases h1 : c.toNat < 0x20
    · simp [box_extract_link_copy, h1, ih]
    · by_cases h2 : c = ' '
      · subst h2
        simp [box_extract_link_copy, ih, List.filter_cons]
      · have h3 : ¬ c.toNat = 32 := by
          intro h
          apply h2
          apply Char.ext
          apply UInt32.ext
          exact h
        simp [box_extract_link_copy, h1, h2, h3, ih, List.filter_cons]

theorem box_extract_link_copy_clean (l : cstr) :
    ∀ c ∈ box_extract_link_copy l, c ≠ ' ' ∧ ¬ c.toNat < 0x20 := by
  induction l with
  | nil => simp [box_extract_link_copy]
  | cons a as ih =>
    intro c hc
    by_cases h1 : a.toNat < 0x20
    · simp only [box_extract_link_copy, h1, if_true] at hc
      exact ih c hc
    · by_cases h2 : a.toNat = 32
      · rw [box_extract_link_copy] at hc
        simp only [h1, if_false, h2, beq_self_eq_true, if_true, Nat.lt_irrefl] at hc
        rw [List.mem_cons, List.mem_cons, List.mem_cons] at hc
        rcases hc with rfl | rfl | rfl | hc
        · decide
        · decide
        · decide
        · exact ih c hc
      · rw [box_extract_link_copy] at hc
        simp only [h1, if_false, beq_iff_eq, h2] at hc
        rw [List.mem_cons] at hc
        rcases hc with rfl | hc
        · refine ⟨?_, h1⟩
          intro h
          apply h2
          rw [h]
          rfl
        · exact ih c hc

/-- C7: the cleaned string of `box_extract_link` is `rel` with its leading and
trailing whitespace removed, every remaining byte below 0x20 deleted and every
remaining space replaced by `%20`; it contains no space and no control
character (byte below 0x20, as the code's own comment uses the word); and when
it does not start with `javascript:` it is the string resolved against the
base. -/
theorem box_extract_link_cleaned (rel : cstr) :
    box_extract_link_s rel = spec_clean_link rel ∧
    (∀ c ∈ box_extract_link_s rel, c ≠ ' ' ∧ ¬ c.toNat < 0x20) ∧
    (strncmp_eq (box_extract_link_s rel) "javascript:".toList 11 = false →
      ∀ (malloc : Nat → Bool) (url_join : cstr → cstr → url_func_result)
        (base : cstr) (result : Option cstr),
        malloc (3 * rel.length + 1) = true →
        box_extract_link malloc url_join rel base result =
          match url_join (box_extract_link_s rel) base with
          | URL_FUNC_NOMEM => (false, result)
          | URL_FUNC_FAILED => (true, result)
          | URL_FUNC_OK url => (true, some url)) := by
  refine ⟨?_, ?_, ?_⟩
  · simp only [box_extract_link_s, spec_clean_link]
    rw [box_extract_link_slice, box_extract_link_copy_eq]
  · exact box_extract_link_copy_clean _
  · intro hjs malloc url_join base result hm
    unfold box_extract_link
    rw [hm]
    simp only [Bool.not_true, Bool.false_eq_true, if_false]
    unfold box_extract_link_s1
    rw [hjs]
    simp only [Bool.false_eq_true, if_false]

/-! ### The `javascript:` special case -/

/-- C6, as stated, refuted: for the link text
`  javascript:alert('http://evil')  ` the string handed to URL resolution is
not `alert('http://evil')`. -/
theorem box_extract_link_example_not_call :
    box_extract_link_s1 (box_extract_link_s "  javascript:alert('http://evil')  ".toList) ≠
      "alert('http://evil')".toList := by
  decide

/-- C6, amended: `box_extract_link` applied to the link text
`  javascript:alert('http://evil')  ` with base `http://site/` resolves the
string `http://evil`, the first single-quoted literal of the link, against the
base; that string is not a `javascript:` URL. -/
theorem box_extract_link_example (url_join : cstr → cstr → url_func_result)
    (result : Option cstr) :
    box_extract_link (fun _ => true) url_join
        "  javascript:alert('http://evil')  ".toList "http://site/".toList result =
      (match url_join "http://evil".toList "http://site/".toList with
        | URL_FUNC_NOMEM => (false, result)
        | URL_FUNC_FAILED => (true, result)
        | URL_FUNC_OK url => (true, some url)) ∧
    strncmp_eq "http://evil".toList "javascript:".toList 11 = false := by
  have hs : box_extract_link_s1
      (box_extract_link_s "  javascript:alert('http://evil')  ".toList) =
      "http://evil".toList := by decide
  refine ⟨?_, by decide⟩
  simp only [box_extract_link, hs, Bool.not_true, Bool.false_eq_true, if_false]

theorem strchr_none {s : cstr} {q : Char} (h : strchr s q = none) :
    s.dropWhile (· != q) = [] := by
  induction s with
  | nil => rfl
  | cons x xs ih =>
    by_cases hx : x = q
    · simp [strchr, hx] at h
    · simp only [strchr, beq_iff_eq, hx, if_false, Option.map_eq_none'] at h
      simp [List.dropWhile_cons, hx, ih h]

theorem strchr_some {s : cstr} {q : Char} {i : Nat} (h : strchr s q = some i) :
    s.dropWhile (· != q) = q :: s.drop (i + 1) ∧ s.takeWhile (· != q) = s.take i := by
  induction s generalizing i with
  | nil => simp [strchr] at h
  | cons x xs ih =>
    by_cases hx : x = q
    · simp only [strchr, hx, beq_self_eq_true, if_true, Option.some.injEq] at h
      subst h
      simp [List.dropWhile_cons, List.takeWhile_cons, hx]
    · simp only [strchr, beq_iff_eq, hx, if_false, Option.map_eq_some'] at h
      obtain ⟨j, hj, rfl⟩ := h
      have := ih hj
      simp [List.dropWhile_cons, List.takeWhile_cons, hx, this.1, this.2]

theorem strchr_eq_none_iff {s : cstr} {q : Char} : strchr s q = none ↔ q ∉ s := by
  induction s with
  | nil => simp [strchr]
  | cons x xs ih =>
    by_cases hx : x = q
    · simp [strchr, hx]
    · have hx2 : ¬ q = x := fun h => hx h.symm
      simp [strchr, hx, hx2, ih]

theorem between_quotes_none {s : cstr} {q : Char} (h : strchr s q = none) :
    between_quotes q s = none := by
  simp [between_quotes, strchr_none h]

theorem between_quotes_open {s : cstr} {q : Char} {a : Nat} (h : strchr s q = some a)
    (h1 : strchr_after s a q = none) : between_quotes q s = none := by
  simp only [strchr_after, Option.map_eq_none'] at h1
  simp [between_quotes, (strchr_some h).1, strchr_eq_none_iff.mp h1]

theorem between_quotes_closed {s : cstr} {q : Char} {a b : Nat} (h : strchr s q = some a)
    (h1 : strchr_after s a q = some b) :
    between_quotes q s = some (cut_string s (some a) (some b)) := by
  simp only [strchr_after, Option.map_eq_some'] at h1
  obtain ⟨j, hj, rfl⟩ := h1
  have hmem : q ∈ s.drop (a + 1) := by
    by_contra hn
    rw [strchr_eq_none_iff.mpr hn] at hj
    exact Option.noConfusion hj
  simp only [between_quotes, (strchr_some h).1, hmem, if_true, cut_string, (strchr_some hj).2]
  rw [List.drop_take]
  simp

theorem ptr_lt_strchr {s : cstr} {p q : Char} (hpq : p ≠ q) {a b : Nat}
    (ha : strchr s p = some a) (hb : strchr s q = some b) :
    ptr_lt (some a) (some b) = true ↔ p ∈ s.takeWhile (· != q) := by
  induction s generalizing a b with
  | nil => simp [strchr] at ha
  | cons x xs ih =>
    by_cases hxq : x = q
    · have hxp : ¬ x = p := fun h => hpq (h.symm.trans hxq)
      simp only [strchr, hxq, beq_self_eq_true, if_true, Option.some.injEq] at hb
      subst hb
      simp [ptr_lt, List.takeWhile_cons, hxq]
    · by_cases hxp : x = p
      · simp only [strchr, hxp, beq_self_eq_true, if_true, Option.some.injEq] at ha
        subst ha
        simp only [strchr, beq_iff_eq, hxq, if_false, Option.map_eq_some'] at hb
        obtain ⟨j, _, rfl⟩ := hb
        simp [ptr_lt, List.takeWhile_cons, hxq, hxp, hpq]
      · simp only [strchr, beq_iff_eq, hxp, if_false, Option.map_eq_some'] at ha
        simp only [strchr, beq_iff_eq, hxq, if_false, Option.map_eq_some'] at hb
        obtain ⟨i, hi, rfl⟩ := ha
        obtain ⟨j, hj, rfl⟩ := hb
        have hpx : ¬ p = x := fun h => hxp h.symm
        have := ih hi hj
        simp only [ptr_lt, decide_eq_true_eq] at this
        simp [ptr_lt, List.takeWhile_cons, hxq, hpx, this]

theorem APOS_ne_QUOT : APOS ≠ QUOT := by decide

/-- C8, as stated, refuted: in `javascript:"a'b'` a double quote appears
strictly earlier than the first apostrophe, so the claim names the text
between the first double quote and the next one, which does not exist; the
code resolves `b`, the text between the apostrophes. -/
theorem box_extract_link_unclosed_quote :
    strncmp_eq ("javascript:".toList ++ [QUOT, 'a', APOS, 'b', APOS]) "javascript:".toList 11 = true ∧
    ptr_lt (strchr ("javascript:".toList ++ [QUOT, 'a', APOS, 'b', APOS]) QUOT)
      (strchr ("javascript:".toList ++ [QUOT, 'a', APOS, 'b', APOS]) APOS) = true ∧
    box_extract_link_s1 ("javascript:".toList ++ [QUOT, 'a', APOS, 'b', APOS]) = ['b'] ∧
    claimed_javascript_target ("javascript:".toList ++ [QUOT, 'a', APOS, 'b', APOS]) = none ∧
    claimed_javascript_target ("javascript:".toList ++ [QUOT, 'a', APOS, 'b', APOS]) ≠
      some (box_extract_link_s1 ("javascript:".toList ++ [QUOT, 'a', APOS, 'b', APOS])) := by
  decide

/-- C8, amended: for a cleaned link string that starts with `javascript:`,
`box_extract_link` resolves the text between the first apostrophe and the next
one when that literal is closed and either no double-quote literal is closed
or an apostrophe precedes the first double quote; otherwise the text between
the first double quote and the next one when that literal is closed; otherwise
the whole cleaned string. -/
theorem box_extract_link_javascript (s : cstr)
    (hjs : strncmp_eq s "javascript:".toList 11 = true) :
    box_extract_link_s1 s = amended_javascript_target s := by
  unfold box_extract_link_s1 amended_javascript_target
  rw [hjs]
  simp only [if_true]
  cases ha : strchr s APOS with
  | none =>
    rw [between_quotes_none ha]
    cases hq : strchr s QUOT with
    | none => simp [between_quotes_none hq]
    | some q =>
      cases hq1 : strchr_after s q QUOT with
      | none => simp [between_quotes_open hq hq1, hq1]
      | some q1 => simp [between_quotes_closed hq hq1, hq1]
  | some a =>
    cases ha1 : strchr_after s a APOS with
    | none =>
      rw [between_quotes_open ha ha1]
      cases hq : strchr s QUOT with
      | none => simp [between_quotes_none hq, ha1]
      | some q =>
        cases hq1 : strchr_after s q QUOT with
        | none => simp [between_quotes_open hq hq1, ha1, hq1]
        | some q1 => simp [between_quotes_closed hq hq1, ha1, hq1]
    | some a1 =>
      rw [between_quotes_closed ha ha1]
      cases hq : strchr s QUOT with
      | none => simp [between_quotes_none hq, ha1]
      | some q =>
        cases hq1 : strchr_after s q QUOT with
        | none => simp [between_quotes_open hq hq1, ha1, hq1]
        | some q1 =>
          rw [between_quotes_closed hq hq1]
          have hlt := ptr_lt_strchr APOS_ne_QUOT ha hq
          by_cases hm : APOS ∈ s.takeWhile (· != QUOT)
          · simp [hm, hlt.mpr hm, ha1, hq1]
          · have : ptr_lt (some a) (some q) = false := by
              cases hp : ptr_lt (some a) (some q) with
              | false => rfl
              | true => exact absurd (hlt.mp hp) hm
            simp [hm, this, ha1, hq1]

/-- Witness for `box_extract_link_javascript`. -/
theorem box_extract_link_javascript_witness :
    strncmp_eq "javascript:f('x')".toList "javascript:".toList 11 = true ∧
    box_extract_link_s1 "javascript:f('x')".toList =
      amended_javascript_target "javascript:f('x')".toList ∧
    amended_javascript_target "javascript:f('x')".toList = ['x'] :=
  ⟨by decide, box_extract_link_javascript _ (by decide), by decide⟩

/-- C9: `box_extract_link` returns failure exactly when memory is exhausted
(the scratch allocation fails, or URL joining reports out-of-memory); when URL
joining merely fails to resolve it returns success and leaves `*result`
unchanged. -/
theorem box_extract_link_failure (malloc : Nat → Bool)
    (url_join : cstr → cstr → url_func_result) (rel base : cstr) (result : Option cstr) :
    ((box_extract_link malloc url_join rel base result).1 = false ↔
      (malloc (3 * rel.length + 1) = false ∨
        url_join (box_extract_link_s1 (box_extract_link_s rel)) base = URL_FUNC_NOMEM)) ∧
    (malloc (3 * rel.length + 1) = true →
      url_join (box_extract_link_s1 (box_extract_link_s rel)) base = URL_FUNC_FAILED →
      box_extract_link malloc url_join rel base result = (true, result)) := by
  unfold box_extract_link
  cases hm : malloc (3 * rel.length + 1) with
  | false => simp
  | true =>
    simp only [Bool.not_true, Bool.false_eq_true, if_false]
    cases hu : url_join (box_extract_link_s1 (box_extract_link_s rel)) base <;> simp

/-! ### Multi-length lists -/

theorem box_parse_multi_lengths_loop_length (k : Nat) :
    ∀ s, (box_parse_multi_lengths_loop k s).length = k := by
  induction k with
  | zero => intro s; rfl
  | succ k ih => intro s; simp [box_parse_multi_lengths_loop, ih]

theorem box_parse_multi_lengths_count_eq (s : cstr) :
    ∀ n, box_parse_multi_lengths_count s n = n + s.count ',' := by
  induction s with
  | nil => intro n; rfl
  | cons c cs ih =>
    intro n
    by_cases hc : c = ','
    · subst hc
      rw [box_parse_multi_lengths_count, ih]
      simp [List.count_cons]
      omega
    · have h1 : ¬ c.toNat = 44 := by
        intro h
        apply hc
        apply Char.ext
        apply UInt32.ext
        exact h
      rw [box_parse_multi_lengths_count, ih]
      simp [List.count_cons, h1, hc]

/-- The number of entries `box_parse_multi_lengths` returns is one more than
the number of commas in the string. -/
theorem box_parse_multi_lengths_length (s : cstr) :
    (box_parse_multi_lengths s).length = 1 + s.count ',' := by
  rw [box_parse_multi_lengths, box_parse_multi_lengths_loop_length,
    box_parse_multi_lengths_count_eq]

theorem cfloat_ofInt_one : cfloat.ofInt 1 = cfloat.fin 1 1 := by
  decide

/-- Every value `box_parse_multi_lengths` returns is strictly positive or a
NaN. -/
theorem box_parse_multi_lengths_loop_value (k : Nat) :
    ∀ s, ∀ e ∈ box_parse_multi_lengths_loop k s, e.value.pos = true ∨ e.value = cfloat.nan := by
  induction k with
  | zero => intro s e he; simp [box_parse_multi_lengths_loop] at he
  | succ k ih =>
    intro s e he
    simp only [box_parse_multi_lengths_loop, List.mem_cons] at he
    rcases he with rfl | he
    · simp only
      cases hv : (strtof (List.dropWhile isspace s)).1 with
      | nan => simp [cfloat.le_zero]
      | inf neg => cases neg <;> simp [cfloat.le_zero, cfloat.pos, cfloat_ofInt_one]
      | fin num den =>
        by_cases hn : num ≤ 0
        · simp [cfloat.le_zero, hn, cfloat.pos, cfloat_ofInt_one]
        · simp [cfloat.le_zero, hn, cfloat.pos]
          omega
    · exact ih _ e he

/-- C10, at the failing input: for the string `nan` the single entry returned
by `box_parse_multi_lengths` has a NaN as its value: it was not replaced by 1
and is not strictly positive. -/
theorem box_parse_multi_lengths_nan :
    box_parse_multi_lengths "nan".toList =
      [{ type := LENGTH_PX, value := cfloat.nan }] ∧
    cfloat.pos cfloat.nan = false := by
  decide

/-! ## The arenas -/

theorem length_list_modify {α : Type} (l : List α) (i : Nat) (f : α → α) :
    (list_modify l i f).length = l.length := by
  induction l generalizing i with
  | nil => rfl
  | cons x xs ih =>
    cases i with
    | zero => rfl
    | succ i => simp [list_modify, ih]

theorem getElem?_list_modify {α : Type} (l : List α) (i : Nat) (f : α → α) (j : Nat) :
    (list_modify l i f)[j]? = if j = i then (l[j]?).map f else l[j]? := by
  induction l generalizing i j with
  | nil => simp [list_modify]
  | cons x xs ih =>
    cases i with
    | zero =>
      cases j with
      | zero => simp [list_modify]
      | succ j => simp [list_modify]
    | succ i =>
      cases j with
      | zero => simp [list_modify]
      | succ j => simp [list_modify, ih]

theorem getElem?_append_singleton {α : Type} (l : List α) (a : α) (j : Nat) :
    (l ++ [a])[j]? = if j = l.length then some a else l[j]? := by
  by_cases h : j < l.length
  · rw [List.getElem?_append_left h]
    simp [Nat.ne_of_lt h]
  · by_cases h2 : j = l.length
    · subst h2
      simp
    · have h3 : l.length < j := by omega
      rw [List.getElem?_eq_none (by simp; omega), List.getElem?_eq_none (by omega)]
      simp [h2]

@[simp] theorem boxes_modify_box (c : content) (b : Nat) (f : box → box) :
    (c.modify_box b f).boxes = list_modify c.boxes b f := rfl

@[simp] theorem styles_modify_box (c : content) (b : Nat) (f : box → box) :
    (c.modify_box b f).styles = c.styles := rfl

@[simp] theorem object_modify_box (c : content) (b : Nat) (f : box → box) :
    (c.modify_box b f).object = c.object := rfl

@[simp] theorem boxes_modify_style (c : content) (s : Nat) (f : css_style → css_style) :
    (c.modify_style s f).boxes = c.boxes := rfl

@[simp] theorem styles_modify_style (c : content) (s : Nat) (f : css_style → css_style) :
    (c.modify_style s f).styles = list_modify c.styles s f := rfl

@[simp] theorem object_modify_style (c : content) (s : Nat) (f : css_style → css_style) :
    (c.modify_style s f).object = c.object := rfl

@[simp] theorem boxes_modify_control (c : content) (g : Nat) (f : form_control → form_control) :
    (c.modify_control g f).boxes = c.boxes := rfl

@[simp] theorem styles_modify_control (c : content) (g : Nat) (f : form_control → form_control) :
    (c.modify_control g f).styles = c.styles := rfl

@[simp] theorem object_modify_control (c : content) (g : Nat) (f : form_control → form_control) :
    (c.modify_control g f).object = c.object := rfl

@[simp] theorem boxes_new_style (c : content) (s : css_style) :
    (c.new_style s).1.boxes = c.boxes := rfl

@[simp] theorem styles_new_style (c : content) (s : css_style) :
    (c.new_style s).1.styles = c.styles ++ [s] := rfl

@[simp] theorem object_new_style (c : content) (s : css_style) :
    (c.new_style s).1.object = c.object := rfl

@[simp] theorem snd_new_style (c : content) (s : css_style) :
    (c.new_style s).2 = c.styles.length := rfl

@[simp] theorem boxes_form_new_control (t : gadget_type) (c : content) :
    (form_new_control t c).1.boxes = c.boxes := rfl

@[simp] theorem styles_form_new_control (t : gadget_type) (c : content) :
    (form_new_control t c).1.styles = c.styles := rfl

@[simp] theorem object_form_new_control (t : gadget_type) (c : content) :
    (form_new_control t c).1.object = c.object := rfl

@[simp] theorem boxes_form_add_control (g : Nat) (c : content) :
    (form_add_control g c).boxes = c.boxes := by
  unfold form_add_control
  split <;> rfl

@[simp] theorem styles_form_add_control (g : Nat) (c : content) :
    (form_add_control g c).styles = c.styles := by
  unfold form_add_control
  split <;> rfl

@[simp] theorem object_form_add_control (g : Nat) (c : content) :
    (form_add_control g c).object = c.object := by
  unfold form_add_control
  split <;> rfl

@[simp] theorem boxes_box_form_add_control (g : Nat) (c : content) :
    (box_form_add_control g c).boxes = c.boxes := by
  unfold box_form_add_control
  split <;> simp

@[simp] theorem styles_box_form_add_control (g : Nat) (c : content) :
    (box_form_add_control g c).styles = c.styles := by
  unfold box_form_add_control
  split <;> simp

@[simp] theorem object_box_form_add_control (g : Nat) (c : content) :
    (box_form_add_control g c).object = c.object := by
  unfold box_form_add_control
  split <;> simp

@[simp] theorem boxes_box_create (style : Option Nat) (href : Option cstr)
    (target : Option frame_target) (title id : Option cstr) (c : content) :
    (box_create style href target title id c).1.boxes = c.boxes ++
      [{ box_zero with type := BOX_INLINE, style := style, href := href, target := target,
                       title := title, id := id, columns := 1, rows := 1 }] := rfl

@[simp] theorem styles_box_create (style : Option Nat) (href : Option cstr)
    (target : Option frame_target) (title id : Option cstr) (c : content) :
    (box_create style href target title id c).1.styles = c.styles := rfl

@[simp] theorem object_box_create (style : Option Nat) (href : Option cstr)
    (target : Option frame_target) (title id : Option cstr) (c : content) :
    (box_create style href target title id c).1.object = c.object := rfl

@[simp] theorem snd_box_create (style : Option Nat) (href : Option cstr)
    (target : Option frame_target) (title id : Option cstr) (c : content) :
    (box_create style href target title id c).2 = c.boxes.length := rfl

@[simp] theorem boxes_box_set_type (b : Nat) (t : box_type) (c : content) :
    (box_set_type b t c).boxes = list_modify c.boxes b (fun x => { x with type := t }) := rfl

@[simp] theorem styles_box_set_type (b : Nat) (t : box_type) (c : content) :
    (box_set_type b t c).styles = c.styles := rfl

@[simp] theorem object_box_set_type (b : Nat) (t : box_type) (c : content) :
    (box_set_type b t c).object = c.object := rfl

@[simp] theorem styles_box_add_child (p ch : Nat) (c : content) :
    (box_add_child p ch c).styles = c.styles := rfl

@[simp] theorem object_box_add_child (p ch : Nat) (c : content) :
    (box_add_child p ch c).object = c.object := rfl

theorem boxes_html_fetch_object {E : Env} {url : cstr} {box : Nat} {p : permitted_types}
    {w : Int} {h : Int} {bg : Bool} {fr : Option cstr} {c c' : content}
    (hf : html_fetch_object E url box p w h bg fr c = some c') :
    c'.boxes = c.boxes ∧ c'.styles = c.styles := by
  unfold html_fetch_object at hf
  split at hf
  · cases hf
    exact ⟨rfl, rfl⟩
  · exact Option.noConfusion hf

/-! ## Well-formed box arenas -/

theorem box_frame.refl_frame (n : Nat) (ex : Option Nat) (bs : List box) : box_frame n ex bs bs :=
  ⟨le_refl _, fun _ b _ h => ⟨b, h, rfl, rfl, rfl, Or.inl rfl⟩⟩

theorem box_frame.trans_frame {n : Nat} {ex : Option Nat} {a b c : List box}
    (h1 : box_frame n ex a b) (h2 : box_frame n ex b c) : box_frame n ex a c := by
  refine ⟨le_trans h1.len h2.len, ?_⟩
  intro i x hi hx
  obtain ⟨y, hy, hp, he, hs, ht⟩ := h1.old i x hi hx
  obtain ⟨z, hz, hp2, he2, hs2, ht2⟩ := h2.old i y hi hy
  refine ⟨z, hz, hp2.trans hp, he2.trans he, hs2.trans hs, ?_⟩
  rcases ht2 with ht2 | ht2
  · rcases ht with ht | ht
    · exact Or.inl (ht2.trans ht)
    · exact Or.inr ⟨ht.1, by rw [ht2]; exact ht.2⟩
  · exact Or.inr ht2

theorem box_frame.mono_frame {n m : Nat} {ex : Option Nat} {a b : List box}
    (h : box_frame n ex a b) (hm : m ≤ n) : box_frame m ex a b :=
  ⟨h.len, fun i x hi hx => h.old i x (hi.imp (fun h => lt_of_lt_of_le h hm) id) hx⟩

theorem box_frame.detached_frame {n : Nat} {ex : Option Nat} {a b : List box}
    (h : box_frame n ex a b) {i : Nat} (hi : i < n ∨ ex = some i) (hd : detached a i) :
    detached b i := by
  obtain ⟨x, hx, hp, ht⟩ := hd
  obtain ⟨y, hy, hp2, _, _, ht2⟩ := h.old i x hi hx
  refine ⟨y, hy, hp2.trans hp, ?_⟩
  rcases ht2 with ht2 | ht2
  · rw [ht2]; exact ht
  · exact ht2.2

theorem box_frame.is_inline_container_frame {n : Nat} {ex : Option Nat} {a b : List box}
    (h : box_frame n ex a b) {i : Nat} (hi : i < n) (hex : ex ≠ some i)
    (hc : is_inline_container a i) : is_inline_container b i := by
  obtain ⟨x, hx, ht⟩ := hc
  obtain ⟨y, hy, _, _, _, ht2⟩ := h.old i x (Or.inl hi) hx
  refine ⟨y, hy, ?_⟩
  rcases ht2 with ht2 | ht2
  · rw [ht2]; exact ht
  · exact absurd ht2.1 hex

theorem grows.refl_grows (n : Nat) (ex : Option Nat) (st : content) : grows n ex st st :=
  ⟨box_frame.refl_frame _ _ _, fun h _ => h⟩

theorem grows.trans_grows {n : Nat} {ex : Option Nat} {a b c : content}
    (h1 : grows n ex a b) (h2 : grows n ex b c) : grows n ex a c := by
  refine ⟨h1.frame.trans_frame h2.frame, ?_⟩
  intro hwf hd
  refine h2.wf (h1.wf hwf hd) ?_
  intro i hi
  exact h1.frame.detached_frame (Or.inr hi) (hd i hi)

theorem grows.mono_grows {n m : Nat} {ex : Option Nat} {a b : content}
    (h : grows n ex a b) (hm : m ≤ n) : grows m ex a b :=
  ⟨h.frame.mono_frame hm, h.wf⟩

/-- A step that leaves the boxes as they are. -/
theorem grows_of_boxes_eq {n : Nat} {ex : Option Nat} {st st' : content}
    (h : st'.boxes = st.boxes) : grows n ex st st' := by
  refine ⟨?_, ?_⟩
  · rw [h]; exact box_frame.refl_frame _ _ _
  · intro hwf _
    rw [h]; exact hwf

theorem getElem?_list_modify_of_some {α : Type} {l : List α} {i : Nat} {x : α}
    (h : l[i]? = some x) (j : Nat) (f : α → α) :
    (list_modify l j f)[i]? = some (if i = j then f x else x) := by
  rw [getElem?_list_modify, h]
  split <;> rfl

theorem getElem?_list_modify_some {α : Type} {l : List α} {i j : Nat} {f : α → α} {y : α}
    (h : (list_modify l j f)[i]? = some y) :
    ∃ x, l[i]? = some x ∧ y = if i = j then f x else x := by
  rw [getElem?_list_modify] at h
  by_cases hij : i = j
  · rw [if_pos hij] at h
    cases hx : l[i]? with
    | none => rw [hx] at h; exact Option.noConfusion h
    | some x =>
      rw [hx] at h
      refine ⟨x, rfl, ?_⟩
      rw [if_pos hij]
      exact (Option.some.inj h).symm
  · rw [if_neg hij] at h
    exact ⟨y, h, by rw [if_neg hij]⟩

/-- A step that changes members of boxes other than the parent, the paired
box, the style and the kind. -/
theorem grows_modify_box {n : Nat} {ex : Option Nat} (st : content) (j : Nat) (f : box → box)
    (hf : ∀ b : box, (f b).parent = b.parent ∧ (f b).inline_end = b.inline_end ∧
      (f b).style = b.style ∧ (f b).type = b.type) :
    grows n ex st (st.modify_box j f) := by
  have hk : ∀ (i : Nat) (x : box), (if i = j then f x else x).parent = x.parent ∧
      (if i = j then f x else x).inline_end = x.inline_end ∧
      (if i = j then f x else x).style = x.style ∧
      (if i = j then f x else x).type = x.type := by
    intro i x
    split
    · exact hf x
    · exact ⟨rfl, rfl, rfl, rfl⟩
  refine ⟨⟨?_, ?_⟩, ?_⟩
  · simp [length_list_modify]
  · intro i b _ hb
    refine ⟨_, getElem?_list_modify_of_some hb j f, (hk i b).1, (hk i b).2.1, (hk i b).2.2.1,
      Or.inl (hk i b).2.2.2⟩
  · intro hwf _
    refine ⟨?_, ?_⟩
    · intro c bc p hc hp hl
      obtain ⟨x, hx, rfl⟩ := getElem?_list_modify_some hc
      rw [(hk c x).1] at hp
      rw [(hk c x).2.2.2] at hl
      obtain ⟨bp, hbp, ht⟩ := hwf.1 c x p hx hp hl
      exact ⟨_, getElem?_list_modify_of_some hbp j f, by rw [(hk p bp).2.2.2]; exact ht⟩
    · intro i bi e hi he
      obtain ⟨x, hx, rfl⟩ := getElem?_list_modify_some hi
      rw [(hk i x).2.1] at he
      obtain ⟨be, hbe, hie⟩ := hwf.2 i x e hx he
      exact ⟨_, getElem?_list_modify_of_some hbe j f, by rw [(hk e be).2.1]; exact hie⟩

/-- The step `box_create`. -/
theorem grows_box_create {n : Nat} {ex : Option Nat} (style : Option Nat) (href : Option cstr)
    (target : Option frame_target) (title id : Option cstr) (st : content) :
    grows n ex st (box_create style href target title id st).1 := by
  refine ⟨⟨?_, ?_⟩, ?_⟩
  · simp
  · intro i b _ hb
    refine ⟨b, ?_, rfl, rfl, rfl, Or.inl rfl⟩
    have hlt : i < st.boxes.length := (List.getElem?_eq_some.mp hb).1
    rw [boxes_box_create, getElem?_append_singleton, if_neg (Nat.ne_of_lt hlt)]
    exact hb
  · intro hwf _
    refine ⟨?_, ?_⟩
    · intro c bc p hc hp hl
      rw [boxes_box_create, getElem?_append_singleton] at hc
      split at hc
      · cases hc
        exact Option.noConfusion hp
      · obtain ⟨bp, hbp, ht⟩ := hwf.1 c bc p hc hp hl
        refine ⟨bp, ?_, ht⟩
        have hlt : p < st.boxes.length := (List.getElem?_eq_some.mp hbp).1
        rw [boxes_box_create, getElem?_append_singleton, if_neg (Nat.ne_of_lt hlt)]
        exact hbp
    · intro i bi e hi he
      rw [boxes_box_create, getElem?_append_singleton] at hi
      split at hi
      · cases hi
        exact Option.noConfusion he
      · obtain ⟨be, hbe, hie⟩ := hwf.2 i bi e hi he
        refine ⟨be, ?_, hie⟩
        have hlt : e < st.boxes.length := (List.getElem?_eq_some.mp hbe).1
        rw [boxes_box_create, getElem?_append_singleton, if_neg (Nat.ne_of_lt hlt)]
        exact hbe

theorem well_formed_set_type {bs : List box} {b : Nat} (t : box_type)
    (hwf : well_formed bs)
    (hd : ∀ x : box, bs[b]? = some x → x.parent = none ∧ x.type ≠ BOX_INLINE_CONTAINER) :
    well_formed (list_modify bs b (fun x => { x with type := t })) := by
  refine ⟨?_, ?_⟩
  · intro c bc p hc hp hl
    obtain ⟨x, hx, rfl⟩ := getElem?_list_modify_some hc
    by_cases hcb : c = b
    · subst hcb
      rw [if_pos rfl] at hp
      exact absurd ((hd x hx).1 ▸ hp : (none : Option Nat) = some p) (by simp)
    · rw [if_neg hcb] at hp hl
      obtain ⟨bp, hbp, ht⟩ := hwf.1 c x p hx hp hl
      by_cases hpb : p = b
      · subst hpb
        exact absurd ht (hd bp hbp).2
      · refine ⟨bp, ?_, ht⟩
        rw [getElem?_list_modify_of_some hbp, if_neg hpb]
  · intro i bi e hi he
    obtain ⟨x, hx, rfl⟩ := getElem?_list_modify_some hi
    have he2 : x.inline_end = some e := by
      split at he
      · exact he
      · exact he
    obtain ⟨be, hbe, hie⟩ := hwf.2 i x e hx he2
    refine ⟨_, getElem?_list_modify_of_some hbe b _, ?_⟩
    split
    · exact hie
    · exact hie

/-- The step `b->type = t` for the box `ex`. -/
theorem grows_set_type_ex {n : Nat} (st : content) (b : Nat) (t : box_type)
    (ht : t ≠ BOX_INLINE_CONTAINER) :
    grows n (some b) st (box_set_type b t st) := by
  refine ⟨⟨?_, ?_⟩, ?_⟩
  · simp [length_list_modify]
  · intro i x _ hx
    refine ⟨_, getElem?_list_modify_of_some hx b _, ?_⟩
    by_cases hib : i = b
    · subst hib
      rw [if_pos rfl]
      exact ⟨rfl, rfl, rfl, Or.inr ⟨rfl, ht⟩⟩
    · rw [if_neg hib]
      exact ⟨rfl, rfl, rfl, Or.inl rfl⟩
  · intro hwf hd
    refine well_formed_set_type t hwf ?_
    intro x hx
    obtain ⟨y, hy, hp, hty⟩ := hd b rfl
    rw [hx] at hy
    cases hy
    exact ⟨hp, hty⟩

/-- The step `b->type = t` for a box `b` that is not below `n`. -/
theorem grows_set_type_new {n : Nat} {ex : Option Nat} (st : content) (b : Nat) (t : box_type)
    (hn : n ≤ b) (hex : ex ≠ some b)
    (hd : ∀ x : box, st.boxes[b]? = some x → x.parent = none ∧ x.type ≠ BOX_INLINE_CONTAINER) :
    grows n ex st (box_set_type b t st) := by
  refine ⟨⟨?_, ?_⟩, ?_⟩
  · simp [length_list_modify]
  · intro i x hi hx
    have hib : i ≠ b := by
      rcases hi with hi | hi
      · omega
      · intro h
        exact hex (h ▸ hi)
    refine ⟨_, getElem?_list_modify_of_some hx b _, ?_⟩
    rw [if_neg hib]
    exact ⟨rfl, rfl, rfl, Or.inl rfl⟩
  · intro hwf _
    exact well_formed_set_type t hwf hd

/-- The step `c->parent = p` (with `c->prev`) for a box `c` that is not below
`n`: an inline-level box goes into an inline container. -/
theorem grows_set_parent {n : Nat} {ex : Option Nat} (st : content) (p c : Nat)
    (last : Option Nat) (hn : n ≤ c) (hex : ex ≠ some c)
    (hc : ∀ x : box, st.boxes[c]? = some x → inline_level x.type →
      is_inline_container st.boxes p) :
    grows n ex st (st.modify_box c (fun b => { b with parent := some p, prev := last })) := by
  refine ⟨⟨?_, ?_⟩, ?_⟩
  · simp [length_list_modify]
  · intro i x hi hx
    have hib : i ≠ c := by
      rcases hi with hi | hi
      · omega
      · intro h
        exact hex (h ▸ hi)
    refine ⟨_, getElem?_list_modify_of_some hx c _, ?_⟩
    rw [if_neg hib]
    exact ⟨rfl, rfl, rfl, Or.inl rfl⟩
  · intro hwf _
    have hcont : ∀ r : Nat, is_inline_container st.boxes r →
        is_inline_container (st.modify_box c
          (fun b => { b with parent := some p, prev := last })).boxes r := by
      intro r hr
      obtain ⟨br, hbr, ht⟩ := hr
      refine ⟨_, getElem?_list_modify_of_some hbr c _, ?_⟩
      split
      · exact ht
      · exact ht
    refine ⟨?_, ?_⟩
    · intro i bi q hi hq hl
      obtain ⟨x, hx, rfl⟩ := getElem?_list_modify_some hi
      by_cases hic : i = c
      · subst hic
        rw [if_pos rfl] at hq hl
        cases hq
        exact hcont _ (hc x hx hl)
      · rw [if_neg hic] at hq hl
        exact hcont _ (hwf.1 i x q hx hq hl)
    · intro i bi e hi he
      obtain ⟨x, hx, rfl⟩ := getElem?_list_modify_some hi
      have he2 : x.inline_end = some e := by
        split at he
        · exact he
        · exact he
      obtain ⟨be, hbe, hie⟩ := hwf.2 i x e hx he2
      refine ⟨_, getElem?_list_modify_of_some hbe c _, ?_⟩
      split
      · exact hie
      · exact hie

/-- The step `box_add_child(p, c)` for a box `c` that is not below `n`: an
inline-level box goes into an inline container. -/
theorem grows_box_add_child {n : Nat} {ex : Option Nat} (st : content) (p c : Nat)
    (hn : n ≤ c) (hex : ex ≠ some c)
    (hc : ∀ x : box, st.boxes[c]? = some x → inline_level x.type →
      is_inline_container st.boxes p) :
    grows n ex st (box_add_child p c st) := by
  unfold box_add_child
  have h1 : grows n ex st
      (st.modify_box p (fun b => { b with children := b.children ++ [c] })) :=
    grows_modify_box st p _ (fun b => ⟨rfl, rfl, rfl, rfl⟩)
  have h2 : ∀ x : box,
      (st.modify_box p (fun b => { b with children := b.children ++ [c] })).boxes[c]? = some x →
      inline_level x.type →
      is_inline_container
        (st.modify_box p (fun b => { b with children := b.children ++ [c] })).boxes p := by
    intro x hx hl
    obtain ⟨y, hy, rfl⟩ := getElem?_list_modify_some hx
    have hl2 : inline_level y.type := by
      split at hl
      · exact hl
      · exact hl
    obtain ⟨bp, hbp, ht⟩ := hc y hy hl2
    refine ⟨_, getElem?_list_modify_of_some hbp p _, ?_⟩
    split
    · exact ht
    · exact ht
  exact h1.trans_grows (grows_set_parent _ p c _ hn hex h2)

theorem list_modify_append_length {α : Type} (l : List α) (a : α) (f : α → α) :
    list_modify (l ++ [a]) l.length f = l ++ [f a] := by
  induction l with
  | nil => rfl
  | cons x xs ih => simp [list_modify, ih]

theorem list_modify_append_of_lt {α : Type} (l : List α) (a : α) (f : α → α) {i : Nat}
    (h : i < l.length) : list_modify (l ++ [a]) i f = list_modify l i f ++ [a] := by
  induction l generalizing i with
  | nil => simp at h
  | cons x xs ih =>
    cases i with
    | zero => rfl
    | succ i =>
      simp only [List.length_cons, Nat.add_lt_add_iff_right] at h
      simp [list_modify, ih h]

theorem not_inline_level_container : ¬ inline_level BOX_INLINE_CONTAINER := by
  intro h
  rcases h with h | h | h <;> exact box_type.noConfusion h

theorem not_inline_level_text : ¬ inline_level BOX_TEXT := by
  intro h
  rcases h with h | h | h <;> exact box_type.noConfusion h

/-- A new box, with its kind set: `box_create` and the assignment of the
type. -/
theorem grows_new_box {n : Nat} {ex : Option Nat} (style : Option Nat) (href : Option cstr)
    (target : Option frame_target) (title id : Option cstr) (t : box_type) (st : content)
    (hn : n ≤ st.boxes.length) (hex : ∀ i, ex = some i → i < st.boxes.length) :
    grows n ex st (box_set_type st.boxes.length t (box_create style href target title id st).1) := by
  refine (grows_box_create style href target title id st).trans_grows
    (grows_set_type_new _ _ t hn ?_ ?_)
  · intro h
    exact absurd (hex _ h) (lt_irrefl _)
  · intro x hx
    rw [boxes_box_create, getElem?_append_singleton, if_pos rfl] at hx
    cases hx
    exact ⟨rfl, by simp⟩

theorem boxes_new_box (style : Option Nat) (href : Option cstr)
    (target : Option frame_target) (title id : Option cstr) (t : box_type) (st : content) :
    (box_set_type st.boxes.length t (box_create style href target title id st).1).boxes =
      st.boxes ++ [{ box_zero with type := t, style := style, href := href, target := target,
                                   title := title, id := id, columns := 1, rows := 1 }] := by
  rw [boxes_box_set_type, boxes_box_create, list_modify_append_length]

/-- `box_add_child(p, c)` when the box `c` is known. -/
theorem grows_box_add_child_of {n : Nat} {ex : Option Nat} (st : content) (p c : Nat) (x : box)
    (hn : n ≤ c) (hex : ∀ i, ex = some i → i < c) (hx : st.boxes[c]? = some x)
    (hc : inline_level x.type → is_inline_container st.boxes p) :
    grows n ex st (box_add_child p c st) := by
  refine grows_box_add_child st p c hn ?_ ?_
  · intro h
    exact absurd (hex _ h) (lt_irrefl _)
  · intro y hy hl
    rw [hx] at hy
    cases hy
    exact hc hl

theorem length_boxes_box_add_child (p c : Nat) (st : content) :
    (box_add_child p c st).boxes.length = st.boxes.length := by
  simp [box_add_child, length_list_modify]

theorem getElem?_box_add_child_of_ne (p c : Nat) (st : content) {i : Nat} (hi : i ≠ c) {x : box}
    (hx : st.boxes[i]? = some x) :
    ∃ y : box, (box_add_child p c st).boxes[i]? = some y ∧ y.type = x.type ∧
      y.parent = x.parent ∧ y.inline_end = x.inline_end ∧ y.style = x.style ∧
      y.title = x.title := by
  unfold box_add_child
  simp only [boxes_modify_box]
  refine ⟨_, getElem?_list_modify_of_some (getElem?_list_modify_of_some hx p _) c _, ?_⟩
  rw [if_neg hi]
  split <;> exact ⟨rfl, rfl, rfl, rfl, rfl⟩

theorem getElem?_box_add_child_self (p c : Nat) (st : content) {x : box}
    (hx : st.boxes[c]? = some x) :
    ∃ y : box, (box_add_child p c st).boxes[c]? = some y ∧ y.type = x.type ∧
      y.parent = some p ∧ y.inline_end = x.inline_end ∧ y.style = x.style := by
  unfold box_add_child
  simp only [boxes_modify_box]
  refine ⟨_, getElem?_list_modify_of_some (getElem?_list_modify_of_some hx p _) c _, ?_⟩
  rw [if_pos rfl]
  split <;> exact ⟨rfl, rfl, rfl, rfl⟩

/-- The current inline container, made if there is none: the result is an
inline container, and the step respects the frame. -/
theorem grows_box_inline_container {n : Nat} {ex : Option Nat} (parent : Nat)
    (ic : Option Nat) (st : content)
    (hn : n ≤ st.boxes.length) (hex : ∀ i, ex = some i → i < st.boxes.length)
    (hic : ∀ c, ic = some c → is_inline_container st.boxes c) :
    grows n ex st (box_inline_container parent ic st).1 ∧
    is_inline_container (box_inline_container parent ic st).1.boxes
      (box_inline_container parent ic st).2 ∧
    (ic = none → (box_inline_container parent ic st).2 = st.boxes.length) ∧
    (∀ c, ic = some c → (box_inline_container parent ic st).2 = c) := by
  cases ic with
  | some c =>
    simp only [box_inline_container]
    exact ⟨grows.refl_grows _ _ _, hic c rfl, fun h => Option.noConfusion h,
      fun c h => (Option.some.inj h)⟩
  | none =>
    have hx : (box_set_type st.boxes.length BOX_INLINE_CONTAINER
        (box_create none none none none none st).1).boxes[st.boxes.length]? =
        some { box_zero with type := BOX_INLINE_CONTAINER, columns := 1, rows := 1 } := by
      rw [boxes_new_box, getElem?_append_singleton, if_pos rfl]
      rfl
    refine ⟨?_, ?_, ?_, ?_⟩
    · exact (grows_new_box none none none none none BOX_INLINE_CONTAINER st hn hex).trans_grows
        (grows_box_add_child_of _ parent _ _ hn hex hx
          (fun h => absurd h not_inline_level_container))
    · obtain ⟨y, hy, ht, _⟩ := getElem?_box_add_child_self parent st.boxes.length _ hx
      exact ⟨y, hy, ht⟩
    · intro _
      rfl
    · intro c h
      exact Option.noConfusion h

attribute [simp] length_list_modify

theorem getElem?_modify_box_self {st : content} {i : Nat} {x : box} (f : box → box)
    (hx : st.boxes[i]? = some x) : (st.modify_box i f).boxes[i]? = some (f x) := by
  rw [boxes_modify_box, getElem?_list_modify_of_some hx, if_pos rfl]

theorem getElem?_new_box (style : Option Nat) (href : Option cstr)
    (target : Option frame_target) (title id : Option cstr) (t : box_type) (st : content) :
    (box_set_type st.boxes.length t (box_create style href target title id st).1).boxes[
        st.boxes.length]? =
      some { box_zero with type := t, style := style, href := href, target := target,
                           title := title, id := id, columns := 1, rows := 1 } := by
  rw [boxes_new_box, getElem?_append_singleton, if_pos rfl]

theorem length_new_box (style : Option Nat) (href : Option cstr)
    (target : Option frame_target) (title id : Option cstr) (t : box_type) (st : content) :
    (box_set_type st.boxes.length t (box_create style href target title id st).1).boxes.length =
      st.boxes.length + 1 := by
  rw [boxes_new_box]
  simp

/-- A new box that is added to the tree as the last child of `p`, members
other than its parent, paired box, style and kind having been assigned: an
inline-level box goes into an inline container. -/
theorem grows_new_child {n : Nat} {ex : Option Nat} (style : Option Nat) (href : Option cstr)
    (target : Option frame_target) (title id : Option cstr) (t : box_type) (f : box → box)
    (p : Nat) (st : content)
    (hf : ∀ b : box, (f b).parent = b.parent ∧ (f b).inline_end = b.inline_end ∧
      (f b).style = b.style ∧ (f b).type = b.type)
    (hn : n ≤ st.boxes.length) (hex : ∀ i, ex = some i → i < st.boxes.length)
    (hc : inline_level t → is_inline_container st.boxes p) :
    grows n ex st
      (box_add_child p st.boxes.length
        ((box_set_type st.boxes.length t
          (box_create style href target title id st).1).modify_box st.boxes.length f)) := by
  have h1 := @grows_new_box n ex style href target title id t st hn hex
  have h2 := @grows_modify_box n ex
    (box_set_type st.boxes.length t (box_create style href target title id st).1)
    st.boxes.length f hf
  have hx := getElem?_modify_box_self f (getElem?_new_box style href target title id t st)
  refine (h1.trans_grows h2).trans_grows (grows_box_add_child_of _ p _ _ hn hex hx ?_)
  intro hl
  rw [(hf _).2.2.2] at hl
  have hp := (h1.trans_grows h2).frame
  obtain ⟨bp, hbp, ht⟩ := hc hl
  have hlt : p < st.boxes.length := (List.getElem?_eq_some.mp hbp).1
  obtain ⟨y, hy, _, _, _, hty⟩ :=
    (@grows_new_box st.boxes.length none style href target title id t st
      (le_refl _) (fun i h => Option.noConfusion h)).trans_grows
    (@grows_modify_box st.boxes.length none
      (box_set_type st.boxes.length t (box_create style href target title id st).1)
      st.boxes.length f hf) |>.frame.old p bp (Or.inl hlt) hbp
  refine ⟨y, hy, ?_⟩
  rcases hty with hty | hty
  · rw [hty]; exact ht
  · exact Option.noConfusion hty.1

/-- The same without further assignments. -/
theorem grows_new_child_plain {n : Nat} {ex : Option Nat} (style : Option Nat)
    (href : Option cstr) (target : Option frame_target) (title id : Option cstr)
    (t : box_type) (p : Nat) (st : content)
    (hn : n ≤ st.boxes.length) (hex : ∀ i, ex = some i → i < st.boxes.length)
    (hc : inline_level t → is_inline_container st.boxes p) :
    grows n ex st
      (box_add_child p st.boxes.length
        (box_set_type st.boxes.length t (box_create style href target title id st).1)) := by
  have h1 := @grows_new_box n ex style href target title id t st hn hex
  refine h1.trans_grows (grows_box_add_child_of _ p _ _ hn hex
    (getElem?_new_box style href target title id t st) ?_)
  intro hl
  obtain ⟨bp, hbp, ht⟩ := hc hl
  have hlt : p < st.boxes.length := (List.getElem?_eq_some.mp hbp).1
  obtain ⟨y, hy, _, _, _, hty⟩ :=
    (@grows_new_box st.boxes.length none style href target title id t st
      (le_refl _) (fun i h => Option.noConfusion h)).frame.old p bp (Or.inl hlt) hbp
  refine ⟨y, hy, ?_⟩
  rcases hty with hty | hty
  · rw [hty]; exact ht
  · exact Option.noConfusion hty.1

/-- The frame of a step, for all the boxes there are. -/
theorem grows.lookup_grows {n : Nat} {ex : Option Nat} {st st' : content} (h : grows n ex st st')
    {i : Nat} {x : box} (hi : i < n ∨ ex = some i) (hx : st.boxes[i]? = some x) :
    ∃ y : box, st'.boxes[i]? = some y ∧ y.parent = x.parent ∧ y.inline_end = x.inline_end ∧
      y.style = x.style ∧ (y.type = x.type ∨ (ex = some i ∧ y.type ≠ BOX_INLINE_CONTAINER)) :=
  h.frame.old i x hi hx

theorem grows.is_inline_container_grows {n : Nat} {ex : Option Nat} {st st' : content}
    (h : grows n ex st st') {i : Nat} (hi : i < n) (hex : ex ≠ some i)
    (hc : is_inline_container st.boxes i) : is_inline_container st'.boxes i :=
  h.frame.is_inline_container_frame hi hex hc

/-- `box_gadget_text` respects the frame. -/
theorem grows_box_gadget_text {n : Nat} {ex : Option Nat} (box : Nat) (text : cstr)
    (st : content) (hn : n ≤ st.boxes.length) (hex : ∀ i, ex = some i → i < st.boxes.length) :
    grows n ex st (box_gadget_text box text st) := by
  unfold box_gadget_text
  simp only [snd_box_create]
  have h1 := @grows_new_box n ex none none none none none
    BOX_INLINE_CONTAINER st hn hex
  generalize hs1 : box_set_type st.boxes.length BOX_INLINE_CONTAINER
    (box_create none none none none none st).1 = s1 at h1 ⊢
  have hl1 : s1.boxes.length = st.boxes.length + 1 := by
    rw [← hs1]; exact length_new_box _ _ _ _ _ _ _
  have hx1 : s1.boxes[st.boxes.length]? =
      some { box_zero with type := BOX_INLINE_CONTAINER, columns := 1, rows := 1 } := by
    rw [← hs1]; exact getElem?_new_box _ _ _ _ _ _ _
  have h2 := @grows_new_child n ex (s1.box_at box).style none none
    (s1.box_at box).title none BOX_TEXT
    (fun b => { b with text := some text, length := text.length }) st.boxes.length s1
    (fun b => ⟨rfl, rfl, rfl, rfl⟩) (by omega) (fun i h => by have := hex i h; omega)
    (fun h => absurd h not_inline_level_text)
  generalize hs2 : box_add_child st.boxes.length s1.boxes.length
    ((box_set_type s1.boxes.length BOX_TEXT
      (box_create (s1.box_at box).style none none (s1.box_at box).title none s1).1).modify_box
        s1.boxes.length (fun b => { b with text := some text, length := text.length })) = s2
    at h2 ⊢
  have hl2 : s1.boxes.length ≤ s2.boxes.length := h2.frame.len
  obtain ⟨y, hy, _, _, _, hty⟩ :=
    (@grows_new_child s1.boxes.length none (s1.box_at box).style none none
      (s1.box_at box).title none BOX_TEXT
      (fun b => { b with text := some text, length := text.length }) st.boxes.length s1
      (fun b => ⟨rfl, rfl, rfl, rfl⟩) (le_refl _) (fun i h => Option.noConfusion h)
      (fun h => absurd h not_inline_level_text)).lookup_grows (i := st.boxes.length)
      (Or.inl (by omega)) hx1
  rw [hs2] at hy
  refine (h1.trans_grows h2).trans_grows (grows_box_add_child_of _ box _ y hn hex hy ?_)
  intro hl
  rcases hty with hty | hty
  · rw [hty] at hl
    exact absurd hl not_inline_level_container
  · exact Option.noConfusion hty.1

/-! ## The special convert functions respect the frame -/

theorem handler_steps.refl_steps {box : Nat} {st : content} (hb : box < st.boxes.length) :
    handler_steps box st st :=
  ⟨hb, grows.refl_grows _ _ _⟩

theorem handler_steps.le_steps {box : Nat} {st X : content} (h : handler_steps box st X) :
    st.boxes.length ≤ X.boxes.length :=
  h.2.frame.len

theorem handler_steps.hex_steps {box : Nat} {st X : content} (h : handler_steps box st X) :
    ∀ i, some box = some i → i < X.boxes.length := by
  intro i hi
  cases hi
  exact lt_of_lt_of_le h.1 h.le_steps

theorem handler_steps.modify_box_steps {box : Nat} {st X : content} (j : Nat)
    (f : NetSurf.box → NetSurf.box)
    (hf : ∀ b : NetSurf.box, (f b).parent = b.parent ∧ (f b).inline_end = b.inline_end ∧
      (f b).style = b.style ∧ (f b).type = b.type)
    (h : handler_steps box st X) : handler_steps box st (X.modify_box j f) :=
  ⟨h.1, h.2.trans_grows (grows_modify_box X j f hf)⟩

theorem handler_steps.set_type_steps {box : Nat} {st X : content} (t : box_type)
    (ht : t ≠ BOX_INLINE_CONTAINER)
    (h : handler_steps box st X) : handler_steps box st (box_set_type box t X) :=
  ⟨h.1, h.2.trans_grows (grows_set_type_ex X box t ht)⟩

theorem handler_steps.boxes_eq_steps {box : Nat} {st X : content}
    (h : handler_steps box st X) (Y : content) (hY : Y.boxes = X.boxes) :
    handler_steps box st Y :=
  ⟨h.1, h.2.trans_grows (grows_of_boxes_eq hY)⟩

theorem handler_steps.modify_control_steps {box : Nat} {st X : content} (g : Nat)
    (f : form_control → form_control)
    (h : handler_steps box st X) : handler_steps box st (X.modify_control g f) :=
  h.boxes_eq_steps _ rfl

theorem handler_steps.modify_style_steps {box : Nat} {st X : content} (s : Nat)
    (f : css_style → css_style)
    (h : handler_steps box st X) : handler_steps box st (X.modify_style s f) :=
  h.boxes_eq_steps _ rfl

theorem handler_steps.form_new_control_steps {box : Nat} {st X : content} (t : gadget_type)
    (h : handler_steps box st X) : handler_steps box st (form_new_control t X).1 :=
  h.boxes_eq_steps _ rfl

theorem handler_steps.box_form_add_control_steps {box : Nat} {st X : content} (g : Nat)
    (h : handler_steps box st X) : handler_steps box st (box_form_add_control g X) :=
  h.boxes_eq_steps _ (boxes_box_form_add_control g X)

theorem handler_steps.html_fetch_object_steps {box : Nat} {st X Y : content} {E : Env} {url : cstr}
    {b : Nat} {p : permitted_types} {w : Int} {hh : Int} {bg : Bool} {fr : Option cstr}
    (hf : html_fetch_object E url b p w hh bg fr X = some Y)
    (h : handler_steps box st X) : handler_steps box st Y :=
  h.boxes_eq_steps _ (boxes_html_fetch_object hf).1

theorem handler_steps.box_gadget_text_steps {box : Nat} {st X : content} (b : Nat) (text : cstr)
    (h : handler_steps box st X) : handler_steps box st (box_gadget_text b text X) :=
  ⟨h.1, h.2.trans_grows (grows_box_gadget_text b text X h.le_steps h.hex_steps)⟩

theorem handler_steps.box_usemap_steps {box : Nat} {st X : content} (n : xmlNode) (b : Nat)
    (h : handler_steps box st X) : handler_steps box st (box_usemap n b X) :=
  h.modify_box_steps _ _ (fun _ => ⟨rfl, rfl, rfl, rfl⟩)

theorem handler_steps_box_body {n : xmlNode} {box : Nat} {st st' : content} {cc : Bool}
    (h : box_body n box st = some (st', cc)) (hb : box < st.boxes.length) :
    handler_steps box st st' := by
  unfold box_body at h
  cases h
  exact (handler_steps.refl_steps hb).boxes_eq_steps _ rfl

theorem handler_steps_box_br {n : xmlNode} {box : Nat} {st st' : content} {cc : Bool}
    (h : box_br n box st = some (st', cc)) (hb : box < st.boxes.length) :
    handler_steps box st st' := by
  unfold box_br at h
  cases h
  exact (handler_steps.refl_steps hb).set_type_steps _ (by simp)

theorem handler_steps_box_a {E : Env} {n : xmlNode} {box : Nat} {st st' : content} {cc : Bool}
    (h : box_a E n box st = some (st', cc)) (hb : box < st.boxes.length) :
    handler_steps box st st' := by
  unfold box_a at h
  simp only at h
  split at h
  · exact Option.noConfusion h
  · rename_i st1 hst1
    have h1 : handler_steps box st st1 := by
      split at hst1
      · split at hst1
        · exact Option.noConfusion hst1
        · cases hst1
          refine handler_steps.modify_box_steps _ _ ?_ (handler_steps.refl_steps hb)
          exact fun _ => ⟨rfl, rfl, rfl, rfl⟩
        · cases hst1
          exact handler_steps.refl_steps hb
      · cases hst1
        exact handler_steps.refl_steps hb
    cases h
    have h2 := h1.modify_box_steps box
      (fun b => { b with id := box_get_attribute n "name".toList b.id })
      (fun _ => ⟨rfl, rfl, rfl, rfl⟩)
    split
    · split
      · refine handler_steps.modify_box_steps _ _ ?_ h2
        exact fun _ => ⟨rfl, rfl, rfl, rfl⟩
      · split
        · refine handler_steps.modify_box_steps _ _ ?_ h2
          exact fun _ => ⟨rfl, rfl, rfl, rfl⟩
        · split
          · refine handler_steps.modify_box_steps _ _ ?_ h2
            exact fun _ => ⟨rfl, rfl, rfl, rfl⟩
          · split
            · refine handler_steps.modify_box_steps _ _ ?_ h2
              exact fun _ => ⟨rfl, rfl, rfl, rfl⟩
            · exact h2
    · exact h2

theorem handler_steps_box_image {E : Env} {n : xmlNode} {box : Nat} {st st' : content}
    {cc : Bool} (h : box_image E n box st = some (st', cc)) (hb : box < st.boxes.length) :
    handler_steps box st st' := by
  unfold box_image at h
  simp only at h
  have h1 : handler_steps box st (box_usemap n box
      (match xmlGetProp n "alt".toList with
        | some alt =>
          st.modify_box box (fun b =>
            { b with text := some (squash_whitespace alt),
                     length := (squash_whitespace alt).length })
        | none => st)) := by
    apply handler_steps.box_usemap_steps
    split
    · refine handler_steps.modify_box_steps _ _ ?_ (handler_steps.refl_steps hb)
      exact fun _ => ⟨rfl, rfl, rfl, rfl⟩
    · exact handler_steps.refl_steps hb
  split at h
  · cases h
    exact h1
  · split at h
    · exact Option.noConfusion h
    · cases h
      exact h1
    · split at h
      · exact Option.noConfusion h
      · rename_i st2 hf
        cases h
        exact h1.html_fetch_object_steps hf

theorem handler_steps_box_iframe {E : Env} {n : xmlNode} {box : Nat} {st st' : content}
    {cc : Bool} (h : box_iframe E n box st = some (st', cc)) (hb : box < st.boxes.length) :
    handler_steps box st st' := by
  unfold box_iframe at h
  split at h
  · cases h
    exact handler_steps.refl_steps hb
  · split at h
    · exact Option.noConfusion h
    · cases h
      exact handler_steps.refl_steps hb
    · split at h
      · cases h
        exact handler_steps.refl_steps hb
      · split at h
        · exact Option.noConfusion h
        · rename_i st2 hf
          cases h
          exact (handler_steps.refl_steps hb).html_fetch_object_steps hf

theorem handler_steps_box_form {n : xmlNode} {box : Nat} {st st' : content} {cc : Bool}
    (h : box_form n box st = some (st', cc)) (hb : box < st.boxes.length) :
    handler_steps box st st' := by
  unfold box_form at h
  cases h
  exact (handler_steps.refl_steps hb).boxes_eq_steps _ rfl

theorem handler_steps_box_embed {E : Env} {n : xmlNode} {box : Nat} {st st' : content}
    {cc : Bool} (h : box_embed E n box st = some (st', cc)) (hb : box < st.boxes.length) :
    handler_steps box st st' := by
  unfold box_embed at h
  split at h
  · cases h
    exact handler_steps.refl_steps hb
  · split at h
    · exact Option.noConfusion h
    · cases h
      exact handler_steps.refl_steps hb
    · split at h
      · cases h
        exact handler_steps.refl_steps hb
      · simp only at h
        split at h
        · exact Option.noConfusion h
        · rename_i st2 hf
          cases h
          refine handler_steps.html_fetch_object_steps hf ?_
          refine handler_steps.modify_box_steps _ _ ?_ (handler_steps.refl_steps hb)
          exact fun _ => ⟨rfl, rfl, rfl, rfl⟩

theorem handler_steps_box_button {n : xmlNode} {box : Nat} {st X st' : content} {cc : Bool}
    (h : box_button n box X = some (st', cc)) (hX : handler_steps box st X) :
    handler_steps box st st' := by
  unfold box_button at h
  simp only at h
  have h1 := hX.set_type_steps BOX_INLINE_BLOCK (by simp)
  split at h
  · cases h
    exact h1
  · rename_i st1 gadget hg
    cases h
    have h2 : handler_steps box st st1 := by
      split at hg
      · cases hg
        exact h1.form_new_control_steps _
      · split at hg
        · cases hg
          exact h1.form_new_control_steps _
        · exact Option.noConfusion hg
    refine handler_steps.modify_control_steps _ _ ?_
    refine handler_steps.box_form_add_control_steps _ ?_
    refine handler_steps.modify_box_steps _ _ ?_ h2
    exact fun _ => ⟨rfl, rfl, rfl, rfl⟩

theorem handler_steps_box_input_text {n : xmlNode} {box : Nat} {password : Bool}
    {st X st' : content}
    (h : box_input_text n box password X = some st') (hX : handler_steps box st X) :
    handler_steps box st st' := by
  unfold box_input_text at h
  simp only at h
  cases h
  refine handler_steps.box_gadget_text_steps _ _ ?_
  refine handler_steps.modify_control_steps _ _ ?_
  refine handler_steps.modify_box_steps _ _ ?_ ?_
  · exact fun _ => ⟨rfl, rfl, rfl, rfl⟩
  refine handler_steps.form_new_control_steps _ ?_
  exact hX.set_type_steps BOX_INLINE_BLOCK (by simp)

theorem handler_steps_box_input_type {E : Env} {n : xmlNode} {box : Nat} {st st' : content}
    {g : Option Nat} (h : box_input_type E n box st = some (st', g))
    (hb : box < st.boxes.length) : handler_steps box st st' := by
  have hdefault : ∀ password : Bool, box_input_default n box password st = some (st', g) →
      handler_steps box st st' := by
    intro password hd
    unfold box_input_default at hd
    split at hd
    · exact Option.noConfusion hd
    · rename_i st2 hit
      cases hd
      exact handler_steps_box_input_text hit (handler_steps.refl_steps hb)
  unfold box_input_type at h
  simp only at h
  split at h
  · exact hdefault _ h
  split at h
  · unfold box_input_file at h
    cases h
    refine handler_steps.modify_control_steps _ _ ?_
    refine handler_steps.modify_box_steps _ _ ?_ ?_
    · exact fun _ => ⟨rfl, rfl, rfl, rfl⟩
    refine handler_steps.form_new_control_steps _ ?_
    exact (handler_steps.refl_steps hb).set_type_steps BOX_INLINE_BLOCK (by simp)
  split at h
  · unfold box_input_hidden at h
    cases h
    have h1 : handler_steps box st
        (match (st.box_at box).style with
          | some s => st.modify_style s (fun x => { x with display := CSS_DISPLAY_NONE })
          | none => st) := by
      split
      · exact handler_steps.modify_style_steps _ _ (handler_steps.refl_steps hb)
      · exact handler_steps.refl_steps hb
    split
    · refine handler_steps.modify_control_steps _ _ ?_
      exact handler_steps.form_new_control_steps _ h1
    · exact handler_steps.form_new_control_steps _ h1
  split at h
  · unfold box_input_checkbox at h
    cases h
    split
    · refine handler_steps.modify_control_steps _ _ ?_
      refine handler_steps.modify_control_steps _ _ ?_
      refine handler_steps.modify_box_steps _ _ ?_ ?_
      · exact fun _ => ⟨rfl, rfl, rfl, rfl⟩
      exact handler_steps.form_new_control_steps _ (handler_steps.refl_steps hb)
    · refine handler_steps.modify_control_steps _ _ ?_
      refine handler_steps.modify_box_steps _ _ ?_ ?_
      · exact fun _ => ⟨rfl, rfl, rfl, rfl⟩
      exact handler_steps.form_new_control_steps _ (handler_steps.refl_steps hb)
  split at h
  · unfold box_input_submit at h
    split at h
    · exact Option.noConfusion h
    · rename_i st2 cc2 hbt
      cases h
      refine handler_steps.box_gadget_text_steps _ _ ?_
      exact handler_steps_box_button hbt (handler_steps.refl_steps hb)
  split at h
  · unfold box_input_button at h
    split at h
    · exact Option.noConfusion h
    · rename_i st2 cc2 hbt
      cases h
      refine handler_steps.box_gadget_text_steps _ _ ?_
      exact handler_steps_box_button hbt (handler_steps.refl_steps hb)
  split at h
  · unfold box_input_image at h
    have h3 : handler_steps box st
        (((form_new_control GADGET_IMAGE st).1.modify_box box
          (fun b => { b with gadget := some (form_new_control GADGET_IMAGE st).2 })).modify_control
          (form_new_control GADGET_IMAGE st).2
          (fun g => { g with box := some box, type := GADGET_IMAGE })) := by
      refine handler_steps.modify_control_steps _ _ ?_
      refine handler_steps.modify_box_steps _ _ ?_ ?_
      · exact fun _ => ⟨rfl, rfl, rfl, rfl⟩
      exact handler_steps.form_new_control_steps _ (handler_steps.refl_steps hb)
    simp only at h
    split at h
    · split at h
      · split at h
        · split at h
          · exact Option.noConfusion h
          · rename_i st2 hf
            cases h
            exact handler_steps.html_fetch_object_steps hf h3
        · cases h
          exact h3
      · cases h
        exact h3
    · cases h
      exact h3
  · exact hdefault _ h

theorem handler_steps_box_input {E : Env} {n : xmlNode} {box : Nat} {st st' : content}
    {cc : Bool} (h : box_input E n box st = some (st', cc)) (hb : box < st.boxes.length) :
    handler_steps box st st' := by
  unfold box_input at h
  split at h
  · exact Option.noConfusion h
  · rename_i st1 hbr
    cases h
    exact handler_steps_box_input_type hbr hb
  · rename_i st1 gadget hbr
    cases h
    refine handler_steps.modify_control_steps _ _ ?_
    refine handler_steps.box_form_add_control_steps _ ?_
    exact handler_steps_box_input_type hbr hb

theorem grows.weaken_grows {n : Nat} {ex : Option Nat} {a b : content} (h : grows n none a b)
    (hex : ∀ i, ex = some i → i < n) : grows n ex a b := by
  refine ⟨⟨h.frame.len, ?_⟩, fun hwf _ => h.wf hwf (fun i hi => Option.noConfusion hi)⟩
  intro i x hi hx
  have hi2 : i < n := by
    rcases hi with hi | hi
    · exact hi
    · exact hex i hi
  obtain ⟨y, hy, hp, he, hs, ht⟩ := h.frame.old i x (Or.inl hi2) hx
  refine ⟨y, hy, hp, he, hs, ?_⟩
  rcases ht with ht | ht
  · exact Or.inl ht
  · exact Option.noConfusion ht.1

theorem handler_steps.grows_steps {box : Nat} {st X Y : content} (h : handler_steps box st X)
    (hg : grows X.boxes.length none X Y) : handler_steps box st Y := by
  refine ⟨h.1, h.2.trans_grows ((hg.mono_grows h.le_steps).weaken_grows ?_)⟩
  intro i hi
  cases hi
  exact h.1

theorem handler_steps_box_select {E : Env} {n : xmlNode} {box : Nat} {st st' : content}
    {cc : Bool} (h : box_select E n box st = some (st', cc)) (hb : box < st.boxes.length) :
    handler_steps box st st' := by
  unfold box_select at h
  simp only at h
  have h1 : handler_steps box st
      ((form_new_control GADGET_SELECT st).1.modify_control (form_new_control GADGET_SELECT st).2
        (fun g => box_select_options false n.children
          { g with multiple := (xmlGetProp n "multiple".toList).isSome })) := by
    refine handler_steps.modify_control_steps _ _ ?_
    exact handler_steps.form_new_control_steps _ (handler_steps.refl_steps hb)
  split at h
  · cases h
    exact h1
  · cases h
    refine handler_steps.box_form_add_control_steps _ ?_
    refine handler_steps.box_gadget_text_steps _ _ ?_
    refine handler_steps.modify_control_steps _ _ ?_
    refine handler_steps.modify_box_steps _ _ ?_ ?_
    · exact fun _ => ⟨rfl, rfl, rfl, rfl⟩
    refine handler_steps.set_type_steps _ (by simp) ?_
    exact handler_steps.modify_control_steps _ _ h1

theorem not_inline_level_of_eq {t u : box_type} (h : t = u) (hu : ¬ inline_level u) :
    ¬ inline_level t := by
  rw [h]; exact hu

/-- The `BOX_TEXT` box of a line of a textarea respects the frame. -/
theorem grows_box_textarea_text {n : Nat} {ex : Option Nat} (box ic : Nat) (line : cstr)
    (st : content) (hn : n ≤ st.boxes.length) (hex : ∀ i, ex = some i → i < st.boxes.length) :
    grows n ex st (box_textarea_text box ic line st) := by
  unfold box_textarea_text
  simp only [snd_box_create]
  exact grows_new_child _ _ _ _ _ BOX_TEXT _ ic st (fun _ => ⟨rfl, rfl, rfl, rfl⟩) hn hex
    (fun h => absurd h not_inline_level_text)

/-- The `BOX_BR` box between two lines of a textarea respects the frame. -/
theorem grows_box_textarea_br {n : Nat} {ex : Option Nat} (box ic : Nat)
    (st : content) (hn : n ≤ st.boxes.length) (hex : ∀ i, ex = some i → i < st.boxes.length)
    (hic : is_inline_container st.boxes ic) :
    grows n ex st
      (box_add_child ic st.boxes.length
        (box_set_type st.boxes.length BOX_BR
          (box_create (st.box_at box).style none none (st.box_at box).title none st).1)) :=
  grows_new_child_plain _ _ _ _ _ BOX_BR ic st hn hex (fun _ => hic)

/-- The loop of `box_textarea` respects the frame. -/
theorem grows_box_textarea_rest {n : Nat} {ex : Option Nat} (box ic : Nat) (lines : List cstr) :
    ∀ st : content, n ≤ st.boxes.length → (∀ i, ex = some i → i < st.boxes.length) →
      is_inline_container st.boxes ic → grows n ex st (box_textarea_rest box ic lines st) := by
  induction lines with
  | nil =>
    intro st _ _ _
    exact grows.refl_grows _ _ _
  | cons line rest ih =>
    intro st hn hex hic
    unfold box_textarea_rest
    simp only [snd_box_create]
    have hlt : ic < st.boxes.length := by
      obtain ⟨b, hb, _⟩ := hic
      exact (List.getElem?_eq_some.mp hb).1
    have h1 := @grows_box_textarea_br n ex box ic st hn hex hic
    have h1' := @grows_box_textarea_br st.boxes.length none box ic st (le_refl _)
      (fun i h => Option.noConfusion h) hic
    generalize box_add_child ic st.boxes.length
        (box_set_type st.boxes.length BOX_BR
          (box_create (st.box_at box).style none none (st.box_at box).title none st).1) = s1
      at h1 h1' ⊢
    have hl1 : st.boxes.length ≤ s1.boxes.length := h1.frame.len
    have h2 := @grows_box_textarea_text n ex box ic line s1 (by omega)
      (fun i h => by have := hex i h; omega)
    have h2' := @grows_box_textarea_text st.boxes.length none box ic line s1 hl1
      (fun i h => Option.noConfusion h)
    generalize box_textarea_text box ic line s1 = s2 at h2 h2' ⊢
    have hl2 : s1.boxes.length ≤ s2.boxes.length := h2.frame.len
    refine (h1.trans_grows h2).trans_grows (ih s2 (by omega) (fun i h => by have := hex i h; omega) ?_)
    exact (h1'.trans_grows h2').is_inline_container_grows hlt (fun h => Option.noConfusion h) hic

theorem handler_steps_box_textarea {n : xmlNode} {box : Nat} {st st' : content}
    {cc : Bool} (h : box_textarea n box st = some (st', cc)) (hb : box < st.boxes.length) :
    handler_steps box st st' := by
  unfold box_textarea at h
  simp only [snd_box_create] at h
  cases h
  refine handler_steps.box_form_add_control_steps _ ?_
  have h1 : handler_steps box st
      (((box_set_type box BOX_INLINE_BLOCK st |> form_new_control GADGET_TEXTAREA).1.modify_box box
        (fun b => { b with gadget := some (form_new_control GADGET_TEXTAREA
          (box_set_type box BOX_INLINE_BLOCK st)).2 })).modify_control
        (form_new_control GADGET_TEXTAREA (box_set_type box BOX_INLINE_BLOCK st)).2
        (fun g => { g with box := some box, name := box_get_attribute n "name".toList g.name })) := by
    refine handler_steps.modify_control_steps _ _ ?_
    refine handler_steps.modify_box_steps _ _ ?_ ?_
    · exact fun _ => ⟨rfl, rfl, rfl, rfl⟩
    refine handler_steps.form_new_control_steps _ ?_
    exact (handler_steps.refl_steps hb).set_type_steps BOX_INLINE_BLOCK (by simp)
  generalize ((box_set_type box BOX_INLINE_BLOCK st |> form_new_control GADGET_TEXTAREA).1.modify_box box
        (fun b => { b with gadget := some (form_new_control GADGET_TEXTAREA
          (box_set_type box BOX_INLINE_BLOCK st)).2 })).modify_control
        (form_new_control GADGET_TEXTAREA (box_set_type box BOX_INLINE_BLOCK st)).2
        (fun g => { g with box := some box, name := box_get_attribute n "name".toList g.name }) = s1
    at h1 ⊢
  have hg2 := @grows_new_child_plain s1.boxes.length none none none none (s1.box_at box).title
    none BOX_INLINE_CONTAINER box s1 (le_refl _) (fun i h => Option.noConfusion h)
    (fun h => absurd h not_inline_level_container)
  have hic : is_inline_container
      (box_add_child box s1.boxes.length
        (box_set_type s1.boxes.length BOX_INLINE_CONTAINER
          (box_create none none none (s1.box_at box).title none s1).1)).boxes s1.boxes.length := by
    obtain ⟨y, hy, ht, _⟩ := getElem?_box_add_child_self box s1.boxes.length _
      (getElem?_new_box none none none (s1.box_at box).title none BOX_INLINE_CONTAINER s1)
    exact ⟨y, hy, ht⟩
  have h2 := h1.grows_steps hg2
  generalize box_add_child box s1.boxes.length
        (box_set_type s1.boxes.length BOX_INLINE_CONTAINER
          (box_create none none none (s1.box_at box).title none s1).1) = s2 at h2 hic hg2 ⊢
  split
  · exact h2
  · rename_i line rest _
    have hg3 := @grows_box_textarea_text s2.boxes.length none box s1.boxes.length line s2
      (le_refl _) (fun i h => Option.noConfusion h)
    have hlt : s1.boxes.length < s2.boxes.length := by
      obtain ⟨b, hb, _⟩ := hic
      exact (List.getElem?_eq_some.mp hb).1
    have hic3 := hg3.is_inline_container_grows hlt (fun h => Option.noConfusion h) hic
    have h3 := h2.grows_steps hg3
    generalize box_textarea_text box s1.boxes.length line s2 = s3 at h3 hic3 ⊢
    exact h3.grows_steps (grows_box_textarea_rest box s1.boxes.length rest s3 (le_refl _)
      (fun i h => Option.noConfusion h) hic3)

/-- A row of a frameset respects the frame. -/
theorem grows_box_frameset_row {n : Nat} {ex : Option Nat} (box style : Nat) (st : content)
    (hn : n ≤ st.boxes.length) (hex : ∀ i, ex = some i → i < st.boxes.length) :
    grows n ex st (box_frameset_row box style st).1 := by
  unfold box_frameset_row
  simp only [snd_new_style, snd_box_create, boxes_new_style]
  have h1 : grows n ex st (st.new_style (st.style_at style)).1 := grows_of_boxes_eq (by simp)
  refine h1.trans_grows ?_
  have := @grows_new_child_plain n ex (some st.styles.length) none none none none
    BOX_TABLE_ROW box (st.new_style (st.style_at style)).1 (by simpa using hn)
    (by simpa using hex) (fun h => by simp [inline_level] at h)
  simpa using this

theorem length_box_frameset_row (box style : Nat) (st : content) :
    st.boxes.length ≤ (box_frameset_row box style st).1.boxes.length :=
  (@grows_box_frameset_row 0 none box style st (Nat.zero_le _)
    (fun i h => Option.noConfusion h)).frame.len

theorem grows_box_frameset_empty_rows {n : Nat} {ex : Option Nat} (box style : Nat) (k : Nat) :
    ∀ st : content, n ≤ st.boxes.length → (∀ i, ex = some i → i < st.boxes.length) →
      grows n ex st (box_frameset_empty_rows box style k st) := by
  induction k with
  | zero =>
    intro st _ _
    exact grows.refl_grows _ _ _
  | succ k ih =>
    intro st hn hex
    unfold box_frameset_empty_rows
    have hl := length_box_frameset_row box style st
    exact (grows_box_frameset_row box style st hn hex).trans_grows
      (ih _ (by omega) (fun i h => by have := hex i h; omega))

theorem grows_box_frameset_new_row {n : Nat} {ex : Option Nat}
    (cell : Nat → Nat → content → Option content) (box style : Nat) (d : frameset_lengths)
    (row : Nat) (st st' : content)
    (h : box_frameset_new_row cell box style d row st = some st')
    (hcell : ∀ col rb Y Y', cell col rb Y = some Y' → n ≤ Y.boxes.length →
      (∀ i, ex = some i → i < Y.boxes.length) → grows n ex Y Y')
    (hn : n ≤ st.boxes.length) (hex : ∀ i, ex = some i → i < st.boxes.length) :
    grows n ex st st' := by
  unfold box_frameset_new_row at h
  have hl := length_box_frameset_row box style st
  have h1 := @grows_box_frameset_row n ex box style st hn hex
  split at h
  · cases h
    exact grows.refl_grows _ _ _
  · simp only at h
    split at h
    · cases h
      exact h1.trans_grows (grows_box_frameset_empty_rows box style _ _ (by omega)
        (fun i h => by have := hex i h; omega))
    · exact h1.trans_grows (hcell _ _ _ _ h (by omega) (fun i h => by have := hex i h; omega))

theorem getElem?_box_create_new (style : Option Nat) (href : Option cstr)
    (target : Option frame_target) (title id : Option cstr) (st : content) :
    ∃ x : box, (box_create style href target title id st).1.boxes[st.boxes.length]? = some x ∧
      x.parent = none ∧ x.type = BOX_INLINE ∧ x.inline_end = none ∧ x.style = style := by
  refine ⟨{ box_zero with type := BOX_INLINE, style := style, href := href, target := target,
                          title := title, id := id, columns := 1, rows := 1 }, ?_, rfl, rfl, rfl, rfl⟩
  simp [box_create]

theorem grows_box_frameset_columns {n : Nat} {ex : Option Nat} (c : xmlNode) (b : Nat)
    (st : content) (hn : n ≤ b) (hex : ex ≠ some b)
    (hd : ∀ x : box, st.boxes[b]? = some x → x.parent = none ∧ x.type ≠ BOX_INLINE_CONTAINER) :
    grows n ex st (box_frameset_columns c b st).1 := by
  unfold box_frameset_columns
  simp only
  exact (grows_set_type_new st b BOX_TABLE hn hex hd).trans_grows
    (grows_modify_box _ _ _ (fun _ => ⟨rfl, rfl, rfl, rfl⟩))

theorem getElem?_box_frameset_columns (c : xmlNode) (b : Nat) (st : content) (x : box)
    (hx : st.boxes[b]? = some x) :
    ∃ y : box, (box_frameset_columns c b st).1.boxes[b]? = some y ∧ y.type = BOX_TABLE := by
  unfold box_frameset_columns
  simp only [boxes_modify_box, boxes_box_set_type]
  rw [getElem?_list_modify_of_some (getElem?_list_modify_of_some hx _ _)]
  simp

theorem length_box_frameset_columns (c : xmlNode) (b : Nat) (st : content) :
    (box_frameset_columns c b st).1.boxes.length = st.boxes.length := by
  unfold box_frameset_columns
  simp

theorem grows_box_frameset_cell {n : Nat} {ex : Option Nat} (E : Env) (c : xmlNode)
    (nested : Nat → Nat → frameset_lengths → content → Option content)
    (rest : Nat → content → Option content)
    (style : Nat) (d : frameset_lengths) (col rb : Nat) (st st' : content)
    (h : box_frameset_cell E c nested rest style d col rb st = some st')
    (hnested : ∀ (m : Nat) (e : Option Nat) fb cs d1 Y Y', nested fb cs d1 Y = some Y' →
      m ≤ Y.boxes.length → (∀ i, e = some i → i < Y.boxes.length) → grows m e Y Y')
    (hrest : ∀ col Y Y', rest col Y = some Y' → n ≤ Y.boxes.length →
      (∀ i, ex = some i → i < Y.boxes.length) → grows n ex Y Y')
    (hn : n ≤ st.boxes.length) (hex : ∀ i, ex = some i → i < st.boxes.length) :
    grows n ex st st' := by
  unfold box_frameset_cell at h
  split at h
  · exact hrest _ _ _ h hn hex
  · simp only [snd_new_style, snd_box_create, boxes_new_style, boxes_modify_style] at h
    have h1 : grows n ex st (((st.new_style (st.style_at style)).1).modify_style
        st.styles.length (fun s => { s with overflow := CSS_OVERFLOW_AUTO })) :=
      grows_of_boxes_eq (by simp)
    have hl1 : (((st.new_style (st.style_at style)).1).modify_style
        st.styles.length (fun s => { s with overflow := CSS_OVERFLOW_AUTO })).boxes.length
        = st.boxes.length := by simp
    generalize (((st.new_style (st.style_at style)).1).modify_style
        st.styles.length (fun s => { s with overflow := CSS_OVERFLOW_AUTO })) = s1 at h h1 hl1
    have h2 : grows n ex s1 (box_add_child rb st.boxes.length
        (box_set_type st.boxes.length BOX_TABLE_CELL
          (box_create (some st.styles.length) none none none none s1).1)) := by
      have := @grows_new_child_plain n ex (some st.styles.length) none none none none
        BOX_TABLE_CELL rb s1 (by omega) (fun i h => by have := hex i h; omega)
        (fun h => by simp [inline_level] at h)
      rw [hl1] at this
      exact this
    have hl2 : (box_add_child rb st.boxes.length
        (box_set_type st.boxes.length BOX_TABLE_CELL
          (box_create (some st.styles.length) none none none none s1).1)).boxes.length
        = st.boxes.length + 1 := by
      rw [length_boxes_box_add_child]
      have := length_new_box (some st.styles.length) none none none none BOX_TABLE_CELL s1
      rw [hl1] at this
      exact this
    have h12 := h1.trans_grows h2
    generalize (box_add_child rb st.boxes.length
        (box_set_type st.boxes.length BOX_TABLE_CELL
          (box_create (some st.styles.length) none none none none s1).1)) = s2 at h h12 hl2
    clear h1 h2 hl1
    have hn2 : n ≤ s2.boxes.length := by omega
    have hex2 : ∀ i, ex = some i → i < s2.boxes.length := fun i h => by
      have := hex i h; omega
    split at h
    · -- a nested frameset
      have hc1 : grows n ex s2 (box_create (some st.styles.length) none none none none s2).1 :=
        grows_box_create _ _ _ _ _ _
      obtain ⟨x1, hx1, hx1p, hx1t, _, _⟩ :=
        getElem?_box_create_new (some st.styles.length) none none none none s2
      have hl3 : (box_create (some st.styles.length) none none none none s2).1.boxes.length
          = s2.boxes.length + 1 := by simp
      generalize (box_create (some st.styles.length) none none none none s2).1 = s3
        at h hc1 hx1 hl3
      have hc2 : grows n ex s3 (box_frameset_columns c s2.boxes.length s3).1 := by
        refine grows_box_frameset_columns c _ s3 hn2 ?_ ?_
        · intro he
          have := hex2 _ he
          omega
        · intro x hx
          rw [hx1] at hx
          cases hx
          exact ⟨hx1p, by simp [hx1t]⟩
      obtain ⟨y, hy, hyt⟩ := getElem?_box_frameset_columns c s2.boxes.length s3 x1 hx1
      have hl4 := length_box_frameset_columns c s2.boxes.length s3
      generalize (box_frameset_columns c s2.boxes.length s3).1 = s4 at h hc2 hy hl4
      generalize (box_frameset_columns c s2.boxes.length s3).2 = d1 at h
      split at h
      · exact Option.noConfusion h
      · rename_i s5 hs5
        have hc3 := hnested n ex _ _ _ _ _ hs5 (by omega)
          (fun i h => by have := hex2 i h; omega)
        have hc3' := hnested s4.boxes.length none _ _ _ _ _ hs5 (le_refl _)
          (fun i h => Option.noConfusion h)
        obtain ⟨z, hz, _, _, _, hzt⟩ := hc3'.lookup_grows (Or.inl (by omega)) hy
        have hzt2 : z.type = BOX_TABLE := by
          rcases hzt with hzt | hzt
          · exact hzt.trans hyt
          · exact Option.noConfusion hzt.1
        have hl5 : s4.boxes.length ≤ s5.boxes.length := hc3.frame.len
        have hc4 : grows n ex s5 (box_frameset_width st.styles.length s5) :=
          grows_of_boxes_eq (by simp [box_frameset_width])
        have hz2 : (box_frameset_width st.styles.length s5).boxes[s2.boxes.length]? = some z := by
          simpa [box_frameset_width] using hz
        have hl6 : (box_frameset_width st.styles.length s5).boxes.length = s5.boxes.length := by
          simp [box_frameset_width]
        generalize box_frameset_width st.styles.length s5 = s6 at h hc4 hz2 hl6
        have hc5 : grows n ex s6 (box_add_child st.boxes.length s2.boxes.length s6) :=
          grows_box_add_child_of s6 _ _ z hn2 hex2 hz2
            (fun hi => by rw [hzt2] at hi; simp [inline_level] at hi)
        have hl7 := length_boxes_box_add_child st.boxes.length s2.boxes.length s6
        refine ((((h12.trans_grows hc1).trans_grows hc2).trans_grows hc3).trans_grows hc4).trans_grows (hc5.trans_grows ?_)
        exact hrest _ _ _ h (by omega) (fun i h => by have := hex i h; omega)
    · split at h
      · exact h12.trans_grows (hrest _ _ _ h hn2 hex2)
      · split at h
        · split at h
          · exact h12.trans_grows (hrest _ _ _ h hn2 hex2)
          · split at h
            · exact Option.noConfusion h
            · rename_i s3 hs3
              have hb := boxes_html_fetch_object hs3
              have hc : grows n ex s2 s3 := grows_of_boxes_eq hb.1
              refine (h12.trans_grows hc).trans_grows (hrest _ _ _ h ?_ ?_)
              · rw [hb.1]; exact hn2
              · rw [hb.1]; exact hex2
        · exact h12.trans_grows (hrest _ _ _ h hn2 hex2)

/-- The loops of `box_frameset` respect the frame. -/
theorem grows_box_frameset_table (E : Env) (c : xmlNode) :
    ∀ (n : Nat) (ex : Option Nat) (box style : Nat) (d : frameset_lengths) (row col : Nat)
      (row_box : Option Nat) (st st' : content),
      box_frameset_table E c box style d row col row_box st = some st' →
      n ≤ st.boxes.length → (∀ i, ex = some i → i < st.boxes.length) → grows n ex st st' := by
  induction c with
  | null =>
    intro n ex box style d row col row_box st st' h _ _
    unfold box_frameset_table at h
    cases h
    exact grows.refl_grows _ _ _
  | node t name hp ps tx children next ihc ihn =>
    intro n ex box style d row col row_box st st' h hn hex
    unfold box_frameset_table at h
    have hcell : ∀ (row col rb : Nat) (Y Y' : content),
        box_frameset_cell E (.node t name hp ps tx children next)
          (fun frameset_box cell_style d1 st =>
            box_frameset_table E children frameset_box cell_style d1 0 0 none st)
          (fun col st => box_frameset_table E next box style d row col (some rb) st)
          style d col rb Y = some Y' → n ≤ Y.boxes.length →
        (∀ i, ex = some i → i < Y.boxes.length) → grows n ex Y Y' := by
      intro row col rb Y Y' hY hnY hexY
      refine grows_box_frameset_cell E _ _ _ style d col rb Y Y' hY ?_ ?_ hnY hexY
      · intro m e fb cs d1 Z Z' hZ hm he
        exact ihc m e fb cs d1 0 0 none Z Z' hZ hm he
      · intro col Z Z' hZ hm he
        exact ihn n ex box style d row col (some rb) Z Z' hZ hm he
    split at h
    · exact grows_box_frameset_new_row _ box style d row st st' h
        (fun col rb Y Y' hY => hcell row col rb Y Y' hY) hn hex
    · split at h
      · exact grows_box_frameset_new_row _ box style d (row + 1) st st' h
          (fun col rb Y Y' hY => hcell (row + 1) col rb Y Y' hY) hn hex
      · exact hcell row col _ st st' h hn hex

theorem handler_steps_box_frameset {E : Env} {n : xmlNode} {box : Nat} {st st' : content}
    {cc : Bool} (h : box_frameset E n box st = some (st', cc)) (hb : box < st.boxes.length) :
    handler_steps box st st' := by
  unfold box_frameset at h
  split at h
  · exact Option.noConfusion h
  · simp only at h
    have h1 : handler_steps box st (box_frameset_columns n box st).1 := by
      unfold box_frameset_columns
      simp only
      refine handler_steps.modify_box_steps _ _ ?_ ?_
      · exact fun _ => ⟨rfl, rfl, rfl, rfl⟩
      exact (handler_steps.refl_steps hb).set_type_steps BOX_TABLE (by simp)
    split at h
    · exact Option.noConfusion h
    · rename_i s2 hs2
      cases h
      have h2 := grows_box_frameset_table E _ st.boxes.length (some box) _ _ _ _ _ _ _ _ hs2
        h1.le_steps h1.hex_steps
      refine handler_steps.modify_style_steps _ _ ?_
      exact ⟨h1.1, h1.2.trans_grows h2⟩

theorem handler_steps_box_object {E : Env} {conv : children_conversion} {n : xmlNode}
    {box : Nat} {st st' : content} {cc : Bool} (hconv : conv_ok conv)
    (h : box_object E conv n box st = some (st', cc)) (hb : box < st.boxes.length) :
    handler_steps box st st' := by
  unfold box_object at h
  simp only at h
  have h1 : handler_steps box st (box_usemap n box st) :=
    handler_steps.box_usemap_steps n box (handler_steps.refl_steps hb)
  generalize box_usemap n box st = s1 at h h1
  split at h
  · exact Option.noConfusion h
  split at h
  · exact Option.noConfusion h
  split at h
  · exact Option.noConfusion h
  · cases h; exact h1
  split at h
  · cases h; exact h1
  split at h
  · cases h; exact h1
  split at h
  · exact Option.noConfusion h
  rename_i s2 hs2
  split at h
  · exact Option.noConfusion h
  split at h
  · exact Option.noConfusion h
  rename_i s3 ic3 hs3
  cases h
  have h2 : handler_steps box st s2 := by
    refine handler_steps.html_fetch_object_steps hs2 ?_
    refine handler_steps.modify_box_steps _ _ ?_ h1
    exact fun _ => ⟨rfl, rfl, rfl, rfl⟩
  refine handler_steps.modify_box_steps _ _ ?_ ?_
  · exact fun _ => ⟨rfl, rfl, rfl, rfl⟩
  exact h2.grows_steps (hconv _ _ _ _ _ _ _ _ _ hs3 (fun c hc => Option.noConfusion hc)).1

theorem handler_steps_box_special {E : Env} {conv : children_conversion}
    {convert : element_convert} {n : xmlNode}
    {box : Nat} {st st' : content} {cc : Bool} (hconv : conv_ok conv)
    (h : box_special E conv convert n box st = some (st', cc)) (hb : box < st.boxes.length) :
    handler_steps box st st' := by
  cases convert <;> simp only [box_special] at h
  · exact handler_steps_box_a h hb
  · exact handler_steps_box_body h hb
  · exact handler_steps_box_br h hb
  · exact handler_steps_box_button h (handler_steps.refl_steps hb)
  · exact handler_steps_box_embed h hb
  · exact handler_steps_box_form h hb
  · exact handler_steps_box_frameset h hb
  · exact handler_steps_box_iframe h hb
  · exact handler_steps_box_image h hb
  · exact handler_steps_box_input h hb
  · exact handler_steps_box_object hconv h hb
  · exact handler_steps_box_select h hb
  · exact handler_steps_box_textarea h hb

theorem is_inline_container.lt_container {bs : List box} {c : Nat} (h : is_inline_container bs c) :
    c < bs.length := by
  obtain ⟨b, hb, _⟩ := h
  exact (List.getElem?_eq_some.mp hb).1

/-- A step that respects the frame of all the boxes keeps the inline
containers. -/
theorem grows.keeps_grows {st st' : content} (h : grows st.boxes.length none st st') {c : Nat}
    (hc : NetSurf.is_inline_container st.boxes c) : NetSurf.is_inline_container st'.boxes c :=
  h.is_inline_container_grows hc.lt_container (fun h => Option.noConfusion h) hc

theorem grows.step_grows {n : Nat} {X Y Z : content} (h : grows n none X Y) (hn : n ≤ X.boxes.length)
    (hs : grows Y.boxes.length none Y Z) : grows n none X Z :=
  h.trans_grows (hs.mono_grows (le_trans hn h.frame.len))

theorem no_ex {st : content} : ∀ i, (none : Option Nat) = some i → i < st.boxes.length :=
  fun _ h => Option.noConfusion h

theorem valid_container_none (st : content) : valid_container none st :=
  fun _ h => Option.noConfusion h

theorem valid_container_some {c : Nat} {st : content} (h : is_inline_container st.boxes c) :
    valid_container (some c) st := by
  intro d hd
  cases hd
  exact h

theorem valid_container.keeps_valid {ic : Option Nat} {st st' : content} (h : valid_container ic st)
    (hg : grows st.boxes.length none st st') : valid_container ic st' :=
  fun c hc => hg.keeps_grows (h c hc)

/-- The text box of `box_construct_text` respects the frame. -/
theorem grows_text_box (parent_style : Nat) (href : Option cstr) (target : Option frame_target)
    (title : Option cstr) (f : box → box) (ic : Nat) (st : content)
    (hf : ∀ b : box, (f b).parent = b.parent ∧ (f b).inline_end = b.inline_end ∧
      (f b).style = b.style ∧ (f b).type = b.type) :
    grows st.boxes.length none st
      (box_add_child ic st.boxes.length
        ((box_set_type st.boxes.length BOX_TEXT
          (box_create (some parent_style) href target title none st).1).modify_box
            st.boxes.length f)) :=
  grows_new_child _ _ _ _ _ BOX_TEXT f ic st hf (le_refl _) no_ex
    (fun h => absurd h not_inline_level_text)

/-- The loop of `box_construct_text` under `white-space: pre` respects the
frame and leaves an inline container, if any. -/
theorem grows_box_construct_text_pre (parent_style parent : Nat) (href : Option cstr)
    (target : Option frame_target) (title : Option cstr) (lines : List (cstr × Bool)) :
    ∀ (ic : Option Nat) (X : content), valid_container ic X →
      grows X.boxes.length none X
        (box_construct_text_pre parent_style parent href target title lines ic X).1 ∧
      valid_container (box_construct_text_pre parent_style parent href target title lines ic X).2
        (box_construct_text_pre parent_style parent href target title lines ic X).1 := by
  induction lines with
  | nil =>
    intro ic X hic
    exact ⟨grows.refl_grows _ _ _, hic⟩
  | cons l rest ih =>
    intro ic X hic
    obtain ⟨line, terminated⟩ := l
    unfold box_construct_text_pre
    simp only [snd_box_create]
    obtain ⟨g1, hc1, _, _⟩ := grows_box_inline_container parent ic X (le_refl _) no_ex hic
    generalize (box_inline_container parent ic X).1 = s1 at g1 hc1 ⊢
    generalize (box_inline_container parent ic X).2 = c at hc1 ⊢
    have g2 := grows_text_box parent_style href target title
      (fun b => { b with text := some line, length := line.length }) c s1
      (fun _ => ⟨rfl, rfl, rfl, rfl⟩)
    have hc2 := g2.keeps_grows hc1
    generalize (box_add_child c s1.boxes.length
        ((box_set_type s1.boxes.length BOX_TEXT
          (box_create (some parent_style) href target title none s1).1).modify_box
            s1.boxes.length (fun b => { b with text := some line, length := line.length })))
      = s2 at g2 hc2 ⊢
    have hv : valid_container (if terminated = true then none else some c) s2 := by
      split
      · exact valid_container_none _
      · exact valid_container_some hc2
    obtain ⟨g3, hc3⟩ := ih _ s2 hv
    exact ⟨(g1.step_grows (le_refl _) g2).step_grows (le_refl _) g3, hc3⟩

theorem grows_neutral (st : content) (j : Nat) (f : box → box)
    (hf : ∀ b : box, (f b).parent = b.parent ∧ (f b).inline_end = b.inline_end ∧
      (f b).style = b.style ∧ (f b).type = b.type) :
    grows st.boxes.length none st (st.modify_box j f) :=
  grows_modify_box st j f hf

/-- `box_construct_text` respects the frame and leaves an inline container,
if any. -/
theorem grows_box_construct_text {n : xmlNode} {parent_style parent : Nat} {ic : Option Nat}
    {href : Option cstr} {target : Option frame_target} {title : Option cstr}
    {X Y : content} {ic' : Option Nat}
    (h : box_construct_text n parent_style parent ic href target title X = some (Y, ic'))
    (hic : valid_container ic X) :
    grows X.boxes.length none X Y ∧ valid_container ic' Y := by
  unfold box_construct_text at h
  simp only at h
  split at h
  · split at h
    · split at h
      · split at h
        · cases h
          rename_i last _
          have g := grows_neutral X last (fun b => { b with space := true })
            (fun _ => ⟨rfl, rfl, rfl, rfl⟩)
          exact ⟨g, hic.keeps_valid g⟩
        · cases h
          exact ⟨grows.refl_grows _ _ _, hic⟩
      · cases h
        exact ⟨grows.refl_grows _ _ _, hic⟩
    · simp only [snd_box_create] at h
      obtain ⟨g1, hc1, _, _⟩ := grows_box_inline_container parent ic X (le_refl _) no_ex hic
      generalize (box_inline_container parent ic X).1 = s1 at h g1 hc1
      generalize (box_inline_container parent ic X).2 = c at h hc1
      generalize (if (decide (List.length (squash_whitespace n.content) > 1) && _) = true
        then _ else _) = len at h
      generalize (if (X.style_at parent_style).text_transform ≠ CSS_TEXT_TRANSFORM_NONE
        then _ else _) = text at h
      generalize hs2 : box_add_child c s1.boxes.length _ = s2 at h
      have g2 : grows s1.boxes.length none s1 s2 := by
        rw [← hs2]
        exact grows_text_box _ _ _ _ _ _ _ (fun _ => ⟨rfl, rfl, rfl, rfl⟩)
      have hc2 := g2.keeps_grows hc1
      have g12 := g1.step_grows (le_refl _) g2
      clear hs2
      split at h
      · generalize hs3 : s2.modify_box s1.boxes.length _ = s3 at h
        have g3 : grows s2.boxes.length none s2 s3 := by
          rw [← hs3]
          exact grows_neutral _ _ _ (fun _ => ⟨rfl, rfl, rfl, rfl⟩)
        have hc3 := g3.keeps_grows hc2
        have g13 := g12.step_grows (le_refl _) g3
        clear hs3
        split at h
        · cases h
          rename_i prev _
          have g4 := grows_neutral s3 prev (fun b => { b with space := true })
            (fun _ => ⟨rfl, rfl, rfl, rfl⟩)
          exact ⟨g13.step_grows (le_refl _) g4, valid_container_some (g4.keeps_grows hc3)⟩
        · cases h
          exact ⟨g13, valid_container_some hc3⟩
      · cases h
        exact ⟨g12, valid_container_some hc2⟩
  · generalize box_construct_text_lines _ [] = lines at h
    have := grows_box_construct_text_pre parent_style parent href target title lines ic X hic
    generalize box_construct_text_pre parent_style parent href target title lines ic X = r
      at h this
    cases h
    exact this

/-! ## The attributes of an element -/

theorem foldl_invariant {α : Type} (R : content → content → Prop) (hr : ∀ s, R s s)
    (ht : ∀ a b c, R a b → R b c → R a c) (f : content → α → content)
    (hf : ∀ s a, R s (f s a)) : ∀ (l : List α) (st : content), R st (l.foldl f st) := by
  intro l
  induction l with
  | nil => intro st; exact hr st
  | cons a l ih => intro st; exact ht _ _ _ (hf st a) (ih (f st a))

theorem boxes_box_set_cellpadding_children (value : Int) (fuel : Nat) :
    ∀ (children : List Nat) (st : content),
      (box_set_cellpadding_children value fuel children st).boxes = st.boxes := by
  induction fuel with
  | zero => intro children st; rfl
  | succ fuel ih =>
    intro children st
    unfold box_set_cellpadding_children
    refine foldl_invariant (fun s s' => s'.boxes = s.boxes) (fun _ => rfl)
      (fun a b c h1 h2 => h2.trans h1) _ ?_ children st
    intro s child
    show (_ : content).boxes = s.boxes
    split
    · exact ih _ _
    · exact ih _ _
    · split
      · simp
      · rfl
    · rfl

theorem boxes_box_set_cellpadding (box : Nat) (value : Int) (st : content) :
    (box_set_cellpadding box value st).boxes = st.boxes :=
  boxes_box_set_cellpadding_children _ _ _ _

theorem boxes_box_set_table_border_children (value : Int) (color : colour) (fuel : Nat) :
    ∀ (children : List Nat) (st : content),
      (box_set_table_border_children value color fuel children st).boxes = st.boxes := by
  induction fuel with
  | zero => intro children st; rfl
  | succ fuel ih =>
    intro children st
    unfold box_set_table_border_children
    refine foldl_invariant (fun s s' => s'.boxes = s.boxes) (fun _ => rfl)
      (fun a b c h1 h2 => h2.trans h1) _ ?_ children st
    intro s child
    show (_ : content).boxes = s.boxes
    split
    · exact ih _ _
    · exact ih _ _
    · split
      · simp
      · rfl
    · rfl

theorem boxes_box_set_table_border (box : Nat) (value : Int) (color : colour) (st : content) :
    (box_set_table_border box value color st).boxes = st.boxes := by
  unfold box_set_table_border
  simp only
  rw [boxes_box_set_table_border_children]
  split
  · split <;> simp
  · rfl

theorem boxes_box_row_height (E : Env) (children : List Nat) :
    ∀ (value : cfloat) (st : content), (box_row_height E children value st).boxes = st.boxes := by
  induction children with
  | nil => intro value st; rfl
  | cons child rest ih =>
    intro value st
    unfold box_row_height
    split
    · split
      · simp only
        rw [ih]
        simp
      · exact ih _ _
    · exact ih _ _

theorem grows_box_construct_element_span {n : Nat} {ex : Option Nat} (node : xmlNode)
    (box : Nat) (st : content) : grows n ex st (box_construct_element_span node box st) := by
  unfold box_construct_element_span
  lift_lets
  intro s0
  have h1 : grows n ex st s0 := by
    show grows n ex st (match xmlGetProp node "colspan".toList with
      | some s => _
      | none => st)
    split
    · exact grows_modify_box _ _ _ (fun _ => ⟨rfl, rfl, rfl, rfl⟩)
    · exact grows.refl_grows _ _ _
  refine h1.trans_grows ?_
  clear_value s0
  split
  · exact grows_modify_box _ _ _ (fun _ => ⟨rfl, rfl, rfl, rfl⟩)
  · exact grows.refl_grows _ _ _

theorem boxes_box_construct_element_table (E : Env) (node : xmlNode) (box : Nat) (st : content) :
    (box_construct_element_table E node box st).boxes = st.boxes := by
  unfold box_construct_element_table
  simp only
  have h1 : (match xmlGetProp node "cellpadding".toList with
      | some s =>
        if ((strtol s).2.isEmpty && decide (0 ≤ (strtol s).1) && decide ((strtol s).1 < 1000)) = true
        then box_set_cellpadding box (strtol s).1 st else st
      | none => st).boxes = st.boxes := by
    split
    · split
      · exact boxes_box_set_cellpadding _ _ _
      · rfl
    · rfl
  split
  · split
    · split
      · rw [boxes_box_set_table_border]; exact h1
      · exact h1
    · exact h1
  · rfl

theorem boxes_box_construct_element_tr (E : Env) (node : xmlNode) (box : Nat) (st : content) :
    (box_construct_element_tr E node box st).boxes = st.boxes := by
  unfold box_construct_element_tr
  split
  · split
    · simp only
      split
      · rfl
      · split
        · rfl
        · exact boxes_box_row_height _ _ _ _
    · rfl
  · rfl

theorem boxes_box_construct_element_background {E : Env} {l : element_locals}
    {st st' : content} (h : box_construct_element_background E l st = some st') :
    st'.boxes = st.boxes := by
  unfold box_construct_element_background at h
  simp only at h
  split at h
  · exact (boxes_html_fetch_object h).1
  · cases h
    rfl

/-- The last part of `box_construct_element` respects the frame. -/
theorem grows_box_construct_element_attributes {n : Nat} {ex : Option Nat} {E : Env}
    {node : xmlNode} {l : element_locals} {st st' : content}
    (h : box_construct_element_attributes E node l st = some st') : grows n ex st st' := by
  unfold box_construct_element_attributes at h
  simp only at h
  have h1 := @grows_box_construct_element_span n ex node l.box st
  refine h1.trans_grows (grows_of_boxes_eq ?_)
  rw [boxes_box_construct_element_background h, boxes_box_construct_element_tr,
    boxes_box_construct_element_table]

/-! ## The box of an element in the tree -/

theorem box_at_eq {st : content} {b : Nat} {x : box} (h : st.boxes[b]? = some x) :
    st.box_at b = x := by
  simp [content.box_at, h]

theorem grows.lookup_full_grows {st st' : content} (h : grows st.boxes.length none st st') {i : Nat}
    {x : box} (hx : st.boxes[i]? = some x) :
    ∃ y : box, st'.boxes[i]? = some y ∧ y.parent = x.parent ∧ y.inline_end = x.inline_end ∧
      y.style = x.style ∧ y.type = x.type := by
  obtain ⟨y, hy, hp, he, hs, ht⟩ := h.lookup_grows (Or.inl (List.getElem?_eq_some.mp hx).1) hx
  refine ⟨y, hy, hp, he, hs, ?_⟩
  rcases ht with ht | ht
  · exact ht
  · exact Option.noConfusion ht.1

theorem is_inline_container_modify_box {st : content} {c : Nat} (j : Nat) (f : box → box)
    (hf : j ≠ c ∨ ∀ x : box, (f x).type = x.type) (h : is_inline_container st.boxes c) :
    is_inline_container (st.modify_box j f).boxes c := by
  obtain ⟨x, hx, ht⟩ := h
  refine ⟨_, getElem?_list_modify_of_some hx j f, ?_⟩
  split
  · rename_i hcj
    rcases hf with hf | hf
    · exact absurd hcj.symm hf
    · rw [hf]; exact ht
  · exact ht

theorem is_inline_container_box_add_child {st : content} {c : Nat} (p ch : Nat)
    (h : is_inline_container st.boxes c) : is_inline_container (box_add_child p ch st).boxes c := by
  unfold box_add_child
  simp only
  refine is_inline_container_modify_box _ _ (Or.inr fun _ => rfl) ?_
  exact is_inline_container_modify_box _ _ (Or.inr fun _ => rfl) h

theorem valid_container.modify_box_valid {ic : Option Nat} {st : content} (j : Nat) (f : box → box)
    (hf : ∀ x : box, (f x).type = x.type) (h : valid_container ic st) :
    valid_container ic (st.modify_box j f) :=
  fun c hc => is_inline_container_modify_box j f (Or.inr hf) (h c hc)

theorem valid_container.box_add_child_valid {ic : Option Nat} {st : content} (p ch : Nat)
    (h : valid_container ic st) : valid_container ic (box_add_child p ch st) :=
  fun c hc => is_inline_container_box_add_child p ch (h c hc)

theorem inline_in_container_list_modify {bs : List box} (j : Nat) (f : box → box)
    (hf : ∀ b : box, (f b).parent = b.parent ∧ (f b).type = b.type)
    (h : inline_in_container bs) : inline_in_container (list_modify bs j f) := by
  have hk : ∀ (i : Nat) (x : box), (if i = j then f x else x).parent = x.parent ∧
      (if i = j then f x else x).type = x.type := by
    intro i x
    split
    · exact hf x
    · exact ⟨rfl, rfl⟩
  intro c bc p hc hp hl
  obtain ⟨x, hx, rfl⟩ := getElem?_list_modify_some hc
  rw [(hk c x).1] at hp
  rw [(hk c x).2] at hl
  obtain ⟨bp, hbp, ht⟩ := h c x p hx hp hl
  exact ⟨_, getElem?_list_modify_of_some hbp j f, by rw [(hk p bp).2]; exact ht⟩

/-- The assignments `box->inline_end = inline_end; inline_end->inline_end = box`
for two boxes that are not paired yet. -/
theorem grows_inline_end {n : Nat} (st : content) (b e : Nat) (xb xe : box)
    (hn : n ≤ b) (hne : n ≤ e) (hbe : b ≠ e)
    (hb : st.boxes[b]? = some xb) (hbn : xb.inline_end = none)
    (he : st.boxes[e]? = some xe) (hen : xe.inline_end = none) :
    grows n none st
      ((st.modify_box b (fun x => { x with inline_end := some e })).modify_box e
        (fun x => { x with inline_end := some b })) := by
  refine ⟨⟨by simp, ?_⟩, ?_⟩
  · intro i x hi hx
    have hi2 : i < n := by
      rcases hi with hi | hi
      · exact hi
      · exact Option.noConfusion hi
    refine ⟨x, ?_, rfl, rfl, rfl, Or.inl rfl⟩
    simp only [boxes_modify_box]
    rw [getElem?_list_modify_of_some (getElem?_list_modify_of_some hx _ _), if_neg (by omega),
      if_neg (by omega)]
  · intro hwf _
    simp only [boxes_modify_box]
    refine ⟨?_, ?_⟩
    · exact inline_in_container_list_modify _ _ (fun _ => ⟨rfl, rfl⟩)
        (inline_in_container_list_modify _ _ (fun _ => ⟨rfl, rfl⟩) hwf.1)
    · have hb2 : (list_modify (list_modify st.boxes b (fun x => { x with inline_end := some e })) e
          (fun x => { x with inline_end := some b }))[b]? = some { xb with inline_end := some e } := by
        rw [getElem?_list_modify_of_some (getElem?_list_modify_of_some hb _ _), if_pos rfl,
          if_neg hbe]
      have he2 : (list_modify (list_modify st.boxes b (fun x => { x with inline_end := some e })) e
          (fun x => { x with inline_end := some b }))[e]? = some { xe with inline_end := some b } := by
        rw [getElem?_list_modify_of_some (getElem?_list_modify_of_some he _ _),
          if_neg (Ne.symm hbe), if_pos rfl]
      intro i bi k hi hk
      obtain ⟨x1, hx1, rfl⟩ := getElem?_list_modify_some hi
      obtain ⟨x, hx, rfl⟩ := getElem?_list_modify_some hx1
      by_cases hie : i = e
      · subst hie
        rw [if_pos rfl] at hk
        cases hk
        exact ⟨_, hb2, rfl⟩
      · rw [if_neg hie] at hk
        by_cases hib : i = b
        · subst hib
          rw [if_pos rfl] at hk
          cases hk
          exact ⟨_, he2, rfl⟩
        · rw [if_neg hib] at hk
          obtain ⟨bk, hbk, hki⟩ := hwf.2 i x k hx hk
          have hkb : k ≠ b := by
            intro hkb
            subst hkb
            rw [hb] at hbk
            cases hbk
            rw [hbn] at hki
            exact Option.noConfusion hki
          have hke : k ≠ e := by
            intro hke
            subst hke
            rw [he] at hbk
            cases hbk
            rw [hen] at hki
            exact Option.noConfusion hki
          refine ⟨bk, ?_, hki⟩
          rw [getElem?_list_modify_of_some (getElem?_list_modify_of_some hbk _ _), if_neg hke,
            if_neg hkb]

/-- The container for the first inline in a block respects the frame; a box
that is inline-level finds an inline container. -/
theorem grows_box_construct_element_container (l : element_locals) (parent : Nat)
    (ic : Option Nat) (st : content) (hic : valid_container ic st) :
    grows st.boxes.length none st (box_construct_element_container l parent ic st).1 ∧
    valid_container (box_construct_element_container l parent ic st).2
      (box_construct_element_container l parent ic st).1 ∧
    (inline_level (st.box_at l.box).type →
      ∃ c, (box_construct_element_container l parent ic st).2 = some c) := by
  unfold box_construct_element_container
  simp only
  split
  · obtain ⟨g, hc, _, _⟩ := grows_box_inline_container parent none st (le_refl _) no_ex
      (valid_container_none st)
    exact ⟨g, valid_container_some hc, fun _ => ⟨_, rfl⟩⟩
  · rename_i hcond
    refine ⟨grows.refl_grows _ _ _, hic, ?_⟩
    intro hl
    cases ic with
    | some c => exact ⟨c, rfl⟩
    | none =>
      exfalso
      apply hcond
      rcases hl with hl | hl | hl <;> simp [hl]

theorem getElem?_new_child (style : Option Nat) (href : Option cstr)
    (target : Option frame_target) (title id : Option cstr) (t : box_type) (p : Nat)
    (st : content) :
    ∃ y : box, (box_add_child p st.boxes.length
        (box_set_type st.boxes.length t (box_create style href target title id st).1)).boxes[
          st.boxes.length]? = some y ∧ y.type = t ∧ y.inline_end = none := by
  obtain ⟨y, hy, ht, _, he, _⟩ := getElem?_box_add_child_self p st.boxes.length _
    (getElem?_new_box style href target title id t st)
  exact ⟨y, hy, ht, he⟩

/-- The inline-end box of an inline box respects the frame below the box, and
the two boxes refer to each other. -/
theorem grows_box_construct_element_inline_end {n : Nat} (l : element_locals)
    (ic : Option Nat) (st : content) (xb : box) (hn : n ≤ l.box)
    (hb : st.boxes[l.box]? = some xb) (hbn : xb.inline_end = none)
    (hic : valid_container ic st) :
    grows n none st (box_construct_element_inline_end l ic st) ∧
    valid_container ic (box_construct_element_inline_end l ic st) ∧
    ∃ yb ye : box, (box_construct_element_inline_end l ic st).boxes[l.box]? = some yb ∧
      yb.inline_end = some st.boxes.length ∧ yb.type = xb.type ∧ yb.parent = xb.parent ∧
      (box_construct_element_inline_end l ic st).boxes[st.boxes.length]? = some ye ∧
      ye.inline_end = some l.box ∧ ye.type = BOX_INLINE_END := by
  have hlt : l.box < st.boxes.length := (List.getElem?_eq_some.mp hb).1
  unfold box_construct_element_inline_end
  simp only [snd_box_create]
  -- the creation of the inline-end box
  have key : ∀ s1 : content, grows st.boxes.length none st s1 →
      (∃ ye : box, s1.boxes[st.boxes.length]? = some ye ∧ ye.type = BOX_INLINE_END ∧
        ye.inline_end = none) →
      grows n none st
        ((s1.modify_box l.box (fun b => { b with inline_end := some st.boxes.length })).modify_box
          st.boxes.length (fun b => { b with inline_end := some l.box })) ∧
      valid_container ic
        ((s1.modify_box l.box (fun b => { b with inline_end := some st.boxes.length })).modify_box
          st.boxes.length (fun b => { b with inline_end := some l.box })) ∧
      ∃ yb ye : box,
        ((s1.modify_box l.box (fun b => { b with inline_end := some st.boxes.length })).modify_box
          st.boxes.length (fun b => { b with inline_end := some l.box })).boxes[l.box]? = some yb ∧
        yb.inline_end = some st.boxes.length ∧ yb.type = xb.type ∧ yb.parent = xb.parent ∧
        ((s1.modify_box l.box (fun b => { b with inline_end := some st.boxes.length })).modify_box
          st.boxes.length (fun b => { b with inline_end := some l.box })).boxes[
            st.boxes.length]? = some ye ∧
        ye.inline_end = some l.box ∧ ye.type = BOX_INLINE_END := by
    intro s1 g1 hye
    obtain ⟨ye, hye, hyt, hyn⟩ := hye
    obtain ⟨yb, hyb, hybp, hybe, _, hybt⟩ := g1.lookup_full_grows hb
    have g2 := @grows_inline_end n s1 l.box st.boxes.length yb ye hn (by omega) (by omega)
      hyb (hybe.trans hbn) hye hyn
    refine ⟨(g1.mono_grows (by omega)).trans_grows g2, ?_, ?_⟩
    · refine valid_container.modify_box_valid _ _ (fun _ => rfl) ?_
      refine valid_container.modify_box_valid _ _ (fun _ => rfl) ?_
      exact hic.keeps_valid g1
    · refine ⟨{ yb with inline_end := some st.boxes.length }, { ye with inline_end := some l.box },
        ?_, rfl, hybt, hybp, ?_, rfl, hyt⟩
      · simp only [boxes_modify_box]
        have h1 : l.box ≠ st.boxes.length := by omega
        rw [getElem?_list_modify_of_some (getElem?_list_modify_of_some hyb _ _), if_neg h1,
          if_pos rfl]
      · simp only [boxes_modify_box]
        have h1 : st.boxes.length ≠ l.box := by omega
        rw [getElem?_list_modify_of_some (getElem?_list_modify_of_some hye _ _),
          if_neg h1, if_pos rfl]
  have hnew : ∃ ye : box, (box_set_type st.boxes.length BOX_INLINE_END
      (box_create (some l.style) l.href l.target l.title l.id st).1).boxes[st.boxes.length]?
        = some ye ∧ ye.type = BOX_INLINE_END ∧ ye.inline_end = none :=
    ⟨_, getElem?_new_box _ _ _ _ _ _ _, rfl, rfl⟩
  split
  · exact key _ (grows_new_child_plain _ _ _ _ _ _ _ _ (le_refl _) no_ex
      (fun h => by simp [inline_level] at h)) (getElem?_new_child _ _ _ _ _ _ _ _)
  · split
    · exact key _ (grows_new_child_plain _ _ _ _ _ _ _ _ (le_refl _) no_ex
        (fun h => by simp [inline_level] at h)) (getElem?_new_child _ _ _ _ _ _ _ _)
    · exact key _ (grows_new_box _ _ _ _ _ _ _ (le_refl _) no_ex) hnew

theorem conv_if {conv : children_conversion} (hconv : conv_ok conv) {cc : Bool}
    {ps p : Nat} {h : Option cstr} {t : Option frame_target} {ti : Option cstr}
    {X Y : content} {ic' : Option Nat}
    (hY : (if cc = true then conv ps p none h t ti X else some (X, none)) = some (Y, ic')) :
    grows X.boxes.length none X Y := by
  split at hY
  · exact (hconv _ _ _ _ _ _ _ _ _ hY (fun c hc => Option.noConfusion hc)).1
  · cases hY
    exact grows.refl_grows _ _ _

/-- The case of an inline or line-break box in `box_construct_element`. -/
theorem grows_box_construct_element_inline {conv : children_conversion} {n : xmlNode}
    {l : element_locals} {parent c : Nat} {st st' : content} {ic' : Option Nat}
    (hconv : conv_ok conv)
    (h : box_construct_element_inline conv n l parent (some c) st = some (st', ic'))
    (xb : box) (hb : st.boxes[l.box]? = some xb) (hbn : xb.inline_end = none)
    (hc : is_inline_container st.boxes c) :
    grows l.box none st st' ∧ valid_container ic' st' ∧
    (l.convert_children = true → n.children.is_node = true →
      inline_end_pair st.boxes.length l.box xb.type st') := by
  have hlt : l.box < st.boxes.length := (List.getElem?_eq_some.mp hb).1
  unfold box_construct_element_inline at h
  simp only [box_add_child_inline] at h
  have g1 : grows l.box none st (box_add_child c l.box st) :=
    grows_box_add_child_of st c l.box xb (le_refl _) (fun i hi => Option.noConfusion hi) hb
      (fun _ => hc)
  obtain ⟨y1, hy1, hy1t, _, hy1e, _⟩ := getElem?_box_add_child_self c l.box st hb
  have hc1 := is_inline_container_box_add_child c l.box hc
  have hl1 := length_boxes_box_add_child c l.box st
  generalize box_add_child c l.box st = s1 at h g1 hy1 hc1 hl1
  split at h
  · rename_i hcond
    split at h
    · exact Option.noConfusion h
    · rename_i s2 ic2 hs2
      simp only [Option.some.injEq, Prod.mk.injEq] at h
      obtain ⟨h1, h2⟩ := h
      subst h1 h2
      obtain ⟨g2, hv2⟩ := hconv _ _ _ _ _ _ _ _ _ hs2 (valid_container_some hc1)
      obtain ⟨y2, hy2, _, hy2e, _, hy2t⟩ := g2.lookup_full_grows hy1
      obtain ⟨g3, hv3, yb, ye, hyb, hybe, hybt, _, hye, hyee, hyet⟩ :=
        @grows_box_construct_element_inline_end l.box l ic2 s2 y2 (le_refl _) hy2
          (hy2e.trans (hy1e.trans hbn)) hv2
      refine ⟨(g1.trans_grows (g2.mono_grows (by omega))).trans_grows g3, hv3, fun _ _ => ?_⟩
      have := g2.frame.len
      exact ⟨s2.boxes.length, yb, ye, by omega, hyb, hybe, hybt.trans (hy2t.trans hy1t), hye,
        hyee, hyet⟩
  · rename_i hcond
    cases h
    refine ⟨g1, valid_container_some hc1, fun h1 h2 => ?_⟩
    exact absurd (by simp [h1, h2]) hcond

/-- The case of an inline-block box in `box_construct_element`. -/
theorem grows_box_construct_element_inline_block {conv : children_conversion}
    {l : element_locals} {c : Nat} {st st' : content} {ic' : Option Nat}
    (hconv : conv_ok conv)
    (h : box_construct_element_inline_block conv l (some c) st = some (st', ic'))
    (xb : box) (hb : st.boxes[l.box]? = some xb)
    (hc : is_inline_container st.boxes c) :
    grows l.box none st st' ∧ valid_container ic' st' := by
  have hlt : l.box < st.boxes.length := (List.getElem?_eq_some.mp hb).1
  unfold box_construct_element_inline_block at h
  simp only [box_add_child_inline] at h
  have g1 : grows l.box none st (box_add_child c l.box st) :=
    grows_box_add_child_of st c l.box xb (le_refl _) (fun i hi => Option.noConfusion hi) hb
      (fun _ => hc)
  have hc1 := is_inline_container_box_add_child c l.box hc
  have hl1 := length_boxes_box_add_child c l.box st
  generalize box_add_child c l.box st = s1 at h g1 hc1 hl1
  split at h
  · exact Option.noConfusion h
  · rename_i s2 ic2 hs2
    cases h
    have g2 := conv_if hconv hs2
    exact ⟨g1.trans_grows (g2.mono_grows (by omega)), valid_container_some (g2.keeps_grows hc1)⟩

theorem not_inline_level_float (p : Prop) [Decidable p] :
    ¬ inline_level (if p then BOX_FLOAT_LEFT else BOX_FLOAT_RIGHT) := by
  split <;> simp [inline_level]

/-- The float box of `box_construct_element`. -/
theorem grows_box_construct_element_float (l : element_locals) (parent : Nat)
    (ic : Option Nat) (st : content) (xb : box) (hb : st.boxes[l.box]? = some xb)
    (hl : ¬ inline_level xb.type) (hic : valid_container ic st) :
    grows st.boxes.length none st (box_construct_element_float l parent ic st).1 ∧
    valid_container ic (box_construct_element_float l parent ic st).1 := by
  unfold box_construct_element_float
  simp only [snd_box_create]
  split
  · have key : ∀ s1 : content, grows st.boxes.length none st s1 →
        grows st.boxes.length none st
          (if (s1.box_at l.box).type = BOX_INLINE ∨ (s1.box_at l.box).type = BOX_INLINE_BLOCK
            then box_set_type l.box BOX_BLOCK s1 else s1) ∧
        valid_container ic
          (if (s1.box_at l.box).type = BOX_INLINE ∨ (s1.box_at l.box).type = BOX_INLINE_BLOCK
            then box_set_type l.box BOX_BLOCK s1 else s1) := by
      intro s1 g1
      obtain ⟨y, hy, _, _, _, hyt⟩ := g1.lookup_full_grows hb
      rw [box_at_eq hy, hyt, if_neg]
      · exact ⟨g1, hic.keeps_valid g1⟩
      · intro h
        apply hl
        rcases h with h | h
        · exact Or.inl h
        · exact Or.inr (Or.inl h)
    cases ic with
    | some c =>
      exact key _ (grows_new_child_plain _ _ _ _ _ _ _ _ (le_refl _) no_ex
        (fun h => absurd h (not_inline_level_float _)))
    | none =>
      exact key _ (grows_new_box _ _ _ _ _ _ _ (le_refl _) no_ex)
  · exact ⟨grows.refl_grows _ _ _, hic⟩

/-- The case of a box that is not inline-level in `box_construct_element`. -/
theorem grows_box_construct_element_block {conv : children_conversion}
    {l : element_locals} {parent : Nat} {ic : Option Nat} {st st' : content} {ic' : Option Nat}
    (hconv : conv_ok conv)
    (h : box_construct_element_block conv l parent ic st = some (st', ic'))
    (xb : box) (hb : st.boxes[l.box]? = some xb)
    (hl : ¬ inline_level xb.type) (hic : valid_container ic st) :
    grows l.box none st st' ∧ valid_container ic' st' := by
  have hlt : l.box < st.boxes.length := (List.getElem?_eq_some.mp hb).1
  unfold box_construct_element_block at h
  simp only at h
  obtain ⟨g0, hv0⟩ := grows_box_construct_element_float l parent ic st xb hb hl hic
  obtain ⟨y0, hy0, _, _, _, hy0t⟩ := g0.lookup_full_grows hb
  generalize box_construct_element_float l parent ic st = r at h g0 hv0 hy0
  obtain ⟨s0, p0⟩ := r
  simp only at h g0 hv0 hy0
  have g1 : grows l.box none s0 (box_add_child p0 l.box s0) :=
    grows_box_add_child_of s0 p0 l.box y0 (le_refl _) (fun i hi => Option.noConfusion hi) hy0
      (fun h => absurd (hy0t ▸ h) hl)
  have hv1 := hv0.box_add_child_valid p0 l.box
  have hl1 := length_boxes_box_add_child p0 l.box s0
  have hl0 := g0.frame.len
  generalize box_add_child p0 l.box s0 = s1 at h g1 hv1 hl1
  split at h
  · exact Option.noConfusion h
  · rename_i s2 ic2 hs2
    have g2 := conv_if hconv hs2
    have g : grows l.box none st s2 :=
      ((g0.mono_grows (by omega)).trans_grows g1).trans_grows (g2.mono_grows (by omega))
    split at h
    · cases h
      exact ⟨g, valid_container_none _⟩
    · cases h
      exact ⟨g, hv1.keeps_valid g2⟩

/-- The third part of `box_construct_element` respects the frame below the
box of the element, leaves an inline container, if any, and pairs an inline
box whose children are converted with an inline-end box. -/
theorem grows_box_construct_element_tree {conv : children_conversion} {n : xmlNode}
    {l : element_locals} {parent : Nat} {ic : Option Nat} {st st' : content} {ic' : Option Nat}
    (hconv : conv_ok conv)
    (h : box_construct_element_tree conv n l parent ic st = some (st', ic'))
    (xb : box) (hb : st.boxes[l.box]? = some xb) (hbn : xb.inline_end = none)
    (hic : valid_container ic st) :
    grows l.box none st st' ∧ valid_container ic' st' ∧
    (xb.type = BOX_INLINE → l.convert_children = true → n.children.is_node = true →
      inline_end_pair st.boxes.length l.box BOX_INLINE st') := by
  have hlt : l.box < st.boxes.length := (List.getElem?_eq_some.mp hb).1
  unfold box_construct_element_tree at h
  simp only at h
  obtain ⟨g0, hv0, hsome⟩ := grows_box_construct_element_container l parent ic st hic
  obtain ⟨y0, hy0, _, hy0e, _, hy0t⟩ := g0.lookup_full_grows hb
  rw [box_at_eq hb] at hsome
  have hl0 := g0.frame.len
  generalize box_construct_element_container l parent ic st = r at h g0 hv0 hy0 hsome hl0
  obtain ⟨s0, ic0⟩ := r
  simp only at h g0 hv0 hy0 hsome hl0
  rw [box_at_eq hy0, hy0t] at h
  split at h
  · rename_i ht
    obtain ⟨c, hc⟩ := hsome (by
      rcases ht with ht | ht
      · exact Or.inl ht
      · exact Or.inr (Or.inr ht))
    subst hc
    obtain ⟨g1, hv1, hp1⟩ := grows_box_construct_element_inline hconv h y0 hy0
      (hy0e.trans hbn) (hv0 c rfl)
    refine ⟨(g0.mono_grows (by omega)).trans_grows g1, hv1, fun h1 h2 h3 => ?_⟩
    obtain ⟨e, yb, ye, hme, hyb, hybe, hybt, hye, hyee, hyet⟩ := hp1 h2 h3
    exact ⟨e, yb, ye, by omega, hyb, hybe, hybt.trans (hy0t.trans h1), hye, hyee, hyet⟩
  · rename_i ht
    split at h
    · rename_i ht2
      obtain ⟨c, hc⟩ := hsome (Or.inr (Or.inl ht2))
      subst hc
      obtain ⟨g1, hv1⟩ := grows_box_construct_element_inline_block hconv h y0 hy0 (hv0 c rfl)
      refine ⟨(g0.mono_grows (by omega)).trans_grows g1, hv1, fun h1 => ?_⟩
      exact absurd (Or.inl h1) ht
    · rename_i ht2
      have hl : ¬ inline_level y0.type := by
        rw [hy0t]
        intro hl
        rcases hl with hl | hl | hl
        · exact ht (Or.inl hl)
        · exact ht2 hl
        · exact ht (Or.inr hl)
      obtain ⟨g1, hv1⟩ := grows_box_construct_element_block hconv h y0 hy0 hl hv0
      refine ⟨(g0.mono_grows (by omega)).trans_grows g1, hv1, fun h1 => ?_⟩
      exact absurd (Or.inl h1) ht

/-! ## Elements -/

theorem grows.restrict_grows {n m b : Nat} {st st' : content} (h : grows n (some b) st st')
    (hm : m ≤ n) (hb : m ≤ b) (hd : detached st.boxes b) : grows m none st st' := by
  refine ⟨⟨h.frame.len, ?_⟩, fun hwf _ => h.wf hwf (fun i hi => by cases hi; exact hd)⟩
  intro i x hi hx
  have hi2 : i < m := by
    rcases hi with hi | hi
    · exact hi
    · exact Option.noConfusion hi
  obtain ⟨y, hy, hp, he, hs, ht⟩ := h.frame.old i x (Or.inl (by omega)) hx
  refine ⟨y, hy, hp, he, hs, Or.inl ?_⟩
  rcases ht with ht | ht
  · exact ht
  · have := Option.some.inj ht.1
    omega

theorem box_map_ne_inline_container (d : css_display) : box_map d ≠ BOX_INLINE_CONTAINER := by
  cases d <;> simp [box_map]

/-- The first part of `box_construct_element`: the box of the element is the
next box of the arena; it has no parent and no paired box. -/
theorem grows_box_construct_element_box (n : xmlNode) (sv : css_style) (href : Option cstr)
    (target : Option frame_target) (title : Option cstr) (st : content) :
    grows st.boxes.length none st (box_construct_element_box n sv href target title st).1 ∧
    (box_construct_element_box n sv href target title st).2.box = st.boxes.length ∧
    (box_construct_element_box n sv href target title st).2.style = st.styles.length ∧
    (box_construct_element_box n sv href target title st).2.convert_children = true ∧
    (box_construct_element_box n sv href target title st).1.boxes.length = st.boxes.length + 1 ∧
    ∃ x : box, (box_construct_element_box n sv href target title st).1.boxes[st.boxes.length]?
        = some x ∧ x.parent = none ∧ x.inline_end = none ∧ x.type = box_map sv.display ∧
        x.style = some st.styles.length := by
  unfold box_construct_element_box
  simp only [snd_new_style, snd_box_create, boxes_new_style]
  have h1 : grows st.boxes.length none st (st.new_style sv).1 := grows_of_boxes_eq (by simp)
  have h2 := @grows_new_box st.boxes.length none (some st.styles.length) href target
    (match xmlGetProp n "title".toList with
      | some title0 => some (squash_whitespace title0)
      | none => title)
    (box_get_attribute n "id".toList none) (box_map sv.display) (st.new_style sv).1
    (by simp) no_ex
  have h3 := getElem?_new_box (some st.styles.length) href target
    (match xmlGetProp n "title".toList with
      | some title0 => some (squash_whitespace title0)
      | none => title)
    (box_get_attribute n "id".toList none) (box_map sv.display) (st.new_style sv).1
  have h4 := length_new_box (some st.styles.length) href target
    (match xmlGetProp n "title".toList with
      | some title0 => some (squash_whitespace title0)
      | none => title)
    (box_get_attribute n "id".toList none) (box_map sv.display) (st.new_style sv).1
  simp only [boxes_new_style] at h2 h3 h4
  exact ⟨h1.trans_grows h2, trivial, trivial, trivial, h4, _, h3, rfl, rfl, rfl, rfl⟩

/-- The second part of `box_construct_element`: the special convert function
leaves the box and the style of the element, and works on the box only. -/
theorem grows_box_construct_element_special {E : Env} {conv : children_conversion}
    {n : xmlNode} {l l' : element_locals} {st st' : content} (hconv : conv_ok conv)
    (h : box_construct_element_special E conv n l st = some (st', l'))
    (hb : l.box < st.boxes.length) :
    handler_steps l.box st st' ∧ l'.box = l.box ∧ l'.style = l.style := by
  unfold box_construct_element_special at h
  split at h
  · split at h
    · exact Option.noConfusion h
    · rename_i s2 cc hs2
      cases h
      exact ⟨handler_steps_box_special hconv hs2 hb, rfl, rfl⟩
  · cases h
    exact ⟨handler_steps.refl_steps hb, rfl, rfl⟩

/-- `box_construct_element`, given the conversion of the children, respects
the frame and leaves an inline container, if any. -/
theorem grows_box_construct_element_with {E : Env} {conv : children_conversion} {n : xmlNode}
    {parent_style parent : Nat} {ic : Option Nat} {href : Option cstr}
    {target : Option frame_target} {title : Option cstr} {X Y : content} {ic' : Option Nat}
    (hconv : conv_ok conv)
    (h : box_construct_element_with E conv n parent_style parent ic href target title X
      = some (Y, ic'))
    (hic : valid_container ic X) :
    grows X.boxes.length none X Y ∧ valid_container ic' Y := by
  unfold box_construct_element_with at h
  split at h
  · exact Option.noConfusion h
  rename_i sv hsv
  split at h
  · cases h
    exact ⟨grows.refl_grows _ _ _, hic⟩
  simp only at h
  obtain ⟨g1, hlb, hls, _, hl1, x1, hx1, hx1p, hx1e, hx1t, _⟩ :=
    grows_box_construct_element_box n sv href target title X
  generalize box_construct_element_box n sv href target title X = r1 at h g1 hlb hls hl1 hx1
  obtain ⟨s1, l1⟩ := r1
  simp only at h g1 hlb hls hl1 hx1
  split at h
  · exact Option.noConfusion h
  rename_i s2 l2 hs2
  obtain ⟨g2, hlb2, hls2⟩ := grows_box_construct_element_special hconv hs2 (by omega)
  rw [← hlb] at hx1
  have hd1 : detached s1.boxes l1.box :=
    ⟨x1, hx1, hx1p, by rw [hx1t]; exact box_map_ne_inline_container _⟩
  obtain ⟨x2, hx2, hx2p, hx2e, _, _⟩ := g2.2.lookup_grows (Or.inr rfl) hx1
  have g2r : grows X.boxes.length none s1 s2 := g2.2.restrict_grows (by omega) (by omega) hd1
  have g12 := g1.trans_grows g2r
  have hv2 : valid_container ic s2 := fun c hc =>
    g12.is_inline_container_grows (hic c hc).lt_container (fun h => Option.noConfusion h) (hic c hc)
  split at h
  · cases h
    exact ⟨g12, hv2⟩
  split at h
  · exact Option.noConfusion h
  rename_i s3 ic3 hs3
  split at h
  · exact Option.noConfusion h
  rename_i s4 hs4
  simp only [Option.some.injEq, Prod.mk.injEq] at h
  obtain ⟨h1, h2⟩ := h
  subst h1 h2
  rw [← hlb2] at hx2
  obtain ⟨g3, hv3, _⟩ := grows_box_construct_element_tree hconv hs3 x2 hx2
    (hx2e.trans hx1e) hv2
  have g4 : grows s3.boxes.length none s3 s4 := grows_box_construct_element_attributes hs4
  have hl3 := g3.frame.len
  have hl2 := g2.le_steps
  refine ⟨(g12.trans_grows (g3.mono_grows (by omega))).trans_grows (g4.mono_grows (by omega)), hv3.keeps_valid g4⟩

/-- `convert_xml_to_box`, given the conversion of the children, respects the
frame and leaves an inline container, if any. -/
theorem grows_convert_xml_to_box_with {E : Env} {conv : children_conversion} {n : xmlNode}
    {parent_style parent : Nat} {ic : Option Nat} {href : Option cstr}
    {target : Option frame_target} {title : Option cstr} {X Y : content} {ic' : Option Nat}
    (hconv : conv_ok conv)
    (h : convert_xml_to_box_with E conv n parent_style parent ic href target title X
      = some (Y, ic'))
    (hic : valid_container ic X) :
    grows X.boxes.length none X Y ∧ valid_container ic' Y := by
  unfold convert_xml_to_box_with at h
  split at h
  · exact grows_box_construct_element_with hconv h hic
  · exact grows_box_construct_text h hic
  · cases h
    exact ⟨grows.refl_grows _ _ _, hic⟩

/-- The conversion of a node and its following siblings keeps the arena
well-formed. -/
theorem conv_ok_convert_children (E : Env) (n : xmlNode) : conv_ok (convert_children E n) := by
  induction n with
  | null =>
    intro ps p ic h t ti X Y ic' hY hic
    unfold convert_children at hY
    cases hY
    exact ⟨grows.refl_grows _ _ _, hic⟩
  | node t name hp ps tx children next ihc ihn =>
    intro ps p ic h t ti X Y ic' hY hic
    unfold convert_children at hY
    split at hY
    · exact Option.noConfusion hY
    · rename_i s1 ic1 hs1
      obtain ⟨g1, hv1⟩ := grows_convert_xml_to_box_with ihc hs1 hic
      obtain ⟨g2, hv2⟩ := ihn _ _ _ _ _ _ _ _ _ hY hv1
      exact ⟨g1.step_grows (le_refl _) g2, hv2⟩

/-- `convert_xml_to_box` respects the frame and leaves an inline container,
if any. -/
theorem grows_convert_xml_to_box {E : Env} {n : xmlNode}
    {parent_style parent : Nat} {ic : Option Nat} {href : Option cstr}
    {target : Option frame_target} {title : Option cstr} {X Y : content} {ic' : Option Nat}
    (h : convert_xml_to_box E n parent_style parent ic href target title X = some (Y, ic'))
    (hic : valid_container ic X) :
    grows X.boxes.length none X Y ∧ valid_container ic' Y :=
  grows_convert_xml_to_box_with (conv_ok_convert_children E n.children) h hic

theorem well_formed_nil : well_formed [] :=
  ⟨fun c bc p h => by simp at h, fun i bi e h => by simp at h⟩

/-! ## The display of the styles -/

theorem keeps_display.refl_display (m : Nat) (st : content) : keeps_display m st st :=
  ⟨le_refl _, fun _ _ => rfl⟩

theorem keeps_display.trans_display {m : Nat} {a b c : content} (h1 : keeps_display m a b)
    (h2 : keeps_display m b c) : keeps_display m a c :=
  ⟨le_trans h1.1 h2.1, fun i hi => (h2.2 i hi).trans (h1.2 i hi)⟩

theorem keeps_display.mono_display {m k : Nat} {a b : content} (h : keeps_display m a b) (hk : k ≤ m) :
    keeps_display k a b :=
  ⟨h.1, fun i hi => h.2 i (lt_of_lt_of_le hi hk)⟩

theorem keeps_display_of_styles_eq {m : Nat} {st st' : content} (h : st'.styles = st.styles) :
    keeps_display m st st' :=
  ⟨by rw [h], fun i _ => by simp [content.style_at, h]⟩

theorem keeps_display.step_display {m : Nat} {X Y Z : content} (h : keeps_display m X Y)
    (hm : m ≤ X.styles.length) (hs : keeps_display Y.styles.length Y Z) : keeps_display m X Z :=
  h.trans_display (hs.mono_display (le_trans hm h.1))

theorem style_at_new_style (st : content) (s : css_style) {i : Nat} (hi : i < st.styles.length) :
    (st.new_style s).1.style_at i = st.style_at i := by
  simp [content.style_at, content.new_style, List.getElem?_append_left hi]

theorem style_at_new_style_self (st : content) (s : css_style) :
    (st.new_style s).1.style_at st.styles.length = s := by
  simp [content.style_at, content.new_style]

theorem keeps_display_new_style (st : content) (s : css_style) :
    keeps_display st.styles.length st (st.new_style s).1 :=
  ⟨by simp, fun _ hi => by rw [style_at_new_style st s hi]⟩

theorem style_at_modify_style (st : content) (j : Nat) (f : css_style → css_style) (i : Nat) :
    (st.modify_style j f).style_at i =
      if i = j ∧ i < st.styles.length then f (st.style_at i) else st.style_at i := by
  simp only [content.style_at, content.modify_style, getElem?_list_modify]
  by_cases hij : i = j
  · subst hij
    by_cases hi : i < st.styles.length
    · simp [hi, List.getElem?_eq_getElem hi]
    · have : st.styles[i]? = none := List.getElem?_eq_none (by omega)
      simp [hi, this]
  · simp [hij]

theorem keeps_display_modify_style {m : Nat} (st : content) (j : Nat) (f : css_style → css_style)
    (hf : m ≤ j ∨ ∀ s, (f s).display = s.display) : keeps_display m st (st.modify_style j f) := by
  refine ⟨by simp, fun i hi => ?_⟩
  rw [style_at_modify_style]
  split
  · rename_i hij
    rcases hf with hf | hf
    · omega
    · exact hf _
  · rfl

theorem handler_display.refl_hdisplay {box : Nat} {st : content} (hb : box < st.boxes.length) :
    handler_display box st st :=
  ⟨hb, keeps_display.refl_display _ _⟩

theorem handler_display.styles_eq_hdisplay {box : Nat} {st X : content}
    (h : handler_display box st X) (Y : content) (hY : Y.styles = X.styles) :
    handler_display box st Y :=
  ⟨h.1, h.2.trans_display (keeps_display_of_styles_eq hY)⟩

theorem handler_display.modify_box_hdisplay {box : Nat} {st X : content} (j : Nat)
    (f : NetSurf.box → NetSurf.box)
    (_ : ∀ b : NetSurf.box, (f b).parent = b.parent ∧ (f b).inline_end = b.inline_end ∧
      (f b).style = b.style ∧ (f b).type = b.type)
    (h : handler_display box st X) : handler_display box st (X.modify_box j f) :=
  h.styles_eq_hdisplay _ rfl

theorem handler_display.set_type_hdisplay {box : Nat} {st X : content} (t : box_type)
    (_ : t ≠ BOX_INLINE_CONTAINER)
    (h : handler_display box st X) : handler_display box st (box_set_type box t X) :=
  h.styles_eq_hdisplay _ rfl

theorem handler_display.modify_control_hdisplay {box : Nat} {st X : content} (g : Nat)
    (f : form_control → form_control)
    (h : handler_display box st X) : handler_display box st (X.modify_control g f) :=
  h.styles_eq_hdisplay _ rfl

theorem handler_display.modify_style_hdisplay {box : Nat} {st X : content} (s : Nat)
    (f : css_style → css_style) (hf : ∀ x, (f x).display = x.display)
    (h : handler_display box st X) : handler_display box st (X.modify_style s f) :=
  ⟨h.1, h.2.trans_display (keeps_display_modify_style X s f (Or.inr hf))⟩

theorem handler_display.form_new_control_hdisplay {box : Nat} {st X : content} (t : gadget_type)
    (h : handler_display box st X) : handler_display box st (form_new_control t X).1 :=
  h.styles_eq_hdisplay _ rfl

theorem handler_display.box_form_add_control_hdisplay {box : Nat} {st X : content} (g : Nat)
    (h : handler_display box st X) : handler_display box st (box_form_add_control g X) :=
  h.styles_eq_hdisplay _ (styles_box_form_add_control g X)

theorem handler_display.html_fetch_object_hdisplay {box : Nat} {st X Y : content} {E : Env} {url : cstr}
    {b : Nat} {p : permitted_types} {w : Int} {hh : Int} {bg : Bool} {fr : Option cstr}
    (hf : html_fetch_object E url b p w hh bg fr X = some Y)
    (h : handler_display box st X) : handler_display box st Y :=
  h.styles_eq_hdisplay _ (boxes_html_fetch_object hf).2

theorem styles_box_gadget_text (b : Nat) (text : cstr) (X : content) :
    (box_gadget_text b text X).styles = X.styles := by
  simp [box_gadget_text]

theorem handler_display.box_gadget_text_hdisplay {box : Nat} {st X : content} (b : Nat) (text : cstr)
    (h : handler_display box st X) : handler_display box st (box_gadget_text b text X) :=
  h.styles_eq_hdisplay _ (styles_box_gadget_text b text X)

theorem handler_display.box_usemap_hdisplay {box : Nat} {st X : content} (n : xmlNode) (b : Nat)
    (h : handler_display box st X) : handler_display box st (box_usemap n b X) :=
  h.styles_eq_hdisplay _ rfl

theorem handler_display.extend_hdisplay {box : Nat} {st X Y : content} (h : handler_display box st X)
    (hg : keeps_display X.styles.length X Y) : handler_display box st Y :=
  ⟨h.1, h.2.step_display (le_refl _) hg⟩

theorem handler_display_box_body {n : xmlNode} {box : Nat} {st st' : content} {cc : Bool}
    (h : box_body n box st = some (st', cc)) (hb : box < st.boxes.length) :
    handler_display box st st' := by
  unfold box_body at h
  cases h
  exact (handler_display.refl_hdisplay hb).styles_eq_hdisplay _ rfl

theorem handler_display_box_br {n : xmlNode} {box : Nat} {st st' : content} {cc : Bool}
    (h : box_br n box st = some (st', cc)) (hb : box < st.boxes.length) :
    handler_display box st st' := by
  unfold box_br at h
  cases h
  exact (handler_display.refl_hdisplay hb).set_type_hdisplay _ (by simp)

theorem handler_display_box_a {E : Env} {n : xmlNode} {box : Nat} {st st' : content} {cc : Bool}
    (h : box_a E n box st = some (st', cc)) (hb : box < st.boxes.length) :
    handler_display box st st' := by
  unfold box_a at h
  simp only at h
  split at h
  · exact Option.noConfusion h
  · rename_i st1 hst1
    have h1 : handler_display box st st1 := by
      split at hst1
      · split at hst1
        · exact Option.noConfusion hst1
        · cases hst1
          refine handler_display.modify_box_hdisplay _ _ ?_ (handler_display.refl_hdisplay hb)
          exact fun _ => ⟨rfl, rfl, rfl, rfl⟩
        · cases hst1
          exact handler_display.refl_hdisplay hb
      · cases hst1
        exact handler_display.refl_hdisplay hb
    cases h
    have h2 := h1.modify_box_hdisplay box
      (fun b => { b with id := box_get_attribute n "name".toList b.id })
      (fun _ => ⟨rfl, rfl, rfl, rfl⟩)
    split
    · split
      · refine handler_display.modify_box_hdisplay _ _ ?_ h2
        exact fun _ => ⟨rfl, rfl, rfl, rfl⟩
      · split
        · refine handler_display.modify_box_hdisplay _ _ ?_ h2
          exact fun _ => ⟨rfl, rfl, rfl, rfl⟩
        · split
          · refine handler_display.modify_box_hdisplay _ _ ?_ h2
            exact fun _ => ⟨rfl, rfl, rfl, rfl⟩
          · split
            · refine handler_display.modify_box_hdisplay _ _ ?_ h2
              exact fun _ => ⟨rfl, rfl, rfl, rfl⟩
            · exact h2
    · exact h2

theorem handler_display_box_image {E : Env} {n : xmlNode} {box : Nat} {st st' : content}
    {cc : Bool} (h : box_image E n box st = some (st', cc)) (hb : box < st.boxes.length) :
    handler_display box st st' := by
  unfold box_image at h
  simp only at h
  have h1 : handler_display box st (box_usemap n box
      (match xmlGetProp n "alt".toList with
        | some alt =>
          st.modify_box box (fun b =>
            { b with text := some (squash_whitespace alt),
                     length := (squash_whitespace alt).length })
        | none => st)) := by
    apply handler_display.box_usemap_hdisplay
    split
    · refine handler_display.modify_box_hdisplay _ _ ?_ (handler_display.refl_hdisplay hb)
      exact fun _ => ⟨rfl, rfl, rfl, rfl⟩
    · exact handler_display.refl_hdisplay hb
  split at h
  · cases h
    exact h1
  · split at h
    · exact Option.noConfusion h
    · cases h
      exact h1
    · split at h
      · exact Option.noConfusion h
      · rename_i st2 hf
        cases h
        exact h1.html_fetch_object_hdisplay hf

theorem handler_display_box_iframe {E : Env} {n : xmlNode} {box : Nat} {st st' : content}
    {cc : Bool} (h : box_iframe E n box st = some (st', cc)) (hb : box < st.boxes.length) :
    handler_display box st st' := by
  unfold box_iframe at h
  split at h
  · cases h
    exact handler_display.refl_hdisplay hb
  · split at h
    · exact Option.noConfusion h
    · cases h
      exact handler_display.refl_hdisplay hb
    · split at h
      · cases h
        exact handler_display.refl_hdisplay hb
      · split at h
        · exact Option.noConfusion h
        · rename_i st2 hf
          cases h
          exact (handler_display.refl_hdisplay hb).html_fetch_object_hdisplay hf

theorem handler_display_box_form {n : xmlNode} {box : Nat} {st st' : content} {cc : Bool}
    (h : box_form n box st = some (st', cc)) (hb : box < st.boxes.length) :
    handler_display box st st' := by
  unfold box_form at h
  cases h
  exact (handler_display.refl_hdisplay hb).styles_eq_hdisplay _ rfl

theorem handler_display_box_embed {E : Env} {n : xmlNode} {box : Nat} {st st' : content}
    {cc : Bool} (h : box_embed E n box st = some (st', cc)) (hb : box < st.boxes.length) :
    handler_display box st st' := by
  unfold box_embed at h
  split at h
  · cases h
    exact handler_display.refl_hdisplay hb
  · split at h
    · exact Option.noConfusion h
    · cases h
      exact handler_display.refl_hdisplay hb
    · split at h
      · cases h
        exact handler_display.refl_hdisplay hb
      · simp only at h
        split at h
        · exact Option.noConfusion h
        · rename_i st2 hf
          cases h
          refine handler_display.html_fetch_object_hdisplay hf ?_
          refine handler_display.modify_box_hdisplay _ _ ?_ (handler_display.refl_hdisplay hb)
          exact fun _ => ⟨rfl, rfl, rfl, rfl⟩

theorem handler_display_box_button {n : xmlNode} {box : Nat} {st X st' : content} {cc : Bool}
    (h : box_button n box X = some (st', cc)) (hX : handler_display box st X) :
    handler_display box st st' := by
  unfold box_button at h
  simp only at h
  have h1 := hX.set_type_hdisplay BOX_INLINE_BLOCK (by simp)
  split at h
  · cases h
    exact h1
  · rename_i st1 gadget hg
    cases h
    have h2 : handler_display box st st1 := by
      split at hg
      · cases hg
        exact h1.form_new_control_hdisplay _
      · split at hg
        · cases hg
          exact h1.form_new_control_hdisplay _
        · exact Option.noConfusion hg
    refine handler_display.modify_control_hdisplay _ _ ?_
    refine handler_display.box_form_add_control_hdisplay _ ?_
    refine handler_display.modify_box_hdisplay _ _ ?_ h2
    exact fun _ => ⟨rfl, rfl, rfl, rfl⟩

theorem handler_display_box_input_text {n : xmlNode} {box : Nat} {password : Bool}
    {st X st' : content}
    (h : box_input_text n box password X = some st') (hX : handler_display box st X) :
    handler_display box st st' := by
  unfold box_input_text at h
  simp only at h
  cases h
  refine handler_display.box_gadget_text_hdisplay _ _ ?_
  refine handler_display.modify_control_hdisplay _ _ ?_
  refine handler_display.modify_box_hdisplay _ _ ?_ ?_
  · exact fun _ => ⟨rfl, rfl, rfl, rfl⟩
  refine handler_display.form_new_control_hdisplay _ ?_
  exact hX.set_type_hdisplay BOX_INLINE_BLOCK (by simp)

theorem handler_quiet.same_quiet {s : Nat} {st X : content} (h : handler_quiet s st X) (Y : content)
    (hb : Y.boxes = X.boxes) (ho : Y.object = X.object) (hs : Y.styles = X.styles) :
    handler_quiet s st Y := by
  refine ⟨hb.trans h.1, ho.trans h.2.1, by rw [hs]; exact h.2.2.1, fun i hi => ?_⟩
  rw [← h.2.2.2 i hi]
  simp [content.style_at, hs]

theorem handler_display_box_input_type {E : Env} {n : xmlNode} {box : Nat} {st st' : content}
    {g : Option Nat} (h : box_input_type E n box st = some (st', g))
    (hb : box < st.boxes.length) :
    handler_display box st st' ∨
      ∃ s, (st.box_at box).style = some s ∧ handler_quiet s st st' := by
  have hdefault : ∀ password : Bool, box_input_default n box password st = some (st', g) →
      handler_display box st st' := by
    intro password hd
    unfold box_input_default at hd
    split at hd
    · exact Option.noConfusion hd
    · rename_i st2 hit
      cases hd
      exact handler_display_box_input_text hit (handler_display.refl_hdisplay hb)
  unfold box_input_type at h
  simp only at h
  split at h
  · exact Or.inl (hdefault _ h)
  split at h
  · unfold box_input_file at h
    cases h
    left
    refine handler_display.modify_control_hdisplay _ _ ?_
    refine handler_display.modify_box_hdisplay _ _ ?_ ?_
    · exact fun _ => ⟨rfl, rfl, rfl, rfl⟩
    refine handler_display.form_new_control_hdisplay _ ?_
    exact (handler_display.refl_hdisplay hb).set_type_hdisplay BOX_INLINE_BLOCK (by simp)
  split at h
  · unfold box_input_hidden at h
    cases hst : (st.box_at box).style with
    | some s =>
      simp only [hst] at h
      right
      refine ⟨s, rfl, ?_⟩
      have h1 : handler_quiet s st
          (st.modify_style s (fun x => { x with display := CSS_DISPLAY_NONE })) := by
        refine ⟨rfl, rfl, by simp, fun i hi => ?_⟩
        rw [style_at_modify_style, if_neg (fun h => hi h.1)]
      split at h
      · cases h
        exact handler_quiet.same_quiet h1 _ rfl rfl rfl
      · cases h
        exact handler_quiet.same_quiet h1 _ rfl rfl rfl
    | none =>
      simp only [hst] at h
      left
      split at h
      · cases h
        refine handler_display.modify_control_hdisplay _ _ ?_
        exact handler_display.form_new_control_hdisplay _ (handler_display.refl_hdisplay hb)
      · cases h
        exact handler_display.form_new_control_hdisplay _ (handler_display.refl_hdisplay hb)
  split at h
  · unfold box_input_checkbox at h
    cases h
    left
    split
    · refine handler_display.modify_control_hdisplay _ _ ?_
      refine handler_display.modify_control_hdisplay _ _ ?_
      refine handler_display.modify_box_hdisplay _ _ ?_ ?_
      · exact fun _ => ⟨rfl, rfl, rfl, rfl⟩
      exact handler_display.form_new_control_hdisplay _ (handler_display.refl_hdisplay hb)
    · refine handler_display.modify_control_hdisplay _ _ ?_
      refine handler_display.modify_box_hdisplay _ _ ?_ ?_
      · exact fun _ => ⟨rfl, rfl, rfl, rfl⟩
      exact handler_display.form_new_control_hdisplay _ (handler_display.refl_hdisplay hb)
  split at h
  · unfold box_input_submit at h
    left
    split at h
    · exact Option.noConfusion h
    · rename_i st2 cc2 hbt
      cases h
      refine handler_display.box_gadget_text_hdisplay _ _ ?_
      exact handler_display_box_button hbt (handler_display.refl_hdisplay hb)
  split at h
  · unfold box_input_button at h
    left
    split at h
    · exact Option.noConfusion h
    · rename_i st2 cc2 hbt
      cases h
      refine handler_display.box_gadget_text_hdisplay _ _ ?_
      exact handler_display_box_button hbt (handler_display.refl_hdisplay hb)
  split at h
  · unfold box_input_image at h
    left
    have h3 : handler_display box st
        (((form_new_control GADGET_IMAGE st).1.modify_box box
          (fun b => { b with gadget := some (form_new_control GADGET_IMAGE st).2 })).modify_control
          (form_new_control GADGET_IMAGE st).2
          (fun g => { g with box := some box, type := GADGET_IMAGE })) := by
      refine handler_display.modify_control_hdisplay _ _ ?_
      refine handler_display.modify_box_hdisplay _ _ ?_ ?_
      · exact fun _ => ⟨rfl, rfl, rfl, rfl⟩
      exact handler_display.form_new_control_hdisplay _ (handler_display.refl_hdisplay hb)
    simp only at h
    split at h
    · split at h
      · split at h
        · split at h
          · exact Option.noConfusion h
          · rename_i st2 hf
            cases h
            exact handler_display.html_fetch_object_hdisplay hf h3
        · cases h
          exact h3
      · cases h
        exact h3
    · cases h
      exact h3
  · exact Or.inl (hdefault _ h)

theorem handler_display_box_input {E : Env} {n : xmlNode} {box : Nat} {st st' : content}
    {cc : Bool} (h : box_input E n box st = some (st', cc)) (hb : box < st.boxes.length) :
    handler_display box st st' ∨
      ∃ s, (st.box_at box).style = some s ∧ handler_quiet s st st' := by
  unfold box_input at h
  split at h
  · exact Option.noConfusion h
  · rename_i st1 hbr
    cases h
    exact handler_display_box_input_type hbr hb
  · rename_i st1 gadget hbr
    cases h
    rcases handler_display_box_input_type hbr hb with h1 | ⟨s, hs, h1⟩
    · left
      refine handler_display.modify_control_hdisplay _ _ ?_
      exact handler_display.box_form_add_control_hdisplay _ h1
    · right
      refine ⟨s, hs, ?_⟩
      refine handler_quiet.same_quiet ?_ _ rfl rfl rfl
      exact handler_quiet.same_quiet h1 _ (by simp) (by simp) (by simp)

theorem handler_display_box_select {E : Env} {n : xmlNode} {box : Nat} {st st' : content}
    {cc : Bool} (h : box_select E n box st = some (st', cc)) (hb : box < st.boxes.length) :
    handler_display box st st' := by
  unfold box_select at h
  simp only at h
  have h1 : handler_display box st
      ((form_new_control GADGET_SELECT st).1.modify_control (form_new_control GADGET_SELECT st).2
        (fun g => box_select_options false n.children
          { g with multiple := (xmlGetProp n "multiple".toList).isSome })) := by
    refine handler_display.modify_control_hdisplay _ _ ?_
    exact handler_display.form_new_control_hdisplay _ (handler_display.refl_hdisplay hb)
  split at h
  · cases h
    exact h1
  · cases h
    refine handler_display.box_form_add_control_hdisplay _ ?_
    refine handler_display.box_gadget_text_hdisplay _ _ ?_
    refine handler_display.modify_control_hdisplay _ _ ?_
    refine handler_display.modify_box_hdisplay _ _ ?_ ?_
    · exact fun _ => ⟨rfl, rfl, rfl, rfl⟩
    refine handler_display.set_type_hdisplay _ (by simp) ?_
    exact handler_display.modify_control_hdisplay _ _ h1

theorem styles_box_textarea_text (box ic : Nat) (line : cstr) (st : content) :
    (box_textarea_text box ic line st).styles = st.styles := by
  simp [box_textarea_text]

theorem styles_box_textarea_rest (box ic : Nat) (lines : List cstr) :
    ∀ st : content, (box_textarea_rest box ic lines st).styles = st.styles := by
  induction lines with
  | nil => intro st; rfl
  | cons line rest ih =>
    intro st
    unfold box_textarea_rest
    simp only [snd_box_create]
    rw [ih, styles_box_textarea_text]
    simp

theorem handler_display_box_textarea {n : xmlNode} {box : Nat} {st st' : content}
    {cc : Bool} (h : box_textarea n box st = some (st', cc)) (hb : box < st.boxes.length) :
    handler_display box st st' := by
  unfold box_textarea at h
  simp only [snd_box_create] at h
  cases h
  refine (handler_display.refl_hdisplay hb).styles_eq_hdisplay _ ?_
  rw [styles_box_form_add_control]
  split
  · simp
  · rw [styles_box_textarea_rest, styles_box_textarea_text]
    simp

/-- A row of a frameset leaves the display of the styles. -/
theorem keeps_display_box_frameset_row {m : Nat} (box style : Nat) (st : content)
    (hm : m ≤ st.styles.length) : keeps_display m st (box_frameset_row box style st).1 := by
  unfold box_frameset_row
  simp only [snd_new_style, snd_box_create]
  refine ((keeps_display_new_style st (st.style_at style)).mono_display hm).trans_display
    (keeps_display_of_styles_eq ?_)
  simp

theorem keeps_display_box_frameset_empty_rows {m : Nat} (box style : Nat) (k : Nat) :
    ∀ st : content, m ≤ st.styles.length →
      keeps_display m st (box_frameset_empty_rows box style k st) := by
  induction k with
  | zero =>
    intro st _
    exact keeps_display.refl_display _ _
  | succ k ih =>
    intro st hm
    unfold box_frameset_empty_rows
    have h1 := @keeps_display_box_frameset_row m box style st hm
    exact h1.trans_display (ih _ (le_trans hm h1.1))

theorem keeps_display_box_frameset_new_row {m : Nat}
    (cell : Nat → Nat → content → Option content) (box style : Nat) (d : frameset_lengths)
    (row : Nat) (st st' : content)
    (h : box_frameset_new_row cell box style d row st = some st')
    (hcell : ∀ col rb Y Y', cell col rb Y = some Y' → m ≤ Y.styles.length →
      keeps_display m Y Y')
    (hm : m ≤ st.styles.length) : keeps_display m st st' := by
  unfold box_frameset_new_row at h
  have h1 := @keeps_display_box_frameset_row m box style st hm
  split at h
  · cases h
    exact keeps_display.refl_display _ _
  · simp only at h
    split at h
    · cases h
      exact h1.trans_display (keeps_display_box_frameset_empty_rows box style _ _ (le_trans hm h1.1))
    · exact h1.trans_display (hcell _ _ _ _ h (le_trans hm h1.1))

theorem styles_box_frameset_columns (c : xmlNode) (b : Nat) (st : content) :
    (box_frameset_columns c b st).1.styles = st.styles := by
  unfold box_frameset_columns
  simp

theorem keeps_display_box_frameset_cell {m : Nat} (E : Env) (c : xmlNode)
    (nested : Nat → Nat → frameset_lengths → content → Option content)
    (rest : Nat → content → Option content)
    (style : Nat) (d : frameset_lengths) (col rb : Nat) (st st' : content)
    (h : box_frameset_cell E c nested rest style d col rb st = some st')
    (hnested : ∀ fb cs d1 Y Y', nested fb cs d1 Y = some Y' →
      m ≤ Y.styles.length → keeps_display m Y Y')
    (hrest : ∀ col Y Y', rest col Y = some Y' → m ≤ Y.styles.length → keeps_display m Y Y')
    (hm : m ≤ st.styles.length) : keeps_display m st st' := by
  unfold box_frameset_cell at h
  split at h
  · exact hrest _ _ _ h hm
  · simp only [snd_new_style, snd_box_create, boxes_new_style, boxes_modify_style] at h
    have h1 : keeps_display m st (((st.new_style (st.style_at style)).1).modify_style
        st.styles.length (fun s => { s with overflow := CSS_OVERFLOW_AUTO })) :=
      ((keeps_display_new_style st (st.style_at style)).mono_display hm).trans_display
        (keeps_display_modify_style _ _ _ (Or.inr fun _ => rfl))
    generalize (((st.new_style (st.style_at style)).1).modify_style
        st.styles.length (fun s => { s with overflow := CSS_OVERFLOW_AUTO })) = s1 at h h1
    have h2 : keeps_display m s1 (box_add_child rb st.boxes.length
        (box_set_type st.boxes.length BOX_TABLE_CELL
          (box_create (some st.styles.length) none none none none s1).1)) :=
      keeps_display_of_styles_eq (by simp)
    have h12 := h1.trans_display h2
    generalize (box_add_child rb st.boxes.length
        (box_set_type st.boxes.length BOX_TABLE_CELL
          (box_create (some st.styles.length) none none none none s1).1)) = s2 at h h12
    clear h1 h2
    have hm2 : m ≤ s2.styles.length := le_trans hm h12.1
    split at h
    · have hc : keeps_display m s2 (box_frameset_columns c s2.boxes.length
          (box_create (some st.styles.length) none none none none s2).1).1 :=
        keeps_display_of_styles_eq (by rw [styles_box_frameset_columns]; simp)
      generalize (box_frameset_columns c s2.boxes.length
          (box_create (some st.styles.length) none none none none s2).1).1 = s4 at h hc
      generalize (box_frameset_columns c s2.boxes.length
          (box_create (some st.styles.length) none none none none s2).1).2 = d1 at h
      split at h
      · exact Option.noConfusion h
      · rename_i s5 hs5
        have hc3 := hnested _ _ _ _ _ hs5 (le_trans hm2 hc.1)
        have hc4a : keeps_display m s5 (box_frameset_width st.styles.length s5) := by
          unfold box_frameset_width
          exact keeps_display_modify_style s5 _ _ (Or.inr fun _ => rfl)
        have hc4 : keeps_display m s5 (box_add_child st.boxes.length s2.boxes.length
            (box_frameset_width st.styles.length s5)) :=
          hc4a.trans_display (keeps_display_of_styles_eq (by simp))
        have hall := ((h12.trans_display hc).trans_display hc3).trans_display hc4
        exact hall.trans_display (hrest _ _ _ h (le_trans hm hall.1))
    · split at h
      · exact h12.trans_display (hrest _ _ _ h hm2)
      · split at h
        · split at h
          · exact h12.trans_display (hrest _ _ _ h hm2)
          · split at h
            · exact Option.noConfusion h
            · rename_i s3 hs3
              have hb := boxes_html_fetch_object hs3
              have hc : keeps_display m s2 s3 := keeps_display_of_styles_eq hb.2
              exact (h12.trans_display hc).trans_display (hrest _ _ _ h (le_trans hm2 hc.1))
        · exact h12.trans_display (hrest _ _ _ h hm2)

/-- The loops of `box_frameset` leave the display of the styles. -/
theorem keeps_display_box_frameset_table (E : Env) (c : xmlNode) :
    ∀ (m : Nat) (box style : Nat) (d : frameset_lengths) (row col : Nat)
      (row_box : Option Nat) (st st' : content),
      box_frameset_table E c box style d row col row_box st = some st' →
      m ≤ st.styles.length → keeps_display m st st' := by
  induction c with
  | null =>
    intro m box style d row col row_box st st' h _
    unfold box_frameset_table at h
    cases h
    exact keeps_display.refl_display _ _
  | node t name hp ps tx children next ihc ihn =>
    intro m box style d row col row_box st st' h hm
    unfold box_frameset_table at h
    have hcell : ∀ (row col rb : Nat) (Y Y' : content),
        box_frameset_cell E (.node t name hp ps tx children next)
          (fun frameset_box cell_style d1 st =>
            box_frameset_table E children frameset_box cell_style d1 0 0 none st)
          (fun col st => box_frameset_table E next box style d row col (some rb) st)
          style d col rb Y = some Y' → m ≤ Y.styles.length → keeps_display m Y Y' := by
      intro row col rb Y Y' hY hmY
      refine keeps_display_box_frameset_cell E _ _ _ style d col rb Y Y' hY ?_ ?_ hmY
      · intro fb cs d1 Z Z' hZ hm
        exact ihc m fb cs d1 0 0 none Z Z' hZ hm
      · intro col Z Z' hZ hm
        exact ihn m box style d row col (some rb) Z Z' hZ hm
    split at h
    · exact keeps_display_box_frameset_new_row _ box style d row st st' h
        (fun col rb Y Y' hY => hcell row col rb Y Y' hY) hm
    · split at h
      · exact keeps_display_box_frameset_new_row _ box style d (row + 1) st st' h
          (fun col rb Y Y' hY => hcell (row + 1) col rb Y Y' hY) hm
      · exact hcell row col _ st st' h hm

theorem handler_display_box_frameset {E : Env} {n : xmlNode} {box : Nat} {st st' : content}
    {cc : Bool} (h : box_frameset E n box st = some (st', cc)) (hb : box < st.boxes.length) :
    handler_display box st st' := by
  unfold box_frameset at h
  split at h
  · exact Option.noConfusion h
  · simp only at h
    have h1 : handler_display box st (box_frameset_columns n box st).1 :=
      (handler_display.refl_hdisplay hb).styles_eq_hdisplay _ (styles_box_frameset_columns n box st)
    split at h
    · exact Option.noConfusion h
    · rename_i s2 hs2
      cases h
      have h2 := keeps_display_box_frameset_table E _ st.styles.length _ _ _ _ _ _ _ _ hs2
        h1.2.1
      unfold box_frameset_width
      refine handler_display.modify_style_hdisplay _ _ (fun _ => rfl) ?_
      exact ⟨h1.1, h1.2.trans_display h2⟩

theorem handler_display_box_object {E : Env} {conv : children_conversion} {n : xmlNode}
    {box : Nat} {st st' : content} {cc : Bool} (hconv : conv_display conv)
    (h : box_object E conv n box st = some (st', cc)) (hb : box < st.boxes.length) :
    handler_display box st st' := by
  unfold box_object at h
  simp only at h
  have h1 : handler_display box st (box_usemap n box st) :=
    handler_display.box_usemap_hdisplay n box (handler_display.refl_hdisplay hb)
  generalize box_usemap n box st = s1 at h h1
  split at h
  · exact Option.noConfusion h
  split at h
  · exact Option.noConfusion h
  split at h
  · exact Option.noConfusion h
  · cases h; exact h1
  split at h
  · cases h; exact h1
  split at h
  · cases h; exact h1
  split at h
  · exact Option.noConfusion h
  rename_i s2 hs2
  split at h
  · exact Option.noConfusion h
  split at h
  · exact Option.noConfusion h
  rename_i s3 ic3 hs3
  cases h
  have h2 : handler_display box st s2 := by
    refine handler_display.html_fetch_object_hdisplay hs2 ?_
    refine handler_display.modify_box_hdisplay _ _ ?_ h1
    exact fun _ => ⟨rfl, rfl, rfl, rfl⟩
  refine handler_display.modify_box_hdisplay _ _ ?_ ?_
  · exact fun _ => ⟨rfl, rfl, rfl, rfl⟩
  exact h2.extend_hdisplay (hconv _ _ _ _ _ _ _ _ _ hs3)

theorem handler_display_box_special {E : Env} {conv : children_conversion}
    {convert : element_convert} {n : xmlNode}
    {box : Nat} {st st' : content} {cc : Bool} (hconv : conv_display conv)
    (h : box_special E conv convert n box st = some (st', cc)) (hb : box < st.boxes.length) :
    handler_display box st st' ∨
      (convert = element_convert.box_input ∧
        ∃ s, (st.box_at box).style = some s ∧ handler_quiet s st st') := by
  cases convert <;> simp only [box_special] at h
  · exact Or.inl (handler_display_box_a h hb)
  · exact Or.inl (handler_display_box_body h hb)
  · exact Or.inl (handler_display_box_br h hb)
  · exact Or.inl (handler_display_box_button h (handler_display.refl_hdisplay hb))
  · exact Or.inl (handler_display_box_embed h hb)
  · exact Or.inl (handler_display_box_form h hb)
  · exact Or.inl (handler_display_box_frameset h hb)
  · exact Or.inl (handler_display_box_iframe h hb)
  · exact Or.inl (handler_display_box_image h hb)
  · exact (handler_display_box_input h hb).imp id (fun hq => ⟨rfl, hq⟩)
  · exact Or.inl (handler_display_box_object hconv h hb)
  · exact Or.inl (handler_display_box_select h hb)
  · exact Or.inl (handler_display_box_textarea h hb)

theorem styles_box_inline_container (parent : Nat) (ic : Option Nat) (st : content) :
    (box_inline_container parent ic st).1.styles = st.styles := by
  unfold box_inline_container
  split
  · rfl
  · simp

theorem styles_box_construct_text_pre (parent_style parent : Nat) (href : Option cstr)
    (target : Option frame_target) (title : Option cstr) (lines : List (cstr × Bool)) :
    ∀ (ic : Option Nat) (X : content),
      (box_construct_text_pre parent_style parent href target title lines ic X).1.styles
        = X.styles := by
  induction lines with
  | nil => intro ic X; rfl
  | cons l rest ih =>
    intro ic X
    obtain ⟨line, terminated⟩ := l
    unfold box_construct_text_pre
    simp only [snd_box_create]
    rw [ih]
    simp [styles_box_inline_container]

/-- `box_construct_text` leaves the styles. -/
theorem styles_box_construct_text {n : xmlNode} {parent_style parent : Nat} {ic : Option Nat}
    {href : Option cstr} {target : Option frame_target} {title : Option cstr}
    {X Y : content} {ic' : Option Nat}
    (h : box_construct_text n parent_style parent ic href target title X = some (Y, ic')) :
    Y.styles = X.styles := by
  unfold box_construct_text at h
  simp only at h
  split at h
  · split at h
    · split at h
      · split at h
        · cases h
          rfl
        · cases h
          rfl
      · cases h
        rfl
    · simp only [snd_box_create] at h
      have g1 := styles_box_inline_container parent ic X
      generalize (box_inline_container parent ic X).1 = s1 at h g1
      generalize (box_inline_container parent ic X).2 = c at h
      generalize (if (decide (List.length (squash_whitespace n.content) > 1) && _) = true
        then _ else _) = len at h
      generalize (if (X.style_at parent_style).text_transform ≠ CSS_TEXT_TRANSFORM_NONE
        then _ else _) = text at h
      generalize hs2 : box_add_child c s1.boxes.length _ = s2 at h
      have g2 : s2.styles = s1.styles := by
        rw [← hs2]
        simp
      clear hs2
      split at h
      · generalize hs3 : s2.modify_box s1.boxes.length _ = s3 at h
        have g3 : s3.styles = s2.styles := by
          rw [← hs3]
          rfl
        clear hs3
        split at h
        · cases h
          exact (g3.trans g2).trans g1
        · cases h
          exact (g3.trans g2).trans g1
      · cases h
        exact g2.trans g1
  · generalize box_construct_text_lines _ [] = lines at h
    have := styles_box_construct_text_pre parent_style parent href target title lines ic X
    generalize box_construct_text_pre parent_style parent href target title lines ic X = r
      at h this
    cases h
    exact this

/-! ### The attributes of an element -/

theorem keeps_display_box_set_cellpadding_children {m : Nat} (value : Int) (fuel : Nat) :
    ∀ (children : List Nat) (st : content),
      keeps_display m st (box_set_cellpadding_children value fuel children st) := by
  induction fuel with
  | zero => intro children st; exact keeps_display.refl_display _ _
  | succ fuel ih =>
    intro children st
    unfold box_set_cellpadding_children
    refine foldl_invariant (keeps_display m) (keeps_display.refl_display m)
      (fun a b c h1 h2 => h1.trans_display h2) _ ?_ children st
    intro s child
    show keeps_display m s _
    split
    · exact ih _ _
    · exact ih _ _
    · split
      · exact keeps_display_modify_style _ _ _ (Or.inr fun _ => rfl)
      · exact keeps_display.refl_display _ _
    · exact keeps_display.refl_display _ _

theorem keeps_display_box_set_table_border_children {m : Nat} (value : Int) (color : colour)
    (fuel : Nat) :
    ∀ (children : List Nat) (st : content),
      keeps_display m st (box_set_table_border_children value color fuel children st) := by
  induction fuel with
  | zero => intro children st; exact keeps_display.refl_display _ _
  | succ fuel ih =>
    intro children st
    unfold box_set_table_border_children
    refine foldl_invariant (keeps_display m) (keeps_display.refl_display m)
      (fun a b c h1 h2 => h1.trans_display h2) _ ?_ children st
    intro s child
    show keeps_display m s _
    split
    · exact ih _ _
    · exact ih _ _
    · split
      · exact keeps_display_modify_style _ _ _ (Or.inr fun _ => rfl)
      · exact keeps_display.refl_display _ _
    · exact keeps_display.refl_display _ _

theorem keeps_display_box_set_table_border {m : Nat} (box : Nat) (value : Int) (color : colour)
    (st : content) : keeps_display m st (box_set_table_border box value color st) := by
  unfold box_set_table_border
  simp only
  refine keeps_display.trans_display ?_ (keeps_display_box_set_table_border_children _ _ _ _ _)
  split
  · split
    · exact keeps_display_modify_style _ _ _ (Or.inr fun _ => rfl)
    · exact keeps_display.refl_display _ _
  · exact keeps_display.refl_display _ _

theorem keeps_display_box_row_height {m : Nat} (E : Env) (children : List Nat) :
    ∀ (value : cfloat) (st : content), keeps_display m st (box_row_height E children value st) := by
  induction children with
  | nil => intro value st; exact keeps_display.refl_display _ _
  | cons child rest ih =>
    intro value st
    unfold box_row_height
    split
    · split
      · simp only
        refine keeps_display.trans_display ?_ (ih _ _)
        exact keeps_display_modify_style _ _ _ (Or.inr fun _ => rfl)
      · exact ih _ _
    · exact ih _ _

theorem keeps_display_box_construct_element_table {m : Nat} (E : Env) (node : xmlNode)
    (box : Nat) (st : content) :
    keeps_display m st (box_construct_element_table E node box st) := by
  unfold box_construct_element_table
  simp only
  have h1 : keeps_display m st (match xmlGetProp node "cellpadding".toList with
      | some s =>
        if ((strtol s).2.isEmpty && decide (0 ≤ (strtol s).1) && decide ((strtol s).1 < 1000)) = true
        then box_set_cellpadding box (strtol s).1 st else st
      | none => st) := by
    split
    · split
      · exact keeps_display_box_set_cellpadding_children _ _ _ _
      · exact keeps_display.refl_display _ _
    · exact keeps_display.refl_display _ _
  split
  · split
    · split
      · exact h1.trans_display (keeps_display_box_set_table_border _ _ _ _)
      · exact h1
    · exact h1
  · exact keeps_display.refl_display _ _

theorem keeps_display_box_construct_element_tr {m : Nat} (E : Env) (node : xmlNode)
    (box : Nat) (st : content) :
    keeps_display m st (box_construct_element_tr E node box st) := by
  unfold box_construct_element_tr
  split
  · split
    · simp only
      split
      · exact keeps_display.refl_display _ _
      · split
        · exact keeps_display.refl_display _ _
        · exact keeps_display_box_row_height _ _ _ _
    · exact keeps_display.refl_display _ _
  · exact keeps_display.refl_display _ _

theorem styles_box_construct_element_span (node : xmlNode) (box : Nat) (st : content) :
    (box_construct_element_span node box st).styles = st.styles := by
  unfold box_construct_element_span
  simp only
  split <;> split <;> rfl

/-- The last part of `box_construct_element` leaves the display of the
styles. -/
theorem keeps_display_box_construct_element_attributes {m : Nat} {E : Env}
    {node : xmlNode} {l : element_locals} {st st' : content}
    (h : box_construct_element_attributes E node l st = some st') : keeps_display m st st' := by
  unfold box_construct_element_attributes at h
  simp only at h
  have h1 : keeps_display m st (box_construct_element_span node l.box st) :=
    keeps_display_of_styles_eq (styles_box_construct_element_span _ _ _)
  have h4 : st'.styles = (box_construct_element_tr E node l.box
      (box_construct_element_table E node l.box
        (box_construct_element_span node l.box st))).styles := by
    unfold box_construct_element_background at h
    simp only at h
    split at h
    · exact (boxes_html_fetch_object h).2
    · cases h
      rfl
  exact ((h1.trans_display (keeps_display_box_construct_element_table E node l.box _)).trans_display
    (keeps_display_box_construct_element_tr E node l.box _)).trans_display
    (keeps_display_of_styles_eq h4)

/-! ### The box of an element in the tree -/

theorem styles_box_construct_element_container (l : element_locals) (parent : Nat)
    (ic : Option Nat) (st : content) :
    (box_construct_element_container l parent ic st).1.styles = st.styles := by
  unfold box_construct_element_container
  simp only
  split
  · exact styles_box_inline_container _ _ _
  · rfl

theorem styles_box_construct_element_inline_end (l : element_locals) (ic : Option Nat)
    (st : content) : (box_construct_element_inline_end l ic st).styles = st.styles := by
  unfold box_construct_element_inline_end
  simp only [snd_box_create, styles_modify_box]
  split
  · simp
  · split <;> simp

theorem styles_box_add_child_inline (ic : Option Nat) (b : Nat) (st : content) :
    (box_add_child_inline ic b st).styles = st.styles := by
  unfold box_add_child_inline
  split
  · simp
  · rfl

theorem styles_box_construct_element_float (l : element_locals) (parent : Nat)
    (ic : Option Nat) (st : content) :
    (box_construct_element_float l parent ic st).1.styles = st.styles := by
  unfold box_construct_element_float
  simp only [snd_box_create]
  split
  · have key : ∀ (c : Prop) [Decidable c] (X : content),
        (if c then box_set_type l.box BOX_BLOCK X else X).styles = X.styles := by
      intro c _ X
      split <;> simp
    rw [key, styles_box_add_child_inline]
    simp
  · rfl

theorem conv_if_display {conv : children_conversion} (hconv : conv_display conv) {cc : Bool}
    {ps p : Nat} {h : Option cstr} {t : Option frame_target} {ti : Option cstr}
    {X Y : content} {ic' : Option Nat}
    (hY : (if cc = true then conv ps p none h t ti X else some (X, none)) = some (Y, ic')) :
    keeps_display X.styles.length X Y := by
  split at hY
  · exact hconv _ _ _ _ _ _ _ _ _ hY
  · cases hY
    exact keeps_display.refl_display _ _

theorem keeps_display.of_eq_display {m : Nat} {X Y Z : content} (h : keeps_display m Y Z)
    (he : Y.styles = X.styles) : keeps_display m X Z :=
  (keeps_display_of_styles_eq he).trans_display h

theorem keeps_display.eq_of_display {m : Nat} {X Y Z : content} (h : keeps_display m X Y)
    (he : Z.styles = Y.styles) : keeps_display m X Z :=
  h.trans_display (keeps_display_of_styles_eq he)

/-- The third part of `box_construct_element` leaves the display of the
styles. -/
theorem keeps_display_box_construct_element_tree {conv : children_conversion} {n : xmlNode}
    {l : element_locals} {parent : Nat} {ic : Option Nat} {st st' : content} {ic' : Option Nat}
    (hconv : conv_display conv)
    (h : box_construct_element_tree conv n l parent ic st = some (st', ic')) :
    keeps_display st.styles.length st st' := by
  unfold box_construct_element_tree at h
  simp only at h
  have e0 := styles_box_construct_element_container l parent ic st
  generalize box_construct_element_container l parent ic st = r at h e0
  obtain ⟨s0, ic0⟩ := r
  simp only at h e0
  rw [← e0]
  refine keeps_display.of_eq_display ?_ e0
  clear e0
  split at h
  · unfold box_construct_element_inline at h
    simp only at h
    have e1 := styles_box_add_child_inline ic0 l.box s0
    generalize box_add_child_inline ic0 l.box s0 = s1 at h e1
    rw [← e1]
    refine keeps_display.of_eq_display ?_ e1
    split at h
    · split at h
      · exact Option.noConfusion h
      · rename_i s2 ic2 hs2
        simp only [Option.some.injEq, Prod.mk.injEq] at h
        obtain ⟨h1, h2⟩ := h
        subst h1 h2
        exact (hconv _ _ _ _ _ _ _ _ _ hs2).eq_of_display
          (styles_box_construct_element_inline_end _ _ _)
    · cases h
      exact keeps_display.refl_display _ _
  · split at h
    · unfold box_construct_element_inline_block at h
      simp only at h
      have e1 := styles_box_add_child_inline ic0 l.box s0
      generalize box_add_child_inline ic0 l.box s0 = s1 at h e1
      rw [← e1]
      refine keeps_display.of_eq_display ?_ e1
      split at h
      · exact Option.noConfusion h
      · rename_i s2 ic2 hs2
        cases h
        exact conv_if_display hconv hs2
    · unfold box_construct_element_block at h
      simp only at h
      have e1 := styles_box_construct_element_float l parent ic0 s0
      generalize box_construct_element_float l parent ic0 s0 = r at h e1
      obtain ⟨s1, p1⟩ := r
      simp only at h e1
      have e2 : (box_add_child p1 l.box s1).styles = s0.styles := by simp [e1]
      generalize box_add_child p1 l.box s1 = s2 at h e2
      rw [← e2]
      refine keeps_display.of_eq_display ?_ e2
      split at h
      · exact Option.noConfusion h
      · rename_i s3 ic3 hs3
        have g := conv_if_display hconv hs3
        split at h
        · cases h
          exact g
        · cases h
          exact g

/-! ### Elements -/

/-- The second part of `box_construct_element` leaves the display of the
styles, unless the element is an `input` whose special convert function has
set the style of the box and left the boxes and the fetches. -/
theorem display_box_construct_element_special {E : Env} {conv : children_conversion}
    {n : xmlNode} {l l' : element_locals} {st st' : content} (hconv : conv_display conv)
    (h : box_construct_element_special E conv n l st = some (st', l'))
    (hb : l.box < st.boxes.length) :
    handler_display l.box st st' ∨
      (bsearch n.name element_table = some element_convert.box_input ∧
        ∃ s, (st.box_at l.box).style = some s ∧ handler_quiet s st st') := by
  unfold box_construct_element_special at h
  split at h
  · rename_i convert hbs
    split at h
    · exact Option.noConfusion h
    · rename_i s2 cc hs2
      cases h
      rcases handler_display_box_special hconv hs2 hb with h1 | ⟨hc, h1⟩
      · exact Or.inl h1
      · exact Or.inr ⟨hc ▸ hbs, h1⟩
  · cases h
    exact Or.inl (handler_display.refl_hdisplay hb)

/-- The first part of `box_construct_element`: the style of the element is
the next style of the arena. -/
theorem styles_box_construct_element_box (n : xmlNode) (sv : css_style) (href : Option cstr)
    (target : Option frame_target) (title : Option cstr) (st : content) :
    (box_construct_element_box n sv href target title st).1.styles = st.styles ++ [sv] ∧
    (box_construct_element_box n sv href target title st).1.object = st.object := by
  unfold box_construct_element_box
  simp [content.new_style]

theorem style_at_append_self (st : content) (l : List css_style) (sv : css_style)
    (h : st.styles = l ++ [sv]) : st.style_at l.length = sv := by
  simp [content.style_at, h]

theorem keeps_display_of_append {X Y : content} {sv : css_style}
    (h : Y.styles = X.styles ++ [sv]) : keeps_display X.styles.length X Y := by
  refine ⟨by simp [h], fun i hi => ?_⟩
  simp [content.style_at, h, List.getElem?_append_left hi]

/-- `box_construct_element`, given the conversion of the children, leaves the
display of the styles. -/
theorem keeps_display_box_construct_element_with {E : Env} {conv : children_conversion}
    {n : xmlNode} {parent_style parent : Nat} {ic : Option Nat} {href : Option cstr}
    {target : Option frame_target} {title : Option cstr} {X Y : content} {ic' : Option Nat}
    (hconv : conv_display conv)
    (h : box_construct_element_with E conv n parent_style parent ic href target title X
      = some (Y, ic')) :
    keeps_display X.styles.length X Y := by
  unfold box_construct_element_with at h
  split at h
  · exact Option.noConfusion h
  rename_i sv hsv
  split at h
  · cases h
    exact keeps_display.refl_display _ _
  simp only at h
  obtain ⟨_, hlb, hls, _, hl1, x1, hx1, _, _, _, hx1s⟩ :=
    grows_box_construct_element_box n sv href target title X
  have hst := (styles_box_construct_element_box n sv href target title X).1
  generalize box_construct_element_box n sv href target title X = r1 at h hlb hls hl1 hx1 hst
  obtain ⟨s1, l1⟩ := r1
  simp only at h hlb hls hl1 hx1 hst
  have g1 := keeps_display_of_append hst
  have hlen1 : s1.styles.length = X.styles.length + 1 := by simp [hst]
  split at h
  · exact Option.noConfusion h
  rename_i s2 l2 hs2
  have g2 : keeps_display X.styles.length s1 s2 := by
    rcases display_box_construct_element_special hconv hs2 (by omega) with h1 | ⟨_, s, hs, h1⟩
    · exact h1.2.mono_display (by omega)
    · rw [hlb, box_at_eq hx1, hx1s] at hs
      cases hs
      exact ⟨le_of_eq h1.2.2.1.symm, fun i hi => h1.2.2.2 i (by omega)⟩
  have g12 := g1.trans_display g2
  split at h
  · cases h
    exact g12
  split at h
  · exact Option.noConfusion h
  rename_i s3 ic3 hs3
  split at h
  · exact Option.noConfusion h
  rename_i s4 hs4
  simp only [Option.some.injEq, Prod.mk.injEq] at h
  obtain ⟨h1, h2⟩ := h
  subst h1 h2
  have g3 := keeps_display_box_construct_element_tree hconv hs3
  have g4 : keeps_display X.styles.length s3 s4 :=
    keeps_display_box_construct_element_attributes hs4
  exact (g12.trans_display (g3.mono_display g12.1)).trans_display g4

/-- The conversion of a node and its following siblings leaves the display of
the styles. -/
theorem conv_display_convert_children (E : Env) (n : xmlNode) :
    conv_display (convert_children E n) := by
  induction n with
  | null =>
    intro ps p ic h t ti X Y ic' hY
    unfold convert_children at hY
    cases hY
    exact keeps_display.refl_display _ _
  | node t name hp ps tx children next ihc ihn =>
    intro ps p ic h t ti X Y ic' hY
    unfold convert_children at hY
    split at hY
    · exact Option.noConfusion hY
    · rename_i s1 ic1 hs1
      have g1 : keeps_display X.styles.length X s1 := by
        unfold convert_xml_to_box_with at hs1
        split at hs1
        · exact keeps_display_box_construct_element_with ihc hs1
        · exact keeps_display_of_styles_eq (styles_box_construct_text hs1)
        · cases hs1
          exact keeps_display.refl_display _ _
      exact g1.step_display (le_refl _) (ihn _ _ _ _ _ _ _ _ _ hY)

/-- C1: in the boxes that `convert_xml_to_box` leaves, starting from an arena
in which this holds (and the `inline_end` references are paired) with a
current inline container, if any, that is an inline container, every box of
kind inline, inline-block or line-break that has a parent has a parent of kind
inline-container: such a box is never the child of a block box. -/
theorem convert_xml_to_box_inline_in_container (E : Env) (n : xmlNode)
    (parent_style parent : Nat) (inline_container : Option Nat) (href : Option cstr)
    (target : Option frame_target) (title : Option cstr) (c c' : content)
    (inline_container' : Option Nat)
    (hwf : well_formed c.boxes)
    (hic : ∀ i, inline_container = some i → is_inline_container c.boxes i)
    (h : convert_xml_to_box E n parent_style parent inline_container href target title c
      = some (c', inline_container')) :
    ∀ (b : Nat) (xb : box) (p : Nat), c'.boxes[b]? = some xb → xb.parent = some p →
      (xb.type = BOX_INLINE ∨ xb.type = BOX_INLINE_BLOCK ∨ xb.type = BOX_BR) →
      ∃ xp : box, c'.boxes[p]? = some xp ∧ xp.type = BOX_INLINE_CONTAINER :=
  ((grows_convert_xml_to_box h hic).1.wf hwf (fun _ hi => Option.noConfusion hi)).1

theorem well_formed_example_root : well_formed example_root.boxes :=
  (@grows_new_box 0 none none none none none none BOX_BLOCK
    (content_start "http://site/".toList 800) (Nat.zero_le _) no_ex).wf well_formed_nil
    (fun _ hi => Option.noConfusion hi)

theorem convert_xml_to_box_inline_in_container_witness :
    ∃ (c' : content) (ic' : Option Nat),
      convert_xml_to_box example_env example_p 0 0 none none none none example_root
        = some (c', ic') ∧
      ∀ (b : Nat) (xb : box) (p : Nat), c'.boxes[b]? = some xb → xb.parent = some p →
        (xb.type = BOX_INLINE ∨ xb.type = BOX_INLINE_BLOCK ∨ xb.type = BOX_BR) →
        ∃ xp : box, c'.boxes[p]? = some xp ∧ xp.type = BOX_INLINE_CONTAINER :=
  ⟨_, _, rfl, convert_xml_to_box_inline_in_container example_env example_p 0 0 none none none
    none example_root _ _ well_formed_example_root (fun _ hi => Option.noConfusion hi) rfl⟩

/-- C2: when `box_construct_element` converts an element whose box is, after
the special convert function, of kind inline, and whose children are converted
(`convert_children` is left set and the element has children), then in the
boxes it leaves, the box `b` of the element, which is the first box created,
refers with `inline_end` to a box `e` created after it; `e` is of kind
inline-end and refers back to `b`; and `e` is the only box that refers to `b`
(the arena being well-formed at the start). -/
theorem box_construct_element_inline_end_paired (E : Env) (n : xmlNode)
    (parent_style parent : Nat) (inline_container : Option Nat) (href : Option cstr)
    (target : Option frame_target) (title : Option cstr) (c c2 c' : content)
    (inline_container' : Option Nat) (style : css_style) (l2 : element_locals)
    (hwf : well_formed c.boxes)
    (hic : ∀ i, inline_container = some i → is_inline_container c.boxes i)
    (hstyle : box_get_style E c.base_url (c.style_at parent_style) n = some style)
    (hdisplay : style.display ≠ CSS_DISPLAY_NONE)
    (hspecial : box_construct_element_special E (convert_children E n.children) n
      (box_construct_element_box n style href target title c).2
      (box_construct_element_box n style href target title c).1 = some (c2, l2))
    (hdisplay2 : (c2.style_at l2.style).display ≠ CSS_DISPLAY_NONE)
    (hinline : (c2.box_at l2.box).type = BOX_INLINE)
    (hconvert : l2.convert_children = true)
    (hchildren : n.children.is_node = true)
    (h : box_construct_element E n parent_style parent inline_container href target title c
      = some (c', inline_container')) :
    l2.box = c.boxes.length ∧
    ∃ (e : Nat) (xb xe : box), c.boxes.length < e ∧
      c'.boxes[c.boxes.length]? = some xb ∧ xb.type = BOX_INLINE ∧ xb.inline_end = some e ∧
      c'.boxes[e]? = some xe ∧ xe.type = BOX_INLINE_END ∧ xe.inline_end = some c.boxes.length ∧
      ∀ (e' : Nat) (xe' : box), c'.boxes[e']? = some xe' →
        xe'.inline_end = some c.boxes.length → e' = e := by
  have hconv := conv_ok_convert_children E n.children
  have hwf' := ((grows_box_construct_element_with hconv h hic).1.wf hwf
    (fun _ hi => Option.noConfusion hi)).2
  unfold box_construct_element box_construct_element_with at h
  rw [hstyle] at h
  simp only [if_neg hdisplay] at h
  obtain ⟨g1, hlb, hls, _, hl1, x1, hx1, hx1p, hx1e, hx1t, _⟩ :=
    grows_box_construct_element_box n style href target title c
  rw [hspecial] at h
  simp only [if_neg hdisplay2] at h
  generalize box_construct_element_box n style href target title c = r1
    at hspecial g1 hlb hls hl1 hx1
  obtain ⟨s1, l1⟩ := r1
  simp only at hspecial g1 hlb hls hl1 hx1
  obtain ⟨g2, hlb2, hls2⟩ := grows_box_construct_element_special hconv hspecial (by omega)
  rw [← hlb] at hx1
  obtain ⟨x2, hx2, hx2p, hx2e, _, _⟩ := g2.2.lookup_grows (Or.inr rfl) hx1
  have hd1 : detached s1.boxes l1.box :=
    ⟨x1, hx1, hx1p, by rw [hx1t]; exact box_map_ne_inline_container _⟩
  have g2r : grows c.boxes.length none s1 c2 := g2.2.restrict_grows (by omega) (by omega) hd1
  have g12 := g1.trans_grows g2r
  have hv2 : valid_container inline_container c2 := fun i hi =>
    g12.is_inline_container_grows (hic i hi).lt_container (fun h => Option.noConfusion h) (hic i hi)
  split at h
  · exact Option.noConfusion h
  rename_i s3 ic3 hs3
  split at h
  · exact Option.noConfusion h
  rename_i s4 hs4
  simp only [Option.some.injEq, Prod.mk.injEq] at h
  obtain ⟨h1, h2⟩ := h
  subst h1 h2
  rw [← hlb2] at hx2
  rw [box_at_eq hx2] at hinline
  obtain ⟨g3, hv3, hpair⟩ := grows_box_construct_element_tree hconv hs3 x2 hx2
    (hx2e.trans hx1e) hv2
  obtain ⟨e, yb, ye, hme, hyb, hybe, hybt, hye, hyee, hyet⟩ := hpair hinline hconvert hchildren
  have g4 : grows s3.boxes.length none s3 s4 := grows_box_construct_element_attributes hs4
  obtain ⟨zb, hzb, _, hzbe, _, hzbt⟩ := g4.lookup_full_grows hyb
  obtain ⟨ze, hze, _, hzee, _, hzet⟩ := g4.lookup_full_grows hye
  have hl2 := g2.le_steps
  have hb : l2.box = c.boxes.length := hlb2.trans hlb
  rw [hb] at hzb hyee
  refine ⟨hb, e, zb, ze, by omega, hzb, hzbt.trans hybt, hzbe.trans hybe, hze,
    hzet.trans hyet, hzee.trans hyee, ?_⟩
  intro e' xe' hxe' hxe'e
  obtain ⟨bb, hbb, hbbe⟩ := hwf' e' xe' _ hxe' hxe'e
  rw [hzb] at hbb
  cases hbb
  rw [hzbe.trans hybe] at hbbe
  exact (Option.some.inj hbbe).symm

theorem box_construct_element_inline_end_paired_witness :
    ∃ (c' : content) (ic' : Option Nat),
      box_construct_element example_env example_b 0 0 none none none none example_root
        = some (c', ic') ∧
      ∃ (e : Nat) (xb xe : box), 1 < e ∧
        c'.boxes[1]? = some xb ∧ xb.type = BOX_INLINE ∧ xb.inline_end = some e ∧
        c'.boxes[e]? = some xe ∧ xe.type = BOX_INLINE_END ∧ xe.inline_end = some 1 ∧
        ∀ (e' : Nat) (xe' : box), c'.boxes[e']? = some xe' → xe'.inline_end = some 1 → e' = e :=
  ⟨_, _, rfl,
    (box_construct_element_inline_end_paired example_env example_b 0 0 none none none none
      example_root _ _ _ _ _ well_formed_example_root (fun _ hi => Option.noConfusion hi)
      rfl (by decide) rfl (by decide) rfl rfl rfl rfl).2⟩

/-- For C2: the element `<object data="http://other/o"><div>x</div></object>`
is inline and has a block-level child, and its children are converted (by
`box_object`, into the fallback of the box); but `box_object` clears
`convert_children`, so no inline-end box is created: the inline box (box 1)
has the block box of `div` (box 2) as fallback and no `inline_end`, and no box
is of kind inline-end. -/
theorem box_construct_element_object_no_inline_end :
    (box_construct_element example_env example_object 0 0 none none none none
        example_root).map
      (fun r => r.1.boxes.map (fun b => (b.type, b.fallback, b.inline_end))) =
      some [(BOX_BLOCK, [], none), (BOX_INLINE, [2], none), (BOX_BLOCK, [], none),
            (BOX_INLINE_CONTAINER, [], none), (BOX_TEXT, [], none),
            (BOX_INLINE_CONTAINER, [], none)] := by
  decide

/-- C3: converting the markup `<p>a <b>bold</b> c</p>`, with `p` resolved as
block and `b` as inline under `white-space: normal` (the style sheet of
`example_env`), leaves eight boxes and no current inline container: the root
(box 0), one block box for `p` (box 1) whose only child is one inline
container (box 2), whose children are, in order, the text `a ` of length 1
(the text "a") with the `space` flag set, the inline box for `b`, the text
"bold", the inline-end box paired with the inline box (each is the
`inline_end` of the other), and a text of length 1 (the text "c": the
buffer holds the moved char and the old tail); the leading space of " c" has
set the `space` flag of the box before it, the inline-end box. No box has a
text that is only a space. -/
theorem xml_to_box_example :
    (xml_to_box example_env example_p (content_start "http://site/".toList 800)).map
        (fun r => (r.1.boxes, r.2)) =
      some
        ([{ box_zero with type := BOX_BLOCK, children := [1], columns := 1, rows := 1 },
          { box_zero with type := BOX_BLOCK, style := some 1, parent := some 0, children := [2],
                          columns := 1, rows := 1 },
          { box_zero with type := BOX_INLINE_CONTAINER, parent := some 1,
                          children := [3, 4, 5, 6, 7], columns := 1, rows := 1 },
          { box_zero with type := BOX_TEXT, style := some 1, parent := some 2,
                          text := some "a ".toList, length := 1, space := true,
                          columns := 1, rows := 1 },
          { box_zero with type := BOX_INLINE, style := some 2, parent := some 2, prev := some 3,
                          inline_end := some 6, columns := 1, rows := 1 },
          { box_zero with type := BOX_TEXT, style := some 2, parent := some 2, prev := some 4,
                          text := some "bold".toList, length := 4, columns := 1, rows := 1 },
          { box_zero with type := BOX_INLINE_END, style := some 2, parent := some 2,
                          prev := some 5, inline_end := some 4, space := true,
                          columns := 1, rows := 1 },
          { box_zero with type := BOX_TEXT, style := some 1, parent := some 2, prev := some 6,
                          text := some "cc".toList, length := 1, columns := 1, rows := 1 }],
         none) := by
  decide

theorem boxes_box_construct_element_box (n : xmlNode) (sv : css_style) (href : Option cstr)
    (target : Option frame_target) (title : Option cstr) (st : content) :
    ∃ x : box, (box_construct_element_box n sv href target title st).1.boxes = st.boxes ++ [x] ∧
      x.parent = none ∧ x.children = [] := by
  unfold box_construct_element_box
  simp only [snd_new_style, snd_box_create, boxes_new_style]
  have h := boxes_new_box (some st.styles.length) href target
    (match xmlGetProp n "title".toList with
      | some title0 => some (squash_whitespace title0)
      | none => title)
    (box_get_attribute n "id".toList none) (box_map sv.display) (st.new_style sv).1
  simp only [boxes_new_style] at h
  exact ⟨_, h, rfl, rfl⟩

theorem box_construct_element_special_input {E : Env} {n : xmlNode}
    (hbs : bsearch n.name element_table = some element_convert.box_input)
    (conv conv' : children_conversion) (l : element_locals) (st : content) :
    box_construct_element_special E conv n l st = box_construct_element_special E conv' n l st := by
  unfold box_construct_element_special
  simp only [hbs, box_special]

/-- C4: for an element whose style has display none, either as
`box_get_style` returns it or after the special convert function has run,
`box_construct_element` returns success and leaves `*inline_container` as it
was; the content `c'` it leaves has the fetches of `c` (no object fetch has
been issued) and the boxes of `c`, untouched, followed at most by one box
without parent or children (the box of the element, which is freed); and the
result is the same whatever the conversion of the children does (no child is
converted). -/
theorem box_construct_element_display_none (E : Env) (n : xmlNode)
    (parent_style parent : Nat) (inline_container : Option Nat) (href : Option cstr)
    (target : Option frame_target) (title : Option cstr) (c : content) (style : css_style)
    (hstyle : box_get_style E c.base_url (c.style_at parent_style) n = some style)
    (hnone : style.display = CSS_DISPLAY_NONE ∨
      ∃ (c2 : content) (l2 : element_locals),
        box_construct_element_special E (convert_children E n.children) n
          (box_construct_element_box n style href target title c).2
          (box_construct_element_box n style href target title c).1 = some (c2, l2) ∧
        (c2.style_at l2.style).display = CSS_DISPLAY_NONE) :
    ∃ c' : content,
      box_construct_element E n parent_style parent inline_container href target title c
        = some (c', inline_container) ∧
      c'.object = c.object ∧
      (c'.boxes = c.boxes ∨ ∃ x : box, c'.boxes = c.boxes ++ [x] ∧ x.parent = none ∧
        x.children = []) ∧
      ∀ conv : children_conversion,
        box_construct_element_with E conv n parent_style parent inline_container href target
          title c = some (c', inline_container) := by
  by_cases hd : style.display = CSS_DISPLAY_NONE
  · have key : ∀ conv : children_conversion,
        box_construct_element_with E conv n parent_style parent inline_container href target
          title c = some (c, inline_container) := by
      intro conv
      unfold box_construct_element_with
      rw [hstyle]
      simp only [if_pos hd]
    exact ⟨c, key _, rfl, Or.inl rfl, key⟩
  · rcases hnone with hnone | ⟨c2, l2, hs, hd2⟩
    · exact absurd hnone hd
    have hconv := conv_ok_convert_children E n.children
    have hconvd := conv_display_convert_children E n.children
    obtain ⟨_, hlb, hls, _, hl1, x1, hx1, _, _, _, hx1s⟩ :=
      grows_box_construct_element_box n style href target title c
    obtain ⟨hst, hob⟩ := styles_box_construct_element_box n style href target title c
    obtain ⟨x, hbx, hxp, hxc⟩ := boxes_box_construct_element_box n style href target title c
    have key : ∀ conv : children_conversion,
        box_construct_element_with E conv n parent_style parent inline_container href target
          title c =
        match box_construct_element_special E conv n
            (box_construct_element_box n style href target title c).2
            (box_construct_element_box n style href target title c).1 with
        | none => none
        | some (st, l) =>
          if (st.style_at l.style).display = CSS_DISPLAY_NONE then some (st, inline_container)
          else
            match box_construct_element_tree conv n l parent inline_container st with
            | none => none
            | some (st, inline_container) =>
              match box_construct_element_attributes E n l st with
              | none => none
              | some st => some (st, inline_container) := by
      intro conv
      conv_lhs => unfold box_construct_element_with
      rw [hstyle]
      exact if_neg hd
    generalize box_construct_element_box n style href target title c = r1
      at hs hlb hls hl1 hx1 hst hob hbx key
    obtain ⟨s1, l1⟩ := r1
    simp only at hs hlb hls hl1 hx1 hst hob hbx key
    obtain ⟨_, hlb2, hls2⟩ := grows_box_construct_element_special hconv hs (by omega)
    rcases display_box_construct_element_special hconvd hs (by omega) with hA | ⟨hbs, s, _, hB⟩
    · exfalso
      have h1 := hA.2.2 l1.style (by rw [hls, hst]; simp)
      rw [hls2, h1, hls, style_at_append_self s1 c.styles style hst] at hd2
      exact hd hd2
    · have key2 : ∀ conv : children_conversion,
          box_construct_element_with E conv n parent_style parent inline_container href target
            title c = some (c2, inline_container) := by
        intro conv
        rw [key conv, box_construct_element_special_input hbs conv
          (convert_children E n.children), hs]
        simp only [if_pos hd2]
      refine ⟨c2, key2 _, hB.2.1.trans hob, Or.inr ⟨x, hB.1.trans hbx, hxp, hxc⟩, key2⟩

theorem box_construct_element_display_none_witness :
    ∃ c' : content,
      box_construct_element example_env example_hidden 0 0 none none none none example_root
        = some (c', none) ∧
      c'.object = example_root.object ∧
      (c'.boxes = example_root.boxes ∨ ∃ x : box, c'.boxes = example_root.boxes ++ [x] ∧
        x.parent = none ∧ x.children = []) ∧
      ∀ conv : children_conversion,
        box_construct_element_with example_env conv example_hidden 0 0 none none none none
          example_root = some (c', none) :=
  box_construct_element_display_none example_env example_hidden 0 0 none none none none
    example_root _ rfl (Or.inr ⟨_, _, rfl, rfl⟩)

/-! ### Reading the arena after an assignment -/

theorem box_at_modify_box_self (st : content) {j : Nat} (f : box → box)
    (h : j < st.boxes.length) : (st.modify_box j f).box_at j = f (st.box_at j) := by
  simp [content.box_at, content.modify_box, getElem?_list_modify, List.getElem?_eq_getElem h]

theorem box_at_modify_box_of_ne (st : content) {i j : Nat} (f : box → box)
    (h : i ≠ j) : (st.modify_box j f).box_at i = st.box_at i := by
  simp [content.box_at, content.modify_box, getElem?_list_modify, h]

theorem length_boxes_modify_box (st : content) (j : Nat) (f : box → box) :
    (st.modify_box j f).boxes.length = st.boxes.length := by
  simp [content.modify_box, length_list_modify]

/-! ### Option selectors -/

theorem box_select_options_inner_none : ∀ (c : xmlNode) (g : form_control),
    has_option c = false → box_select_options true c g = g
  | .null, _, _ => rfl
  | .node t name hp ps tx children next, g, h => by
    simp only [has_option, Bool.or_eq_false_iff, decide_eq_false_iff_not] at h
    simp only [box_select_options, if_neg h.1, Bool.not_true, Bool.false_and,
      Bool.false_eq_true, if_false]
    exact box_select_options_inner_none next g h.2

theorem box_select_options_none : ∀ (c : xmlNode) (g : form_control),
    select_has_option c = false → box_select_options false c g = g
  | .null, _, _ => rfl
  | .node t name hp ps tx children next, g, h => by
    simp only [select_has_option, Bool.or_eq_false_iff, decide_eq_false_iff_not,
      Bool.and_eq_false_imp, decide_eq_true_eq] at h
    obtain ⟨⟨h1, h2⟩, h3⟩ := h
    simp only [box_select_options, if_neg h1, Bool.not_false, Bool.true_and, decide_eq_true_eq]
    by_cases hg : name = "optgroup".toList
    · rw [if_pos hg, box_select_options_inner_none children g (h2 hg)]
      exact box_select_options_none next g h3
    · rw [if_neg hg]
      exact box_select_options_none next g h3

/-- C13: for a `select` element with no option children (neither direct nor
inside an `optgroup`), `box_select` returns success, attaches no gadget to the
box, leaves the box kind and the box's children unchanged (no box changes),
and registers no control with any form (no form changes); the children are
still to be converted by the driver. -/
theorem box_select_no_options (E : Env) (n : xmlNode) (box : Nat) (st : content)
    (h : select_has_option n.children = false) :
    ∃ st', box_select E n box st = some (st', true) ∧ st'.boxes = st.boxes ∧
      (st'.box_at box).gadget = (st.box_at box).gadget ∧
      (st'.box_at box).type = (st.box_at box).type ∧
      (st'.box_at box).children = (st.box_at box).children ∧
      st'.forms = st.forms := by
  have hg : ((form_new_control GADGET_SELECT st).1.modify_control
      (form_new_control GADGET_SELECT st).2 (fun g =>
        box_select_options false n.children
          { g with multiple := (xmlGetProp n "multiple".toList).isSome })).controls[
        (form_new_control GADGET_SELECT st).2]?.all (·.num_items == 0) = true := by
    simp only [form_new_control, content.modify_control, getElem?_list_modify, if_true]
    rw [List.getElem?_append_right (le_refl _)]
    simp only [Nat.sub_self, List.getElem?_cons_zero, Option.map_some', Option.all_some,
      box_select_options_none _ _ h]
    rfl
  refine ⟨(form_new_control GADGET_SELECT st).1.modify_control
    (form_new_control GADGET_SELECT st).2 (fun g =>
      box_select_options false n.children
        { g with multiple := (xmlGetProp n "multiple".toList).isSome }),
    ?_, rfl, rfl, rfl, rfl, rfl⟩
  unfold box_select
  simp only []
  rw [if_pos hg]

theorem box_select_no_options_witness :
    ∃ st', box_select example_env example_select 0
        (box_create none none none none none (content_start "http://site/".toList 800)).1 =
          some (st', true) ∧
      st'.boxes = (box_create none none none none none
        (content_start "http://site/".toList 800)).1.boxes ∧
      (st'.box_at 0).gadget = ((box_create none none none none none
        (content_start "http://site/".toList 800)).1.box_at 0).gadget ∧
      (st'.box_at 0).type = ((box_create none none none none none
        (content_start "http://site/".toList 800)).1.box_at 0).type ∧
      (st'.box_at 0).children = ((box_create none none none none none
        (content_start "http://site/".toList 800)).1.box_at 0).children ∧
      st'.forms = (box_create none none none none none
        (content_start "http://site/".toList 800)).1.forms :=
  box_select_no_options example_env example_select 0 _ (by decide)

/-! ### Hidden form controls -/

theorem box_form_add_control_cons {g : Nat} {st : content} {f : form} {fs : List form}
    (hf : st.forms = f :: fs) :
    box_form_add_control g st =
      { st with forms := { f with controls := f.controls ++ [g] } :: fs,
                controls := list_modify st.controls g (fun x => { x with form := some fs.length }) } := by
  unfold box_form_add_control
  rw [hf]
  simp only [List.isEmpty_cons, Bool.false_eq_true, if_false, form_add_control, hf,
    content.modify_control]

theorem strcasecmp_eq_hidden {ty : cstr} (h : strcasecmp_eq ty "hidden".toList = true) :
    strcasecmp_eq ty "password".toList = false ∧ strcasecmp_eq ty "file".toList = false := by
  simp only [strcasecmp_eq, beq_iff_eq] at h
  simp only [strcasecmp_eq, h]
  decide

theorem box_input_hidden_form {E : Env} {n : xmlNode} {b : Nat} {st : content} {ty : cstr}
    {s : Nat} {f : form} {fs : List form}
    (hty : xmlGetProp n "type".toList = some ty)
    (hh : strcasecmp_eq ty "hidden".toList = true)
    (hs : (st.box_at b).style = some s) (hf : st.forms = f :: fs) :
    ∃ (st' : content) (g : form_control), box_input E n b st = some (st', false) ∧
      st'.boxes = st.boxes ∧
      st'.styles = list_modify st.styles s (fun x => { x with display := CSS_DISPLAY_NONE }) ∧
      st'.controls = st.controls ++ [g] ∧ g.type = GADGET_HIDDEN ∧
      g.value = xmlGetProp n "value".toList ∧ g.name = xmlGetProp n "name".toList ∧
      g.form = some fs.length ∧
      st'.forms = { f with controls := f.controls ++ [st.controls.length] } :: fs ∧
      st'.object = st.object := by
  obtain ⟨h1, h2⟩ := strcasecmp_eq_hidden hh
  have e1 : box_input_type E n b st = box_input_hidden n b st := by
    unfold box_input_type
    simp only [hty, Option.any_some, h1, h2, hh, Bool.false_eq_true, if_false, if_true]
  unfold box_input
  rw [e1]
  unfold box_input_hidden
  rw [hs]
  cases hv : xmlGetProp n "value".toList <;> cases hn : xmlGetProp n "name".toList <;>
    simp only [form_new_control, content.modify_control, content.modify_style,
      box_get_attribute, hn, box_form_add_control, form_add_control, hf, List.isEmpty_cons,
      Bool.false_eq_true, if_false, list_modify_append_length] <;>
    exact ⟨_, _, rfl, rfl, rfl, rfl, rfl, rfl, rfl, rfl, rfl, rfl⟩

theorem box_construct_element_box_eq (n : xmlNode) (sv : css_style) (href : Option cstr)
    (target : Option frame_target) (title : Option cstr) (st : content) :
    ∃ x : box, x.parent = none ∧ x.children = [] ∧ x.style = some st.styles.length ∧
      x.type = box_map sv.display ∧
      (box_construct_element_box n sv href target title st).1 =
        { st with styles := st.styles ++ [sv], boxes := st.boxes ++ [x] } ∧
      (box_construct_element_box n sv href target title st).2.box = st.boxes.length ∧
      (box_construct_element_box n sv href target title st).2.style = st.styles.length := by
  refine ⟨{ box_zero with
      type := box_map sv.display, style := some st.styles.length, href := href,
      target := target,
      title := match xmlGetProp n "title".toList with
        | some title0 => some (squash_whitespace title0)
        | none => title,
      id := box_get_attribute n "id".toList none, columns := 1, rows := 1 },
    rfl, rfl, rfl, rfl, ?_, rfl, rfl⟩
  unfold box_construct_element_box
  simp only [content.new_style, box_create, box_set_type, content.modify_box,
    list_modify_append_length]
  try rfl

/-- C14: for an `input` element whose type is `hidden` (compared
case-insensitively), with a current form present, `box_input` (called by
`box_construct_element` on the box it has just created, unless the style sheet
already gives display none) adds to that form's control list a hidden gadget
whose value is the literal `value` attribute and whose name is the `name`
attribute, forces the box's style to display none, and
`box_construct_element` then returns with that content without adding the box
to the tree: the box has no parent and no children, and no other box has
changed. -/
theorem box_input_hidden_registered (E : Env) (n : xmlNode) (parent_style parent : Nat)
    (inline_container : Option Nat) (href : Option cstr) (target : Option frame_target)
    (title : Option cstr) (c : content) (ty : cstr) (f : form) (fs : List form)
    (style : css_style)
    (hname : n.name = "input".toList)
    (hty : xmlGetProp n "type".toList = some ty)
    (hh : strcasecmp_eq ty "hidden".toList = true)
    (hf : c.forms = f :: fs)
    (hstyle : box_get_style E c.base_url (c.style_at parent_style) n = some style)
    (hd : style.display ≠ CSS_DISPLAY_NONE) :
    ∃ (c' : content) (g : form_control) (x : box),
      box_input E n (box_construct_element_box n style href target title c).2.box
        (box_construct_element_box n style href target title c).1 = some (c', false) ∧
      c'.forms = { f with controls := f.controls ++ [c.controls.length] } :: fs ∧
      c'.controls = c.controls ++ [g] ∧ g.type = GADGET_HIDDEN ∧
      g.value = xmlGetProp n "value".toList ∧ g.name = xmlGetProp n "name".toList ∧
      (c'.box_style c.boxes.length).display = CSS_DISPLAY_NONE ∧
      box_construct_element E n parent_style parent inline_container href target title c =
        some (c', inline_container) ∧
      c'.boxes = c.boxes ++ [x] ∧ x.parent = none ∧ x.children = [] := by
  obtain ⟨x, hxp, hxc, hxs, -, h1, hlb, hls⟩ :=
    box_construct_element_box_eq n style href target title c
  have hs1 : ((box_construct_element_box n style href target title c).1.box_at
      (box_construct_element_box n style href target title c).2.box).style =
      some c.styles.length := by
    rw [h1, hlb]
    simp [content.box_at, hxs]
  have hf1 : (box_construct_element_box n style href target title c).1.forms = f :: fs := by
    rw [h1]; exact hf
  obtain ⟨c', g, hin, hboxes, hstyles, hcontrols, hgt, hgv, hgn, -, hforms, -⟩ :=
    @box_input_hidden_form E n _ _ ty _ f fs hty hh hs1 hf1
  have hc1 : (box_construct_element_box n style href target title c).1.controls =
      c.controls := by rw [h1]
  have hb1 : (box_construct_element_box n style href target title c).1.boxes =
      c.boxes ++ [x] := by rw [h1]
  have hst1 : (box_construct_element_box n style href target title c).1.styles =
      c.styles ++ [style] := by rw [h1]
  rw [hc1] at hforms hcontrols
  rw [hb1] at hboxes
  rw [hst1, list_modify_append_length] at hstyles
  have hdisp : (c'.style_at c.styles.length).display = CSS_DISPLAY_NONE := by
    simp [content.style_at, hstyles]
  refine ⟨c', g, x, hin, hforms, hcontrols, hgt, hgv, hgn, ?_, ?_, hboxes, hxp, hxc⟩
  · simp only [content.box_style, content.box_at, hboxes, List.getElem?_concat_length,
      Option.getD_some, hxs]
    exact hdisp
  · have hbs : bsearch n.name element_table = some element_convert.box_input := by
      rw [hname]; decide
    unfold box_construct_element box_construct_element_with
    rw [hstyle]
    simp only [if_neg hd]
    unfold box_construct_element_special
    simp only [hbs, box_special, hin, hls, hdisp, if_true]

theorem box_input_hidden_registered_witness :
    ∃ (c' : content) (g : form_control) (x : box),
      box_input example_env example_hidden_input
        (box_construct_element_box example_hidden_input
          { example_env.css_base_style with
            display := CSS_DISPLAY_INLINE,
            font_size := cfloat.fin 100 10 } none none none example_form_root).2.box
        (box_construct_element_box example_hidden_input
          { example_env.css_base_style with
            display := CSS_DISPLAY_INLINE,
            font_size := cfloat.fin 100 10 } none none none example_form_root).1 =
          some (c', false) ∧
      c'.forms = [{ action := "a".toList, method := method_GET, accept_charsets := none,
                    document_charset := none,
                    controls := [] ++ [example_form_root.controls.length] }] ∧
      c'.controls = example_form_root.controls ++ [g] ∧ g.type = GADGET_HIDDEN ∧
      g.value = xmlGetProp example_hidden_input "value".toList ∧
      g.name = xmlGetProp example_hidden_input "name".toList ∧
      (c'.box_style example_form_root.boxes.length).display = CSS_DISPLAY_NONE ∧
      box_construct_element example_env example_hidden_input 0 0 none none none none
        example_form_root = some (c', none) ∧
      c'.boxes = example_form_root.boxes ++ [x] ∧ x.parent = none ∧ x.children = [] :=
  box_input_hidden_registered example_env example_hidden_input 0 0 none none none none
    example_form_root "hidden".toList _ [] _ (by decide) (by decide) (by decide) rfl
    (by decide) (by decide)

/-! ### Presentational attributes -/

theorem box_solve_display_background (style : css_style) (root : Bool) :
    (box_solve_display style root).background_image = style.background_image ∧
    (box_solve_display style root).background_color = style.background_color := by
  unfold box_solve_display
  repeat' (first | split | simp only [])
  all_goals first | exact ⟨rfl, rfl⟩ | exact ⟨trivial, trivial⟩

theorem box_get_style_background_guard {E : Env} {base_url : cstr} {n : xmlNode}
    {style s : css_style} (h : box_get_style_background E base_url n style = some s) :
    (style.background_image.type ≠ CSS_BACKGROUND_IMAGE_NONE →
      s.background_image = style.background_image) ∧
    s.background_color = style.background_color := by
  unfold box_get_style_background at h
  repeat' split at h
  all_goals first
    | exact Option.noConfusion h
    | (simp only [Option.some.injEq] at h; subst h; exact ⟨fun _ => rfl, rfl⟩)
    | (simp only [Option.some.injEq] at h; subst h
       exact ⟨fun hne => absurd (by assumption) hne, rfl⟩)

theorem box_get_style_bgcolor_guard (E : Env) (n : xmlNode) (style : css_style) :
    (box_get_style_bgcolor E n style).background_image = style.background_image ∧
    (style.background_color ≠ TRANSPARENT →
      (box_get_style_bgcolor E n style).background_color = style.background_color) := by
  unfold box_get_style_bgcolor
  repeat' split
  all_goals first
    | exact ⟨rfl, fun _ => rfl⟩
    | exact ⟨rfl, fun hne => absurd (by assumption) hne⟩

theorem box_get_style_color_background (E : Env) (n : xmlNode) (style : css_style) :
    (box_get_style_color E n style).background_image = style.background_image ∧
    (box_get_style_color E n style).background_color = style.background_color := by
  unfold box_get_style_color
  repeat' (first | split | simp only [])
  all_goals first | exact ⟨rfl, rfl⟩ | exact ⟨trivial, trivial⟩

theorem box_get_style_height_background (n : xmlNode) (style : css_style) :
    (box_get_style_height n style).background_image = style.background_image ∧
    (box_get_style_height n style).background_color = style.background_color := by
  unfold box_get_style_height
  repeat' (first | split | simp only [])
  all_goals first | exact ⟨rfl, rfl⟩ | exact ⟨trivial, trivial⟩

theorem box_get_style_size_background (n : xmlNode) (style : css_style) :
    (box_get_style_size n style).background_image = style.background_image ∧
    (box_get_style_size n style).background_color = style.background_color := by
  unfold box_get_style_size
  repeat' (first | split | simp only [])
  all_goals first | exact ⟨rfl, rfl⟩ | exact ⟨trivial, trivial⟩

theorem box_get_style_text_background (E : Env) (n : xmlNode) (style : css_style) :
    (box_get_style_text E n style).background_image = style.background_image ∧
    (box_get_style_text E n style).background_color = style.background_color := by
  unfold box_get_style_text
  repeat' (first | split | simp only [])
  all_goals first | exact ⟨rfl, rfl⟩ | exact ⟨trivial, trivial⟩

theorem box_get_style_width_background (n : xmlNode) (style : css_style) :
    (box_get_style_width n style).background_image = style.background_image ∧
    (box_get_style_width n style).background_color = style.background_color := by
  unfold box_get_style_width
  repeat' (first | split | simp only [])
  all_goals first | exact ⟨rfl, rfl⟩ | exact ⟨trivial, trivial⟩

theorem box_get_style_textarea_background (n : xmlNode) (style : css_style) :
    (box_get_style_textarea n style).background_image = style.background_image ∧
    (box_get_style_textarea n style).background_color = style.background_color := by
  unfold box_get_style_textarea
  repeat' (first | split | simp only [])
  all_goals first | exact ⟨rfl, rfl⟩ | exact ⟨trivial, trivial⟩

theorem box_get_style_cellspacing_background (n : xmlNode) (style : css_style) :
    (box_get_style_cellspacing n style).background_image = style.background_image ∧
    (box_get_style_cellspacing n style).background_color = style.background_color := by
  unfold box_get_style_cellspacing
  repeat' (first | split | simp only [])
  all_goals first | exact ⟨rfl, rfl⟩ | exact ⟨trivial, trivial⟩

theorem box_get_style_space_background (n : xmlNode) (style : css_style) :
    (box_get_style_space n style).background_image = style.background_image ∧
    (box_get_style_space n style).background_color = style.background_color := by
  unfold box_get_style_space
  repeat' (first | split | simp only [])
  all_goals first | exact ⟨rfl, rfl⟩ | exact ⟨trivial, trivial⟩

set_option maxRecDepth 4096 in
/-- C15, the claim fails: with a style sheet that sets each property
explicitly, `box_get_style` still overrides the colour by the `color`
attribute, the height by `height`, the width by `width` and by the `size` of an
`input`, the border spacing by `cellspacing`, the margins by `hspace` and
`vspace`, and the height and width of a `textarea` by `rows` and `cols`. -/
theorem box_get_style_overrides :
    ((example_styled_env.css_cascade css_style_zero
        (example_styled_env.css_get_style .null)).color = 0x112233 ∧
      (box_get_style example_styled_env [] css_style_zero
        (example_attributes "table" [("color", "#000000")])).map (fun r => r.color) =
          some 0) ∧
    ((example_styled_env.css_cascade css_style_zero
        (example_styled_env.css_get_style .null)).height =
          { height := CSS_HEIGHT_LENGTH, length := css_px (cfloat.ofInt 10) } ∧
      (box_get_style example_styled_env [] css_style_zero
        (example_attributes "table" [("height", "5")])).map (fun r => r.height) =
          some { height := CSS_HEIGHT_LENGTH, length := css_px (cfloat.ofInt 5) }) ∧
    ((example_styled_env.css_cascade css_style_zero
        (example_styled_env.css_get_style .null)).width.length = css_px (cfloat.ofInt 20) ∧
      (box_get_style example_styled_env [] css_style_zero
        (example_attributes "table" [("width", "7")])).map (fun r => r.width.length) =
          some (css_px (cfloat.ofInt 7)) ∧
      (box_get_style example_styled_env [] css_style_zero
        (example_attributes "input" [("size", "3")])).map (fun r => r.width.length) =
          some { value := cfloat.ofInt 3, unit := CSS_UNIT_EX }) ∧
    ((example_styled_env.css_cascade css_style_zero
        (example_styled_env.css_get_style .null)).border_spacing.horz =
          css_px (cfloat.ofInt 3) ∧
      (box_get_style example_styled_env [] css_style_zero
        (example_attributes "table" [("cellspacing", "1")])).map
          (fun r => r.border_spacing.horz) = some (css_px (cfloat.ofInt 1))) ∧
    ((example_styled_env.css_cascade css_style_zero
        (example_styled_env.css_get_style .null)).margin.left.length =
          css_px (cfloat.ofInt 4) ∧
      (box_get_style example_styled_env [] css_style_zero
        (example_attributes "img" [("hspace", "2"), ("vspace", "1")])).map
          (fun r => (r.margin.left.length, r.margin.top.length)) =
            some (css_px (cfloat.ofInt 2), css_px (cfloat.ofInt 1))) ∧
    (box_get_style example_styled_env [] css_style_zero
        (example_attributes "textarea" [("rows", "2"), ("cols", "9")])).map
          (fun r => (r.height.length, r.width.length)) =
            some ({ value := cfloat.ofInt 2, unit := CSS_UNIT_EM },
                  { value := cfloat.ofInt 9, unit := CSS_UNIT_EX }) := by
  decide

/-- C15, as amended: in `box_get_style` the `background` and `bgcolor`
coercions take effect only when the corresponding CSS property is still at its
default value after the cascade (`background-image: none`, a transparent
background colour): a background image or a background colour that the cascade
set explicitly is never overridden by the HTML attribute (and `box_get_style`
returns a style unless `url_join` runs out of memory). `s1` is the style
after the HTML attributes, over which the declarations of a `style` attribute
are then cascaded. -/
theorem box_get_style_guarded (E : Env) (base_url : cstr) (parent_style : css_style)
    (n : xmlNode) :
    ((∀ s, E.url_join s base_url ≠ URL_FUNC_NOMEM) →
      (box_get_style E base_url parent_style n).isSome) ∧
    ∀ r : css_style, box_get_style E base_url parent_style n = some r →
      (∃ s1 : css_style,
        r = box_solve_display (box_get_style_inline E n s1) (!n.has_parent) ∧
        ((E.css_cascade parent_style (E.css_get_style n)).background_image.type ≠
            CSS_BACKGROUND_IMAGE_NONE →
          s1.background_image =
            (E.css_cascade parent_style (E.css_get_style n)).background_image) ∧
        ((E.css_cascade parent_style (E.css_get_style n)).background_color ≠ TRANSPARENT →
          s1.background_color =
            (E.css_cascade parent_style (E.css_get_style n)).background_color)) ∧
      (xmlGetProp n "style".toList = none →
        ((E.css_cascade parent_style (E.css_get_style n)).background_image.type ≠
            CSS_BACKGROUND_IMAGE_NONE →
          r.background_image =
            (E.css_cascade parent_style (E.css_get_style n)).background_image) ∧
        ((E.css_cascade parent_style (E.css_get_style n)).background_color ≠ TRANSPARENT →
          r.background_color =
            (E.css_cascade parent_style (E.css_get_style n)).background_color)) := by
  constructor
  · intro hE
    unfold box_get_style
    simp only []
    have hbg : (box_get_style_background E base_url n
        (E.css_cascade parent_style (E.css_get_style n))).isSome := by
      unfold box_get_style_background
      repeat' split
      all_goals first
        | rfl
        | (rename_i hnm; exact absurd hnm (hE _))
    split
    · rename_i hn
      rw [hn] at hbg
      exact Bool.noConfusion hbg
    · rfl
  intro r h
  unfold box_get_style at h
  simp only [] at h
  split at h
  · exact Option.noConfusion h
  · rename_i sb hb
    simp only [Option.some.injEq] at h
    obtain ⟨hb1, hb2⟩ := box_get_style_background_guard hb
    obtain ⟨hc1, hc2⟩ := box_get_style_bgcolor_guard E n sb
    generalize box_get_style_bgcolor E n sb = s2 at h hc1 hc2
    obtain ⟨hd1, hd2⟩ := box_get_style_color_background E n s2
    generalize box_get_style_color E n s2 = s3 at h hd1 hd2
    obtain ⟨he1, he2⟩ := box_get_style_height_background n s3
    generalize box_get_style_height n s3 = s4 at h he1 he2
    obtain ⟨hf1, hf2⟩ := box_get_style_size_background n s4
    generalize box_get_style_size n s4 = s5 at h hf1 hf2
    obtain ⟨hg1, hg2⟩ := box_get_style_text_background E n s5
    generalize box_get_style_text E n s5 = s6 at h hg1 hg2
    obtain ⟨hh1, hh2⟩ := box_get_style_width_background n s6
    generalize box_get_style_width n s6 = s7 at h hh1 hh2
    obtain ⟨hi1, hi2⟩ := box_get_style_textarea_background n s7
    generalize box_get_style_textarea n s7 = s8 at h hi1 hi2
    obtain ⟨hj1, hj2⟩ := box_get_style_cellspacing_background n s8
    generalize box_get_style_cellspacing n s8 = s9 at h hj1 hj2
    obtain ⟨hk1, hk2⟩ := box_get_style_space_background n s9
    generalize box_get_style_space n s9 = s10 at h hk1 hk2
    have hi : (E.css_cascade parent_style (E.css_get_style n)).background_image.type ≠
          CSS_BACKGROUND_IMAGE_NONE →
        s10.background_image =
          (E.css_cascade parent_style (E.css_get_style n)).background_image := by
      intro hne
      rw [hk1, hj1, hi1, hh1, hg1, hf1, he1, hd1, hc1, hb1 hne]
    have hc : (E.css_cascade parent_style (E.css_get_style n)).background_color ≠
          TRANSPARENT →
        s10.background_color =
          (E.css_cascade parent_style (E.css_get_style n)).background_color := by
      intro hne
      rw [hk2, hj2, hi2, hh2, hg2, hf2, he2, hd2, hc2 (by rw [hb2]; exact hne), hb2]
    refine ⟨⟨s10, h.symm, hi, hc⟩, ?_⟩
    intro hs
    subst h
    obtain ⟨hl1, hl2⟩ := box_solve_display_background
      (box_get_style_inline E n s10) (!n.has_parent)
    have hin : box_get_style_inline E n s10 = s10 := by
      unfold box_get_style_inline
      rw [hs]
    rw [hl1, hl2, hin]
    exact ⟨hi, hc⟩

theorem box_get_style_guarded_witness :
    box_get_style example_styled_env [] css_style_zero example_body =
      some { example_styled_env.css_get_style .null with display := CSS_DISPLAY_BLOCK } ∧
    (∃ s1 : css_style,
      { example_styled_env.css_get_style .null with display := CSS_DISPLAY_BLOCK } =
        box_solve_display (box_get_style_inline example_styled_env example_body s1)
          (!example_body.has_parent) ∧
      ((example_styled_env.css_cascade css_style_zero
          (example_styled_env.css_get_style example_body)).background_image.type ≠
          CSS_BACKGROUND_IMAGE_NONE →
        s1.background_image =
          (example_styled_env.css_cascade css_style_zero
            (example_styled_env.css_get_style example_body)).background_image) ∧
      ((example_styled_env.css_cascade css_style_zero
          (example_styled_env.css_get_style example_body)).background_color ≠ TRANSPARENT →
        s1.background_color =
          (example_styled_env.css_cascade css_style_zero
            (example_styled_env.css_get_style example_body)).background_color)) ∧
    (xmlGetProp example_body "style".toList = none →
      ((example_styled_env.css_cascade css_style_zero
          (example_styled_env.css_get_style example_body)).background_image.type ≠
          CSS_BACKGROUND_IMAGE_NONE →
        ({ example_styled_env.css_get_style .null with
            display := CSS_DISPLAY_BLOCK } : css_style).background_image =
          (example_styled_env.css_cascade css_style_zero
            (example_styled_env.css_get_style example_body)).background_image) ∧
      ((example_styled_env.css_cascade css_style_zero
          (example_styled_env.css_get_style example_body)).background_color ≠ TRANSPARENT →
        ({ example_styled_env.css_get_style .null with
            display := CSS_DISPLAY_BLOCK } : css_style).background_color =
          (example_styled_env.css_cascade css_style_zero
            (example_styled_env.css_get_style example_body)).background_color)) :=
  ⟨by decide,
    (box_get_style_guarded example_styled_env [] css_style_zero example_body).2 _ (by decide)⟩

/-- For C15: on `<body background="x.png" bgcolor="#000000">` under a style
sheet that sets a background image and colour, `box_get_style` returns a style
with the image and the colour of the style sheet. -/
theorem box_get_style_guarded_example :
    (box_get_style example_styled_env [] css_style_zero example_body).map
        (fun r => (r.background_image, r.background_color)) =
      some ({ type := CSS_BACKGROUND_IMAGE_URI, uri := some "bg.png".toList }, 0x00ff00) := by
  decide

/-! ### Anchors -/

/-- C16: for an anchor with a `target` attribute `t`, `box_a` (which returns a
result unless the link of `href` cannot be extracted) sets the box's target to
the top sentinel when `t` is exactly `_blank` or `_top`, to the parent sentinel
when `t` is `_parent`, to the self sentinel when `t` is `_self`, to a copy of
`t` when `t` begins with an ASCII letter, and otherwise leaves the box's target
as it was before the handler ran. -/
theorem box_a_target (E : Env) (n : xmlNode) (box : Nat) (st : content) (t : cstr)
    (hbox : box < st.boxes.length) (ht : xmlGetProp n "target".toList = some t) :
    (xmlGetProp n "href".toList = none → (box_a E n box st).isSome) ∧
    ∀ st' cc, box_a E n box st = some (st', cc) →
      (t = "_blank".toList ∨ t = "_top".toList → (st'.box_at box).target = some TARGET_TOP) ∧
      (t = "_parent".toList → (st'.box_at box).target = some TARGET_PARENT) ∧
      (t = "_self".toList → (st'.box_at box).target = some TARGET_SELF) ∧
      (∀ c r, t = c :: r → ('a' ≤ c ∧ c ≤ 'z') ∨ ('A' ≤ c ∧ c ≤ 'Z') →
        (st'.box_at box).target = some (named t)) ∧
      (t ≠ "_blank".toList → t ≠ "_top".toList → t ≠ "_parent".toList → t ≠ "_self".toList →
        (∀ c r, t = c :: r → ¬ (('a' ≤ c ∧ c ≤ 'z') ∨ ('A' ≤ c ∧ c ≤ 'Z'))) →
        (st'.box_at box).target = (st.box_at box).target) := by
  have key : ∀ s0 : content, s0.boxes.length = st.boxes.length →
      (s0.box_at box).target = (st.box_at box).target →
      ∀ st' cc, some ((match xmlGetProp n "target".toList with
        | some s =>
          if s = "_blank".toList ∨ s = "_top".toList then
            (s0.modify_box box (fun b => { b with id := box_get_attribute n "name".toList b.id })).modify_box box (fun b => { b with target := some TARGET_TOP })
          else if s = "_parent".toList then
            (s0.modify_box box (fun b => { b with id := box_get_attribute n "name".toList b.id })).modify_box box (fun b => { b with target := some TARGET_PARENT })
          else if s = "_self".toList then
            (s0.modify_box box (fun b => { b with id := box_get_attribute n "name".toList b.id })).modify_box box (fun b => { b with target := some TARGET_SELF })
          else if s.head?.any isalpha then
            (s0.modify_box box (fun b => { b with id := box_get_attribute n "name".toList b.id })).modify_box box (fun b => { b with target := some (named s) })
          else (s0.modify_box box (fun b => { b with id := box_get_attribute n "name".toList b.id }))
        | none => (s0.modify_box box (fun b => { b with id := box_get_attribute n "name".toList b.id }))), true) = some (st', cc) →
      (t = "_blank".toList ∨ t = "_top".toList → (st'.box_at box).target = some TARGET_TOP) ∧
      (t = "_parent".toList → (st'.box_at box).target = some TARGET_PARENT) ∧
      (t = "_self".toList → (st'.box_at box).target = some TARGET_SELF) ∧
      (∀ c r, t = c :: r → ('a' ≤ c ∧ c ≤ 'z') ∨ ('A' ≤ c ∧ c ≤ 'Z') →
        (st'.box_at box).target = some (named t)) ∧
      (t ≠ "_blank".toList → t ≠ "_top".toList → t ≠ "_parent".toList → t ≠ "_self".toList →
        (∀ c r, t = c :: r → ¬ (('a' ≤ c ∧ c ≤ 'z') ∨ ('A' ≤ c ∧ c ≤ 'Z'))) →
        (st'.box_at box).target = (st.box_at box).target) := by
    intro s0 hlen htar st' cc h
    have hb0 : box < s0.boxes.length := by omega
    have hb1 : box < (s0.modify_box box
        (fun b => { b with id := box_get_attribute n "name".toList b.id })).boxes.length := by
      rw [length_boxes_modify_box]; exact hb0
    rw [ht] at h
    simp only [Option.some.injEq, Prod.mk.injEq] at h
    obtain ⟨h, -⟩ := h
    subst h
    have hletter : ∀ c r, t = c :: r →
        (t.head?.any isalpha = true ↔ (('a' ≤ c ∧ c ≤ 'z') ∨ ('A' ≤ c ∧ c ≤ 'Z'))) := by
      intro c r hc
      subst hc
      simp only [List.head?_cons, Option.any_some, isalpha, Bool.or_eq_true, Bool.and_eq_true,
        decide_eq_true_eq, Char.le_def, Char.toNat]
      rfl
    refine ⟨?_, ?_, ?_, ?_, ?_⟩
    · intro h1
      rw [if_pos h1, box_at_modify_box_self _ _ hb1]
    · intro h1
      subst h1
      rw [if_neg (by decide), if_pos rfl, box_at_modify_box_self _ _ hb1]
    · intro h1
      subst h1
      rw [if_neg (by decide), if_neg (by decide), if_pos rfl, box_at_modify_box_self _ _ hb1]
    · intro c r hc hl
      have h1 : ¬ (t = "_blank".toList ∨ t = "_top".toList) := by
        subst hc
        intro h
        rcases h with h | h <;>
        · simp only [String.toList, List.cons.injEq] at h
          obtain ⟨h, -⟩ := h
          subst h
          revert hl
          decide
      have h2 : ¬ t = "_parent".toList := by
        subst hc
        intro h
        simp only [String.toList, List.cons.injEq] at h
        obtain ⟨h, -⟩ := h
        subst h
        revert hl
        decide
      have h3 : ¬ t = "_self".toList := by
        subst hc
        intro h
        simp only [String.toList, List.cons.injEq] at h
        obtain ⟨h, -⟩ := h
        subst h
        revert hl
        decide
      rw [if_neg h1, if_neg h2, if_neg h3, if_pos ((hletter c r hc).mpr hl),
        box_at_modify_box_self _ _ hb1]
    · intro h1 h2 h3 h4 h5
      have h6 : ¬ (t.head?.any isalpha = true) := by
        cases t with
        | nil => simp
        | cons c r => exact fun h => h5 c r rfl ((hletter c r rfl).mp h)
      rw [if_neg (by tauto), if_neg h3, if_neg h4, if_neg h6, box_at_modify_box_self _ _ hb0]
      exact htar
  constructor
  · intro hh
    unfold box_a
    rw [hh]
    rfl
  · intro st' cc h
    unfold box_a at h
    cases hh : xmlGetProp n "href".toList with
    | none =>
      rw [hh] at h
      exact key st rfl rfl st' cc h
    | some s =>
      rw [hh] at h
      simp only at h
      split at h
      · simp at h
      · rename_i s1 heq
        split at heq
        · simp at heq
        · simp only [Option.some.injEq] at heq
          subst heq
          refine key _ (length_boxes_modify_box _ _ _) ?_ st' cc h
          rw [box_at_modify_box_self _ _ hbox]
        · simp only [Option.some.injEq] at heq
          subst heq
          exact key st rfl rfl st' cc h

theorem box_a_target_witness :
    ∃ (st' : content) (cc : Bool),
      box_a example_env example_anchor 0
        (box_create none none none none none (content_start "http://site/".toList 800)).1 =
          some (st', cc) ∧
      (st'.box_at 0).target = some TARGET_TOP :=
  ⟨_, _, rfl,
    ((box_a_target example_env example_anchor 0
      (box_create none none none none none (content_start "http://site/".toList 800)).1
      "_blank".toList (by decide) (by decide)).2 _ _ rfl).1 (Or.inl rfl)⟩

/-! ### The table of special elements -/

theorem strcmp_eq_zero : ∀ (a b : cstr), strcmp a b = 0 → a = b
  | [], [], _ => rfl
  | [], _ :: _, h => by simp [strcmp] at h
  | _ :: _, [], h => by simp [strcmp] at h
  | a :: as, b :: bs, h => by
    simp only [strcmp] at h
    split at h
    · simp at h
    · split at h
      · simp at h
      · have hab : a = b := by
          apply Char.ext
          apply UInt32.ext
          show a.toNat = b.toNat
          omega
        rw [hab, strcmp_eq_zero as bs h]

theorem bsearch_loop_sound {α : Type} (key : cstr) (table : List (cstr × α)) :
    ∀ (fuel l u : Nat) (v : α), bsearch_loop key table fuel l u = some v →
      (key, v) ∈ table
  | 0, _, _, _, h => by simp [bsearch_loop] at h
  | fuel + 1, l, u, v, h => by
    simp only [bsearch_loop] at h
    split at h
    · split at h
      · simp at h
      · rename_i name w hidx
        try simp only at h
        split at h
        · exact bsearch_loop_sound key table fuel _ _ v h
        · split at h
          · exact bsearch_loop_sound key table fuel _ _ v h
          · have h0 : strcmp key name = 0 := by omega
            have hk := strcmp_eq_zero key name h0
            simp only [Option.some.injEq] at h
            subst h
            subst hk
            exact List.getElem?_mem hidx
    · simp at h

/-- C17: `element_table` is strictly ascending under `strcmp`, so the binary
search of `box_construct_element` finds a handler for a tag name if and only if
the name is exactly one of a, body, br, button, embed, form, frameset, iframe,
img, input, object, select, textarea, and the handler found is the one listed
for that name. -/
theorem bsearch_element_table (key : cstr) :
    List.Pairwise (fun a b => strcmp a.1 b.1 < 0) element_table ∧
    ((bsearch key element_table).isSome ↔
      key ∈ ["a", "body", "br", "button", "embed", "form", "frameset", "iframe", "img",
             "input", "object", "select", "textarea"].map String.toList) ∧
    ∀ convert, bsearch key element_table = some convert ↔ (key, convert) ∈ element_table := by
  have h3 : ∀ convert, bsearch key element_table = some convert ↔
      (key, convert) ∈ element_table := by
    intro convert
    constructor
    · exact bsearch_loop_sound key element_table _ _ _ convert
    · intro h
      simp only [element_table, List.mem_cons, Prod.mk.injEq, List.mem_singleton] at h
      rcases h with h | h | h | h | h | h | h | h | h | h | h | h | h | h
      all_goals first
        | (obtain ⟨h1, h2⟩ := h; subst h1; subst h2; decide)
        | simp at h
  refine ⟨by decide, ?_, h3⟩
  constructor
  · intro h
    obtain ⟨convert, hc⟩ := Option.isSome_iff_exists.mp h
    have hm := (h3 convert).mp hc
    have hk : key ∈ element_table.map Prod.fst := List.mem_map.mpr ⟨_, hm, rfl⟩
    exact hk
  · intro h
    have hk : key ∈ element_table.map Prod.fst := h
    obtain ⟨⟨k, convert⟩, hm, rfl⟩ := List.mem_map.mp hk
    exact Option.isSome_iff_exists.mpr ⟨convert, (h3 convert).mpr hm⟩

/-! ### Forms -/

/-- C19: `box_form` registers a form whose action is the `action` attribute,
or the empty string when the attribute is absent, and whose method is GET
unless the `method` attribute equals `post` (case-insensitively), in which case
it is URL-encoded POST, refined to multipart POST exactly when the `enctype`
attribute equals `multipart/form-data` (case-insensitively); the new form
becomes the head of the document's forms list, the former list following it. -/
theorem box_form_registers (n : xmlNode) (box : Nat) (st : content) :
    ∃ f : form, box_form n box st = some ({ st with forms := f :: st.forms }, true) ∧
      f.action = (xmlGetProp n "action".toList).getD [] ∧
      f.controls = [] ∧
      (f.method = method_GET ↔
        ¬ ∃ m, xmlGetProp n "method".toList = some m ∧ strcasecmp_eq m "post".toList = true) ∧
      (f.method = method_POST_MULTIPART ↔
        (∃ m, xmlGetProp n "method".toList = some m ∧ strcasecmp_eq m "post".toList = true) ∧
        ∃ e, xmlGetProp n "enctype".toList = some e ∧
          strcasecmp_eq e "multipart/form-data".toList = true) ∧
      (f.method = method_POST_URLENC ↔
        (∃ m, xmlGetProp n "method".toList = some m ∧ strcasecmp_eq m "post".toList = true) ∧
        ¬ ∃ e, xmlGetProp n "enctype".toList = some e ∧
          strcasecmp_eq e "multipart/form-data".toList = true) := by
  refine ⟨_, rfl, ?_, rfl, ?_⟩
  · cases xmlGetProp n "action".toList <;> rfl
  · generalize "post".toList = P
    generalize "multipart/form-data".toList = M
    generalize xmlGetProp n "method".toList = pm
    generalize xmlGetProp n "enctype".toList = pe
    cases pm with
    | none => simp
    | some m =>
      by_cases hp : strcasecmp_eq m P = true
      · cases pe with
        | none => simp [hp]
        | some e =>
          by_cases hq : strcasecmp_eq e M = true
          · simp [hp, hq]
          · simp [hp, hq]
      · simp [hp]

/-! ### Objects -/

theorem box_get_attribute_none (c : xmlNode) (attr : cstr) :
    box_get_attribute c attr none = xmlGetProp c attr := by
  unfold box_get_attribute
  cases xmlGetProp c attr <;> rfl

theorem box_object_params_eq : ∀ (c : xmlNode) (params : List object_param),
    box_object_params c params =
      ((leading_param_children c).map object_param_of).reverse ++ params
  | .null, params => by simp [box_object_params, leading_param_children]
  | .node t name hp ps tx children next, params => by
    unfold box_object_params leading_param_children
    by_cases ht : t ≠ XML_ELEMENT_NODE
    · rw [if_pos ht, if_pos ht]
      exact box_object_params_eq next params
    · rw [if_neg ht, if_neg ht]
      by_cases hn : name = "param".toList
      · rw [if_neg (not_not.mpr hn), if_pos hn]
        simp only []
        rw [box_object_params_eq next]
        simp only [List.map_cons, List.reverse_cons, List.append_assoc, List.singleton_append]
        congr 2
        simp only [object_param_of, box_get_attribute_none]
        congr 1
        generalize xmlGetProp _ "valuetype".toList = v
        cases v <;> rfl
      · rw [if_pos hn, if_neg hn]
        rfl

/-- C20, the claim fails: in
`<object data="http://other/o"><param name="a"><p>x</p><param name="b"></object>`
the object has two `param` element children, yet the parameter list of the
object's box (box 1) holds the first one only. -/
theorem box_object_late_param :
    (param_children example_object_params.children).map object_param_of =
      [{ name := some "a".toList, value := none, type := none,
         valuetype := some "data".toList },
       { name := some "b".toList, value := none, type := none,
         valuetype := some "data".toList }] ∧
    (xml_to_box example_env example_object_params (content_start "http://site/".toList 800)).map
        (fun r => (r.1.box_at 1).object_params.map (fun p => p.params)) =
      some (some [{ name := some "a".toList, value := none, type := none,
                    valuetype := some "data".toList }]) := by
  decide

/-! ### Multi-line text fields -/

theorem box_textarea_lines_spec : ∀ (k : Nat) (s acc : cstr), s.length ≤ k →
    (∀ c ∈ acc, c.toNat ≠ 13 ∧ c.toNat ≠ 10) →
    (box_textarea_lines s acc).length = line_breaks s + 1 ∧
    ∀ l ∈ box_textarea_lines s acc, ∀ c ∈ l, c.toNat ≠ 13 ∧ c.toNat ≠ 10
  | _, [], acc, _, hacc => by
    simp only [box_textarea_lines, line_breaks, List.length_singleton, List.mem_singleton]
    refine ⟨trivial, ?_⟩
    intro l hl c hc
    subst hl
    exact hacc c (List.mem_reverse.mp hc)
  | _, [c], acc, _, hacc => by
    simp only [box_textarea_lines, line_breaks, Bool.or_eq_true, beq_iff_eq]
    by_cases h : c.toNat = 13 ∨ c.toNat = 10
    · rw [if_pos h, if_pos h]
      refine ⟨rfl, ?_⟩
      intro l hl x hx
      simp only [List.mem_cons, List.mem_singleton, List.not_mem_nil, or_false] at hl
      rcases hl with hl | hl
      · subst hl
        exact hacc x (List.mem_reverse.mp hx)
      · subst hl
        exact absurd hx (List.not_mem_nil _)
    · rw [if_neg h, if_neg h]
      refine ⟨rfl, ?_⟩
      intro l hl x hx
      simp only [List.mem_singleton] at hl
      subst hl
      rcases List.mem_cons.mp (List.mem_reverse.mp hx) with hx | hx
      · subst hx
        exact ⟨fun h1 => h (Or.inl h1), fun h1 => h (Or.inr h1)⟩
      · exact hacc x hx
  | 0, c :: d :: r, _, hk, _ => by simp at hk
  | k + 1, c :: d :: r, acc, hk, hacc => by
    have hk1 : (d :: r).length ≤ k := by simp only [List.length_cons] at hk ⊢; omega
    have hk2 : r.length ≤ k := by simp only [List.length_cons] at hk; omega
    have hnil : ∀ c ∈ ([] : cstr), c.toNat ≠ 13 ∧ c.toNat ≠ 10 :=
      fun c hc => absurd hc (List.not_mem_nil _)
    simp only [box_textarea_lines, line_breaks, Bool.or_eq_true, Bool.and_eq_true, beq_iff_eq]
    by_cases h1 : c.toNat = 13 ∧ d.toNat = 10
    · rw [if_pos h1, if_pos h1]
      obtain ⟨ih1, ih2⟩ := box_textarea_lines_spec k r [] hk2 hnil
      refine ⟨by rw [List.length_cons, ih1], ?_⟩
      intro l hl x hx
      rcases List.mem_cons.mp hl with hl | hl
      · subst hl
        exact hacc x (List.mem_reverse.mp hx)
      · exact ih2 l hl x hx
    · rw [if_neg h1, if_neg h1]
      by_cases h2 : c.toNat = 13 ∨ c.toNat = 10
      · rw [if_pos h2, if_pos h2]
        obtain ⟨ih1, ih2⟩ := box_textarea_lines_spec k (d :: r) [] hk1 hnil
        refine ⟨by rw [List.length_cons, ih1], ?_⟩
        intro l hl x hx
        rcases List.mem_cons.mp hl with hl | hl
        · subst hl
          exact hacc x (List.mem_reverse.mp hx)
        · exact ih2 l hl x hx
      · rw [if_neg h2, if_neg h2]
        refine box_textarea_lines_spec k (d :: r) (c :: acc) hk1 ?_
        intro x hx
        rcases List.mem_cons.mp hx with hx | hx
        · subst hx
          exact ⟨fun h3 => h2 (Or.inl h3), fun h3 => h2 (Or.inr h3)⟩
        · exact hacc x hx

theorem list_modify_append_self {α : Type} (l : List α) (a : α) (f g : α → α) {i : Nat}
    (h : i < l.length) :
    list_modify (list_modify (l ++ [a]) i f) l.length g = list_modify l i f ++ [g a] := by
  rw [list_modify_append_of_lt l a f h]
  have h2 := list_modify_append_length (list_modify l i f) a g
  rw [length_list_modify] at h2
  exact h2

/-- The arena after a box has been created, set up by `g` and added to the
children of `ic`. -/
theorem boxes_box_textarea_text (b ic : Nat) (line : cstr) (st : content)
    (hic : ic < st.boxes.length) :
    ∃ nb : box, nb.type = BOX_TEXT ∧ nb.text = some line ∧ nb.length = line.length ∧
      (box_textarea_text b ic line st).boxes =
        list_modify st.boxes ic (fun x => { x with children := x.children ++ [st.boxes.length] })
          ++ [nb] := by
  unfold box_textarea_text
  simp only [box_create, box_set_type, content.modify_box, box_add_child,
    list_modify_append_length, list_modify_append_self _ _ _ _ hic]
  exact ⟨_, rfl, rfl, rfl, rfl⟩

theorem boxes_box_textarea_br (b ic : Nat) (st : content) (hic : ic < st.boxes.length) :
    ∃ nb : box, nb.type = BOX_BR ∧
      (box_add_child ic st.boxes.length
        (box_set_type st.boxes.length BOX_BR
          (box_create (st.box_at b).style none none (st.box_at b).title none st).1)).boxes =
        list_modify st.boxes ic (fun x => { x with children := x.children ++ [st.boxes.length] })
          ++ [nb] := by
  simp only [box_create, box_set_type, content.modify_box, box_add_child,
    list_modify_append_length, list_modify_append_self _ _ _ _ hic]
  exact ⟨_, rfl, rfl⟩

/-- What adding a new last child `nb` to the box `ic` leaves in the arena. -/
theorem boxes_push_child {bs bs' : List box} {ic : Nat} {nb : box} (hic : ic < bs.length)
    (h : bs' = list_modify bs ic (fun x => { x with children := x.children ++ [bs.length] })
      ++ [nb]) :
    bs'.length = bs.length + 1 ∧
    (∀ i, i < bs.length → i ≠ ic → bs'[i]? = bs[i]?) ∧
    bs'[ic]? = (bs[ic]?).map (fun x => { x with children := x.children ++ [bs.length] }) ∧
    bs'[bs.length]? = some nb := by
  subst h
  refine ⟨by simp [length_list_modify], ?_, ?_, ?_⟩
  · intro i hi hne
    rw [List.getElem?_append_left (by rw [length_list_modify]; exact hi),
      getElem?_list_modify, if_neg hne]
  · rw [List.getElem?_append_left (by rw [length_list_modify]; exact hic),
      getElem?_list_modify, if_pos rfl]
  · have h2 := @List.getElem?_concat_length _
      (list_modify bs ic (fun x => { x with children := x.children ++ [bs.length] })) nb
    rw [length_list_modify] at h2
    exact h2

theorem box_textarea_rest_spec (b ic : Nat) : ∀ (lines : List cstr) (st : content),
    ic < st.boxes.length →
    (box_textarea_rest b ic lines st).boxes.length = st.boxes.length + 2 * lines.length ∧
    (∀ i, i < st.boxes.length → i ≠ ic →
      (box_textarea_rest b ic lines st).boxes[i]? = st.boxes[i]?) ∧
    (box_textarea_rest b ic lines st).boxes[ic]? =
      (st.boxes[ic]?).map (fun x =>
        { x with children := x.children ++ List.range' st.boxes.length (2 * lines.length) }) ∧
    ∀ (j : Nat) (l : cstr), lines[j]? = some l →
      ∃ xb xt : box,
        (box_textarea_rest b ic lines st).boxes[st.boxes.length + 2 * j]? = some xb ∧
        xb.type = BOX_BR ∧
        (box_textarea_rest b ic lines st).boxes[st.boxes.length + 2 * j + 1]? = some xt ∧
        xt.type = BOX_TEXT ∧ xt.text = some l ∧ xt.length = l.length := by
  intro lines
  induction lines with
  | nil =>
    intro st hic
    refine ⟨rfl, fun _ _ _ => rfl, ?_, ?_⟩
    · simp only [box_textarea_rest, List.length_nil, Nat.mul_zero, List.range'_zero,
        List.append_nil]
      cases st.boxes[ic]? <;> rfl
    · intro j l hl
      simp at hl
  | cons line rest ih =>
    intro st hic
    unfold box_textarea_rest
    simp only [snd_box_create]
    obtain ⟨nb1, hnb1, e1⟩ := boxes_box_textarea_br b ic st hic
    generalize box_add_child ic st.boxes.length
        (box_set_type st.boxes.length BOX_BR
          (box_create (st.box_at b).style none none (st.box_at b).title none st).1) = s1
      at e1 ⊢
    obtain ⟨hl1, hf1, hc1, hn1⟩ := boxes_push_child hic e1
    have hic1 : ic < s1.boxes.length := by omega
    obtain ⟨nb2, hnb2, htx2, hln2, e2⟩ := boxes_box_textarea_text b ic line s1 hic1
    generalize box_textarea_text b ic line s1 = s2 at e2 ⊢
    obtain ⟨hl2, hf2, hc2, hn2⟩ := boxes_push_child hic1 e2
    have hic2 : ic < s2.boxes.length := by omega
    obtain ⟨il, ifr, ic3, inew⟩ := ih s2 hic2
    refine ⟨?_, ?_, ?_, ?_⟩
    · rw [il, hl2, hl1, List.length_cons]
      omega
    · intro i hi hne
      rw [ifr i (by omega) hne, hf2 i (by omega) hne, hf1 i hi hne]
    · rw [ic3, hc2, hc1]
      cases st.boxes[ic]? with
      | none => rfl
      | some x =>
        simp only [Option.map_some', Option.some.injEq, List.length_cons, List.append_assoc]
        rw [hl2, hl1]
        have : 2 * (rest.length + 1) = (2 * rest.length + 1) + 1 := by omega
        rw [this, List.range'_succ, List.range'_succ]
        simp
    · intro j l hl
      cases j with
      | zero =>
        simp only [List.getElem?_cons_zero, Option.some.injEq] at hl
        subst hl
        refine ⟨nb1, nb2, ?_, hnb1, ?_, hnb2, htx2, hln2⟩
        · rw [Nat.mul_zero, Nat.add_zero, ifr _ (by omega) (by omega),
            hf2 _ (by omega) (by omega), hn1]
        · rw [Nat.mul_zero, Nat.add_zero, ifr _ (by omega) (by omega), ← hl1, hn2]
      | succ j =>
        simp only [List.getElem?_cons_succ] at hl
        obtain ⟨xb, xt, h1, h2, h3, h4⟩ := inew j l hl
        refine ⟨xb, xt, ?_, h2, ?_, h4⟩
        · have : st.boxes.length + 2 * (j + 1) = s2.boxes.length + 2 * j := by omega
          rw [this]; exact h1
        · have : st.boxes.length + 2 * (j + 1) + 1 = s2.boxes.length + 2 * j + 1 := by omega
          rw [this]; exact h3

theorem boxes_box_add_child_new (p : Nat) (style : Option Nat) (title : Option cstr)
    (t : box_type) (st : content) (hp : p < st.boxes.length) :
    ∃ nb : box, nb.type = t ∧ nb.children = [] ∧
      (box_add_child p st.boxes.length
        (box_set_type st.boxes.length t
          (box_create style none none title none st).1)).boxes =
        list_modify st.boxes p (fun x => { x with children := x.children ++ [st.boxes.length] })
          ++ [nb] := by
  simp only [box_create, box_set_type, content.modify_box, box_add_child,
    list_modify_append_length, list_modify_append_self _ _ _ _ hp]
  exact ⟨_, rfl, rfl, rfl⟩

/-- The boxes of a `textarea` once the inline container has been added to the
box `b` of `s3` and the loop has run over the lines `line :: rest`. -/
theorem box_textarea_loop_spec (b : Nat) (title : Option cstr) (line : cstr)
    (rest : List cstr) (s3 : content) (hb : b < s3.boxes.length) :
    ∃ s7 : content,
      s7 = box_textarea_rest b s3.boxes.length rest
        (box_textarea_text b s3.boxes.length line
          (box_add_child b s3.boxes.length
            (box_set_type s3.boxes.length BOX_INLINE_CONTAINER
              (box_create none none none title none s3).1))) ∧
      s7.boxes.length = s3.boxes.length + 2 * (rest.length + 1) ∧
      s7.boxes[b]? = (s3.boxes[b]?).map (fun x =>
        { x with children := x.children ++ [s3.boxes.length] }) ∧
      (∃ xic : box, s7.boxes[s3.boxes.length]? = some xic ∧
        xic.type = BOX_INLINE_CONTAINER ∧
        xic.children = List.range' (s3.boxes.length + 1) (2 * rest.length + 1)) ∧
      (∀ (j : Nat) (l : cstr), (line :: rest)[j]? = some l →
        ∃ xt : box, s7.boxes[s3.boxes.length + 1 + 2 * j]? = some xt ∧
          xt.type = BOX_TEXT ∧ xt.text = some l ∧ xt.length = l.length) ∧
      ∀ j : Nat, j < rest.length →
        ∃ xb : box, s7.boxes[s3.boxes.length + 2 + 2 * j]? = some xb ∧ xb.type = BOX_BR := by
  obtain ⟨nic, hnict, hnicc, e6⟩ :=
    boxes_box_add_child_new b none title BOX_INLINE_CONTAINER s3 hb
  generalize box_add_child b s3.boxes.length
      (box_set_type s3.boxes.length BOX_INLINE_CONTAINER
        (box_create none none none title none s3).1) = s6 at e6 ⊢
  obtain ⟨hl6, hf6, hc6, hn6⟩ := boxes_push_child hb e6
  have hic6 : s3.boxes.length < s6.boxes.length := by omega
  obtain ⟨nt, hntt, hnttx, hntl, e7⟩ :=
    boxes_box_textarea_text b s3.boxes.length line s6 hic6
  generalize box_textarea_text b s3.boxes.length line s6 = s7a at e7 ⊢
  obtain ⟨hl7, hf7, hc7, hn7⟩ := boxes_push_child hic6 e7
  have hic7 : s3.boxes.length < s7a.boxes.length := by omega
  obtain ⟨rl, rf, rc, rn⟩ := box_textarea_rest_spec b s3.boxes.length rest s7a hic7
  refine ⟨_, rfl, ?_, ?_, ?_, ?_, ?_⟩
  · rw [rl, hl7, hl6]; omega
  · rw [rf b (by omega) (by omega), hf7 b (by omega) (by omega), hc6]
  · rw [rc, hc7, hn6]
    refine ⟨_, rfl, hnict, ?_⟩
    simp only [hnicc, List.nil_append, hl7, hl6]
    rw [List.range'_succ]
    simp
  · intro j l hl
    cases j with
    | zero =>
      simp only [List.getElem?_cons_zero, Option.some.injEq] at hl
      subst hl
      refine ⟨nt, ?_, hntt, hnttx, hntl⟩
      rw [Nat.mul_zero, Nat.add_zero, rf _ (by omega) (by omega), ← hl6, hn7]
    | succ j =>
      simp only [List.getElem?_cons_succ] at hl
      obtain ⟨xb, xt, -, -, h3, h4⟩ := rn j l hl
      refine ⟨xt, ?_, h4⟩
      have : s3.boxes.length + 1 + 2 * (j + 1) = s7a.boxes.length + 2 * j + 1 := by omega
      rw [this]; exact h3
  · intro j hj
    obtain ⟨l, hl⟩ : ∃ l, rest[j]? = some l := ⟨_, List.getElem?_eq_getElem hj⟩
    obtain ⟨xb, xt, h1, h2, -⟩ := rn j l hl
    refine ⟨xb, ?_, h2⟩
    have : s3.boxes.length + 2 + 2 * j = s7a.boxes.length + 2 * j := by omega
    rw [this]; exact h1

/-- C18: for every textarea content string, `box_textarea` makes the box an
inline-block and gives it one new child, an inline container (box
`st.boxes.length`), whose children are the boxes that follow it in the arena:
they alternate TEXT, BR, TEXT, ..., starting and ending with a TEXT box (the
child at an even place `2 * j` is the TEXT box of line `j`, the child at an odd
place a BR box); the number of BR boxes equals the number of line breaks in the
content (each `\r\n`, lone `\r` or lone `\n` counting once) and the number of
TEXT boxes is one more; no TEXT box contains `\r` or `\n`. -/
theorem box_textarea_structure (n : xmlNode) (b : Nat) (st : content)
    (hb : b < st.boxes.length) :
    ∃ st' : content, box_textarea n b st = some (st', false) ∧
      (box_textarea_lines (xmlNodeGetContent n) []).length =
        line_breaks (xmlNodeGetContent n) + 1 ∧
      (∀ l ∈ box_textarea_lines (xmlNodeGetContent n) [], ∀ c ∈ l,
        c.toNat ≠ 13 ∧ c.toNat ≠ 10) ∧
      st'.boxes.length = st.boxes.length + 2 * (line_breaks (xmlNodeGetContent n) + 1) ∧
      (st'.box_at b).type = BOX_INLINE_BLOCK ∧
      (st'.box_at b).children = (st.box_at b).children ++ [st.boxes.length] ∧
      (st'.box_at st.boxes.length).type = BOX_INLINE_CONTAINER ∧
      (st'.box_at st.boxes.length).children =
        List.range' (st.boxes.length + 1) (2 * line_breaks (xmlNodeGetContent n) + 1) ∧
      (∀ (j : Nat) (l : cstr), (box_textarea_lines (xmlNodeGetContent n) [])[j]? = some l →
        (st'.box_at (st.boxes.length + 1 + 2 * j)).type = BOX_TEXT ∧
        (st'.box_at (st.boxes.length + 1 + 2 * j)).text = some l ∧
        (st'.box_at (st.boxes.length + 1 + 2 * j)).length = l.length) ∧
      ∀ j : Nat, j < line_breaks (xmlNodeGetContent n) →
        (st'.box_at (st.boxes.length + 2 + 2 * j)).type = BOX_BR := by
  obtain ⟨hlen, hchars⟩ := box_textarea_lines_spec _ (xmlNodeGetContent n) [] (le_refl _)
    (fun c hc => absurd hc (List.not_mem_nil _))
  unfold box_textarea
  simp only [snd_box_create]
  have h3 : ∃ x3 : box,
      (((box_set_type b BOX_INLINE_BLOCK st |> form_new_control GADGET_TEXTAREA).1.modify_box b
        (fun x => { x with gadget := some (form_new_control GADGET_TEXTAREA
          (box_set_type b BOX_INLINE_BLOCK st)).2 })).modify_control
        (form_new_control GADGET_TEXTAREA (box_set_type b BOX_INLINE_BLOCK st)).2
        (fun g => { g with box := some b,
                           name := box_get_attribute n "name".toList g.name })).boxes[b]? =
        some x3 ∧ x3.type = BOX_INLINE_BLOCK ∧ x3.children = (st.box_at b).children := by
    simp only [box_set_type, form_new_control, content.modify_box, content.modify_control,
      getElem?_list_modify, if_true, List.getElem?_eq_getElem hb, Option.map_some',
      content.box_at, Option.getD_some]
    exact ⟨_, rfl, rfl, rfl⟩
  have h3l :
      (((box_set_type b BOX_INLINE_BLOCK st |> form_new_control GADGET_TEXTAREA).1.modify_box b
        (fun x => { x with gadget := some (form_new_control GADGET_TEXTAREA
          (box_set_type b BOX_INLINE_BLOCK st)).2 })).modify_control
        (form_new_control GADGET_TEXTAREA (box_set_type b BOX_INLINE_BLOCK st)).2
        (fun g => { g with box := some b,
                           name := box_get_attribute n "name".toList g.name })).boxes.length =
        st.boxes.length := by
    simp only [box_set_type, form_new_control, content.modify_box, content.modify_control,
      length_list_modify]
  generalize ((box_set_type b BOX_INLINE_BLOCK st |> form_new_control GADGET_TEXTAREA).1.modify_box b
        (fun x => { x with gadget := some (form_new_control GADGET_TEXTAREA
          (box_set_type b BOX_INLINE_BLOCK st)).2 })).modify_control
        (form_new_control GADGET_TEXTAREA (box_set_type b BOX_INLINE_BLOCK st)).2
        (fun g => { g with box := some b,
                           name := box_get_attribute n "name".toList g.name }) = s3 at h3 h3l ⊢
  generalize form_new_control GADGET_TEXTAREA (box_set_type b BOX_INLINE_BLOCK st) = fc
  obtain ⟨x3, hx3, hx3t, hx3c⟩ := h3
  generalize hk : line_breaks (xmlNodeGetContent n) = k at hlen ⊢
  generalize box_textarea_lines (xmlNodeGetContent n) [] = lines at hlen hchars ⊢
  cases lines with
  | nil => simp at hlen
  | cons line rest =>
    have hrest : rest.length = k := by simpa using hlen
    obtain ⟨s7, e7, hl, hbx, ⟨xic, hxic, hxict, hxicc⟩, htext, hbr⟩ :=
      box_textarea_loop_spec b (s3.box_at b).title line rest s3 (by omega)
    simp only []
    rw [← e7]
    refine ⟨_, rfl, hlen, hchars, ?_, ?_, ?_, ?_, ?_, ?_, ?_⟩
    · rw [boxes_box_form_add_control, hl, h3l, hrest]
    · simp only [content.box_at, boxes_box_form_add_control, hbx, hx3, Option.map_some',
        Option.getD_some, hx3t]
    · simp only [content.box_at, boxes_box_form_add_control, hbx, hx3, Option.map_some',
        Option.getD_some, hx3c, h3l]
    · simp only [content.box_at, boxes_box_form_add_control, ← h3l, hxic, Option.getD_some,
        hxict]
    · simp only [content.box_at, boxes_box_form_add_control, ← h3l, hxic, Option.getD_some,
        hxicc, hrest]
    · intro j l hjl
      obtain ⟨xt, hxt, h1, h2, h3⟩ := htext j l hjl
      simp only [content.box_at, boxes_box_form_add_control, ← h3l, hxt, Option.getD_some]
      exact ⟨h1, h2, h3⟩
    · intro j hj
      obtain ⟨xb, hxb, h1⟩ := hbr j (by omega)
      simp only [content.box_at, boxes_box_form_add_control, ← h3l, hxb, Option.getD_some]
      exact h1

theorem box_textarea_structure_witness :
    ∃ st' : content, box_textarea example_textarea 0 example_root = some (st', false) ∧
      (box_textarea_lines (xmlNodeGetContent example_textarea) []).length =
        line_breaks (xmlNodeGetContent example_textarea) + 1 ∧
      (∀ l ∈ box_textarea_lines (xmlNodeGetContent example_textarea) [], ∀ c ∈ l,
        c.toNat ≠ 13 ∧ c.toNat ≠ 10) ∧
      st'.boxes.length =
        example_root.boxes.length + 2 * (line_breaks (xmlNodeGetContent example_textarea) + 1) ∧
      (st'.box_at 0).type = BOX_INLINE_BLOCK ∧
      (st'.box_at 0).children = (example_root.box_at 0).children ++ [example_root.boxes.length] ∧
      (st'.box_at example_root.boxes.length).type = BOX_INLINE_CONTAINER ∧
      (st'.box_at example_root.boxes.length).children =
        List.range' (example_root.boxes.length + 1)
          (2 * line_breaks (xmlNodeGetContent example_textarea) + 1) ∧
      (∀ (j : Nat) (l : cstr),
        (box_textarea_lines (xmlNodeGetContent example_textarea) [])[j]? = some l →
        (st'.box_at (example_root.boxes.length + 1 + 2 * j)).type = BOX_TEXT ∧
        (st'.box_at (example_root.boxes.length + 1 + 2 * j)).text = some l ∧
        (st'.box_at (example_root.boxes.length + 1 + 2 * j)).length = l.length) ∧
      ∀ j : Nat, j < line_breaks (xmlNodeGetContent example_textarea) →
        (st'.box_at (example_root.boxes.length + 2 + 2 * j)).type = BOX_BR :=
  box_textarea_structure example_textarea 0 example_root (by decide)

/-! ### Framesets -/

theorem table_frame.refl_table (n : Nat) (ex : List Nat) (st : content) :
    table_frame n ex st st :=
  ⟨le_refl _, rfl, ⟨[], (List.append_nil _).symm⟩,
    fun _ x _ hx => ⟨x, hx, rfl, rfl, rfl, rfl, ⟨[], (List.append_nil _).symm⟩, fun _ => rfl⟩⟩

theorem table_frame.trans_table {n : Nat} {ex : List Nat} {a b c : content}
    (h1 : table_frame n ex a b) (h2 : table_frame n ex b c) : table_frame n ex a c := by
  refine ⟨le_trans h1.len h2.len, h2.base.trans h1.base, ?_, ?_⟩
  · obtain ⟨l1, e1⟩ := h1.obj
    obtain ⟨l2, e2⟩ := h2.obj
    exact ⟨l1 ++ l2, by rw [e2, e1, List.append_assoc]⟩
  · intro i x hi hx
    obtain ⟨y, hy, t1, c1, m1, w1, ⟨cs1, k1⟩, u1⟩ := h1.old i x hi hx
    obtain ⟨z, hz, t2, c2, m2, w2, ⟨cs2, k2⟩, u2⟩ := h2.old i y hi hy
    refine ⟨z, hz, t2.trans t1, c2.trans c1, m2.trans m1, w2.trans w1,
      ⟨cs1 ++ cs2, by rw [k2, k1, List.append_assoc]⟩, fun he => (u2 he).trans (u1 he)⟩

theorem table_frame.mono_table {n m : Nat} {ex ex2 : List Nat} {a b : content}
    (h : table_frame n ex a b) (hm : m ≤ n) (hex : ∀ i ∈ ex, i < m → i ∈ ex2) :
    table_frame m ex2 a b := by
  refine ⟨h.len, h.base, h.obj, ?_⟩
  intro i x hi hx
  obtain ⟨y, hy, t1, c1, m1, w1, k1, u1⟩ := h.old i x (by omega) hx
  exact ⟨y, hy, t1, c1, m1, w1, k1, fun he => u1 (fun hi2 => he (hex i hi2 hi))⟩

theorem table_frame_of_eq {n : Nat} {ex : List Nat} {a b : content}
    (hb : b.boxes = a.boxes) (hu : b.base_url = a.base_url)
    (ho : ∃ l, b.object = a.object ++ l) : table_frame n ex a b := by
  refine ⟨by rw [hb], hu, ho, ?_⟩
  intro i x _ hx
  exact ⟨x, by rw [hb]; exact hx, rfl, rfl, rfl, rfl, ⟨[], (List.append_nil _).symm⟩,
    fun _ => rfl⟩

theorem getElem?_of_box_at_type {st : content} {i : Nat} (h : (st.box_at i).type ≠ BOX_BLOCK) :
    st.boxes[i]? = some (st.box_at i) := by
  unfold content.box_at at h ⊢
  cases hx : st.boxes[i]? with
  | none => rw [hx] at h; exact absurd rfl h
  | some x => rfl

/-- A new box of kind `t`, added as the last child of the box `p`. -/
theorem table_frame_new_child (p : Nat) (style : Option Nat) (t : box_type) (st : content)
    (hp : p < st.boxes.length) :
    table_frame st.boxes.length [p] st
      (box_add_child p st.boxes.length
        (box_set_type st.boxes.length t (box_create style none none none none st).1)) ∧
    (box_add_child p st.boxes.length
      (box_set_type st.boxes.length t
        (box_create style none none none none st).1)).boxes.length = st.boxes.length + 1 ∧
    ((box_add_child p st.boxes.length
      (box_set_type st.boxes.length t
        (box_create style none none none none st).1)).box_at p).children =
      (st.box_at p).children ++ [st.boxes.length] ∧
    ((box_add_child p st.boxes.length
      (box_set_type st.boxes.length t
        (box_create style none none none none st).1)).box_at st.boxes.length).type = t ∧
    ((box_add_child p st.boxes.length
      (box_set_type st.boxes.length t
        (box_create style none none none none st).1)).box_at st.boxes.length).children = [] := by
  obtain ⟨nb, hnt, hnc, e⟩ := boxes_box_add_child_new p style none t st hp
  have hbase : (box_add_child p st.boxes.length
      (box_set_type st.boxes.length t
        (box_create style none none none none st).1)).base_url = st.base_url := rfl
  have hobj : (box_add_child p st.boxes.length
      (box_set_type st.boxes.length t
        (box_create style none none none none st).1)).object = st.object := rfl
  generalize box_add_child p st.boxes.length
      (box_set_type st.boxes.length t (box_create style none none none none st).1) = s1
    at e hbase hobj ⊢
  obtain ⟨hl, hf, hc, hn⟩ := boxes_push_child hp e
  obtain ⟨xp, hxp⟩ : ∃ xp, st.boxes[p]? = some xp := ⟨_, List.getElem?_eq_getElem hp⟩
  rw [hxp, Option.map_some'] at hc
  refine ⟨⟨by omega, hbase, ⟨[], by rw [hobj, List.append_nil]⟩, ?_⟩, hl, ?_, ?_, ?_⟩
  · intro i x hi hx
    by_cases hip : i = p
    · subst hip
      rw [hxp] at hx
      cases hx
      exact ⟨_, hc, rfl, rfl, rfl, rfl, ⟨_, rfl⟩, fun he => absurd (List.mem_singleton.mpr rfl) he⟩
    · exact ⟨x, by rw [hf i hi hip]; exact hx, rfl, rfl, rfl, rfl,
        ⟨[], (List.append_nil _).symm⟩, fun _ => rfl⟩
  · rw [box_at_eq hc, box_at_eq hxp]
  · rw [box_at_eq hn]; exact hnt
  · rw [box_at_eq hn]; exact hnc

/-- The start of a pass of the `row` loop: the row box is created as the last
child of the frameset box. -/
theorem box_frameset_row_spec (b style : Nat) (st : content) (hb : b < st.boxes.length) :
    (box_frameset_row b style st).2 = st.boxes.length ∧
    table_frame st.boxes.length [b] st (box_frameset_row b style st).1 ∧
    (box_frameset_row b style st).1.boxes.length = st.boxes.length + 1 ∧
    ((box_frameset_row b style st).1.box_at b).children =
      (st.box_at b).children ++ [st.boxes.length] ∧
    ((box_frameset_row b style st).1.box_at st.boxes.length).type = BOX_TABLE_ROW ∧
    ((box_frameset_row b style st).1.box_at st.boxes.length).children = [] := by
  unfold box_frameset_row
  simp only [snd_new_style, snd_box_create, boxes_new_style]
  obtain ⟨h1, h2, h3, h4, h5⟩ := table_frame_new_child b (some st.styles.length)
    BOX_TABLE_ROW (st.new_style (st.style_at style)).1 hb
  have h0 : table_frame st.boxes.length [b] st (st.new_style (st.style_at style)).1 :=
    table_frame_of_eq rfl rfl ⟨[], (List.append_nil _).symm⟩
  exact ⟨trivial, h0.trans_table h1, h2, h3, h4, h5⟩

theorem box_frameset_cell_skip (E : Env) (c : xmlNode)
    (nested : Nat → Nat → frameset_lengths → content → Option content)
    (rest : Nat → content → Option content)
    (style : Nat) (d : frameset_lengths) (col rb : Nat) (st : content)
    (hc : ¬ (c.type = XML_ELEMENT_NODE ∧
      (c.name = "frame".toList ∨ c.name = "frameset".toList))) :
    box_frameset_cell E c nested rest style d col rb st = rest col st := by
  unfold box_frameset_cell
  rw [if_pos]
  simp only [Bool.not_eq_true', Bool.and_eq_false_iff, beq_eq_false_iff_ne, Bool.or_eq_false_iff,
    ne_eq]
  tauto

theorem table_frame_modify_box_new {n : Nat} {ex : List Nat} (st : content) (j : Nat)
    (f : box → box) (hj : n ≤ j) : table_frame n ex st (st.modify_box j f) := by
  refine ⟨by rw [length_boxes_modify_box], rfl, ⟨[], (List.append_nil _).symm⟩, ?_⟩
  intro i x hi hx
  refine ⟨x, ?_, rfl, rfl, rfl, rfl, ⟨[], (List.append_nil _).symm⟩, fun _ => rfl⟩
  rw [boxes_modify_box, getElem?_list_modify, if_neg (by omega)]
  exact hx

theorem table_frame_box_create {n : Nat} {ex : List Nat} (style : Option Nat)
    (href : Option cstr) (target : Option frame_target) (title id : Option cstr)
    (st : content) :
    table_frame n ex st (box_create style href target title id st).1 := by
  refine ⟨by simp, rfl, ⟨[], (List.append_nil _).symm⟩, ?_⟩
  intro i x _ hx
  refine ⟨x, ?_, rfl, rfl, rfl, rfl, ⟨[], (List.append_nil _).symm⟩, fun _ => rfl⟩
  rw [boxes_box_create, List.getElem?_append_left (List.getElem?_eq_some.mp hx).1]
  exact hx

theorem table_frame_box_add_child_new {n : Nat} {ex : List Nat} (p ch : Nat) (st : content)
    (hp : n ≤ p) (hch : n ≤ ch) : table_frame n ex st (box_add_child p ch st) := by
  unfold box_add_child
  exact (table_frame_modify_box_new st p _ hp).trans_table
    (table_frame_modify_box_new _ ch _ hch)

theorem table_frame_box_frameset_columns {n : Nat} {ex : List Nat} (c : xmlNode) (fb : Nat)
    (st : content) (h : n ≤ fb) : table_frame n ex st (box_frameset_columns c fb st).1 := by
  unfold box_frameset_columns
  simp only [box_set_type]
  exact (table_frame_modify_box_new st fb _ h).trans_table
    (table_frame_modify_box_new _ fb _ h)

theorem table_frame_html_fetch_object {n : Nat} {ex : List Nat} {E : Env} {url : cstr}
    {b : Nat} {p : permitted_types} {w : Int} {hh : Int} {bg : Bool} {fr : Option cstr}
    {st st' : content} (hf : html_fetch_object E url b p w hh bg fr st = some st') :
    table_frame n ex st st' ∧
    ∃ o ∈ st'.object, o.url = url ∧ o.box = b ∧ o.frame = fr := by
  unfold html_fetch_object at hf
  split at hf
  · simp only [Option.some.injEq] at hf
    subst hf
    exact ⟨table_frame_of_eq rfl rfl ⟨_, rfl⟩, _, List.mem_append_right _ (List.mem_singleton.mpr rfl),
      rfl, rfl, rfl⟩
  · exact Option.noConfusion hf

/-- What a frame keeps of a box below `n` that is not exempt. -/
theorem table_frame.box_at_table {n : Nat} {ex : List Nat} {st st' : content}
    (h : table_frame n ex st st') {i : Nat} (hi : i < n) (hl : i < st.boxes.length)
    (he : i ∉ ex) : st'.box_at i = st.box_at i := by
  obtain ⟨y, hy, -, -, -, -, -, hu⟩ := h.old i _ hi (List.getElem?_eq_getElem hl)
  rw [box_at_eq hy, hu he, box_at_eq (List.getElem?_eq_getElem hl)]

theorem table_frame.type_table {n : Nat} {ex : List Nat} {st st' : content}
    (h : table_frame n ex st st') {i : Nat} (hi : i < n) (hl : i < st.boxes.length) :
    (st'.box_at i).type = (st.box_at i).type ∧ (st'.box_at i).col = (st.box_at i).col ∧
    (st'.box_at i).min_width = (st.box_at i).min_width ∧
    (st'.box_at i).max_width = (st.box_at i).max_width := by
  obtain ⟨y, hy, h1, h2, h3, h4, -, -⟩ := h.old i _ hi (List.getElem?_eq_getElem hl)
  rw [box_at_eq hy, box_at_eq (List.getElem?_eq_getElem hl)]
  exact ⟨h1, h2, h3, h4⟩

theorem lt_length_of_box_at_type {st : content} {i : Nat}
    (h : (st.box_at i).type ≠ BOX_BLOCK) : i < st.boxes.length :=
  (List.getElem?_eq_some.mp (getElem?_of_box_at_type h)).1

theorem box_at_of_boxes_eq {a b : content} (h : b.boxes = a.boxes) (i : Nat) :
    b.box_at i = a.box_at i := by
  unfold content.box_at
  rw [h]

theorem box_at_box_create_of_lt (style : Option Nat) (href : Option cstr)
    (target : Option frame_target) (title id : Option cstr) (st : content) {i : Nat}
    (hi : i < st.boxes.length) :
    (box_create style href target title id st).1.box_at i = st.box_at i := by
  unfold content.box_at
  rw [boxes_box_create, List.getElem?_append_left hi]

theorem box_at_box_frameset_columns_of_ne (c : xmlNode) (fb : Nat) (st : content) {i : Nat}
    (hi : i ≠ fb) : (box_frameset_columns c fb st).1.box_at i = st.box_at i := by
  unfold box_frameset_columns
  simp only [box_set_type]
  rw [box_at_modify_box_of_ne _ _ hi, box_at_modify_box_of_ne _ _ hi]

theorem box_at_box_frameset_columns_self (c : xmlNode) (fb : Nat) (st : content)
    (hfb : fb < st.boxes.length) :
    ((box_frameset_columns c fb st).1.box_at fb).type = BOX_TABLE ∧
    ((box_frameset_columns c fb st).1.box_at fb).min_width = 1 ∧
    ((box_frameset_columns c fb st).1.box_at fb).max_width = 10000 ∧
    ((box_frameset_columns c fb st).1.box_at fb).col =
      match xmlGetProp c "cols".toList with
      | some s => (box_parse_multi_lengths s).map frameset_column
      | none => [{ type := COLUMN_WIDTH_RELATIVE, width := cfloat.ofInt 1, min := 1,
                   max := 10000 }] := by
  unfold box_frameset_columns
  simp only [box_set_type]
  rw [box_at_modify_box_self _ _ (by rw [length_boxes_modify_box]; exact hfb)]
  refine ⟨?_, rfl, rfl, ?_⟩
  · simp only []
    rw [box_at_modify_box_self _ _ hfb]
  · simp only []
    cases xmlGetProp c "cols".toList <;> rfl

/-- The body of the `col` loop for a frame child `c`: a cell is created as the
last child of the row box, and the loops go on with the next column. -/
theorem box_frameset_cell_step (E : Env) (c : xmlNode)
    (nested : Nat → Nat → frameset_lengths → content → Option content)
    (rest : Nat → content → Option content)
    (style : Nat) (d : frameset_lengths) (col rb : Nat) (st st' : content)
    (h : box_frameset_cell E c nested rest style d col rb st = some st')
    (hc : c.type = XML_ELEMENT_NODE ∧
      (c.name = "frame".toList ∨ c.name = "frameset".toList))
    (hrb : rb < st.boxes.length)
    (hnested : ∀ fb cs d1 Y Y', nested fb cs d1 Y = some Y' → fb < Y.boxes.length →
      table_frame Y.boxes.length [fb] Y Y') :
    ∃ s2 : content, rest (col + 1) s2 = some st' ∧
      table_frame st.boxes.length [rb] st s2 ∧ st.boxes.length < s2.boxes.length ∧
      (s2.box_at rb).children = (st.box_at rb).children ++ [st.boxes.length] ∧
      frame_cell E st.base_url st.boxes.length s2 c st.boxes.length := by
  unfold box_frameset_cell at h
  rw [if_neg (by simp only [Bool.not_eq_true', Bool.and_eq_false_iff, beq_eq_false_iff_ne,
    Bool.or_eq_false_iff, ne_eq]; tauto)] at h
  simp only [snd_new_style, snd_box_create, boxes_new_style, boxes_modify_style] at h
  have hA : table_frame st.boxes.length [rb] st
        (box_add_child rb st.boxes.length (box_set_type st.boxes.length BOX_TABLE_CELL
          (box_create (some st.styles.length) none none none none
            (((st.new_style (st.style_at style)).1).modify_style st.styles.length
              (fun s => { s with overflow := CSS_OVERFLOW_AUTO }))).1)) ∧
      (box_add_child rb st.boxes.length (box_set_type st.boxes.length BOX_TABLE_CELL
          (box_create (some st.styles.length) none none none none
            (((st.new_style (st.style_at style)).1).modify_style st.styles.length
              (fun s => { s with overflow := CSS_OVERFLOW_AUTO }))).1)).boxes.length =
        st.boxes.length + 1 ∧
      ((box_add_child rb st.boxes.length (box_set_type st.boxes.length BOX_TABLE_CELL
          (box_create (some st.styles.length) none none none none
            (((st.new_style (st.style_at style)).1).modify_style st.styles.length
              (fun s => { s with overflow := CSS_OVERFLOW_AUTO }))).1)).box_at rb).children =
        (st.box_at rb).children ++ [st.boxes.length] ∧
      ((box_add_child rb st.boxes.length (box_set_type st.boxes.length BOX_TABLE_CELL
          (box_create (some st.styles.length) none none none none
            (((st.new_style (st.style_at style)).1).modify_style st.styles.length
              (fun s => { s with overflow := CSS_OVERFLOW_AUTO }))).1)).box_at
          st.boxes.length).type = BOX_TABLE_CELL ∧
      ((box_add_child rb st.boxes.length (box_set_type st.boxes.length BOX_TABLE_CELL
          (box_create (some st.styles.length) none none none none
            (((st.new_style (st.style_at style)).1).modify_style st.styles.length
              (fun s => { s with overflow := CSS_OVERFLOW_AUTO }))).1)).box_at
          st.boxes.length).children = [] ∧
      (box_add_child rb st.boxes.length (box_set_type st.boxes.length BOX_TABLE_CELL
          (box_create (some st.styles.length) none none none none
            (((st.new_style (st.style_at style)).1).modify_style st.styles.length
              (fun s => { s with overflow := CSS_OVERFLOW_AUTO }))).1)).base_url =
        st.base_url := by
    obtain ⟨h1, h2, h3, h4, h5⟩ := table_frame_new_child rb (some st.styles.length)
      BOX_TABLE_CELL (((st.new_style (st.style_at style)).1).modify_style st.styles.length
        (fun s => { s with overflow := CSS_OVERFLOW_AUTO })) hrb
    have h0 : table_frame st.boxes.length [rb] st
        (((st.new_style (st.style_at style)).1).modify_style st.styles.length
          (fun s => { s with overflow := CSS_OVERFLOW_AUTO })) :=
      table_frame_of_eq rfl rfl ⟨[], (List.append_nil _).symm⟩
    exact ⟨h0.trans_table h1, h2, h3, h4, h5, rfl⟩
  generalize (box_add_child rb st.boxes.length (box_set_type st.boxes.length BOX_TABLE_CELL
          (box_create (some st.styles.length) none none none none
            (((st.new_style (st.style_at style)).1).modify_style st.styles.length
              (fun s => { s with overflow := CSS_OVERFLOW_AUTO }))).1)) = S2 at h hA
  obtain ⟨hf2, hl2, hrb2, hct2, hcc2, hbase2⟩ := hA
  have hcl : st.boxes.length < S2.boxes.length := by omega
  split at h
  · -- a nested frameset
    rename_i hfs
    have hname : c.name = "frameset".toList := by simpa using hfs
    generalize hs3 : (box_create (some st.styles.length) none none none none S2).1 = s3 at h
    have hf3 : table_frame st.boxes.length [rb] S2 s3 := by
      rw [← hs3]; exact table_frame_box_create _ _ _ _ _ _
    have hl3 : s3.boxes.length = S2.boxes.length + 1 := by rw [← hs3]; simp
    have hb3 : ∀ i, i < S2.boxes.length → s3.box_at i = S2.box_at i := by
      intro i hi; rw [← hs3]; exact box_at_box_create_of_lt _ _ _ _ _ _ hi
    have hf4 : table_frame st.boxes.length [rb] s3 (box_frameset_columns c S2.boxes.length s3).1 :=
      table_frame_box_frameset_columns c _ s3 (by omega)
    have hl4 := length_box_frameset_columns c S2.boxes.length s3
    have hb4 : ∀ i, i ≠ S2.boxes.length →
        (box_frameset_columns c S2.boxes.length s3).1.box_at i = s3.box_at i :=
      fun i hi => box_at_box_frameset_columns_of_ne c _ s3 hi
    have ht4 := (box_at_box_frameset_columns_self c S2.boxes.length s3 (by omega)).1
    generalize (box_frameset_columns c S2.boxes.length s3).1 = s4 at h hf4 hl4 hb4 ht4
    generalize (box_frameset_columns c S2.boxes.length s3).2 = d1 at h
    split at h
    · exact Option.noConfusion h
    rename_i s5 hs5
    have hn5 := hnested _ _ _ _ _ hs5 (by omega)
    have hf5 : table_frame st.boxes.length [rb] s4 s5 :=
      hn5.mono_table (by omega) (fun i hi hlt => by
        rw [List.mem_singleton] at hi; omega)
    have hl5 : s4.boxes.length ≤ s5.boxes.length := hn5.len
    have hb5 : ∀ i, i < S2.boxes.length → s5.box_at i = s4.box_at i := by
      intro i hi
      exact hn5.box_at_table (by omega) (by omega) (by rw [List.mem_singleton]; omega)
    have ht5 : (s5.box_at S2.boxes.length).type = BOX_TABLE := by
      rw [(hn5.type_table (by omega : S2.boxes.length < s4.boxes.length) (by omega)).1]
      exact ht4
    have hf6 : table_frame st.boxes.length [rb] s5 (box_frameset_width st.styles.length s5) :=
      table_frame_of_eq rfl rfl ⟨[], (List.append_nil _).symm⟩
    have hb6 : ∀ i, (box_frameset_width st.styles.length s5).box_at i = s5.box_at i :=
      fun i => box_at_of_boxes_eq rfl i
    have hl6 : (box_frameset_width st.styles.length s5).boxes.length = s5.boxes.length := rfl
    generalize box_frameset_width st.styles.length s5 = s6 at h hf6 hb6 hl6
    have hf7 : table_frame st.boxes.length [rb] s6
        (box_add_child st.boxes.length S2.boxes.length s6) :=
      table_frame_box_add_child_new _ _ s6 (le_refl _) (by omega)
    have hl7 := length_boxes_box_add_child st.boxes.length S2.boxes.length s6
    have hcell7 : (box_add_child st.boxes.length S2.boxes.length s6).box_at st.boxes.length =
        { s6.box_at st.boxes.length with
          children := (s6.box_at st.boxes.length).children ++ [S2.boxes.length] } := by
      unfold box_add_child
      rw [box_at_modify_box_of_ne _ _ (by omega : st.boxes.length ≠ S2.boxes.length),
        box_at_modify_box_self _ _ (by omega)]
    have hfb7 : ((box_add_child st.boxes.length S2.boxes.length s6).box_at
        S2.boxes.length).type = (s6.box_at S2.boxes.length).type := by
      unfold box_add_child
      rw [box_at_modify_box_self _ _ (by rw [length_boxes_modify_box]; omega),
        box_at_modify_box_of_ne _ _ (by omega : S2.boxes.length ≠ st.boxes.length)]
    have hrb7 : (box_add_child st.boxes.length S2.boxes.length s6).box_at rb = s6.box_at rb := by
      unfold box_add_child
      rw [box_at_modify_box_of_ne _ _ (by omega : rb ≠ S2.boxes.length),
        box_at_modify_box_of_ne _ _ (by omega : rb ≠ st.boxes.length)]
    refine ⟨_, h, ((((hf2.trans_table hf3).trans_table hf4).trans_table hf5).trans_table
      hf6).trans_table hf7, by omega, ?_, le_refl _, ?_, ?_, ?_⟩
    · rw [hrb7, hb6, hb5 _ (by omega), hb4 _ (by omega), hb3 _ (by omega), hrb2]
    · rw [hcell7]
      show (s6.box_at st.boxes.length).type = BOX_TABLE_CELL
      rw [hb6, hb5 _ hcl, hb4 _ (by omega), hb3 _ hcl, hct2]
    · intro _
      refine ⟨S2.boxes.length, by omega, ?_, ?_⟩
      · rw [hcell7]
        show (s6.box_at st.boxes.length).children ++ [S2.boxes.length] = [S2.boxes.length]
        rw [hb6, hb5 _ hcl, hb4 _ (by omega), hb3 _ hcl, hcc2]
        rfl
      · rw [hfb7, hb6, ht5]
    · intro hne
      exact absurd hname hne
  · rename_i hfs
    have hname : c.name ≠ "frameset".toList := by simpa using hfs
    have hcell : ∀ s2 : content, table_frame st.boxes.length [rb] S2 s2 →
        (∀ s url, xmlGetProp c "src".toList = some s →
          E.url_join (E.strip s) st.base_url = URL_FUNC_OK url →
          strcasecmp_eq url st.base_url = false →
          ∃ o ∈ s2.object, o.url = url ∧ o.box = st.boxes.length ∧
            o.frame = xmlGetProp c "name".toList) →
        s2.boxes = S2.boxes →
        rest (col + 1) s2 = some st' →
        ∃ s2 : content, rest (col + 1) s2 = some st' ∧
          table_frame st.boxes.length [rb] st s2 ∧ st.boxes.length < s2.boxes.length ∧
          (s2.box_at rb).children = (st.box_at rb).children ++ [st.boxes.length] ∧
          frame_cell E st.base_url st.boxes.length s2 c st.boxes.length := by
      intro s2 hfr hfetch hbx hrest
      refine ⟨s2, hrest, hf2.trans_table hfr, by rw [hbx]; exact hcl, ?_, le_refl _, ?_, ?_, ?_⟩
      · rw [box_at_of_boxes_eq hbx, hrb2]
      · rw [box_at_of_boxes_eq hbx, hct2]
      · intro hn; exact absurd hn hname
      · intro _
        exact ⟨by rw [box_at_of_boxes_eq hbx, hcc2], hfetch⟩
    split at h
    · rename_i hsrc
      exact hcell S2 (table_frame.refl_table _ _ _)
        (fun s url hs => by rw [hsrc] at hs; exact Option.noConfusion hs) rfl h
    · rename_i s hsrc
      rw [hbase2] at h
      split at h
      · rename_i url hurl
        split at h
        · rename_i hsame
          refine hcell S2 (table_frame.refl_table _ _ _) ?_ rfl h
          intro s0 url0 hs0 hu0 hne0
          rw [hsrc] at hs0
          cases hs0
          rw [hurl] at hu0
          cases hu0
          rw [hsame] at hne0
          exact Bool.noConfusion hne0
        · split at h
          · exact Option.noConfusion h
          · rename_i s3 hs3
            obtain ⟨hf3, o, ho, ho1, ho2, ho3⟩ :=
              @table_frame_html_fetch_object st.boxes.length [rb] _ _ _ _ _ _ _ _ _ _ hs3
            refine hcell s3 hf3 ?_ (boxes_html_fetch_object hs3).1 h
            intro s0 url0 hs0 hu0 _
            rw [hsrc] at hs0
            cases hs0
            rw [hurl] at hu0
            cases hu0
            exact ⟨o, ho, ho1, ho2, ho3⟩
      · rename_i hnot
        refine hcell S2 (table_frame.refl_table _ _ _) ?_ rfl h
        intro s0 url0 hs0 hu0 _
        rw [hsrc] at hs0
        cases hs0
        exact absurd hu0 (hnot url0)

theorem table_frame_box_frameset_empty_rows (b style : Nat) (k : Nat) :
    ∀ st : content, b < st.boxes.length →
      table_frame st.boxes.length [b] st (box_frameset_empty_rows b style k st) := by
  induction k with
  | zero =>
    intro st _
    exact table_frame.refl_table _ _ _
  | succ k ih =>
    intro st hb
    unfold box_frameset_empty_rows
    obtain ⟨-, h1, h2, -⟩ := box_frameset_row_spec b style st hb
    exact h1.trans_table ((ih _ (by omega)).mono_table (by omega) (fun i hi _ => hi))

theorem table_frame_box_frameset_new_row
    (cell : Nat → Nat → content → Option content) (b style : Nat) (d : frameset_lengths)
    (row : Nat) (ex : List Nat) (st st' : content)
    (h : box_frameset_new_row cell b style d row st = some st')
    (hcell : ∀ rb Y Y', cell 0 rb Y = some Y' → rb < Y.boxes.length → b < Y.boxes.length →
      table_frame Y.boxes.length [b, rb] Y Y')
    (hb : b < st.boxes.length) :
    table_frame st.boxes.length (b :: ex) st st' := by
  unfold box_frameset_new_row at h
  obtain ⟨h0, h1, h2, -⟩ := box_frameset_row_spec b style st hb
  split at h
  · cases h
    exact table_frame.refl_table _ _ _
  · simp only at h
    have h1' : table_frame st.boxes.length (b :: ex) st (box_frameset_row b style st).1 :=
      h1.mono_table (le_refl _) (fun i hi _ => by
        rw [List.mem_singleton] at hi; subst hi; exact List.mem_cons_self _ _)
    split at h
    · cases h
      refine h1'.trans_table ?_
      exact (table_frame_box_frameset_empty_rows b style _ _ (by omega)).mono_table (by omega)
        (fun i hi _ => by
          rw [List.mem_singleton] at hi; subst hi; exact List.mem_cons_self _ _)
    · refine h1'.trans_table ?_
      have h3 := hcell _ _ _ h (by rw [h0]; omega) (by omega)
      refine h3.mono_table (by omega) ?_
      intro i hi hlt
      rcases List.mem_cons.mp hi with hi | hi
      · subst hi; exact List.mem_cons_self _ _
      · rw [List.mem_singleton] at hi
        rw [h0] at hi
        omega

/-- The loops of `box_frameset` leave the boxes that exist as they are, but
for the frameset box and the current row box, to which they add children. -/
theorem table_frame_box_frameset_table (E : Env) (c : xmlNode) :
    ∀ (b style : Nat) (d : frameset_lengths) (row col : Nat) (row_box : Option Nat)
      (st st' : content),
      box_frameset_table E c b style d row col row_box st = some st' →
      b < st.boxes.length → (∀ rb, row_box = some rb → rb < st.boxes.length) →
      table_frame st.boxes.length (b :: row_box.toList) st st' := by
  induction c with
  | null =>
    intro b style d row col row_box st st' h _ _
    unfold box_frameset_table at h
    cases h
    exact table_frame.refl_table _ _ _
  | node t name hp ps tx children next ihc ihn =>
    intro b style d row col row_box st st' h hb hrb
    unfold box_frameset_table at h
    have hcell : ∀ (row col rb : Nat) (Y Y' : content),
        box_frameset_cell E (.node t name hp ps tx children next)
          (fun frameset_box cell_style d1 st =>
            box_frameset_table E children frameset_box cell_style d1 0 0 none st)
          (fun col st => box_frameset_table E next b style d row col (some rb) st)
          style d col rb Y = some Y' → rb < Y.boxes.length → b < Y.boxes.length →
        table_frame Y.boxes.length [b, rb] Y Y' := by
      intro row col rb Y Y' hY hrbY hbY
      by_cases hc : (xmlNode.node t name hp ps tx children next).type = XML_ELEMENT_NODE ∧
          ((xmlNode.node t name hp ps tx children next).name = "frame".toList ∨
            (xmlNode.node t name hp ps tx children next).name = "frameset".toList)
      · obtain ⟨s2, hrest, hf, hl, -⟩ := box_frameset_cell_step E _ _ _ style d col rb Y Y' hY hc
          hrbY (fun fb cs d1 Z Z' hZ hfb => ihc fb cs d1 0 0 none Z Z' hZ hfb
            (fun _ hh => Option.noConfusion hh))
        have h2 := ihn b style d row (col + 1) (some rb) s2 Y' hrest (by omega)
          (fun r hr => by cases hr; omega)
        exact (hf.mono_table (le_refl _) (fun i hi _ => List.mem_cons_of_mem _ hi)).trans_table
          (h2.mono_table (by omega) (fun i hi _ => hi))
      · rw [box_frameset_cell_skip E _ _ _ style d col rb Y hc] at hY
        exact ihn b style d row col (some rb) Y Y' hY hbY (fun r hr => by cases hr; exact hrbY)
    cases row_box with
    | none =>
      simp only at h
      exact table_frame_box_frameset_new_row _ b style d row [] st st' h
        (fun rb Y Y' hY => hcell row 0 rb Y Y' hY) hb
    | some rb =>
      simp only at h
      have hrb' := hrb rb rfl
      split at h
      · exact table_frame_box_frameset_new_row _ b style d (row + 1) [rb] st st' h
          (fun r Y Y' hY => hcell (row + 1) 0 r Y Y' hY) hb
      · exact hcell row col rb st st' h hrb' hb

theorem box_frameset_cell_isSome (E : Env) (hE : ∀ url, E.fetch_ok url = true) (c : xmlNode)
    (nested : Nat → Nat → frameset_lengths → content → Option content)
    (rest : Nat → content → Option content)
    (hnested : ∀ fb cs d1 Y, (nested fb cs d1 Y).isSome)
    (hrest : ∀ col Y, (rest col Y).isSome)
    (style : Nat) (d : frameset_lengths) (col rb : Nat) (st : content) :
    (box_frameset_cell E c nested rest style d col rb st).isSome := by
  unfold box_frameset_cell
  split
  · exact hrest _ _
  · simp only []
    split
    · split
      · rename_i hn
        exact absurd hn (Option.ne_none_iff_isSome.mpr (hnested _ _ _ _))
      · exact hrest _ _
    · split
      · exact hrest _ _
      · split
        · split
          · exact hrest _ _
          · split
            · rename_i hf
              unfold html_fetch_object at hf
              rw [if_pos (hE _)] at hf
              exact Option.noConfusion hf
            · exact hrest _ _
        · exact hrest _ _

theorem box_frameset_table_isSome (E : Env) (hE : ∀ url, E.fetch_ok url = true)
    (c : xmlNode) :
    ∀ (b style : Nat) (d : frameset_lengths) (row col : Nat) (row_box : Option Nat)
      (st : content), (box_frameset_table E c b style d row col row_box st).isSome := by
  induction c with
  | null =>
    intro b style d row col row_box st
    rfl
  | node t name hp ps tx children next ihc ihn =>
    intro b style d row col row_box st
    unfold box_frameset_table
    have hcell : ∀ (row col rb : Nat) (Y : content),
        (box_frameset_cell E (.node t name hp ps tx children next)
          (fun frameset_box cell_style d1 st =>
            box_frameset_table E children frameset_box cell_style d1 0 0 none st)
          (fun col st => box_frameset_table E next b style d row col (some rb) st)
          style d col rb Y).isSome :=
      fun row col rb Y => box_frameset_cell_isSome E hE _ _ _
        (fun fb cs d1 Z => ihc fb cs d1 0 0 none Z)
        (fun col Z => ihn b style d row col (some rb) Z) style d col rb Y
    have hrow : ∀ (row0 : Nat) (cell : Nat → Nat → content → Option content),
        (∀ col rb Y, (cell col rb Y).isSome) →
        (box_frameset_new_row cell b style d row0 st).isSome := by
      intro row0 cell hc
      unfold box_frameset_new_row
      split
      · rfl
      · simp only []
        split
        · rfl
        · exact hc _ _ _
    cases row_box with
    | none => exact hrow row _ (fun col rb Y => hcell row col rb Y)
    | some rb =>
      simp only []
      split
      · exact hrow (row + 1) _ (fun col r Y => hcell (row + 1) col r Y)
      · exact hcell row col rb st

theorem box_frameset_isSome (E : Env) (hE : ∀ url, E.fetch_ok url = true) (n : xmlNode)
    (b : Nat) (st : content) (hs : (st.box_at b).style ≠ none) :
    (box_frameset E n b st).isSome := by
  unfold box_frameset
  cases hst : (st.box_at b).style with
  | none => exact absurd hst hs
  | some style =>
    simp only []
    have := box_frameset_table_isSome E hE n.children b style
      (box_frameset_columns n b st).2 0 0 none (box_frameset_columns n b st).1
    split
    · rename_i hn
      rw [hn] at this
      exact Bool.noConfusion this
    · rfl

theorem frame_cell.weaken_cell {E : Env} {base : cstr} {lo lo2 : Nat} {st : content}
    {c : xmlNode} {cell : Nat} (h : frame_cell E base lo st c cell) (hl : lo2 ≤ lo) :
    frame_cell E base lo2 st c cell := by
  obtain ⟨h1, h2, h3, h4⟩ := h
  refine ⟨by omega, h2, ?_, h4⟩
  intro hn
  obtain ⟨fb, hfb, hc, ht⟩ := h3 hn
  exact ⟨fb, by omega, hc, ht⟩

/-- The cell of a frame stays what it is in the steps that follow. -/
theorem frame_cell.keeps_cell {E : Env} {base : cstr} {lo : Nat} {st st' : content}
    {ex : List Nat} {c : xmlNode} {cell : Nat} (h : frame_cell E base lo st c cell)
    (hf : table_frame st.boxes.length ex st st') (hex : ∀ i ∈ ex, i < lo) :
    frame_cell E base lo st' c cell := by
  obtain ⟨h1, h2, h3, h4⟩ := h
  have hcl : cell < st.boxes.length := lt_length_of_box_at_type (by rw [h2]; decide)
  have hce : st'.box_at cell = st.box_at cell :=
    hf.box_at_table hcl hcl (fun hi => by have := hex _ hi; omega)
  refine ⟨h1, by rw [hce]; exact h2, ?_, ?_⟩
  · intro hn
    obtain ⟨fb, hfb, hc, ht⟩ := h3 hn
    have hfl : fb < st.boxes.length := lt_length_of_box_at_type (by rw [ht]; decide)
    have hfe : st'.box_at fb = st.box_at fb :=
      hf.box_at_table hfl hfl (fun hi => by have := hex _ hi; omega)
    exact ⟨fb, hfb, by rw [hce]; exact hc, by rw [hfe]; exact ht⟩
  · intro hn
    obtain ⟨hc, hfetch⟩ := h4 hn
    refine ⟨by rw [hce]; exact hc, ?_⟩
    intro s url hs hu hne
    obtain ⟨o, ho, hrest⟩ := hfetch s url hs hu hne
    obtain ⟨l, hl⟩ := hf.obj
    exact ⟨o, by rw [hl]; exact List.mem_append_left _ ho, hrest⟩

theorem frame_children_cons_of_frame {t : xmlElementType} {name : cstr} {hp : Bool}
    {ps : List (cstr × Option cstr)} {tx : cstr} {children next : xmlNode}
    (hc : (xmlNode.node t name hp ps tx children next).type = XML_ELEMENT_NODE ∧
      ((xmlNode.node t name hp ps tx children next).name = "frame".toList ∨
        (xmlNode.node t name hp ps tx children next).name = "frameset".toList)) :
    frame_children (.node t name hp ps tx children next) =
      .node t name hp ps tx children next :: frame_children next := by
  rw [frame_children]
  exact if_pos hc

theorem frame_children_cons_of_not {t : xmlElementType} {name : cstr} {hp : Bool}
    {ps : List (cstr × Option cstr)} {tx : cstr} {children next : xmlNode}
    (hc : ¬ ((xmlNode.node t name hp ps tx children next).type = XML_ELEMENT_NODE ∧
      ((xmlNode.node t name hp ps tx children next).name = "frame".toList ∨
        (xmlNode.node t name hp ps tx children next).name = "frameset".toList))) :
    frame_children (.node t name hp ps tx children next) = frame_children next := by
  rw [frame_children]
  exact if_neg hc

theorem box_frameset_table_some (E : Env) (t : xmlElementType) (name : cstr) (hp : Bool)
    (ps : List (cstr × Option cstr)) (tx : cstr) (children next : xmlNode)
    (b style : Nat) (d : frameset_lengths) (row col rb : Nat) (st : content)
    (hcol : col ≠ d.cols) :
    box_frameset_table E (.node t name hp ps tx children next) b style d row col (some rb) st =
      box_frameset_cell E (.node t name hp ps tx children next)
        (fun frameset_box cell_style d1 st =>
          box_frameset_table E children frameset_box cell_style d1 0 0 none st)
        (fun col st => box_frameset_table E next b style d row col (some rb) st)
        style d col rb st := by
  rw [box_frameset_table]
  exact if_neg (by simpa using hcol)

theorem box_frameset_table_full (E : Env) (t : xmlElementType) (name : cstr) (hp : Bool)
    (ps : List (cstr × Option cstr)) (tx : cstr) (children next : xmlNode)
    (b style : Nat) (d : frameset_lengths) (row rb : Nat) (st : content) :
    box_frameset_table E (.node t name hp ps tx children next) b style d row d.cols (some rb)
        st =
      box_frameset_new_row
        (fun col row_box st =>
          box_frameset_table E (.node t name hp ps tx children next) b style d (row + 1) col
            (some row_box) st)
        b style d (row + 1) st := by
  rw [box_frameset_table]
  simp only [beq_self_eq_true, if_true]
  unfold box_frameset_new_row
  split
  · rfl
  · simp only []
    split
    · rfl
    · rename_i hc
      rw [box_frameset_table_some E t name hp ps tx children next b style d (row + 1) 0 _ _
        (fun h0 => hc (by rw [← h0]; rfl))]

theorem box_frameset_table_none (E : Env) (t : xmlElementType) (name : cstr) (hp : Bool)
    (ps : List (cstr × Option cstr)) (tx : cstr) (children next : xmlNode)
    (b style : Nat) (d : frameset_lengths) (row col : Nat) (st : content) :
    box_frameset_table E (.node t name hp ps tx children next) b style d row col none st =
      box_frameset_new_row
        (fun col row_box st =>
          box_frameset_table E (.node t name hp ps tx children next) b style d row col
            (some row_box) st)
        b style d row st := by
  rw [box_frameset_table]
  unfold box_frameset_new_row
  split
  · rfl
  · simp only []
    split
    · rfl
    · rename_i hc
      rw [box_frameset_table_some E t name hp ps tx children next b style d row 0 _ _
        (fun h0 => hc (by rw [← h0]; rfl))]

theorem frame_cell_forall2_weaken {E : Env} {base base2 : cstr} {lo lo2 : Nat} {st : content}
    {frames : List xmlNode} {cells : List Nat}
    (h : List.Forall₂ (frame_cell E base lo st) frames cells) (hb : base = base2)
    (hl : lo2 ≤ lo) : List.Forall₂ (frame_cell E base2 lo2 st) frames cells := by
  subst hb
  exact h.imp (fun _ _ hc => hc.weaken_cell hl)

/-- A pass of the `row` loop from the node `c` on, `m` rows being left to
create for the `m * cols` frame children left. -/
theorem box_frameset_new_row_grid (E : Env) (t : xmlElementType) (name : cstr) (hp : Bool)
    (ps : List (cstr × Option cstr)) (tx : cstr) (children next : xmlNode)
    (b style : Nat) (d : frameset_lengths) (row m : Nat) (st st' : content)
    (h : box_frameset_new_row
      (fun col row_box st =>
        box_frameset_table E (.node t name hp ps tx children next) b style d row col
          (some row_box) st) b style d row st = some st')
    (hA : ∀ (rb : Nat) (s1 : content) (m1 : Nat),
      box_frameset_table E (.node t name hp ps tx children next) b style d row 0 (some rb) s1 =
        some st' →
      b < s1.boxes.length → rb < s1.boxes.length → b ≠ rb → row + 1 + m1 = d.rows →
      (frame_children (.node t name hp ps tx children next)).length + 0 = (m1 + 1) * d.cols →
      grid_result E d.cols b rb 0 m1 (frame_children (.node t name hp ps tx children next))
        s1 st')
    (hb : b < st.boxes.length) (hcols : 1 ≤ d.cols) (hm : row + m = d.rows)
    (hcount : (frame_children (.node t name hp ps tx children next)).length = m * d.cols) :
    ∃ rows : List (Nat × List Nat),
      rows_result E d.cols b m (frame_children (.node t name hp ps tx children next)) st st'
        rows ∧
      table_frame st.boxes.length [b] st st' := by
  unfold box_frameset_new_row at h
  split at h
  · rename_i hrow
    have hrow2 : row = d.rows := by simpa using hrow
    have hm0 : m = 0 := by omega
    subst hm0
    simp only [Option.some.injEq] at h
    subst h
    rw [Nat.zero_mul] at hcount
    rw [List.length_eq_zero] at hcount
    refine ⟨[], ⟨by simp, rfl, fun rc hrc => absurd hrc (List.not_mem_nil _), ?_⟩,
      table_frame.refl_table _ _ _⟩
    rw [hcount]
    exact List.Forall₂.nil
  · rename_i hrow
    have hrow2 : row ≠ d.rows := by simpa using hrow
    obtain ⟨m1, rfl⟩ : ∃ m1, m = m1 + 1 := ⟨m - 1, by omega⟩
    simp only [] at h
    rw [if_neg (by simp only [beq_iff_eq]; omega)] at h
    obtain ⟨h0, hf1, hl1, hbc1, hrt1, hrc1⟩ := box_frameset_row_spec b style st hb
    rw [h0] at h
    have hbase1 : (box_frameset_row b style st).1.base_url = st.base_url := hf1.base
    generalize (box_frameset_row b style st).1 = s1 at h hf1 hl1 hbc1 hrt1 hrc1 hbase1
    obtain ⟨cells0, rows1, g1, g2, g3, g4, g5, g6⟩ := hA st.boxes.length s1 m1 h (by omega)
      (by omega) (by omega) (by omega) (by rw [hcount, Nat.add_zero])
    have hfl := table_frame_box_frameset_table E _ b style d row 0 (some st.boxes.length) s1 st' h
      (by omega) (fun r hr => by cases hr; omega)
    refine ⟨(st.boxes.length, cells0) :: rows1, ⟨?_, ?_, ?_, ?_⟩, ?_⟩
    · rw [g3, hbc1]
      simp
    · simp [g4]
    · intro rc hrc
      rcases List.mem_cons.mp hrc with hrc | hrc
      · subst hrc
        refine ⟨le_refl _, ?_, ?_, ?_⟩
        · rw [(hfl.type_table (by omega : st.boxes.length < s1.boxes.length) (by omega)).1]
          exact hrt1
        · show (st'.box_at st.boxes.length).children = cells0
          rw [g1, hrc1]
          rfl
        · show cells0.length = d.cols
          rw [g2]
          omega
      · obtain ⟨k1, k2, k3, k4⟩ := g5 rc hrc
        exact ⟨by omega, k2, k3, k4⟩
    · rw [List.flatMap_cons]
      exact frame_cell_forall2_weaken g6 hbase1 (by omega)
    · refine hf1.trans_table (hfl.mono_table (by omega) ?_)
      intro i hi hlt
      rcases List.mem_cons.mp hi with hi | hi
      · subst hi; exact List.mem_singleton.mpr rfl
      · simp only [Option.toList, List.mem_singleton] at hi
        omega

/-- The loops of `box_frameset` from the node `c` on, in the column `col` of
the row box `rb`, when the frame children left are as many as the cells left
in this row and in `m` more rows. -/
theorem box_frameset_table_grid (E : Env) (c : xmlNode) :
    ∀ (b style : Nat) (d : frameset_lengths) (row col rb : Nat) (st st' : content) (m : Nat),
      box_frameset_table E c b style d row col (some rb) st = some st' →
      b < st.boxes.length → rb < st.boxes.length → b ≠ rb → 1 ≤ d.cols → col ≤ d.cols →
      row + 1 + m = d.rows →
      (frame_children c).length + col = (m + 1) * d.cols →
      grid_result E d.cols b rb col m (frame_children c) st st' := by
  induction c with
  | null =>
    intro b style d row col rb st st' m h hb hrb hne hcols hcol hm hcount
    unfold box_frameset_table at h
    simp only [Option.some.injEq] at h
    subst h
    simp only [frame_children, List.length_nil, Nat.zero_add, Nat.succ_mul] at hcount
    have hm0 : m = 0 := by
      rcases Nat.eq_zero_or_pos m with h0 | h0
      · exact h0
      · have := Nat.le_mul_of_pos_left d.cols h0
        omega
    subst hm0
    refine ⟨[], [], by simp, ?_, by simp, rfl, fun rc hrc => absurd hrc (List.not_mem_nil _), ?_⟩
    · simp only [List.length_nil]
      rw [Nat.zero_mul] at hcount
      omega
    · simp only [frame_children, List.flatMap_nil, List.append_nil]
      exact List.Forall₂.nil
  | node t name hp ps tx children next _ ihn =>
    intro b style d row col rb st st' m h hb hrb hne hcols hcol hm hcount
    have hA : ∀ (row col rb : Nat) (st : content) (m : Nat), col < d.cols →
        box_frameset_table E (.node t name hp ps tx children next) b style d row col (some rb)
          st = some st' →
        b < st.boxes.length → rb < st.boxes.length → b ≠ rb → row + 1 + m = d.rows →
        (frame_children (.node t name hp ps tx children next)).length + col =
          (m + 1) * d.cols →
        grid_result E d.cols b rb col m (frame_children (.node t name hp ps tx children next))
          st st' := by
      intro row col rb st m hlt h hb hrb hne hm hcount
      rw [box_frameset_table_some E t name hp ps tx children next b style d row col rb st
        (by omega)] at h
      by_cases hc : (xmlNode.node t name hp ps tx children next).type = XML_ELEMENT_NODE ∧
          ((xmlNode.node t name hp ps tx children next).name = "frame".toList ∨
            (xmlNode.node t name hp ps tx children next).name = "frameset".toList)
      · rw [frame_children_cons_of_frame hc] at hcount ⊢
        rw [List.length_cons] at hcount
        obtain ⟨s2, hrest, hf, hl, hrbc, hcell⟩ :=
          box_frameset_cell_step E _ _ _ style d col rb st st' h hc hrb
            (fun fb cs d1 Z Z' hZ hfb =>
              table_frame_box_frameset_table E children fb cs d1 0 0 none Z Z' hZ hfb
                (fun _ hh => Option.noConfusion hh))
        obtain ⟨cells1, rows1, g1, g2, g3, g4, g5, g6⟩ :=
          ihn b style d row (col + 1) rb s2 st' m hrest (by omega) (by omega) hne hcols
            (by omega) hm (by omega)
        have hfl := table_frame_box_frameset_table E next b style d row (col + 1) (some rb)
          s2 st' hrest (by omega) (fun r hr => by cases hr; omega)
        refine ⟨st.boxes.length :: cells1, rows1, ?_, ?_, ?_, g4, ?_, ?_⟩
        · rw [g1, hrbc]
          simp
        · rw [List.length_cons, g2]
          omega
        · rw [g3, hf.box_at_table hb hb (by rw [List.mem_singleton]; exact hne)]
        · intro rc hrc
          obtain ⟨k1, k2, k3, k4⟩ := g5 rc hrc
          exact ⟨by omega, k2, k3, k4⟩
        · rw [List.cons_append]
          refine List.Forall₂.cons ?_ (frame_cell_forall2_weaken g6 hf.base (by omega))
          refine hcell.keeps_cell hfl ?_
          intro i hi
          rcases List.mem_cons.mp hi with hi | hi
          · subst hi; exact hb
          · simp only [Option.toList, List.mem_singleton] at hi
            subst hi; exact hrb
      · rw [frame_children_cons_of_not hc] at hcount ⊢
        rw [box_frameset_cell_skip E _ _ _ style d col rb st hc] at h
        exact ihn b style d row col rb st st' m h hb hrb hne hcols (by omega) hm hcount
    by_cases hfull : col = d.cols
    · subst hfull
      rw [box_frameset_table_full] at h
      have hcount2 : (frame_children (.node t name hp ps tx children next)).length =
          m * d.cols := by
        rw [Nat.succ_mul] at hcount
        omega
      obtain ⟨rows, ⟨r1, r2, r3, r4⟩, hfr⟩ := box_frameset_new_row_grid E t name hp ps tx
        children next b style d (row + 1) m st st' h
        (fun rb1 s1 m1 h1 hb1 hrb1 hne1 hm1 hc1 =>
          hA (row + 1) 0 rb1 s1 m1 (by omega) h1 hb1 hrb1 hne1 hm1 hc1)
        hb hcols (by omega) hcount2
      refine ⟨[], rows, ?_, by simp, r1, r2, r3, ?_⟩
      · rw [hfr.box_at_table hrb hrb (by rw [List.mem_singleton]; exact fun h => hne h.symm)]
        simp
      · rw [List.nil_append]
        exact r4
    · exact hA row col rb st m (by omega) h hb hrb hne hm hcount

theorem box_frameset_columns_lengths (n : xmlNode) (b : Nat) (st : content) :
    (box_frameset_columns n b st).2.rows = attribute_entries n "rows".toList ∧
    (box_frameset_columns n b st).2.cols = attribute_entries n "cols".toList := by
  unfold box_frameset_columns attribute_entries
  simp only []
  constructor
  · cases xmlGetProp n "rows".toList with
    | none => rfl
    | some s => exact box_parse_multi_lengths_length s
  · cases xmlGetProp n "cols".toList with
    | none => rfl
    | some s => exact box_parse_multi_lengths_length s

theorem attribute_entries_pos (n : xmlNode) (attr : cstr) : 1 ≤ attribute_entries n attr := by
  unfold attribute_entries
  split <;> omega

theorem forall2_right_mem {α β : Type} {R : α → β → Prop} {l1 : List α} {l2 : List β}
    (h : List.Forall₂ R l1 l2) : ∀ y ∈ l2, ∃ x ∈ l1, R x y := by
  induction h with
  | nil => intro y hy; exact absurd hy (List.not_mem_nil _)
  | cons hxy _ ih =>
    intro y hy
    rcases List.mem_cons.mp hy with hy | hy
    · subst hy
      exact ⟨_, List.mem_cons_self _ _, hxy⟩
    · obtain ⟨x, hx, hr⟩ := ih y hy
      exact ⟨x, List.mem_cons_of_mem _ hx, hr⟩

/-- C12: for a frameset whose `rows` attribute has R entries and `cols`
attribute has C entries (an absent attribute counting as 1) and whose `frame`
and `frameset` element children number exactly R * C, `box_frameset` (which
returns a result for a box with a style when every fetch is accepted) creates
exactly R table-row boxes as (new) children of the frameset box, each with
exactly C table-cell children, the cells being those of the frame children in
document order row by row (`frame_cell`); other child nodes are skipped. -/
theorem box_frameset_grid (E : Env) (n : xmlNode) (b : Nat) (st : content)
    (hb : b < st.boxes.length)
    (hcount : (frame_children n.children).length =
      attribute_entries n "rows".toList * attribute_entries n "cols".toList) :
    ((∀ url, E.fetch_ok url = true) → (st.box_at b).style ≠ none →
      (box_frameset E n b st).isSome) ∧
    ∀ (st' : content) (cc : Bool), box_frameset E n b st = some (st', cc) →
      cc = false ∧
      ∃ rows : List (Nat × List Nat),
        rows.length = attribute_entries n "rows".toList ∧
        (st'.box_at b).children = (st.box_at b).children ++ rows.map Prod.fst ∧
        (∀ rc ∈ rows, (st'.box_at rc.1).type = BOX_TABLE_ROW ∧
          (st'.box_at rc.1).children = rc.2 ∧
          rc.2.length = attribute_entries n "cols".toList ∧
          ∀ cell ∈ rc.2, (st'.box_at cell).type = BOX_TABLE_CELL) ∧
        List.Forall₂ (frame_cell E st.base_url st.boxes.length st')
          (frame_children n.children) (rows.flatMap Prod.snd) := by
  refine ⟨fun hE hs => box_frameset_isSome E hE n b st hs, ?_⟩
  intro st' cc h
  unfold box_frameset at h
  split at h
  · exact Option.noConfusion h
  rename_i style hstyle
  simp only [] at h
  split at h
  · exact Option.noConfusion h
  rename_i s2 hs2
  simp only [Option.some.injEq, Prod.mk.injEq] at h
  obtain ⟨h, hcc⟩ := h
  subst h
  refine ⟨hcc.symm, ?_⟩
  obtain ⟨hR, hC⟩ := box_frameset_columns_lengths n b st
  have hl := length_box_frameset_columns n b st
  have hch : ((box_frameset_columns n b st).1.box_at b).children = (st.box_at b).children := by
    unfold box_frameset_columns
    simp only [box_set_type]
    rw [box_at_modify_box_self _ _ (by rw [length_boxes_modify_box]; exact hb)]
    simp only []
    rw [box_at_modify_box_self _ _ hb]
  have hbase : (box_frameset_columns n b st).1.base_url = st.base_url := rfl
  generalize (box_frameset_columns n b st).1 = s0 at hs2 hl hch hbase
  generalize (box_frameset_columns n b st).2 = d at hs2 hR hC
  have hRpos := attribute_entries_pos n "rows".toList
  have hCpos := attribute_entries_pos n "cols".toList
  rw [← hR, ← hC] at hcount
  cases hnc : n.children with
  | null =>
    rw [hnc] at hcount
    simp only [frame_children, List.length_nil] at hcount
    have : 1 ≤ d.rows * d.cols := Nat.mul_pos (by omega) (by omega)
    omega
  | node t name hp ps tx children next =>
    rw [hnc] at hs2 hcount
    rw [box_frameset_table_none] at hs2
    obtain ⟨rows, ⟨r1, r2, r3, r4⟩, -⟩ := box_frameset_new_row_grid E t name hp ps tx children
      next b style d 0 d.rows s0 s2 hs2
      (fun rb1 s1 m1 h1 hb1 hrb1 hne1 hm1 hc1 =>
        box_frameset_table_grid E _ b style d 0 0 rb1 s1 s2 m1 h1 hb1 hrb1 hne1 (by omega)
          (by omega) hm1 hc1)
      (by omega) (by omega) (by omega) hcount
    have e0 : ∀ i, (box_frameset_width style s2).box_at i = s2.box_at i :=
      fun i => @box_at_of_boxes_eq s2 (box_frameset_width style s2) rfl i
    have r4' : List.Forall₂ (frame_cell E st.base_url st.boxes.length
        (box_frameset_width style s2)) (frame_children (.node t name hp ps tx children next))
        (rows.flatMap Prod.snd) := by
      rw [hbase, hl] at r4
      refine r4.imp ?_
      intro c cell ⟨k1, k2, k3, k4⟩
      refine ⟨k1, by rw [e0]; exact k2, ?_, ?_⟩
      · intro hn
        obtain ⟨fb, q1, q2, q3⟩ := k3 hn
        exact ⟨fb, q1, by rw [e0]; exact q2, by rw [e0]; exact q3⟩
      · intro hn
        obtain ⟨q1, q2⟩ := k4 hn
        exact ⟨by rw [e0]; exact q1, q2⟩
    refine ⟨rows, by rw [r2, hR], ?_, ?_, r4'⟩
    · rw [e0, r1, hch]
    · intro rc hrc
      obtain ⟨-, k2, k3, k4⟩ := r3 rc hrc
      refine ⟨by rw [e0]; exact k2, by rw [e0]; exact k3, by rw [k4, hC], ?_⟩
      intro cell hcell
      have hmem : cell ∈ rows.flatMap Prod.snd := List.mem_flatMap.mpr ⟨rc, hrc, hcell⟩
      obtain ⟨c, -, hfc⟩ := forall2_right_mem r4' cell hmem
      exact hfc.2.1

theorem box_frameset_grid_witness :
    ∃ (st' : content) (cc : Bool),
      box_frameset example_env example_frameset 1
        (box_create (some 0) none none none none example_root).1 = some (st', cc) ∧
      (frame_children example_frameset.children).length =
        attribute_entries example_frameset "rows".toList *
          attribute_entries example_frameset "cols".toList ∧
      cc = false ∧
      ∃ rows : List (Nat × List Nat),
        rows.length = attribute_entries example_frameset "rows".toList ∧
        (st'.box_at 1).children =
          ((box_create (some 0) none none none none example_root).1.box_at 1).children ++
            rows.map Prod.fst ∧
        (∀ rc ∈ rows, (st'.box_at rc.1).type = BOX_TABLE_ROW ∧
          (st'.box_at rc.1).children = rc.2 ∧
          rc.2.length = attribute_entries example_frameset "cols".toList ∧
          ∀ cell ∈ rc.2, (st'.box_at cell).type = BOX_TABLE_CELL) ∧
        List.Forall₂
          (frame_cell example_env
            (box_create (some 0) none none none none example_root).1.base_url
            (box_create (some 0) none none none none example_root).1.boxes.length st')
          (frame_children example_frameset.children) (rows.flatMap Prod.snd) :=
  ⟨_, _, rfl, by decide,
    (box_frameset_grid example_env example_frameset 1
      (box_create (some 0) none none none none example_root).1 (by decide) (by decide)).2 _ _
      rfl⟩

/-- For C12: the frameset `rows="50%,*"` with two frame children gives two rows
(boxes 2 and 4, the children of the frameset box 1) of one cell each (boxes 3
and 5), and the frames `a` and `b` are fetched for the cells 3 and 5. -/
theorem box_frameset_example :
    (box_frameset example_env example_frameset 1
        (box_create (some 0) none none none none example_root).1).map
      (fun r => (r.1.boxes.map (fun x => (x.type, x.children)),
        r.1.object.map (fun o => (o.url, o.box)))) =
      some ([(BOX_BLOCK, []), (BOX_TABLE, [2, 4]), (BOX_TABLE_ROW, [3]), (BOX_TABLE_CELL, []),
             (BOX_TABLE_ROW, [5]), (BOX_TABLE_CELL, [])],
            [("a".toList, 3), ("b".toList, 5)]) := by
  decide

/-! ## The float of the styles -/

theorem keeps_float.refl_float (m : Nat) (st : content) : keeps_float m st st :=
  ⟨le_refl _, fun _ _ => rfl⟩

theorem keeps_float.trans_float {m : Nat} {a b c : content} (h1 : keeps_float m a b)
    (h2 : keeps_float m b c) : keeps_float m a c :=
  ⟨le_trans h1.1 h2.1, fun i hi => (h2.2 i hi).trans (h1.2 i hi)⟩

theorem keeps_float.mono_float {m k : Nat} {a b : content} (h : keeps_float m a b) (hk : k ≤ m) :
    keeps_float k a b :=
  ⟨h.1, fun i hi => h.2 i (lt_of_lt_of_le hi hk)⟩

theorem keeps_float_of_styles_eq {m : Nat} {st st' : content} (h : st'.styles = st.styles) :
    keeps_float m st st' :=
  ⟨by rw [h], fun i _ => by simp [content.style_at, h]⟩

theorem keeps_float.step_float {m : Nat} {X Y Z : content} (h : keeps_float m X Y)
    (hm : m ≤ X.styles.length) (hs : keeps_float Y.styles.length Y Z) : keeps_float m X Z :=
  h.trans_float (hs.mono_float (le_trans hm h.1))

theorem keeps_float_new_style (st : content) (s : css_style) :
    keeps_float st.styles.length st (st.new_style s).1 :=
  ⟨by simp, fun _ hi => by rw [style_at_new_style st s hi]⟩

theorem keeps_float_modify_style {m : Nat} (st : content) (j : Nat) (f : css_style → css_style)
    (hf : m ≤ j ∨ ∀ s, (f s).float_ = s.float_) : keeps_float m st (st.modify_style j f) := by
  refine ⟨by simp, fun i hi => ?_⟩
  rw [style_at_modify_style]
  split
  · rename_i hij
    rcases hf with hf | hf
    · omega
    · exact hf _
  · rfl

theorem handler_float.refl_hfloat {box : Nat} {st : content} (hb : box < st.boxes.length) :
    handler_float box st st :=
  ⟨hb, keeps_float.refl_float _ _⟩

theorem handler_float.styles_eq_hfloat {box : Nat} {st X : content}
    (h : handler_float box st X) (Y : content) (hY : Y.styles = X.styles) :
    handler_float box st Y :=
  ⟨h.1, h.2.trans_float (keeps_float_of_styles_eq hY)⟩

theorem handler_float.modify_box_hfloat {box : Nat} {st X : content} (j : Nat)
    (f : NetSurf.box → NetSurf.box)
    (_ : ∀ b : NetSurf.box, (f b).parent = b.parent ∧ (f b).inline_end = b.inline_end ∧
      (f b).style = b.style ∧ (f b).type = b.type)
    (h : handler_float box st X) : handler_float box st (X.modify_box j f) :=
  h.styles_eq_hfloat _ rfl

theorem handler_float.set_type_hfloat {box : Nat} {st X : content} (t : box_type)
    (_ : t ≠ BOX_INLINE_CONTAINER)
    (h : handler_float box st X) : handler_float box st (box_set_type box t X) :=
  h.styles_eq_hfloat _ rfl

theorem handler_float.modify_control_hfloat {box : Nat} {st X : content} (g : Nat)
    (f : form_control → form_control)
    (h : handler_float box st X) : handler_float box st (X.modify_control g f) :=
  h.styles_eq_hfloat _ rfl

theorem handler_float.modify_style_hfloat {box : Nat} {st X : content} (s : Nat)
    (f : css_style → css_style) (hf : ∀ x, (f x).float_ = x.float_)
    (h : handler_float box st X) : handler_float box st (X.modify_style s f) :=
  ⟨h.1, h.2.trans_float (keeps_float_modify_style X s f (Or.inr hf))⟩

theorem handler_float.form_new_control_hfloat {box : Nat} {st X : content} (t : gadget_type)
    (h : handler_float box st X) : handler_float box st (form_new_control t X).1 :=
  h.styles_eq_hfloat _ rfl

theorem handler_float.box_form_add_control_hfloat {box : Nat} {st X : content} (g : Nat)
    (h : handler_float box st X) : handler_float box st (box_form_add_control g X) :=
  h.styles_eq_hfloat _ (styles_box_form_add_control g X)

theorem handler_float.html_fetch_object_hfloat {box : Nat} {st X Y : content} {E : Env} {url : cstr}
    {b : Nat} {p : permitted_types} {w : Int} {hh : Int} {bg : Bool} {fr : Option cstr}
    (hf : html_fetch_object E url b p w hh bg fr X = some Y)
    (h : handler_float box st X) : handler_float box st Y :=
  h.styles_eq_hfloat _ (boxes_html_fetch_object hf).2

theorem handler_float.box_gadget_text_hfloat {box : Nat} {st X : content} (b : Nat) (text : cstr)
    (h : handler_float box st X) : handler_float box st (box_gadget_text b text X) :=
  h.styles_eq_hfloat _ (styles_box_gadget_text b text X)

theorem handler_float.box_usemap_hfloat {box : Nat} {st X : content} (n : xmlNode) (b : Nat)
    (h : handler_float box st X) : handler_float box st (box_usemap n b X) :=
  h.styles_eq_hfloat _ rfl

theorem handler_float.extend_hfloat {box : Nat} {st X Y : content} (h : handler_float box st X)
    (hg : keeps_float X.styles.length X Y) : handler_float box st Y :=
  ⟨h.1, h.2.step_float (le_refl _) hg⟩

theorem handler_float_box_body {n : xmlNode} {box : Nat} {st st' : content} {cc : Bool}
    (h : box_body n box st = some (st', cc)) (hb : box < st.boxes.length) :
    handler_float box st st' := by
  unfold box_body at h
  cases h
  exact (handler_float.refl_hfloat hb).styles_eq_hfloat _ rfl

theorem handler_float_box_br {n : xmlNode} {box : Nat} {st st' : content} {cc : Bool}
    (h : box_br n box st = some (st', cc)) (hb : box < st.boxes.length) :
    handler_float box st st' := by
  unfold box_br at h
  cases h
  exact (handler_float.refl_hfloat hb).set_type_hfloat _ (by simp)

theorem handler_float_box_a {E : Env} {n : xmlNode} {box : Nat} {st st' : content} {cc : Bool}
    (h : box_a E n box st = some (st', cc)) (hb : box < st.boxes.length) :
    handler_float box st st' := by
  unfold box_a at h
  simp only at h
  split at h
  · exact Option.noConfusion h
  · rename_i st1 hst1
    have h1 : handler_float box st st1 := by
      split at hst1
      · split at hst1
        · exact Option.noConfusion hst1
        · cases hst1
          refine handler_float.modify_box_hfloat _ _ ?_ (handler_float.refl_hfloat hb)
          exact fun _ => ⟨rfl, rfl, rfl, rfl⟩
        · cases hst1
          exact handler_float.refl_hfloat hb
      · cases hst1
        exact handler_float.refl_hfloat hb
    cases h
    have h2 := h1.modify_box_hfloat box
      (fun b => { b with id := box_get_attribute n "name".toList b.id })
      (fun _ => ⟨rfl, rfl, rfl, rfl⟩)
    split
    · split
      · refine handler_float.modify_box_hfloat _ _ ?_ h2
        exact fun _ => ⟨rfl, rfl, rfl, rfl⟩
      · split
        · refine handler_float.modify_box_hfloat _ _ ?_ h2
          exact fun _ => ⟨rfl, rfl, rfl, rfl⟩
        · split
          · refine handler_float.modify_box_hfloat _ _ ?_ h2
            exact fun _ => ⟨rfl, rfl, rfl, rfl⟩
          · split
            · refine handler_float.modify_box_hfloat _ _ ?_ h2
              exact fun _ => ⟨rfl, rfl, rfl, rfl⟩
            · exact h2
    · exact h2

theorem handler_float_box_image {E : Env} {n : xmlNode} {box : Nat} {st st' : content}
    {cc : Bool} (h : box_image E n box st = some (st', cc)) (hb : box < st.boxes.length) :
    handler_float box st st' := by
  unfold box_image at h
  simp only at h
  have h1 : handler_float box st (box_usemap n box
      (match xmlGetProp n "alt".toList with
        | some alt =>
          st.modify_box box (fun b =>
            { b with text := some (squash_whitespace alt),
                     length := (squash_whitespace alt).length })
        | none => st)) := by
    apply handler_float.box_usemap_hfloat
    split
    · refine handler_float.modify_box_hfloat _ _ ?_ (handler_float.refl_hfloat hb)
      exact fun _ => ⟨rfl, rfl, rfl, rfl⟩
    · exact handler_float.refl_hfloat hb
  split at h
  · cases h
    exact h1
  · split at h
    · exact Option.noConfusion h
    · cases h
      exact h1
    · split at h
      · exact Option.noConfusion h
      · rename_i st2 hf
        cases h
        exact h1.html_fetch_object_hfloat hf

theorem handler_float_box_iframe {E : Env} {n : xmlNode} {box : Nat} {st st' : content}
    {cc : Bool} (h : box_iframe E n box st = some (st', cc)) (hb : box < st.boxes.length) :
    handler_float box st st' := by
  unfold box_iframe at h
  split at h
  · cases h
    exact handler_float.refl_hfloat hb
  · split at h
    · exact Option.noConfusion h
    · cases h
      exact handler_float.refl_hfloat hb
    · split at h
      · cases h
        exact handler_float.refl_hfloat hb
      · split at h
        · exact Option.noConfusion h
        · rename_i st2 hf
          cases h
          exact (handler_float.refl_hfloat hb).html_fetch_object_hfloat hf

theorem handler_float_box_form {n : xmlNode} {box : Nat} {st st' : content} {cc : Bool}
    (h : box_form n box st = some (st', cc)) (hb : box < st.boxes.length) :
    handler_float box st st' := by
  unfold box_form at h
  cases h
  exact (handler_float.refl_hfloat hb).styles_eq_hfloat _ rfl

theorem handler_float_box_embed {E : Env} {n : xmlNode} {box : Nat} {st st' : content}
    {cc : Bool} (h : box_embed E n box st = some (st', cc)) (hb : box < st.boxes.length) :
    handler_float box st st' := by
  unfold box_embed at h
  split at h
  · cases h
    exact handler_float.refl_hfloat hb
  · split at h
    · exact Option.noConfusion h
    · cases h
      exact handler_float.refl_hfloat hb
    · split at h
      · cases h
        exact handler_float.refl_hfloat hb
      · simp only at h
        split at h
        · exact Option.noConfusion h
        · rename_i st2 hf
          cases h
          refine handler_float.html_fetch_object_hfloat hf ?_
          refine handler_float.modify_box_hfloat _ _ ?_ (handler_float.refl_hfloat hb)
          exact fun _ => ⟨rfl, rfl, rfl, rfl⟩

theorem handler_float_box_button {n : xmlNode} {box : Nat} {st X st' : content} {cc : Bool}
    (h : box_button n box X = some (st', cc)) (hX : handler_float box st X) :
    handler_float box st st' := by
  unfold box_button at h
  simp only at h
  have h1 := hX.set_type_hfloat BOX_INLINE_BLOCK (by simp)
  split at h
  · cases h
    exact h1
  · rename_i st1 gadget hg
    cases h
    have h2 : handler_float box st st1 := by
      split at hg
      · cases hg
        exact h1.form_new_control_hfloat _
      · split at hg
        · cases hg
          exact h1.form_new_control_hfloat _
        · exact Option.noConfusion hg
    refine handler_float.modify_control_hfloat _ _ ?_
    refine handler_float.box_form_add_control_hfloat _ ?_
    refine handler_float.modify_box_hfloat _ _ ?_ h2
    exact fun _ => ⟨rfl, rfl, rfl, rfl⟩

theorem handler_float_box_input_text {n : xmlNode} {box : Nat} {password : Bool}
    {st X st' : content}
    (h : box_input_text n box password X = some st') (hX : handler_float box st X) :
    handler_float box st st' := by
  unfold box_input_text at h
  simp only at h
  cases h
  refine handler_float.box_gadget_text_hfloat _ _ ?_
  refine handler_float.modify_control_hfloat _ _ ?_
  refine handler_float.modify_box_hfloat _ _ ?_ ?_
  · exact fun _ => ⟨rfl, rfl, rfl, rfl⟩
  refine handler_float.form_new_control_hfloat _ ?_
  exact hX.set_type_hfloat BOX_INLINE_BLOCK (by simp)

theorem handler_float_box_input_type {E : Env} {n : xmlNode} {box : Nat} {st st' : content}
    {g : Option Nat} (h : box_input_type E n box st = some (st', g))
    (hb : box < st.boxes.length) :
    handler_float box st st' := by
  have hdefault : ∀ password : Bool, box_input_default n box password st = some (st', g) →
      handler_float box st st' := by
    intro password hd
    unfold box_input_default at hd
    split at hd
    · exact Option.noConfusion hd
    · rename_i st2 hit
      cases hd
      exact handler_float_box_input_text hit (handler_float.refl_hfloat hb)
  unfold box_input_type at h
  simp only at h
  split at h
  · exact hdefault _ h
  split at h
  · unfold box_input_file at h
    cases h
    refine handler_float.modify_control_hfloat _ _ ?_
    refine handler_float.modify_box_hfloat _ _ ?_ ?_
    · exact fun _ => ⟨rfl, rfl, rfl, rfl⟩
    refine handler_float.form_new_control_hfloat _ ?_
    exact (handler_float.refl_hfloat hb).set_type_hfloat BOX_INLINE_BLOCK (by simp)
  split at h
  · unfold box_input_hidden at h
    have h1 : handler_float box st
        (match (st.box_at box).style with
          | some s => st.modify_style s (fun x => { x with display := CSS_DISPLAY_NONE })
          | none => st) := by
      split
      · exact handler_float.modify_style_hfloat _ _ (fun _ => rfl) (handler_float.refl_hfloat hb)
      · exact handler_float.refl_hfloat hb
    simp only at h
    split at h
    · cases h
      refine handler_float.modify_control_hfloat _ _ ?_
      exact handler_float.form_new_control_hfloat _ h1
    · cases h
      exact handler_float.form_new_control_hfloat _ h1
  split at h
  · unfold box_input_checkbox at h
    cases h
    split
    · refine handler_float.modify_control_hfloat _ _ ?_
      refine handler_float.modify_control_hfloat _ _ ?_
      refine handler_float.modify_box_hfloat _ _ ?_ ?_
      · exact fun _ => ⟨rfl, rfl, rfl, rfl⟩
      exact handler_float.form_new_control_hfloat _ (handler_float.refl_hfloat hb)
    · refine handler_float.modify_control_hfloat _ _ ?_
      refine handler_float.modify_box_hfloat _ _ ?_ ?_
      · exact fun _ => ⟨rfl, rfl, rfl, rfl⟩
      exact handler_float.form_new_control_hfloat _ (handler_float.refl_hfloat hb)
  split at h
  · unfold box_input_submit at h
    split at h
    · exact Option.noConfusion h
    · rename_i st2 cc2 hbt
      cases h
      refine handler_float.box_gadget_text_hfloat _ _ ?_
      exact handler_float_box_button hbt (handler_float.refl_hfloat hb)
  split at h
  · unfold box_input_button at h
    split at h
    · exact Option.noConfusion h
    · rename_i st2 cc2 hbt
      cases h
      refine handler_float.box_gadget_text_hfloat _ _ ?_
      exact handler_float_box_button hbt (handler_float.refl_hfloat hb)
  split at h
  · unfold box_input_image at h
    have h3 : handler_float box st
        (((form_new_control GADGET_IMAGE st).1.modify_box box
          (fun b => { b with gadget := some (form_new_control GADGET_IMAGE st).2 })).modify_control
          (form_new_control GADGET_IMAGE st).2
          (fun g => { g with box := some box, type := GADGET_IMAGE })) := by
      refine handler_float.modify_control_hfloat _ _ ?_
      refine handler_float.modify_box_hfloat _ _ ?_ ?_
      · exact fun _ => ⟨rfl, rfl, rfl, rfl⟩
      exact handler_float.form_new_control_hfloat _ (handler_float.refl_hfloat hb)
    simp only at h
    split at h
    · split at h
      · split at h
        · split at h
          · exact Option.noConfusion h
          · rename_i st2 hf
            cases h
            exact handler_float.html_fetch_object_hfloat hf h3
        · cases h
          exact h3
      · cases h
        exact h3
    · cases h
      exact h3
  · exact hdefault _ h

theorem handler_float_box_input {E : Env} {n : xmlNode} {box : Nat} {st st' : content}
    {cc : Bool} (h : box_input E n box st = some (st', cc)) (hb : box < st.boxes.length) :
    handler_float box st st' := by
  unfold box_input at h
  split at h
  · exact Option.noConfusion h
  · rename_i st1 hbr
    cases h
    exact handler_float_box_input_type hbr hb
  · rename_i st1 gadget hbr
    cases h
    refine handler_float.modify_control_hfloat _ _ ?_
    exact handler_float.box_form_add_control_hfloat _ (handler_float_box_input_type hbr hb)

theorem handler_float_box_select {E : Env} {n : xmlNode} {box : Nat} {st st' : content}
    {cc : Bool} (h : box_select E n box st = some (st', cc)) (hb : box < st.boxes.length) :
    handler_float box st st' := by
  unfold box_select at h
  simp only at h
  have h1 : handler_float box st
      ((form_new_control GADGET_SELECT st).1.modify_control (form_new_control GADGET_SELECT st).2
        (fun g => box_select_options false n.children
          { g with multiple := (xmlGetProp n "multiple".toList).isSome })) := by
    refine handler_float.modify_control_hfloat _ _ ?_
    exact handler_float.form_new_control_hfloat _ (handler_float.refl_hfloat hb)
  split at h
  · cases h
    exact h1
  · cases h
    refine handler_float.box_form_add_control_hfloat _ ?_
    refine handler_float.box_gadget_text_hfloat _ _ ?_
    refine handler_float.modify_control_hfloat _ _ ?_
    refine handler_float.modify_box_hfloat _ _ ?_ ?_
    · exact fun _ => ⟨rfl, rfl, rfl, rfl⟩
    refine handler_float.set_type_hfloat _ (by simp) ?_
    exact handler_float.modify_control_hfloat _ _ h1

theorem handler_float_box_textarea {n : xmlNode} {box : Nat} {st st' : content}
    {cc : Bool} (h : box_textarea n box st = some (st', cc)) (hb : box < st.boxes.length) :
    handler_float box st st' := by
  unfold box_textarea at h
  simp only [snd_box_create] at h
  cases h
  refine (handler_float.refl_hfloat hb).styles_eq_hfloat _ ?_
  rw [styles_box_form_add_control]
  split
  · simp
  · rw [styles_box_textarea_rest, styles_box_textarea_text]
    simp

/-- A row of a frameset leaves the float of the styles. -/
theorem keeps_float_box_frameset_row {m : Nat} (box style : Nat) (st : content)
    (hm : m ≤ st.styles.length) : keeps_float m st (box_frameset_row box style st).1 := by
  unfold box_frameset_row
  simp only [snd_new_style, snd_box_create]
  refine ((keeps_float_new_style st (st.style_at style)).mono_float hm).trans_float
    (keeps_float_of_styles_eq ?_)
  simp

theorem keeps_float_box_frameset_empty_rows {m : Nat} (box style : Nat) (k : Nat) :
    ∀ st : content, m ≤ st.styles.length →
      keeps_float m st (box_frameset_empty_rows box style k st) := by
  induction k with
  | zero =>
    intro st _
    exact keeps_float.refl_float _ _
  | succ k ih =>
    intro st hm
    unfold box_frameset_empty_rows
    have h1 := @keeps_float_box_frameset_row m box style st hm
    exact h1.trans_float (ih _ (le_trans hm h1.1))

theorem keeps_float_box_frameset_new_row {m : Nat}
    (cell : Nat → Nat → content → Option content) (box style : Nat) (d : frameset_lengths)
    (row : Nat) (st st' : content)
    (h : box_frameset_new_row cell box style d row st = some st')
    (hcell : ∀ col rb Y Y', cell col rb Y = some Y' → m ≤ Y.styles.length →
      keeps_float m Y Y')
    (hm : m ≤ st.styles.length) : keeps_float m st st' := by
  unfold box_frameset_new_row at h
  have h1 := @keeps_float_box_frameset_row m box style st hm
  split at h
  · cases h
    exact keeps_float.refl_float _ _
  · simp only at h
    split at h
    · cases h
      exact h1.trans_float (keeps_float_box_frameset_empty_rows box style _ _ (le_trans hm h1.1))
    · exact h1.trans_float (hcell _ _ _ _ h (le_trans hm h1.1))

theorem keeps_float_box_frameset_cell {m : Nat} (E : Env) (c : xmlNode)
    (nested : Nat → Nat → frameset_lengths → content → Option content)
    (rest : Nat → content → Option content)
    (style : Nat) (d : frameset_lengths) (col rb : Nat) (st st' : content)
    (h : box_frameset_cell E c nested rest style d col rb st = some st')
    (hnested : ∀ fb cs d1 Y Y', nested fb cs d1 Y = some Y' →
      m ≤ Y.styles.length → keeps_float m Y Y')
    (hrest : ∀ col Y Y', rest col Y = some Y' → m ≤ Y.styles.length → keeps_float m Y Y')
    (hm : m ≤ st.styles.length) : keeps_float m st st' := by
  unfold box_frameset_cell at h
  split at h
  · exact hrest _ _ _ h hm
  · simp only [snd_new_style, snd_box_create, boxes_new_style, boxes_modify_style] at h
    have h1 : keeps_float m st (((st.new_style (st.style_at style)).1).modify_style
        st.styles.length (fun s => { s with overflow := CSS_OVERFLOW_AUTO })) :=
      ((keeps_float_new_style st (st.style_at style)).mono_float hm).trans_float
        (keeps_float_modify_style _ _ _ (Or.inr fun _ => rfl))
    generalize (((st.new_style (st.style_at style)).1).modify_style
        st.styles.length (fun s => { s with overflow := CSS_OVERFLOW_AUTO })) = s1 at h h1
    have h2 : keeps_float m s1 (box_add_child rb st.boxes.length
        (box_set_type st.boxes.length BOX_TABLE_CELL
          (box_create (some st.styles.length) none none none none s1).1)) :=
      keeps_float_of_styles_eq (by simp)
    have h12 := h1.trans_float h2
    generalize (box_add_child rb st.boxes.length
        (box_set_type st.boxes.length BOX_TABLE_CELL
          (box_create (some st.styles.length) none none none none s1).1)) = s2 at h h12
    clear h1 h2
    have hm2 : m ≤ s2.styles.length := le_trans hm h12.1
    split at h
    · have hc : keeps_float m s2 (box_frameset_columns c s2.boxes.length
          (box_create (some st.styles.length) none none none none s2).1).1 :=
        keeps_float_of_styles_eq (by rw [styles_box_frameset_columns]; simp)
      generalize (box_frameset_columns c s2.boxes.length
          (box_create (some st.styles.length) none none none none s2).1).1 = s4 at h hc
      generalize (box_frameset_columns c s2.boxes.length
          (box_create (some st.styles.length) none none none none s2).1).2 = d1 at h
      split at h
      · exact Option.noConfusion h
      · rename_i s5 hs5
        have hc3 := hnested _ _ _ _ _ hs5 (le_trans hm2 hc.1)
        have hc4a : keeps_float m s5 (box_frameset_width st.styles.length s5) := by
          unfold box_frameset_width
          exact keeps_float_modify_style s5 _ _ (Or.inr fun _ => rfl)
        have hc4 : keeps_float m s5 (box_add_child st.boxes.length s2.boxes.length
            (box_frameset_width st.styles.length s5)) :=
          hc4a.trans_float (keeps_float_of_styles_eq (by simp))
        have hall := ((h12.trans_float hc).trans_float hc3).trans_float hc4
        exact hall.trans_float (hrest _ _ _ h (le_trans hm hall.1))
    · split at h
      · exact h12.trans_float (hrest _ _ _ h hm2)
      · split at h
        · split at h
          · exact h12.trans_float (hrest _ _ _ h hm2)
          · split at h
            · exact Option.noConfusion h
            · rename_i s3 hs3
              have hb := boxes_html_fetch_object hs3
              have hc : keeps_float m s2 s3 := keeps_float_of_styles_eq hb.2
              exact (h12.trans_float hc).trans_float (hrest _ _ _ h (le_trans hm2 hc.1))
        · exact h12.trans_float (hrest _ _ _ h hm2)

/-- The loops of `box_frameset` leave the float of the styles. -/
theorem keeps_float_box_frameset_table (E : Env) (c : xmlNode) :
    ∀ (m : Nat) (box style : Nat) (d : frameset_lengths) (row col : Nat)
      (row_box : Option Nat) (st st' : content),
      box_frameset_table E c box style d row col row_box st = some st' →
      m ≤ st.styles.length → keeps_float m st st' := by
  induction c with
  | null =>
    intro m box style d row col row_box st st' h _
    unfold box_frameset_table at h
    cases h
    exact keeps_float.refl_float _ _
  | node t name hp ps tx children next ihc ihn =>
    intro m box style d row col row_box st st' h hm
    unfold box_frameset_table at h
    have hcell : ∀ (row col rb : Nat) (Y Y' : content),
        box_frameset_cell E (.node t name hp ps tx children next)
          (fun frameset_box cell_style d1 st =>
            box_frameset_table E children frameset_box cell_style d1 0 0 none st)
          (fun col st => box_frameset_table E next box style d row col (some rb) st)
          style d col rb Y = some Y' → m ≤ Y.styles.length → keeps_float m Y Y' := by
      intro row col rb Y Y' hY hmY
      refine keeps_float_box_frameset_cell E _ _ _ style d col rb Y Y' hY ?_ ?_ hmY
      · intro fb cs d1 Z Z' hZ hm
        exact ihc m fb cs d1 0 0 none Z Z' hZ hm
      · intro col Z Z' hZ hm
        exact ihn m box style d row col (some rb) Z Z' hZ hm
    split at h
    · exact keeps_float_box_frameset_new_row _ box style d row st st' h
        (fun col rb Y Y' hY => hcell row col rb Y Y' hY) hm
    · split at h
      · exact keeps_float_box_frameset_new_row _ box style d (row + 1) st st' h
          (fun col rb Y Y' hY => hcell (row + 1) col rb Y Y' hY) hm
      · exact hcell row col _ st st' h hm

theorem handler_float_box_frameset {E : Env} {n : xmlNode} {box : Nat} {st st' : content}
    {cc : Bool} (h : box_frameset E n box st = some (st', cc)) (hb : box < st.boxes.length) :
    handler_float box st st' := by
  unfold box_frameset at h
  split at h
  · exact Option.noConfusion h
  · simp only at h
    have h1 : handler_float box st (box_frameset_columns n box st).1 :=
      (handler_float.refl_hfloat hb).styles_eq_hfloat _ (styles_box_frameset_columns n box st)
    split at h
    · exact Option.noConfusion h
    · rename_i s2 hs2
      cases h
      have h2 := keeps_float_box_frameset_table E _ st.styles.length _ _ _ _ _ _ _ _ hs2
        h1.2.1
      unfold box_frameset_width
      refine handler_float.modify_style_hfloat _ _ (fun _ => rfl) ?_
      exact ⟨h1.1, h1.2.trans_float h2⟩

theorem handler_float_box_object {E : Env} {conv : children_conversion} {n : xmlNode}
    {box : Nat} {st st' : content} {cc : Bool} (hconv : conv_float conv)
    (h : box_object E conv n box st = some (st', cc)) (hb : box < st.boxes.length) :
    handler_float box st st' := by
  unfold box_object at h
  simp only at h
  have h1 : handler_float box st (box_usemap n box st) :=
    handler_float.box_usemap_hfloat n box (handler_float.refl_hfloat hb)
  generalize box_usemap n box st = s1 at h h1
  split at h
  · exact Option.noConfusion h
  split at h
  · exact Option.noConfusion h
  split at h
  · exact Option.noConfusion h
  · cases h; exact h1
  split at h
  · cases h; exact h1
  split at h
  · cases h; exact h1
  split at h
  · exact Option.noConfusion h
  rename_i s2 hs2
  split at h
  · exact Option.noConfusion h
  split at h
  · exact Option.noConfusion h
  rename_i s3 ic3 hs3
  cases h
  have h2 : handler_float box st s2 := by
    refine handler_float.html_fetch_object_hfloat hs2 ?_
    refine handler_float.modify_box_hfloat _ _ ?_ h1
    exact fun _ => ⟨rfl, rfl, rfl, rfl⟩
  refine handler_float.modify_box_hfloat _ _ ?_ ?_
  · exact fun _ => ⟨rfl, rfl, rfl, rfl⟩
  exact h2.extend_hfloat (hconv _ _ _ _ _ _ _ _ _ hs3)

theorem handler_float_box_special {E : Env} {conv : children_conversion}
    {convert : element_convert} {n : xmlNode}
    {box : Nat} {st st' : content} {cc : Bool} (hconv : conv_float conv)
    (h : box_special E conv convert n box st = some (st', cc)) (hb : box < st.boxes.length) :
    handler_float box st st' := by
  cases convert <;> simp only [box_special] at h
  · exact handler_float_box_a h hb
  · exact handler_float_box_body h hb
  · exact handler_float_box_br h hb
  · exact handler_float_box_button h (handler_float.refl_hfloat hb)
  · exact handler_float_box_embed h hb
  · exact handler_float_box_form h hb
  · exact handler_float_box_frameset h hb
  · exact handler_float_box_iframe h hb
  · exact handler_float_box_image h hb
  · exact handler_float_box_input h hb
  · exact handler_float_box_object hconv h hb
  · exact handler_float_box_select h hb
  · exact handler_float_box_textarea h hb

theorem keeps_float_box_set_cellpadding_children {m : Nat} (value : Int) (fuel : Nat) :
    ∀ (children : List Nat) (st : content),
      keeps_float m st (box_set_cellpadding_children value fuel children st) := by
  induction fuel with
  | zero => intro children st; exact keeps_float.refl_float _ _
  | succ fuel ih =>
    intro children st
    unfold box_set_cellpadding_children
    refine foldl_invariant (keeps_float m) (keeps_float.refl_float m)
      (fun a b c h1 h2 => h1.trans_float h2) _ ?_ children st
    intro s child
    show keeps_float m s _
    split
    · exact ih _ _
    · exact ih _ _
    · split
      · exact keeps_float_modify_style _ _ _ (Or.inr fun _ => rfl)
      · exact keeps_float.refl_float _ _
    · exact keeps_float.refl_float _ _

theorem keeps_float_box_set_table_border_children {m : Nat} (value : Int) (color : colour)
    (fuel : Nat) :
    ∀ (children : List Nat) (st : content),
      keeps_float m st (box_set_table_border_children value color fuel children st) := by
  induction fuel with
  | zero => intro children st; exact keeps_float.refl_float _ _
  | succ fuel ih =>
    intro children st
    unfold box_set_table_border_children
    refine foldl_invariant (keeps_float m) (keeps_float.refl_float m)
      (fun a b c h1 h2 => h1.trans_float h2) _ ?_ children st
    intro s child
    show keeps_float m s _
    split
    · exact ih _ _
    · exact ih _ _
    · split
      · exact keeps_float_modify_style _ _ _ (Or.inr fun _ => rfl)
      · exact keeps_float.refl_float _ _
    · exact keeps_float.refl_float _ _

theorem keeps_float_box_set_table_border {m : Nat} (box : Nat) (value : Int) (color : colour)
    (st : content) : keeps_float m st (box_set_table_border box value color st) := by
  unfold box_set_table_border
  simp only
  refine keeps_float.trans_float ?_ (keeps_float_box_set_table_border_children _ _ _ _ _)
  split
  · split
    · exact keeps_float_modify_style _ _ _ (Or.inr fun _ => rfl)
    · exact keeps_float.refl_float _ _
  · exact keeps_float.refl_float _ _

theorem keeps_float_box_row_height {m : Nat} (E : Env) (children : List Nat) :
    ∀ (value : cfloat) (st : content), keeps_float m st (box_row_height E children value st) := by
  induction children with
  | nil => intro value st; exact keeps_float.refl_float _ _
  | cons child rest ih =>
    intro value st
    unfold box_row_height
    split
    · split
      · simp only
        refine keeps_float.trans_float ?_ (ih _ _)
        exact keeps_float_modify_style _ _ _ (Or.inr fun _ => rfl)
      · exact ih _ _
    · exact ih _ _

theorem keeps_float_box_construct_element_table {m : Nat} (E : Env) (node : xmlNode)
    (box : Nat) (st : content) :
    keeps_float m st (box_construct_element_table E node box st) := by
  unfold box_construct_element_table
  simp only
  have h1 : keeps_float m st (match xmlGetProp node "cellpadding".toList with
      | some s =>
        if ((strtol s).2.isEmpty && decide (0 ≤ (strtol s).1) && decide ((strtol s).1 < 1000)) = true
        then box_set_cellpadding box (strtol s).1 st else st
      | none => st) := by
    split
    · split
      · exact keeps_float_box_set_cellpadding_children _ _ _ _
      · exact keeps_float.refl_float _ _
    · exact keeps_float.refl_float _ _
  split
  · split
    · split
      · exact h1.trans_float (keeps_float_box_set_table_border _ _ _ _)
      · exact h1
    · exact h1
  · exact keeps_float.refl_float _ _

theorem keeps_float_box_construct_element_tr {m : Nat} (E : Env) (node : xmlNode)
    (box : Nat) (st : content) :
    keeps_float m st (box_construct_element_tr E node box st) := by
  unfold box_construct_element_tr
  split
  · split
    · simp only
      split
      · exact keeps_float.refl_float _ _
      · split
        · exact keeps_float.refl_float _ _
        · exact keeps_float_box_row_height _ _ _ _
    · exact keeps_float.refl_float _ _
  · exact keeps_float.refl_float _ _

/-- The last part of `box_construct_element` leaves the float of the
styles. -/
theorem keeps_float_box_construct_element_attributes {m : Nat} {E : Env}
    {node : xmlNode} {l : element_locals} {st st' : content}
    (h : box_construct_element_attributes E node l st = some st') : keeps_float m st st' := by
  unfold box_construct_element_attributes at h
  simp only at h
  have h1 : keeps_float m st (box_construct_element_span node l.box st) :=
    keeps_float_of_styles_eq (styles_box_construct_element_span _ _ _)
  have h4 : st'.styles = (box_construct_element_tr E node l.box
      (box_construct_element_table E node l.box
        (box_construct_element_span node l.box st))).styles := by
    unfold box_construct_element_background at h
    simp only at h
    split at h
    · exact (boxes_html_fetch_object h).2
    · cases h
      rfl
  exact ((h1.trans_float (keeps_float_box_construct_element_table E node l.box _)).trans_float
    (keeps_float_box_construct_element_tr E node l.box _)).trans_float
    (keeps_float_of_styles_eq h4)

theorem conv_if_float {conv : children_conversion} (hconv : conv_float conv) {cc : Bool}
    {ps p : Nat} {h : Option cstr} {t : Option frame_target} {ti : Option cstr}
    {X Y : content} {ic' : Option Nat}
    (hY : (if cc = true then conv ps p none h t ti X else some (X, none)) = some (Y, ic')) :
    keeps_float X.styles.length X Y := by
  split at hY
  · exact hconv _ _ _ _ _ _ _ _ _ hY
  · cases hY
    exact keeps_float.refl_float _ _

theorem keeps_float.of_eq_float {m : Nat} {X Y Z : content} (h : keeps_float m Y Z)
    (he : Y.styles = X.styles) : keeps_float m X Z :=
  (keeps_float_of_styles_eq he).trans_float h

theorem keeps_float.eq_of_float {m : Nat} {X Y Z : content} (h : keeps_float m X Y)
    (he : Z.styles = Y.styles) : keeps_float m X Z :=
  h.trans_float (keeps_float_of_styles_eq he)

/-- The third part of `box_construct_element` leaves the float of the
styles. -/
theorem keeps_float_box_construct_element_tree {conv : children_conversion} {n : xmlNode}
    {l : element_locals} {parent : Nat} {ic : Option Nat} {st st' : content} {ic' : Option Nat}
    (hconv : conv_float conv)
    (h : box_construct_element_tree conv n l parent ic st = some (st', ic')) :
    keeps_float st.styles.length st st' := by
  unfold box_construct_element_tree at h
  simp only at h
  have e0 := styles_box_construct_element_container l parent ic st
  generalize box_construct_element_container l parent ic st = r at h e0
  obtain ⟨s0, ic0⟩ := r
  simp only at h e0
  rw [← e0]
  refine keeps_float.of_eq_float ?_ e0
  clear e0
  split at h
  · unfold box_construct_element_inline at h
    simp only at h
    have e1 := styles_box_add_child_inline ic0 l.box s0
    generalize box_add_child_inline ic0 l.box s0 = s1 at h e1
    rw [← e1]
    refine keeps_float.of_eq_float ?_ e1
    split at h
    · split at h
      · exact Option.noConfusion h
      · rename_i s2 ic2 hs2
        simp only [Option.some.injEq, Prod.mk.injEq] at h
        obtain ⟨h1, h2⟩ := h
        subst h1 h2
        exact (hconv _ _ _ _ _ _ _ _ _ hs2).eq_of_float
          (styles_box_construct_element_inline_end _ _ _)
    · cases h
      exact keeps_float.refl_float _ _
  · split at h
    · unfold box_construct_element_inline_block at h
      simp only at h
      have e1 := styles_box_add_child_inline ic0 l.box s0
      generalize box_add_child_inline ic0 l.box s0 = s1 at h e1
      rw [← e1]
      refine keeps_float.of_eq_float ?_ e1
      split at h
      · exact Option.noConfusion h
      · rename_i s2 ic2 hs2
        cases h
        exact conv_if_float hconv hs2
    · unfold box_construct_element_block at h
      simp only at h
      have e1 := styles_box_construct_element_float l parent ic0 s0
      generalize box_construct_element_float l parent ic0 s0 = r at h e1
      obtain ⟨s1, p1⟩ := r
      simp only at h e1
      have e2 : (box_add_child p1 l.box s1).styles = s0.styles := by simp [e1]
      generalize box_add_child p1 l.box s1 = s2 at h e2
      rw [← e2]
      refine keeps_float.of_eq_float ?_ e2
      split at h
      · exact Option.noConfusion h
      · rename_i s3 ic3 hs3
        have g := conv_if_float hconv hs3
        split at h
        · cases h
          exact g
        · cases h
          exact g

/-- The second part of `box_construct_element` leaves the float of the
styles. -/
theorem float_box_construct_element_special {E : Env} {conv : children_conversion}
    {n : xmlNode} {l l' : element_locals} {st st' : content} (hconv : conv_float conv)
    (h : box_construct_element_special E conv n l st = some (st', l'))
    (hb : l.box < st.boxes.length) :
    handler_float l.box st st' := by
  unfold box_construct_element_special at h
  split at h
  · rename_i convert hbs
    split at h
    · exact Option.noConfusion h
    · rename_i s2 cc hs2
      cases h
      exact handler_float_box_special hconv hs2 hb
  · cases h
    exact handler_float.refl_hfloat hb

theorem keeps_float_of_append {X Y : content} {sv : css_style}
    (h : Y.styles = X.styles ++ [sv]) : keeps_float X.styles.length X Y := by
  refine ⟨by simp [h], fun i hi => ?_⟩
  simp [content.style_at, h, List.getElem?_append_left hi]

/-- `box_construct_element`, given the conversion of the children, leaves the
float of the styles. -/
theorem keeps_float_box_construct_element_with {E : Env} {conv : children_conversion}
    {n : xmlNode} {parent_style parent : Nat} {ic : Option Nat} {href : Option cstr}
    {target : Option frame_target} {title : Option cstr} {X Y : content} {ic' : Option Nat}
    (hconv : conv_float conv)
    (h : box_construct_element_with E conv n parent_style parent ic href target title X
      = some (Y, ic')) :
    keeps_float X.styles.length X Y := by
  unfold box_construct_element_with at h
  split at h
  · exact Option.noConfusion h
  rename_i sv hsv
  split at h
  · cases h
    exact keeps_float.refl_float _ _
  simp only at h
  obtain ⟨_, hlb, hls, _, hl1, x1, hx1, _, _, _, hx1s⟩ :=
    grows_box_construct_element_box n sv href target title X
  have hst := (styles_box_construct_element_box n sv href target title X).1
  generalize box_construct_element_box n sv href target title X = r1 at h hlb hls hl1 hx1 hst
  obtain ⟨s1, l1⟩ := r1
  simp only at h hlb hls hl1 hx1 hst
  have g1 := keeps_float_of_append hst
  have hlen1 : s1.styles.length = X.styles.length + 1 := by simp [hst]
  split at h
  · exact Option.noConfusion h
  rename_i s2 l2 hs2
  have g2 : keeps_float X.styles.length s1 s2 :=
    (float_box_construct_element_special hconv hs2 (by omega)).2.mono_float (by omega)
  have g12 := g1.trans_float g2
  split at h
  · cases h
    exact g12
  split at h
  · exact Option.noConfusion h
  rename_i s3 ic3 hs3
  split at h
  · exact Option.noConfusion h
  rename_i s4 hs4
  simp only [Option.some.injEq, Prod.mk.injEq] at h
  obtain ⟨h1, h2⟩ := h
  subst h1 h2
  have g3 := keeps_float_box_construct_element_tree hconv hs3
  have g4 : keeps_float X.styles.length s3 s4 :=
    keeps_float_box_construct_element_attributes hs4
  exact (g12.trans_float (g3.mono_float g12.1)).trans_float g4

/-- The conversion of a node and its following siblings leaves the float of
the styles. -/
theorem conv_float_convert_children (E : Env) (n : xmlNode) :
    conv_float (convert_children E n) := by
  induction n with
  | null =>
    intro ps p ic h t ti X Y ic' hY
    unfold convert_children at hY
    cases hY
    exact keeps_float.refl_float _ _
  | node t name hp ps tx children next ihc ihn =>
    intro ps p ic h t ti X Y ic' hY
    unfold convert_children at hY
    split at hY
    · exact Option.noConfusion hY
    · rename_i s1 ic1 hs1
      have g1 : keeps_float X.styles.length X s1 := by
        unfold convert_xml_to_box_with at hs1
        split at hs1
        · exact keeps_float_box_construct_element_with ihc hs1
        · exact keeps_float_of_styles_eq (styles_box_construct_text hs1)
        · cases hs1
          exact keeps_float.refl_float _ _
      exact g1.step_float (le_refl _) (ihn _ _ _ _ _ _ _ _ _ hY)

/-! ### The boxes of the arena after the primitive steps -/

theorem box_at_modify_box (st : content) (j : Nat) (f : box → box) (i : Nat) :
    (st.modify_box j f).box_at i =
      if i = j ∧ i < st.boxes.length then f (st.box_at i) else st.box_at i := by
  by_cases hij : i = j
  · subst hij
    by_cases hi : i < st.boxes.length
    · rw [box_at_modify_box_self st f hi, if_pos ⟨rfl, hi⟩]
    · rw [if_neg (fun h => hi h.2)]
      unfold content.box_at content.modify_box
      simp only [getElem?_list_modify, if_true]
      rw [List.getElem?_eq_none (not_lt.mp hi)]
      rfl
  · rw [box_at_modify_box_of_ne st f hij, if_neg (fun h => hij h.1)]

theorem length_boxes_box_create (style : Option Nat) (href : Option cstr)
    (target : Option frame_target) (title id : Option cstr) (st : content) :
    (box_create style href target title id st).1.boxes.length = st.boxes.length + 1 := by
  rw [boxes_box_create, List.length_append, List.length_singleton]

theorem box_at_box_create (style : Option Nat) (href : Option cstr)
    (target : Option frame_target) (title id : Option cstr) (st : content) (i : Nat) :
    (box_create style href target title id st).1.box_at i =
      if i = st.boxes.length then
        { box_zero with type := BOX_INLINE, style := style, href := href, target := target,
                        title := title, id := id, columns := 1, rows := 1 }
      else st.box_at i := by
  unfold content.box_at
  rw [boxes_box_create, getElem?_append_singleton]
  split <;> rfl

theorem length_boxes_box_set_type (b : Nat) (t : box_type) (st : content) :
    (box_set_type b t st).boxes.length = st.boxes.length :=
  length_boxes_modify_box st b _

theorem box_at_box_set_type (b : Nat) (t : box_type) (st : content) (i : Nat) :
    (box_set_type b t st).box_at i =
      if i = b ∧ i < st.boxes.length then { st.box_at i with type := t } else st.box_at i :=
  box_at_modify_box st b _ i

theorem box_at_box_add_child (p c : Nat) (st : content) (i : Nat) :
    (box_add_child p c st).box_at i =
      if i = c ∧ i < st.boxes.length then
        { (if i = p ∧ i < st.boxes.length then
            { st.box_at i with children := (st.box_at i).children ++ [c] }
           else st.box_at i) with
          parent := some p, prev := (st.box_at p).children.getLast? }
      else if i = p ∧ i < st.boxes.length then
        { st.box_at i with children := (st.box_at i).children ++ [c] }
      else st.box_at i := by
  unfold box_add_child
  simp only [box_at_modify_box, length_boxes_modify_box]

theorem box_gadget_text_eq (b : Nat) (text : cstr) (st : content) (hb : b < st.boxes.length) :
    (box_gadget_text b text st).box_at b =
      { st.box_at b with children := (st.box_at b).children ++ [st.boxes.length] } ∧
    (box_gadget_text b text st).controls = st.controls ∧
    (box_gadget_text b text st).forms = st.forms ∧
    (box_gadget_text b text st).boxes.length = st.boxes.length + 2 := by
  have e1 : b ≠ st.boxes.length := Nat.ne_of_lt hb
  have e2 : b ≠ st.boxes.length + 1 := by omega
  have e3 : b < st.boxes.length + 1 + 1 := by omega
  refine ⟨?_, rfl, rfl, ?_⟩ <;> unfold box_gadget_text <;>
  simp only [snd_box_create, length_boxes_box_set_type, length_boxes_box_create,
    box_at_box_add_child, box_at_modify_box, box_at_box_set_type, box_at_box_create,
    length_boxes_box_add_child, length_boxes_modify_box, e1, e2, e3, false_and, if_false,
    true_and, if_true]

theorem getElem?_box_at {st : content} {i : Nat} (h : i < st.boxes.length) :
    st.boxes[i]? = some (st.box_at i) := by
  unfold content.box_at
  rw [List.getElem?_eq_getElem h]
  rfl

/-- A step that respects the frame of all the boxes, in terms of `box_at`. -/
theorem grows.box_at_grows {st st' : content} (h : grows st.boxes.length none st st') {i : Nat}
    (hi : i < st.boxes.length) :
    i < st'.boxes.length ∧ (st'.box_at i).parent = (st.box_at i).parent ∧
    (st'.box_at i).type = (st.box_at i).type ∧
    (st'.box_at i).inline_end = (st.box_at i).inline_end ∧
    (st'.box_at i).style = (st.box_at i).style := by
  obtain ⟨y, hy, hp, he, hs, ht⟩ := h.lookup_full_grows (getElem?_box_at hi)
  rw [box_at_eq hy]
  exact ⟨(List.getElem?_eq_some.mp hy).1, hp, ht, he, hs⟩

theorem type_box_create (style : Option Nat) (href : Option cstr)
    (target : Option frame_target) (title id : Option cstr) (st : content) (i : Nat) :
    ((box_create style href target title id st).1.box_at i).type =
      if i = st.boxes.length then BOX_INLINE else (st.box_at i).type := by
  rw [box_at_box_create]
  split <;> rfl

theorem parent_box_create (style : Option Nat) (href : Option cstr)
    (target : Option frame_target) (title id : Option cstr) (st : content) (i : Nat) :
    ((box_create style href target title id st).1.box_at i).parent = (st.box_at i).parent := by
  rw [box_at_box_create]
  split
  · rename_i h
    subst h
    unfold content.box_at
    rw [List.getElem?_eq_none (le_refl _)]
    rfl
  · rfl

theorem children_box_create (style : Option Nat) (href : Option cstr)
    (target : Option frame_target) (title id : Option cstr) (st : content) (i : Nat) :
    ((box_create style href target title id st).1.box_at i).children =
      (st.box_at i).children := by
  rw [box_at_box_create]
  split
  · rename_i h
    subst h
    unfold content.box_at
    rw [List.getElem?_eq_none (le_refl _)]
    rfl
  · rfl

theorem type_box_set_type (b : Nat) (t : box_type) (st : content) (i : Nat) :
    ((box_set_type b t st).box_at i).type =
      if i = b ∧ i < st.boxes.length then t else (st.box_at i).type := by
  rw [box_at_box_set_type]
  split <;> rfl

theorem parent_box_set_type (b : Nat) (t : box_type) (st : content) (i : Nat) :
    ((box_set_type b t st).box_at i).parent = (st.box_at i).parent := by
  rw [box_at_box_set_type]
  split <;> rfl

theorem children_box_set_type (b : Nat) (t : box_type) (st : content) (i : Nat) :
    ((box_set_type b t st).box_at i).children = (st.box_at i).children := by
  rw [box_at_box_set_type]
  split <;> rfl

theorem type_box_add_child (p c : Nat) (st : content) (i : Nat) :
    ((box_add_child p c st).box_at i).type = (st.box_at i).type := by
  rw [box_at_box_add_child]
  split
  · split <;> rfl
  · split <;> rfl

theorem parent_box_add_child (p c : Nat) (st : content) (i : Nat) :
    ((box_add_child p c st).box_at i).parent =
      if i = c ∧ i < st.boxes.length then some p else (st.box_at i).parent := by
  rw [box_at_box_add_child]
  split
  · rfl
  · split <;> rfl

theorem children_box_add_child (p c : Nat) (st : content) (i : Nat) :
    ((box_add_child p c st).box_at i).children =
      if i = p ∧ i < st.boxes.length then (st.box_at i).children ++ [c]
      else (st.box_at i).children := by
  rw [box_at_box_add_child]
  by_cases hp : i = p ∧ i < st.boxes.length
  · simp only [if_pos hp]
    split <;> rfl
  · simp only [if_neg hp]
    split <;> rfl

/-! ### The parts of `box_construct_element` -/

/-- A run of `box_construct_element` that creates a box goes through the
tree part and the attributes part. -/
theorem box_construct_element_with_parts {E : Env} {conv : children_conversion} {n : xmlNode}
    {parent_style parent : Nat} {ic : Option Nat} {href : Option cstr}
    {target : Option frame_target} {title : Option cstr} {c c2 c' : content}
    {ic' : Option Nat} {style : css_style} {l2 : element_locals}
    (hstyle : box_get_style E c.base_url (c.style_at parent_style) n = some style)
    (hdisplay : style.display ≠ CSS_DISPLAY_NONE)
    (hspecial : box_construct_element_special E conv n
      (box_construct_element_box n style href target title c).2
      (box_construct_element_box n style href target title c).1 = some (c2, l2))
    (hdisplay2 : (c2.style_at l2.style).display ≠ CSS_DISPLAY_NONE)
    (h : box_construct_element_with E conv n parent_style parent ic href target title c
      = some (c', ic')) :
    ∃ s3 : content, box_construct_element_tree conv n l2 parent ic c2 = some (s3, ic') ∧
      box_construct_element_attributes E n l2 s3 = some c' := by
  unfold box_construct_element_with at h
  rw [hstyle] at h
  simp only [if_neg hdisplay] at h
  rw [hspecial] at h
  simp only [if_neg hdisplay2] at h
  split at h
  · exact Option.noConfusion h
  rename_i s3 ic3 hs3
  split at h
  · exact Option.noConfusion h
  rename_i s4 hs4
  simp only [Option.some.injEq, Prod.mk.injEq] at h
  obtain ⟨h1, h2⟩ := h
  subst h1 h2
  exact ⟨s3, hs3, hs4⟩

/-- The box and the style of the element after the special convert function:
the first box and the first style created, the box still without parent. -/
theorem box_construct_element_special_box {E : Env} {conv : children_conversion}
    {n : xmlNode} {href : Option cstr} {target : Option frame_target} {title : Option cstr}
    {c c2 : content} {style : css_style} {l2 : element_locals} (hconv : conv_ok conv)
    (hspecial : box_construct_element_special E conv n
      (box_construct_element_box n style href target title c).2
      (box_construct_element_box n style href target title c).1 = some (c2, l2)) :
    l2.box = c.boxes.length ∧ l2.style = c.styles.length ∧ c.boxes.length < c2.boxes.length ∧
    grows c.boxes.length none c c2 ∧
    ∃ x2 : box, c2.boxes[c.boxes.length]? = some x2 ∧ x2.parent = none ∧
      x2.inline_end = none ∧ x2.style = some c.styles.length ∧
      x2.type ≠ BOX_INLINE_CONTAINER := by
  obtain ⟨g1, hlb, hls, _, hl1, x1, hx1, hx1p, hx1e, hx1t, hx1s⟩ :=
    grows_box_construct_element_box n style href target title c
  generalize box_construct_element_box n style href target title c = r1
    at hspecial g1 hlb hls hl1 hx1
  obtain ⟨s1, l1⟩ := r1
  simp only at hspecial g1 hlb hls hl1 hx1
  obtain ⟨g2, hlb2, hls2⟩ := grows_box_construct_element_special hconv hspecial (by omega)
  rw [← hlb] at hx1
  obtain ⟨x2, hx2, hx2p, hx2e, hx2s, hx2t⟩ := g2.2.lookup_grows (Or.inr rfl) hx1
  have hx2t2 : x2.type ≠ BOX_INLINE_CONTAINER := by
    rcases hx2t with ht | ht
    · rw [ht, hx1t]
      exact box_map_ne_inline_container _
    · exact ht.2
  have hd1 : detached s1.boxes l1.box :=
    ⟨x1, hx1, hx1p, by rw [hx1t]; exact box_map_ne_inline_container _⟩
  have g2r : grows c.boxes.length none s1 c2 := g2.2.restrict_grows (by omega) (by omega) hd1
  have hl2 := g2.le_steps
  rw [hlb] at hx2
  exact ⟨hlb2.trans hlb, hls2.trans hls, by omega, g1.trans_grows g2r, x2, hx2,
    hx2p.trans hx1p, hx2e.trans hx1e, hx2s.trans hx1s, hx2t2⟩

/-- When no allocation fails, `box_extract_link` succeeds with the resolved
URL, or with `*result` as it was when the URL cannot be resolved. -/
theorem box_extract_link_resolved (E : Env) (hm : ∀ k, E.malloc k = true)
    (hj : ∀ a c, E.url_join a c ≠ URL_FUNC_NOMEM) (rel base : cstr) :
    box_extract_link E.malloc E.url_join rel base none = (true, resolved_url E rel base) := by
  unfold box_extract_link resolved_url
  simp only [hm, Bool.not_true, Bool.false_eq_true, if_false]
  have h := hj (box_extract_link_s1 (box_extract_link_s rel)) base
  cases hr : E.url_join (box_extract_link_s1 (box_extract_link_s rel)) base with
  | URL_FUNC_OK u => rfl
  | URL_FUNC_NOMEM => exact absurd hr h
  | URL_FUNC_FAILED => rfl

/-- C21: for every object element whose data attribute is absent or cannot be
resolved, or whose resolved data URL equals the document's base URL, or whose
type attribute names an unsupported MIME type, `box_object` (when no
allocation fails) returns success with `*convert_children` still true; it has
only set the `usemap` of the box: no object fetch is issued and no object
parameters are attached to any box. -/
theorem box_object_ignored (E : Env) (conv : children_conversion) (n : xmlNode) (b : Nat)
    (st : content) (hm : ∀ k, E.malloc k = true)
    (hj : ∀ a c, E.url_join a c ≠ URL_FUNC_NOMEM)
    (h : object_data E n st.base_url = none ∨ object_data E n st.base_url = some st.base_url ∨
      (xmlGetProp n "type".toList).any E.content_lookup_other = true) :
    ∃ st', box_object E conv n b st = some (st', true) ∧ st' = box_usemap n b st ∧
      st'.object = st.object ∧
      ∀ i, (st'.box_at i).object_params = (st.box_at i).object_params := by
  have hparams : ∀ i, ((box_usemap n b st).box_at i).object_params =
      (st.box_at i).object_params := by
    intro i
    unfold box_usemap
    by_cases hi : i = b
    · subst hi
      by_cases hl : i < st.boxes.length
      · rw [box_at_modify_box_self _ _ hl]
      · unfold content.box_at content.modify_box
        simp only [getElem?_list_modify]
        rw [List.getElem?_eq_none (not_lt.mp hl)]
        rfl
    · rw [box_at_modify_box_of_ne _ _ hi]
  refine ⟨box_usemap n b st, ?_, rfl, rfl, hparams⟩
  have hbase : (box_usemap n b st).base_url = st.base_url := rfl
  unfold object_data object_codebase at h
  unfold box_object
  simp only [box_extract_link_resolved E hm hj, hbase, box_get_attribute]
  cases hcb : xmlGetProp n "codebase".toList with
  | none =>
    simp only [hcb, Option.none_bind, Option.getD_none] at h ⊢
    cases hd : xmlGetProp n "data".toList with
    | none => rfl
    | some d =>
      simp only [hd, Option.some_bind] at h ⊢
      cases hr : resolved_url E d st.base_url with
      | none => rfl
      | some u =>
        simp only [hr] at h ⊢
        by_cases hu : st.base_url = u
        · simp only [hu, if_true]
        · simp only [hu, if_false]
          rcases h with h | h | h
          · exact Option.noConfusion h
          · exact absurd (Option.some.inj h).symm hu
          · cases ht : xmlGetProp n "type".toList with
            | none => rw [ht] at h; exact Bool.noConfusion h
            | some t => rw [ht] at h; simp only [h, if_true]
  | some cb =>
    simp only [hcb, Option.some_bind] at h ⊢
    cases hd : xmlGetProp n "data".toList with
    | none => rfl
    | some d =>
      simp only [hd, Option.some_bind] at h ⊢
      cases hr : resolved_url E d ((resolved_url E cb st.base_url).getD st.base_url) with
      | none => rfl
      | some u =>
        simp only [hr] at h ⊢
        by_cases hu : st.base_url = u
        · simp only [hu, if_true]
        · simp only [hu, if_false]
          rcases h with h | h | h
          · exact Option.noConfusion h
          · exact absurd (Option.some.inj h).symm hu
          · cases ht : xmlGetProp n "type".toList with
            | none => rw [ht] at h; exact Bool.noConfusion h
            | some t => rw [ht] at h; simp only [h, if_true]

theorem box_object_ignored_witness :
    ∃ st', box_object example_env (convert_children example_env .null) example_object_plain 0
        example_root = some (st', true) ∧
      st' = box_usemap example_object_plain 0 example_root ∧
      st'.object = example_root.object ∧
      ∀ i, (st'.box_at i).object_params = (example_root.box_at i).object_params :=
  box_object_ignored example_env (convert_children example_env .null) example_object_plain 0
    example_root (fun _ => rfl) (fun _ _ h => url_func_result.noConfusion h) (Or.inl rfl)

/-! ### Style resolution as a function of its inputs -/

/-- The box `b` after `box_set_type` and the assignment of the gadget. -/
theorem box_at_gadget_set (b : Nat) (t : box_type) (g : Nat) (st X : content)
    (hb : b < st.boxes.length)
    (hX : X.boxes = ((box_set_type b t st).modify_box b
      (fun x => { x with gadget := some g })).boxes) :
    (X.box_at b).type = t ∧ (X.box_at b).gadget = some g := by
  have h1 : b < (box_set_type b t st).boxes.length := by
    unfold box_set_type
    rw [length_boxes_modify_box]
    exact hb
  rw [box_at_of_boxes_eq hX, box_at_modify_box_self _ _ h1]
  unfold box_set_type
  rw [box_at_modify_box_self _ _ hb]
  exact ⟨rfl, rfl⟩

/-- The effect of `box_button` when a gadget of type `t` is created. -/
theorem box_button_new_gadget (n : xmlNode) (b : Nat) (st : content) (t : gadget_type)
    (hb : b < st.boxes.length) :
    let st1 := (form_new_control t (box_set_type b BOX_INLINE_BLOCK st)).1
    let st5 := (box_form_add_control st.controls.length
        (st1.modify_box b (fun x => { x with gadget := some st.controls.length }))).modify_control
      st.controls.length (fun g =>
        { g with box := some b,
                 name := box_get_attribute n "name".toList g.name,
                 value := box_get_attribute n "value".toList g.value })
    (st5.box_at b).type = BOX_INLINE_BLOCK ∧
    (st5.box_at b).gadget = some st.controls.length ∧
    ∃ g : form_control, st5.controls = st.controls ++ [g] ∧ g.type = t ∧ g.box = some b ∧
      g.name = xmlGetProp n "name".toList ∧ g.value = xmlGetProp n "value".toList ∧
      (st.forms = [] → st5.forms = [] ∧ g.form = none) ∧
      ∀ (f : form) (fs : List form), st.forms = f :: fs →
        st5.forms = { f with controls := f.controls ++ [st.controls.length] } :: fs ∧
        g.form = some fs.length := by
  intro st1 st5
  have hbox := box_at_gadget_set b BOX_INLINE_BLOCK st.controls.length st st5 hb
    (by
      show (box_form_add_control _ _).boxes = _
      rw [boxes_box_form_add_control]
      rfl)
  refine ⟨hbox.1, hbox.2, ?_⟩
  cases hf : st.forms with
  | nil =>
    refine ⟨({ type := t, name := box_get_attribute n "name".toList none,
                value := box_get_attribute n "value".toList none, initial_value := none, length := 0,
                maxlength := 0, selected := false, box := some b, form := none, multiple := false,
                items := [], num_items := 0, num_selected := 0, current := none } : form_control),
      ?_, rfl, rfl, box_get_attribute_none n _, box_get_attribute_none n _,
      fun _ => ⟨?_, rfl⟩, fun f fs h => List.noConfusion h⟩
    · show list_modify (box_form_add_control _ _).controls _ _ = _
      unfold box_form_add_control
      simp only [st1, form_new_control, content.modify_box, box_set_type, hf, List.isEmpty_nil,
        if_true, list_modify_append_length]
    · show (box_form_add_control _ _).forms = _
      unfold box_form_add_control
      simp only [st1, form_new_control, content.modify_box, box_set_type, hf, List.isEmpty_nil,
        if_true]
  | cons f fs =>
    have hf1 : (st1.modify_box b (fun x => { x with gadget := some st.controls.length })).forms
        = f :: fs := hf
    refine ⟨({ type := t, name := box_get_attribute n "name".toList none,
                value := box_get_attribute n "value".toList none, initial_value := none, length := 0,
                maxlength := 0, selected := false, box := some b, form := some fs.length,
                multiple := false, items := [], num_items := 0, num_selected := 0, current := none } : form_control),
      ?_, rfl, rfl, box_get_attribute_none n _, box_get_attribute_none n _,
      fun h => List.noConfusion h, fun f' fs' h => ?_⟩
    · show list_modify (box_form_add_control _ _).controls _ _ = _
      rw [box_form_add_control_cons hf1]
      simp only [st1, form_new_control, content.modify_box, box_set_type,
        list_modify_append_length]
    · obtain ⟨h1, h2⟩ := List.cons.inj h
      subst h1
      subst h2
      refine ⟨?_, rfl⟩
      show (box_form_add_control _ _).forms = _
      rw [box_form_add_control_cons hf1]

/-- C28: `box_button` returns success and makes the box an inline-block; when
the type attribute is absent or equals `submit` it creates a submit gadget,
when it equals `reset` a reset gadget (both without regard to case): the new
gadget is that of the box, refers to the box, is added to the current form (if
any) and gets the name and value attributes when present; for any other type
it creates no gadget and registers nothing with the form. -/
theorem box_button_gadget (n : xmlNode) (b : Nat) (st : content) (hb : b < st.boxes.length) :
    ∃ st', box_button n b st = some (st', true) ∧ (st'.box_at b).type = BOX_INLINE_BLOCK ∧
      (∀ t, button_gadget n = some t →
        (st'.box_at b).gadget = some st.controls.length ∧
        ∃ g : form_control, st'.controls = st.controls ++ [g] ∧ g.type = t ∧
          g.box = some b ∧
          g.name = xmlGetProp n "name".toList ∧ g.value = xmlGetProp n "value".toList ∧
          (st.forms = [] → st'.forms = [] ∧ g.form = none) ∧
          ∀ (f : form) (fs : List form), st.forms = f :: fs →
            st'.forms = { f with controls := f.controls ++ [st.controls.length] } :: fs ∧
            g.form = some fs.length) ∧
      (button_gadget n = none →
        st'.controls = st.controls ∧ st'.forms = st.forms ∧
        (st'.box_at b).gadget = (st.box_at b).gadget) := by
  have hnone : ((box_set_type b BOX_INLINE_BLOCK st).box_at b).type = BOX_INLINE_BLOCK ∧
      ((box_set_type b BOX_INLINE_BLOCK st).box_at b).gadget = (st.box_at b).gadget := by
    unfold box_set_type
    rw [box_at_modify_box_self _ _ hb]
    exact ⟨rfl, rfl⟩
  unfold box_button button_gadget
  generalize hS : "submit".toList = S
  generalize hR : "reset".toList = R
  cases ht : xmlGetProp n "type".toList with
  | none =>
    simp only [Option.isNone_none, Bool.true_or, if_true]
    have h := box_button_new_gadget n b st GADGET_SUBMIT hb
    refine ⟨_, rfl, h.1, fun t ht => ?_, fun h0 => Option.noConfusion h0⟩
    cases ht
    exact h.2
  | some ty =>
    simp only [Option.isNone_some, Bool.false_or, Option.any_some]
    by_cases hs : strcasecmp_eq ty S = true
    · simp only [hs, if_true]
      have h := box_button_new_gadget n b st GADGET_SUBMIT hb
      refine ⟨_, rfl, h.1, fun t ht => ?_, fun h0 => Option.noConfusion h0⟩
      cases ht
      exact h.2
    · simp only [hs, Bool.false_eq_true, if_false]
      by_cases hr : strcasecmp_eq ty R = true
      · simp only [hr, if_true]
        have h := box_button_new_gadget n b st GADGET_RESET hb
        refine ⟨_, rfl, h.1, fun t ht => ?_, fun h0 => Option.noConfusion h0⟩
        cases ht
        exact h.2
      · simp only [hr, Bool.false_eq_true, if_false]
        exact ⟨_, rfl, hnone.1, fun t ht => Option.noConfusion ht, fun _ => ⟨rfl, rfl, hnone.2⟩⟩

theorem box_button_gadget_witness :
    ∃ st', box_button example_button 0 example_form_root = some (st', true) ∧
      (st'.box_at 0).type = BOX_INLINE_BLOCK ∧
      (∀ t, button_gadget example_button = some t →
        (st'.box_at 0).gadget = some example_form_root.controls.length ∧
        ∃ g : form_control, st'.controls = example_form_root.controls ++ [g] ∧ g.type = t ∧
          g.box = some 0 ∧
          g.name = xmlGetProp example_button "name".toList ∧
          g.value = xmlGetProp example_button "value".toList ∧
          (example_form_root.forms = [] → st'.forms = [] ∧ g.form = none) ∧
          ∀ (f : form) (fs : List form), example_form_root.forms = f :: fs →
            st'.forms =
              { f with controls := f.controls ++ [example_form_root.controls.length] } :: fs ∧
            g.form = some fs.length) ∧
      (button_gadget example_button = none →
        st'.controls = example_form_root.controls ∧ st'.forms = example_form_root.forms ∧
        (st'.box_at 0).gadget = (example_form_root.box_at 0).gadget) :=
  box_button_gadget example_button 0 example_form_root (by decide)

/-- The box `b` after `box_set_type`, the assignment of the gadget and
`box_gadget_text`. -/
theorem box_gadget_text_gadget (b : Nat) (t : box_type) (g : Nat) (text : cstr)
    (st S : content) (hb : b < st.boxes.length)
    (hS : S.boxes = ((box_set_type b t st).modify_box b
      (fun x => { x with gadget := some g })).boxes) :
    ((box_gadget_text b text S).box_at b).type = t ∧
    ((box_gadget_text b text S).box_at b).gadget = some g ∧
    (box_gadget_text b text S).controls = S.controls ∧
    (box_gadget_text b text S).forms = S.forms := by
  have hbS : b < S.boxes.length := by
    rw [hS, length_boxes_modify_box, length_boxes_box_set_type]
    exact hb
  obtain ⟨h1, h2, h3, -⟩ := box_gadget_text_eq b text S hbS
  have hbox := box_at_gadget_set b t g st S hb hS
  rw [h1]
  exact ⟨hbox.1, hbox.2, h2, h3⟩

/-- The effect of `box_input_text`: the box becomes an inline-block with a new
gadget, which holds the value attribute (or the empty string). -/
theorem box_input_text_eq (n : xmlNode) (b : Nat) (password : Bool) (st : content)
    (hb : b < st.boxes.length) :
    ∃ (st1 : content) (g : form_control), box_input_text n b password st = some st1 ∧
      (st1.box_at b).type = BOX_INLINE_BLOCK ∧
      (st1.box_at b).gadget = some st.controls.length ∧
      st1.controls = st.controls ++ [g] ∧ st1.forms = st.forms ∧
      g.type = (if password then GADGET_PASSWORD else GADGET_TEXTBOX) ∧
      g.value = some ((xmlGetProp n "value".toList).getD []) ∧
      g.initial_value = some ((xmlGetProp n "value".toList).getD []) ∧
      g.box = some b := by
  unfold box_input_text
  refine ⟨_, ({ type := if password then GADGET_PASSWORD else GADGET_TEXTBOX, name := none,
                value := some ((xmlGetProp n "value".toList).getD []),
                initial_value := some ((xmlGetProp n "value".toList).getD []),
                length := ((xmlGetProp n "value".toList).getD []).length,
                maxlength := match xmlGetProp n "maxlength".toList with
                  | some s => atoi s
                  | none => 100,
                selected := false, box := some b, form := none, multiple := false,
                items := [], num_items := 0, num_selected := 0, current := none } : form_control),
    rfl, ?_, ?_, ?_, ?_, rfl, rfl, rfl, rfl⟩
  · refine (box_gadget_text_gadget b BOX_INLINE_BLOCK st.controls.length _ st _ hb ?_).1
    rfl
  · refine (box_gadget_text_gadget b BOX_INLINE_BLOCK st.controls.length _ st _ hb ?_).2.1
    rfl
  · refine ((box_gadget_text_gadget b BOX_INLINE_BLOCK st.controls.length _ st _ hb ?_).2.2.1).trans ?_
    · rfl
    · simp only [form_new_control, content.modify_box, content.modify_control, box_set_type,
        list_modify_append_length]
      try rfl
  · refine ((box_gadget_text_gadget b BOX_INLINE_BLOCK st.controls.length _ st _ hb ?_).2.2.2).trans ?_
    · rfl
    · rfl

/-- C26, as amended: for every input element whose type attribute is absent or
is not (without regard to case) one of `password`, `file`, `hidden`,
`checkbox`, `radio`, `submit`, `reset`, `button` or `image`, `box_input` takes
the text path: it returns success with `*convert_children` false, the box is an
inline-block and carries a new gadget, a text box whose value is the value
attribute (or the empty string). -/
theorem box_input_text_path (E : Env) (n : xmlNode) (b : Nat) (st : content)
    (hb : b < st.boxes.length) (h : input_text_type n = true) :
    ∃ (st' : content) (g : form_control), box_input E n b st = some (st', false) ∧
      (st'.box_at b).type = BOX_INLINE_BLOCK ∧
      (st'.box_at b).gadget = some st.controls.length ∧
      st'.controls[st.controls.length]? = some g ∧ g.type = GADGET_TEXTBOX ∧
      g.value = some ((xmlGetProp n "value".toList).getD []) ∧ g.box = some b := by
  obtain ⟨st1, g, hst1, ht, hg, hc, hf, hgt, hgv, -, hgb⟩ := box_input_text_eq n b false st hb
  have hdef : box_input_type E n b st = some (st1, some st.controls.length) := by
    unfold input_text_type input_type_is at h
    simp only [Bool.and_eq_true, Bool.not_eq_true'] at h
    obtain ⟨⟨⟨⟨⟨⟨⟨⟨a1, a2⟩, a3⟩, a4⟩, a5⟩, a6⟩, a7⟩, a8⟩, a9⟩ := h
    unfold box_input_type
    simp only [a1, a2, a3, a4, a5, a6, a7, a8, a9, Bool.false_eq_true, if_false, Bool.or_self]
    unfold box_input_default
    rw [hst1]
    simp only [hg]
  unfold box_input
  rw [hdef]
  simp only []
  have hlen : st.controls.length < (box_form_add_control st.controls.length st1).controls.length := by
    unfold box_form_add_control form_add_control
    split
    · rw [hc]; simp
    · split
      · rw [hc]; simp
      · simp only [content.modify_control, length_list_modify]
        rw [hc]; simp
  have hget : ∃ g1 : form_control,
      (box_form_add_control st.controls.length st1).controls[st.controls.length]? = some g1 ∧
      g1.type = g.type ∧ g1.value = g.value ∧ g1.box = g.box := by
    have hc0 : st1.controls[st.controls.length]? = some g := by
      rw [hc, List.getElem?_append_right (le_refl _)]
      simp
    unfold box_form_add_control form_add_control
    split
    · exact ⟨g, hc0, rfl, rfl, rfl⟩
    · split
      · exact ⟨g, hc0, rfl, rfl, rfl⟩
      · simp only [content.modify_control]
        rw [getElem?_list_modify_of_some hc0]
        simp only [if_true]
        exact ⟨_, rfl, rfl, rfl, rfl⟩
  obtain ⟨g1, hg1, e1, e2, e3⟩ := hget
  refine ⟨_, { g1 with name := box_get_attribute n "name".toList g1.name }, rfl, ?_, ?_, ?_,
    ?_, ?_, ?_⟩
  · rw [box_at_of_boxes_eq (show ((box_form_add_control st.controls.length st1).modify_control
      st.controls.length _).boxes = st1.boxes from boxes_box_form_add_control _ _)]
    exact ht
  · rw [box_at_of_boxes_eq (show ((box_form_add_control st.controls.length st1).modify_control
      st.controls.length _).boxes = st1.boxes from boxes_box_form_add_control _ _)]
    exact hg
  · show (list_modify _ _ _)[_]? = _
    rw [getElem?_list_modify_of_some hg1]
    simp only [if_true]
  · show g1.type = _
    rw [e1, hgt]
    rfl
  · show g1.value = _
    rw [e2, hgv]
  · show g1.box = _
    rw [e3, hgb]

/-- C26, the claim fails: the type of `<input type="button" value="v">` is
none of `password`, `file`, `hidden`, `checkbox`, `radio`, `submit`, `reset`
and `image`, yet `box_input` does not take the text path: the box becomes an
inline-block without a gadget and no form control is created. -/
theorem box_input_button_no_gadget :
    claimed_input_text_type example_input_button = true ∧
    (box_input example_env example_input_button 0 example_root).map
        (fun r => ((r.1.box_at 0).type, (r.1.box_at 0).gadget, r.1.controls, r.2)) =
      some (BOX_INLINE_BLOCK, none, [], false) := by
  decide

theorem box_input_text_path_witness :
    ∃ (st' : content) (g : form_control),
      box_input example_env example_input_text 0 example_root = some (st', false) ∧
      (st'.box_at 0).type = BOX_INLINE_BLOCK ∧
      (st'.box_at 0).gadget = some example_root.controls.length ∧
      st'.controls[example_root.controls.length]? = some g ∧ g.type = GADGET_TEXTBOX ∧
      g.value = some ((xmlGetProp example_input_text "value".toList).getD []) ∧
      g.box = some 0 :=
  box_input_text_path example_env example_input_text 0 example_root (by decide) (by decide)

/-! ### The children of form controls -/

theorem box_input_convert_children {E : Env} {n : xmlNode} {b : Nat} {st st' : content}
    {cc : Bool} (h : box_input E n b st = some (st', cc)) : cc = false := by
  unfold box_input at h
  split at h
  · exact Option.noConfusion h
  · simp only [Option.some.injEq, Prod.mk.injEq] at h
    exact h.2.symm
  · simp only [Option.some.injEq, Prod.mk.injEq] at h
    exact h.2.symm

theorem box_select_options_num_items : ∀ (io : Bool) (c : xmlNode) (g : form_control),
    g.num_items ≤ (box_select_options io c g).num_items
  | _, .null, g => by simp [box_select_options]
  | io, .node t name hp ps tx children next, g => by
    unfold box_select_options
    simp only []
    refine le_trans ?_ (box_select_options_num_items io next _)
    split
    · simp only [box_select_add_option, form_add_option]
      exact Nat.le_succ _
    · split
      · exact box_select_options_num_items true children g
      · exact le_refl _

theorem box_select_options_inner_pos : ∀ (c : xmlNode) (g : form_control),
    has_option c = true → g.num_items < (box_select_options true c g).num_items
  | .null, g, h => by simp [has_option] at h
  | .node t name hp ps tx children next, g, h => by
    unfold box_select_options
    simp only []
    unfold has_option at h
    by_cases hn : name = "option".toList
    · rw [if_pos hn]
      refine lt_of_lt_of_le ?_ (box_select_options_num_items true next _)
      simp only [box_select_add_option, form_add_option]
      exact Nat.lt_succ_self _
    · rw [if_neg hn]
      simp only [Bool.not_true, Bool.false_and, Bool.false_eq_true, if_false]
      simp only [hn, decide_False, Bool.false_or] at h
      exact box_select_options_inner_pos next g h

theorem box_select_options_pos : ∀ (c : xmlNode) (g : form_control),
    select_has_option c = true → g.num_items < (box_select_options false c g).num_items
  | .null, g, h => by simp [select_has_option] at h
  | .node t name hp ps tx children next, g, h => by
    unfold box_select_options
    simp only []
    unfold select_has_option at h
    by_cases hn : name = "option".toList
    · rw [if_pos hn]
      refine lt_of_lt_of_le ?_ (box_select_options_num_items false next _)
      simp only [box_select_add_option, form_add_option]
      exact Nat.lt_succ_self _
    · rw [if_neg hn]
      simp only [hn, decide_False, Bool.false_or, Bool.or_eq_true, Bool.and_eq_true,
        decide_eq_true_eq] at h
      simp only [Bool.not_false, Bool.true_and, decide_eq_true_eq]
      rcases h with ⟨hg, ho⟩ | h
      · rw [if_pos hg]
        exact lt_of_lt_of_le (box_select_options_inner_pos children g ho)
          (box_select_options_num_items false next _)
      · refine lt_of_le_of_lt ?_ (box_select_options_pos next _ h)
        split
        · exact box_select_options_num_items true children g
        · exact le_refl _

/-- `box_select` returns, with `*convert_children` false exactly when the
element has an option. -/
theorem box_select_convert_children (E : Env) (n : xmlNode) (b : Nat) (st : content) :
    ∃ st', box_select E n b st = some (st', !select_has_option n.children) := by
  cases ho : select_has_option n.children with
  | false =>
    have hg : ((form_new_control GADGET_SELECT st).1.modify_control
        (form_new_control GADGET_SELECT st).2 (fun g =>
          box_select_options false n.children
            { g with multiple := (xmlGetProp n "multiple".toList).isSome })).controls[
          (form_new_control GADGET_SELECT st).2]?.all (·.num_items == 0) = true := by
      simp only [form_new_control, content.modify_control, getElem?_list_modify, if_true]
      rw [List.getElem?_append_right (le_refl _)]
      simp only [Nat.sub_self, List.getElem?_cons_zero, Option.map_some', Option.all_some,
        box_select_options_none _ _ ho]
      rfl
    unfold box_select
    simp only [hg, if_true, Bool.not_false]
    exact ⟨_, rfl⟩
  | true =>
    have hg : ((form_new_control GADGET_SELECT st).1.modify_control
        (form_new_control GADGET_SELECT st).2 (fun g =>
          box_select_options false n.children
            { g with multiple := (xmlGetProp n "multiple".toList).isSome })).controls[
          (form_new_control GADGET_SELECT st).2]?.all (·.num_items == 0) = false := by
      simp only [form_new_control, content.modify_control, getElem?_list_modify, if_true]
      rw [List.getElem?_append_right (le_refl _)]
      simp only [Nat.sub_self, List.getElem?_cons_zero, Option.map_some', Option.all_some,
        beq_eq_false_iff_ne, ne_eq]
      have := box_select_options_pos n.children
        { type := GADGET_SELECT, name := none, value := none, initial_value := none, length := 0,
          maxlength := 0, selected := false, box := none, form := none,
          multiple := (xmlGetProp n "multiple".toList).isSome,
          items := [], num_items := 0, num_selected := 0, current := none } ho
      exact Nat.ne_of_gt (lt_of_le_of_lt (Nat.zero_le _) this)
    unfold box_select
    simp only [hg, Bool.false_eq_true, if_false, Bool.not_true]
    exact ⟨_, rfl⟩

/-- When the special convert function has cleared `convert_children`, the
conversion of the children is not used. -/
theorem box_construct_element_tree_no_children (conv conv2 : children_conversion)
    (n : xmlNode) (l : element_locals) (parent : Nat) (ic : Option Nat) (st : content)
    (h : l.convert_children = false) :
    box_construct_element_tree conv n l parent ic st =
      box_construct_element_tree conv2 n l parent ic st := by
  unfold box_construct_element_tree box_construct_element_inline
    box_construct_element_inline_block box_construct_element_block
  simp only [h, Bool.false_and, Bool.false_eq_true, if_false]

/-- When the special convert function does not use the conversion of the
children and clears `convert_children`, `box_construct_element` does not use
the conversion of the children. -/
theorem box_construct_element_with_no_children (E : Env) (conv conv2 : children_conversion)
    (n : xmlNode) (parent_style parent : Nat) (ic : Option Nat) (href : Option cstr)
    (target : Option frame_target) (title : Option cstr) (st : content)
    (h : ∀ (l : element_locals) (X : content),
      box_construct_element_special E conv n l X = box_construct_element_special E conv2 n l X ∧
      ∀ Y l2, box_construct_element_special E conv n l X = some (Y, l2) →
        l2.convert_children = false) :
    box_construct_element_with E conv n parent_style parent ic href target title st =
      box_construct_element_with E conv2 n parent_style parent ic href target title st := by
  unfold box_construct_element_with
  cases box_get_style E st.base_url (st.style_at parent_style) n with
  | none => rfl
  | some sv =>
    simp only []
    split
    · rfl
    · rw [← (h _ _).1]
      cases hs : box_construct_element_special E conv n
          (box_construct_element_box n sv href target title st).2
          (box_construct_element_box n sv href target title st).1 with
      | none => rfl
      | some r =>
        obtain ⟨Y, l2⟩ := r
        simp only []
        rw [box_construct_element_tree_no_children conv conv2 n l2 parent ic Y
          ((h _ _).2 Y l2 hs)]

theorem box_special_of_name {E : Env} {conv : children_conversion} {n : xmlNode}
    {convert : element_convert} (hn : bsearch n.name element_table = some convert)
    (l : element_locals) (X : content) :
    box_construct_element_special E conv n l X =
      match box_special E conv convert n l.box X with
      | none => none
      | some (st, convert_children) =>
        some (st, { l with convert_children := convert_children,
                           href := (st.box_at l.box).href,
                           target := (st.box_at l.box).target }) := by
  unfold box_construct_element_special
  rw [hn]
  try rfl

/-- C27, as amended: on every successful return `box_input` and `box_textarea`
leave `*convert_children` false, and `box_select`, which always returns, leaves
it false exactly when the element has an option (a select without options is
ignored and `*convert_children` stays true); so `box_construct_element` does
not use the conversion of the children of an `input` or `textarea` element, or
of a `select` element that has an option. -/
theorem form_control_convert_children (E : Env) (n : xmlNode) (b : Nat) (st : content) :
    (∀ st' cc, box_input E n b st = some (st', cc) → cc = false) ∧
    (∃ st', box_textarea n b st = some (st', false)) ∧
    (∃ st', box_select E n b st = some (st', !select_has_option n.children)) ∧
    (n.name = "input".toList ∨ n.name = "textarea".toList ∨
        (n.name = "select".toList ∧ select_has_option n.children = true) →
      ∀ (conv conv2 : children_conversion) (parent_style parent : Nat) (ic : Option Nat)
        (href : Option cstr) (target : Option frame_target) (title : Option cstr),
        box_construct_element_with E conv n parent_style parent ic href target title st =
          box_construct_element_with E conv2 n parent_style parent ic href target title st) := by
  refine ⟨fun st' cc h => box_input_convert_children h, ⟨_, rfl⟩,
    box_select_convert_children E n b st, ?_⟩
  intro hn conv conv2 parent_style parent ic href target title
  refine box_construct_element_with_no_children E conv conv2 n parent_style parent ic href
    target title st (fun l X => ?_)
  rcases hn with hn | hn | ⟨hn, ho⟩
  · have hb : bsearch n.name element_table = some element_convert.box_input := by
      rw [hn]; decide
    rw [box_special_of_name hb, box_special_of_name hb]
    refine ⟨rfl, fun Y l2 h => ?_⟩
    simp only [box_special] at h
    cases hi : box_input E n l.box X with
    | none => rw [hi] at h; exact Option.noConfusion h
    | some r =>
      obtain ⟨Z, cc⟩ := r
      rw [hi] at h
      simp only [Option.some.injEq, Prod.mk.injEq] at h
      rw [← h.2]
      exact box_input_convert_children hi
  · have hb : bsearch n.name element_table = some element_convert.box_textarea := by
      rw [hn]; decide
    rw [box_special_of_name hb, box_special_of_name hb]
    refine ⟨rfl, fun Y l2 h => ?_⟩
    simp only [box_special, box_textarea, Option.some.injEq, Prod.mk.injEq] at h
    rw [← h.2]
  · have hb : bsearch n.name element_table = some element_convert.box_select := by
      rw [hn]; decide
    rw [box_special_of_name hb, box_special_of_name hb]
    refine ⟨rfl, fun Y l2 h => ?_⟩
    obtain ⟨Z, hZ⟩ := box_select_convert_children E n l.box X
    simp only [box_special, hZ, ho, Bool.not_true, Option.some.injEq, Prod.mk.injEq] at h
    rw [← h.2]

/-- C27, the claim fails: for `<select name="s"><optgroup/>text</select>`, a
select without options, `box_select` returns success and leaves
`*convert_children` true. -/
theorem box_select_keeps_convert_children :
    (box_select example_env example_select 0 example_root).map (fun r => r.2) = some true := by
  decide

theorem form_control_convert_children_witness :
    (∃ st' cc, box_input example_env example_input_text 0 example_root = some (st', cc) ∧
      cc = false) ∧
    box_construct_element_with example_env (fun _ _ _ _ _ _ _ => none) example_select_option
        0 0 none none none none example_root =
      box_construct_element_with example_env (convert_children example_env .null)
        example_select_option 0 0 none none none none example_root :=
  ⟨⟨_, _, rfl,
      (form_control_convert_children example_env example_input_text 0 example_root).1 _ _ rfl⟩,
    (form_control_convert_children example_env example_select_option 0 example_root).2.2.2
      (Or.inr (Or.inr ⟨rfl, by decide⟩)) _ _ 0 0 none none none none⟩

/-! ### Floats -/

/-- The float of the style of the element after the special convert function
is the float of the style that `box_get_style` returned. -/
theorem box_construct_element_special_float {E : Env} {conv : children_conversion}
    {n : xmlNode} {href : Option cstr} {target : Option frame_target} {title : Option cstr}
    {c c2 : content} {style : css_style} {l2 : element_locals} (hconv : conv_float conv)
    (hspecial : box_construct_element_special E conv n
      (box_construct_element_box n style href target title c).2
      (box_construct_element_box n style href target title c).1 = some (c2, l2)) :
    l2.style = c.styles.length ∧ c.styles.length < c2.styles.length ∧
    (c2.style_at c.styles.length).float_ = style.float_ := by
  obtain ⟨_, hlb, hls, _, hl1, _⟩ := grows_box_construct_element_box n style href target title c
  have hst := (styles_box_construct_element_box n style href target title c).1
  generalize box_construct_element_box n style href target title c = r1
    at hspecial hlb hls hl1 hst
  obtain ⟨s1, l1⟩ := r1
  simp only at hspecial hlb hls hl1 hst
  have hlen1 : s1.styles.length = c.styles.length + 1 := by simp [hst]
  have g2 := float_box_construct_element_special hconv hspecial (by omega)
  obtain ⟨-, -, hls2⟩ : True ∧ True ∧ l2.style = l1.style := by
    refine ⟨trivial, trivial, ?_⟩
    unfold box_construct_element_special at hspecial
    split at hspecial
    · split at hspecial
      · exact Option.noConfusion hspecial
      · cases hspecial
        rfl
    · cases hspecial
      rfl
  refine ⟨hls2.trans hls, ?_, ?_⟩
  · have := g2.2.1
    omega
  · rw [g2.2.2 _ (by omega)]
    exact congrArg css_style.float_ (style_at_append_self s1 c.styles style hst)

/-- A floated box that is not inline, line-break or inline-block, with the
current inline container `k`: a float box is inserted between the container
and the box, and the container stays current. -/
theorem box_construct_element_block_float {conv : children_conversion}
    {l : element_locals} {parent k : Nat} {s0 st' : content} {ic' : Option Nat}
    (hconv : conv_ok conv) (hconvf : conv_float conv)
    (hb : l.box < s0.boxes.length) (hs : l.style < s0.styles.length)
    (ht1 : (s0.box_at l.box).type ≠ BOX_INLINE)
    (ht3 : (s0.box_at l.box).type ≠ BOX_INLINE_BLOCK)
    (hk : k < s0.boxes.length) (hkt : (s0.box_at k).type = BOX_INLINE_CONTAINER)
    (hf : (s0.style_at l.style).float_ = CSS_FLOAT_LEFT ∨
      (s0.style_at l.style).float_ = CSS_FLOAT_RIGHT)
    (h : box_construct_element_block conv l parent (some k) s0 = some (st', ic')) :
    ic' = some k ∧ s0.boxes.length < st'.boxes.length ∧
    (st'.box_at l.box).parent = some s0.boxes.length ∧
    (st'.box_at l.box).type = (s0.box_at l.box).type ∧
    (st'.box_at s0.boxes.length).type =
      (if (s0.style_at l.style).float_ = CSS_FLOAT_LEFT then BOX_FLOAT_LEFT
       else BOX_FLOAT_RIGHT) ∧
    (st'.box_at s0.boxes.length).parent = some k ∧
    (st'.box_at k).type = BOX_INLINE_CONTAINER := by
  have e1 : box_construct_element_float l parent (some k) s0 =
      (box_add_child k s0.boxes.length
        (box_set_type s0.boxes.length
          (if (s0.style_at l.style).float_ = CSS_FLOAT_LEFT then BOX_FLOAT_LEFT
           else BOX_FLOAT_RIGHT)
          (box_create none l.href l.target l.title none s0).1), s0.boxes.length) := by
    unfold box_construct_element_float
    simp only [hf, if_true, snd_box_create, box_add_child_inline, styles_box_create,
      type_box_add_child, type_box_set_type, type_box_create, Nat.ne_of_lt hb, false_and,
      if_false, ht1, ht3, or_self]
  unfold box_construct_element_block at h
  rw [e1] at h
  simp only at h
  split at h
  · exact Option.noConfusion h
  rename_i s3 ic3 hs3
  have g := conv_if hconv hs3
  have gf := conv_if_float hconvf hs3
  have hne : (s3.style_at l.style).float_ ≠ CSS_FLOAT_NONE := by
    rw [gf.2 _ hs]
    show (s0.style_at l.style).float_ ≠ CSS_FLOAT_NONE
    rcases hf with hf | hf <;> rw [hf] <;> simp
  rw [if_neg hne] at h
  simp only [Option.some.injEq, Prod.mk.injEq] at h
  obtain ⟨h1, h2⟩ := h
  subst h1
  have hlen2 : (box_add_child s0.boxes.length l.box
      (box_add_child k s0.boxes.length
        (box_set_type s0.boxes.length
          (if (s0.style_at l.style).float_ = CSS_FLOAT_LEFT then BOX_FLOAT_LEFT
           else BOX_FLOAT_RIGHT)
          (box_create none l.href l.target l.title none s0).1))).boxes.length =
      s0.boxes.length + 1 := by
    rw [length_boxes_box_add_child, length_boxes_box_add_child, length_boxes_box_set_type,
      length_boxes_box_create]
  have hb2 := g.box_at_grows (i := l.box) (by rw [hlen2]; omega)
  have hf2 := g.box_at_grows (i := s0.boxes.length) (by rw [hlen2]; omega)
  have hk2 := g.box_at_grows (i := k) (by rw [hlen2]; omega)
  have e2 : s0.boxes.length ≠ l.box := Ne.symm (Nat.ne_of_lt hb)
  have e3 : l.box < s0.boxes.length + 1 := by omega
  have e4 : k ≠ s0.boxes.length := Nat.ne_of_lt hk
  have e5 : l.box ≠ s0.boxes.length := Nat.ne_of_lt hb
  refine ⟨h2.symm, ?_, ?_, ?_, ?_, ?_, ?_⟩
  · have := hf2.1
    omega
  · rw [hb2.2.1]
    simp only [parent_box_add_child, length_boxes_box_add_child, length_boxes_box_set_type,
      length_boxes_box_create, e3, and_self, if_true]
  · rw [hb2.2.2.1]
    simp only [type_box_add_child, type_box_set_type, type_box_create, e5, false_and, if_false]
  · rw [hf2.2.2.1]
    simp only [type_box_add_child, type_box_set_type, type_box_create, length_boxes_box_create,
      Nat.lt_succ_self, and_self, if_true]
  · rw [hf2.2.1]
    simp only [parent_box_add_child, length_boxes_box_add_child, length_boxes_box_set_type,
      length_boxes_box_create, e2, false_and, if_false, Nat.lt_succ_self, and_self, if_true]
  · rw [hk2.2.2.1]
    simp only [type_box_add_child, type_box_set_type, type_box_create, e4, false_and, if_false]
    exact hkt

/-- The third part of `box_construct_element` for a box that is not inline,
line-break or inline-block: the current inline container on return, and the
float box that wraps a floated box. -/
theorem box_construct_element_tree_block {conv : children_conversion} {n : xmlNode}
    {l : element_locals} {parent : Nat} {ic : Option Nat} {st st' : content} {ic' : Option Nat}
    (hconv : conv_ok conv) (hconvf : conv_float conv)
    (hb : l.box < st.boxes.length) (hs : l.style < st.styles.length)
    (ht1 : (st.box_at l.box).type ≠ BOX_INLINE) (ht2 : (st.box_at l.box).type ≠ BOX_BR)
    (ht3 : (st.box_at l.box).type ≠ BOX_INLINE_BLOCK)
    (hic : valid_container ic st)
    (h : box_construct_element_tree conv n l parent ic st = some (st', ic')) :
    ((st.style_at l.style).float_ = CSS_FLOAT_NONE → ic' = none) ∧
    ((st.style_at l.style).float_ = CSS_FLOAT_LEFT ∨
        (st.style_at l.style).float_ = CSS_FLOAT_RIGHT →
      ∃ k f, ic' = some k ∧ (∀ i, ic = some i → k = i) ∧ (ic = none → k = st.boxes.length) ∧
        st.boxes.length ≤ f ∧ f < st'.boxes.length ∧ k < st'.boxes.length ∧
        (st'.box_at l.box).parent = some f ∧
        (st'.box_at l.box).type = (st.box_at l.box).type ∧
        (st'.box_at f).type =
          (if (st.style_at l.style).float_ = CSS_FLOAT_LEFT then BOX_FLOAT_LEFT
           else BOX_FLOAT_RIGHT) ∧
        (st'.box_at f).parent = some k ∧ (st'.box_at k).type = BOX_INLINE_CONTAINER) := by
  unfold box_construct_element_tree at h
  simp only at h
  refine ⟨fun hf => ?_, fun hf => ?_⟩
  · -- no float: no container is made, and the current one is dropped
    have e0 : box_construct_element_container l parent ic st = (st, ic) := by
      unfold box_construct_element_container
      simp only [hf, beq_iff_eq, Bool.and_eq_true, Bool.or_eq_true, ht1, ht2, ht3, or_self,
        and_false, if_false, reduceCtorEq]
    rw [e0] at h
    simp only [ht1, ht2, ht3, or_self, if_false] at h
    unfold box_construct_element_block at h
    have e1 : box_construct_element_float l parent ic st = (st, parent) := by
      unfold box_construct_element_float
      simp only [hf, or_self, if_false, reduceCtorEq]
    rw [e1] at h
    simp only at h
    split at h
    · exact Option.noConfusion h
    · rename_i s3 ic3 hs3
      have g : keeps_float (box_add_child parent l.box st).styles.length
          (box_add_child parent l.box st) s3 := conv_if_float hconvf hs3
      have hf3 : (s3.style_at l.style).float_ = CSS_FLOAT_NONE := by
        rw [g.2 _ hs]
        exact hf
      rw [if_pos hf3] at h
      simp only [Option.some.injEq, Prod.mk.injEq] at h
      exact h.2.symm
  · cases ic with
    | none =>
      have e0 : box_construct_element_container l parent none st =
          (box_add_child parent st.boxes.length
            (box_set_type st.boxes.length BOX_INLINE_CONTAINER
              (box_create none none none none none st).1), some st.boxes.length) := by
        unfold box_construct_element_container box_inline_container
        rcases hf with hf | hf <;>
          simp only [hf, Option.isNone_none, Bool.true_and, beq_self_eq_true, Bool.or_true,
            Bool.true_or, if_true, snd_box_create]
      rw [e0] at h
      have e1 : l.box ≠ st.boxes.length := Nat.ne_of_lt hb
      have htype : ((box_add_child parent st.boxes.length
          (box_set_type st.boxes.length BOX_INLINE_CONTAINER
            (box_create none none none none none st).1)).box_at l.box).type =
          (st.box_at l.box).type := by
        simp only [type_box_add_child, type_box_set_type, type_box_create, e1, false_and,
          if_false]
      simp only [htype, ht1, ht2, ht3, or_self, if_false] at h
      have hlen : (box_add_child parent st.boxes.length
          (box_set_type st.boxes.length BOX_INLINE_CONTAINER
            (box_create none none none none none st).1)).boxes.length = st.boxes.length + 1 := by
        rw [length_boxes_box_add_child, length_boxes_box_set_type, length_boxes_box_create]
      have hsty : (box_add_child parent st.boxes.length
          (box_set_type st.boxes.length BOX_INLINE_CONTAINER
            (box_create none none none none none st).1)).styles = st.styles := rfl
      have hkt : ((box_add_child parent st.boxes.length
          (box_set_type st.boxes.length BOX_INLINE_CONTAINER
            (box_create none none none none none st).1)).box_at st.boxes.length).type =
          BOX_INLINE_CONTAINER := by
        simp only [type_box_add_child, type_box_set_type, type_box_create,
          length_boxes_box_create, Nat.lt_succ_self, and_self, if_true]
      generalize box_add_child parent st.boxes.length
          (box_set_type st.boxes.length BOX_INLINE_CONTAINER
            (box_create none none none none none st).1) = s0 at h htype hlen hsty hkt
      have hsa : s0.style_at l.style = st.style_at l.style := by
        unfold content.style_at
        rw [hsty]
      obtain ⟨h1, h2, h3, h4, h5, h6, h7⟩ := box_construct_element_block_float hconv hconvf
        (by omega) (by rw [hsty]; exact hs) (by rw [htype]; exact ht1)
        (by rw [htype]; exact ht3) (by omega) hkt (by rw [hsa]; exact hf) h
      rw [hlen] at h2 h3 h5 h6
      rw [hsa] at h5
      exact ⟨st.boxes.length, st.boxes.length + 1, h1, fun i hi => Option.noConfusion hi,
        fun _ => rfl, by omega, h2, by omega, h3, h4.trans htype, h5, h6, h7⟩
    | some i =>
      have e0 : box_construct_element_container l parent (some i) st = (st, some i) := by
        unfold box_construct_element_container
        simp only [Option.isNone_some, Bool.false_and, Bool.false_eq_true, if_false]
      rw [e0] at h
      simp only [ht1, ht2, ht3, or_self, if_false] at h
      obtain ⟨xi, hxi, hxit⟩ := hic i rfl
      have hi : i < st.boxes.length := (List.getElem?_eq_some.mp hxi).1
      obtain ⟨h1, h2, h3, h4, h5, h6, h7⟩ := box_construct_element_block_float hconv hconvf
        hb hs ht1 ht3 hi (by rw [box_at_eq hxi]; exact hxit) hf h
      exact ⟨i, st.boxes.length, h1, fun j hj => (Option.some.inj hj), fun h0 => Option.noConfusion h0,
        le_refl _, h2, by omega, h3, h4, h5, h6, h7⟩

/-- A run of `box_construct_element` that converts an element into a box that
is not inline, line-break or inline-block: the current inline container on
return and, when the style floats, the float box that wraps the box. -/
theorem box_construct_element_float_wrapper {E : Env} {n : xmlNode}
    {parent_style parent : Nat} {ic : Option Nat} {href : Option cstr}
    {target : Option frame_target} {title : Option cstr} {c c2 c' : content}
    {ic' : Option Nat} {style : css_style} {l2 : element_locals}
    (hic : valid_container ic c)
    (hstyle : box_get_style E c.base_url (c.style_at parent_style) n = some style)
    (hdisplay : style.display ≠ CSS_DISPLAY_NONE)
    (hspecial : box_construct_element_special E (convert_children E n.children) n
      (box_construct_element_box n style href target title c).2
      (box_construct_element_box n style href target title c).1 = some (c2, l2))
    (hdisplay2 : (c2.style_at l2.style).display ≠ CSS_DISPLAY_NONE)
    (ht1 : (c2.box_at l2.box).type ≠ BOX_INLINE) (ht2 : (c2.box_at l2.box).type ≠ BOX_BR)
    (ht3 : (c2.box_at l2.box).type ≠ BOX_INLINE_BLOCK)
    (h : box_construct_element E n parent_style parent ic href target title c
      = some (c', ic')) :
    l2.box = c.boxes.length ∧
    (style.float_ = CSS_FLOAT_NONE → ic' = none) ∧
    (style.float_ = CSS_FLOAT_LEFT ∨ style.float_ = CSS_FLOAT_RIGHT →
      ∃ k f, ic' = some k ∧ (∀ i, ic = some i → k = i) ∧ (ic = none → k = c2.boxes.length) ∧
        c.boxes.length < f ∧
        (c'.box_at c.boxes.length).parent = some f ∧
        (c'.box_at c.boxes.length).type = (c2.box_at c.boxes.length).type ∧
        (c'.box_at f).type =
          (if style.float_ = CSS_FLOAT_LEFT then BOX_FLOAT_LEFT else BOX_FLOAT_RIGHT) ∧
        (c'.box_at f).parent = some k ∧ (c'.box_at k).type = BOX_INLINE_CONTAINER) := by
  have hconv := conv_ok_convert_children E n.children
  have hconvf := conv_float_convert_children E n.children
  obtain ⟨hb, -, hlt, g12, x2, hx2, -, hx2e, -, -⟩ :=
    box_construct_element_special_box hconv hspecial
  obtain ⟨hls, hslt, hfl⟩ := box_construct_element_special_float hconvf hspecial
  obtain ⟨s3, hs3, hs4⟩ := box_construct_element_with_parts hstyle hdisplay hspecial hdisplay2 h
  have hv2 : valid_container ic c2 := fun i hi =>
    g12.is_inline_container_grows (hic i hi).lt_container (fun h => Option.noConfusion h) (hic i hi)
  obtain ⟨hn, hf⟩ := box_construct_element_tree_block hconv hconvf (by omega) (by omega)
    ht1 ht2 ht3 hv2 hs3
  rw [hls, hfl] at hn hf
  rw [hb] at hf
  have g4 : grows s3.boxes.length none s3 c' := grows_box_construct_element_attributes hs4
  refine ⟨hb, hn, fun hfloat => ?_⟩
  obtain ⟨k, f, h1, h2, h3, h4, h5, h6, h7, h8, h9, h10, h11⟩ := hf hfloat
  have gb := g4.box_at_grows (i := c.boxes.length) (by omega)
  have gf := g4.box_at_grows h5
  have gk := g4.box_at_grows h6
  exact ⟨k, f, h1, h2, h3, by omega, gb.2.1.trans h7, gb.2.2.1.trans h8, gf.2.2.1.trans h9,
    gf.2.1.trans h10, gk.2.2.1.trans h11⟩

/-- C22, the claim fails: with a style sheet that floats `input` to the left,
the resolved style of `<input>` has float left, but its box (box 1), which
`box_input` makes an inline-block, is added to the inline container (box 4)
directly: no float box is created. -/
theorem box_construct_element_float_inline_block :
    (box_get_style example_float_env example_root.base_url (example_root.style_at 0)
        example_input).map (fun s => s.float_) = some CSS_FLOAT_LEFT ∧
    (box_construct_element example_float_env example_input 0 0 none none none none
        example_root).map (fun r => r.1.boxes.map (fun b => (b.type, b.parent))) =
      some [(BOX_BLOCK, none), (BOX_INLINE_BLOCK, some 4), (BOX_INLINE_CONTAINER, some 1),
            (BOX_TEXT, some 2), (BOX_INLINE_CONTAINER, some 0)] := by
  decide

/-- C22, as amended: when `box_construct_element` converts an element whose
resolved style has float left or right into a box that is, after the special
convert function, not of kind inline, line-break or inline-block, then in the
boxes it leaves the box of the element (the first box created) is wrapped in a
float box: its parent is a box of kind float-left or float-right (matching the
float value), which is itself a child of an inline container. -/
theorem box_construct_element_float_wrapped (E : Env) (n : xmlNode)
    (parent_style parent : Nat) (inline_container : Option Nat) (href : Option cstr)
    (target : Option frame_target) (title : Option cstr) (c c2 c' : content)
    (inline_container' : Option Nat) (style : css_style) (l2 : element_locals)
    (hic : ∀ i, inline_container = some i → is_inline_container c.boxes i)
    (hstyle : box_get_style E c.base_url (c.style_at parent_style) n = some style)
    (hdisplay : style.display ≠ CSS_DISPLAY_NONE)
    (hfloat : style.float_ = CSS_FLOAT_LEFT ∨ style.float_ = CSS_FLOAT_RIGHT)
    (hspecial : box_construct_element_special E (convert_children E n.children) n
      (box_construct_element_box n style href target title c).2
      (box_construct_element_box n style href target title c).1 = some (c2, l2))
    (hdisplay2 : (c2.style_at l2.style).display ≠ CSS_DISPLAY_NONE)
    (hkind : (c2.box_at l2.box).type ≠ BOX_INLINE ∧ (c2.box_at l2.box).type ≠ BOX_BR ∧
      (c2.box_at l2.box).type ≠ BOX_INLINE_BLOCK)
    (h : box_construct_element E n parent_style parent inline_container href target title c
      = some (c', inline_container')) :
    l2.box = c.boxes.length ∧
    ∃ f k : Nat, (c'.box_at c.boxes.length).parent = some f ∧
      ((style.float_ = CSS_FLOAT_LEFT ∧ (c'.box_at f).type = BOX_FLOAT_LEFT) ∨
        (style.float_ = CSS_FLOAT_RIGHT ∧ (c'.box_at f).type = BOX_FLOAT_RIGHT)) ∧
      (c'.box_at f).parent = some k ∧ (c'.box_at k).type = BOX_INLINE_CONTAINER := by
  obtain ⟨hb, -, hf⟩ := box_construct_element_float_wrapper hic hstyle hdisplay hspecial
    hdisplay2 hkind.1 hkind.2.1 hkind.2.2 h
  obtain ⟨k, f, -, -, -, -, h5, -, h7, h8, h9⟩ := hf hfloat
  refine ⟨hb, f, k, h5, ?_, h8, h9⟩
  rcases hfloat with hl | hr
  · rw [if_pos hl] at h7
    exact Or.inl ⟨hl, h7⟩
  · rw [if_neg (by rw [hr]; simp)] at h7
    exact Or.inr ⟨hr, h7⟩

theorem box_construct_element_float_wrapped_witness :
    ∃ (c' : content) (ic' : Option Nat),
      box_construct_element example_float_env example_aside 0 0 none none none none example_root
        = some (c', ic') ∧
      ∃ f k : Nat, (c'.box_at example_root.boxes.length).parent = some f ∧
        ((CSS_FLOAT_LEFT = CSS_FLOAT_LEFT ∧ (c'.box_at f).type = BOX_FLOAT_LEFT) ∨
          (CSS_FLOAT_LEFT = CSS_FLOAT_RIGHT ∧ (c'.box_at f).type = BOX_FLOAT_RIGHT)) ∧
        (c'.box_at f).parent = some k ∧ (c'.box_at k).type = BOX_INLINE_CONTAINER :=
  ⟨_, _, rfl,
    (box_construct_element_float_wrapped example_float_env example_aside 0 0 none none none none
      example_root _ _ _ _ _ (fun _ hi => Option.noConfusion hi)
      rfl (by decide) (by decide) rfl (by decide) (by decide) rfl).2⟩

/-- C29: after `box_construct_element` has converted an element into a box
that is, after the special convert function, neither inline, line-break nor
inline-block, the caller's current inline container is null when the float of
the element's style is none, and when the float is left or right it is the
inline container that holds the float box wrapping the element's box: the one
that was current on entry, if any (so a floated box does not end the current
inline run), else a new one. -/
theorem box_construct_element_block_container (E : Env) (n : xmlNode)
    (parent_style parent : Nat) (inline_container : Option Nat) (href : Option cstr)
    (target : Option frame_target) (title : Option cstr) (c c2 c' : content)
    (inline_container' : Option Nat) (style : css_style) (l2 : element_locals)
    (hic : ∀ i, inline_container = some i → is_inline_container c.boxes i)
    (hstyle : box_get_style E c.base_url (c.style_at parent_style) n = some style)
    (hdisplay : style.display ≠ CSS_DISPLAY_NONE)
    (hspecial : box_construct_element_special E (convert_children E n.children) n
      (box_construct_element_box n style href target title c).2
      (box_construct_element_box n style href target title c).1 = some (c2, l2))
    (hdisplay2 : (c2.style_at l2.style).display ≠ CSS_DISPLAY_NONE)
    (hkind : (c2.box_at l2.box).type ≠ BOX_INLINE ∧ (c2.box_at l2.box).type ≠ BOX_BR ∧
      (c2.box_at l2.box).type ≠ BOX_INLINE_BLOCK)
    (h : box_construct_element E n parent_style parent inline_container href target title c
      = some (c', inline_container')) :
    (style.float_ = CSS_FLOAT_NONE → inline_container' = none) ∧
    (style.float_ = CSS_FLOAT_LEFT ∨ style.float_ = CSS_FLOAT_RIGHT →
      ∃ k f : Nat, inline_container' = some k ∧
        (∀ i, inline_container = some i → k = i) ∧
        (inline_container = none → c.boxes.length < k) ∧
        (c'.box_at k).type = BOX_INLINE_CONTAINER ∧ (c'.box_at f).parent = some k ∧
        (c'.box_at c.boxes.length).parent = some f) := by
  obtain ⟨hb, hn, hf⟩ := box_construct_element_float_wrapper hic hstyle hdisplay hspecial
    hdisplay2 hkind.1 hkind.2.1 hkind.2.2 h
  refine ⟨hn, fun hfloat => ?_⟩
  obtain ⟨k, f, h1, h2, h3, -, h5, -, -, h8, h9⟩ := hf hfloat
  have hlt := (box_construct_element_special_box (conv_ok_convert_children E n.children)
    hspecial).2.2.1
  exact ⟨k, f, h1, h2, fun h0 => by rw [h3 h0]; exact hlt, h9, h8, h5⟩

theorem box_construct_element_block_container_witness :
    (∃ (c' : content) (ic' : Option Nat),
      box_construct_element example_env example_p 0 0 none none none none example_root
        = some (c', ic') ∧ ic' = none) ∧
    ∃ (c' : content) (ic' : Option Nat),
      box_construct_element example_float_env example_aside 0 0 none none none none example_root
        = some (c', ic') ∧
      ∃ k f : Nat, ic' = some k ∧ (∀ i, (none : Option Nat) = some i → k = i) ∧
        ((none : Option Nat) = none → example_root.boxes.length < k) ∧
        (c'.box_at k).type = BOX_INLINE_CONTAINER ∧ (c'.box_at f).parent = some k ∧
        (c'.box_at example_root.boxes.length).parent = some f :=
  ⟨⟨_, _, rfl,
    (box_construct_element_block_container example_env example_p 0 0 none none none none
      example_root _ _ _ _ _ (fun _ hi => Option.noConfusion hi)
      rfl (by decide) rfl (by decide) (by decide) rfl).1 (by decide)⟩,
   ⟨_, _, rfl,
    (box_construct_element_block_container example_float_env example_aside 0 0 none none none
      none example_root _ _ _ _ _ (fun _ hi => Option.noConfusion hi)
      rfl (by decide) rfl (by decide) (by decide) rfl).2 (by decide)⟩⟩

/-! ### Column and row spans -/

theorem span_of_le (s : cstr) : span_of s ≤ MAX_SPAN := by
  unfold span_of
  split
  · assumption
  · decide

theorem box_construct_element_span_eq (n : xmlNode) (b : Nat) (st : content)
    (hb : b < st.boxes.length) :
    (∀ s, xmlGetProp n "colspan".toList = some s →
      ((box_construct_element_span n b st).box_at b).columns = span_of s) ∧
    (∀ s, xmlGetProp n "rowspan".toList = some s →
      ((box_construct_element_span n b st).box_at b).rows = span_of s) ∧
    (xmlGetProp n "colspan".toList = none →
      ((box_construct_element_span n b st).box_at b).columns = (st.box_at b).columns) ∧
    (xmlGetProp n "rowspan".toList = none →
      ((box_construct_element_span n b st).box_at b).rows = (st.box_at b).rows) := by
  have hspan : ∀ v : Int, (if MAX_SPAN < v then 1 else v) = if v ≤ MAX_SPAN then v else 1 := by
    intro v
    by_cases hv : v ≤ MAX_SPAN
    · rw [if_pos hv, if_neg (not_lt.mpr hv)]
    · rw [if_neg hv, if_pos (not_le.mp hv)]
  unfold box_construct_element_span span_of
  generalize "colspan".toList = C
  generalize "rowspan".toList = R
  cases hc : xmlGetProp n C <;> cases hr : xmlGetProp n R <;>
    refine ⟨fun s h => ?_, fun s h => ?_, fun h => ?_, fun h => ?_⟩ <;>
    first
      | exact Option.noConfusion h
      | (cases h
         simp only [box_at_modify_box, length_boxes_modify_box, hb, and_self, if_true, hspan])

theorem box_construct_element_attributes_span {E : Env} {n : xmlNode} {l : element_locals}
    {st st' : content} (h : box_construct_element_attributes E n l st = some st')
    (hb : l.box < st.boxes.length) :
    (∀ s, xmlGetProp n "colspan".toList = some s → (st'.box_at l.box).columns = span_of s) ∧
    (∀ s, xmlGetProp n "rowspan".toList = some s → (st'.box_at l.box).rows = span_of s) := by
  unfold box_construct_element_attributes at h
  simp only at h
  have hbx : st'.boxes = (box_construct_element_span n l.box st).boxes := by
    rw [boxes_box_construct_element_background h, boxes_box_construct_element_tr,
      boxes_box_construct_element_table]
  rw [box_at_of_boxes_eq hbx]
  exact ⟨(box_construct_element_span_eq n l.box st hb).1,
    (box_construct_element_span_eq n l.box st hb).2.1⟩

/-! ### Text transformation -/

theorem toupper_eq_space {c : Char} : toupper c = ' ' ↔ c = ' ' := by
  unfold toupper
  split
  · rename_i h
    simp only [Bool.and_eq_true, decide_eq_true_eq] at h
    have hc : c = Char.ofNat c.toNat := (Char.ofNat_toNat c).symm
    generalize c.toNat = k at h hc
    subst hc
    obtain ⟨h1, h2⟩ := h
    interval_cases k <;> decide
  · exact Iff.rfl

theorem tolower_eq_space {c : Char} : tolower c = ' ' ↔ c = ' ' := by
  unfold tolower
  split
  · rename_i h
    simp only [Bool.and_eq_true, decide_eq_true_eq] at h
    have hc : c = Char.ofNat c.toNat := (Char.ofNat_toNat c).symm
    generalize c.toNat = k at h hc
    subst hc
    obtain ⟨h1, h2⟩ := h
    interval_cases k <;> decide
  · exact Iff.rfl

theorem length_box_text_capitalize : ∀ (b : Bool) (s : cstr),
    (box_text_capitalize b s).length = s.length
  | _, [] => rfl
  | b, c :: cs => by
    unfold box_text_capitalize
    simp only [List.length_cons, length_box_text_capitalize _ cs]

/-- Specification-side view of `box_text_transform`: the transformation of a
whole text. -/
theorem box_text_transform_eq (s : cstr) (len : Nat) (tt : css_text_transform) :
    box_text_transform s len tt =
      box_text_transform (s.take len) (s.take len).length tt ++ s.drop len := by
  by_cases h0 : len = 0
  · subst h0
    simp [box_text_transform]
  · by_cases hs : s = []
    · subst hs
      unfold box_text_transform
      cases tt <;> simp [box_text_capitalize]
    · have hl : (List.take len s).length ≠ 0 := by
        rw [List.length_take]
        have : 0 < s.length := List.length_pos.mpr hs
        omega
      unfold box_text_transform
      generalize hu : List.take len s = u at hl
      simp only [beq_iff_eq, h0, hl, if_false, List.take_length, List.drop_length,
        List.append_nil]
      cases tt <;> simp only [hu] <;> rw [← hu] <;> exact (List.take_append_drop len s).symm

theorem length_text_transformed (tt : css_text_transform) (s : cstr) :
    (text_transformed tt s).length = s.length := by
  unfold text_transformed box_text_transform
  split
  · split
    · rfl
    · cases tt <;> simp [length_box_text_capitalize]
  · rfl

theorem text_transformed_space (tt : css_text_transform) (r : cstr) :
    text_transformed tt (' ' :: r) = ' ' :: text_transformed tt r := by
  have hu : toupper ' ' = ' ' := by decide
  have hl : tolower ' ' = ' ' := by decide
  have hs : isspace ' ' = true := by decide
  have h32 : (' ' : Char).toNat < 128 := by decide
  unfold text_transformed box_text_transform
  by_cases hr : r = []
  · subst hr
    cases tt <;> simp [box_text_capitalize, hu, hl, h32]
  · have hlen : r.length ≠ 0 := fun h => hr (List.length_eq_zero.mp h)
    cases tt <;>
      simp [box_text_capitalize, hu, hl, hs, h32, hlen]

theorem head?_text_transformed (tt : css_text_transform) (s : cstr) :
    (text_transformed tt s).head? = some ' ' ↔ s.head? = some ' ' := by
  cases s with
  | nil =>
    unfold text_transformed box_text_transform
    cases tt <;> simp [box_text_capitalize]
  | cons c r =>
    have hcap : ∀ x : Char, (if x.toNat < 128 then toupper x else x) = ' ' ↔ x = ' ' := by
      intro x
      split
      · exact toupper_eq_space
      · exact Iff.rfl
    have hup : ∀ x : Char, (if x.toNat < 128 then toupper x else x) = ' ' ↔ x = ' ' := hcap
    have hlo : ∀ x : Char, (if x.toNat < 128 then tolower x else x) = ' ' ↔ x = ' ' := by
      intro x
      split
      · exact tolower_eq_space
      · exact Iff.rfl
    unfold text_transformed box_text_transform
    cases tt <;>
      simp [box_text_capitalize, hup, hlo]

/-- The text of a text box under `white-space: normal`, from the squashed
content `t`: `L1` is the length after the space at the end has been stripped
off, `T1` the transformed text. -/
theorem text_body_eq (tt : css_text_transform) (t T1 : cstr) (L1 : Nat)
    (hL : L1 = if (decide (t.length > 1) && t.getLast? == some ' ') = true then t.length - 1
      else t.length)
    (hT : T1 = if tt ≠ CSS_TEXT_TRANSFORM_NONE then box_text_transform t L1 tt else t) :
    ((T1.head? == some ' ') = true ↔ t.head? = some ' ') ∧
    (t.head? = some ' ' → t ≠ [' '] →
      ((T1.drop 1).take (L1 - 1) ++ T1.drop (L1 - 1)).take (L1 - 1) =
        text_transformed tt (text_body t)) ∧
    (t.head? ≠ some ' ' → T1.take L1 = text_transformed tt (text_body t)) := by
  have hle : L1 ≤ t.length := by
    rw [hL]
    split <;> omega
  have hpos : t ≠ [] → 1 ≤ L1 := by
    intro hne
    have : 0 < t.length := List.length_pos.mpr hne
    rw [hL]
    split
    · rename_i h
      simp only [Bool.and_eq_true, decide_eq_true_eq] at h
      omega
    · omega
  have ht1 : t.take L1 =
      (if 1 < t.length ∧ t.getLast? = some ' ' then t.dropLast else t) := by
    rw [hL]
    by_cases h : 1 < t.length ∧ t.getLast? = some ' '
    · have hb : (decide (t.length > 1) && t.getLast? == some ' ') = true := by
        simp only [Bool.and_eq_true, decide_eq_true_eq, beq_iff_eq]
        exact h
      rw [if_pos hb, if_pos h, List.dropLast_eq_take]
    · have hb : ¬ (decide (t.length > 1) && t.getLast? == some ' ') = true := by
        simp only [Bool.and_eq_true, decide_eq_true_eq, beq_iff_eq]
        exact h
      rw [if_neg hb, if_neg h, List.take_length]
  have hT1 : T1 = text_transformed tt (t.take L1) ++ t.drop L1 := by
    rw [hT]
    unfold text_transformed
    split
    · exact box_text_transform_eq t L1 tt
    · exact (List.take_append_drop L1 t).symm
  have hlenU : (text_transformed tt (t.take L1)).length = L1 := by
    rw [length_text_transformed, List.length_take]
    omega
  have hhead1 : (t.take L1).head? = t.head? := by
    cases t with
    | nil => simp
    | cons c r =>
      have := hpos (List.cons_ne_nil c r)
      obtain ⟨m, hm⟩ : ∃ m, L1 = m + 1 := ⟨L1 - 1, by omega⟩
      rw [hm]
      rfl
  have hheadT : T1.head? = (text_transformed tt (t.take L1)).head? := by
    rw [hT1]
    cases hU : text_transformed tt (t.take L1) with
    | nil =>
      have h0 : L1 = 0 := by rw [← hlenU, hU]; rfl
      have ht : t = [] := by
        by_contra hne
        have := hpos hne
        omega
      subst ht
      simp
    | cons u us => rfl
  have hbody : text_body t = if t.head? = some ' ' then (t.take L1).drop 1 else t.take L1 := by
    unfold text_body
    simp only
    rw [← ht1, hhead1]
  refine ⟨?_, ?_, ?_⟩
  · rw [beq_iff_eq, hheadT, head?_text_transformed, hhead1]
  · intro hh _
    rw [hbody, if_pos hh]
    obtain ⟨r, hr⟩ : ∃ r, t.take L1 = ' ' :: r := by
      rw [← hhead1] at hh
      cases htk : t.take L1 with
      | nil => rw [htk] at hh; exact Option.noConfusion hh
      | cons c r =>
        rw [htk] at hh
        simp only [List.head?_cons, Option.some.injEq] at hh
        exact ⟨r, by rw [hh]⟩
    have hlr : (text_transformed tt r).length = L1 - 1 := by
      rw [hr, text_transformed_space, List.length_cons] at hlenU
      omega
    have e1 : T1.drop 1 = text_transformed tt r ++ t.drop L1 := by
      rw [hT1, hr, text_transformed_space]
      rfl
    rw [e1, List.take_left' hlr, List.take_left' hlr, hr]
    rfl
  · intro hh
    rw [hbody, if_neg hh, hT1, List.take_left' hlenU]

/-! ### Text nodes under `white-space: normal` -/

theorem mem_of_getLast?_eq {α : Type} {l : List α} {a : α} (h : l.getLast? = some a) :
    a ∈ l := by
  rw [List.getLast?_eq_some_iff] at h
  obtain ⟨ys, hys⟩ := h
  rw [hys]
  simp

/-- `box_construct_text` under `white-space: normal` or `nowrap`, for a text
node whose squashed content is not a single space, with the current inline
container `K`. -/
theorem box_construct_text_normal_some (n : xmlNode) (ps parent K : Nat) (href : Option cstr)
    (target : Option frame_target) (title : Option cstr) (st : content)
    (hws : (st.style_at ps).white_space = CSS_WHITE_SPACE_NORMAL ∨
      (st.style_at ps).white_space = CSS_WHITE_SPACE_NOWRAP)
    (ht : squash_whitespace n.content ≠ [' '])
    (hK : K < st.boxes.length)
    (hchild : ∀ p ∈ (st.box_at K).children, p < st.boxes.length ∧ p ≠ K) :
    ∃ st', box_construct_text n ps parent (some K) href target title st = some (st', some K) ∧
      st'.boxes.length = st.boxes.length + 1 ∧
      (st'.box_at st.boxes.length).type = BOX_TEXT ∧
      (st'.box_at st.boxes.length).parent = some K ∧
      (st'.box_at st.boxes.length).prev = (st.box_at K).children.getLast? ∧
      (st'.box_at st.boxes.length).style = some ps ∧
      box_text (st'.box_at st.boxes.length) =
        text_transformed (st.style_at ps).text_transform
          (text_body (squash_whitespace n.content)) ∧
      (st'.box_at st.boxes.length).space =
        (decide ((squash_whitespace n.content).length > 1) &&
          (squash_whitespace n.content).getLast? == some ' ') ∧
      (st'.box_at K).children = (st.box_at K).children ++ [st.boxes.length] ∧
      (st'.box_at K).type = (st.box_at K).type ∧
      (st'.box_at K).parent = (st.box_at K).parent ∧
      ((squash_whitespace n.content).head? = some ' ' →
        ∀ p, (st.box_at K).children.getLast? = some p → (st'.box_at p).space = true) ∧
      ∀ i, i < st.boxes.length → i ≠ K →
        ((squash_whitespace n.content).head? = some ' ' →
          (st.box_at K).children.getLast? ≠ some i) →
        st'.box_at i = st.box_at i := by
  unfold box_construct_text
  simp only [hws, if_true, ht, if_false, box_inline_container, snd_box_create]
  generalize hL : (if (decide ((squash_whitespace n.content).length > 1) &&
      (squash_whitespace n.content).getLast? == some ' ') = true
    then (squash_whitespace n.content).length - 1
    else (squash_whitespace n.content).length) = L1
  generalize hT : (if (st.style_at ps).text_transform ≠ CSS_TEXT_TRANSFORM_NONE
    then box_text_transform (squash_whitespace n.content) L1 (st.style_at ps).text_transform
    else squash_whitespace n.content) = T1
  obtain ⟨hhead, hbody1, hbody2⟩ := text_body_eq (st.style_at ps).text_transform
    (squash_whitespace n.content) T1 L1 hL.symm hT.symm
  generalize squash_whitespace n.content = t at *
  generalize (decide (t.length > 1) && t.getLast? == some ' ') = strip at *
  have e1 : K ≠ st.boxes.length := Nat.ne_of_lt hK
  have e2 : st.boxes.length ≠ K := Ne.symm e1
  have e3 : st.boxes.length < st.boxes.length + 1 := Nat.lt_succ_self _
  have e4 : K < st.boxes.length + 1 := by omega
  have h5 : ∀ S5 : content, S5 = box_add_child K st.boxes.length
        ((box_set_type st.boxes.length BOX_TEXT
            (box_create (some ps) href target title none st).1).modify_box st.boxes.length
          (fun b => { b with text := some T1, length := L1, space := strip || b.space })) →
      S5.boxes.length = st.boxes.length + 1 ∧
      (S5.box_at st.boxes.length).type = BOX_TEXT ∧
      (S5.box_at st.boxes.length).parent = some K ∧
      (S5.box_at st.boxes.length).prev = (st.box_at K).children.getLast? ∧
      (S5.box_at st.boxes.length).style = some ps ∧
      (S5.box_at st.boxes.length).text = some T1 ∧
      (S5.box_at st.boxes.length).length = L1 ∧
      (S5.box_at st.boxes.length).space = strip ∧
      (S5.box_at K).children = (st.box_at K).children ++ [st.boxes.length] ∧
      (S5.box_at K).type = (st.box_at K).type ∧
      (S5.box_at K).parent = (st.box_at K).parent ∧
      ∀ i, i < st.boxes.length → i ≠ K → S5.box_at i = st.box_at i := by
    intro S5 hS5
    subst hS5
    refine ⟨?_, ?_, ?_, ?_, ?_, ?_, ?_, ?_, ?_, ?_, ?_, fun i hi hik => ?_⟩
    · rw [length_boxes_box_add_child, length_boxes_modify_box, length_boxes_box_set_type,
        length_boxes_box_create]
    all_goals
      simp only [box_at_box_add_child, box_at_modify_box, box_at_box_set_type,
        box_at_box_create, length_boxes_modify_box, length_boxes_box_set_type,
        length_boxes_box_create, e1, e2, e3, e4, hK, and_self, and_true, true_and, false_and,
        if_true, if_false, box_zero, Bool.or_false]
    · have hib : i ≠ st.boxes.length := Nat.ne_of_lt hi
      simp only [hib, hik, false_and, if_false]
  generalize box_add_child K st.boxes.length
        ((box_set_type st.boxes.length BOX_TEXT
            (box_create (some ps) href target title none st).1).modify_box st.boxes.length
          (fun b => { b with text := some T1, length := L1, space := strip || b.space })) = S5
    at h5 ⊢
  obtain ⟨a1, a2, a3, a4, a5, a6, a7, a8, a9, a10, a11, a12⟩ := h5 S5 rfl
  have e5 : st.boxes.length < S5.boxes.length := by omega
  have e6 : K < S5.boxes.length := by omega
  by_cases hh : (T1.head? == some ' ') = true
  · have hht := hhead.mp hh
    rw [if_pos hh]
    have hprev : ((S5.modify_box st.boxes.length
        (fun b => { b with length := L1 - 1,
                           text := some ((T1.drop 1).take (L1 - 1) ++ T1.drop (L1 - 1)) })).box_at
        st.boxes.length).prev = (st.box_at K).children.getLast? := by
      rw [box_at_modify_box, if_pos ⟨rfl, e5⟩]
      exact a4
    rw [hprev]
    cases hp : (st.box_at K).children.getLast? with
    | none =>
      simp only []
      refine ⟨_, rfl, ?_, ?_, ?_, ?_, ?_, ?_, ?_, ?_, ?_, ?_, ?_, ?_⟩
      · rw [length_boxes_modify_box]; exact a1
      · rw [box_at_modify_box, if_pos ⟨rfl, e5⟩]; exact a2
      · rw [box_at_modify_box, if_pos ⟨rfl, e5⟩]; exact a3
      · rw [box_at_modify_box, if_pos ⟨rfl, e5⟩]; exact a4.trans hp
      · rw [box_at_modify_box, if_pos ⟨rfl, e5⟩]; exact a5
      · rw [box_at_modify_box, if_pos ⟨rfl, e5⟩]
        exact hbody1 hht ht
      · rw [box_at_modify_box, if_pos ⟨rfl, e5⟩]; exact a8
      · rw [box_at_modify_box, if_neg (fun h => e1 h.1)]; exact a9
      · rw [box_at_modify_box, if_neg (fun h => e1 h.1)]; exact a10
      · rw [box_at_modify_box, if_neg (fun h => e1 h.1)]; exact a11
      · intro _ p hp2
        exact Option.noConfusion hp2
      · intro i hi hik _
        rw [box_at_modify_box, if_neg (fun h => Nat.ne_of_lt hi h.1)]
        exact a12 i hi hik
    | some p =>
      simp only []
      obtain ⟨hpl, hpk⟩ := hchild p (mem_of_getLast?_eq hp)
      have hpb : p ≠ st.boxes.length := Nat.ne_of_lt hpl
      have hbp : st.boxes.length ≠ p := Ne.symm hpb
      have hkp : K ≠ p := Ne.symm hpk
      refine ⟨_, rfl, ?_, ?_, ?_, ?_, ?_, ?_, ?_, ?_, ?_, ?_, ?_, ?_⟩
      · rw [length_boxes_modify_box, length_boxes_modify_box]; exact a1
      · rw [box_at_modify_box, if_neg (fun h => hbp h.1), box_at_modify_box,
          if_pos ⟨rfl, e5⟩]
        exact a2
      · rw [box_at_modify_box, if_neg (fun h => hbp h.1), box_at_modify_box,
          if_pos ⟨rfl, e5⟩]
        exact a3
      · rw [box_at_modify_box, if_neg (fun h => hbp h.1), box_at_modify_box,
          if_pos ⟨rfl, e5⟩]
        exact a4.trans hp
      · rw [box_at_modify_box, if_neg (fun h => hbp h.1), box_at_modify_box,
          if_pos ⟨rfl, e5⟩]
        exact a5
      · rw [box_at_modify_box, if_neg (fun h => hbp h.1), box_at_modify_box,
          if_pos ⟨rfl, e5⟩]
        exact hbody1 hht ht
      · rw [box_at_modify_box, if_neg (fun h => hbp h.1), box_at_modify_box,
          if_pos ⟨rfl, e5⟩]
        exact a8
      · rw [box_at_modify_box, if_neg (fun h => hkp h.1), box_at_modify_box,
          if_neg (fun h => e1 h.1)]
        exact a9
      · rw [box_at_modify_box, if_neg (fun h => hkp h.1), box_at_modify_box,
          if_neg (fun h => e1 h.1)]
        exact a10
      · rw [box_at_modify_box, if_neg (fun h => hkp h.1), box_at_modify_box,
          if_neg (fun h => e1 h.1)]
        exact a11
      · intro _ q hq
        cases hq
        rw [box_at_modify_box, if_pos ⟨rfl, by rw [length_boxes_modify_box]; omega⟩]
      · intro i hi hik hip
        have hip2 : i ≠ p := fun h => hip hht (by rw [h])
        rw [box_at_modify_box, if_neg (fun h => hip2 h.1), box_at_modify_box,
          if_neg (fun h => Nat.ne_of_lt hi h.1)]
        exact a12 i hi hik
  · have hht : ¬ t.head? = some ' ' := fun h => hh (hhead.mpr h)
    rw [if_neg hh]
    refine ⟨_, rfl, a1, a2, a3, a4, a5, ?_, a8, a9, a10, a11, fun h => absurd h hht,
      fun i hi hik _ => a12 i hi hik⟩
    unfold box_text
    rw [a6, a7]
    exact hbody2 hht

/-- Under `white-space: normal` or `nowrap`, for a text node whose squashed
content is not a single space and without a current inline container, the
container is made first and the conversion goes on as with this container. -/
theorem box_construct_text_normal_none (n : xmlNode) (ps parent : Nat) (href : Option cstr)
    (target : Option frame_target) (title : Option cstr) (st : content)
    (hws : (st.style_at ps).white_space = CSS_WHITE_SPACE_NORMAL ∨
      (st.style_at ps).white_space = CSS_WHITE_SPACE_NOWRAP)
    (ht : squash_whitespace n.content ≠ [' ']) :
    box_construct_text n ps parent none href target title st =
      box_construct_text n ps parent (some st.boxes.length) href target title
        (box_add_child parent st.boxes.length
          (box_set_type st.boxes.length BOX_INLINE_CONTAINER
            (box_create none none none none none st).1)) := by
  have hs : (box_add_child parent st.boxes.length
      (box_set_type st.boxes.length BOX_INLINE_CONTAINER
        (box_create none none none none none st).1)).style_at ps = st.style_at ps := rfl
  unfold box_construct_text
  simp only [hs, hws, if_true, ht, if_false, box_inline_container, snd_box_create]

/-- C23: in `box_construct_text` under `white-space: normal` or `nowrap`, a
text node whose squashed content is exactly one space creates no box: without
a current inline container nothing changes, and with one only the
trailing-space flag of its last child is set. For any other text node one
text box is appended to the current inline container, which is created first
(as a child of the parent) if absent; the text of the box is the squashed
content without its boundary spaces (under the text transformation), so a
space at the start is removed, and if the squashed content starts with a space
the trailing-space flag of the previous sibling of the box, if any, is set. -/
theorem box_construct_text_normal (n : xmlNode) (parent_style parent : Nat)
    (inline_container : Option Nat) (href : Option cstr) (target : Option frame_target)
    (title : Option cstr) (st : content)
    (hws : (st.style_at parent_style).white_space = CSS_WHITE_SPACE_NORMAL ∨
      (st.style_at parent_style).white_space = CSS_WHITE_SPACE_NOWRAP)
    (hparent : parent < st.boxes.length)
    (hic : ∀ k, inline_container = some k → k < st.boxes.length ∧
      ∀ p ∈ (st.box_at k).children, p < st.boxes.length ∧ p ≠ k) :
    (squash_whitespace n.content = [' '] →
      (inline_container = none →
        box_construct_text n parent_style parent inline_container href target title st =
          some (st, none)) ∧
      ∀ k last, inline_container = some k → (st.box_at k).children.getLast? = some last →
        box_construct_text n parent_style parent inline_container href target title st =
          some (st.modify_box last (fun b => { b with space := true }), some k) ∧
        (st.modify_box last (fun b => { b with space := true })).boxes.length =
          st.boxes.length ∧
        ((st.modify_box last (fun b => { b with space := true })).box_at last).space = true ∧
        ∀ i, i ≠ last →
          (st.modify_box last (fun b => { b with space := true })).box_at i = st.box_at i) ∧
    (squash_whitespace n.content ≠ [' '] →
      ∃ (st' : content) (k b : Nat),
        box_construct_text n parent_style parent inline_container href target title st =
          some (st', some k) ∧
        (∀ k0, inline_container = some k0 →
          k = k0 ∧ b = st.boxes.length ∧ st'.boxes.length = st.boxes.length + 1 ∧
          (st'.box_at k).children = (st.box_at k0).children ++ [b]) ∧
        (inline_container = none →
          k = st.boxes.length ∧ b = st.boxes.length + 1 ∧
          st'.boxes.length = st.boxes.length + 2 ∧
          (st'.box_at k).type = BOX_INLINE_CONTAINER ∧ (st'.box_at k).parent = some parent ∧
          (st'.box_at k).children = [b]) ∧
        (st'.box_at b).type = BOX_TEXT ∧ (st'.box_at b).parent = some k ∧
        box_text (st'.box_at b) =
          text_transformed (st.style_at parent_style).text_transform
            (text_body (squash_whitespace n.content)) ∧
        ((squash_whitespace n.content).head? = some ' ' →
          ∀ p, (st'.box_at b).prev = some p → (st'.box_at p).space = true)) := by
  refine ⟨fun ht => ⟨fun hnone => ?_, fun k last hk hlast => ?_⟩, fun ht => ?_⟩
  · subst hnone
    unfold box_construct_text
    simp only [hws, if_true, ht]
  · subst hk
    obtain ⟨hkl, hch⟩ := hic k rfl
    obtain ⟨hll, -⟩ := hch last (mem_of_getLast?_eq hlast)
    refine ⟨?_, length_boxes_modify_box _ _ _, ?_, fun i hi => ?_⟩
    · unfold box_construct_text
      simp only [hws, if_true, ht, hlast]
    · rw [box_at_modify_box, if_pos ⟨rfl, hll⟩]
    · rw [box_at_modify_box, if_neg (fun h => hi h.1)]
  · cases hc : inline_container with
    | some k0 =>
      obtain ⟨hkl, hch⟩ := hic k0 hc
      obtain ⟨st', h0, h1, h2, h3, h4, -, h6, -, h8, -, -, h11, -⟩ :=
        box_construct_text_normal_some n parent_style parent k0 href target title st hws ht
          hkl hch
      refine ⟨st', k0, st.boxes.length, h0, fun k1 hk1 => ?_, fun h => Option.noConfusion h,
        h2, h3, h6, fun hh p hp => ?_⟩
      · cases hk1
        exact ⟨rfl, rfl, h1, h8⟩
      · rw [h4] at hp
        exact h11 hh p hp
    | none =>
      rw [box_construct_text_normal_none n parent_style parent href target title st hws ht]
      have hlen : (box_add_child parent st.boxes.length
          (box_set_type st.boxes.length BOX_INLINE_CONTAINER
            (box_create none none none none none st).1)).boxes.length = st.boxes.length + 1 := by
        rw [length_boxes_box_add_child, length_boxes_box_set_type, length_boxes_box_create]
      have hs : (box_add_child parent st.boxes.length
          (box_set_type st.boxes.length BOX_INLINE_CONTAINER
            (box_create none none none none none st).1)).style_at parent_style =
          st.style_at parent_style := rfl
      have hkc : ((box_add_child parent st.boxes.length
          (box_set_type st.boxes.length BOX_INLINE_CONTAINER
            (box_create none none none none none st).1)).box_at st.boxes.length).children = [] ∧
          ((box_add_child parent st.boxes.length
            (box_set_type st.boxes.length BOX_INLINE_CONTAINER
              (box_create none none none none none st).1)).box_at st.boxes.length).type =
            BOX_INLINE_CONTAINER ∧
          ((box_add_child parent st.boxes.length
            (box_set_type st.boxes.length BOX_INLINE_CONTAINER
              (box_create none none none none none st).1)).box_at st.boxes.length).parent =
            some parent := by
        refine ⟨?_, ?_, ?_⟩
        · rw [children_box_add_child, children_box_set_type, children_box_create]
          split
          · rename_i h
            exact absurd h.1 (Ne.symm (Nat.ne_of_lt hparent))
          · unfold content.box_at
            rw [List.getElem?_eq_none (le_refl _)]
            rfl
        · simp only [type_box_add_child, type_box_set_type, length_boxes_box_create,
            Nat.lt_succ_self, and_self, if_true]
        · simp only [parent_box_add_child, length_boxes_box_set_type, length_boxes_box_create,
            Nat.lt_succ_self, and_self, if_true]
      generalize box_add_child parent st.boxes.length
          (box_set_type st.boxes.length BOX_INLINE_CONTAINER
            (box_create none none none none none st).1) = s1 at hlen hs hkc ⊢
      obtain ⟨hk1, hk2, hk3⟩ := hkc
      obtain ⟨st', h0, h1, h2, h3, h4, -, h6, -, h8, h9, h10, h11, -⟩ :=
        box_construct_text_normal_some n parent_style parent st.boxes.length href target title
          s1 (by rw [hs]; exact hws) ht (by omega)
          (by rw [hk1]; intro p hp; exact absurd hp (List.not_mem_nil p))
      rw [hlen] at h1 h2 h3 h4 h6 h8
      rw [hs] at h6
      refine ⟨st', st.boxes.length, st.boxes.length + 1, h0, fun k1 hk1 => Option.noConfusion hk1,
        fun _ => ⟨rfl, rfl, h1, h9.trans hk2, h10.trans hk3, ?_⟩, h2, h3, h6, fun hh p hp => ?_⟩
      · rw [h8, hk1]
        rfl
      · rw [h4, hk1] at hp
        exact Option.noConfusion hp

theorem box_construct_text_normal_witness :
    (∃ (st' : content) (k b : Nat),
      box_construct_text (example_text " b " .null) 0 0 (some 1) none none none
          example_text_root = some (st', some k) ∧
        (∀ k0, some 1 = some k0 →
          k = k0 ∧ b = example_text_root.boxes.length ∧
          st'.boxes.length = example_text_root.boxes.length + 1 ∧
          (st'.box_at k).children = (example_text_root.box_at k0).children ++ [b]) ∧
        ((some 1 : Option Nat) = none →
          k = example_text_root.boxes.length ∧ b = example_text_root.boxes.length + 1 ∧
          st'.boxes.length = example_text_root.boxes.length + 2 ∧
          (st'.box_at k).type = BOX_INLINE_CONTAINER ∧ (st'.box_at k).parent = some 0 ∧
          (st'.box_at k).children = [b]) ∧
        (st'.box_at b).type = BOX_TEXT ∧ (st'.box_at b).parent = some k ∧
        box_text (st'.box_at b) =
          text_transformed (example_text_root.style_at 0).text_transform
            (text_body (squash_whitespace (example_text " b " .null).content)) ∧
        ((squash_whitespace (example_text " b " .null).content).head? = some ' ' →
          ∀ p, (st'.box_at b).prev = some p → (st'.box_at p).space = true)) ∧
    box_construct_text (example_text "  " .null) 0 0 (some 1) none none none
        example_text_root =
      some (example_text_root.modify_box 2 (fun b => { b with space := true }), some 1) :=
  ⟨(box_construct_text_normal (example_text " b " .null) 0 0 (some 1) none none none
      example_text_root (by decide) (by decide)
      (fun k hk => Option.some.inj hk ▸ (by decide))).2 (by decide),
   (((box_construct_text_normal (example_text "  " .null) 0 0 (some 1) none none none
      example_text_root (by decide) (by decide)
      (fun k hk => Option.some.inj hk ▸ (by decide))).1 (by decide)).2 1 2 rfl
        (by decide)).1⟩

/-! ### Text nodes under preserved white space -/

/-- The line `a` put in front of the first line. -/
theorem with_terminators_cons (c : Char) (l : cstr) (ls : List cstr) (e : Bool) :
    with_terminators ((c :: l) :: ls) e =
      match with_terminators (l :: ls) e with
      | (l0, f) :: rest => (c :: l0, f) :: rest
      | [] => [] := by
  cases ls with
  | nil => rfl
  | cons l1 ls => rfl

theorem pre_lines_ne_nil : ∀ s : cstr, pre_lines s ≠ []
  | [] => by simp [pre_lines]
  | [c] => by
    unfold pre_lines
    split <;> simp
  | c :: d :: r => by
    unfold pre_lines
    split
    · simp
    · split
      · simp
      · split <;> simp

theorem ends_with_terminator_cons (c d : Char) (r : cstr) :
    ends_with_terminator (c :: d :: r) = ends_with_terminator (d :: r) := by
  unfold ends_with_terminator
  rw [List.getLast?_cons_cons]

/-- The lines that the loop of `box_construct_text` goes through are the lines
of the content, each but the last one followed by a line terminator, and the
last one if the content ends with one. -/
theorem box_construct_text_lines_acc : ∀ (s acc : cstr),
    box_construct_text_lines s acc =
      match with_terminators (pre_lines s) (ends_with_terminator s) with
      | (l0, f) :: rest => (acc.reverse ++ l0, f) :: rest
      | [] => []
  | [], acc => by
    simp [box_construct_text_lines, pre_lines, with_terminators, ends_with_terminator]
  | [c], acc => by
    unfold box_construct_text_lines pre_lines ends_with_terminator is_terminator
    by_cases h : (c.toNat == 13 || c.toNat == 10) = true
    · simp only [h, if_true, with_terminators, List.getLast?_singleton, Option.any_some,
        List.append_nil]
    · simp only [h, Bool.false_eq_true, if_false, with_terminators, List.getLast?_singleton,
        Option.any_some, List.reverse_cons]
  | c :: d :: r, acc => by
    have ih1 := box_construct_text_lines_acc (d :: r)
    have ih2 := box_construct_text_lines_acc r
    unfold box_construct_text_lines pre_lines
    rw [ends_with_terminator_cons]
    by_cases h1 : (c.toNat == 13 && d.toNat == 10) = true
    · simp only [h1, if_true]
      by_cases hr : r = []
      · subst hr
        have hd : d.toNat == 10 := by
          simp only [Bool.and_eq_true] at h1
          exact h1.2
        simp only [List.isEmpty_nil, if_true, with_terminators, ends_with_terminator,
          List.getLast?_singleton, Option.any_some, is_terminator, hd, Bool.or_true,
          List.append_nil]
      · have hre : r.isEmpty = false := by
          cases r with
          | nil => exact absurd rfl hr
          | cons x xs => rfl
        have hend : ends_with_terminator (d :: r) = ends_with_terminator r := by
          cases r with
          | nil => exact absurd rfl hr
          | cons x xs =>
            unfold ends_with_terminator
            rw [List.getLast?_cons_cons]
        simp only [hre, Bool.false_eq_true, if_false, hend]
        rw [ih2 []]
        cases hp : pre_lines r with
        | nil => exact absurd hp (pre_lines_ne_nil r)
        | cons l ls =>
          simp only [with_terminators, List.append_nil, List.reverse_nil, List.nil_append]
          cases hw : with_terminators (l :: ls) (ends_with_terminator r) with
          | nil => cases ls <;> simp [with_terminators] at hw
          | cons x xs => rfl
    · simp only [h1, Bool.false_eq_true, if_false]
      by_cases h2 : (c.toNat == 13 || c.toNat == 10) = true
      · simp only [h2, if_true, is_terminator]
        rw [ih1 []]
        cases hp : pre_lines (d :: r) with
        | nil => exact absurd hp (pre_lines_ne_nil _)
        | cons l ls =>
          simp only [with_terminators, List.append_nil, List.reverse_nil, List.nil_append]
          cases hw : with_terminators (l :: ls) (ends_with_terminator (d :: r)) with
          | nil => cases ls <;> simp [with_terminators] at hw
          | cons x xs => rfl
      · simp only [h2, Bool.false_eq_true, if_false, is_terminator]
        rw [ih1 (c :: acc)]
        cases hp : pre_lines (d :: r) with
        | nil => exact absurd hp (pre_lines_ne_nil _)
        | cons l ls =>
          simp only [with_terminators_cons]
          cases hw : with_terminators (l :: ls) (ends_with_terminator (d :: r)) with
          | nil => rfl
          | cons x xs =>
            obtain ⟨l0, f⟩ := x
            simp only [List.reverse_cons, List.append_assoc, List.singleton_append]

theorem box_construct_text_lines_eq (s : cstr) :
    box_construct_text_lines s [] =
      with_terminators (pre_lines s) (ends_with_terminator s) := by
  rw [box_construct_text_lines_acc]
  cases with_terminators (pre_lines s) (ends_with_terminator s) with
  | nil => rfl
  | cons x xs =>
    obtain ⟨l0, f⟩ := x
    rfl

/-- No line contains a line terminator. -/
theorem pre_lines_no_terminator : ∀ (s : cstr) (l : cstr), l ∈ pre_lines s →
    ∀ c ∈ l, is_terminator c = false
  | [], l, hl => by
    simp only [pre_lines, List.mem_singleton] at hl
    subst hl
    intro c hc
    exact absurd hc (List.not_mem_nil c)
  | [c], l, hl => by
    unfold pre_lines at hl
    split at hl
    · simp only [List.mem_singleton] at hl
      subst hl
      intro x hx
      exact absurd hx (List.not_mem_nil x)
    · rename_i h
      simp only [List.mem_singleton] at hl
      subst hl
      intro x hx
      simp only [List.mem_singleton] at hx
      subst hx
      simpa using h
  | c :: d :: r, l, hl => by
    have ih1 := pre_lines_no_terminator (d :: r)
    have ih2 := pre_lines_no_terminator r
    unfold pre_lines at hl
    split at hl
    · simp only [List.mem_cons] at hl
      rcases hl with hl | hl
      · subst hl
        intro x hx
        exact absurd hx (List.not_mem_nil x)
      · split at hl
        · exact absurd hl (List.not_mem_nil l)
        · exact ih2 l hl
    · split at hl
      · simp only [List.mem_cons] at hl
        rcases hl with hl | hl
        · subst hl
          intro x hx
          exact absurd hx (List.not_mem_nil x)
        · exact ih1 l hl
      · rename_i h
        split at hl
        · rename_i l0 ls hp
          simp only [List.mem_cons] at hl
          rcases hl with hl | hl
          · subst hl
            intro x hx
            simp only [List.mem_cons] at hx
            rcases hx with hx | hx
            · subst hx
              simpa using h
            · exact ih1 l0 (by rw [hp]; exact List.mem_cons_self _ _) x hx
          · exact ih1 l (by rw [hp]; exact List.mem_cons_of_mem _ hl)
        · rename_i hp
          exact absurd hp (pre_lines_ne_nil _)

/-- One run of the body of the loop of `box_construct_text` under preserved
white space, with the current inline container `k`. -/
theorem box_construct_text_pre_step_some (ps k : Nat) (href : Option cstr)
    (target : Option frame_target) (title : Option cstr) (line : cstr) (st S5 : content)
    (hk : k < st.boxes.length)
    (hS5 : S5 = box_add_child k st.boxes.length
      ((box_set_type st.boxes.length BOX_TEXT
          (box_create (some ps) href target title none st).1).modify_box st.boxes.length
        (fun b => { b with text := some line, length := line.length }))) :
    S5.boxes.length = st.boxes.length + 1 ∧
    (S5.box_at st.boxes.length).type = BOX_TEXT ∧
    (S5.box_at st.boxes.length).text = some line ∧
    (S5.box_at st.boxes.length).length = line.length ∧
    (S5.box_at st.boxes.length).parent = some k ∧
    (S5.box_at k).children = (st.box_at k).children ++ [st.boxes.length] ∧
    ∀ i, i < st.boxes.length →
      (S5.box_at i).type = (st.box_at i).type ∧ (S5.box_at i).parent = (st.box_at i).parent ∧
      (S5.box_at i).text = (st.box_at i).text ∧ (S5.box_at i).length = (st.box_at i).length ∧
      (∀ c ∈ (st.box_at i).children, c ∈ (S5.box_at i).children) ∧
      (i ≠ k → S5.box_at i = st.box_at i) := by
  subst hS5
  have e1 : k ≠ st.boxes.length := Nat.ne_of_lt hk
  have e2 : st.boxes.length ≠ k := Ne.symm e1
  have e3 : st.boxes.length < st.boxes.length + 1 := Nat.lt_succ_self _
  have e4 : k < st.boxes.length + 1 := by omega
  refine ⟨?_, ?_, ?_, ?_, ?_, ?_, fun i hi => ?_⟩
  · rw [length_boxes_box_add_child, length_boxes_modify_box, length_boxes_box_set_type,
      length_boxes_box_create]
  iterate 5
    simp only [box_at_box_add_child, box_at_modify_box, box_at_box_set_type,
      box_at_box_create, length_boxes_modify_box, length_boxes_box_set_type,
      length_boxes_box_create, e1, e2, e3, e4, hk, and_self, and_true, true_and, false_and,
      if_true, if_false]
  · have hib : i ≠ st.boxes.length := Nat.ne_of_lt hi
    have hi1 : i < st.boxes.length + 1 := by omega
    by_cases hik : i = k
    · subst hik
      simp only [box_at_box_add_child, box_at_modify_box, box_at_box_set_type,
        box_at_box_create, length_boxes_modify_box, length_boxes_box_set_type,
        length_boxes_box_create, hib, hi1, and_self, and_true, true_and, false_and,
        if_true, if_false, List.mem_append, not_true_eq_false, false_implies]
      exact ⟨fun c hc => Or.inl hc, fun h => absurd rfl h⟩
    · simp only [box_at_box_add_child, box_at_modify_box, box_at_box_set_type,
        box_at_box_create, length_boxes_modify_box, length_boxes_box_set_type,
        length_boxes_box_create, hib, hik, and_self, and_true, true_and, false_and,
        if_true, if_false, imp_self, implies_true]

/-- One run of the body of the loop of `box_construct_text` under preserved
white space, without a current inline container. -/
theorem box_construct_text_pre_step_none (ps parent : Nat) (href : Option cstr)
    (target : Option frame_target) (title : Option cstr) (line : cstr) (st S5 : content)
    (hp : parent < st.boxes.length)
    (hS5 : S5 = box_add_child st.boxes.length (st.boxes.length + 1)
      ((box_set_type (st.boxes.length + 1) BOX_TEXT
          (box_create (some ps) href target title none
            (box_add_child parent st.boxes.length
              (box_set_type st.boxes.length BOX_INLINE_CONTAINER
                (box_create none none none none none st).1))).1).modify_box
        (st.boxes.length + 1)
        (fun b => { b with text := some line, length := line.length }))) :
    S5.boxes.length = st.boxes.length + 2 ∧
    (S5.box_at (st.boxes.length + 1)).type = BOX_TEXT ∧
    (S5.box_at (st.boxes.length + 1)).text = some line ∧
    (S5.box_at (st.boxes.length + 1)).length = line.length ∧
    (S5.box_at (st.boxes.length + 1)).parent = some st.boxes.length ∧
    (S5.box_at st.boxes.length).children = [st.boxes.length + 1] ∧
    (S5.box_at st.boxes.length).type = BOX_INLINE_CONTAINER ∧
    (S5.box_at st.boxes.length).parent = some parent ∧
    (S5.box_at parent).children = (st.box_at parent).children ++ [st.boxes.length] ∧
    ∀ i, i < st.boxes.length →
      (S5.box_at i).type = (st.box_at i).type ∧ (S5.box_at i).parent = (st.box_at i).parent ∧
      (S5.box_at i).text = (st.box_at i).text ∧ (S5.box_at i).length = (st.box_at i).length ∧
      (∀ c ∈ (st.box_at i).children, c ∈ (S5.box_at i).children) ∧
      (i ≠ parent → S5.box_at i = st.box_at i) := by
  subst hS5
  have e1 : parent ≠ st.boxes.length := Nat.ne_of_lt hp
  have e2 : st.boxes.length ≠ parent := Ne.symm e1
  have e3 : st.boxes.length < st.boxes.length + 1 := Nat.lt_succ_self _
  have e4 : parent < st.boxes.length + 1 := by omega
  have e5 : st.boxes.length + 1 ≠ st.boxes.length := by omega
  have e6 : st.boxes.length ≠ st.boxes.length + 1 := by omega
  have e7 : st.boxes.length + 1 < st.boxes.length + 1 + 1 := by omega
  have e8 : st.boxes.length < st.boxes.length + 1 + 1 := by omega
  have e9 : parent ≠ st.boxes.length + 1 := by omega
  have e10 : st.boxes.length + 1 ≠ parent := by omega
  have e11 : parent < st.boxes.length + 1 + 1 := by omega
  refine ⟨?_, ?_, ?_, ?_, ?_, ?_, ?_, ?_, ?_, fun i hi => ?_⟩
  · rw [length_boxes_box_add_child, length_boxes_modify_box, length_boxes_box_set_type,
      length_boxes_box_create, length_boxes_box_add_child, length_boxes_box_set_type,
      length_boxes_box_create]
  iterate 8
    simp only [box_at_box_add_child, box_at_modify_box, box_at_box_set_type,
      box_at_box_create, length_boxes_modify_box, length_boxes_box_set_type,
      length_boxes_box_create, length_boxes_box_add_child, e1, e2, e3, e4, e5, e6, e7, e8,
      e9, e10, e11, hp, and_self, and_true, true_and, false_and, if_true, if_false, box_zero,
      List.nil_append]
  · have hib : i ≠ st.boxes.length := Nat.ne_of_lt hi
    have hib1 : i ≠ st.boxes.length + 1 := by omega
    have hi1 : i < st.boxes.length + 1 := by omega
    have hi2 : i < st.boxes.length + 1 + 1 := by omega
    by_cases hik : i = parent
    · subst hik
      simp only [box_at_box_add_child, box_at_modify_box, box_at_box_set_type,
        box_at_box_create, length_boxes_modify_box, length_boxes_box_set_type,
        length_boxes_box_create, length_boxes_box_add_child, hib, hib1, hi1, hi2, and_self,
        and_true, true_and, false_and, if_true, if_false, List.mem_append]
      exact ⟨fun c hc => Or.inl hc, fun h => absurd rfl h⟩
    · simp only [box_at_box_add_child, box_at_modify_box, box_at_box_set_type,
        box_at_box_create, length_boxes_modify_box, length_boxes_box_set_type,
        length_boxes_box_create, length_boxes_box_add_child, hib, hib1, hik, and_self,
        and_true, true_and, false_and, if_true, if_false, imp_self, implies_true]

/-- What the loop of `box_construct_text` under preserved white space leaves
of the boxes that exist, the text boxes that it creates, and the current
inline container on return. -/
theorem box_construct_text_pre_result (ps parent : Nat) (href : Option cstr)
    (target : Option frame_target) (title : Option cstr) :
    ∀ (ls : List (cstr × Bool)) (ic : Option Nat) (st : content),
      parent < st.boxes.length → (∀ k, ic = some k → k < st.boxes.length) →
      ∃ (st' : content) (ic' : Option Nat),
        box_construct_text_pre ps parent href target title ls ic st = (st', ic') ∧
        st.boxes.length ≤ st'.boxes.length ∧
        (∀ i, i < st.boxes.length →
          (st'.box_at i).type = (st.box_at i).type ∧
          (st'.box_at i).parent = (st.box_at i).parent ∧
          (st'.box_at i).text = (st.box_at i).text ∧
          (st'.box_at i).length = (st.box_at i).length ∧
          (∀ c ∈ (st.box_at i).children, c ∈ (st'.box_at i).children) ∧
          (i ≠ parent → ic ≠ some i → st'.box_at i = st.box_at i)) ∧
        pre_result parent ls ic st.boxes.length st' ∧
        (ls = [] → ic' = ic ∧ st' = st) ∧
        (∀ l f, ls.getLast? = some (l, f) →
          (ic' = none ↔ f = true) ∧
          ∀ k, ic' = some k → (st'.box_at (st'.boxes.length - 1)).parent = some k) := by
  intro ls
  induction ls with
  | nil =>
    intro ic st _ _
    refine ⟨st, ic, rfl, le_refl _, fun i _ => ⟨rfl, rfl, rfl, rfl, fun c hc => hc,
      fun _ _ => rfl⟩, rfl, fun _ => ⟨rfl, rfl⟩, fun l f h => ?_⟩
    exact Option.noConfusion h
  | cons x rest ih =>
    obtain ⟨line, terminated⟩ := x
    intro ic st hp hic
    cases ic with
    | some k =>
      have hk := hic k rfl
      unfold box_construct_text_pre
      simp only [box_inline_container, snd_box_create]
      obtain ⟨a1, a2, a3, a4, a5, a6, a7⟩ :=
        box_construct_text_pre_step_some ps k href target title line st _ hk rfl
      generalize box_add_child k st.boxes.length
        ((box_set_type st.boxes.length BOX_TEXT
            (box_create (some ps) href target title none st).1).modify_box st.boxes.length
          (fun b => { b with text := some line, length := line.length })) = S5
        at a1 a2 a3 a4 a5 a6 a7 ⊢
      obtain ⟨st', ic', h0, h1, h2, h3, h4, h5⟩ := ih (if terminated = true then none else some k)
        S5 (by omega) (by
          intro j hj
          split at hj
          · exact Option.noConfusion hj
          · cases hj
            omega)
      have hne : ∀ j, j ≠ k → (if terminated = true then none else some k) ≠ some j := by
        intro j hjk h
        split at h
        · exact Option.noConfusion h
        · exact hjk (Option.some.inj h).symm
      have htb := h2 st.boxes.length (by omega)
      have htb2 := htb.2.2.2.2.2 (Ne.symm (Nat.ne_of_lt hp)) (hne _ (Ne.symm (Nat.ne_of_lt hk)))
      have hkb := h2 k (by omega)
      refine ⟨st', ic', h0, by omega, fun i hi => ?_, ?_, fun h => List.noConfusion h,
        fun l f hl => ?_⟩
      · obtain ⟨b1, b2, b3, b4, b5, b6⟩ := a7 i hi
        obtain ⟨c1, c2, c3, c4, c5, c6⟩ := h2 i (by omega)
        refine ⟨c1.trans b1, c2.trans b2, c3.trans b3, c4.trans b4,
          fun c hc => c5 c (b5 c hc), fun hip hik => ?_⟩
        have hik2 : i ≠ k := fun h => hik (by rw [h])
        rw [c6 hip (hne i hik2), b6 hik2]
      · unfold pre_result
        simp only [Option.getD_some, Option.isSome_some, if_true]
        rw [htb2]
        refine ⟨a2, a3, a4, a5, hkb.2.2.2.2.1 _ (by rw [a6]; simp),
          fun h => Option.noConfusion h, ?_⟩
        rw [a1] at h3
        exact h3
      · cases rest with
        | nil =>
          obtain ⟨h41, h42⟩ := h4 rfl
          simp only [List.getLast?_singleton, Option.some.injEq, Prod.mk.injEq] at hl
          obtain ⟨-, hf⟩ := hl
          subst hf
          rw [h42]
          rw [h41]
          refine ⟨?_, fun j hj => ?_⟩
          · cases terminated <;> simp
          · rw [a1, Nat.add_sub_cancel, a5]
            cases terminated
            · simpa using hj
            · simp at hj
        | cons y ys =>
          rw [List.getLast?_cons_cons] at hl
          exact h5 l f hl
    | none =>
      unfold box_construct_text_pre
      simp only [box_inline_container, snd_box_create, length_boxes_box_add_child,
        length_boxes_box_set_type, length_boxes_box_create]
      obtain ⟨a1, a2, a3, a4, a5, a6, a7, a8, a9, a10⟩ :=
        box_construct_text_pre_step_none ps parent href target title line st _ hp rfl
      generalize box_add_child st.boxes.length (st.boxes.length + 1)
        ((box_set_type (st.boxes.length + 1) BOX_TEXT
            (box_create (some ps) href target title none
              (box_add_child parent st.boxes.length
                (box_set_type st.boxes.length BOX_INLINE_CONTAINER
                  (box_create none none none none none st).1))).1).modify_box
          (st.boxes.length + 1)
          (fun b => { b with text := some line, length := line.length })) = S5
        at a1 a2 a3 a4 a5 a6 a7 a8 a9 a10 ⊢
      obtain ⟨st', ic', h0, h1, h2, h3, h4, h5⟩ :=
        ih (if terminated = true then none else some st.boxes.length)
        S5 (by omega) (by
          intro j hj
          split at hj
          · exact Option.noConfusion hj
          · cases hj
            omega)
      have hne : ∀ j, j ≠ st.boxes.length →
          (if terminated = true then none else some st.boxes.length) ≠ some j := by
        intro j hjk h
        split at h
        · exact Option.noConfusion h
        · exact hjk (Option.some.inj h).symm
      have htb := h2 (st.boxes.length + 1) (by omega)
      have htb2 := htb.2.2.2.2.2 (by omega) (hne _ (by omega))
      have hcb := h2 st.boxes.length (by omega)
      have hpb := h2 parent (by omega)
      refine ⟨st', ic', h0, by omega, fun i hi => ?_, ?_, fun h => List.noConfusion h,
        fun l f hl => ?_⟩
      · obtain ⟨b1, b2, b3, b4, b5, b6⟩ := a10 i hi
        obtain ⟨c1, c2, c3, c4, c5, c6⟩ := h2 i (by omega)
        refine ⟨c1.trans b1, c2.trans b2, c3.trans b3, c4.trans b4,
          fun c hc => c5 c (b5 c hc), fun hip _ => ?_⟩
        rw [c6 hip (hne i (Nat.ne_of_lt hi)), b6 hip]
      · unfold pre_result
        simp only [Option.getD_none, Option.isSome_none, Bool.false_eq_true, if_false]
        rw [htb2]
        refine ⟨a2, a3, a4, a5, hcb.2.2.2.2.1 _ (by rw [a6]; simp), fun _ => ⟨?_, ?_, ?_, ?_⟩, ?_⟩
        · rw [hcb.1, a7]
        · rw [hcb.2.1, a8]
        · exact hpb.2.2.2.2.1 _ (by rw [a9]; simp)
        · intro hor
          rcases hor with ht | hr
          · rw [hcb.2.2.2.2.2 (Ne.symm (Nat.ne_of_lt hp)) (by rw [ht]; simp), a6]
          · subst hr
            rw [(h4 rfl).2, a6]
        · have e : st.boxes.length + 1 + 1 = S5.boxes.length := by omega
          rw [e]
          exact h3
      · cases rest with
        | nil =>
          obtain ⟨h41, h42⟩ := h4 rfl
          simp only [List.getLast?_singleton, Option.some.injEq, Prod.mk.injEq] at hl
          obtain ⟨-, hf⟩ := hl
          subst hf
          rw [h42]
          rw [h41]
          refine ⟨?_, fun j hj => ?_⟩
          · cases terminated <;> simp
          · have e : S5.boxes.length - 1 = st.boxes.length + 1 := by omega
            rw [e, a5]
            cases terminated
            · simpa using hj
            · simp at hj
        | cons y ys =>
          rw [List.getLast?_cons_cons] at hl
          exact h5 l f hl

theorem with_terminators_getLast? : ∀ (ls : List cstr) (e : Bool), ls ≠ [] →
    ∃ l, (with_terminators ls e).getLast? = some (l, e)
  | [], _, h => absurd rfl h
  | [l], e, _ => ⟨l, rfl⟩
  | l :: l1 :: ls, e, _ => by
    obtain ⟨l2, h2⟩ := with_terminators_getLast? (l1 :: ls) e (List.cons_ne_nil _ _)
    refine ⟨l2, ?_⟩
    unfold with_terminators
    cases hw : with_terminators (l1 :: ls) e with
    | nil => rw [hw] at h2; exact Option.noConfusion h2
    | cons x xs =>
      rw [List.getLast?_cons_cons, ← hw]
      exact h2

/-- Under preserved white space `box_construct_text` goes through the lines of
the content after the leading line terminator. -/
theorem box_construct_text_pre_eq (n : xmlNode) (ps parent : Nat) (ic : Option Nat)
    (href : Option cstr) (target : Option frame_target) (title : Option cstr) (st : content)
    (hws : ¬ ((st.style_at ps).white_space = CSS_WHITE_SPACE_NORMAL ∨
      (st.style_at ps).white_space = CSS_WHITE_SPACE_NOWRAP)) :
    box_construct_text n ps parent ic href target title st =
      some (box_construct_text_pre ps parent href target title
        (with_terminators
          (pre_lines (swallow_terminator (pre_content (st.style_at ps).text_transform n.content)))
          (ends_with_terminator
            (swallow_terminator (pre_content (st.style_at ps).text_transform n.content))))
        ic st) := by
  unfold box_construct_text
  simp only [hws, if_false]
  rw [← box_construct_text_lines_eq]
  unfold pre_content text_transformed
  generalize (if (st.style_at ps).text_transform ≠ CSS_TEXT_TRANSFORM_NONE
    then box_text_transform (cnv_space2nbsp n.content) (cnv_space2nbsp n.content).length
      (st.style_at ps).text_transform
    else cnv_space2nbsp n.content) = text
  cases text with
  | nil => rfl
  | cons c r =>
    unfold swallow_terminator
    rfl

/-- C24: in `box_construct_text` under preserved white space, after at most
one leading line terminator (`\n`, `\r` or `\r\n`) has been swallowed, the
content (with spaces made non-breaking, under the text transformation) is split
on line terminators into one text box per line, a terminator at the very end of
the content not starting a further empty line; no line, so no text box,
contains `\r` or `\n`; the first line goes into the current inline container
(created if absent), every later line, coming after a line terminator, into a
new inline container; no other box is created and the boxes that exist, other
than the parent and the current inline container, are left as they are; and on
return the current inline container is null exactly when the remaining content
ended with a line terminator, and else the container of the last text box. -/
theorem box_construct_text_pre_lines (n : xmlNode) (parent_style parent : Nat)
    (inline_container : Option Nat) (href : Option cstr) (target : Option frame_target)
    (title : Option cstr) (st : content) (current : cstr)
    (hws : ¬ ((st.style_at parent_style).white_space = CSS_WHITE_SPACE_NORMAL ∨
      (st.style_at parent_style).white_space = CSS_WHITE_SPACE_NOWRAP))
    (hcurrent : current =
      swallow_terminator (pre_content (st.style_at parent_style).text_transform n.content))
    (hparent : parent < st.boxes.length)
    (hic : ∀ k, inline_container = some k → k < st.boxes.length) :
    ∃ (st' : content) (inline_container' : Option Nat),
      box_construct_text n parent_style parent inline_container href target title st =
        some (st', inline_container') ∧
      pre_result parent (with_terminators (pre_lines current) (ends_with_terminator current))
        inline_container st.boxes.length st' ∧
      (∀ l ∈ pre_lines current, ∀ c ∈ l, c ≠ Char.ofNat 13 ∧ c ≠ Char.ofNat 10) ∧
      (inline_container' = none ↔ ends_with_terminator current = true) ∧
      (∀ k, inline_container' = some k →
        (st'.box_at (st'.boxes.length - 1)).parent = some k) ∧
      ∀ i, i < st.boxes.length → i ≠ parent → inline_container ≠ some i →
        st'.box_at i = st.box_at i := by
  subst hcurrent
  obtain ⟨st', ic', h0, -, h2, h3, -, h5⟩ := box_construct_text_pre_result parent_style parent
    href target title
    (with_terminators
      (pre_lines
        (swallow_terminator (pre_content (st.style_at parent_style).text_transform n.content)))
      (ends_with_terminator
        (swallow_terminator (pre_content (st.style_at parent_style).text_transform n.content))))
    inline_container st hparent hic
  obtain ⟨l, hl⟩ := with_terminators_getLast? _
    (ends_with_terminator
      (swallow_terminator (pre_content (st.style_at parent_style).text_transform n.content)))
    (pre_lines_ne_nil
      (swallow_terminator (pre_content (st.style_at parent_style).text_transform n.content)))
  refine ⟨st', ic', ?_, h3, fun l1 hl1 c hc => ?_, (h5 l _ hl).1, (h5 l _ hl).2,
    fun i hi hip hik => (h2 i hi).2.2.2.2.2 hip hik⟩
  · rw [box_construct_text_pre_eq n parent_style parent inline_container href target title st
      hws, h0]
  · have := pre_lines_no_terminator _ l1 hl1 c hc
    unfold is_terminator at this
    simp only [Bool.or_eq_false_iff, beq_eq_false_iff_ne, ne_eq] at this
    constructor
    · intro h
      rw [h] at this
      exact this.1 rfl
    · intro h
      rw [h] at this
      exact this.2 rfl

theorem box_construct_text_pre_lines_witness :
    ∃ (st' : content) (inline_container' : Option Nat),
      box_construct_text example_pre_text 1 0 none none none none example_pre_root =
        some (st', inline_container') ∧
      pre_result 0
        (with_terminators (pre_lines ['a', Char.ofNat 13, Char.ofNat 10, Char.ofNat 10, 'b',
            Char.ofNat 10])
          (ends_with_terminator ['a', Char.ofNat 13, Char.ofNat 10, Char.ofNat 10, 'b',
            Char.ofNat 10]))
        none example_pre_root.boxes.length st' ∧
      (∀ l ∈ pre_lines ['a', Char.ofNat 13, Char.ofNat 10, Char.ofNat 10, 'b', Char.ofNat 10],
        ∀ c ∈ l, c ≠ Char.ofNat 13 ∧ c ≠ Char.ofNat 10) ∧
      (inline_container' = none ↔
        ends_with_terminator ['a', Char.ofNat 13, Char.ofNat 10, Char.ofNat 10, 'b',
          Char.ofNat 10] = true) ∧
      (∀ k, inline_container' = some k →
        (st'.box_at (st'.boxes.length - 1)).parent = some k) ∧
      ∀ i, i < example_pre_root.boxes.length → i ≠ 0 → (none : Option Nat) ≠ some i →
        st'.box_at i = example_pre_root.box_at i :=
  box_construct_text_pre_lines example_pre_text 1 0 none none none none example_pre_root
    ['a', Char.ofNat 13, Char.ofNat 10, Char.ofNat 10, 'b', Char.ofNat 10]
    (by decide) (by decide) (by decide) (fun _ hk => Option.noConfusion hk)

theorem box_solve_display_table_eq (display : css_display) :
    box_solve_display_table display = display_table display := by
  cases display <;> simp [box_solve_display_table, display_table]

theorem box_solve_display_table_idem (display : css_display) :
    box_solve_display_table (box_solve_display_table display) =
      box_solve_display_table display := by
  cases display <;> simp [box_solve_display_table]

theorem box_solve_display_table_ne_none (display : css_display) :
    box_solve_display_table display ≠ CSS_DISPLAY_NONE := by
  cases display <;> simp [box_solve_display_table]

/-- C37: for every style whose display is not none and whose position is
absolute or fixed, `box_solve_display` sets float to none and maps display
through the table used for floats (inline-table becomes table, list-item and
table are kept, everything else becomes block), whatever the root flag, and
changes nothing else; and `box_solve_display` is idempotent on every style
(for a positioned style also when the two calls differ in the root flag). -/
theorem box_solve_display_positioned (style : css_style) (root : Bool) :
    (style.display ≠ CSS_DISPLAY_NONE →
      (style.position = CSS_POSITION_ABSOLUTE ∨ style.position = CSS_POSITION_FIXED) →
      box_solve_display style root =
        { style with float_ := CSS_FLOAT_NONE, display := display_table style.display } ∧
      ∀ root2 : Bool, box_solve_display (box_solve_display style root) root2 =
        box_solve_display style root) ∧
    box_solve_display (box_solve_display style root) root = box_solve_display style root := by
  refine ⟨fun hd hp => ⟨?_, fun root2 => ?_⟩, ?_⟩
  · rw [← box_solve_display_table_eq]
    simp only [box_solve_display, hd, hp, if_true, if_false]
  · have h1 : box_solve_display style root =
        { style with float_ := CSS_FLOAT_NONE,
                     display := box_solve_display_table style.display } := by
      simp only [box_solve_display, hd, hp, if_true, if_false]
    rw [h1]
    simp only [box_solve_display, box_solve_display_table_ne_none, hp, if_true, if_false,
      box_solve_display_table_idem]
  · by_cases hd : style.display = CSS_DISPLAY_NONE
    · simp only [box_solve_display, hd, if_true]
    · by_cases hp : style.position = CSS_POSITION_ABSOLUTE ∨ style.position = CSS_POSITION_FIXED
      · simp only [box_solve_display, hd, hp, if_true, if_false,
          box_solve_display_table_ne_none, box_solve_display_table_idem]
      · by_cases hf : style.float_ = CSS_FLOAT_NONE
        · cases root
          · simp only [box_solve_display, hd, hp, hf, if_true, if_false, ne_eq,
              not_true_eq_false, Bool.false_eq_true]
          · simp only [box_solve_display, hd, hp, hf, if_true, if_false, ne_eq,
              not_true_eq_false, box_solve_display_table_ne_none,
              box_solve_display_table_idem]
        · simp only [box_solve_display, hd, hp, hf, if_true, if_false, ne_eq,
            not_false_eq_true, box_solve_display_table_ne_none,
            box_solve_display_table_idem]

theorem box_solve_display_positioned_witness :
    box_solve_display example_positioned_style false =
      { example_positioned_style with
        float_ := CSS_FLOAT_NONE, display := CSS_DISPLAY_BLOCK } ∧
    (∀ root2 : Bool,
      box_solve_display (box_solve_display example_positioned_style false) root2 =
        box_solve_display example_positioned_style false) :=
  (box_solve_display_positioned example_positioned_style false).1 (by decide)
    (Or.inl rfl)

theorem box_extract_link_writes_index (cs : cstr) :
    ∀ j, (box_extract_link_writes cs j).map Prod.fst =
      List.range' j ((box_extract_link_copy cs).length + 1) := by
  induction cs with
  | nil => intro j; rfl
  | cons c cs ih =>
    intro j
    unfold box_extract_link_writes box_extract_link_copy
    by_cases h1 : c.toNat < 0x20
    · simp only [h1, if_true]; exact ih j
    · cases h2 : (c.toNat == 32)
      · simp only [h1, if_false, Bool.false_eq_true, List.map_cons, List.length_cons,
          ih (j + 1), List.range'_succ]
      · simp only [h1, if_true, if_false, List.map_cons, List.length_cons, ih (j + 3),
          List.range'_succ, Nat.add_assoc]

theorem box_extract_link_writes_chars (cs : cstr) :
    ∀ j, (box_extract_link_writes cs j).map Prod.snd =
      box_extract_link_copy cs ++ [Char.ofNat 0] := by
  induction cs with
  | nil => intro j; rfl
  | cons c cs ih =>
    intro j
    unfold box_extract_link_writes box_extract_link_copy
    by_cases h1 : c.toNat < 0x20
    · simp only [h1, if_true]; exact ih j
    · cases h2 : (c.toNat == 32)
      · simp only [h1, if_false, Bool.false_eq_true, List.map_cons, List.cons_append,
          ih (j + 1)]
      · simp only [h1, if_true, if_false, List.map_cons, List.cons_append, ih (j + 3)]

theorem length_box_extract_link_copy_le (cs : cstr) :
    (box_extract_link_copy cs).length ≤ 3 * cs.length := by
  induction cs with
  | nil => simp [box_extract_link_copy]
  | cons c cs ih =>
    unfold box_extract_link_copy
    by_cases h1 : c.toNat < 0x20
    · simp only [h1, if_true, List.length_cons]; omega
    · cases h2 : (c.toNat == 32)
      · simp only [h1, if_false, Bool.false_eq_true, List.length_cons]; omega
      · simp only [h1, if_true, if_false, List.length_cons]; omega

theorem length_box_extract_link_s_le (rel : cstr) :
    (box_extract_link_s rel).length ≤ 3 * rel.length := by
  unfold box_extract_link_s
  refine Nat.le_trans (length_box_extract_link_copy_le _) ?_
  simp only [List.length_drop, List.length_take]
  omega

/-- C40: for every link text `rel`, the writes of `box_extract_link` into its
scratch buffer go to the indices 0, 1, 2, ... in turn, the last one being the
terminator at the index that is the length of the cleaned string; the chars
written are the cleaned string and the terminator; and every index written is
at most `3 * strlen(rel)`, so below the `3 * strlen(rel) + 1` bytes
allocated. -/
theorem box_extract_link_index_bound (rel : cstr) :
    (box_extract_link_s_writes rel).map Prod.fst =
      List.range ((box_extract_link_s rel).length + 1) ∧
    (box_extract_link_s_writes rel).map Prod.snd = box_extract_link_s rel ++ [Char.ofNat 0] ∧
    (box_extract_link_s_writes rel).getLast? =
      some ((box_extract_link_s rel).length, Char.ofNat 0) ∧
    (box_extract_link_s rel).length + 1 ≤ 3 * rel.length + 1 ∧
    ∀ w ∈ box_extract_link_s_writes rel, w.1 ≤ 3 * rel.length ∧ w.1 < 3 * rel.length + 1 := by
  have hle := length_box_extract_link_s_le rel
  have hi : (box_extract_link_s_writes rel).map Prod.fst =
      List.range ((box_extract_link_s rel).length + 1) := by
    unfold box_extract_link_s_writes box_extract_link_s
    rw [box_extract_link_writes_index, List.range_eq_range']
  have hc : (box_extract_link_s_writes rel).map Prod.snd =
      box_extract_link_s rel ++ [Char.ofNat 0] := by
    unfold box_extract_link_s_writes box_extract_link_s
    rw [box_extract_link_writes_chars]
  refine ⟨hi, hc, ?_, by omega, ?_⟩
  · have h1 : ((box_extract_link_s_writes rel).map Prod.fst).getLast? =
        some (box_extract_link_s rel).length := by
      rw [hi, List.range_succ, List.getLast?_append, List.getLast?_singleton]
      rfl
    have h2 : ((box_extract_link_s_writes rel).map Prod.snd).getLast? =
        some (Char.ofNat 0) := by
      rw [hc, List.getLast?_append, List.getLast?_singleton]
      rfl
    rw [List.getLast?_map] at h1 h2
    cases hl : (box_extract_link_s_writes rel).getLast? with
    | none => rw [hl] at h1; cases h1
    | some w =>
      rw [hl] at h1 h2
      simp only [Option.map_some', Option.some.injEq] at h1 h2
      rw [← h1, ← h2]
  · intro w hw
    have hm : w.1 ∈ (box_extract_link_s_writes rel).map Prod.fst :=
      List.mem_map_of_mem _ hw
    rw [hi, List.mem_range] at hm
    omega

/-- C34: for the element `<input type="file" size="20">` under the base style
of the example document, `box_get_style` computes the width kind `length` and
the width value 20, the unit being the one the cascade left (em), whereas for
`<input type="file">` the width is as the cascade left it (inherit, value 0):
the `size` attribute of a file input is not ignored, only the assignment of
the unit is skipped. -/
theorem box_get_style_file_size :
    (box_get_style example_env example_root.base_url (example_root.style_at 0)
        example_file_size).map (fun s => s.width) =
      some { width := CSS_WIDTH_LENGTH,
             length := { value := cfloat.ofInt 20, unit := CSS_UNIT_EM },
             percent := cfloat.fin 0 1 } ∧
    (box_get_style example_env example_root.base_url (example_root.style_at 0)
        example_file).map (fun s => s.width) =
      some { width := CSS_WIDTH_INHERIT,
             length := { value := cfloat.fin 0 1, unit := CSS_UNIT_EM },
             percent := cfloat.fin 0 1 } := by
  decide

set_option maxRecDepth 4096 in
/-- C33: `box_construct_element` converts
`<tr height="10"><td height="50"></td><td height="20"></td></tr>` into a row
box (box 1) with two table-cell children (boxes 2 and 3, with the styles 2 and
3), and the heights of the two cells are afterwards 50 and 50 pixels: the
second cell, whose own height is 20 pixels (as the same row without the
`height` attribute shows), gets the height 50 that the first cell left in
`value`, not the maximum 20 of the row height 10 and its own height. -/
theorem box_construct_element_tr_height_carried :
    (box_construct_element example_table_env example_tr 0 0 none none none none
        example_root).map
      (fun r => (r.1.boxes.map (fun b => (b.type, b.style, b.children)),
        (r.1.style_at 2).height, (r.1.style_at 3).height)) =
      some ([(BOX_BLOCK, none, [1]), (BOX_TABLE_ROW, some 1, [2, 3]),
          (BOX_TABLE_CELL, some 2, []), (BOX_TABLE_CELL, some 3, [])],
        { height := CSS_HEIGHT_LENGTH, length := css_px (cfloat.ofInt 50) },
        { height := CSS_HEIGHT_LENGTH, length := css_px (cfloat.ofInt 50) }) ∧
    (box_construct_element example_table_env example_tr_plain 0 0 none none none none
        example_root).map
      (fun r => (r.1.boxes.map (fun b => (b.type, b.style, b.children)),
        (r.1.style_at 2).height, (r.1.style_at 3).height)) =
      some ([(BOX_BLOCK, none, [1]), (BOX_TABLE_ROW, some 1, [2, 3]),
          (BOX_TABLE_CELL, some 2, []), (BOX_TABLE_CELL, some 3, [])],
        { height := CSS_HEIGHT_LENGTH, length := css_px (cfloat.ofInt 50) },
        { height := CSS_HEIGHT_LENGTH, length := css_px (cfloat.ofInt 20) }) := by
  refine ⟨?_, ?_⟩ <;> decide

/-- The boxes that `box_textarea` creates: the inline container (box
`st.boxes.length`) and, as its children in the order of the arena, the TEXT
box of each line with a BR box between two lines. -/
theorem box_textarea_boxes (n : xmlNode) (b : Nat) (st : content)
    (hb : b < st.boxes.length) :
    ∃ st' : content, box_textarea n b st = some (st', false) ∧
      (box_textarea_lines (xmlNodeGetContent n) []).length =
        line_breaks (xmlNodeGetContent n) + 1 ∧
      (∀ l ∈ box_textarea_lines (xmlNodeGetContent n) [], ∀ c ∈ l,
        c.toNat ≠ 13 ∧ c.toNat ≠ 10) ∧
      st'.boxes.length = st.boxes.length + 2 * (line_breaks (xmlNodeGetContent n) + 1) ∧
      (st'.box_at b).type = BOX_INLINE_BLOCK ∧
      (st'.box_at b).children = (st.box_at b).children ++ [st.boxes.length] ∧
      (st'.box_at st.boxes.length).type = BOX_INLINE_CONTAINER ∧
      (st'.box_at st.boxes.length).children =
        List.range' (st.boxes.length + 1) (2 * line_breaks (xmlNodeGetContent n) + 1) ∧
      (∀ (j : Nat) (l : cstr), (box_textarea_lines (xmlNodeGetContent n) [])[j]? = some l →
        (st'.box_at (st.boxes.length + 1 + 2 * j)).type = BOX_TEXT ∧
        (st'.box_at (st.boxes.length + 1 + 2 * j)).text = some l ∧
        (st'.box_at (st.boxes.length + 1 + 2 * j)).length = l.length) ∧
      ∀ j : Nat, j < line_breaks (xmlNodeGetContent n) →
        (st'.box_at (st.boxes.length + 2 + 2 * j)).type = BOX_BR := by
  obtain ⟨hlen, hchars⟩ := box_textarea_lines_spec _ (xmlNodeGetContent n) [] (le_refl _)
    (fun c hc => absurd hc (List.not_mem_nil _))
  unfold box_textarea
  simp only [snd_box_create]
  have h3 : ∃ x3 : box,
      (((box_set_type b BOX_INLINE_BLOCK st |> form_new_control GADGET_TEXTAREA).1.modify_box b
        (fun x => { x with gadget := some (form_new_control GADGET_TEXTAREA
          (box_set_type b BOX_INLINE_BLOCK st)).2 })).modify_control
        (form_new_control GADGET_TEXTAREA (box_set_type b BOX_INLINE_BLOCK st)).2
        (fun g => { g with box := some b,
                           name := box_get_attribute n "name".toList g.name })).boxes[b]? =
        some x3 ∧ x3.type = BOX_INLINE_BLOCK ∧ x3.children = (st.box_at b).children := by
    simp only [box_set_type, form_new_control, content.modify_box, content.modify_control,
      getElem?_list_modify, if_true, List.getElem?_eq_getElem hb, Option.map_some',
      content.box_at, Option.getD_some]
    exact ⟨_, rfl, rfl, rfl⟩
  have h3l :
      (((box_set_type b BOX_INLINE_BLOCK st |> form_new_control GADGET_TEXTAREA).1.modify_box b
        (fun x => { x with gadget := some (form_new_control GADGET_TEXTAREA
          (box_set_type b BOX_INLINE_BLOCK st)).2 })).modify_control
        (form_new_control GADGET_TEXTAREA (box_set_type b BOX_INLINE_BLOCK st)).2
        (fun g => { g with box := some b,
                           name := box_get_attribute n "name".toList g.name })).boxes.length =
        st.boxes.length := by
    simp only [box_set_type, form_new_control, content.modify_box, content.modify_control,
      length_list_modify]
  generalize ((box_set_type b BOX_INLINE_BLOCK st |> form_new_control GADGET_TEXTAREA).1.modify_box b
        (fun x => { x with gadget := some (form_new_control GADGET_TEXTAREA
          (box_set_type b BOX_INLINE_BLOCK st)).2 })).modify_control
        (form_new_control GADGET_TEXTAREA (box_set_type b BOX_INLINE_BLOCK st)).2
        (fun g => { g with box := some b,
                           name := box_get_attribute n "name".toList g.name }) = s3 at h3 h3l ⊢
  generalize form_new_control GADGET_TEXTAREA (box_set_type b BOX_INLINE_BLOCK st) = fc
  obtain ⟨x3, hx3, hx3t, hx3c⟩ := h3
  generalize hk : line_breaks (xmlNodeGetContent n) = k at hlen ⊢
  generalize box_textarea_lines (xmlNodeGetContent n) [] = lines at hlen hchars ⊢
  cases lines with
  | nil => simp at hlen
  | cons line rest =>
    have hrest : rest.length = k := by simpa using hlen
    obtain ⟨s7, e7, hl, hbx, ⟨xic, hxic, hxict, hxicc⟩, htext, hbr⟩ :=
      box_textarea_loop_spec b (s3.box_at b).title line rest s3 (by omega)
    simp only []
    rw [← e7]
    refine ⟨_, rfl, hlen, hchars, ?_, ?_, ?_, ?_, ?_, ?_, ?_⟩
    · rw [boxes_box_form_add_control, hl, h3l, hrest]
    · simp only [content.box_at, boxes_box_form_add_control, hbx, hx3, Option.map_some',
        Option.getD_some, hx3t]
    · simp only [content.box_at, boxes_box_form_add_control, hbx, hx3, Option.map_some',
        Option.getD_some, hx3c, h3l]
    · simp only [content.box_at, boxes_box_form_add_control, ← h3l, hxic, Option.getD_some,
        hxict]
    · simp only [content.box_at, boxes_box_form_add_control, ← h3l, hxic, Option.getD_some,
        hxicc, hrest]
    · intro j l hjl
      obtain ⟨xt, hxt, h1, h2, h3⟩ := htext j l hjl
      simp only [content.box_at, boxes_box_form_add_control, ← h3l, hxt, Option.getD_some]
      exact ⟨h1, h2, h3⟩
    · intro j hj
      obtain ⟨xb, hxb, h1⟩ := hbr j (by omega)
      simp only [content.box_at, boxes_box_form_add_control, ← h3l, hxb, Option.getD_some]
      exact h1

theorem lines_joined_cons_cons (l : cstr) (ls : List cstr) (h : ls ≠ []) :
    lines_joined (l :: ls) = l ++ Char.ofNat 10 :: lines_joined ls := by
  cases ls with
  | nil => exact absurd rfl h
  | cons m r => rfl

theorem box_textarea_lines_ne_nil : ∀ (k : Nat) (s acc : cstr), s.length ≤ k →
    box_textarea_lines s acc ≠ []
  | _, [], acc, _ => by simp [box_textarea_lines]
  | _, [c], acc, _ => by
    unfold box_textarea_lines
    split <;> simp
  | 0, _ :: _ :: _, _, h => by simp at h
  | k + 1, c :: d :: r, acc, h => by
    unfold box_textarea_lines
    split
    · simp
    · split
      · simp
      · exact box_textarea_lines_ne_nil k (d :: r) (c :: acc)
          (by simp only [List.length_cons] at h ⊢; omega)

theorem lines_joined_box_textarea_lines : ∀ (k : Nat) (s acc : cstr), s.length ≤ k →
    (∀ c ∈ acc, c.toNat ≠ 13) →
    lines_joined (box_textarea_lines s acc) = acc.reverse ++ newlines_normalized s
  | _, [], acc, _, _ => by
    simp [box_textarea_lines, lines_joined, newlines_normalized]
  | _, [c], acc, _, _ => by
    unfold box_textarea_lines newlines_normalized
    by_cases h13 : c.toNat = 13
    · simp [h13, lines_joined]
    · by_cases h10 : c.toNat = 10
      · have hc : c = Char.ofNat 10 := by
          rw [← Char.ofNat_toNat c, h10]
        simp [h13, h10, lines_joined, hc]
      · simp [h13, h10, lines_joined]
  | 0, _ :: _ :: _, _, h, _ => by simp at h
  | k + 1, c :: d :: r, acc, h, hacc => by
    have hlen1 : (d :: r).length ≤ k := by
      simp only [List.length_cons] at h ⊢; omega
    have hlen2 : r.length ≤ k := by
      simp only [List.length_cons] at h ⊢; omega
    unfold box_textarea_lines newlines_normalized
    by_cases h13 : c.toNat = 13
    · by_cases hd : d.toNat = 10
      · simp only [h13, hd, beq_self_eq_true, Bool.and_self, if_true, and_self]
        rw [lines_joined_cons_cons _ _ (box_textarea_lines_ne_nil k r [] hlen2),
          lines_joined_box_textarea_lines k r [] hlen2 (by simp)]
        simp
      · have hd' : (d.toNat == 10) = false := by simpa using hd
        simp only [h13, hd, hd', beq_self_eq_true, Bool.and_false, Bool.false_eq_true,
          if_false, and_false, Bool.true_or, if_true]
        rw [lines_joined_cons_cons _ _ (box_textarea_lines_ne_nil k (d :: r) [] hlen1),
          lines_joined_box_textarea_lines k (d :: r) [] hlen1 (by simp)]
        simp
    · have h13' : (c.toNat == 13) = false := by simpa using h13
      by_cases h10 : c.toNat = 10
      · have hc : c = Char.ofNat 10 := by
          rw [← Char.ofNat_toNat c, h10]
        have h10' : (c.toNat == 10) = true := by simpa using h10
        simp only [h13, h13', h10', Bool.false_and, Bool.false_eq_true,
          if_false, false_and, Bool.or_true, Bool.false_or, if_true]
        rw [lines_joined_cons_cons _ _ (box_textarea_lines_ne_nil k (d :: r) [] hlen1),
          lines_joined_box_textarea_lines k (d :: r) [] hlen1 (by simp)]
        simp [hc]
      · have h10' : (c.toNat == 10) = false := by simpa using h10
        simp only [h13, h13', h10', Bool.false_and, Bool.false_eq_true, if_false, false_and,
          Bool.or_self]
        rw [lines_joined_box_textarea_lines k (d :: r) (c :: acc) hlen1
          (by
            intro x hx
            rcases List.mem_cons.mp hx with hx | hx
            · rw [hx]; exact h13
            · exact hacc x hx)]
        simp

theorem flatMap_range_lines (f : Nat → cstr) : ∀ (rest : List cstr) (line : cstr) (o : Nat),
    (∀ (j : Nat) (l : cstr), (line :: rest)[j]? = some l → f (o + 2 * j) = l) →
    (∀ j : Nat, j < rest.length → f (o + 1 + 2 * j) = [Char.ofNat 10]) →
    (List.range' o (2 * rest.length + 1)).flatMap f = lines_joined (line :: rest)
  | [], line, o, ht, _ => by
    have h0 := ht 0 line rfl
    simp only [Nat.mul_zero, Nat.add_zero] at h0
    simp [lines_joined, List.range', h0]
  | m :: r, line, o, ht, hb => by
    have h0 := ht 0 line rfl
    simp only [Nat.mul_zero, Nat.add_zero] at h0
    have h1 := hb 0 (by simp)
    simp only [Nat.mul_zero, Nat.add_zero] at h1
    have e : 2 * (m :: r).length + 1 = (2 * r.length + 1) + 1 + 1 := by
      simp only [List.length_cons]; omega
    rw [e, List.range'_succ, List.range'_succ, List.flatMap_cons, List.flatMap_cons, h0, h1]
    have ih := flatMap_range_lines f r m (o + 2)
      (fun j l hj => by
        have := ht (j + 1) l (by simpa using hj)
        have e2 : o + 2 * (j + 1) = o + 2 + 2 * j := by omega
        rw [e2] at this; exact this)
      (fun j hj => by
        have := hb (j + 1) (by simp only [List.length_cons]; omega)
        have e2 : o + 1 + 2 * (j + 1) = o + 2 + 1 + 2 * j := by omega
        rw [e2] at this; exact this)
    have e3 : o + 1 + 1 = o + 2 := by omega
    rw [e3, ih]
    rfl

/-- C39: for every textarea content string, `box_textarea` returns, and the
texts of the TEXT boxes that it creates, in order (the order of creation, which
is the order of the children of the new inline container), concatenated with
one `\n` inserted for each BR box, are exactly the content with every `\r\n`
and every lone `\r` replaced by `\n`. -/
theorem box_textarea_text_content (n : xmlNode) (b : Nat) (st : content)
    (hb : b < st.boxes.length) :
    ∃ st' : content, box_textarea n b st = some (st', false) ∧
      boxes_text st' (List.range' st.boxes.length (st'.boxes.length - st.boxes.length)) =
        newlines_normalized (xmlNodeGetContent n) ∧
      boxes_text st' (st'.box_at st.boxes.length).children =
        newlines_normalized (xmlNodeGetContent n) := by
  obtain ⟨st', he, hlen, -, hl', -, -, hict, hicc, htext, hbr⟩ := box_textarea_boxes n b st hb
  refine ⟨st', he, ?_, ?_⟩
  all_goals
    have hj := lines_joined_box_textarea_lines (xmlNodeGetContent n).length
      (xmlNodeGetContent n) [] (Nat.le_refl _) (by simp)
    simp only [List.reverse_nil, List.nil_append] at hj
    rw [← hj]
    generalize hk : line_breaks (xmlNodeGetContent n) = k at hlen hl' hicc hbr
    generalize box_textarea_lines (xmlNodeGetContent n) [] = lines at hlen htext
    cases lines with
    | nil => simp at hlen
    | cons line rest =>
      have hrest : rest.length = k := by simpa using hlen
      have hflat := flatMap_range_lines
        (fun x =>
          if (st'.box_at x).type = BOX_TEXT then box_text (st'.box_at x)
          else if (st'.box_at x).type = BOX_BR then [Char.ofNat 10]
          else [])
        rest line (st.boxes.length + 1)
        (fun j l hjl => by
          obtain ⟨h1, h2, h3⟩ := htext j l hjl
          simp only [h1, if_true, box_text, h2, h3, Option.getD_some, List.take_length])
        (fun j hj => by
          have h1 := hbr j (by omega)
          have e : st.boxes.length + 1 + 1 + 2 * j = st.boxes.length + 2 + 2 * j := by omega
          rw [e]
          simp only [h1, if_true]
          rfl)
      rw [hrest] at hflat
      first
      | (unfold boxes_text
         rw [hicc]
         exact hflat)
      | (unfold boxes_text
         have e : st'.boxes.length - st.boxes.length = (2 * k + 1) + 1 := by omega
         rw [e, List.range'_succ, List.flatMap_cons, hict]
         exact hflat)

theorem box_textarea_text_content_witness :
    ∃ st' : content, box_textarea example_textarea 0 example_root = some (st', false) ∧
      boxes_text st'
          (List.range' example_root.boxes.length
            (st'.boxes.length - example_root.boxes.length)) =
        newlines_normalized (xmlNodeGetContent example_textarea) ∧
      boxes_text st' (st'.box_at example_root.boxes.length).children =
        newlines_normalized (xmlNodeGetContent example_textarea) :=
  box_textarea_text_content example_textarea 0 example_root (by decide)

/-- Under `white-space: normal` or `nowrap`, for a text node whose squashed
content is not a single space: the text box created, with its text and its
trailing-space flag. -/
theorem box_construct_text_normal_box (n : xmlNode) (parent_style parent : Nat)
    (inline_container : Option Nat) (href : Option cstr) (target : Option frame_target)
    (title : Option cstr) (st : content)
    (hws : (st.style_at parent_style).white_space = CSS_WHITE_SPACE_NORMAL ∨
      (st.style_at parent_style).white_space = CSS_WHITE_SPACE_NOWRAP)
    (hparent : parent < st.boxes.length)
    (hic : ∀ k, inline_container = some k → k < st.boxes.length ∧
      ∀ p ∈ (st.box_at k).children, p < st.boxes.length ∧ p ≠ k)
    (ht : squash_whitespace n.content ≠ [' ']) :
    ∃ (st' : content) (k b : Nat),
      box_construct_text n parent_style parent inline_container href target title st =
        some (st', some k) ∧
      st.boxes.length ≤ b ∧ b + 1 = st'.boxes.length ∧
      (st'.box_at b).type = BOX_TEXT ∧
      box_text (st'.box_at b) =
        text_transformed (st.style_at parent_style).text_transform
          (text_body (squash_whitespace n.content)) ∧
      (st'.box_at b).space =
        (decide ((squash_whitespace n.content).length > 1) &&
          (squash_whitespace n.content).getLast? == some ' ') := by
  cases hc : inline_container with
  | some k0 =>
    obtain ⟨hkl, hch⟩ := hic k0 hc
    obtain ⟨st', h0, h1, h2, -, -, -, h6, h7, -⟩ :=
      box_construct_text_normal_some n parent_style parent k0 href target title st hws ht
        hkl hch
    exact ⟨st', k0, st.boxes.length, h0, Nat.le_refl _, h1.symm, h2, h6, h7⟩
  | none =>
    rw [box_construct_text_normal_none n parent_style parent href target title st hws ht]
    have hlen : (box_add_child parent st.boxes.length
        (box_set_type st.boxes.length BOX_INLINE_CONTAINER
          (box_create none none none none none st).1)).boxes.length = st.boxes.length + 1 := by
      rw [length_boxes_box_add_child, length_boxes_box_set_type, length_boxes_box_create]
    have hs : (box_add_child parent st.boxes.length
        (box_set_type st.boxes.length BOX_INLINE_CONTAINER
          (box_create none none none none none st).1)).style_at parent_style =
        st.style_at parent_style := rfl
    have hkc : ((box_add_child parent st.boxes.length
        (box_set_type st.boxes.length BOX_INLINE_CONTAINER
          (box_create none none none none none st).1)).box_at st.boxes.length).children = [] := by
      rw [children_box_add_child, children_box_set_type, children_box_create]
      split
      · rename_i h
        exact absurd h.1 (Ne.symm (Nat.ne_of_lt hparent))
      · unfold content.box_at
        rw [List.getElem?_eq_none (le_refl _)]
        rfl
    generalize box_add_child parent st.boxes.length
        (box_set_type st.boxes.length BOX_INLINE_CONTAINER
          (box_create none none none none none st).1) = s1 at hlen hs hkc ⊢
    obtain ⟨st', h0, h1, h2, -, -, -, h6, h7, -⟩ :=
      box_construct_text_normal_some n parent_style parent st.boxes.length href target title
        s1 (by rw [hs]; exact hws) ht (by omega)
        (by rw [hkc]; intro p hp; exact absurd hp (List.not_mem_nil p))
    rw [hlen] at h1 h2 h6 h7
    rw [hs] at h6
    exact ⟨st', st.boxes.length, st.boxes.length + 1, h0, Nat.le_succ _, h1.symm, h2, h6, h7⟩

theorem box_text_capitalize_space : ∀ (b : Bool) (s : cstr),
    (box_text_capitalize b s).map (fun c => decide (c = ' ')) =
      s.map (fun c => decide (c = ' '))
  | _, [] => rfl
  | b, c :: cs => by
    unfold box_text_capitalize
    simp only [List.map_cons, box_text_capitalize_space _ cs]
    congr 1
    split
    · exact decide_eq_decide.mpr toupper_eq_space
    · rfl

theorem text_transformed_space_map (tt : css_text_transform) (s : cstr) :
    (text_transformed tt s).map (fun c => decide (c = ' ')) =
      s.map (fun c => decide (c = ' ')) := by
  have hup : ∀ x : Char, decide ((if x.toNat < 128 then toupper x else x) = ' ') =
      decide (x = ' ') := by
    intro x
    split
    · exact decide_eq_decide.mpr toupper_eq_space
    · rfl
  have hlo : ∀ x : Char, decide ((if x.toNat < 128 then tolower x else x) = ' ') =
      decide (x = ' ') := by
    intro x
    split
    · exact decide_eq_decide.mpr tolower_eq_space
    · rfl
  unfold text_transformed box_text_transform
  split
  · split
    · rfl
    · cases tt <;>
        simp only [List.take_length, List.drop_length, List.append_nil, List.map_map,
          box_text_capitalize_space] <;>
        first
        | rfl
        | (apply List.map_congr_left
           intro x _
           first
           | exact hup x
           | exact hlo x)
  · rfl

theorem getLast?_text_transformed (tt : css_text_transform) (s : cstr) :
    (text_transformed tt s).getLast? = some ' ' ↔ s.getLast? = some ' ' := by
  have h := congrArg List.getLast? (text_transformed_space_map tt s)
  rw [List.getLast?_map, List.getLast?_map] at h
  cases h1 : (text_transformed tt s).getLast? with
  | none =>
    cases h2 : s.getLast? with
    | none => simp
    | some b => rw [h1, h2] at h; cases h
  | some a =>
    cases h2 : s.getLast? with
    | none => rw [h1, h2] at h; cases h
    | some b =>
      rw [h1, h2] at h
      simp only [Option.map_some', Option.some.injEq, decide_eq_decide] at h
      simp only [Option.some.injEq]
      exact h

theorem chain_of_no_double_space : ∀ t : cstr, no_double_space t = true →
    List.Chain' (fun a b => ¬ (a = ' ' ∧ b = ' ')) t
  | [], _ => List.chain'_nil
  | [_], _ => List.chain'_singleton _
  | a :: b :: r, h => by
    unfold no_double_space at h
    simp only [Bool.and_eq_true, Bool.not_eq_true', Bool.and_eq_false_imp, beq_iff_eq,
      beq_eq_false_iff_ne, ne_eq] at h
    refine List.chain'_cons.mpr ⟨?_, chain_of_no_double_space (b :: r) h.2⟩
    intro hab
    exact h.1 hab.1 hab.2

theorem text_body_no_space (t : cstr) (ht : t ≠ [' ']) (hsq0 : no_double_space t = true) :
    (text_body t).head? ≠ some ' ' ∧ (text_body t).getLast? ≠ some ' ' := by
  have hsq := chain_of_no_double_space t hsq0
  /- the text without the space at the end -/
  have h1 : ∀ t1 : cstr, t1 = (if 1 < t.length ∧ t.getLast? = some ' ' then t.dropLast else t) →
      List.Chain' (fun a b => ¬ (a = ' ' ∧ b = ' ')) t1 ∧ t1.getLast? ≠ some ' ' := by
    intro t1 e
    rcases List.eq_nil_or_concat t with hnil | ⟨l, a, hl⟩
    · subst hnil
      simp at e
      subst e
      simp
    · rw [List.concat_eq_append] at hl
      subst hl
      by_cases hs : 1 < (l ++ [a]).length ∧ (l ++ [a]).getLast? = some ' '
      · rw [if_pos hs, List.dropLast_concat] at e
        subst e
        obtain ⟨hlen, hlast⟩ := hs
        have hga : (t1 ++ [a]).getLast? = some a := by simp
        rw [hga, Option.some.injEq] at hlast
        subst hlast
        refine ⟨hsq.left_of_append, ?_⟩
        intro hl
        rw [List.getLast?_eq_some_iff] at hl
        obtain ⟨ys, hys⟩ := hl
        subst hys
        rw [List.append_assoc] at hsq
        have := hsq.right_of_append
        simp at this
      · rw [if_neg hs] at e
        subst e
        refine ⟨hsq, ?_⟩
        intro hlast
        apply hs
        refine ⟨?_, hlast⟩
        have hga : (l ++ [a]).getLast? = some a := by simp
        rw [hga, Option.some.injEq] at hlast
        subst hlast
        cases l with
        | nil => exact absurd rfl ht
        | cons x xs => simp
  unfold text_body
  simp only []
  obtain ⟨hc, hlast⟩ := h1 _ rfl
  generalize (if 1 < t.length ∧ t.getLast? = some ' ' then t.dropLast else t) = t1 at hc hlast
  cases t1 with
  | nil => simp
  | cons x r =>
    by_cases hx : x = ' '
    · subst hx
      simp only [List.head?_cons, if_true, List.drop_succ_cons, List.drop_zero]
      cases r with
      | nil => exact absurd rfl hlast
      | cons y r2 =>
        refine ⟨?_, ?_⟩
        · intro hy
          simp only [List.head?_cons, Option.some.injEq] at hy
          subst hy
          have := List.chain'_cons.mp hc
          exact this.1 ⟨rfl, rfl⟩
        · intro hy
          apply hlast
          rw [List.getLast?_cons_cons]
          exact hy
    · have hh : (x :: r).head? ≠ some ' ' := by
        simp only [List.head?_cons, ne_eq, Option.some.injEq]
        exact hx
      rw [if_neg hh]
      exact ⟨hh, hlast⟩

/-- C35: under `white-space: normal` or `nowrap`, for a text node whose
squashed content is not a single space (the case that creates a box) and has
no two consecutive spaces, `box_construct_text` creates one text box (the last
box of the arena), and the first `length` chars of its text neither begin nor
end with a space; the trailing-space flag of the box is set exactly when a
space at the end of the squashed content (of more than one char) was left
out. -/
theorem box_construct_text_boundary_space (n : xmlNode) (parent_style parent : Nat)
    (inline_container : Option Nat) (href : Option cstr) (target : Option frame_target)
    (title : Option cstr) (st : content)
    (hws : (st.style_at parent_style).white_space = CSS_WHITE_SPACE_NORMAL ∨
      (st.style_at parent_style).white_space = CSS_WHITE_SPACE_NOWRAP)
    (hparent : parent < st.boxes.length)
    (hic : ∀ k, inline_container = some k → k < st.boxes.length ∧
      ∀ p ∈ (st.box_at k).children, p < st.boxes.length ∧ p ≠ k)
    (ht : squash_whitespace n.content ≠ [' '])
    (hsq : no_double_space (squash_whitespace n.content) = true) :
    ∃ (st' : content) (k b : Nat),
      box_construct_text n parent_style parent inline_container href target title st =
        some (st', some k) ∧
      st.boxes.length ≤ b ∧ b + 1 = st'.boxes.length ∧
      (st'.box_at b).type = BOX_TEXT ∧
      (box_text (st'.box_at b)).head? ≠ some ' ' ∧
      (box_text (st'.box_at b)).getLast? ≠ some ' ' ∧
      ((st'.box_at b).space = true ↔
        (1 < (squash_whitespace n.content).length ∧
          (squash_whitespace n.content).getLast? = some ' ')) := by
  obtain ⟨st', k, b, h0, h1, h2, h3, h4, h5⟩ :=
    box_construct_text_normal_box n parent_style parent inline_container href target title st
      hws hparent hic ht
  obtain ⟨hb1, hb2⟩ := text_body_no_space _ ht hsq
  refine ⟨st', k, b, h0, h1, h2, h3, ?_, ?_, ?_⟩
  · rw [h4]
    exact fun h => hb1 ((head?_text_transformed _ _).mp h)
  · rw [h4]
    exact fun h => hb2 ((getLast?_text_transformed _ _).mp h)
  · rw [h5]
    simp only [Bool.and_eq_true, decide_eq_true_eq, beq_iff_eq, gt_iff_lt]

theorem box_construct_text_boundary_space_witness :
    ∃ (st' : content) (k b : Nat),
      box_construct_text (example_text " b " .null) 0 0 (some 1) none none none
          example_text_root = some (st', some k) ∧
      example_text_root.boxes.length ≤ b ∧ b + 1 = st'.boxes.length ∧
      (st'.box_at b).type = BOX_TEXT ∧
      (box_text (st'.box_at b)).head? ≠ some ' ' ∧
      (box_text (st'.box_at b)).getLast? ≠ some ' ' ∧
      ((st'.box_at b).space = true ↔
        (1 < (squash_whitespace (example_text " b " .null).content).length ∧
          (squash_whitespace (example_text " b " .null).content).getLast? = some ' ')) :=
  box_construct_text_boundary_space (example_text " b " .null) 0 0 (some 1) none none none
    example_text_root (by decide) (by decide)
    (fun k hk => Option.some.inj hk ▸ (by decide)) (by decide) (by decide)

theorem table_cell_of_iff (st : content) (b c : Nat) :
    table_cell_of st b c ↔ ∃ m ∈ (st.box_at b).children, cell_under st m c := by
  constructor
  · intro h
    cases h with
    | cell _ _ hm ht => exact ⟨c, hm, Or.inl ⟨rfl, ht⟩⟩
    | row _ g _ hm ht hc => exact ⟨g, hm, Or.inr ⟨ht, hc⟩⟩
  · rintro ⟨m, hm, h | h⟩
    · obtain ⟨rfl, ht⟩ := h
      exact table_cell_of.cell _ _ hm ht
    · exact table_cell_of.row _ _ _ hm h.1 h.2

theorem cells_frame.refl_cells (f : css_style → css_style) (st : content) :
    cells_frame f st st :=
  ⟨rfl, rfl, rfl, fun _ => Or.inl rfl⟩

theorem cells_frame.box_at_cells {f : css_style → css_style} {st0 st : content}
    (h : cells_frame f st0 st) (i : Nat) : st.box_at i = st0.box_at i := by
  unfold content.box_at
  rw [h.boxes]

/-- The loop over the children, from the steps. -/
theorem cells_foldl (f : css_style → css_style) (st0 : content) (g : content → Nat → content) :
    ∀ (children : List Nat) (st : content), cells_frame f st0 st →
      (∀ m ∈ children, ∀ X, cells_frame f st0 X → cells_step f st0 m X (g X m)) →
      cells_frame f st0 (children.foldl g st) ∧
      (∀ s, st.style_at s = f (st0.style_at s) →
        (children.foldl g st).style_at s = f (st0.style_at s)) ∧
      (∀ c, (∃ m ∈ children, cell_under st0 m c) → ∀ s, (st0.box_at c).style = some s →
        s < st0.styles.length → (children.foldl g st).style_at s = f (st0.style_at s)) ∧
      (∀ s, (children.foldl g st).style_at s ≠ st.style_at s →
        ∃ c, (∃ m ∈ children, cell_under st0 m c) ∧ (st0.box_at c).style = some s) := by
  intro children
  induction children with
  | nil =>
    intro st hst _
    refine ⟨hst, fun s h => h, ?_, fun s h => absurd rfl h⟩
    rintro c ⟨m, hm, -⟩
    exact absurd hm (List.not_mem_nil m)
  | cons a rest ih =>
    intro st hst hstep
    obtain ⟨h1, h2, h3, h4⟩ := hstep a (List.mem_cons_self a rest) st hst
    obtain ⟨r1, r2, r3, r4⟩ := ih (g st a) h1
      (fun m hm X hX => hstep m (List.mem_cons_of_mem a hm) X hX)
    simp only [List.foldl_cons]
    refine ⟨r1, fun s h => r2 s (h2 s h), ?_, ?_⟩
    · rintro c ⟨m, hm, hc⟩ s hs hlt
      rcases List.mem_cons.mp hm with rfl | hm
      · exact r2 s (h3 c hc s hs hlt)
      · exact r3 c ⟨m, hm, hc⟩ s hs hlt
    · intro s hne
      by_cases h : (List.foldl g (g st a) rest).style_at s = (g st a).style_at s
      · rw [h] at hne
        obtain ⟨c, hc, hs⟩ := h4 s hne
        exact ⟨c, ⟨a, List.mem_cons_self a rest, hc⟩, hs⟩
      · obtain ⟨c, ⟨m, hm, hc⟩, hs⟩ := r4 s h
        exact ⟨c, ⟨m, List.mem_cons_of_mem a hm, hc⟩, hs⟩

theorem type_box_zero_at {st : content} {m : Nat} (hm : st.boxes.length ≤ m) :
    (st.box_at m).type = BOX_BLOCK := by
  unfold content.box_at
  rw [List.getElem?_eq_none hm]
  rfl

/-- The loop over table cells: every table cell reached through row groups and
rows gets the assignments `f` on its style, and no other style changes. -/
theorem table_cells_children_spec (f : css_style → css_style) (hf : ∀ x, f (f x) = f x)
    (st0 : content)
    (hord : ∀ p, ((st0.box_at p).type = BOX_TABLE_ROW_GROUP ∨
        (st0.box_at p).type = BOX_TABLE_ROW) → ∀ c ∈ (st0.box_at p).children, p < c) :
    ∀ (fuel : Nat) (children : List Nat) (lo : Nat) (st : content),
      cells_frame f st0 st → (∀ m ∈ children, lo ≤ m) → st0.boxes.length + 1 ≤ fuel + lo →
      cells_frame f st0 (table_cells_children f fuel children st) ∧
      (∀ s, st.style_at s = f (st0.style_at s) →
        (table_cells_children f fuel children st).style_at s = f (st0.style_at s)) ∧
      (∀ c, (∃ m ∈ children, cell_under st0 m c) → ∀ s, (st0.box_at c).style = some s →
        s < st0.styles.length →
        (table_cells_children f fuel children st).style_at s = f (st0.style_at s)) ∧
      (∀ s, (table_cells_children f fuel children st).style_at s ≠ st.style_at s →
        ∃ c, (∃ m ∈ children, cell_under st0 m c) ∧ (st0.box_at c).style = some s) := by
  intro fuel
  induction fuel with
  | zero =>
    intro children lo st hst hlo hfuel
    have hbig : ∀ m ∈ children, st0.boxes.length ≤ m := fun m hm => by
      have := hlo m hm
      omega
    refine ⟨hst, fun s h => h, ?_, fun s h => absurd rfl h⟩
    rintro c ⟨m, hm, hc | hc⟩ s hs hlt
    · obtain ⟨rfl, ht⟩ := hc
      rw [type_box_zero_at (hbig m hm)] at ht
      cases ht
    · rw [type_box_zero_at (hbig m hm)] at hc
      rcases hc.1 with h | h <;> cases h
  | succ fuel ih =>
    intro children lo st hst hlo hfuel
    unfold table_cells_children
    refine cells_foldl f st0 _ children st hst ?_
    intro m hm X hX
    have hbm : X.box_at m = st0.box_at m := hX.box_at_cells m
    show cells_step f st0 m X
      (match (X.box_at m).type with
        | BOX_TABLE_ROW_GROUP => table_cells_children f fuel (X.box_at m).children X
        | BOX_TABLE_ROW => table_cells_children f fuel (X.box_at m).children X
        | BOX_TABLE_CELL =>
          match (X.box_at m).style with
          | some s => X.modify_style s f
          | none => X
        | _ => X)
    rw [hbm]
    have hrow : ((st0.box_at m).type = BOX_TABLE_ROW_GROUP ∨
        (st0.box_at m).type = BOX_TABLE_ROW) →
        cells_step f st0 m X (table_cells_children f fuel (st0.box_at m).children X) := by
      intro ht
      obtain ⟨r1, r2, r3, r4⟩ := ih (st0.box_at m).children (m + 1) X hX
        (fun c hc => hord m ht c hc) (by have := hlo m hm; omega)
      refine ⟨r1, r2, ?_, ?_⟩
      · rintro c (hc | hc) s hs hlt
        · obtain ⟨rfl, hcell⟩ := hc
          rw [hcell] at ht
          rcases ht with h | h <;> cases h
        · exact r3 c ((table_cell_of_iff _ _ _).mp hc.2) s hs hlt
      · intro s hne
        obtain ⟨c, hc, hs⟩ := r4 s hne
        exact ⟨c, Or.inr ⟨ht, (table_cell_of_iff _ _ _).mpr hc⟩, hs⟩
    have hsame : (∀ c, cell_under st0 m c → (st0.box_at c).style = none ∨ False) →
        cells_step f st0 m X X := by
      intro hno
      refine ⟨hX, fun s h => h, ?_, fun s h => absurd rfl h⟩
      intro c hc s hs
      rcases hno c hc with h | h
      · rw [h] at hs; cases hs
      · exact absurd h id
    split
    · rename_i ht
      exact hrow (Or.inl ht)
    · rename_i ht
      exact hrow (Or.inr ht)
    · rename_i ht
      have hcell : ∀ c, cell_under st0 m c → c = m := by
        rintro c (hc | hc)
        · exact hc.1.symm
        · rw [ht] at hc
          rcases hc.1 with h | h <;> cases h
      split
      · rename_i s hs
        refine ⟨⟨hX.boxes, hX.rest, ?_, ?_⟩, ?_, ?_, ?_⟩
        · simp only [content.modify_style, length_list_modify]
          exact hX.len
        · intro i
          rw [style_at_modify_style]
          split
          · rename_i hi
            rcases hX.styles i with h | h
            · exact Or.inr (by rw [h])
            · exact Or.inr (by rw [h, hf])
          · exact hX.styles i
        · intro i hi
          rw [style_at_modify_style]
          split
          · rw [hi, hf]
          · exact hi
        · intro c hc i hi hlt
          have := hcell c hc
          subst this
          rw [hs] at hi
          cases hi
          rw [style_at_modify_style, if_pos ⟨rfl, by rw [hX.len]; exact hlt⟩]
          rcases hX.styles s with h | h
          · rw [h]
          · rw [h, hf]
        · intro i hne
          rw [style_at_modify_style] at hne
          by_cases hi : i = s ∧ i < X.styles.length
          · exact ⟨m, Or.inl ⟨rfl, ht⟩, by rw [hi.1]; exact hs⟩
          · rw [if_neg hi] at hne
            exact absurd rfl hne
      · rename_i hs
        refine hsame ?_
        intro c hc
        have := hcell c hc
        subst this
        exact Or.inl hs
    · rename_i h1 h2 h3
      refine hsame ?_
      rintro c (hc | hc)
      · obtain ⟨rfl, ht⟩ := hc
        exact absurd ht h3
      · rcases hc.1 with h | h
        · exact absurd h h1
        · exact absurd h h2

theorem box_set_cellpadding_children_eq (value : Int) : ∀ (fuel : Nat) (children : List Nat)
    (st : content),
    box_set_cellpadding_children value fuel children st =
      table_cells_children (fun x =>
        { x with padding := x.padding.map (fun _ =>
            { padding := CSS_PADDING_LENGTH, length := css_px (cfloat.ofInt value) }) })
        fuel children st := by
  intro fuel
  induction fuel with
  | zero => intro children st; rfl
  | succ fuel ih =>
    intro children st
    unfold box_set_cellpadding_children table_cells_children
    simp only [ih]
    try rfl

theorem box_set_table_border_children_eq (value : Int) (color : colour) :
    ∀ (fuel : Nat) (children : List Nat) (st : content),
    box_set_table_border_children value color fuel children st =
      table_cells_children (fun x =>
        { x with border :=
            x.border.map (box_border_edge (cfloat.ofInt 1) color CSS_BORDER_STYLE_INSET) })
        fuel children st := by
  intro fuel
  induction fuel with
  | zero => intro children st; rfl
  | succ fuel ih =>
    intro children st
    unfold box_set_table_border_children table_cells_children
    simp only [ih]
    try rfl

/-- The content that the loop over table cells leaves, from its frame. -/
theorem cells_frame.eq_cells {f : css_style → css_style} {st0 st : content}
    (h : cells_frame f st0 st) : st = { st0 with styles := st.styles } := by
  have h1 := h.rest
  cases st
  cases st0
  simp only [content.mk.injEq, true_and, and_true] at h1 ⊢
  exact h1

/-- C32 (amended): `box_set_cellpadding(box, value)` searches the children of
the box, and of the row-group and row boxes among them recursively, for table
cells and sets the padding on each one: after the call every table-cell box
that is reached from the box through row-group and row boxes only has all four
paddings equal to `value` pixels (nothing else changes in its style), and no
other style and no box changes. The boxes are taken to be in the order of
their creation (the children of the box and of a row group or row come after
it in the arena) and every cell reached to have a style. -/
theorem box_set_cellpadding_cells (box : Nat) (value : Int) (st : content)
    (hord : ∀ p, (p = box ∨ (st.box_at p).type = BOX_TABLE_ROW_GROUP ∨
        (st.box_at p).type = BOX_TABLE_ROW) → ∀ c ∈ (st.box_at p).children, p < c)
    (hstyle : ∀ c, table_cell_of st box c →
      ∃ s, (st.box_at c).style = some s ∧ s < st.styles.length) :
    box_set_cellpadding box value st =
      { st with styles := (box_set_cellpadding box value st).styles } ∧
    (box_set_cellpadding box value st).styles.length = st.styles.length ∧
    (∀ c, table_cell_of st box c →
      padding_given value (st.box_style c) ((box_set_cellpadding box value st).box_style c)) ∧
    ∀ s, (∀ c, table_cell_of st box c → (st.box_at c).style ≠ some s) →
      (box_set_cellpadding box value st).style_at s = st.style_at s := by
  unfold box_set_cellpadding
  rw [box_set_cellpadding_children_eq]
  obtain ⟨r1, -, r3, r4⟩ := table_cells_children_spec
    (fun x => { x with padding := x.padding.map (fun _ =>
        { padding := CSS_PADDING_LENGTH, length := css_px (cfloat.ofInt value) }) })
    (fun _ => rfl) st (fun p hp => hord p (Or.inr hp)) st.boxes.length
    (st.box_at box).children 1 st (cells_frame.refl_cells _ _)
    (fun m hm => by have := hord box (Or.inl rfl) m hm; omega) (Nat.le_refl _)
  generalize table_cells_children _ st.boxes.length (st.box_at box).children st = R at r1 r3 r4 ⊢
  refine ⟨r1.eq_cells, r1.len, ?_, ?_⟩
  · intro c hc
    obtain ⟨s, hs, hlt⟩ := hstyle c hc
    have h := r3 c ((table_cell_of_iff _ _ _).mp hc) s hs hlt
    unfold content.box_style
    rw [r1.box_at_cells, hs]
    simp only []
    rw [h]
    exact ⟨rfl, rfl, rfl, rfl, rfl⟩
  · intro s hno
    by_contra hne
    obtain ⟨c, hc, hs⟩ := r4 s hne
    exact hno c ((table_cell_of_iff _ _ _).mpr hc) hs

/-- C32: in the content of the nested tables of `example_table_content`, box 6
(the cell of the inner table) is a table-cell box and a descendant of the
table box 1, and after `box_set_cellpadding(box 1, 5)` its padding is still 1
pixel, as the style sheet gave it: the search does not go into a table
cell. -/
theorem box_set_cellpadding_nested_table :
    box_descendant example_table_content 1 6 ∧
    (example_table_content.box_at 1).type = BOX_TABLE ∧
    (example_table_content.box_at 6).type = BOX_TABLE_CELL ∧
    ((box_set_cellpadding 1 5 example_table_content).box_style 6).padding.top =
      { padding := CSS_PADDING_LENGTH, length := css_px (cfloat.ofInt 1) } ∧
    ((box_set_cellpadding 1 5 example_table_content).box_style 3).padding.top =
      { padding := CSS_PADDING_LENGTH, length := css_px (cfloat.ofInt 5) } := by
  refine ⟨?_, by decide, by decide, by decide, by decide⟩
  exact box_descendant.step 1 2 6 (by decide)
    (box_descendant.step 2 3 6 (by decide)
      (box_descendant.step 3 4 6 (by decide)
        (box_descendant.step 4 5 6 (by decide)
          (box_descendant.child 5 6 (by decide)))))

theorem children_box_zero_at {st : content} {m : Nat} (hm : st.boxes.length ≤ m) :
    (st.box_at m).children = [] := by
  unfold content.box_at
  rw [List.getElem?_eq_none hm]
  rfl

/-- The order of the boxes of a table, from a check of the boxes of the
arena. -/
theorem table_order_of_bounded (st : content) (box : Nat)
    (h : ∀ p, p < st.boxes.length → (p = box ∨ (st.box_at p).type = BOX_TABLE_ROW_GROUP ∨
        (st.box_at p).type = BOX_TABLE_ROW) → ∀ c ∈ (st.box_at p).children, p < c) :
    ∀ p, (p = box ∨ (st.box_at p).type = BOX_TABLE_ROW_GROUP ∨
        (st.box_at p).type = BOX_TABLE_ROW) → ∀ c ∈ (st.box_at p).children, p < c := by
  intro p hp c hc
  by_cases hlt : p < st.boxes.length
  · exact h p hlt hp c hc
  · rw [children_box_zero_at (Nat.le_of_not_lt hlt)] at hc
    exact absurd hc (List.not_mem_nil c)

theorem table_cell_of.type_cell {st : content} {b c : Nat} (h : table_cell_of st b c) :
    (st.box_at c).type = BOX_TABLE_CELL := by
  induction h with
  | cell _ _ _ ht => exact ht
  | row _ _ _ _ _ _ ih => exact ih

/-- The styles of the cells of a table, from a check of the boxes of the
arena. -/
theorem cell_styles_of_bounded (st : content) (box : Nat)
    (h : ∀ c, c < st.boxes.length → (st.box_at c).type = BOX_TABLE_CELL →
      (st.box_at c).style.any (fun s => decide (s < st.styles.length)) = true) :
    ∀ c, table_cell_of st box c →
      ∃ s, (st.box_at c).style = some s ∧ s < st.styles.length := by
  intro c hc
  have ht := hc.type_cell
  have hlt : c < st.boxes.length := by
    by_contra hge
    rw [type_box_zero_at (Nat.le_of_not_lt hge)] at ht
    cases ht
  have := h c hlt ht
  cases hs : (st.box_at c).style with
  | none => rw [hs] at this; cases this
  | some s =>
    rw [hs] at this
    exact ⟨s, rfl, by simpa using this⟩

theorem box_set_cellpadding_cells_witness :
    box_set_cellpadding 1 5 example_table_content =
      { example_table_content with
        styles := (box_set_cellpadding 1 5 example_table_content).styles } ∧
    (box_set_cellpadding 1 5 example_table_content).styles.length =
      example_table_content.styles.length ∧
    (∀ c, table_cell_of example_table_content 1 c →
      padding_given 5 (example_table_content.box_style c)
        ((box_set_cellpadding 1 5 example_table_content).box_style c)) ∧
    ∀ s, (∀ c, table_cell_of example_table_content 1 c →
        (example_table_content.box_at c).style ≠ some s) →
      (box_set_cellpadding 1 5 example_table_content).style_at s =
        example_table_content.style_at s :=
  box_set_cellpadding_cells 1 5 example_table_content
    (table_order_of_bounded _ _ (by decide)) (cell_styles_of_bounded _ _ (by decide))

/-- No cell of a table shares the style of the table box, from a check of the
boxes of the arena. -/
theorem cell_alias_of_bounded (st : content) (box : Nat)
    (h : ∀ c, c < st.boxes.length → (st.box_at c).type = BOX_TABLE_CELL →
      (st.box_at c).style ≠ (st.box_at box).style) :
    ∀ c, table_cell_of st box c → (st.box_at c).style ≠ (st.box_at box).style := by
  intro c hc
  have ht := hc.type_cell
  have hlt : c < st.boxes.length := by
    by_contra hge
    rw [type_box_zero_at (Nat.le_of_not_lt hge)] at ht
    cases ht
  exact h c hlt ht

theorem table_cell_of_congr {st st1 : content} (h : st1.boxes = st.boxes) (b c : Nat) :
    table_cell_of st1 b c ↔ table_cell_of st b c := by
  have hb : ∀ i, st1.box_at i = st.box_at i := fun i => by
    unfold content.box_at
    rw [h]
  constructor
  · intro hc
    induction hc with
    | cell b c hm ht =>
      rw [hb] at hm ht
      exact table_cell_of.cell b c hm ht
    | row b g c hm ht _ ih =>
      rw [hb] at hm ht
      exact table_cell_of.row b g c hm ht ih
  · intro hc
    induction hc with
    | cell b c hm ht =>
      rw [← hb] at hm ht
      exact table_cell_of.cell b c hm ht
    | row b g c hm ht _ ih =>
      rw [← hb] at hm ht
      exact table_cell_of.row b g c hm ht ih

theorem edge_given_box_border_edge (width : Int) (color : colour) (style : css_border_style)
    (b : css_border) :
    edge_given width color style b (box_border_edge (cfloat.ofInt width) color style b) := by
  unfold edge_given box_border_edge
  refine ⟨fun h => ?_, fun h => ?_⟩
  · rw [if_pos h]
    rfl
  · rw [if_neg h]

theorem border_given_map (width : Int) (color : colour) (style : css_border_style)
    (x : css_style) :
    border_given width color style x
      { x with border := x.border.map (box_border_edge (cfloat.ofInt width) color style) } :=
  ⟨edge_given_box_border_edge _ _ _ _, edge_given_box_border_edge _ _ _ _,
    edge_given_box_border_edge _ _ _ _, edge_given_box_border_edge _ _ _ _, rfl⟩

theorem box_border_edge_idem (width : cfloat) (color : colour) (style : css_border_style)
    (hs : style ≠ CSS_BORDER_STYLE_NONE) (b : css_border) :
    box_border_edge width color style (box_border_edge width color style b) =
      box_border_edge width color style b := by
  unfold box_border_edge
  by_cases h : b.style = CSS_BORDER_STYLE_NONE
  · simp only [h, if_true, hs, if_false]
  · simp only [h, if_false]

/-- C31: `box_set_table_border(box, value, color)` gives each edge of the box,
if it is a table box, whose border style is none the colour, a width of
`value` pixels and the outset style; it gives each edge with border style none
of every table cell reached through row-group and row boxes the colour, a
width of 1 pixel and the inset style; and it leaves every edge whose border
style is already set, every other member of these styles, every other style
and every box unchanged. The boxes are taken to be in the order of their
creation (the children of the box and of a row group or row come after it in
the arena), the table box and every cell reached to have a style, and no cell
to share the style of the table box. -/
theorem box_set_table_border_edges (box : Nat) (value : Int) (color : colour) (st : content)
    (hord : ∀ p, (p = box ∨ (st.box_at p).type = BOX_TABLE_ROW_GROUP ∨
        (st.box_at p).type = BOX_TABLE_ROW) → ∀ c ∈ (st.box_at p).children, p < c)
    (hstyle : ∀ c, table_cell_of st box c →
      ∃ s, (st.box_at c).style = some s ∧ s < st.styles.length)
    (htable : (st.box_at box).type = BOX_TABLE →
      ∃ s, (st.box_at box).style = some s ∧ s < st.styles.length)
    (halias : (st.box_at box).type = BOX_TABLE → ∀ c, table_cell_of st box c →
      (st.box_at c).style ≠ (st.box_at box).style) :
    box_set_table_border box value color st =
      { st with styles := (box_set_table_border box value color st).styles } ∧
    (box_set_table_border box value color st).styles.length = st.styles.length ∧
    ((st.box_at box).type = BOX_TABLE →
      border_given value color CSS_BORDER_STYLE_OUTSET (st.box_style box)
        ((box_set_table_border box value color st).box_style box)) ∧
    (∀ c, table_cell_of st box c →
      border_given 1 color CSS_BORDER_STYLE_INSET (st.box_style c)
        ((box_set_table_border box value color st).box_style c)) ∧
    ∀ s, ((st.box_at box).type = BOX_TABLE → (st.box_at box).style ≠ some s) →
      (∀ c, table_cell_of st box c → (st.box_at c).style ≠ some s) →
      (box_set_table_border box value color st).style_at s = st.style_at s := by
  have hidem : ∀ x : css_style,
      (fun x : css_style => { x with border := x.border.map (box_border_edge (cfloat.ofInt 1) color CSS_BORDER_STYLE_INSET) })
        ((fun x : css_style => { x with border := x.border.map (box_border_edge (cfloat.ofInt 1) color CSS_BORDER_STYLE_INSET) }) x) =
      (fun x : css_style => { x with border := x.border.map (box_border_edge (cfloat.ofInt 1) color CSS_BORDER_STYLE_INSET) }) x := by
    intro x
    have hi := box_border_edge_idem (cfloat.ofInt 1) color CSS_BORDER_STYLE_INSET (by decide)
    simp only [sides.map, hi]
  /- the state after the edges of the table box -/
  have key : ∀ st1 : content, st1.boxes = st.boxes → st1 = { st with styles := st1.styles } →
      st1.styles.length = st.styles.length →
      (∀ c, table_cell_of st box c → ∀ s, (st.box_at c).style = some s →
        st1.style_at s = st.style_at s) →
      (box_set_table_border_children value color st1.boxes.length (st1.box_at box).children
          st1 =
        { st with styles := (box_set_table_border_children value color st1.boxes.length
            (st1.box_at box).children st1).styles }) ∧
      (box_set_table_border_children value color st1.boxes.length (st1.box_at box).children
          st1).styles.length = st.styles.length ∧
      (∀ c, table_cell_of st box c →
        border_given 1 color CSS_BORDER_STYLE_INSET (st.box_style c)
          ((box_set_table_border_children value color st1.boxes.length
            (st1.box_at box).children st1).box_style c)) ∧
      ∀ s, (∀ c, table_cell_of st box c → (st.box_at c).style ≠ some s) →
        (box_set_table_border_children value color st1.boxes.length (st1.box_at box).children
          st1).style_at s = st1.style_at s := by
    intro st1 hb1 he1 hl1 hs1
    have hbx : ∀ i, st1.box_at i = st.box_at i := fun i => by
      unfold content.box_at
      rw [hb1]
    rw [box_set_table_border_children_eq]
    obtain ⟨r1, -, r3, r4⟩ := table_cells_children_spec
      (fun x : css_style => { x with border := x.border.map (box_border_edge (cfloat.ofInt 1) color CSS_BORDER_STYLE_INSET) })
      hidem st1 (fun p hp => by rw [hbx] at hp ⊢; exact hord p (Or.inr hp)) st1.boxes.length
      (st1.box_at box).children 1 st1 (cells_frame.refl_cells _ _)
      (fun m hm => by rw [hbx] at hm; have := hord box (Or.inl rfl) m hm; omega)
      (Nat.le_refl _)
    generalize table_cells_children _ st1.boxes.length (st1.box_at box).children st1 = R
      at r1 r3 r4 ⊢
    refine ⟨?_, by rw [r1.len, hl1], ?_, ?_⟩
    · have h2 := r1.eq_cells
      rw [h2, he1]
    · intro c hc
      obtain ⟨s, hs, hlt⟩ := hstyle c hc
      have h := r3 c ((table_cell_of_iff _ _ _).mp ((table_cell_of_congr hb1 _ _).mpr hc)) s
        (by rw [hbx]; exact hs) (by rw [hl1]; exact hlt)
      unfold content.box_style
      rw [r1.box_at_cells, hbx, hs]
      simp only []
      rw [h, hs1 c hc s hs]
      exact border_given_map 1 color CSS_BORDER_STYLE_INSET _
    · intro s hno
      by_contra hne
      obtain ⟨c, hc, hs⟩ := r4 s hne
      rw [hbx] at hs
      exact hno c ((table_cell_of_congr hb1 _ _).mp ((table_cell_of_iff _ _ _).mpr hc)) hs
  unfold box_set_table_border
  simp only []
  by_cases ht : (st.box_at box).type = BOX_TABLE
  · obtain ⟨sT, hsT, hltT⟩ := htable ht
    rw [if_pos ht, hsT]
    simp only []
    have hst1 : ∀ i, (st.modify_style sT (fun x => { x with border := x.border.map (box_border_edge (cfloat.ofInt value) color CSS_BORDER_STYLE_OUTSET) })).style_at i =
        if i = sT then
          { st.style_at i with border := (st.style_at i).border.map (box_border_edge (cfloat.ofInt value) color CSS_BORDER_STYLE_OUTSET) }
        else st.style_at i := by
      intro i
      rw [style_at_modify_style]
      by_cases hi : i = sT
      · rw [if_pos ⟨hi, by rw [hi]; exact hltT⟩, if_pos hi]
      · rw [if_neg (fun h => hi h.1), if_neg hi]
    obtain ⟨k1, k2, k3, k4⟩ := key
      (st.modify_style sT (fun x => { x with border := x.border.map (box_border_edge (cfloat.ofInt value) color CSS_BORDER_STYLE_OUTSET) }))
      rfl rfl (by simp only [content.modify_style, length_list_modify])
      (fun c hc s hs => by
        rw [hst1, if_neg]
        intro h
        apply halias ht c hc
        rw [hs, hsT, h])
    generalize hS : st.modify_style sT (fun x => { x with border := x.border.map (box_border_edge (cfloat.ofInt value) color CSS_BORDER_STYLE_OUTSET) })
      = S at k1 k2 k3 k4 hst1 ⊢
    have hSb : S.boxes = st.boxes := by rw [← hS]; rfl
    generalize box_set_table_border_children value color S.boxes.length
      (S.box_at box).children S = R at k1 k2 k3 k4 ⊢
    have hRb : ∀ i, R.box_at i = st.box_at i := fun i => by
      rw [k1]
      rfl
    refine ⟨k1, k2, fun _ => ?_, k3, ?_⟩
    · unfold content.box_style
      rw [hRb, hsT]
      simp only []
      rw [k4 sT (fun c hc h => halias ht c hc (by rw [h, hsT])), hst1, if_pos rfl]
      exact border_given_map value color CSS_BORDER_STYLE_OUTSET _
    · intro s h1 h2
      rw [k4 s h2, hst1, if_neg]
      intro h
      exact h1 ht (by rw [h])
  · rw [if_neg ht]
    obtain ⟨k1, k2, k3, k4⟩ := key st rfl rfl rfl (fun _ _ _ _ => rfl)
    exact ⟨k1, k2, fun h => absurd h ht, k3, fun s _ h2 => k4 s h2⟩

theorem box_set_table_border_edges_witness :
    box_set_table_border 1 3 7 example_table_content =
      { example_table_content with
        styles := (box_set_table_border 1 3 7 example_table_content).styles } ∧
    (box_set_table_border 1 3 7 example_table_content).styles.length =
      example_table_content.styles.length ∧
    ((example_table_content.box_at 1).type = BOX_TABLE →
      border_given 3 7 CSS_BORDER_STYLE_OUTSET (example_table_content.box_style 1)
        ((box_set_table_border 1 3 7 example_table_content).box_style 1)) ∧
    (∀ c, table_cell_of example_table_content 1 c →
      border_given 1 7 CSS_BORDER_STYLE_INSET (example_table_content.box_style c)
        ((box_set_table_border 1 3 7 example_table_content).box_style c)) ∧
    ∀ s, ((example_table_content.box_at 1).type = BOX_TABLE →
        (example_table_content.box_at 1).style ≠ some s) →
      (∀ c, table_cell_of example_table_content 1 c →
        (example_table_content.box_at c).style ≠ some s) →
      (box_set_table_border 1 3 7 example_table_content).style_at s =
        example_table_content.style_at s :=
  box_set_table_border_edges 1 3 7 example_table_content
    (table_order_of_bounded _ _ (by decide)) (cell_styles_of_bounded _ _ (by decide))
    (fun _ => ⟨1, by decide, by decide⟩)
    (fun _ => cell_alias_of_bounded _ _ (by decide))

theorem same_but_space.refl_space (b : box) : same_but_space b b := rfl

theorem same_but_space.type_space {b b' : box} (h : same_but_space b b') : b'.type = b.type := by
  rw [h]

theorem same_but_space.children_space {b b' : box} (h : same_but_space b b') :
    b'.children = b.children := by
  rw [h]

theorem same_but_space.trans_space {a b c : box} (h1 : same_but_space a b)
    (h2 : same_but_space b c) : same_but_space a c := by
  unfold same_but_space at *
  rw [h2, h1]

/-- A modification that leaves all but the trailing-space flag. -/
theorem same_but_space_of_eq {b b' : box} (h : b' = b) : same_but_space b b' := by
  rw [h]
  exact same_but_space.refl_space b

theorem not_is_float_block : ¬ is_float BOX_BLOCK := by
  unfold is_float
  decide

theorem type_box_at_ge {st : content} {i : Nat} (h : st.boxes.length ≤ i) :
    (st.box_at i).type = BOX_BLOCK :=
  type_box_zero_at h

theorem lt_of_is_float {st : content} {i : Nat} (h : is_float (st.box_at i).type) :
    i < st.boxes.length := by
  by_contra hge
  rw [type_box_at_ge (Nat.le_of_not_lt hge)] at h
  exact not_is_float_block h

/-- The float boxes from `lo` on keep their child over a step that leaves the
kind of the boxes from `lo` on and the children of the float boxes, and
creates no float box. -/
theorem floats_ok.step_floats {lo : Nat} {Y Z : content} (h : floats_ok lo Y)
    (hsame : ∀ i, lo ≤ i → i < Y.boxes.length →
      (Z.box_at i).type = (Y.box_at i).type ∧
      (is_float (Y.box_at i).type → (Z.box_at i).children = (Y.box_at i).children))
    (hnew : ∀ i, Y.boxes.length ≤ i → ¬ is_float (Z.box_at i).type) : floats_ok lo Z := by
  intro i hlo hf
  have hi : i < Y.boxes.length := by
    by_contra hge
    exact hnew i (Nat.le_of_not_lt hge) hf
  obtain ⟨ht, hc⟩ := hsame i hlo hi
  rw [ht] at hf
  obtain ⟨c, hc1, hc2, hc3, hc4⟩ := h i hlo hf
  refine ⟨c, hc1, hc2, by rw [hc hf]; exact hc3, ?_⟩
  rw [(hsame c hc1 (by omega)).1]
  exact hc4

theorem own_type.refl_own (t : box_type) : own_type t t := Or.inl rfl

theorem own_type.trans_own {a b c : box_type} (h1 : own_type a b) (h2 : own_type b c) :
    own_type a c := by
  unfold own_type at *
  rcases h2 with h | h | h | h
  · rw [h]; exact h1
  · exact Or.inr (Or.inl h)
  · exact Or.inr (Or.inr (Or.inl h))
  · exact Or.inr (Or.inr (Or.inr h))

theorem handler_tree.refl_tree {box : Nat} {st : content} (hb : box < st.boxes.length) :
    handler_tree box st st :=
  ⟨hb, Nat.le_refl _, fun _ _ _ => same_but_space.refl_space _, own_type.refl_own _,
    fun i hi hf => absurd (lt_of_is_float hf) (by omega)⟩

/-- A step of a special convert function that leaves the boxes as they
are. -/
theorem handler_tree.boxes_eq_tree {box : Nat} {st X : content}
    (h : handler_tree box st X) (Y : content) (hY : Y.boxes = X.boxes) :
    handler_tree box st Y := by
  have hb : ∀ i, Y.box_at i = X.box_at i := fun i => by
    unfold content.box_at
    rw [hY]
  refine ⟨h.lt, by rw [hY]; exact h.len, fun i hi hne => by rw [hb]; exact h.old i hi hne,
    by rw [hb]; exact h.own, ?_⟩
  intro i hi hf
  rw [hb] at hf
  obtain ⟨c, h1, h2, h3, h4⟩ := h.new i hi hf
  exact ⟨c, h1, h2, by rw [hb]; exact h3, by rw [hb]; exact h4⟩

/-- A step that assigns to members of the box `box` other than the kind. -/
theorem handler_tree.modify_own {box : Nat} {st X : content}
    (f : NetSurf.box → NetSurf.box) (hf : ∀ b : NetSurf.box, (f b).type = b.type)
    (h : handler_tree box st X) : handler_tree box st (X.modify_box box f) := by
  have hne : ∀ i, i ≠ box → (X.modify_box box f).box_at i = X.box_at i := fun i hi => by
    rw [box_at_modify_box, if_neg (fun h => hi h.1)]
  have hlt := h.lt
  refine ⟨h.lt, by rw [length_boxes_modify_box]; exact h.len,
    fun i hi hn => by rw [hne i hn]; exact h.old i hi hn, ?_, ?_⟩
  · rw [box_at_modify_box]
    split
    · rw [hf]; exact h.own
    · exact h.own
  · intro i hi hfl
    rw [hne i (by omega)] at hfl
    obtain ⟨c, h1, h2, h3, h4⟩ := h.new i hi hfl
    exact ⟨c, h1, h2, by rw [hne i (by omega)]; exact h3, by rw [hne c (by omega)]; exact h4⟩

/-- The step `box->type = t` with `t` line-break, inline-block or table. -/
theorem handler_tree.set_type_own {box : Nat} {st X : content} (t : box_type)
    (ht : t = BOX_BR ∨ t = BOX_INLINE_BLOCK ∨ t = BOX_TABLE)
    (h : handler_tree box st X) : handler_tree box st (box_set_type box t X) := by
  have hne : ∀ i, i ≠ box → (box_set_type box t X).box_at i = X.box_at i := fun i hi => by
    rw [box_at_box_set_type, if_neg (fun h => hi h.1)]
  have hlt := h.lt
  refine ⟨h.lt, by rw [length_boxes_box_set_type]; exact h.len,
    fun i hi hn => by rw [hne i hn]; exact h.old i hi hn, ?_, ?_⟩
  · rw [type_box_set_type]
    split
    · exact Or.inr ht
    · exact h.own
  · intro i hi hfl
    rw [hne i (by omega)] at hfl
    obtain ⟨c, h1, h2, h3, h4⟩ := h.new i hi hfl
    exact ⟨c, h1, h2, by rw [hne i (by omega)]; exact h3, by rw [hne c (by omega)]; exact h4⟩

theorem handler_tree.modify_control_tree {box : Nat} {st X : content} (g : Nat)
    (f : form_control → form_control)
    (h : handler_tree box st X) : handler_tree box st (X.modify_control g f) :=
  h.boxes_eq_tree _ rfl

theorem handler_tree.modify_style_tree {box : Nat} {st X : content} (s : Nat)
    (f : css_style → css_style)
    (h : handler_tree box st X) : handler_tree box st (X.modify_style s f) :=
  h.boxes_eq_tree _ rfl

theorem handler_tree.form_new_control_tree {box : Nat} {st X : content} (t : gadget_type)
    (h : handler_tree box st X) : handler_tree box st (form_new_control t X).1 :=
  h.boxes_eq_tree _ rfl

theorem handler_tree.box_form_add_control_tree {box : Nat} {st X : content} (g : Nat)
    (h : handler_tree box st X) : handler_tree box st (box_form_add_control g X) :=
  h.boxes_eq_tree _ (boxes_box_form_add_control g X)

theorem handler_tree.html_fetch_object_tree {box : Nat} {st X Y : content} {E : Env}
    {url : cstr} {b : Nat} {p : permitted_types} {w : Int} {hh : Int} {bg : Bool}
    {fr : Option cstr} (hf : html_fetch_object E url b p w hh bg fr X = some Y)
    (h : handler_tree box st X) : handler_tree box st Y :=
  h.boxes_eq_tree _ (boxes_html_fetch_object hf).1

theorem handler_tree.box_usemap_tree {box : Nat} {st X : content} (n : xmlNode)
    (h : handler_tree box st X) : handler_tree box st (box_usemap n box X) :=
  h.modify_own _ (fun _ => rfl)

/-- A step of a special convert function, from what it does to the boxes. -/
theorem handler_tree.step_tree {box : Nat} {st X Z : content} (h : handler_tree box st X)
    (hlen : X.boxes.length ≤ Z.boxes.length)
    (hold : ∀ i, i < st.boxes.length → i ≠ box → Z.box_at i = X.box_at i)
    (hown : (Z.box_at box).type = (X.box_at box).type)
    (hmid : ∀ i, st.boxes.length ≤ i → i < X.boxes.length →
      (Z.box_at i).type = (X.box_at i).type ∧
      (is_float (X.box_at i).type → (Z.box_at i).children = (X.box_at i).children))
    (hnew : ∀ i, X.boxes.length ≤ i → ¬ is_float (Z.box_at i).type) :
    handler_tree box st Z :=
  ⟨h.lt, Nat.le_trans h.len hlen, fun i hi hne => by rw [hold i hi hne]; exact h.old i hi hne,
    by rw [hown]; exact h.own, h.new.step_floats hmid hnew⟩

theorem not_is_float_of_eq {t u : box_type} (h : t = u) (hu : ¬ is_float u) : ¬ is_float t := by
  rw [h]; exact hu

/-- A new box of kind `t`, not a float box, with the assignments `g` to
members other than the kind, added to the box `p`, which is the box of the
special convert function or a new box that is not a float box. -/
theorem handler_tree.new_child_tree {box : Nat} {st X : content} (style : Option Nat)
    (href : Option cstr) (target : Option frame_target) (title id : Option cstr)
    (t : box_type) (g : NetSurf.box → NetSurf.box) (p : Nat)
    (ht : ¬ is_float t) (hg : ∀ b : NetSurf.box, (g b).type = b.type)
    (hp : p = box ∨ (st.boxes.length ≤ p ∧ ¬ is_float (X.box_at p).type))
    (h : handler_tree box st X) :
    handler_tree box st
      (box_add_child p X.boxes.length
        ((box_set_type X.boxes.length t
          (box_create style href target title id X).1).modify_box X.boxes.length g)) := by
  have hl := h.len
  have hb := h.lt
  refine h.step_tree ?_ ?_ ?_ ?_ ?_
  · rw [length_boxes_box_add_child, length_boxes_modify_box, length_boxes_box_set_type,
      length_boxes_box_create]
    omega
  · intro i hi hne
    have e1 : i ≠ X.boxes.length := by omega
    have e2 : i ≠ p := by
      rcases hp with hp | hp
      · rw [hp]; exact hne
      · omega
    simp only [box_at_box_add_child, box_at_modify_box, box_at_box_set_type, box_at_box_create,
      e1, e2, false_and, if_false]
  · simp only [type_box_add_child, box_at_modify_box, box_at_box_set_type, box_at_box_create]
    have e1 : box ≠ X.boxes.length := by omega
    simp only [e1, false_and, if_false]
  · intro i hi hlt
    have e1 : i ≠ X.boxes.length := by omega
    refine ⟨?_, fun hf => ?_⟩
    · simp only [type_box_add_child, box_at_modify_box, box_at_box_set_type, box_at_box_create,
        e1, false_and, if_false]
    · have e2 : i ≠ p := by
        rcases hp with hp | hp
        · omega
        · intro hip
          rw [hip] at hf
          exact hp.2 hf
      simp only [children_box_add_child, box_at_modify_box, box_at_box_set_type,
        box_at_box_create, e1, e2, false_and, if_false]
  · intro i hi
    rw [type_box_add_child, box_at_modify_box]
    by_cases e : i = X.boxes.length
    · have e3 : i < (box_set_type X.boxes.length t
          (box_create style href target title id X).1).boxes.length := by
        rw [length_boxes_box_set_type, length_boxes_box_create]
        omega
      rw [if_pos ⟨e, e3⟩, hg, type_box_set_type, length_boxes_box_create,
        if_pos ⟨e, by omega⟩]
      exact ht
    · rw [if_neg (fun h => e h.1), type_box_set_type, if_neg (fun h => e h.1),
        type_box_create, if_neg e, type_box_at_ge hi]
      exact not_is_float_block

theorem modify_box_id (st : content) (j : Nat) : st.modify_box j (fun b => b) = st := by
  have : ∀ (l : List box) (j : Nat), list_modify l j (fun b => b) = l := by
    intro l
    induction l with
    | nil => intro j; rfl
    | cons a l ih =>
      intro j
      cases j with
      | zero => rfl
      | succ j => simp only [list_modify, ih]
  unfold content.modify_box
  rw [this]

/-- A new box of kind `t`, not a float box, added to the box `p`. -/
theorem handler_tree.new_child_plain_tree {box : Nat} {st X : content} (style : Option Nat)
    (href : Option cstr) (target : Option frame_target) (title id : Option cstr)
    (t : box_type) (p : Nat) (ht : ¬ is_float t)
    (hp : p = box ∨ (st.boxes.length ≤ p ∧ ¬ is_float (X.box_at p).type))
    (h : handler_tree box st X) :
    handler_tree box st
      (box_add_child p X.boxes.length
        (box_set_type X.boxes.length t (box_create style href target title id X).1)) := by
  have := h.new_child_tree style href target title id t (fun b => b) p ht (fun _ => rfl) hp
  rw [modify_box_id] at this
  exact this

/-- The inline container with one text box that a form-control handler puts
into its box. -/
theorem handler_tree.box_gadget_text_tree {box : Nat} {st X : content} (text : cstr)
    (h : handler_tree box st X) : handler_tree box st (box_gadget_text box text X) := by
  have hl := h.len
  have hb := h.lt
  have hlen : (box_gadget_text box text X).boxes.length = X.boxes.length + 2 :=
    (box_gadget_text_eq box text X (by omega)).2.2.2
  refine h.step_tree (by omega) ?_ ?_ ?_ ?_
  · intro i hi hne
    have e1 : i ≠ X.boxes.length := by omega
    have e2 : i ≠ X.boxes.length + 1 := by omega
    unfold box_gadget_text
    simp only [snd_box_create, length_boxes_box_set_type, length_boxes_box_create,
      box_at_box_add_child, box_at_modify_box, box_at_box_set_type, box_at_box_create,
      length_boxes_box_add_child, length_boxes_modify_box, e1, e2, hne, false_and, if_false]
  · rw [(box_gadget_text_eq box text X (by omega)).1]
  · intro i hi hlt
    have e1 : i ≠ X.boxes.length := by omega
    have e2 : i ≠ X.boxes.length + 1 := by omega
    have e3 : i ≠ box := by omega
    have e : (box_gadget_text box text X).box_at i = X.box_at i := by
      unfold box_gadget_text
      simp only [snd_box_create, length_boxes_box_set_type, length_boxes_box_create,
        box_at_box_add_child, box_at_modify_box, box_at_box_set_type, box_at_box_create,
        length_boxes_box_add_child, length_boxes_modify_box, e1, e2, e3, false_and, if_false]
    rw [e]
    exact ⟨rfl, fun _ => rfl⟩
  · intro i hi
    by_cases e1 : i = X.boxes.length
    · have e2 : X.boxes.length ≠ box := by omega
      have e3 : X.boxes.length < X.boxes.length + 1 := by omega
      have e4 : X.boxes.length < X.boxes.length + 1 + 1 := by omega
      have e5 : X.boxes.length ≠ X.boxes.length + 1 := by omega
      have : ((box_gadget_text box text X).box_at i).type = BOX_INLINE_CONTAINER := by
        rw [e1]
        unfold box_gadget_text
        simp only [snd_box_create, length_boxes_box_set_type, length_boxes_box_create,
          type_box_add_child, box_at_modify_box, box_at_box_set_type, box_at_box_create,
          length_boxes_box_add_child, length_boxes_modify_box, e2, e3, e4, e5, false_and,
          if_false, true_and, and_self, if_true]
      rw [this]
      unfold is_float
      decide
    · by_cases e2 : i = X.boxes.length + 1
      · have e3 : X.boxes.length + 1 < X.boxes.length + 1 + 1 := by omega
        have : ((box_gadget_text box text X).box_at i).type = BOX_TEXT := by
          rw [e2]
          unfold box_gadget_text
          simp only [snd_box_create, length_boxes_box_set_type, length_boxes_box_create,
            type_box_add_child, box_at_modify_box, box_at_box_set_type, box_at_box_create,
            length_boxes_box_add_child, length_boxes_modify_box, e3, true_and, and_self,
            if_true]
        rw [this]
        unfold is_float
        decide
      · rw [type_box_at_ge (by omega)]
        exact not_is_float_block

theorem handler_tree_box_body {n : xmlNode} {box : Nat} {st st' : content} {cc : Bool}
    (h : box_body n box st = some (st', cc)) (hb : box < st.boxes.length) :
    handler_tree box st st' := by
  unfold box_body at h
  cases h
  exact (handler_tree.refl_tree hb).boxes_eq_tree _ rfl

theorem handler_tree_box_br {n : xmlNode} {box : Nat} {st st' : content} {cc : Bool}
    (h : box_br n box st = some (st', cc)) (hb : box < st.boxes.length) :
    handler_tree box st st' := by
  unfold box_br at h
  cases h
  exact (handler_tree.refl_tree hb).set_type_own _ (by simp)

theorem handler_tree_box_a {E : Env} {n : xmlNode} {box : Nat} {st st' : content} {cc : Bool}
    (h : box_a E n box st = some (st', cc)) (hb : box < st.boxes.length) :
    handler_tree box st st' := by
  unfold box_a at h
  simp only at h
  split at h
  · exact Option.noConfusion h
  · rename_i st1 hst1
    have h1 : handler_tree box st st1 := by
      split at hst1
      · split at hst1
        · exact Option.noConfusion hst1
        · cases hst1
          refine handler_tree.modify_own _ ?_ (handler_tree.refl_tree hb)
          exact fun _ => rfl
        · cases hst1
          exact handler_tree.refl_tree hb
      · cases hst1
        exact handler_tree.refl_tree hb
    cases h
    have h2 := h1.modify_own
      (fun b => { b with id := box_get_attribute n "name".toList b.id })
      (fun _ => rfl)
    split
    · split
      · refine handler_tree.modify_own _ ?_ h2
        exact fun _ => rfl
      · split
        · refine handler_tree.modify_own _ ?_ h2
          exact fun _ => rfl
        · split
          · refine handler_tree.modify_own _ ?_ h2
            exact fun _ => rfl
          · split
            · refine handler_tree.modify_own _ ?_ h2
              exact fun _ => rfl
            · exact h2
    · exact h2

theorem handler_tree_box_image {E : Env} {n : xmlNode} {box : Nat} {st st' : content}
    {cc : Bool} (h : box_image E n box st = some (st', cc)) (hb : box < st.boxes.length) :
    handler_tree box st st' := by
  unfold box_image at h
  simp only at h
  have h1 : handler_tree box st (box_usemap n box
      (match xmlGetProp n "alt".toList with
        | some alt =>
          st.modify_box box (fun b =>
            { b with text := some (squash_whitespace alt),
                     length := (squash_whitespace alt).length })
        | none => st)) := by
    apply handler_tree.box_usemap_tree
    split
    · refine handler_tree.modify_own _ ?_ (handler_tree.refl_tree hb)
      exact fun _ => rfl
    · exact handler_tree.refl_tree hb
  split at h
  · cases h
    exact h1
  · split at h
    · exact Option.noConfusion h
    · cases h
      exact h1
    · split at h
      · exact Option.noConfusion h
      · rename_i st2 hf
        cases h
        exact h1.html_fetch_object_tree hf

theorem handler_tree_box_iframe {E : Env} {n : xmlNode} {box : Nat} {st st' : content}
    {cc : Bool} (h : box_iframe E n box st = some (st', cc)) (hb : box < st.boxes.length) :
    handler_tree box st st' := by
  unfold box_iframe at h
  split at h
  · cases h
    exact handler_tree.refl_tree hb
  · split at h
    · exact Option.noConfusion h
    · cases h
      exact handler_tree.refl_tree hb
    · split at h
      · cases h
        exact handler_tree.refl_tree hb
      · split at h
        · exact Option.noConfusion h
        · rename_i st2 hf
          cases h
          exact (handler_tree.refl_tree hb).html_fetch_object_tree hf

theorem handler_tree_box_form {n : xmlNode} {box : Nat} {st st' : content} {cc : Bool}
    (h : box_form n box st = some (st', cc)) (hb : box < st.boxes.length) :
    handler_tree box st st' := by
  unfold box_form at h
  cases h
  exact (handler_tree.refl_tree hb).boxes_eq_tree _ rfl

theorem handler_tree_box_embed {E : Env} {n : xmlNode} {box : Nat} {st st' : content}
    {cc : Bool} (h : box_embed E n box st = some (st', cc)) (hb : box < st.boxes.length) :
    handler_tree box st st' := by
  unfold box_embed at h
  split at h
  · cases h
    exact handler_tree.refl_tree hb
  · split at h
    · exact Option.noConfusion h
    · cases h
      exact handler_tree.refl_tree hb
    · split at h
      · cases h
        exact handler_tree.refl_tree hb
      · simp only at h
        split at h
        · exact Option.noConfusion h
        · rename_i st2 hf
          cases h
          refine handler_tree.html_fetch_object_tree hf ?_
          refine handler_tree.modify_own _ ?_ (handler_tree.refl_tree hb)
          exact fun _ => rfl

theorem handler_tree_box_button {n : xmlNode} {box : Nat} {st X st' : content} {cc : Bool}
    (h : box_button n box X = some (st', cc)) (hX : handler_tree box st X) :
    handler_tree box st st' := by
  unfold box_button at h
  simp only at h
  have h1 := hX.set_type_own BOX_INLINE_BLOCK (by simp)
  split at h
  · cases h
    exact h1
  · rename_i st1 gadget hg
    cases h
    have h2 : handler_tree box st st1 := by
      split at hg
      · cases hg
        exact h1.form_new_control_tree _
      · split at hg
        · cases hg
          exact h1.form_new_control_tree _
        · exact Option.noConfusion hg
    refine handler_tree.modify_control_tree _ _ ?_
    refine handler_tree.box_form_add_control_tree _ ?_
    refine handler_tree.modify_own _ ?_ h2
    exact fun _ => rfl

theorem handler_tree_box_input_text {n : xmlNode} {box : Nat} {password : Bool}
    {st X st' : content}
    (h : box_input_text n box password X = some st') (hX : handler_tree box st X) :
    handler_tree box st st' := by
  unfold box_input_text at h
  simp only at h
  cases h
  refine handler_tree.box_gadget_text_tree _ ?_
  refine handler_tree.modify_control_tree _ _ ?_
  refine handler_tree.modify_own _ ?_ ?_
  · exact fun _ => rfl
  refine handler_tree.form_new_control_tree _ ?_
  exact hX.set_type_own BOX_INLINE_BLOCK (by simp)

theorem handler_tree_box_input_type {E : Env} {n : xmlNode} {box : Nat} {st st' : content}
    {g : Option Nat} (h : box_input_type E n box st = some (st', g))
    (hb : box < st.boxes.length) : handler_tree box st st' := by
  have hdefault : ∀ password : Bool, box_input_default n box password st = some (st', g) →
      handler_tree box st st' := by
    intro password hd
    unfold box_input_default at hd
    split at hd
    · exact Option.noConfusion hd
    · rename_i st2 hit
      cases hd
      exact handler_tree_box_input_text hit (handler_tree.refl_tree hb)
  unfold box_input_type at h
  simp only at h
  split at h
  · exact hdefault _ h
  split at h
  · unfold box_input_file at h
    cases h
    refine handler_tree.modify_control_tree _ _ ?_
    refine handler_tree.modify_own _ ?_ ?_
    · exact fun _ => rfl
    refine handler_tree.form_new_control_tree _ ?_
    exact (handler_tree.refl_tree hb).set_type_own BOX_INLINE_BLOCK (by simp)
  split at h
  · unfold box_input_hidden at h
    cases h
    have h1 : handler_tree box st
        (match (st.box_at box).style with
          | some s => st.modify_style s (fun x => { x with display := CSS_DISPLAY_NONE })
          | none => st) := by
      split
      · exact handler_tree.modify_style_tree _ _ (handler_tree.refl_tree hb)
      · exact handler_tree.refl_tree hb
    split
    · refine handler_tree.modify_control_tree _ _ ?_
      exact handler_tree.form_new_control_tree _ h1
    · exact handler_tree.form_new_control_tree _ h1
  split at h
  · unfold box_input_checkbox at h
    cases h
    split
    · refine handler_tree.modify_control_tree _ _ ?_
      refine handler_tree.modify_control_tree _ _ ?_
      refine handler_tree.modify_own _ ?_ ?_
      · exact fun _ => rfl
      exact handler_tree.form_new_control_tree _ (handler_tree.refl_tree hb)
    · refine handler_tree.modify_control_tree _ _ ?_
      refine handler_tree.modify_own _ ?_ ?_
      · exact fun _ => rfl
      exact handler_tree.form_new_control_tree _ (handler_tree.refl_tree hb)
  split at h
  · unfold box_input_submit at h
    split at h
    · exact Option.noConfusion h
    · rename_i st2 cc2 hbt
      cases h
      refine handler_tree.box_gadget_text_tree _ ?_
      exact handler_tree_box_button hbt (handler_tree.refl_tree hb)
  split at h
  · unfold box_input_button at h
    split at h
    · exact Option.noConfusion h
    · rename_i st2 cc2 hbt
      cases h
      refine handler_tree.box_gadget_text_tree _ ?_
      exact handler_tree_box_button hbt (handler_tree.refl_tree hb)
  split at h
  · unfold box_input_image at h
    have h3 : handler_tree box st
        (((form_new_control GADGET_IMAGE st).1.modify_box box
          (fun b => { b with gadget := some (form_new_control GADGET_IMAGE st).2 })).modify_control
          (form_new_control GADGET_IMAGE st).2
          (fun g => { g with box := some box, type := GADGET_IMAGE })) := by
      refine handler_tree.modify_control_tree _ _ ?_
      refine handler_tree.modify_own _ ?_ ?_
      · exact fun _ => rfl
      exact handler_tree.form_new_control_tree _ (handler_tree.refl_tree hb)
    simp only at h
    split at h
    · split at h
      · split at h
        · split at h
          · exact Option.noConfusion h
          · rename_i st2 hf
            cases h
            exact handler_tree.html_fetch_object_tree hf h3
        · cases h
          exact h3
      · cases h
        exact h3
    · cases h
      exact h3
  · exact hdefault _ h

theorem handler_tree_box_input {E : Env} {n : xmlNode} {box : Nat} {st st' : content}
    {cc : Bool} (h : box_input E n box st = some (st', cc)) (hb : box < st.boxes.length) :
    handler_tree box st st' := by
  unfold box_input at h
  split at h
  · exact Option.noConfusion h
  · rename_i st1 hbr
    cases h
    exact handler_tree_box_input_type hbr hb
  · rename_i st1 gadget hbr
    cases h
    refine handler_tree.modify_control_tree _ _ ?_
    refine handler_tree.box_form_add_control_tree _ ?_
    exact handler_tree_box_input_type hbr hb

theorem handler_tree_box_select {E : Env} {n : xmlNode} {box : Nat} {st st' : content}
    {cc : Bool} (h : box_select E n box st = some (st', cc)) (hb : box < st.boxes.length) :
    handler_tree box st st' := by
  unfold box_select at h
  simp only at h
  have h1 : handler_tree box st
      ((form_new_control GADGET_SELECT st).1.modify_control (form_new_control GADGET_SELECT st).2
        (fun g => box_select_options false n.children
          { g with multiple := (xmlGetProp n "multiple".toList).isSome })) := by
    refine handler_tree.modify_control_tree _ _ ?_
    exact handler_tree.form_new_control_tree _ (handler_tree.refl_tree hb)
  split at h
  · cases h
    exact h1
  · cases h
    refine handler_tree.box_form_add_control_tree _ ?_
    refine handler_tree.box_gadget_text_tree _ ?_
    refine handler_tree.modify_control_tree _ _ ?_
    refine handler_tree.modify_own _ ?_ ?_
    · exact fun _ => rfl
    refine handler_tree.set_type_own _ (by simp) ?_
    exact handler_tree.modify_control_tree _ _ h1

theorem type_modify_box_of (st : content) (j : Nat) (f : box → box)
    (hf : ∀ b : box, (f b).type = b.type) (i : Nat) :
    ((st.modify_box j f).box_at i).type = (st.box_at i).type := by
  rw [box_at_modify_box]
  split
  · exact hf _
  · rfl

theorem children_modify_box_of (st : content) (j : Nat) (f : box → box)
    (hf : ∀ b : box, (f b).children = b.children) (i : Nat) :
    ((st.modify_box j f).box_at i).children = (st.box_at i).children := by
  rw [box_at_modify_box]
  split
  · exact hf _
  · rfl

theorem children_box_at_ge {st : content} {i : Nat} (h : st.boxes.length ≤ i) :
    (st.box_at i).children = [] :=
  children_box_zero_at h

theorem lt_of_children_ne_nil {st : content} {i : Nat} (h : (st.box_at i).children ≠ []) :
    i < st.boxes.length := by
  by_contra hge
  exact h (children_box_at_ge (Nat.le_of_not_lt hge))

theorem type_of_is_inline_container {st : content} {k : Nat}
    (h : is_inline_container st.boxes k) :
    k < st.boxes.length ∧ (st.box_at k).type = BOX_INLINE_CONTAINER := by
  obtain ⟨b, hb, ht⟩ := h
  rw [box_at_eq hb]
  exact ⟨(List.getElem?_eq_some.mp hb).1, ht⟩

theorem is_inline_container_of_type {st : content} {k : Nat} (hk : k < st.boxes.length)
    (h : (st.box_at k).type = BOX_INLINE_CONTAINER) : is_inline_container st.boxes k :=
  ⟨st.box_at k, getElem?_box_at hk, h⟩

theorem not_is_float_container : ¬ is_float BOX_INLINE_CONTAINER := by
  unfold is_float
  decide

theorem not_is_float_of_valid {ic : Option Nat} {st : content} (h : valid_container ic st)
    {i : Nat} (hf : is_float (st.box_at i).type) : ic ≠ some i := by
  intro hi
  rw [(type_of_is_inline_container (h i hi)).2] at hf
  exact not_is_float_container hf

/-- The steps that leave the kind and the children of the boxes, and the
boxes below `lo`, and create no float box. -/
theorem tree_step.of_same {lo p : Nat} {ic : Option Nat} {X Y : content}
    (hlen : X.boxes.length ≤ Y.boxes.length)
    (hold : ∀ i, i < lo → i ≠ p → ic ≠ some i → same_but_space (X.box_at i) (Y.box_at i))
    (htype : ∀ i, i < X.boxes.length → (Y.box_at i).type = (X.box_at i).type)
    (hkids : ∀ i, i < X.boxes.length → (Y.box_at i).children = (X.box_at i).children)
    (hnew : ∀ i, X.boxes.length ≤ i → ¬ is_float (Y.box_at i).type) :
    tree_step lo p ic X Y := by
  refine ⟨hlen, hold, fun i hi => ⟨[], by rw [hkids i hi, List.append_nil]⟩, htype, ?_⟩
  intro h
  exact h.step_floats (fun i _ hi => ⟨htype i hi, fun _ => hkids i hi⟩) hnew

theorem tree_step.refl_step (lo p : Nat) (ic : Option Nat) (X : content) :
    tree_step lo p ic X X :=
  tree_step.of_same (Nat.le_refl _) (fun _ _ _ _ => same_but_space.refl_space _)
    (fun _ _ => rfl) (fun _ _ => rfl)
    (fun i hi => by rw [type_box_at_ge hi]; exact not_is_float_block)

/-- Steps that leave the boxes as they are. -/
theorem tree_step.of_boxes_eq_step {lo p : Nat} {ic : Option Nat} {X Y : content}
    (h : Y.boxes = X.boxes) : tree_step lo p ic X Y := by
  have hb : ∀ i, Y.box_at i = X.box_at i := box_at_of_boxes_eq h
  refine tree_step.of_same (by rw [h]) (fun i _ _ _ => by rw [hb]; exact same_but_space.refl_space _)
    (fun i _ => by rw [hb]) (fun i _ => by rw [hb]) ?_
  intro i hi
  rw [hb, type_box_at_ge hi]
  exact not_is_float_block

theorem tree_step.trans_step {lo p : Nat} {ic : Option Nat} {X Y Z : content}
    (h1 : tree_step lo p ic X Y) (h2 : tree_step lo p ic Y Z) : tree_step lo p ic X Z := by
  refine ⟨Nat.le_trans h1.len h2.len, ?_, ?_, ?_, fun h => h2.new (h1.new h)⟩
  · intro i hi hp hic
    exact (h1.old i hi hp hic).trans_space (h2.old i hi hp hic)
  · intro i hi
    obtain ⟨cs, hcs⟩ := h1.kids i hi
    obtain ⟨ds, hds⟩ := h2.kids i (Nat.lt_of_lt_of_le hi h1.len)
    exact ⟨cs ++ ds, by rw [hds, hcs, List.append_assoc]⟩
  · intro i hi
    rw [h2.type i (Nat.lt_of_lt_of_le hi h1.len), h1.type i hi]

/-- Steps with a current inline container that is the one of the caller or a
box from `lo` on. -/
theorem tree_step.exempt_step {lo p : Nat} {ic jc : Option Nat} {X Y : content}
    (h : tree_step lo p jc X Y) (hj : ∀ k, jc = some k → ic = some k ∨ lo ≤ k) :
    tree_step lo p ic X Y := by
  refine ⟨h.len, ?_, h.kids, h.type, h.new⟩
  intro i hi hp hic
  refine h.old i hi hp ?_
  intro hjc
  rcases hj i hjc with h1 | h1
  · exact hic h1
  · omega

/-- The steps of the conversion of the children of a box from `lo` on, seen
from the parent of the box and its current inline container. -/
theorem tree_step.of_child {lo p b : Nat} {ic : Option Nat} {X Y : content}
    (h : tree_step lo b none X Y) (hb : lo ≤ b) : tree_step lo p ic X Y :=
  ⟨h.len, fun i hi _ _ => h.old i hi (by omega) (fun h => Option.noConfusion h),
    h.kids, h.type, h.new⟩

/-- A box that has a child has one after the steps. -/
theorem tree_step.has_child {lo p : Nat} {ic : Option Nat} {X Y : content}
    (h : tree_step lo p ic X Y) {k : Nat} (hk : (X.box_at k).children ≠ []) :
    (Y.box_at k).children ≠ [] := by
  obtain ⟨cs, hcs⟩ := h.kids k (lt_of_children_ne_nil hk)
  rw [hcs]
  intro h0
  exact hk (List.append_eq_nil.mp h0).1

/-- An inline container is one after the steps. -/
theorem tree_step.keeps_container {lo p : Nat} {ic : Option Nat} {X Y : content}
    (h : tree_step lo p ic X Y) {jc : Option Nat} (hv : valid_container jc X) :
    valid_container jc Y := by
  intro k hk
  obtain ⟨h1, h2⟩ := type_of_is_inline_container (hv k hk)
  exact is_inline_container_of_type (Nat.lt_of_lt_of_le h1 h.len) (by rw [h.type k h1]; exact h2)

theorem tree_frame.refl_tree_frame (lo p : Nat) (ic : Option Nat) (X : content) :
    tree_frame lo p ic ic X X :=
  ⟨tree_step.refl_step _ _ _ _, fun _ hk => Or.inl hk, fun h => h⟩

/-- The frame of steps that keep the current inline container. -/
theorem tree_step.to_frame {lo p : Nat} {ic : Option Nat} {X Y : content}
    (h : tree_step lo p ic X Y) : tree_frame lo p ic ic X Y :=
  ⟨h, fun _ hk => Or.inl hk, fun hc k hk => h.has_child (hc k hk)⟩

/-- The frame of steps that leave no current inline container. -/
theorem tree_step.to_frame_none {lo p : Nat} {ic : Option Nat} {X Y : content}
    (h : tree_step lo p ic X Y) : tree_frame lo p ic none X Y :=
  ⟨h, fun _ hk => Option.noConfusion hk, fun _ _ hk => Option.noConfusion hk⟩

/-- The frames of two steps in a row, the container on exit of the first
being the container on entry of the second. -/
theorem tree_frame.trans_tree_frame {lo p : Nat} {ic ic1 ic2 : Option Nat} {X Y Z : content}
    (h1 : tree_frame lo p ic ic1 X Y) (h2 : tree_frame lo p ic1 ic2 Y Z) :
    tree_frame lo p ic ic2 X Z := by
  refine ⟨h1.step.trans_step (h2.step.exempt_step h1.cur), ?_, fun h => h2.child (h1.child h)⟩
  intro k hk
  rcases h2.cur k hk with h | h
  · exact h1.cur k h
  · exact Or.inr h

theorem not_is_float_text : ¬ is_float BOX_TEXT := by
  unfold is_float
  decide

theorem not_is_float_br : ¬ is_float BOX_BR := by
  unfold is_float
  decide

theorem type_new_child (style : Option Nat) (href : Option cstr) (target : Option frame_target)
    (title id : Option cstr) (t : box_type) (g : box → box)
    (hg : ∀ b : box, (g b).type = b.type) (p : Nat) (X : content) {i : Nat}
    (hi : i < X.boxes.length) :
    ((box_add_child p X.boxes.length
        ((box_set_type X.boxes.length t
          (box_create style href target title id X).1).modify_box X.boxes.length g)).box_at i).type
      = (X.box_at i).type := by
  have e1 : i ≠ X.boxes.length := by omega
  rw [type_box_add_child, type_modify_box_of _ _ _ hg, type_box_set_type,
    if_neg (fun h => e1 h.1), type_box_create, if_neg e1]

theorem length_new_child (style : Option Nat) (href : Option cstr) (target : Option frame_target)
    (title id : Option cstr) (t : box_type) (g : box → box) (p : Nat) (X : content) :
    (box_add_child p X.boxes.length
        ((box_set_type X.boxes.length t
          (box_create style href target title id X).1).modify_box X.boxes.length g)).boxes.length
      = X.boxes.length + 1 := by
  rw [length_boxes_box_add_child, length_boxes_modify_box, length_boxes_box_set_type,
    length_boxes_box_create]

theorem handler_tree.box_textarea_text_tree {box : Nat} {st X : content} (ic : Nat)
    (line : cstr) (hic : st.boxes.length ≤ ic) (hlt : ic < X.boxes.length)
    (ht : (X.box_at ic).type = BOX_INLINE_CONTAINER)
    (h : handler_tree box st X) :
    handler_tree box st (box_textarea_text box ic line X) ∧
    X.boxes.length ≤ (box_textarea_text box ic line X).boxes.length ∧
    ((box_textarea_text box ic line X).box_at ic).type = BOX_INLINE_CONTAINER := by
  unfold box_textarea_text
  simp only [snd_box_create]
  refine ⟨h.new_child_tree _ _ _ _ _ BOX_TEXT _ ic not_is_float_text (fun _ => rfl)
    (Or.inr ⟨hic, by rw [ht]; exact not_is_float_container⟩), ?_, ?_⟩
  · rw [length_new_child]
    omega
  · refine (type_new_child _ _ _ _ _ _ _ ?_ _ _ hlt).trans ht
    exact fun _ => rfl

theorem handler_tree.box_textarea_rest_tree {box : Nat} {st : content} (ic : Nat)
    (lines : List cstr) (hic : st.boxes.length ≤ ic) :
    ∀ X : content, ic < X.boxes.length → (X.box_at ic).type = BOX_INLINE_CONTAINER →
      handler_tree box st X → handler_tree box st (box_textarea_rest box ic lines X) := by
  induction lines with
  | nil =>
    intro X _ _ h
    exact h
  | cons line rest ih =>
    intro X hlt ht h
    unfold box_textarea_rest
    simp only [snd_box_create]
    have h1 := h.new_child_plain_tree (X.box_at box).style none none (X.box_at box).title none
      BOX_BR ic not_is_float_br (Or.inr ⟨hic, by rw [ht]; exact not_is_float_container⟩)
    have hl1 := length_new_child (X.box_at box).style none none (X.box_at box).title none
      BOX_BR (fun b => b) ic X
    have ht1 := type_new_child (X.box_at box).style none none (X.box_at box).title none
      BOX_BR (fun b => b) (fun _ => rfl) ic X hlt
    rw [modify_box_id] at hl1 ht1
    generalize box_add_child ic X.boxes.length
        (box_set_type X.boxes.length BOX_BR
          (box_create (X.box_at box).style none none (X.box_at box).title none X).1) = s1
      at h1 hl1 ht1 ⊢
    obtain ⟨h2, hl2, ht2⟩ := h1.box_textarea_text_tree ic line hic (by omega)
      (by rw [ht1]; exact ht)
    exact ih _ (by omega) ht2 h2

theorem handler_tree_box_textarea {n : xmlNode} {box : Nat} {st st' : content}
    {cc : Bool} (h : box_textarea n box st = some (st', cc)) (hb : box < st.boxes.length) :
    handler_tree box st st' := by
  unfold box_textarea at h
  simp only [snd_box_create] at h
  cases h
  refine handler_tree.box_form_add_control_tree _ ?_
  have h1 : handler_tree box st
      (((box_set_type box BOX_INLINE_BLOCK st |> form_new_control GADGET_TEXTAREA).1.modify_box box
        (fun b => { b with gadget := some (form_new_control GADGET_TEXTAREA
          (box_set_type box BOX_INLINE_BLOCK st)).2 })).modify_control
        (form_new_control GADGET_TEXTAREA (box_set_type box BOX_INLINE_BLOCK st)).2
        (fun g => { g with box := some box, name := box_get_attribute n "name".toList g.name })) := by
    refine handler_tree.modify_control_tree _ _ ?_
    refine handler_tree.modify_own _ ?_ ?_
    · exact fun _ => rfl
    refine handler_tree.form_new_control_tree _ ?_
    exact (handler_tree.refl_tree hb).set_type_own BOX_INLINE_BLOCK (by simp)
  generalize ((box_set_type box BOX_INLINE_BLOCK st |> form_new_control GADGET_TEXTAREA).1.modify_box box
        (fun b => { b with gadget := some (form_new_control GADGET_TEXTAREA
          (box_set_type box BOX_INLINE_BLOCK st)).2 })).modify_control
        (form_new_control GADGET_TEXTAREA (box_set_type box BOX_INLINE_BLOCK st)).2
        (fun g => { g with box := some box, name := box_get_attribute n "name".toList g.name }) = s1
    at h1 ⊢
  have hl1 := h1.len
  have h2 := h1.new_child_plain_tree none none none (s1.box_at box).title none
    BOX_INLINE_CONTAINER box not_is_float_container (Or.inl rfl)
  have hl2 := length_new_child none none none (s1.box_at box).title none
    BOX_INLINE_CONTAINER (fun b => b) box s1
  rw [modify_box_id] at hl2
  have ht2 : ((box_add_child box s1.boxes.length
        (box_set_type s1.boxes.length BOX_INLINE_CONTAINER
          (box_create none none none (s1.box_at box).title none s1).1)).box_at
        s1.boxes.length).type = BOX_INLINE_CONTAINER := by
    rw [type_box_add_child, type_box_set_type, length_boxes_box_create,
      if_pos ⟨rfl, Nat.lt_succ_self _⟩]
  generalize box_add_child box s1.boxes.length
        (box_set_type s1.boxes.length BOX_INLINE_CONTAINER
          (box_create none none none (s1.box_at box).title none s1).1) = s2 at h2 hl2 ht2 ⊢
  split
  · exact h2
  · rename_i line rest _
    obtain ⟨h3, hl3, ht3⟩ := h2.box_textarea_text_tree s1.boxes.length line hl1 (by omega) ht2
    exact handler_tree.box_textarea_rest_tree s1.boxes.length rest hl1 _ (by omega) ht3 h3

theorem no_float.of_boxes_eq_float {lo : Nat} {st st' : content} (h : no_float lo st)
    (e : st'.boxes = st.boxes) : no_float lo st' := by
  intro i hi
  rw [box_at_of_boxes_eq e]
  exact h i hi

theorem no_float.box_create_float {lo : Nat} {st : content} (style : Option Nat)
    (href : Option cstr) (target : Option frame_target) (title id : Option cstr)
    (h : no_float lo st) : no_float lo (box_create style href target title id st).1 := by
  intro i hi
  rw [type_box_create]
  split
  · unfold is_float
    decide
  · exact h i hi

theorem no_float.set_type_float {lo : Nat} {st : content} (b : Nat) (t : box_type)
    (ht : ¬ is_float t) (h : no_float lo st) : no_float lo (box_set_type b t st) := by
  intro i hi
  rw [type_box_set_type]
  split
  · exact ht
  · exact h i hi

theorem no_float.add_child_float {lo : Nat} {st : content} (p c : Nat)
    (h : no_float lo st) : no_float lo (box_add_child p c st) := by
  intro i hi
  rw [type_box_add_child]
  exact h i hi

theorem no_float.modify_box_float {lo : Nat} {st : content} (j : Nat) (f : box → box)
    (hf : ∀ b : box, (f b).type = b.type)
    (h : no_float lo st) : no_float lo (st.modify_box j f) := by
  intro i hi
  rw [type_modify_box_of _ _ _ hf]
  exact h i hi

theorem not_is_float_table : ¬ is_float BOX_TABLE := by
  unfold is_float
  decide

theorem not_is_float_table_row : ¬ is_float BOX_TABLE_ROW := by
  unfold is_float
  decide

theorem not_is_float_table_cell : ¬ is_float BOX_TABLE_CELL := by
  unfold is_float
  decide

theorem no_float.box_frameset_columns_float {lo : Nat} {st : content} (c : xmlNode) (b : Nat)
    (h : no_float lo st) : no_float lo (box_frameset_columns c b st).1 := by
  unfold box_frameset_columns
  exact (h.set_type_float b BOX_TABLE not_is_float_table).modify_box_float _ _ (fun _ => rfl)

theorem no_float.box_frameset_row_float {lo : Nat} {st : content} (b style : Nat)
    (h : no_float lo st) : no_float lo (box_frameset_row b style st).1 := by
  unfold box_frameset_row
  simp only [snd_new_style, snd_box_create, boxes_new_style]
  refine no_float.add_child_float _ _ (no_float.set_type_float _ _ not_is_float_table_row
    (no_float.box_create_float _ _ _ _ _ (h.of_boxes_eq_float ?_)))
  rw [boxes_new_style]

theorem no_float.box_frameset_empty_rows_float {lo : Nat} (b style : Nat) (k : Nat) :
    ∀ st : content, no_float lo st → no_float lo (box_frameset_empty_rows b style k st) := by
  induction k with
  | zero =>
    intro st h
    exact h
  | succ k ih =>
    intro st h
    unfold box_frameset_empty_rows
    exact ih _ (h.box_frameset_row_float b style)

theorem no_float_box_frameset_new_row {lo : Nat}
    (cell : Nat → Nat → content → Option content) (b style : Nat) (d : frameset_lengths)
    (row : Nat) (st st' : content)
    (h : box_frameset_new_row cell b style d row st = some st')
    (hcell : ∀ rb Y Y', cell 0 rb Y = some Y' → no_float lo Y → no_float lo Y')
    (hs : no_float lo st) : no_float lo st' := by
  unfold box_frameset_new_row at h
  split at h
  · cases h
    exact hs
  · simp only at h
    split at h
    · cases h
      exact no_float.box_frameset_empty_rows_float b style _ _ (hs.box_frameset_row_float b style)
    · exact hcell _ _ _ h (hs.box_frameset_row_float b style)

theorem no_float_box_frameset_cell {lo : Nat} (E : Env) (c : xmlNode)
    (nested : Nat → Nat → frameset_lengths → content → Option content)
    (rest : Nat → content → Option content)
    (style : Nat) (d : frameset_lengths) (col rb : Nat) (st st' : content)
    (h : box_frameset_cell E c nested rest style d col rb st = some st')
    (hnested : ∀ fb cs d1 Y Y', nested fb cs d1 Y = some Y' → no_float lo Y → no_float lo Y')
    (hrest : ∀ col Y Y', rest col Y = some Y' → no_float lo Y → no_float lo Y')
    (hs : no_float lo st) : no_float lo st' := by
  unfold box_frameset_cell at h
  split at h
  · exact hrest _ _ _ h hs
  · simp only [snd_new_style, snd_box_create, boxes_new_style, boxes_modify_style] at h
    have hA : no_float lo
        (box_add_child rb st.boxes.length (box_set_type st.boxes.length BOX_TABLE_CELL
          (box_create (some st.styles.length) none none none none
            (((st.new_style (st.style_at style)).1).modify_style st.styles.length
              (fun s => { s with overflow := CSS_OVERFLOW_AUTO }))).1)) :=
      no_float.add_child_float _ _ (no_float.set_type_float _ _ not_is_float_table_cell
        (no_float.box_create_float _ _ _ _ _ (hs.of_boxes_eq_float rfl)))
    generalize (box_add_child rb st.boxes.length (box_set_type st.boxes.length BOX_TABLE_CELL
          (box_create (some st.styles.length) none none none none
            (((st.new_style (st.style_at style)).1).modify_style st.styles.length
              (fun s => { s with overflow := CSS_OVERFLOW_AUTO }))).1)) = S2 at h hA
    split at h
    · split at h
      · exact Option.noConfusion h
      · rename_i s5 hs5
        have h5 : no_float lo s5 := hnested _ _ _ _ _ hs5
          ((hA.box_create_float _ _ _ _ _).box_frameset_columns_float c _)
        have h6 : no_float lo (box_frameset_width st.styles.length s5) := h5.of_boxes_eq_float rfl
        exact hrest _ _ _ h (h6.add_child_float _ _)
    · split at h
      · exact hrest _ _ _ h hA
      · split at h
        · split at h
          · exact hrest _ _ _ h hA
          · split at h
            · exact Option.noConfusion h
            · rename_i s3 hs3
              exact hrest _ _ _ h (hA.of_boxes_eq_float (boxes_html_fetch_object hs3).1)
        · exact hrest _ _ _ h hA

/-- The loops of `box_frameset` create no float box. -/
theorem no_float_box_frameset_table {lo : Nat} (E : Env) (c : xmlNode) :
    ∀ (b style : Nat) (d : frameset_lengths) (row col : Nat) (row_box : Option Nat)
      (st st' : content),
      box_frameset_table E c b style d row col row_box st = some st' →
      no_float lo st → no_float lo st' := by
  induction c with
  | null =>
    intro b style d row col row_box st st' h hs
    unfold box_frameset_table at h
    cases h
    exact hs
  | node t name hp ps tx children next ihc ihn =>
    intro b style d row col row_box st st' h hs
    unfold box_frameset_table at h
    have hcell : ∀ (row col rb : Nat) (Y Y' : content),
        box_frameset_cell E (.node t name hp ps tx children next)
          (fun frameset_box cell_style d1 st =>
            box_frameset_table E children frameset_box cell_style d1 0 0 none st)
          (fun col st => box_frameset_table E next b style d row col (some rb) st)
          style d col rb Y = some Y' → no_float lo Y → no_float lo Y' := by
      intro row col rb Y Y' hY hsY
      exact no_float_box_frameset_cell E _ _ _ style d col rb Y Y' hY
        (fun fb cs d1 Z Z' hZ => ihc fb cs d1 0 0 none Z Z' hZ)
        (fun col Z Z' hZ => ihn b style d row col (some rb) Z Z' hZ) hsY
    cases row_box with
    | none =>
      simp only at h
      exact no_float_box_frameset_new_row _ b style d row st st' h
        (fun rb Y Y' hY => hcell row 0 rb Y Y' hY) hs
    | some rb =>
      simp only at h
      split at h
      · exact no_float_box_frameset_new_row _ b style d (row + 1) st st' h
          (fun r Y Y' hY => hcell (row + 1) 0 r Y Y' hY) hs
      · exact hcell row col rb st st' h hs

theorem handler_tree_box_frameset {E : Env} {n : xmlNode} {box : Nat} {st st' : content}
    {cc : Bool} (h : box_frameset E n box st = some (st', cc)) (hb : box < st.boxes.length) :
    handler_tree box st st' := by
  unfold box_frameset at h
  split at h
  · exact Option.noConfusion h
  · rename_i style _
    simp only at h
    split at h
    · exact Option.noConfusion h
    · rename_i s2 hs2
      cases h
      refine handler_tree.boxes_eq_tree ?_ _ rfl
      have h1 : handler_tree box st (box_frameset_columns n box st).1 := by
        unfold box_frameset_columns
        exact ((handler_tree.refl_tree hb).set_type_own BOX_TABLE (by simp)).modify_own _
          (fun _ => rfl)
      have hl1 := length_box_frameset_columns n box st
      have hn1 : no_float st.boxes.length (box_frameset_columns n box st).1 := by
        intro i hi
        rw [type_box_at_ge (by omega)]
        exact not_is_float_block
      generalize (box_frameset_columns n box st).1 = s1 at hs2 h1 hl1 hn1
      have hf := table_frame_box_frameset_table E n.children box style _ 0 0 none s1 s2 hs2
        (by omega) (fun _ hh => Option.noConfusion hh)
      have hn2 := no_float_box_frameset_table E n.children box style _ 0 0 none s1 s2 hs2 hn1
      refine h1.step_tree hf.len ?_ ?_ ?_ ?_
      · intro i hi hne
        exact hf.box_at_table (by omega) (by omega) (by simpa using hne)
      · exact (hf.type_table (by omega : box < s1.boxes.length) (by omega)).1
      · intro i hi hlt
        omega
      · intro i hi
        exact hn2 i (by omega)

/-- The conversion of the children of the box of a special convert
function. -/
theorem handler_tree.conv_step {box : Nat} {st X Y : content} {conv : children_conversion}
    {ps : Nat} {h : Option cstr} {t : Option frame_target} {ti : Option cstr}
    {ic' : Option Nat} (hct : conv_tree conv)
    (hc : conv ps box none h t ti X = some (Y, ic')) (hX : handler_tree box st X) :
    handler_tree box st Y := by
  have hl := hX.len
  have hb := hX.lt
  have hf := hct st.boxes.length ps box none h t ti X Y ic' hc hl (by omega) (Or.inl hb)
    (valid_container_none _)
  refine ⟨hb, Nat.le_trans hl hf.step.len, ?_, ?_, hf.step.new hX.new⟩
  · intro i hi hne
    exact (hX.old i hi hne).trans_space (hf.step.old i hi hne (fun h => Option.noConfusion h))
  · rw [hf.step.type box (by omega)]
    exact hX.own

theorem handler_tree_box_object {E : Env} {conv : children_conversion} {n : xmlNode}
    {box : Nat} {st st' : content} {cc : Bool} (hconv : conv_tree conv)
    (h : box_object E conv n box st = some (st', cc)) (hb : box < st.boxes.length) :
    handler_tree box st st' := by
  unfold box_object at h
  simp only at h
  have h1 : handler_tree box st (box_usemap n box st) :=
    handler_tree.box_usemap_tree n (handler_tree.refl_tree hb)
  generalize box_usemap n box st = s1 at h h1
  split at h
  · exact Option.noConfusion h
  split at h
  · exact Option.noConfusion h
  split at h
  · exact Option.noConfusion h
  · cases h; exact h1
  split at h
  · cases h; exact h1
  split at h
  · cases h; exact h1
  split at h
  · exact Option.noConfusion h
  rename_i s2 hs2
  split at h
  · exact Option.noConfusion h
  split at h
  · exact Option.noConfusion h
  rename_i s3 ic3 hs3
  cases h
  have h2 : handler_tree box st s2 := by
    refine handler_tree.html_fetch_object_tree hs2 ?_
    refine handler_tree.modify_own _ ?_ h1
    exact fun _ => rfl
  refine handler_tree.modify_own _ ?_ ?_
  · exact fun _ => rfl
  exact h2.conv_step hconv hs3

theorem handler_tree_box_special {E : Env} {conv : children_conversion}
    {convert : element_convert} {n : xmlNode}
    {box : Nat} {st st' : content} {cc : Bool} (hconv : conv_tree conv)
    (h : box_special E conv convert n box st = some (st', cc)) (hb : box < st.boxes.length) :
    handler_tree box st st' := by
  cases convert <;> simp only [box_special] at h
  · exact handler_tree_box_a h hb
  · exact handler_tree_box_body h hb
  · exact handler_tree_box_br h hb
  · exact handler_tree_box_button h (handler_tree.refl_tree hb)
  · exact handler_tree_box_embed h hb
  · exact handler_tree_box_form h hb
  · exact handler_tree_box_frameset h hb
  · exact handler_tree_box_iframe h hb
  · exact handler_tree_box_image h hb
  · exact handler_tree_box_input h hb
  · exact handler_tree_box_object hconv h hb
  · exact handler_tree_box_select h hb
  · exact handler_tree_box_textarea h hb

/-- An assignment to members of a box other than the kind and the children:
of a box from `lo` on, of the parent or of the current inline container, or
to the trailing-space flag only. -/
theorem tree_step_modify_box (lo p : Nat) (ic : Option Nat) (X : content) (j : Nat)
    (f : box → box) (hft : ∀ b : box, (f b).type = b.type)
    (hfc : ∀ b : box, (f b).children = b.children)
    (hj : lo ≤ j ∨ j = p ∨ ic = some j ∨ ∀ b : box, same_but_space b (f b)) :
    tree_step lo p ic X (X.modify_box j f) := by
  refine tree_step.of_same (by rw [length_boxes_modify_box]) ?_
    (fun i _ => type_modify_box_of _ _ _ hft i) (fun i _ => children_modify_box_of _ _ _ hfc i) ?_
  · intro i hi hp hic
    rw [box_at_modify_box]
    split
    · rename_i h
      rcases hj with hj | hj | hj | hj
      · omega
      · exact absurd (h.1.trans hj) hp
      · rw [← h.1] at hj
        exact absurd hj hic
      · exact hj _
    · exact same_but_space.refl_space _
  · intro i hi
    rw [type_modify_box_of _ _ _ hft, type_box_at_ge hi]
    exact not_is_float_block

/-- A new box of kind `t`, not a float box, with the assignments `g` to
members other than the kind. -/
theorem tree_step_new_box (lo p : Nat) (ic : Option Nat) (X : content) (style : Option Nat)
    (href : Option cstr) (target : Option frame_target) (title id : Option cstr)
    (t : box_type) (ht : ¬ is_float t) (hlo : lo ≤ X.boxes.length) :
    tree_step lo p ic X (box_set_type X.boxes.length t
      (box_create style href target title id X).1) := by
  refine tree_step.of_same ?_ ?_ ?_ ?_ ?_
  · rw [length_boxes_box_set_type, length_boxes_box_create]
    omega
  · intro i hi _ _
    have e1 : i ≠ X.boxes.length := by omega
    simp only [box_at_box_set_type, box_at_box_create, e1, false_and, if_false]
    exact same_but_space.refl_space _
  · intro i hi
    have e1 : i ≠ X.boxes.length := by omega
    rw [type_box_set_type, if_neg (fun h => e1 h.1), type_box_create, if_neg e1]
  · intro i hi
    rw [children_box_set_type, children_box_create]
  · intro i hi
    rw [type_box_set_type]
    split
    · exact ht
    · rw [type_box_create]
      split
      · unfold is_float
        decide
      · rw [type_box_at_ge hi]
        exact not_is_float_block

/-- The step `box_add_child(q, c)`, for a box `q` that is the parent, the
current inline container or a box from `lo` on, and is not a float box from
`lo` on. -/
theorem tree_step_box_add_child (lo p : Nat) (ic : Option Nat) (X : content) (q c : Nat)
    (hq1 : lo ≤ q ∨ q = p ∨ ic = some q) (hq2 : q < lo ∨ ¬ is_float (X.box_at q).type)
    (hc : lo ≤ c) : tree_step lo p ic X (box_add_child q c X) := by
  refine ⟨by rw [length_boxes_box_add_child], ?_, ?_, fun i _ => type_box_add_child _ _ _ _, ?_⟩
  · intro i hi hp hic
    have e1 : i ≠ c := by omega
    have e2 : i ≠ q := by
      rcases hq1 with h | h | h
      · omega
      · rw [h]; exact hp
      · intro h2
        rw [← h2] at h
        exact hic h
    simp only [box_at_box_add_child, e1, e2, false_and, if_false]
    exact same_but_space.refl_space _
  · intro i hi
    rw [children_box_add_child]
    split
    · exact ⟨[c], rfl⟩
    · exact ⟨[], (List.append_nil _).symm⟩
  · intro h
    refine h.step_floats ?_ ?_
    · intro i hi hlt
      refine ⟨type_box_add_child _ _ _ _, fun hf => ?_⟩
      have e2 : i ≠ q := by
        rcases hq2 with h2 | h2
        · omega
        · intro h3
          rw [h3] at hf
          exact h2 hf
      rw [children_box_add_child, if_neg (fun h => e2 h.1)]
    · intro i hi
      rw [type_box_add_child, type_box_at_ge hi]
      exact not_is_float_block

/-- The current inline container after `box_inline_container`: the one on
entry, or a new box added to the parent. -/
theorem tree_step_box_inline_container (lo p : Nat) (ic : Option Nat) (X : content)
    (hlo : lo ≤ X.boxes.length) (hp : p < lo ∨ ¬ is_float (X.box_at p).type)
    (hic : valid_container ic X) :
    tree_step lo p ic X (box_inline_container p ic X).1 ∧
    (ic = some (box_inline_container p ic X).2 ∨
      (ic = none ∧ (box_inline_container p ic X).2 = X.boxes.length)) ∧
    (box_inline_container p ic X).2 < (box_inline_container p ic X).1.boxes.length ∧
    ((box_inline_container p ic X).1.box_at (box_inline_container p ic X).2).type =
      BOX_INLINE_CONTAINER := by
  cases ic with
  | some k =>
    obtain ⟨h1, h2⟩ := type_of_is_inline_container (hic k rfl)
    exact ⟨tree_step.refl_step _ _ _ _, Or.inl rfl, h1, h2⟩
  | none =>
    unfold box_inline_container
    simp only [snd_box_create]
    have h1 := tree_step_new_box lo p none X none none none none none BOX_INLINE_CONTAINER
      not_is_float_container hlo
    have hl1 : (box_set_type X.boxes.length BOX_INLINE_CONTAINER
        (box_create none none none none none X).1).boxes.length = X.boxes.length + 1 := by
      rw [length_boxes_box_set_type, length_boxes_box_create]
    have ht1 : ((box_set_type X.boxes.length BOX_INLINE_CONTAINER
        (box_create none none none none none X).1).box_at X.boxes.length).type =
        BOX_INLINE_CONTAINER := by
      rw [type_box_set_type, length_boxes_box_create, if_pos ⟨rfl, Nat.lt_succ_self _⟩]
    have hp1 : ∀ i, i < X.boxes.length → ((box_set_type X.boxes.length BOX_INLINE_CONTAINER
        (box_create none none none none none X).1).box_at i).type = (X.box_at i).type :=
      h1.type
    generalize box_set_type X.boxes.length BOX_INLINE_CONTAINER
        (box_create none none none none none X).1 = s1 at h1 hl1 ht1 hp1 ⊢
    refine ⟨h1.trans_step (tree_step_box_add_child lo p none s1 p X.boxes.length
      (Or.inr (Or.inl rfl)) ?_ hlo), by simp, ?_, ?_⟩
    · rcases hp with hp | hp
      · exact Or.inl hp
      · by_cases hpl : p < X.boxes.length
        · exact Or.inr (by rw [hp1 p hpl]; exact hp)
        · by_cases hpe : p = X.boxes.length
          · exact Or.inr (by rw [hpe, ht1]; exact not_is_float_container)
          · exact Or.inr (by rw [type_box_at_ge (by omega)]; exact not_is_float_block)
    · rw [length_boxes_box_add_child]
      omega
    · rw [type_box_add_child]
      exact ht1

theorem same_but_space_set (b : box) (v : Bool) : same_but_space b { b with space := v } := rfl

/-- A new box of kind `t`, not a float box, with the assignments `g` to
members other than the kind, added to the box `q`, which is the parent, the
current inline container or a box from `lo` on and not a float box. -/
theorem tree_step_new_child (lo p : Nat) (ic : Option Nat) (X : content) (style : Option Nat)
    (href : Option cstr) (target : Option frame_target) (title id : Option cstr)
    (t : box_type) (g : box → box) (q : Nat) (ht : ¬ is_float t)
    (hgt : ∀ b : box, (g b).type = b.type) (hgc : ∀ b : box, (g b).children = b.children)
    (hlo : lo ≤ X.boxes.length)
    (hq1 : lo ≤ q ∨ q = p ∨ ic = some q) (hq2 : q < lo ∨ ¬ is_float (X.box_at q).type)
    (hq : q < X.boxes.length) :
    tree_step lo p ic X
      (box_add_child q X.boxes.length
        ((box_set_type X.boxes.length t
          (box_create style href target title id X).1).modify_box X.boxes.length g)) ∧
    ((box_add_child q X.boxes.length
        ((box_set_type X.boxes.length t
          (box_create style href target title id X).1).modify_box X.boxes.length g)).box_at
        q).children ≠ [] ∧
    (box_add_child q X.boxes.length
        ((box_set_type X.boxes.length t
          (box_create style href target title id X).1).modify_box X.boxes.length g)).boxes.length
      = X.boxes.length + 1 := by
  have h1 := tree_step_new_box lo p ic X style href target title id t ht hlo
  have hl1 : (box_set_type X.boxes.length t
      (box_create style href target title id X).1).boxes.length = X.boxes.length + 1 := by
    rw [length_boxes_box_set_type, length_boxes_box_create]
  generalize box_set_type X.boxes.length t (box_create style href target title id X).1 = s1
    at h1 hl1 ⊢
  have h2 := tree_step_modify_box lo p ic s1 X.boxes.length g hgt hgc (Or.inl hlo)
  have hl2 : (s1.modify_box X.boxes.length g).boxes.length = X.boxes.length + 1 := by
    rw [length_boxes_modify_box, hl1]
  have h12 := h1.trans_step h2
  generalize s1.modify_box X.boxes.length g = s2 at h2 hl2 h12 ⊢
  refine ⟨h12.trans_step (tree_step_box_add_child lo p ic s2 q X.boxes.length hq1 ?_ hlo), ?_, ?_⟩
  · rcases hq2 with h | h
    · exact Or.inl h
    · exact Or.inr (by rw [h12.type q hq]; exact h)
  · rw [children_box_add_child, if_pos ⟨rfl, by omega⟩]
    exact List.append_ne_nil_of_right_ne_nil _ (List.cons_ne_nil _ _)
  · rw [length_boxes_box_add_child, hl2]

/-- A new box added to the current inline container `box_inline_container`
returns: the steps, and the container has a child. -/
theorem tree_step_container_child (lo p : Nat) (ic : Option Nat) (X : content)
    (style : Option Nat) (href : Option cstr) (target : Option frame_target)
    (title id : Option cstr) (t : box_type) (g : box → box) (ht : ¬ is_float t)
    (hgt : ∀ b : box, (g b).type = b.type) (hgc : ∀ b : box, (g b).children = b.children)
    (hlo : lo ≤ X.boxes.length) (hp : p < lo ∨ ¬ is_float (X.box_at p).type)
    (hic : valid_container ic X) :
    tree_step lo p ic X
      (box_add_child (box_inline_container p ic X).2 (box_inline_container p ic X).1.boxes.length
        ((box_set_type (box_inline_container p ic X).1.boxes.length t
          (box_create style href target title id (box_inline_container p ic X).1).1).modify_box
            (box_inline_container p ic X).1.boxes.length g)) ∧
    ((box_add_child (box_inline_container p ic X).2 (box_inline_container p ic X).1.boxes.length
        ((box_set_type (box_inline_container p ic X).1.boxes.length t
          (box_create style href target title id (box_inline_container p ic X).1).1).modify_box
            (box_inline_container p ic X).1.boxes.length g)).box_at
        (box_inline_container p ic X).2).children ≠ [] ∧
    (ic = some (box_inline_container p ic X).2 ∨ lo ≤ (box_inline_container p ic X).2) ∧
    valid_container (some (box_inline_container p ic X).2)
      (box_add_child (box_inline_container p ic X).2 (box_inline_container p ic X).1.boxes.length
        ((box_set_type (box_inline_container p ic X).1.boxes.length t
          (box_create style href target title id (box_inline_container p ic X).1).1).modify_box
            (box_inline_container p ic X).1.boxes.length g)) ∧
    X.boxes.length ≤ (box_inline_container p ic X).1.boxes.length := by
  obtain ⟨h1, hc1, hl1, ht1⟩ := tree_step_box_inline_container lo p ic X hlo hp hic
  generalize (box_inline_container p ic X).1 = s1 at h1 hc1 hl1 ht1 ⊢
  generalize (box_inline_container p ic X).2 = c at hc1 hl1 ht1 ⊢
  have hc : ic = some c ∨ lo ≤ c := by
    rcases hc1 with h | h
    · exact Or.inl h
    · exact Or.inr (by rw [h.2]; exact hlo)
  obtain ⟨h2, hk2, hl2⟩ := tree_step_new_child lo p ic s1 style href target title id t g c ht
    hgt hgc (Nat.le_trans hlo h1.len)
    (by rcases hc with h | h
        · exact Or.inr (Or.inr h)
        · exact Or.inl h)
    (Or.inr (by rw [ht1]; exact not_is_float_container)) hl1
  refine ⟨h1.trans_step h2, hk2, hc, ?_, h1.len⟩
  exact h2.keeps_container (valid_container_some (is_inline_container_of_type hl1 ht1))

theorem tree_frame_box_construct_text_pre (lo parent_style p : Nat) (href : Option cstr)
    (target : Option frame_target) (title : Option cstr) (lines : List (cstr × Bool)) :
    ∀ (ic : Option Nat) (X : content), lo ≤ X.boxes.length → p < X.boxes.length →
      (p < lo ∨ ¬ is_float (X.box_at p).type) → valid_container ic X →
      tree_frame lo p ic
        (box_construct_text_pre parent_style p href target title lines ic X).2 X
        (box_construct_text_pre parent_style p href target title lines ic X).1 := by
  induction lines with
  | nil =>
    intro ic X _ _ _ _
    exact tree_frame.refl_tree_frame _ _ _ _
  | cons l rest ih =>
    intro ic X hlo hpl hp hic
    obtain ⟨line, terminated⟩ := l
    unfold box_construct_text_pre
    simp only [snd_box_create]
    obtain ⟨h1, hk1, hc1, hv1, hl1⟩ := tree_step_container_child lo p ic X
      (some parent_style) href target title none BOX_TEXT
      (fun b => { b with text := some line, length := line.length }) not_is_float_text
      (fun _ => rfl) (fun _ => rfl) hlo hp hic
    generalize box_add_child (box_inline_container p ic X).2
      (box_inline_container p ic X).1.boxes.length
        ((box_set_type (box_inline_container p ic X).1.boxes.length BOX_TEXT
          (box_create (some parent_style) href target title none
            (box_inline_container p ic X).1).1).modify_box
              (box_inline_container p ic X).1.boxes.length
              (fun b => { b with text := some line, length := line.length })) = s2
      at h1 hk1 hv1 ⊢
    generalize (box_inline_container p ic X).2 = c at hk1 hc1 hv1 ⊢
    have hl12 : X.boxes.length ≤ s2.boxes.length := h1.len
    have hf1 : tree_frame lo p ic (if terminated = true then none else some c) X s2 := by
      split
      · exact h1.to_frame_none
      · refine ⟨h1, ?_, ?_⟩
        · intro k hk
          cases hk
          exact hc1
        · intro _ k hk
          cases hk
          exact hk1
    have hv : valid_container (if terminated = true then none else some c) s2 := by
      split
      · exact valid_container_none _
      · exact hv1
    have hp2 : p < lo ∨ ¬ is_float (s2.box_at p).type := by
      rcases hp with h | h
      · exact Or.inl h
      · exact Or.inr (by rw [h1.type p hpl]; exact h)
    exact hf1.trans_tree_frame (ih _ s2 (by omega) (by omega) hp2 hv)

/-- `box_construct_text` respects the frame of the tree. -/
theorem tree_frame_box_construct_text {n : xmlNode} {parent_style p : Nat} {ic : Option Nat}
    {href : Option cstr} {target : Option frame_target} {title : Option cstr}
    {X Y : content} {ic' : Option Nat} (lo : Nat)
    (h : box_construct_text n parent_style p ic href target title X = some (Y, ic'))
    (hlo : lo ≤ X.boxes.length) (hpl : p < X.boxes.length)
    (hp : p < lo ∨ ¬ is_float (X.box_at p).type) (hic : valid_container ic X) :
    tree_frame lo p ic ic' X Y := by
  unfold box_construct_text at h
  simp only at h
  split at h
  · split at h
    · split at h
      · split at h
        · cases h
          rename_i last _
          exact (tree_step_modify_box lo p _ X last (fun b => { b with space := true })
            (fun _ => rfl) (fun _ => rfl)
            (Or.inr (Or.inr (Or.inr (fun b => same_but_space_set b true))))).to_frame
        · cases h
          exact tree_frame.refl_tree_frame _ _ _ _
      · cases h
        exact tree_frame.refl_tree_frame _ _ _ _
    · simp only [snd_box_create] at h
      generalize (if (decide (List.length (squash_whitespace n.content) > 1) && _) = true
        then _ else _) = len at h
      generalize (if (X.style_at parent_style).text_transform ≠ CSS_TEXT_TRANSFORM_NONE
        then _ else _) = text at h
      generalize hg : (fun b : box => { b with text := some text, length := len, space := (decide (List.length (squash_whitespace n.content) > 1) && (squash_whitespace n.content).getLast? == some ' ') || b.space }) = g at h
      obtain ⟨h1, hk1, hc1, hv1, hl1⟩ := tree_step_container_child lo p ic X
        (some parent_style) href target title none BOX_TEXT g not_is_float_text
        (fun _ => by rw [← hg]) (fun _ => by rw [← hg]) hlo hp hic
      generalize box_add_child (box_inline_container p ic X).2
        (box_inline_container p ic X).1.boxes.length
          ((box_set_type (box_inline_container p ic X).1.boxes.length BOX_TEXT
            (box_create (some parent_style) href target title none
              (box_inline_container p ic X).1).1).modify_box
                (box_inline_container p ic X).1.boxes.length g) = s2
        at h h1 hk1 hv1
      generalize (box_inline_container p ic X).1 = s1 at h hl1
      generalize (box_inline_container p ic X).2 = c at h hk1 hc1 hv1
      have hfin : ∀ Z : content, tree_step lo p ic s2 Z → tree_frame lo p ic (some c) X Z := by
        intro Z hZ
        refine ⟨h1.trans_step hZ, ?_, ?_⟩
        · intro k hk
          cases hk
          exact hc1
        · intro _ k hk
          cases hk
          exact hZ.has_child hk1
      split at h
      · have h3 := tree_step_modify_box lo p ic s2 s1.boxes.length
          (fun b => { b with length := len - 1, text := some ((text.drop 1).take (len - 1) ++ text.drop (len - 1)) })
          (fun _ => rfl) (fun _ => rfl) (Or.inl (by omega))
        generalize s2.modify_box s1.boxes.length _ = s3 at h h3
        split at h
        · cases h
          rename_i prev _
          exact hfin _ (h3.trans_step (tree_step_modify_box lo p ic s3 prev
            (fun b => { b with space := true }) (fun _ => rfl) (fun _ => rfl)
            (Or.inr (Or.inr (Or.inr (fun b => same_but_space_set b true))))))
        · cases h
          exact hfin _ h3
      · cases h
        exact hfin _ (tree_step.refl_step _ _ _ _)
  · generalize box_construct_text_lines _ [] = lines at h
    have := tree_frame_box_construct_text_pre lo parent_style p href target title lines ic X
      hlo hpl hp hic
    generalize box_construct_text_pre parent_style p href target title lines ic X = r
      at h this
    cases h
    exact this

theorem not_is_float_box_map (d : css_display) : ¬ is_float (box_map d) := by
  unfold is_float
  cases d <;> decide

theorem not_is_float_own_type {t t' : box_type} (h : own_type t t') (ht : ¬ is_float t) :
    ¬ is_float t' := by
  rcases h with h | h | h | h
  · rw [h]; exact ht
  · rw [h]; unfold is_float; decide
  · rw [h]; unfold is_float; decide
  · rw [h]; unfold is_float; decide

/-- The box of the element after the first part of `box_construct_element`:
the first box created, of the kind that `box_map` gives. -/
theorem box_at_box_construct_element_box (n : xmlNode) (sv : css_style) (href : Option cstr)
    (target : Option frame_target) (title : Option cstr) (X : content) :
    (box_construct_element_box n sv href target title X).1.boxes.length = X.boxes.length + 1 ∧
    (∀ i, i < X.boxes.length →
      (box_construct_element_box n sv href target title X).1.box_at i = X.box_at i) ∧
    ((box_construct_element_box n sv href target title X).1.box_at X.boxes.length).type =
      box_map sv.display ∧
    ((box_construct_element_box n sv href target title X).1.box_at X.boxes.length).children =
      [] ∧
    (box_construct_element_box n sv href target title X).2.box = X.boxes.length ∧
    (box_construct_element_box n sv href target title X).2.style = X.styles.length := by
  obtain ⟨x, _, hxc, _, hxt, heq, hb, hs⟩ := box_construct_element_box_eq n sv href target title X
  rw [heq]
  refine ⟨by simp, ?_, ?_, ?_, hb, hs⟩
  · intro i hi
    unfold content.box_at
    simp only [List.getElem?_append_left hi]
  · unfold content.box_at
    simp only [getElem?_append_singleton, if_true, Option.getD_some]
    exact hxt
  · unfold content.box_at
    simp only [getElem?_append_singleton, if_true, Option.getD_some]
    exact hxc

theorem handler_tree_box_construct_element_special {E : Env} {conv : children_conversion}
    {n : xmlNode} {l l' : element_locals} {st st' : content} (hconv : conv_tree conv)
    (h : box_construct_element_special E conv n l st = some (st', l'))
    (hb : l.box < st.boxes.length) :
    handler_tree l.box st st' ∧ l'.box = l.box ∧ l'.style = l.style := by
  unfold box_construct_element_special at h
  split at h
  · split at h
    · exact Option.noConfusion h
    · rename_i s2 cc hs2
      cases h
      exact ⟨handler_tree_box_special hconv hs2 hb, rfl, rfl⟩
  · cases h
    exact ⟨handler_tree.refl_tree hb, rfl, rfl⟩

/-- The first two parts of `box_construct_element`, the creation of the box
and the special convert function: the steps respect the frame of the tree, and
the box is the first box created, not a float box. -/
theorem tree_step_box_construct_element_special {E : Env} {conv : children_conversion}
    {n : xmlNode} {href : Option cstr} {target : Option frame_target} {title : Option cstr}
    {X st2 : content} {sv : css_style} {l2 : element_locals} (lo p : Nat) (ic : Option Nat)
    (hct : conv_tree conv)
    (hspecial : box_construct_element_special E conv n
      (box_construct_element_box n sv href target title X).2
      (box_construct_element_box n sv href target title X).1 = some (st2, l2))
    (hlo : lo ≤ X.boxes.length) :
    tree_step lo p ic X st2 ∧ l2.box = X.boxes.length ∧ l2.style = X.styles.length ∧
    X.boxes.length < st2.boxes.length ∧
    own_type (box_map sv.display) (st2.box_at X.boxes.length).type := by
  obtain ⟨hl1, hb1, ht1, -, hlb, hls⟩ := box_at_box_construct_element_box n sv href target title X
  generalize box_construct_element_box n sv href target title X = r1
    at hspecial hl1 hb1 ht1 hlb hls
  obtain ⟨s1, l1⟩ := r1
  simp only at hspecial hl1 hb1 ht1 hlb hls
  obtain ⟨hh, hlb2, hls2⟩ := handler_tree_box_construct_element_special hct hspecial (by omega)
  rw [hlb] at hh
  have hlen := hh.len
  have hown : own_type (box_map sv.display) (st2.box_at X.boxes.length).type := by
    have := hh.own
    rw [ht1] at this
    exact this
  have hsame : ∀ i, i < X.boxes.length → same_but_space (X.box_at i) (st2.box_at i) := by
    intro i hi
    have := hh.old i (by omega) (by omega)
    rw [hb1 i hi] at this
    exact this
  refine ⟨⟨by omega, fun i hi _ _ => hsame i (by omega), ?_, fun i hi => (hsame i hi).type_space,
    ?_⟩, hlb2.trans hlb, hls2.trans hls, by omega, hown⟩
  · intro i hi
    exact ⟨[], by rw [(hsame i hi).children_space, List.append_nil]⟩
  · intro hf i hi hfl
    by_cases h1 : i < X.boxes.length
    · rw [(hsame i h1).type_space] at hfl
      obtain ⟨c, hc1, hc2, hc3, hc4⟩ := hf i hi hfl
      refine ⟨c, hc1, hc2, by rw [(hsame i h1).children_space]; exact hc3, ?_⟩
      rw [(hsame c (by omega)).type_space]
      exact hc4
    · by_cases h2 : i = X.boxes.length
      · rw [h2] at hfl
        exact absurd hfl (not_is_float_own_type hown (not_is_float_box_map _))
      · obtain ⟨c, hc1, hc2, hc3, hc4⟩ := hh.new i (by omega) hfl
        exact ⟨c, by omega, hc2, hc3, hc4⟩

/-- The container for the first inline in a block, in
`box_construct_element`: the steps respect the frame of the tree; the current
inline container is the one on entry, or a new box if there was none and the
box is inline, line-break or inline-block or the style floats. -/
theorem tree_step_box_construct_element_container (lo p : Nat) (ic : Option Nat)
    (l : element_locals) (st : content) (hlo : lo ≤ st.boxes.length)
    (hp : p < lo ∨ ¬ is_float (st.box_at p).type) (hic : valid_container ic st) :
    tree_step lo p ic st (box_construct_element_container l p ic st).1 ∧
    valid_container (box_construct_element_container l p ic st).2
      (box_construct_element_container l p ic st).1 ∧
    (∀ k, (box_construct_element_container l p ic st).2 = some k → ic = some k ∨ lo ≤ k) ∧
    (((st.box_at l.box).type = BOX_INLINE ∨ (st.box_at l.box).type = BOX_BR ∨
        (st.box_at l.box).type = BOX_INLINE_BLOCK ∨
        (st.style_at l.style).float_ = CSS_FLOAT_LEFT ∨
        (st.style_at l.style).float_ = CSS_FLOAT_RIGHT) →
      ∃ k, (box_construct_element_container l p ic st).2 = some k) ∧
    ((box_construct_element_container l p ic st).2 = ic ∨
      (st.box_at l.box).type = BOX_INLINE ∨ (st.box_at l.box).type = BOX_BR ∨
        (st.box_at l.box).type = BOX_INLINE_BLOCK ∨
        (st.style_at l.style).float_ = CSS_FLOAT_LEFT ∨
        (st.style_at l.style).float_ = CSS_FLOAT_RIGHT) := by
  unfold box_construct_element_container
  simp only
  split
  · rename_i hcond
    have hnone : ic = none := by
      cases ic with
      | none => rfl
      | some k => simp at hcond
    subst hnone
    obtain ⟨h1, h2, h3, h4⟩ := tree_step_box_inline_container lo p none st hlo hp
      (valid_container_none _)
    refine ⟨h1, valid_container_some (is_inline_container_of_type h3 h4), ?_,
      fun _ => ⟨_, rfl⟩, Or.inr ?_⟩
    · intro k hk
      cases hk
      rcases h2 with h | h
      · exact Option.noConfusion h
      · exact Or.inr (by rw [h.2]; exact hlo)
    · simp only [Option.isNone_none, Bool.true_and, Bool.or_eq_true, beq_iff_eq] at hcond
      tauto
  · rename_i hcond
    refine ⟨tree_step.refl_step _ _ _ _, hic, fun k hk => Or.inl hk, ?_, Or.inl rfl⟩
    intro hl
    cases ic with
    | some c => exact ⟨c, rfl⟩
    | none =>
      exfalso
      apply hcond
      simp only [Option.isNone_none, Bool.true_and, Bool.or_eq_true, beq_iff_eq]
      tauto

/-- The step `box_add_child(*inline_container, box)` for a box from `lo`
on: the container, if any, has a child after it. -/
theorem tree_step_box_add_child_inline (lo p : Nat) (ic ic1 : Option Nat) (b : Nat)
    (s : content) (h1 : ∀ k, ic1 = some k → ic = some k ∨ lo ≤ k)
    (hv : valid_container ic1 s) (hb : lo ≤ b) :
    tree_step lo p ic s (box_add_child_inline ic1 b s) ∧
    container_has_child ic1 (box_add_child_inline ic1 b s) := by
  unfold box_add_child_inline
  cases ic1 with
  | none => exact ⟨tree_step.refl_step _ _ _ _, fun _ hk => Option.noConfusion hk⟩
  | some k =>
    obtain ⟨hk1, hk2⟩ := type_of_is_inline_container (hv k rfl)
    refine ⟨tree_step_box_add_child lo p ic s k b ?_
      (Or.inr (by rw [hk2]; exact not_is_float_container)) hb, ?_⟩
    · rcases h1 k rfl with h | h
      · exact Or.inr (Or.inr h)
      · exact Or.inl h
    · intro j hj
      cases hj
      simp only
      rw [children_box_add_child, if_pos ⟨rfl, hk1⟩]
      exact List.append_ne_nil_of_right_ne_nil _ (List.cons_ne_nil _ _)

theorem not_is_float_inline_end : ¬ is_float BOX_INLINE_END := by
  unfold is_float
  decide

/-- The inline-end box of an inline box from `lo` on, whose parent is the
current inline container on entry or a box from `lo` on that is not a float
box: the steps respect the frame of the tree. -/
theorem tree_step_box_construct_element_inline_end (lo p : Nat) (ic ic4 : Option Nat)
    (l : element_locals) (S : content) (hlo : lo ≤ S.boxes.length) (hb : lo ≤ l.box)
    (hbl : l.box < S.boxes.length)
    (h4 : ∀ k, ic4 = some k → ic = some k ∨ lo ≤ k) (hv4 : valid_container ic4 S)
    (hpar : ∀ q, (S.box_at l.box).parent = some q →
      (ic = some q ∨ lo ≤ q) ∧ ¬ is_float (S.box_at q).type ∧ q < S.boxes.length) :
    tree_step lo p ic S (box_construct_element_inline_end l ic4 S) := by
  unfold box_construct_element_inline_end
  simp only [snd_box_create]
  have h1 := tree_step_new_box lo p ic S (some l.style) l.href l.target l.title l.id
    BOX_INLINE_END not_is_float_inline_end hlo
  have hl1 : (box_set_type S.boxes.length BOX_INLINE_END
      (box_create (some l.style) l.href l.target l.title l.id S).1).boxes.length
      = S.boxes.length + 1 := by
    rw [length_boxes_box_set_type, length_boxes_box_create]
  have hpar1 : ((box_set_type S.boxes.length BOX_INLINE_END
      (box_create (some l.style) l.href l.target l.title l.id S).1).box_at l.box).parent =
      (S.box_at l.box).parent := by
    rw [parent_box_set_type, parent_box_create]
  generalize box_set_type S.boxes.length BOX_INLINE_END
      (box_create (some l.style) l.href l.target l.title l.id S).1 = s1 at h1 hl1 hpar1 ⊢
  have hfin : ∀ s2 : content, tree_step lo p ic s1 s2 →
      tree_step lo p ic S
        ((s2.modify_box l.box (fun b => { b with inline_end := some S.boxes.length })).modify_box
          S.boxes.length (fun b => { b with inline_end := some l.box })) := by
    intro s2 h2
    exact ((h1.trans_step h2).trans_step
      (tree_step_modify_box lo p ic s2 l.box
        (fun b => { b with inline_end := some S.boxes.length }) (fun _ => rfl) (fun _ => rfl)
        (Or.inl hb))).trans_step
      (tree_step_modify_box lo p ic _ S.boxes.length
        (fun b => { b with inline_end := some l.box }) (fun _ => rfl) (fun _ => rfl)
        (Or.inl hlo))
  cases ic4 with
  | some k =>
    simp only
    refine hfin _ ?_
    obtain ⟨hk1, hk2⟩ := type_of_is_inline_container (hv4 k rfl)
    refine tree_step_box_add_child lo p ic s1 k S.boxes.length ?_
      (Or.inr (by rw [h1.type k hk1, hk2]; exact not_is_float_container)) hlo
    rcases h4 k rfl with h | h
    · exact Or.inr (Or.inr h)
    · exact Or.inl h
  | none =>
    simp only
    split
    · rename_i q hq
      refine hfin _ ?_
      rw [hpar1] at hq
      obtain ⟨hq1, hq2, hq3⟩ := hpar q hq
      refine tree_step_box_add_child lo p ic s1 q S.boxes.length ?_
        (Or.inr (by rw [h1.type q hq3]; exact hq2)) hlo
      rcases hq1 with h | h
      · exact Or.inr (Or.inr h)
      · exact Or.inl h
    · exact hfin _ (tree_step.refl_step _ _ _ _)

/-- The float box that `box_construct_element` inserts between the current
inline container `k` and a box `b` from `lo` on, of kind block or table: the
steps respect the frame of the tree, the float box having the box `b` as its
one child. -/
theorem tree_step_float_wrapper (lo p : Nat) (ic : Option Nat) (X : content)
    (style : Option Nat) (href : Option cstr) (target : Option frame_target)
    (title id : Option cstr) (t : box_type) (k b : Nat)
    (hlo : lo ≤ X.boxes.length) (hb : lo ≤ b) (hbl : b < X.boxes.length)
    (hbt : (X.box_at b).type = BOX_BLOCK ∨ (X.box_at b).type = BOX_TABLE)
    (hk1 : ic = some k ∨ lo ≤ k) (hk2 : ¬ is_float (X.box_at k).type)
    (hkl : k < X.boxes.length) :
    tree_step lo p ic X
      (box_add_child X.boxes.length b (box_add_child k X.boxes.length
        (box_set_type X.boxes.length t (box_create style href target title id X).1))) ∧
    ((box_add_child X.boxes.length b (box_add_child k X.boxes.length
        (box_set_type X.boxes.length t (box_create style href target title id X).1))).box_at
      k).children ≠ [] := by
  have hty : ∀ i, i ≠ X.boxes.length →
      ((box_add_child X.boxes.length b (box_add_child k X.boxes.length
        (box_set_type X.boxes.length t (box_create style href target title id X).1))).box_at
        i).type = (X.box_at i).type := by
    intro i e1
    rw [type_box_add_child, type_box_add_child, type_box_set_type, if_neg (fun h => e1 h.1),
      type_box_create, if_neg e1]
  have hch : ∀ i, i ≠ X.boxes.length → i ≠ k →
      ((box_add_child X.boxes.length b (box_add_child k X.boxes.length
        (box_set_type X.boxes.length t (box_create style href target title id X).1))).box_at
        i).children = (X.box_at i).children := by
    intro i e1 e2
    rw [children_box_add_child, if_neg (fun h => e1 h.1), children_box_add_child,
      if_neg (fun h => e2 h.1), children_box_set_type, children_box_create]
  have e3 : k ≠ X.boxes.length := by omega
  have hck : ((box_add_child X.boxes.length b (box_add_child k X.boxes.length
        (box_set_type X.boxes.length t (box_create style href target title id X).1))).box_at
        k).children = (X.box_at k).children ++ [X.boxes.length] := by
    rw [children_box_add_child, if_neg (fun h => e3 h.1), children_box_add_child,
      length_boxes_box_set_type, length_boxes_box_create, if_pos ⟨rfl, by omega⟩,
      children_box_set_type, children_box_create]
  have hcw : ((box_add_child X.boxes.length b (box_add_child k X.boxes.length
        (box_set_type X.boxes.length t (box_create style href target title id X).1))).box_at
        X.boxes.length).children = [b] := by
    rw [children_box_add_child, length_boxes_box_add_child, length_boxes_box_set_type,
      length_boxes_box_create, if_pos ⟨rfl, by omega⟩, children_box_add_child,
      if_neg (fun h => e3 h.1.symm), children_box_set_type, children_box_create,
      children_box_at_ge (Nat.le_refl _)]
    rfl
  refine ⟨⟨?_, ?_, ?_, fun i hi => hty i (by omega), ?_⟩, ?_⟩
  · rw [length_boxes_box_add_child, length_boxes_box_add_child, length_boxes_box_set_type,
      length_boxes_box_create]
    omega
  · intro i hi hp hic
    have e1 : i ≠ X.boxes.length := by omega
    have e2 : i ≠ k := by
      rcases hk1 with h | h
      · intro h2
        rw [← h2] at h
        exact hic h
      · omega
    have e4 : i ≠ b := by omega
    simp only [box_at_box_add_child, box_at_box_set_type, box_at_box_create, e1, e2, e4,
      false_and, if_false]
    exact same_but_space.refl_space _
  · intro i hi
    by_cases e2 : i = k
    · rw [e2, hck]
      exact ⟨_, rfl⟩
    · rw [hch i (by omega) e2]
      exact ⟨[], (List.append_nil _).symm⟩
  · intro hf i hi hfl
    by_cases h1 : i < X.boxes.length
    · rw [hty i (by omega)] at hfl
      obtain ⟨c, hc1, hc2, hc3, hc4⟩ := hf i hi hfl
      have e2 : i ≠ k := by
        intro h
        rw [h] at hfl
        exact hk2 hfl
      refine ⟨c, hc1, hc2, by rw [hch i (by omega) e2]; exact hc3, ?_⟩
      rw [hty c (by omega)]
      exact hc4
    · by_cases h2 : i = X.boxes.length
      · rw [h2]
        exact ⟨b, hb, hbl, hcw, by rw [hty b (by omega)]; exact hbt⟩
      · rw [hty i h2, type_box_at_ge (by omega)] at hfl
        exact absurd hfl not_is_float_block
  · rw [hck]
    exact List.append_ne_nil_of_right_ne_nil _ (List.cons_ne_nil _ _)

/-- In `box_construct_element`, the float box for a box that is not inline or
inline-block: the forcing of those kinds to block does nothing. -/
theorem box_construct_element_float_eq (l : element_locals) (p : Nat) (ic : Option Nat)
    (s : content) (ht1 : (s.box_at l.box).type ≠ BOX_INLINE)
    (ht3 : (s.box_at l.box).type ≠ BOX_INLINE_BLOCK) (hbl : l.box < s.boxes.length) :
    box_construct_element_float l p ic s =
      if (s.style_at l.style).float_ = CSS_FLOAT_LEFT ∨
          (s.style_at l.style).float_ = CSS_FLOAT_RIGHT then
        (box_add_child_inline ic s.boxes.length
          (box_set_type s.boxes.length
            (if (s.style_at l.style).float_ = CSS_FLOAT_LEFT then BOX_FLOAT_LEFT
             else BOX_FLOAT_RIGHT)
            (box_create none l.href l.target l.title none s).1), s.boxes.length)
      else (s, p) := by
  unfold box_construct_element_float
  simp only [snd_box_create]
  split
  · have e1 : l.box ≠ s.boxes.length := by omega
    have hty : ((box_add_child_inline ic s.boxes.length
          (box_set_type s.boxes.length
            (if (s.style_at l.style).float_ = CSS_FLOAT_LEFT then BOX_FLOAT_LEFT
             else BOX_FLOAT_RIGHT)
            (box_create none l.href l.target l.title none s).1)).box_at l.box).type =
        (s.box_at l.box).type := by
      unfold box_add_child_inline
      cases ic with
      | some k =>
        simp only
        rw [type_box_add_child, type_box_set_type, if_neg (fun h => e1 h.1), type_box_create,
          if_neg e1]
      | none =>
        simp only
        rw [type_box_set_type, if_neg (fun h => e1 h.1), type_box_create, if_neg e1]
    rw [if_neg]
    rw [hty]
    intro h
    rcases h with h | h
    · exact ht1 h
    · exact ht3 h
  · rfl

/-- The conversion of the children of a box from `lo` on that is not a float
box, if they are converted: the steps respect the frame of the tree. -/
theorem tree_step_conv_child {conv : children_conversion} (lo p : Nat) (ic : Option Nat)
    (cc : Bool) (ps b : Nat) (hr : Option cstr) (tg : Option frame_target) (ti : Option cstr)
    (S : content) (R : content × Option Nat) (hct : conv_tree conv)
    (hR : (if cc = true then conv ps b none hr tg ti S else some (S, none)) = some R)
    (hlo : lo ≤ S.boxes.length) (hb : lo ≤ b) (hbl : b < S.boxes.length)
    (hbnf : ¬ is_float (S.box_at b).type) : tree_step lo p ic S R.1 := by
  split at hR
  · obtain ⟨S', x⟩ := R
    exact (hct lo ps b none hr tg ti S S' x hR hlo hbl (Or.inr hbnf)
      (valid_container_none _)).step.of_child hb
  · cases hR
    exact tree_step.refl_step _ _ _ _

/-- In `box_construct_element`, the case of an inline or line-break box from
`lo` on: the steps respect the frame of the tree, and the current inline
container on exit has a child. -/
theorem tree_step_box_construct_element_inline {conv : children_conversion} {n : xmlNode}
    {l : element_locals} {p : Nat} {ic ic1 : Option Nat} {s Y : content} {ic' : Option Nat}
    (lo : Nat) (hct : conv_tree conv) (hco : conv_ok conv)
    (h : box_construct_element_inline conv n l p ic1 s = some (Y, ic'))
    (hlo : lo ≤ s.boxes.length) (hpl : p < s.boxes.length)
    (hp : p < lo ∨ ¬ is_float (s.box_at p).type)
    (hb : lo ≤ l.box) (hbl : l.box < s.boxes.length)
    (h1 : ∀ k, ic1 = some k → ic = some k ∨ lo ≤ k) (hv : valid_container ic1 s)
    (hsome : ∃ k, ic1 = some k) :
    tree_step lo p ic s Y ∧ (∀ k, ic' = some k → ic = some k ∨ lo ≤ k) ∧
    container_has_child ic' Y := by
  unfold box_construct_element_inline at h
  simp only at h
  obtain ⟨k, hk⟩ := hsome
  subst hk
  obtain ⟨ha, hca⟩ := tree_step_box_add_child_inline lo p ic (some k) l.box s h1 hv hb
  have hva : valid_container (some k) (box_add_child_inline (some k) l.box s) :=
    ha.keeps_container hv
  have hpar : ((box_add_child_inline (some k) l.box s).box_at l.box).parent = some k := by
    unfold box_add_child_inline
    simp only
    rw [parent_box_add_child, if_pos ⟨rfl, hbl⟩]
  generalize box_add_child_inline (some k) l.box s = S at h ha hca hva hpar
  have hlS := ha.len
  split at h
  · split at h
    · exact Option.noConfusion h
    · rename_i S' ic4 hs
      simp only [Option.some.injEq, Prod.mk.injEq] at h
      obtain ⟨hY, hic'⟩ := h
      subst hY hic'
      obtain ⟨hg, hv4⟩ := hco _ _ _ _ _ _ _ _ _ hs hva
      have hpS : p < lo ∨ ¬ is_float (S.box_at p).type := by
        rcases hp with hp | hp
        · exact Or.inl hp
        · exact Or.inr (by rw [ha.type p hpl]; exact hp)
      have hf := hct lo _ p (some k) _ _ _ S S' ic4 hs (by omega) (by omega) hpS hva
      have hlS' := hf.step.len
      have hcur4 : ∀ j, ic4 = some j → ic = some j ∨ lo ≤ j := by
        intro j hj
        rcases hf.cur j hj with h | h
        · cases h
          exact h1 k rfl
        · exact Or.inr h
      obtain ⟨hk1, hk2⟩ := type_of_is_inline_container (hva k rfl)
      have hparS' : (S'.box_at l.box).parent = some k := by
        rw [(hg.box_at_grows (by omega : l.box < S.boxes.length)).2.1]
        exact hpar
      have he := tree_step_box_construct_element_inline_end lo p ic ic4 l S' (by omega) hb
        (by omega) hcur4 hv4 (by
          intro q hq
          rw [hparS'] at hq
          cases hq
          exact ⟨h1 k rfl, by rw [hf.step.type k hk1, hk2]; exact not_is_float_container,
            by omega⟩)
      refine ⟨(ha.trans_step (hf.step.exempt_step h1)).trans_step he, hcur4, ?_⟩
      intro j hj
      exact he.has_child (hf.child hca j hj)
  · cases h
    exact ⟨ha, h1, hca⟩

/-- In `box_construct_element`, the case of an inline-block box from `lo` on:
the steps respect the frame of the tree, and the current inline container has a
child. -/
theorem tree_step_box_construct_element_inline_block {conv : children_conversion}
    {l : element_locals} {ic ic1 : Option Nat} {s Y : content} {ic' : Option Nat}
    (lo p : Nat) (hct : conv_tree conv)
    (h : box_construct_element_inline_block conv l ic1 s = some (Y, ic'))
    (hlo : lo ≤ s.boxes.length) (hb : lo ≤ l.box) (hbl : l.box < s.boxes.length)
    (hbnf : ¬ is_float (s.box_at l.box).type)
    (h1 : ∀ k, ic1 = some k → ic = some k ∨ lo ≤ k) (hv : valid_container ic1 s) :
    tree_step lo p ic s Y ∧ ic' = ic1 ∧ container_has_child ic1 Y := by
  unfold box_construct_element_inline_block at h
  simp only at h
  obtain ⟨ha, hca⟩ := tree_step_box_add_child_inline lo p ic ic1 l.box s h1 hv hb
  generalize box_add_child_inline ic1 l.box s = S at h ha hca
  have hlS := ha.len
  split at h
  · exact Option.noConfusion h
  · rename_i S' x hs
    have hc := tree_step_conv_child lo p ic _ _ l.box _ _ _ S (S', x) hct hs (by omega) hb
      (by omega) (by rw [ha.type _ hbl]; exact hbnf)
    cases h
    exact ⟨ha.trans_step hc, rfl, fun j hj => hc.has_child (hca j hj)⟩

/-- In `box_construct_element`, the case of a box from `lo` on that is not
inline, line-break or inline-block, and of kind block or table if the style
floats: the steps respect the frame of the tree; the current inline container
on exit is none or the one on entry, which has a child if the style floats. -/
theorem tree_step_box_construct_element_block {conv : children_conversion}
    {l : element_locals} {p : Nat} {ic ic1 : Option Nat} {s Y : content} {ic' : Option Nat}
    (lo : Nat) (hct : conv_tree conv)
    (h : box_construct_element_block conv l p ic1 s = some (Y, ic'))
    (hlo : lo ≤ s.boxes.length) (hp : p < lo ∨ ¬ is_float (s.box_at p).type)
    (hb : lo ≤ l.box) (hbl : l.box < s.boxes.length)
    (ht1 : (s.box_at l.box).type ≠ BOX_INLINE) (ht3 : (s.box_at l.box).type ≠ BOX_INLINE_BLOCK)
    (hbnf : ¬ is_float (s.box_at l.box).type)
    (hbt : (s.style_at l.style).float_ = CSS_FLOAT_LEFT ∨
        (s.style_at l.style).float_ = CSS_FLOAT_RIGHT →
      (s.box_at l.box).type = BOX_BLOCK ∨ (s.box_at l.box).type = BOX_TABLE)
    (hfs : (s.style_at l.style).float_ = CSS_FLOAT_LEFT ∨
        (s.style_at l.style).float_ = CSS_FLOAT_RIGHT → ∃ k, ic1 = some k)
    (h1 : ∀ k, ic1 = some k → ic = some k ∨ lo ≤ k) (hv : valid_container ic1 s) :
    tree_step lo p ic s Y ∧ (ic' = none ∨ ic' = ic1) ∧
    ((s.style_at l.style).float_ = CSS_FLOAT_LEFT ∨
        (s.style_at l.style).float_ = CSS_FLOAT_RIGHT → container_has_child ic1 Y) := by
  unfold box_construct_element_block at h
  rw [box_construct_element_float_eq l p ic1 s ht1 ht3 hbl] at h
  by_cases hfl : (s.style_at l.style).float_ = CSS_FLOAT_LEFT ∨
      (s.style_at l.style).float_ = CSS_FLOAT_RIGHT
  · rw [if_pos hfl] at h
    simp only at h
    obtain ⟨k, hk⟩ := hfs hfl
    subst hk
    unfold box_add_child_inline at h
    simp only at h
    obtain ⟨hk1, hk2⟩ := type_of_is_inline_container (hv k rfl)
    obtain ⟨hw, hkc⟩ := tree_step_float_wrapper lo p ic s none l.href l.target l.title none
      (if (s.style_at l.style).float_ = CSS_FLOAT_LEFT then BOX_FLOAT_LEFT else BOX_FLOAT_RIGHT)
      k l.box hlo hb hbl (hbt hfl) (h1 k rfl) (by rw [hk2]; exact not_is_float_container) hk1
    generalize box_add_child s.boxes.length l.box (box_add_child k s.boxes.length
      (box_set_type s.boxes.length
        (if (s.style_at l.style).float_ = CSS_FLOAT_LEFT then BOX_FLOAT_LEFT
         else BOX_FLOAT_RIGHT)
        (box_create none l.href l.target l.title none s).1)) = S at h hw hkc
    have hlS := hw.len
    split at h
    · exact Option.noConfusion h
    · rename_i S' x hs
      have hc := tree_step_conv_child lo p ic _ _ l.box _ _ _ S (S', x) hct hs (by omega) hb
        (by omega) (by rw [hw.type _ hbl]; exact hbnf)
      have hch : container_has_child (some k) S' := by
        intro j hj
        cases hj
        exact hc.has_child hkc
      split at h
      · cases h
        exact ⟨hw.trans_step hc, Or.inl rfl, fun _ => hch⟩
      · cases h
        exact ⟨hw.trans_step hc, Or.inr rfl, fun _ => hch⟩
  · rw [if_neg hfl] at h
    simp only at h
    have ha := tree_step_box_add_child lo p ic s p l.box (Or.inr (Or.inl rfl)) hp hb
    generalize box_add_child p l.box s = S at h ha
    have hlS := ha.len
    split at h
    · exact Option.noConfusion h
    · rename_i S' x hs
      have hc := tree_step_conv_child lo p ic _ _ l.box _ _ _ S (S', x) hct hs (by omega) hb
        (by omega) (by rw [ha.type _ hbl]; exact hbnf)
      split at h
      · cases h
        exact ⟨ha.trans_step hc, Or.inl rfl, fun hf => absurd hf hfl⟩
      · cases h
        exact ⟨ha.trans_step hc, Or.inr rfl, fun hf => absurd hf hfl⟩

theorem tree_step_box_construct_element_span (lo p : Nat) (ic : Option Nat) (node : xmlNode)
    (box : Nat) (st : content) (hb : lo ≤ box) :
    tree_step lo p ic st (box_construct_element_span node box st) := by
  unfold box_construct_element_span
  lift_lets
  intro s0
  have h1 : tree_step lo p ic st s0 := by
    show tree_step lo p ic st (match xmlGetProp node "colspan".toList with
      | some s => _
      | none => st)
    split
    · exact tree_step_modify_box lo p ic _ _ _ (fun _ => rfl) (fun _ => rfl) (Or.inl hb)
    · exact tree_step.refl_step _ _ _ _
  refine h1.trans_step ?_
  clear_value s0
  split
  · exact tree_step_modify_box lo p ic _ _ _ (fun _ => rfl) (fun _ => rfl) (Or.inl hb)
  · exact tree_step.refl_step _ _ _ _

/-- The last part of `box_construct_element`, for a box from `lo` on: the
steps respect the frame of the tree. -/
theorem tree_step_box_construct_element_attributes (lo p : Nat) (ic : Option Nat) {E : Env}
    {node : xmlNode} {l : element_locals} {st st' : content}
    (h : box_construct_element_attributes E node l st = some st') (hb : lo ≤ l.box) :
    tree_step lo p ic st st' := by
  unfold box_construct_element_attributes at h
  simp only at h
  refine (tree_step_box_construct_element_span lo p ic node l.box st hb).trans_step
    (tree_step.of_boxes_eq_step ?_)
  rw [boxes_box_construct_element_background h, boxes_box_construct_element_tr,
    boxes_box_construct_element_table]

theorem style_at_of_styles_eq {a b : content} (h : b.styles = a.styles) (i : Nat) :
    b.style_at i = a.style_at i := by
  unfold content.style_at
  rw [h]

/-- The third part of `box_construct_element`, for a box from `lo` on that is
not a float box and is of kind block, table, line-break or inline-block if
the style floats: it respects the frame of the tree. -/
theorem tree_frame_box_construct_element_tree {conv : children_conversion} {n : xmlNode}
    {l : element_locals} {p : Nat} {ic : Option Nat} {st Y : content} {ic' : Option Nat}
    (lo : Nat) (hct : conv_tree conv) (hco : conv_ok conv)
    (h : box_construct_element_tree conv n l p ic st = some (Y, ic'))
    (hlo : lo ≤ st.boxes.length) (hpl : p < st.boxes.length)
    (hp : p < lo ∨ ¬ is_float (st.box_at p).type)
    (hb : lo ≤ l.box) (hbl : l.box < st.boxes.length)
    (hbnf : ¬ is_float (st.box_at l.box).type)
    (hbt : (st.style_at l.style).float_ = CSS_FLOAT_LEFT ∨
        (st.style_at l.style).float_ = CSS_FLOAT_RIGHT →
      (st.box_at l.box).type = BOX_BLOCK ∨ (st.box_at l.box).type = BOX_TABLE ∨
        (st.box_at l.box).type = BOX_BR ∨ (st.box_at l.box).type = BOX_INLINE_BLOCK)
    (hic : valid_container ic st) : tree_frame lo p ic ic' st Y := by
  unfold box_construct_element_tree at h
  simp only at h
  obtain ⟨hc, hv1, hcur1, hsome1, hor1⟩ :=
    tree_step_box_construct_element_container lo p ic l st hlo hp hic
  have hst := style_at_of_styles_eq (styles_box_construct_element_container l p ic st) l.style
  have hty := hc.type l.box hbl
  have htp := hc.type p hpl
  generalize (box_construct_element_container l p ic st).1 = s at h hc hv1 hst hty htp
  generalize (box_construct_element_container l p ic st).2 = ic1 at h hv1 hcur1 hsome1 hor1
  have hls := hc.len
  have hps : p < lo ∨ ¬ is_float (s.box_at p).type := by
    rcases hp with hp | hp
    · exact Or.inl hp
    · exact Or.inr (by rw [htp]; exact hp)
  split at h
  · rename_i hty1
    rw [hty] at hty1
    have hcond : (st.box_at l.box).type = BOX_INLINE ∨ (st.box_at l.box).type = BOX_BR ∨
        (st.box_at l.box).type = BOX_INLINE_BLOCK ∨
        (st.style_at l.style).float_ = CSS_FLOAT_LEFT ∨
        (st.style_at l.style).float_ = CSS_FLOAT_RIGHT :=
      hty1.elim Or.inl (fun h => Or.inr (Or.inl h))
    obtain ⟨hs, hcur, hch⟩ := tree_step_box_construct_element_inline lo hct hco h
      (Nat.le_trans hlo hls) (Nat.lt_of_lt_of_le hpl hls) hps hb (Nat.lt_of_lt_of_le hbl hls)
      hcur1 hv1 (hsome1 hcond)
    exact ⟨hc.trans_step hs, hcur, fun _ => hch⟩
  · rename_i hty1
    rw [hty] at hty1
    split at h
    · obtain ⟨hs, hic', hch⟩ := tree_step_box_construct_element_inline_block lo p hct h
        (Nat.le_trans hlo hls) hb (Nat.lt_of_lt_of_le hbl hls) (by rw [hty]; exact hbnf)
        hcur1 hv1
      subst hic'
      exact ⟨hc.trans_step hs, hcur1, fun _ => hch⟩
    · rename_i hty3
      rw [hty] at hty3
      have ht1 : (s.box_at l.box).type ≠ BOX_INLINE := by
        rw [hty]
        exact fun h => hty1 (Or.inl h)
      have ht3 : (s.box_at l.box).type ≠ BOX_INLINE_BLOCK := by
        rw [hty]
        exact hty3
      have hbnf' : ¬ is_float (s.box_at l.box).type := by
        rw [hty]
        exact hbnf
      have hbt' : (s.style_at l.style).float_ = CSS_FLOAT_LEFT ∨
          (s.style_at l.style).float_ = CSS_FLOAT_RIGHT →
          (s.box_at l.box).type = BOX_BLOCK ∨ (s.box_at l.box).type = BOX_TABLE := by
        rw [hst, hty]
        intro hf
        rcases hbt hf with h | h | h | h
        · exact Or.inl h
        · exact Or.inr h
        · exact absurd (Or.inr h) hty1
        · exact absurd h hty3
      have hfs : (s.style_at l.style).float_ = CSS_FLOAT_LEFT ∨
          (s.style_at l.style).float_ = CSS_FLOAT_RIGHT → ∃ k, ic1 = some k := by
        rw [hst]
        intro hf
        exact hsome1 (Or.inr (Or.inr (Or.inr hf)))
      obtain ⟨hs, hor, hch⟩ := tree_step_box_construct_element_block lo hct h
        (Nat.le_trans hlo hls) hps hb (Nat.lt_of_lt_of_le hbl hls) ht1 ht3 hbnf' hbt' hfs
        hcur1 hv1
      rcases hor with hor | hor
      · subst hor
        exact (hc.trans_step hs).to_frame_none
      · subst hor
        refine ⟨hc.trans_step hs, hcur1, ?_⟩
        intro hci k hk
        rcases hor1 with h0 | h0 | h0 | h0 | h0 | h0
        · rw [h0] at hk
          exact (hc.trans_step hs).has_child (hci k hk)
        · exact absurd (Or.inl h0) hty1
        · exact absurd (Or.inr h0) hty1
        · exact absurd h0 hty3
        · exact hch (by rw [hst]; exact Or.inl h0) k hk
        · exact hch (by rw [hst]; exact Or.inr h0) k hk

theorem box_solve_display_table_cases (d : css_display) :
    box_solve_display_table d = CSS_DISPLAY_BLOCK ∨
    box_solve_display_table d = CSS_DISPLAY_LIST_ITEM ∨
    box_solve_display_table d = CSS_DISPLAY_TABLE := by
  cases d <;> decide

/-- A style that `box_solve_display` leaves with float left or right and a
display other than none has display block, list-item or table. -/
theorem box_solve_display_float_display (s : css_style) (root : Bool)
    (hd : (box_solve_display s root).display ≠ CSS_DISPLAY_NONE)
    (hf : (box_solve_display s root).float_ = CSS_FLOAT_LEFT ∨
      (box_solve_display s root).float_ = CSS_FLOAT_RIGHT) :
    (box_solve_display s root).display = CSS_DISPLAY_BLOCK ∨
    (box_solve_display s root).display = CSS_DISPLAY_LIST_ITEM ∨
    (box_solve_display s root).display = CSS_DISPLAY_TABLE := by
  by_cases h1 : s.display = CSS_DISPLAY_NONE
  · have e : box_solve_display s root = s := by
      simp [box_solve_display, h1]
    rw [e] at hd
    exact absurd h1 hd
  · by_cases h2 : s.position = CSS_POSITION_ABSOLUTE ∨ s.position = CSS_POSITION_FIXED
    · have e : (box_solve_display s root).float_ = CSS_FLOAT_NONE := by
        simp [box_solve_display, h1, h2]
      rw [e] at hf
      rcases hf with hf | hf <;> exact absurd hf (by decide)
    · by_cases h3 : s.float_ = CSS_FLOAT_NONE
      · have e : (box_solve_display s root).float_ = CSS_FLOAT_NONE := by
          unfold box_solve_display
          rw [if_neg h1, if_neg h2, if_neg (by rw [h3]; simp)]
          split
          · exact h3
          · exact h3
        rw [e] at hf
        rcases hf with hf | hf <;> exact absurd hf (by decide)
      · have e : (box_solve_display s root).display = box_solve_display_table s.display := by
          unfold box_solve_display
          rw [if_neg h1, if_neg h2, if_pos h3]
        rw [e]
        exact box_solve_display_table_cases _

theorem box_get_style_float_display {E : Env} {base : cstr} {ps : css_style} {n : xmlNode}
    {sv : css_style} (h : box_get_style E base ps n = some sv)
    (hd : sv.display ≠ CSS_DISPLAY_NONE)
    (hf : sv.float_ = CSS_FLOAT_LEFT ∨ sv.float_ = CSS_FLOAT_RIGHT) :
    sv.display = CSS_DISPLAY_BLOCK ∨ sv.display = CSS_DISPLAY_LIST_ITEM ∨
    sv.display = CSS_DISPLAY_TABLE := by
  unfold box_get_style at h
  simp only at h
  split at h
  · exact Option.noConfusion h
  · simp only [Option.some.injEq] at h
    subst h
    exact box_solve_display_float_display _ _ hd hf

/-- `box_construct_element`, given the conversion of the children, respects
the frame of the tree. -/
theorem tree_frame_box_construct_element_with {E : Env} {conv : children_conversion}
    {n : xmlNode} {parent_style p : Nat} {ic : Option Nat} {href : Option cstr}
    {target : Option frame_target} {title : Option cstr} {X Y : content} {ic' : Option Nat}
    (lo : Nat) (hct : conv_tree conv) (hco : conv_ok conv) (hcf : conv_float conv)
    (h : box_construct_element_with E conv n parent_style p ic href target title X
      = some (Y, ic'))
    (hlo : lo ≤ X.boxes.length) (hpl : p < X.boxes.length)
    (hp : p < lo ∨ ¬ is_float (X.box_at p).type) (hic : valid_container ic X) :
    tree_frame lo p ic ic' X Y := by
  have h0 := h
  unfold box_construct_element_with at h
  split at h
  · exact Option.noConfusion h
  rename_i sv hsv
  split at h
  · cases h
    exact tree_frame.refl_tree_frame _ _ _ _
  rename_i hd
  simp only at h
  split at h
  · exact Option.noConfusion h
  rename_i st2 l2 hspecial
  obtain ⟨h1, hlb, hls, hl2, hown⟩ :=
    tree_step_box_construct_element_special lo p ic hct hspecial hlo
  split at h
  · cases h
    exact h1.to_frame
  rename_i hd2
  obtain ⟨s3, htree, hattr⟩ := box_construct_element_with_parts hsv hd hspecial hd2 h0
  obtain ⟨-, -, hfl⟩ := box_construct_element_special_float hcf hspecial
  have hbnf : ¬ is_float (st2.box_at l2.box).type := by
    rw [hlb]
    exact not_is_float_own_type hown (not_is_float_box_map _)
  have hps : p < lo ∨ ¬ is_float (st2.box_at p).type := by
    rcases hp with hp | hp
    · exact Or.inl hp
    · exact Or.inr (by rw [h1.type p hpl]; exact hp)
  have hf2 := tree_frame_box_construct_element_tree lo hct hco htree
    (Nat.le_trans hlo h1.len) (Nat.lt_of_lt_of_le hpl h1.len) hps
    (by rw [hlb]; exact hlo) (by rw [hlb]; exact hl2) hbnf
    (by
      rw [hls, hfl, hlb]
      intro hf
      have hdd := box_get_style_float_display hsv hd hf
      have hm : box_map sv.display = BOX_BLOCK ∨ box_map sv.display = BOX_TABLE := by
        rcases hdd with h | h | h
        · rw [h]; exact Or.inl rfl
        · rw [h]; exact Or.inl rfl
        · rw [h]; exact Or.inr rfl
      rcases hown with h | h | h | h
      · rw [h]
        exact hm.elim Or.inl (fun h => Or.inr (Or.inl h))
      · exact Or.inr (Or.inr (Or.inl h))
      · exact Or.inr (Or.inr (Or.inr h))
      · exact Or.inr (Or.inl h))
    (h1.keeps_container hic)
  have h3 := tree_step_box_construct_element_attributes lo p ic' hattr
    (by rw [hlb]; exact hlo)
  exact (h1.to_frame.trans_tree_frame hf2).trans_tree_frame h3.to_frame

theorem tree_frame_convert_xml_to_box_with {E : Env} {conv : children_conversion} {n : xmlNode}
    {parent_style p : Nat} {ic : Option Nat} {href : Option cstr}
    {target : Option frame_target} {title : Option cstr} {X Y : content} {ic' : Option Nat}
    (lo : Nat) (hct : conv_tree conv) (hco : conv_ok conv) (hcf : conv_float conv)
    (h : convert_xml_to_box_with E conv n parent_style p ic href target title X
      = some (Y, ic'))
    (hlo : lo ≤ X.boxes.length) (hpl : p < X.boxes.length)
    (hp : p < lo ∨ ¬ is_float (X.box_at p).type) (hic : valid_container ic X) :
    tree_frame lo p ic ic' X Y := by
  unfold convert_xml_to_box_with at h
  split at h
  · exact tree_frame_box_construct_element_with lo hct hco hcf h hlo hpl hp hic
  · exact tree_frame_box_construct_text lo h hlo hpl hp hic
  · cases h
    exact tree_frame.refl_tree_frame _ _ _ _

/-- The conversion of a node and its following siblings respects the frame
of the tree. -/
theorem conv_tree_convert_children (E : Env) (n : xmlNode) :
    conv_tree (convert_children E n) := by
  induction n with
  | null =>
    intro lo ps p ic h t ti X Y ic' hY _ _ _ _
    unfold convert_children at hY
    cases hY
    exact tree_frame.refl_tree_frame _ _ _ _
  | node t name hp ps tx children next ihc ihn =>
    intro lo ps p ic h t ti X Y ic' hY hlo hpl hp hic
    unfold convert_children at hY
    split at hY
    · exact Option.noConfusion hY
    · rename_i s1 ic1 hs1
      have f1 := tree_frame_convert_xml_to_box_with lo ihc (conv_ok_convert_children E children)
        (conv_float_convert_children E children) hs1 hlo hpl hp hic
      obtain ⟨-, hv1⟩ := grows_convert_xml_to_box_with (conv_ok_convert_children E children)
        hs1 hic
      have hl1 := f1.step.len
      have hp1 : p < lo ∨ ¬ is_float (s1.box_at p).type := by
        rcases hp with hp | hp
        · exact Or.inl hp
        · exact Or.inr (by rw [f1.step.type p hpl]; exact hp)
      exact f1.trans_tree_frame (ihn lo _ _ _ _ _ _ _ _ _ hY (by omega) (by omega) hp1 hv1)

/-- `convert_xml_to_box` respects the frame of the tree. -/
theorem tree_frame_convert_xml_to_box {E : Env} {n : xmlNode}
    {parent_style p : Nat} {ic : Option Nat} {href : Option cstr}
    {target : Option frame_target} {title : Option cstr} {X Y : content} {ic' : Option Nat}
    (lo : Nat)
    (h : convert_xml_to_box E n parent_style p ic href target title X = some (Y, ic'))
    (hlo : lo ≤ X.boxes.length) (hpl : p < X.boxes.length)
    (hp : p < lo ∨ ¬ is_float (X.box_at p).type) (hic : valid_container ic X) :
    tree_frame lo p ic ic' X Y :=
  tree_frame_convert_xml_to_box_with lo (conv_tree_convert_children E n.children)
    (conv_ok_convert_children E n.children) (conv_float_convert_children E n.children)
    h hlo hpl hp hic

theorem floats_ok_xml_to_box {E : Env} {n : xmlNode} {c c' : content} {ic' : Option Nat}
    (h : xml_to_box E n c = some (c', ic')) : floats_ok c.boxes.length c' := by
  unfold xml_to_box at h
  simp only [snd_box_create, snd_new_style] at h
  have hl : (box_set_type c.boxes.length BOX_BLOCK
      (box_create none none none none none c).1).boxes.length = c.boxes.length + 1 := by
    rw [length_boxes_box_set_type, length_boxes_box_create]
  have ht : ((box_set_type c.boxes.length BOX_BLOCK
      (box_create none none none none none c).1).box_at c.boxes.length).type = BOX_BLOCK := by
    rw [type_box_set_type, length_boxes_box_create, if_pos ⟨rfl, Nat.lt_succ_self _⟩]
  have hf := tree_frame_convert_xml_to_box (c.boxes.length + 1) h (by
      show c.boxes.length + 1 ≤ (box_set_type c.boxes.length BOX_BLOCK
        (box_create none none none none none c).1).boxes.length
      rw [hl])
    (by
      show c.boxes.length < (box_set_type c.boxes.length BOX_BLOCK
        (box_create none none none none none c).1).boxes.length
      rw [hl]
      exact Nat.lt_succ_self _)
    (Or.inl (Nat.lt_succ_self _)) (valid_container_none _)
  have hnew := hf.step.new (by
    intro i hi hfl
    have hlt := lt_of_is_float hfl
    have hlt2 : i < (box_set_type c.boxes.length BOX_BLOCK
        (box_create none none none none none c).1).boxes.length := hlt
    rw [hl] at hlt2
    omega)
  have htyp := hf.step.type c.boxes.length (by
    show c.boxes.length < (box_set_type c.boxes.length BOX_BLOCK
      (box_create none none none none none c).1).boxes.length
    rw [hl]
    exact Nat.lt_succ_self _)
  intro i hi hfl
  by_cases h0 : i = c.boxes.length
  · rw [h0, htyp] at hfl
    change is_float ((box_set_type c.boxes.length BOX_BLOCK
      (box_create none none none none none c).1).box_at c.boxes.length).type at hfl
    rw [ht] at hfl
    exact absurd hfl not_is_float_block
  · obtain ⟨b, hb1, hb2, hb3, hb4⟩ := hnew i (by omega) hfl
    exact ⟨b, by omega, hb2, hb3, hb4⟩

/-- C36: every float-left or float-right box that `box_construct_element`
creates, for the element or for one of its descendants, has exactly one child,
a box created before it in the same call whose kind is block or table, and so
has every float box in the arena that `xml_to_box` leaves; and in the branch
of `box_construct_element` that inserts the float box, which is taken for a
box that is not inline, line-break or inline-block, the forcing of inline and
inline-block to block changes the kind of no box. -/
theorem box_construct_element_float_child (E : Env) (n : xmlNode)
    (parent_style parent : Nat) (inline_container : Option Nat) (href : Option cstr)
    (target : Option frame_target) (title : Option cstr) (c c' : content)
    (inline_container' : Option Nat)
    (h : box_construct_element E n parent_style parent inline_container href target title c
      = some (c', inline_container'))
    (hp : parent < c.boxes.length)
    (hic : ∀ i, inline_container = some i → is_inline_container c.boxes i) :
    (∀ i, c.boxes.length ≤ i →
      (c'.box_at i).type = BOX_FLOAT_LEFT ∨ (c'.box_at i).type = BOX_FLOAT_RIGHT →
      ∃ b, c.boxes.length ≤ b ∧ b < i ∧ (c'.box_at i).children = [b] ∧
        ((c'.box_at b).type = BOX_BLOCK ∨ (c'.box_at b).type = BOX_TABLE)) ∧
    (∀ (c0 c1 : content) (ic1 : Option Nat), xml_to_box E n c0 = some (c1, ic1) →
      ∀ i, c0.boxes.length ≤ i →
        (c1.box_at i).type = BOX_FLOAT_LEFT ∨ (c1.box_at i).type = BOX_FLOAT_RIGHT →
        ∃ b, c0.boxes.length ≤ b ∧ b < i ∧ (c1.box_at i).children = [b] ∧
          ((c1.box_at b).type = BOX_BLOCK ∨ (c1.box_at b).type = BOX_TABLE)) ∧
    (∀ (l : element_locals) (p : Nat) (ic : Option Nat) (s : content),
      l.box < s.boxes.length →
      ¬ ((s.box_at l.box).type = BOX_INLINE ∨ (s.box_at l.box).type = BOX_BR) →
      ¬ (s.box_at l.box).type = BOX_INLINE_BLOCK →
      ∀ i, i < s.boxes.length →
        ((box_construct_element_float l p ic s).1.box_at i).type = (s.box_at i).type) := by
  refine ⟨?_, ?_, ?_⟩
  · have hf := tree_frame_box_construct_element_with c.boxes.length
      (conv_tree_convert_children E n.children) (conv_ok_convert_children E n.children)
      (conv_float_convert_children E n.children) h (Nat.le_refl _) hp (Or.inl hp) hic
    exact hf.step.new (fun i hi hfl => absurd (lt_of_is_float hfl) (by omega))
  · intro c0 c1 ic1 h1
    exact floats_ok_xml_to_box h1
  · intro l p ic s hbl ht1 ht3 i hi
    rw [box_construct_element_float_eq l p ic s (fun h => ht1 (Or.inl h)) ht3 hbl]
    have e1 : i ≠ s.boxes.length := by omega
    split
    · unfold box_add_child_inline
      cases ic with
      | some k =>
        simp only
        rw [type_box_add_child, type_box_set_type, if_neg (fun h => e1 h.1), type_box_create,
          if_neg e1]
      | none =>
        simp only
        rw [type_box_set_type, if_neg (fun h => e1 h.1), type_box_create, if_neg e1]
    · rfl

theorem box_construct_element_float_child_witness :
    ∃ (c' : content) (ic' : Option Nat),
      box_construct_element example_float_env example_aside 0 0 none none none none example_root
        = some (c', ic') ∧
      (c'.box_at 3).type = BOX_FLOAT_LEFT ∧ (c'.box_at 3).children = [1] ∧
      (c'.box_at 1).type = BOX_BLOCK ∧
      (∀ i, example_root.boxes.length ≤ i →
        (c'.box_at i).type = BOX_FLOAT_LEFT ∨ (c'.box_at i).type = BOX_FLOAT_RIGHT →
        ∃ b, example_root.boxes.length ≤ b ∧ b < i ∧ (c'.box_at i).children = [b] ∧
          ((c'.box_at b).type = BOX_BLOCK ∨ (c'.box_at b).type = BOX_TABLE)) :=
  ⟨_, _, rfl, by decide, by decide, by decide,
    (box_construct_element_float_child example_float_env example_aside 0 0 none none none none
      example_root _ _ rfl (by decide) (fun _ hi => Option.noConfusion hi)).1⟩

theorem box_object_congr {E : Env} {conv1 conv2 : children_conversion} {n : xmlNode}
    {box : Nat} {st : content}
    (hagree : ∀ ps p ic h t ti S, p < S.boxes.length → valid_container ic S →
      container_has_child ic S → conv1 ps p ic h t ti S = conv2 ps p ic h t ti S)
    (hb : box < st.boxes.length) :
    box_object E conv1 n box st = box_object E conv2 n box st := by
  unfold box_object
  simp only
  have hl1 : box < (box_usemap n box st).boxes.length := by
    unfold box_usemap
    rw [length_boxes_modify_box]
    exact hb
  generalize box_usemap n box st = s1 at hl1 ⊢
  split
  · rfl
  split
  · rfl
  split
  · rfl
  · rfl
  split
  · rfl
  split
  · rfl
  split
  · rfl
  rename_i s2 hs2
  split
  · rfl
  rename_i style hstyle
  have hl2 : box < s2.boxes.length := by
    rw [(boxes_html_fetch_object hs2).1, length_boxes_modify_box]
    exact hl1
  rw [hagree style box none none none none s2 hl2 (valid_container_none _)
    (fun _ hk => Option.noConfusion hk)]

theorem box_construct_element_special_congr {E : Env} {conv1 conv2 : children_conversion}
    {n : xmlNode} {l : element_locals} {st : content}
    (hagree : ∀ ps p ic h t ti S, p < S.boxes.length → valid_container ic S →
      container_has_child ic S → conv1 ps p ic h t ti S = conv2 ps p ic h t ti S)
    (hb : l.box < st.boxes.length) :
    box_construct_element_special E conv1 n l st =
      box_construct_element_special E conv2 n l st := by
  unfold box_construct_element_special
  split
  · rename_i convert _
    have e : box_special E conv1 convert n l.box st = box_special E conv2 convert n l.box st := by
      cases convert <;> simp only [box_special]
      exact box_object_congr hagree hb
    rw [e]
  · rfl

theorem length_boxes_box_add_child_inline (ic : Option Nat) (b : Nat) (st : content) :
    (box_add_child_inline ic b st).boxes.length = st.boxes.length := by
  unfold box_add_child_inline
  cases ic with
  | some k => exact length_boxes_box_add_child _ _ _
  | none => rfl

theorem le_length_boxes_box_construct_element_float (l : element_locals) (p : Nat)
    (ic : Option Nat) (st : content) :
    st.boxes.length ≤ (box_construct_element_float l p ic st).1.boxes.length := by
  unfold box_construct_element_float
  simp only [snd_box_create]
  split
  · have key : ∀ (c : Prop) [Decidable c] (X : content),
        (if c then box_set_type l.box BOX_BLOCK X else X).boxes.length = X.boxes.length := by
      intro c _ X
      split
      · exact length_boxes_box_set_type _ _ _
      · rfl
    simp only
    rw [key, length_boxes_box_add_child_inline, length_boxes_box_set_type,
      length_boxes_box_create]
    omega
  · exact Nat.le_refl _

theorem box_construct_element_tree_congr {conv1 conv2 : children_conversion} {n : xmlNode}
    {l : element_locals} {p : Nat} {ic : Option Nat} {st : content}
    (hagree : ∀ ps p ic h t ti S, p < S.boxes.length → valid_container ic S →
      container_has_child ic S → conv1 ps p ic h t ti S = conv2 ps p ic h t ti S)
    (hpl : p < st.boxes.length) (hbl : l.box < st.boxes.length) (hic : valid_container ic st) :
    box_construct_element_tree conv1 n l p ic st = box_construct_element_tree conv2 n l p ic st := by
  unfold box_construct_element_tree
  simp only
  obtain ⟨g, hv1, -⟩ := grows_box_construct_element_container l p ic st hic
  have hl := g.frame.len
  generalize (box_construct_element_container l p ic st).1 = s at g hv1 hl ⊢
  generalize (box_construct_element_container l p ic st).2 = ic1 at hv1 ⊢
  split
  · unfold box_construct_element_inline
    simp only
    obtain ⟨ha, hca⟩ := tree_step_box_add_child_inline 0 p ic1 ic1 l.box s
      (fun k hk => Or.inl hk) hv1 (Nat.zero_le _)
    have hva := ha.keeps_container hv1
    have hla := ha.len
    generalize box_add_child_inline ic1 l.box s = S at ha hca hva hla ⊢
    split
    · rw [hagree l.style p ic1 l.href l.target l.title S (by omega) hva hca]
    · rfl
  · split
    · unfold box_construct_element_inline_block
      simp only
      obtain ⟨ha, -⟩ := tree_step_box_add_child_inline 0 p ic1 ic1 l.box s
        (fun k hk => Or.inl hk) hv1 (Nat.zero_le _)
      have hla := ha.len
      generalize box_add_child_inline ic1 l.box s = S at ha hla ⊢
      rw [hagree l.style l.box none l.href l.target l.title S (by omega)
        (valid_container_none _) (fun _ hk => Option.noConfusion hk)]
    · unfold box_construct_element_block
      simp only
      have hlf := le_length_boxes_box_construct_element_float l p ic1 s
      generalize (box_construct_element_float l p ic1 s).1 = s2 at hlf ⊢
      generalize (box_construct_element_float l p ic1 s).2 = p2
      rw [hagree l.style l.box none l.href l.target l.title (box_add_child p2 l.box s2)
        (by rw [length_boxes_box_add_child]; omega)
        (valid_container_none _) (fun _ hk => Option.noConfusion hk)]

/-- `box_construct_element` uses the conversion of the children only with a
parent that is a box of the arena and a current inline container that is an
inline container with a child, if any. -/
theorem box_construct_element_with_congr {E : Env} {conv1 conv2 : children_conversion}
    {n : xmlNode} {parent_style p : Nat} {ic : Option Nat} {href : Option cstr}
    {target : Option frame_target} {title : Option cstr} {X : content}
    (hco : conv_ok conv2)
    (hagree : ∀ ps p ic h t ti S, p < S.boxes.length → valid_container ic S →
      container_has_child ic S → conv1 ps p ic h t ti S = conv2 ps p ic h t ti S)
    (hpl : p < X.boxes.length) (hic : valid_container ic X) :
    box_construct_element_with E conv1 n parent_style p ic href target title X =
      box_construct_element_with E conv2 n parent_style p ic href target title X := by
  unfold box_construct_element_with
  split
  · rfl
  rename_i sv hsv
  split
  · rfl
  simp only
  obtain ⟨hl1, -, -, -, hlb, -⟩ := box_at_box_construct_element_box n sv href target title X
  rw [box_construct_element_special_congr hagree (by rw [hlb, hl1]; omega)]
  split
  · rfl
  rename_i st2 l2 hspecial
  obtain ⟨hlb2, -, hl2, g2, -⟩ := box_construct_element_special_box hco hspecial
  split
  · rfl
  rw [box_construct_element_tree_congr hagree (by omega) (by rw [hlb2]; exact hl2)
    (hic.keeps_valid g2)]

theorem inline_container_last_of_child {ic : Option Nat} {st : content}
    (h : container_has_child ic st) : inline_container_last ic st = true := by
  unfold inline_container_last
  cases ic with
  | none => rfl
  | some k =>
    simp only [Bool.not_eq_true', List.isEmpty_eq_false]
    exact h k rfl

theorem convert_xml_to_box_checked_with_eq {E : Env} {conv1 conv2 : children_conversion}
    {n : xmlNode} {parent_style p : Nat} {ic : Option Nat} {href : Option cstr}
    {target : Option frame_target} {title : Option cstr} {X : content}
    (hco : conv_ok conv2)
    (hagree : ∀ ps p ic h t ti S, p < S.boxes.length → valid_container ic S →
      container_has_child ic S → conv1 ps p ic h t ti S = conv2 ps p ic h t ti S)
    (hpl : p < X.boxes.length) (hic : valid_container ic X) (hch : container_has_child ic X) :
    convert_xml_to_box_checked_with E conv1 n parent_style p ic href target title X =
      convert_xml_to_box_with E conv2 n parent_style p ic href target title X := by
  unfold convert_xml_to_box_checked_with convert_xml_to_box_with
  cases n.type with
  | XML_ELEMENT_NODE => exact box_construct_element_with_congr hco hagree hpl hic
  | XML_TEXT_NODE =>
    simp only
    unfold box_construct_text_checked
    rw [inline_container_last_of_child hch, if_pos rfl]
  | XML_COMMENT_NODE => rfl

/-- The conversion of a node and its following siblings, with the assertion
of `box_construct_text` made at every text node, from a current inline
container that has a child, if any: the assertion does not fail. -/
theorem convert_children_checked_eq (E : Env) (n : xmlNode) :
    ∀ (ps p : Nat) (ic : Option Nat) (h : Option cstr) (t : Option frame_target)
      (ti : Option cstr) (X : content), p < X.boxes.length → valid_container ic X →
      container_has_child ic X →
      convert_children_checked E n ps p ic h t ti X = convert_children E n ps p ic h t ti X := by
  induction n with
  | null =>
    intro ps p ic h t ti X _ _ _
    unfold convert_children_checked convert_children
    rfl
  | node t name hp ps tx children next ihc ihn =>
    intro ps0 p ic h t0 ti X hpl hic hch
    unfold convert_children_checked convert_children
    rw [convert_xml_to_box_checked_with_eq (conv_ok_convert_children E children) ihc hpl hic hch]
    cases hs1 : convert_xml_to_box_with E (convert_children E children)
        (.node t name hp ps tx children next) ps0 p ic h t0 ti X with
    | none => rfl
    | some r =>
      obtain ⟨s1, ic1⟩ := r
      simp only
      have f1 := tree_frame_convert_xml_to_box_with X.boxes.length
        (conv_tree_convert_children E children) (conv_ok_convert_children E children)
        (conv_float_convert_children E children) hs1 (Nat.le_refl _) hpl (Or.inl hpl) hic
      obtain ⟨-, hv1⟩ := grows_convert_xml_to_box_with (conv_ok_convert_children E children)
        hs1 hic
      have hl1 := f1.step.len
      exact ihn _ _ _ _ _ _ _ (by omega) hv1 (f1.child hch)

theorem html_fetch_object_accepted {E : Env} (hE : ∀ url, E.fetch_ok url = true) (url : cstr)
    (b : Nat) (p : permitted_types) (w : Int) (hh : Int) (bg : Bool) (fr : Option cstr)
    (st : content) : (html_fetch_object E url b p w hh bg fr st).isSome := by
  unfold html_fetch_object
  rw [hE, if_pos rfl]
  rfl

theorem isSome_match_fetch {α : Type} {E : Env} (hE : ∀ url, E.fetch_ok url = true) (url : cstr)
    (b : Nat) (p : permitted_types) (w : Int) (hh : Int) (bg : Bool) (fr : Option cstr)
    (st : content) (f : content → α) :
    (match html_fetch_object E url b p w hh bg fr st with
      | none => none
      | some st => some (f st)).isSome := by
  have := html_fetch_object_accepted hE url b p w hh bg fr st
  split
  · rename_i h
    rw [h] at this
    exact Bool.noConfusion this
  · rfl

theorem box_a_isSome (E : Env) (hm : ∀ k, E.malloc k = true)
    (hj : ∀ a c, E.url_join a c ≠ URL_FUNC_NOMEM) (n : xmlNode) (box : Nat) (st : content) :
    (box_a E n box st).isSome := by
  unfold box_a
  simp only [box_extract_link_resolved E hm hj]
  split
  · rename_i h
    split at h
    · split at h
      · rename_i he
        simp at he
      · simp at h
      · simp at h
    · simp at h
  · rfl

theorem box_image_isSome (E : Env) (hm : ∀ k, E.malloc k = true)
    (hj : ∀ a c, E.url_join a c ≠ URL_FUNC_NOMEM) (hE : ∀ url, E.fetch_ok url = true)
    (n : xmlNode) (box : Nat) (st : content) : (box_image E n box st).isSome := by
  unfold box_image
  simp only [box_extract_link_resolved E hm hj]
  split
  · rfl
  · split
    · rename_i h
      simp at h
    · rfl
    · exact isSome_match_fetch hE _ _ _ _ _ _ _ _ _

theorem box_iframe_isSome (E : Env) (hm : ∀ k, E.malloc k = true)
    (hj : ∀ a c, E.url_join a c ≠ URL_FUNC_NOMEM) (hE : ∀ url, E.fetch_ok url = true)
    (n : xmlNode) (box : Nat) (st : content) : (box_iframe E n box st).isSome := by
  unfold box_iframe
  simp only [box_extract_link_resolved E hm hj]
  split
  · rfl
  · split
    · rename_i h
      simp at h
    · rfl
    · split
      · rfl
      · exact isSome_match_fetch hE _ _ _ _ _ _ _ _ _

theorem box_embed_isSome (E : Env) (hm : ∀ k, E.malloc k = true)
    (hj : ∀ a c, E.url_join a c ≠ URL_FUNC_NOMEM) (hE : ∀ url, E.fetch_ok url = true)
    (n : xmlNode) (box : Nat) (st : content) : (box_embed E n box st).isSome := by
  unfold box_embed
  simp only [box_extract_link_resolved E hm hj]
  split
  · rfl
  · split
    · rename_i h
      simp at h
    · rfl
    · split
      · rfl
      · exact isSome_match_fetch hE _ _ _ _ _ _ _ _ _

theorem box_button_isSome (n : xmlNode) (box : Nat) (st : content) :
    (box_button n box st).isSome := by
  unfold box_button
  simp only
  split <;> rfl

theorem box_input_type_isSome (E : Env) (hE : ∀ url, E.fetch_ok url = true)
    (n : xmlNode) (box : Nat) (st : content) : (box_input_type E n box st).isSome := by
  have hd : ∀ pw, (box_input_default n box pw st).isSome := by
    intro pw
    unfold box_input_default box_input_text
    rfl
  have hb := box_button_isSome n box st
  unfold box_input_type
  simp only
  split
  · exact hd true
  split
  · rfl
  split
  · rfl
  split
  · rfl
  split
  · unfold box_input_submit
    split
    · rename_i h
      rw [h] at hb
      exact Bool.noConfusion hb
    · rfl
  split
  · unfold box_input_button
    split
    · rename_i h
      rw [h] at hb
      exact Bool.noConfusion hb
    · rfl
  split
  · unfold box_input_image
    simp only
    split
    · split
      · split
        · exact isSome_match_fetch hE _ _ _ _ _ _ _ _ _
        · rfl
      · rfl
    · rfl
  · exact hd false

theorem box_input_isSome (E : Env) (hE : ∀ url, E.fetch_ok url = true)
    (n : xmlNode) (box : Nat) (st : content) : (box_input E n box st).isSome := by
  have h := box_input_type_isSome E hE n box st
  unfold box_input
  split
  · rename_i h0
    rw [h0] at h
    exact Bool.noConfusion h
  · rfl
  · rfl

theorem box_select_isSome (E : Env) (n : xmlNode) (box : Nat) (st : content) :
    (box_select E n box st).isSome := by
  unfold box_select
  simp only
  split <;> rfl

theorem box_textarea_isSome (n : xmlNode) (box : Nat) (st : content) :
    (box_textarea n box st).isSome := by
  unfold box_textarea
  rfl

theorem box_object_isSome (E : Env) (hm : ∀ k, E.malloc k = true)
    (hj : ∀ a c, E.url_join a c ≠ URL_FUNC_NOMEM) (hE : ∀ url, E.fetch_ok url = true)
    {conv : children_conversion} (hc : conv_total conv)
    (n : xmlNode) (box : Nat) (st : content) (hs : (st.box_at box).style ≠ none) :
    (box_object E conv n box st).isSome := by
  unfold box_object
  simp only [box_extract_link_resolved E hm hj]
  have hs1 : ((box_usemap n box st).box_at box).style ≠ none := by
    unfold box_usemap
    rw [box_at_modify_box]
    split
    · exact hs
    · exact hs
  generalize box_usemap n box st = s1 at hs1 ⊢
  split
  · rename_i h
    split at h
    · simp at h
    · simp at h
  split
  · rename_i h
    split at h
    · simp at h
    · simp at h
  split
  · rename_i h
    split at h
    · simp at h
    · simp at h
  · rfl
  split
  · rfl
  split
  · rfl
  split
  · rename_i h
    exact absurd h (Option.ne_none_iff_isSome.mpr (html_fetch_object_accepted hE _ _ _ _ _ _ _ _))
  rename_i s2 hs2
  have hs2' : (s2.box_at box).style ≠ none := by
    rw [box_at_of_boxes_eq (boxes_html_fetch_object hs2).1, box_at_modify_box]
    split
    · exact hs1
    · exact hs1
  split
  · rename_i h
    exact absurd h hs2'
  split
  · rename_i h
    exact absurd h (Option.ne_none_iff_isSome.mpr (hc _ _ _ _ _ _ _))
  · rfl

theorem box_special_isSome (E : Env) (hm : ∀ k, E.malloc k = true)
    (hj : ∀ a c, E.url_join a c ≠ URL_FUNC_NOMEM) (hE : ∀ url, E.fetch_ok url = true)
    {conv : children_conversion} (hc : conv_total conv) (convert : element_convert)
    (n : xmlNode) (box : Nat) (st : content) (hs : (st.box_at box).style ≠ none) :
    (box_special E conv convert n box st).isSome := by
  cases convert <;> simp only [box_special]
  · exact box_a_isSome E hm hj n box st
  · rfl
  · rfl
  · exact box_button_isSome n box st
  · exact box_embed_isSome E hm hj hE n box st
  · rfl
  · exact box_frameset_isSome E hE n box st hs
  · exact box_iframe_isSome E hm hj hE n box st
  · exact box_image_isSome E hm hj hE n box st
  · exact box_input_isSome E hE n box st
  · exact box_object_isSome E hm hj hE hc n box st hs
  · exact box_select_isSome E n box st
  · exact box_textarea_isSome n box st

theorem box_get_style_isSome (E : Env) (hj : ∀ a c, E.url_join a c ≠ URL_FUNC_NOMEM)
    (base : cstr) (ps : css_style) (n : xmlNode) : (box_get_style E base ps n).isSome := by
  unfold box_get_style
  simp only
  split
  · rename_i h
    unfold box_get_style_background at h
    split at h
    · split at h
      · split at h
        · rename_i hn
          exact absurd hn (hj _ _)
        · split at h <;> simp at h
        · simp at h
      · simp at h
    · simp at h
  · rfl

theorem box_construct_text_isSome (n : xmlNode) (parent_style parent : Nat)
    (ic : Option Nat) (href : Option cstr) (target : Option frame_target)
    (title : Option cstr) (st : content) :
    (box_construct_text n parent_style parent ic href target title st).isSome := by
  cases h : box_construct_text n parent_style parent ic href target title st with
  | some r => rfl
  | none =>
    exfalso
    unfold box_construct_text at h
    simp only at h
    split at h
    · split at h
      · split at h
        · split at h
          · cases h
          · cases h
        · cases h
      · simp only [snd_box_create] at h
        generalize (if (decide (List.length (squash_whitespace n.content) > 1) && _) = true
          then _ else _) = len at h
        generalize (if (st.style_at parent_style).text_transform ≠ CSS_TEXT_TRANSFORM_NONE
          then _ else _) = text at h
        split at h
        · split at h
          · cases h
          · cases h
        · cases h
    · cases h

theorem box_construct_element_special_isSome (E : Env) (hm : ∀ k, E.malloc k = true)
    (hj : ∀ a c, E.url_join a c ≠ URL_FUNC_NOMEM) (hE : ∀ url, E.fetch_ok url = true)
    {conv : children_conversion} (hc : conv_total conv) (n : xmlNode) (l : element_locals)
    (st : content) (hs : (st.box_at l.box).style ≠ none) :
    (box_construct_element_special E conv n l st).isSome := by
  unfold box_construct_element_special
  split
  · rename_i convert _
    have := box_special_isSome E hm hj hE hc convert n l.box st hs
    split
    · rename_i h
      rw [h] at this
      exact Bool.noConfusion this
    · rfl
  · rfl

theorem isSome_match_conv {conv : children_conversion} (hc : conv_total conv) (cc : Bool)
    (ps p : Nat) (ic : Option Nat) (h : Option cstr) (t : Option frame_target)
    (ti : Option cstr) (S : content) (f : content → Option (content × Option Nat))
    (hf : ∀ X, (f X).isSome) :
    (match (if cc = true then conv ps p ic h t ti S else some (S, none)) with
      | none => none
      | some (st, _) => f st).isSome := by
  split
  · rename_i h0
    split at h0
    · exact absurd h0 (Option.ne_none_iff_isSome.mpr (hc _ _ _ _ _ _ _))
    · exact Option.noConfusion h0
  · exact hf _

theorem box_construct_element_tree_isSome {conv : children_conversion} (hc : conv_total conv)
    (n : xmlNode) (l : element_locals) (p : Nat) (ic : Option Nat) (st : content) :
    (box_construct_element_tree conv n l p ic st).isSome := by
  unfold box_construct_element_tree
  simp only
  split
  · unfold box_construct_element_inline
    simp only
    split
    · split
      · rename_i h
        exact absurd h (Option.ne_none_iff_isSome.mpr (hc _ _ _ _ _ _ _))
      · rfl
    · rfl
  · split
    · unfold box_construct_element_inline_block
      simp only
      exact isSome_match_conv hc _ _ _ _ _ _ _ _ _ (fun _ => rfl)
    · unfold box_construct_element_block
      simp only
      refine isSome_match_conv hc _ _ _ _ _ _ _ _ _ (fun X => ?_)
      split <;> rfl

theorem box_construct_element_attributes_isSome (E : Env) (hE : ∀ url, E.fetch_ok url = true)
    (n : xmlNode) (l : element_locals) (st : content) :
    (box_construct_element_attributes E n l st).isSome := by
  unfold box_construct_element_attributes box_construct_element_background
  simp only
  split
  · exact html_fetch_object_accepted hE _ _ _ _ _ _ _ _
  · rfl

theorem box_construct_element_with_isSome (E : Env) (hm : ∀ k, E.malloc k = true)
    (hj : ∀ a c, E.url_join a c ≠ URL_FUNC_NOMEM) (hE : ∀ url, E.fetch_ok url = true)
    {conv : children_conversion} (hc : conv_total conv) (n : xmlNode)
    (parent_style p : Nat) (ic : Option Nat) (href : Option cstr)
    (target : Option frame_target) (title : Option cstr) (X : content) :
    (box_construct_element_with E conv n parent_style p ic href target title X).isSome := by
  unfold box_construct_element_with
  split
  · rename_i h
    exact absurd h (Option.ne_none_iff_isSome.mpr (box_get_style_isSome E hj _ _ _))
  rename_i sv hsv
  split
  · rfl
  simp only
  obtain ⟨x, -, -, hxs, -, heq, hb, -⟩ := box_construct_element_box_eq n sv href target title X
  have hs : ((box_construct_element_box n sv href target title X).1.box_at
      (box_construct_element_box n sv href target title X).2.box).style ≠ none := by
    rw [hb, heq]
    unfold content.box_at
    simp only [getElem?_append_singleton, if_true, Option.getD_some]
    rw [hxs]
    exact fun h => Option.noConfusion h
  split
  · rename_i h
    exact absurd h (Option.ne_none_iff_isSome.mpr
      (box_construct_element_special_isSome E hm hj hE hc n _ _ hs))
  split
  · rfl
  split
  · rename_i h
    exact absurd h (Option.ne_none_iff_isSome.mpr (box_construct_element_tree_isSome hc _ _ _ _ _))
  split
  · rename_i h
    exact absurd h (Option.ne_none_iff_isSome.mpr
      (box_construct_element_attributes_isSome E hE _ _ _))
  · rfl

theorem convert_xml_to_box_with_isSome (E : Env) (hm : ∀ k, E.malloc k = true)
    (hj : ∀ a c, E.url_join a c ≠ URL_FUNC_NOMEM) (hE : ∀ url, E.fetch_ok url = true)
    {conv : children_conversion} (hc : conv_total conv) (n : xmlNode)
    (parent_style p : Nat) (ic : Option Nat) (href : Option cstr)
    (target : Option frame_target) (title : Option cstr) (X : content) :
    (convert_xml_to_box_with E conv n parent_style p ic href target title X).isSome := by
  unfold convert_xml_to_box_with
  split
  · exact box_construct_element_with_isSome E hm hj hE hc _ _ _ _ _ _ _ _
  · exact box_construct_text_isSome _ _ _ _ _ _ _ _
  · rfl

/-- When no allocation fails, no URL resolution runs out of memory and every
fetch is accepted, the conversion of a node and its following siblings returns
a result. -/
theorem conv_total_convert_children (E : Env) (hm : ∀ k, E.malloc k = true)
    (hj : ∀ a c, E.url_join a c ≠ URL_FUNC_NOMEM) (hE : ∀ url, E.fetch_ok url = true)
    (n : xmlNode) : conv_total (convert_children E n) := by
  induction n with
  | null =>
    intro ps p ic h t ti X
    unfold convert_children
    rfl
  | node t name hp ps tx children next ihc ihn =>
    intro ps0 p ic h t0 ti X
    unfold convert_children
    have h1 := convert_xml_to_box_with_isSome E hm hj hE ihc
      (.node t name hp ps tx children next) ps0 p ic h t0 ti X
    split
    · rename_i h0
      rw [h0] at h1
      exact Bool.noConfusion h1
    · exact ihn _ _ _ _ _ _ _

theorem xml_to_box_isSome (E : Env) (hm : ∀ k, E.malloc k = true)
    (hj : ∀ a c, E.url_join a c ≠ URL_FUNC_NOMEM) (hE : ∀ url, E.fetch_ok url = true)
    (n : xmlNode) (c : content) : (xml_to_box E n c).isSome := by
  unfold xml_to_box convert_xml_to_box
  simp only [snd_box_create, snd_new_style]
  exact convert_xml_to_box_with_isSome E hm hj hE
    (conv_total_convert_children E hm hj hE n.children) _ _ _ _ _ _ _ _

theorem convert_xml_to_box_checked_eq (E : Env) (n : xmlNode) (ps p : Nat) (ic : Option Nat)
    (h : Option cstr) (t : Option frame_target) (ti : Option cstr) (X : content)
    (hpl : p < X.boxes.length) (hic : valid_container ic X) (hch : container_has_child ic X) :
    convert_xml_to_box_checked E n ps p ic h t ti X = convert_xml_to_box E n ps p ic h t ti X :=
  convert_xml_to_box_checked_with_eq (conv_ok_convert_children E n.children)
    (convert_children_checked_eq E n.children) hpl hic hch

theorem xml_to_box_checked_eq (E : Env) (n : xmlNode) (c : content) :
    xml_to_box_checked E n c = xml_to_box E n c := by
  unfold xml_to_box_checked xml_to_box
  simp only [snd_box_create, snd_new_style]
  refine convert_xml_to_box_checked_eq E n _ _ none none none none _ ?_
    (valid_container_none _) (fun _ hk => Option.noConfusion hk)
  show c.boxes.length < (box_set_type c.boxes.length BOX_BLOCK
    (box_create none none none none none c).1).boxes.length
  rw [length_boxes_box_set_type, length_boxes_box_create]
  exact Nat.lt_succ_self _

/-- C38: in a conversion started with a parent that is a box of the arena and
a current inline container that is null, or is an inline container with at
least one child, the current inline container has at least one child, if it is
not null, whenever `box_construct_text` is entered, so that the assertion of
`box_construct_text` does not fail: the conversion with the assertion tested
on entry of `box_construct_text` at every text node, which gives up where the
test fails, does what the conversion without the test does, for the children
of a node (the conversion that a handler starts), for a node, and for the
document from `xml_to_box`; the current inline container on exit has at least
one child, if it is not null; and when no allocation fails, no URL resolution
runs out of memory and every fetch is accepted, the conversion with the test
returns a result. -/
theorem box_construct_text_container_child (E : Env) (n : xmlNode)
    (parent_style parent : Nat) (inline_container : Option Nat) (href : Option cstr)
    (target : Option frame_target) (title : Option cstr) (c : content)
    (hp : parent < c.boxes.length)
    (hic : ∀ i, inline_container = some i → is_inline_container c.boxes i)
    (hch : ∀ i, inline_container = some i → (c.box_at i).children ≠ []) :
    convert_children_checked E n parent_style parent inline_container href target title c =
      convert_children E n parent_style parent inline_container href target title c ∧
    convert_xml_to_box_checked E n parent_style parent inline_container href target title c =
      convert_xml_to_box E n parent_style parent inline_container href target title c ∧
    (∀ c0, xml_to_box_checked E n c0 = xml_to_box E n c0) ∧
    (∀ c' inline_container',
      convert_children E n parent_style parent inline_container href target title c =
        some (c', inline_container') →
      ∀ i, inline_container' = some i → (c'.box_at i).children ≠ []) ∧
    ((∀ k, E.malloc k = true) → (∀ a b, E.url_join a b ≠ URL_FUNC_NOMEM) →
      (∀ url, E.fetch_ok url = true) →
      (convert_children_checked E n parent_style parent inline_container href target title
        c).isSome ∧
      (convert_xml_to_box_checked E n parent_style parent inline_container href target title
        c).isSome ∧
      ∀ c0, (xml_to_box_checked E n c0).isSome) := by
  refine ⟨convert_children_checked_eq E n _ _ _ _ _ _ _ hp hic hch,
    convert_xml_to_box_checked_eq E n _ _ _ _ _ _ _ hp hic hch,
    xml_to_box_checked_eq E n, ?_, ?_⟩
  · intro c' ic' h
    exact (conv_tree_convert_children E n c.boxes.length _ _ _ _ _ _ _ _ _ h (Nat.le_refl _) hp
      (Or.inl hp) hic).child hch
  · intro hm hj hE
    refine ⟨?_, ?_, fun c0 => ?_⟩
    · rw [convert_children_checked_eq E n _ _ _ _ _ _ _ hp hic hch]
      exact conv_total_convert_children E hm hj hE n _ _ _ _ _ _ _
    · rw [convert_xml_to_box_checked_eq E n _ _ _ _ _ _ _ hp hic hch]
      exact convert_xml_to_box_with_isSome E hm hj hE
        (conv_total_convert_children E hm hj hE n.children) _ _ _ _ _ _ _ _
    · rw [xml_to_box_checked_eq]
      exact xml_to_box_isSome E hm hj hE n c0

theorem box_construct_text_container_child_witness :
    ∃ (c' : content) (ic' : Option Nat),
      convert_children example_env example_spaced 0 0 none none none none example_root
        = some (c', ic') ∧
      convert_children_checked example_env example_spaced 0 0 none none none none example_root
        = some (c', ic') :=
  ⟨_, _, rfl,
    (box_construct_text_container_child example_env example_spaced 0 0 none none none none
      example_root (by decide) (fun _ hi => Option.noConfusion hi)
      (fun _ hi => Option.noConfusion hi)).1.trans rfl⟩

/-! ### The tokens of a multi-length list -/

theorem toNat_eq_comma {c : Char} : c.toNat = 44 ↔ c = ',' := by
  constructor
  · intro h
    apply Char.ext
    apply UInt32.ext
    exact h
  · intro h
    rw [h]
    rfl

theorem dropWhile_ne_comma_nil (l : cstr) (h : ',' ∉ l) :
    l.dropWhile (fun c => c.toNat != 44) = [] := by
  induction l with
  | nil => rfl
  | cons x xs ih =>
    simp only [List.mem_cons, not_or] at h
    have hx : ¬ x.toNat = 44 := fun hh => h.1 (toNat_eq_comma.mp hh).symm
    simp only [List.dropWhile_cons, bne_iff_ne, ne_eq, hx, not_false_eq_true, if_true]
    exact ih h.2

theorem frameset_column_token (tok : cstr) :
    frameset_column { type := token_type tok, value := token_value tok } = token_column tok := rfl

/-- The width that `box_frameset` hands to the fetch of a frame in a column
of fixed width is the width of the column as an `int`: for
`cols="100.5,50%,..."` the first frame is fetched for the width 100 and the
second, in a percent column, for the available width of the content. -/
theorem box_frameset_fetch_width :
    (box_frameset example_env example_frameset_cols 1
        (box_create (some 0) none none none none example_root).1).map
      (fun r => r.1.object.map (fun o => (o.url, o.available_width))) =
      some [("a".toList, 100), ("b".toList, 800)] := by
  decide

set_option maxRecDepth 4096 in
/-- The values that `box_parse_multi_lengths` returns are values of `float`:
`1e-50` underflows to zero and is replaced by 1, `16777217` is rounded to
`16777216`, and `1e39` overflows to an infinity. -/
theorem box_parse_multi_lengths_rounded :
    box_parse_multi_lengths "1e-50,16777217,1e39".toList =
      [{ type := LENGTH_PX, value := cfloat.fin 1 1 },
       { type := LENGTH_PX, value := cfloat.fin 16777216 1 },
       { type := LENGTH_PX, value := cfloat.inf false }] := by
  decide

/-- The integer conversions of the C library calls: `atoi` wraps around as
`int`, and `%2x` of `sscanf` reads a sign or the prefix `0x` within its two
chars. -/
theorem atoi_sscanf_examples :
    atoi "4294967297".toList = 1 ∧ atoi "2147483648".toList = -2147483648 ∧
    sscanf_2x2x2x "+f-1 0x12".toList = some (15, 4294967295, 0) ∧
    sscanf_2x2x2x "0x1234".toList = some (0, 18, 52) ∧
    sscanf_2x2x2x "a1b2c3".toList = some (161, 178, 195) := by
  decide

/-! ### Objects that are fetched -/

/-- The path of `box_object` that fetches: when the `data` attribute resolves
to a URL other than the base URL of the document, the `type` attribute names no
unsupported MIME type, nothing runs out of memory and the fetch is accepted,
`box_object` attaches the parameters to the box, starts the fetch, converts
the children and moves them to the fallback list. -/
theorem box_object_fetch_eq (E : Env) (conv : children_conversion) (n : xmlNode) (b : Nat)
    (st : content) (data : cstr) (style : Nat)
    (hb : b < st.boxes.length) (hstyle : (st.box_at b).style = some style)
    (hm : ∀ k, E.malloc k = true) (hj : ∀ a c, E.url_join a c ≠ URL_FUNC_NOMEM)
    (hdata : object_data E n st.base_url = some data) (hself : data ≠ st.base_url)
    (htype : (xmlGetProp n "type".toList).any E.content_lookup_other = false)
    (hfetch : E.fetch_ok data = true) :
    ∃ params : object_params,
      params.data = some data ∧
      params.params = box_object_params n.children [] ∧
      box_object E conv n b st =
        match conv style b none none none none
            { (box_usemap n b st).modify_box b (fun x => { x with object_params := some params }) with object := st.object ++ [{ url := data, box := b, permitted := permitted_types.any, available_width := st.available_width, available_height := 1000, background := false, frame := none }] } with
        | none => none
        | some (s3, _) =>
          some (s3.modify_box b (fun x => { x with fallback := x.children, children := [] }),
            false) := by
  have hbase : (box_usemap n b st).base_url = st.base_url := rfl
  have hb1 : b < (box_usemap n b st).boxes.length := by
    unfold box_usemap
    rw [length_boxes_modify_box]
    exact hb
  have hst1 : ((box_usemap n b st).box_at b).style = some style := by
    unfold box_usemap
    rw [box_at_modify_box_self _ _ hb]
    exact hstyle
  have htail : ∀ (params : object_params),
      (match html_fetch_object E data b permitted_types.any ((box_usemap n b st).modify_box b (fun x => { x with object_params := some params })).available_width 1000 false none ((box_usemap n b st).modify_box b (fun x => { x with object_params := some params })) with
        | none => none
        | some st =>
          match (st.box_at b).style with
          | none => none
          | some style =>
            match conv style b none none none none st with
            | none => none
            | some (st, _) =>
              some (st.modify_box b (fun b => { b with fallback := b.children, children := [] }),
                    false)) =
      match conv style b none none none none
          { (box_usemap n b st).modify_box b (fun x => { x with object_params := some params }) with object := st.object ++ [{ url := data, box := b, permitted := permitted_types.any, available_width := st.available_width, available_height := 1000, background := false, frame := none }] } with
      | none => none
      | some (s3, _) =>
        some (s3.modify_box b (fun x => { x with fallback := x.children, children := [] }),
          false) := by
    intro params
    unfold html_fetch_object
    simp only [hfetch, if_true]
    have hs : (content.box_at { (box_usemap n b st).modify_box b (fun x => { x with object_params := some params }) with object := ((box_usemap n b st).modify_box b (fun x => { x with object_params := some params })).object ++ [{ url := data, box := b, permitted := permitted_types.any, available_width := ((box_usemap n b st).modify_box b (fun x => { x with object_params := some params })).available_width, available_height := 1000, background := false, frame := none }] } b).style = some style := by
      have := box_at_modify_box_self (box_usemap n b st) (fun x => { x with object_params := some params }) hb1
      unfold content.box_at at this ⊢
      simp only [this]
      exact hst1
    simp only [hs]
    rfl
  unfold object_data object_codebase at hdata
  unfold box_object
  simp only [box_extract_link_resolved E hm hj, hbase, box_get_attribute_none]
  have hne : ¬ st.base_url = data := fun h => hself h.symm
  cases hcb : xmlGetProp n "codebase".toList with
  | none =>
    simp only [hcb, Option.none_bind, Option.getD_none] at hdata ⊢
    cases hd : xmlGetProp n "data".toList with
    | none => rw [hd] at hdata; exact Option.noConfusion hdata
    | some d =>
      simp only [hd, Option.some_bind] at hdata ⊢
      simp only [hdata, if_neg hne, htype, Bool.false_eq_true, if_false]
      exact ⟨_, rfl, rfl, htail _⟩
  | some cb =>
    simp only [hcb, Option.some_bind] at hdata ⊢
    cases hd : xmlGetProp n "data".toList with
    | none => rw [hd] at hdata; exact Option.noConfusion hdata
    | some d =>
      simp only [hd, Option.some_bind] at hdata ⊢
      simp only [hdata, if_neg hne, htype, Bool.false_eq_true, if_false]
      exact ⟨_, rfl, rfl, htail _⟩

/-- C20, as amended: when `box_object` proceeds to fetch (the `data`
attribute resolves to a URL that differs from the document's base URL and any
`type` attribute names a supported MIME type; nothing runs out of memory, the
fetch is accepted and the conversion of the children returns), it returns
success with `*convert_children` set to false. Its parameter side-list
contains, in reverse document order, the object's `param` element children
that come before the first element child that is not a `param`; exactly one
object fetch is issued by `box_object`, for the data URL, before the children
are converted (`s2` is the content in which they are converted); and the
boxes converted from the object's children are stored in the box's fallback
list while the box's normal child list is left empty. -/
theorem box_object_fetch (E : Env) (conv : children_conversion) (n : xmlNode) (b : Nat)
    (st : content) (data : cstr) (style : Nat)
    (hconv : conv_ok conv) (htotal : conv_total conv)
    (hb : b < st.boxes.length) (hstyle : (st.box_at b).style = some style)
    (hm : ∀ k, E.malloc k = true) (hj : ∀ a c, E.url_join a c ≠ URL_FUNC_NOMEM)
    (hdata : object_data E n st.base_url = some data) (hself : data ≠ st.base_url)
    (htype : (xmlGetProp n "type".toList).any E.content_lookup_other = false)
    (hfetch : E.fetch_ok data = true) :
    ∃ (params : object_params) (s2 s3 st' : content) (ic : Option Nat),
      box_object E conv n b st = some (st', false) ∧
      params.data = some data ∧
      params.params = ((leading_param_children n.children).map object_param_of).reverse ∧
      s2 = { (box_usemap n b st).modify_box b (fun x => { x with object_params := some params }) with object := st.object ++ [{ url := data, box := b, permitted := permitted_types.any, available_width := st.available_width, available_height := 1000, background := false, frame := none }] } ∧
      (s2.box_at b).object_params = some params ∧
      s2.object = st.object ++
        [{ url := data, box := b, permitted := permitted_types.any,
           available_width := st.available_width, available_height := 1000,
           background := false, frame := none }] ∧
      conv style b none none none none s2 = some (s3, ic) ∧
      st' = s3.modify_box b (fun x => { x with fallback := x.children, children := [] }) ∧
      (st'.box_at b).fallback = (s3.box_at b).children ∧ (st'.box_at b).children = [] := by
  obtain ⟨params, hpd, hpp, heq⟩ :=
    box_object_fetch_eq E conv n b st data style hb hstyle hm hj hdata hself htype hfetch
  have hb1 : b < (box_usemap n b st).boxes.length := by
    unfold box_usemap
    rw [length_boxes_modify_box]
    exact hb
  generalize hs2 : ({ (box_usemap n b st).modify_box b (fun x => { x with object_params := some params }) with object := st.object ++ [{ url := data, box := b, permitted := permitted_types.any, available_width := st.available_width, available_height := 1000, background := false, frame := none }] } : content) = s2 at heq
  have hbx : s2.boxes =
      ((box_usemap n b st).modify_box b (fun x => { x with object_params := some params })).boxes := by
    rw [← hs2]
  have hobj : s2.object = st.object ++
      [{ url := data, box := b, permitted := permitted_types.any,
         available_width := st.available_width, available_height := 1000,
         background := false, frame := none }] := by
    rw [← hs2]
  have hlen2 : s2.boxes.length = st.boxes.length := by
    rw [hbx, length_boxes_modify_box]
    unfold box_usemap
    rw [length_boxes_modify_box]
  have ht := htotal style b none none none none s2
  cases hc : conv style b none none none none s2 with
  | none =>
    rw [hc] at ht
    exact Bool.noConfusion ht
  | some r =>
    obtain ⟨s3, ic⟩ := r
    rw [hc] at heq
    have hg := (hconv _ _ _ _ _ _ _ _ _ hc (fun c hcc => Option.noConfusion hcc)).1
    have hb3 : b < s3.boxes.length := by
      have := hg.frame.len
      omega
    refine ⟨params, s2, s3, _, ic, heq, hpd, ?_, hs2.symm, ?_, hobj, hc, rfl, ?_, ?_⟩
    · rw [hpp]
      exact (box_object_params_eq n.children []).trans (List.append_nil _)
    · rw [box_at_of_boxes_eq hbx, box_at_modify_box_self _ _ hb1]
    · rw [box_at_modify_box_self _ _ hb3]
    · rw [box_at_modify_box_self _ _ hb3]

theorem box_object_fetch_witness :
    ∃ (params : object_params) (s2 s3 st' : content) (ic : Option Nat),
      box_object example_env (convert_children example_env example_object_params.children)
        example_object_params 1 example_object_content = some (st', false) ∧
      params.data = some "http://other/o".toList ∧
      params.params =
        ((leading_param_children example_object_params.children).map object_param_of).reverse ∧
      s2 = { (box_usemap example_object_params 1 example_object_content).modify_box 1 (fun x => { x with object_params := some params }) with object := example_object_content.object ++ [{ url := "http://other/o".toList, box := 1, permitted := permitted_types.any, available_width := example_object_content.available_width, available_height := 1000, background := false, frame := none }] } ∧
      (s2.box_at 1).object_params = some params ∧
      s2.object = example_object_content.object ++
        [{ url := "http://other/o".toList, box := 1, permitted := permitted_types.any,
           available_width := example_object_content.available_width, available_height := 1000,
           background := false, frame := none }] ∧
      convert_children example_env example_object_params.children 1 1 none none none none s2
        = some (s3, ic) ∧
      st' = s3.modify_box 1 (fun x => { x with fallback := x.children, children := [] }) ∧
      (st'.box_at 1).fallback = (s3.box_at 1).children ∧ (st'.box_at 1).children = [] :=
  box_object_fetch example_env _ example_object_params 1 example_object_content
    "http://other/o".toList 1 (conv_ok_convert_children _ _)
    (conv_total_convert_children _ (fun _ => rfl) (fun _ _ h => url_func_result.noConfusion h)
      (fun _ => rfl) _)
    (by decide) (by decide) (fun _ => rfl) (fun _ _ h => url_func_result.noConfusion h)
    (by decide) (by decide) (by decide) rfl

/-! ### Style resolution as a function of its inputs -/

theorem modify_style_new_style (st : content) (x : css_style) (f : css_style → css_style) :
    (st.new_style x).1.modify_style st.styles.length f = (st.new_style (f x)).1 := by
  simp only [content.modify_style, content.new_style, list_modify_append_length]

/-- The statements of `box_get_style`, which write the new style object in
place, compute the value of the function `box_get_style` of the base URL, the
value of the parent style and the node, and the call leaves the content as it
was but for the new style object. -/
theorem box_get_style_call_eq (E : Env) (p : Nat) (n : xmlNode) (st : content) :
    box_get_style_call E p n st =
      (box_get_style E st.base_url (st.style_at p) n).map (fun x => st.new_style x) := by
  unfold box_get_style_call box_get_style
  have hfst : ∀ x, st.new_style x = ((st.new_style x).1, st.styles.length) := fun _ => rfl
  rw [hfst]
  simp only [modify_style_new_style]
  have hb : ∀ x, (st.new_style x).1.base_url = st.base_url := fun _ => rfl
  rw [hb, style_at_new_style_self]
  cases box_get_style_background E st.base_url n
      (E.css_cascade (st.style_at p) (E.css_get_style n)) with
  | none => rfl
  | some x =>
    simp only [modify_style_new_style, Option.map_some']
    rfl

/-- C25: `box_get_style` is deterministic and leaves the parent style alone.
The call writes the new style in place, as an object of the content, and what
it computes depends on the base URL of the document, the value of the parent
style, the node and the collaborators (the environment) alone: two calls for
the same node, in contents that agree on the base URL and on the value of the
parent style and may differ in everything else (the boxes, the other styles,
the number of objects allocated, the fetches), either both fail or yield
identical computed styles. A call changes nothing in the content but for the
new style object: every style that exists, the parent style among them, stays
as it is. A second call after the first, with the same parent style and node,
yields a style identical to the first one and leaves the first one and the
parent style as they are. -/
theorem box_get_style_deterministic (E : Env) (n : xmlNode) (st1 st2 : content)
    (p1 p2 : Nat) (hbase : st1.base_url = st2.base_url)
    (hparent : st1.style_at p1 = st2.style_at p2) :
    (box_get_style_call E p1 n st1).map (fun r => r.1.style_at r.2) =
      (box_get_style_call E p2 n st2).map (fun r => r.1.style_at r.2) ∧
    ∀ (st' : content) (s : Nat), box_get_style_call E p1 n st1 = some (st', s) →
      s = st1.styles.length ∧
      st' = { st1 with styles := st1.styles ++ [st'.style_at s] } ∧
      (∀ i, i < st1.styles.length → st'.style_at i = st1.style_at i) ∧
      st'.boxes = st1.boxes ∧ st'.base_url = st1.base_url ∧
      (p1 < st1.styles.length →
        st'.style_at p1 = st1.style_at p1 ∧
        ∃ (st'' : content) (s2 : Nat), box_get_style_call E p1 n st' = some (st'', s2) ∧
          st''.style_at s2 = st'.style_at s ∧ st''.style_at s = st'.style_at s ∧
          st''.style_at p1 = st1.style_at p1) := by
  have hcall : ∀ (st : content) (p : Nat),
      (box_get_style_call E p n st).map (fun r => r.1.style_at r.2) =
        box_get_style E st.base_url (st.style_at p) n := by
    intro st p
    rw [box_get_style_call_eq]
    cases box_get_style E st.base_url (st.style_at p) n with
    | none => rfl
    | some sv =>
      simp only [Option.map_some', snd_new_style, style_at_new_style_self]
  refine ⟨?_, ?_⟩
  · rw [hcall, hcall, hbase, hparent]
  · intro st' s h
    rw [box_get_style_call_eq] at h
    cases hsv : box_get_style E st1.base_url (st1.style_at p1) n with
    | none => rw [hsv] at h; exact Option.noConfusion h
    | some sv =>
      rw [hsv] at h
      simp only [Option.map_some', Option.some.injEq] at h
      have h1 : st' = (st1.new_style sv).1 := (congrArg Prod.fst h).symm
      have h2 : s = st1.styles.length := (congrArg Prod.snd h).symm
      subst h1
      subst h2
      refine ⟨rfl, ?_, fun i hi => style_at_new_style st1 sv hi, rfl, rfl, fun hp => ?_⟩
      · rw [style_at_new_style_self]
        rfl
      have hp1 := style_at_new_style st1 sv hp
      refine ⟨hp1, ?_⟩
      rw [box_get_style_call_eq]
      have hb : (st1.new_style sv).1.base_url = st1.base_url := rfl
      rw [hb, hp1, hsv]
      have hlen : (st1.new_style sv).1.styles.length = st1.styles.length + 1 := by
        rw [styles_new_style, List.length_append, List.length_singleton]
      refine ⟨((st1.new_style sv).1.new_style sv).1, (st1.new_style sv).1.styles.length, rfl,
        ?_, ?_, ?_⟩
      · rw [style_at_new_style_self, style_at_new_style_self]
      · exact style_at_new_style _ sv (by omega)
      · rw [style_at_new_style _ sv (by omega)]
        exact hp1

theorem box_get_style_deterministic_witness :
    example_root.boxes ≠ example_object_content.boxes ∧
    (box_get_style_call example_env 0 example_p example_root).map (fun r => r.1.style_at r.2) =
      (box_get_style_call example_env 0 example_p example_object_content).map
        (fun r => r.1.style_at r.2) ∧
    ∃ (st' : content) (s : Nat), box_get_style_call example_env 0 example_p example_root
        = some (st', s) ∧
      st'.style_at 0 = example_root.style_at 0 ∧
      ∃ (st'' : content) (s2 : Nat), box_get_style_call example_env 0 example_p st'
          = some (st'', s2) ∧
        st''.style_at s2 = st'.style_at s ∧ st''.style_at s = st'.style_at s ∧
        st''.style_at 0 = example_root.style_at 0 :=
  ⟨by decide,
    (box_get_style_deterministic example_env example_p example_root example_object_content 0 0
      rfl (by decide)).1,
    _, _, rfl,
    ((box_get_style_deterministic example_env example_p example_root example_object_content 0 0
      rfl (by decide)).2 _ _ rfl).2.2.2.2.2 (by decide)⟩

/-! ### Column and row spans -/

theorem span_of_cases (s : cstr) :
    (0 ≤ (strtol s).1 → (strtol s).1 ≤ 100 → span_of s = (strtol s).1) ∧
    (100 < (strtol s).1 → (strtol s).1 < 4294967296 → span_of s = 1) ∧
    ((strtol s).1 < 0 → -2147483648 ≤ (strtol s).1 → span_of s = 1) ∧
    0 ≤ span_of s ∧ span_of s ≤ 100 := by
  unfold span_of unsigned_of_long MAX_SPAN
  generalize (strtol s).1 = v
  refine ⟨fun h1 h2 => ?_, fun h1 h2 => ?_, fun h1 h2 => ?_, ?_, ?_⟩ <;> split_ifs <;> omega

/-- The spans that `box_construct_element` stores wrap around at 2^32: the
row span of `<td colspan="-1" rowspan="4294967301">` is 5. -/
theorem box_construct_element_span_wraps :
    (strtol "4294967301".toList).1 = 4294967301 ∧
    (box_construct_element example_env example_td_wrapped 0 0 none none none none
        example_root).map (fun r => (r.1.box_at example_root.boxes.length).rows) = some 5 := by
  decide

/-- C30, the claim fails: in `<td colspan="-1" rowspan="4294967301">` the
integer parsed from the `colspan` attribute is -1, which does not exceed the
maximum span of 100, yet the column span of the box that `box_construct_element`
creates (box 1) is 1 and not -1: the span is an `unsigned int`, in which -1 is
stored as a value above 100. -/
theorem box_construct_element_span_negative :
    xmlGetProp example_td_wrapped "colspan".toList = some "-1".toList ∧
    (strtol "-1".toList).1 = -1 ∧
    (box_construct_element example_env example_td_wrapped 0 0 none none none none
        example_root).map (fun r => (r.1.box_at example_root.boxes.length).columns) = some 1 := by
  decide

/-- C30, as amended: when `box_construct_element` converts an element into a
box (the first box created), then for every `colspan` (respectively `rowspan`)
attribute value the column span (row span) of the box is afterwards the
integer parsed from the attribute when that integer is from 0 to 100, and 1
when the parsed integer exceeds 100 (and is below 2^32) or is negative (and
not below -2^31); for every attribute value the span is at least 0 and does
not exceed 100. -/
theorem box_construct_element_span_clamped (E : Env) (n : xmlNode)
    (parent_style parent : Nat) (inline_container : Option Nat) (href : Option cstr)
    (target : Option frame_target) (title : Option cstr) (c c2 c' : content)
    (inline_container' : Option Nat) (style : css_style) (l2 : element_locals)
    (hic : ∀ i, inline_container = some i → is_inline_container c.boxes i)
    (hstyle : box_get_style E c.base_url (c.style_at parent_style) n = some style)
    (hdisplay : style.display ≠ CSS_DISPLAY_NONE)
    (hspecial : box_construct_element_special E (convert_children E n.children) n
      (box_construct_element_box n style href target title c).2
      (box_construct_element_box n style href target title c).1 = some (c2, l2))
    (hdisplay2 : (c2.style_at l2.style).display ≠ CSS_DISPLAY_NONE)
    (h : box_construct_element E n parent_style parent inline_container href target title c
      = some (c', inline_container')) :
    (∀ s, xmlGetProp n "colspan".toList = some s →
      (0 ≤ (strtol s).1 → (strtol s).1 ≤ 100 →
        (c'.box_at c.boxes.length).columns = (strtol s).1) ∧
      (100 < (strtol s).1 → (strtol s).1 < 4294967296 →
        (c'.box_at c.boxes.length).columns = 1) ∧
      ((strtol s).1 < 0 → -2147483648 ≤ (strtol s).1 →
        (c'.box_at c.boxes.length).columns = 1) ∧
      0 ≤ (c'.box_at c.boxes.length).columns ∧ (c'.box_at c.boxes.length).columns ≤ 100) ∧
    (∀ s, xmlGetProp n "rowspan".toList = some s →
      (0 ≤ (strtol s).1 → (strtol s).1 ≤ 100 →
        (c'.box_at c.boxes.length).rows = (strtol s).1) ∧
      (100 < (strtol s).1 → (strtol s).1 < 4294967296 →
        (c'.box_at c.boxes.length).rows = 1) ∧
      ((strtol s).1 < 0 → -2147483648 ≤ (strtol s).1 →
        (c'.box_at c.boxes.length).rows = 1) ∧
      0 ≤ (c'.box_at c.boxes.length).rows ∧ (c'.box_at c.boxes.length).rows ≤ 100) := by
  have hconv := conv_ok_convert_children E n.children
  obtain ⟨hb, -, hlt, g12, x2, hx2, -, hx2e, -, -⟩ :=
    box_construct_element_special_box hconv hspecial
  obtain ⟨s3, hs3, hs4⟩ := box_construct_element_with_parts hstyle hdisplay hspecial hdisplay2 h
  have hv2 : valid_container inline_container c2 := fun i hi =>
    g12.is_inline_container_grows (hic i hi).lt_container (fun h => Option.noConfusion h) (hic i hi)
  rw [← hb] at hx2
  obtain ⟨g3, -, -⟩ := grows_box_construct_element_tree hconv hs3 x2 hx2 hx2e hv2
  have hlt3 : l2.box < s3.boxes.length := by
    have := g3.frame.len
    omega
  obtain ⟨h1, h2⟩ := box_construct_element_attributes_span hs4 hlt3
  rw [hb] at h1 h2
  refine ⟨fun s hs => ?_, fun s hs => ?_⟩
  · rw [h1 s hs]
    exact span_of_cases s
  · rw [h2 s hs]
    exact span_of_cases s

theorem box_construct_element_span_clamped_witness :
    ∃ (c' : content) (ic' : Option Nat),
      box_construct_element example_env example_td 0 0 none none none none example_root
        = some (c', ic') ∧
      (∀ s, xmlGetProp example_td "colspan".toList = some s →
        (0 ≤ (strtol s).1 → (strtol s).1 ≤ 100 →
          (c'.box_at example_root.boxes.length).columns = (strtol s).1) ∧
        (100 < (strtol s).1 → (strtol s).1 < 4294967296 →
          (c'.box_at example_root.boxes.length).columns = 1) ∧
        ((strtol s).1 < 0 → -2147483648 ≤ (strtol s).1 →
          (c'.box_at example_root.boxes.length).columns = 1) ∧
        0 ≤ (c'.box_at example_root.boxes.length).columns ∧
        (c'.box_at example_root.boxes.length).columns ≤ 100) ∧
      (∀ s, xmlGetProp example_td "rowspan".toList = some s →
        (0 ≤ (strtol s).1 → (strtol s).1 ≤ 100 →
          (c'.box_at example_root.boxes.length).rows = (strtol s).1) ∧
        (100 < (strtol s).1 → (strtol s).1 < 4294967296 →
          (c'.box_at example_root.boxes.length).rows = 1) ∧
        ((strtol s).1 < 0 → -2147483648 ≤ (strtol s).1 →
          (c'.box_at example_root.boxes.length).rows = 1) ∧
        0 ≤ (c'.box_at example_root.boxes.length).rows ∧
        (c'.box_at example_root.boxes.length).rows ≤ 100) :=
  ⟨_, _, rfl,
    box_construct_element_span_clamped example_env example_td 0 0 none none none none
      example_root _ _ _ _ _ (fun _ hi => Option.noConfusion hi)
      rfl (by decide) rfl (by decide) rfl⟩

end NetSurf
